import Mathlib

/-! Swapchain lifecycle and frame submission of `3Triangle-Texture/main.cpp`.

A shallow embedding of the two lambdas of `start()` that own the swapchain-scoped
state, `recreateSwapchain` (lines 485-594) and `render` (lines 598-632), together with
the free functions they call.

* The variables the lambdas capture by reference are the fields of `Vars`.
* Everything outside the program (the Vulkan driver and the presentation engine) is an
  `Env`: it answers the n-th value-returning API call.  `World` holds the position in
  that dialogue (`tick`), the supply of object handles, the global `selectedMode`, and
  the chronological `trace` of API calls, which plays the part of instrumentation.
* A C++ exception leaves the mutations made so far in place, so a computation returns
  its outcome together with the state reached.
-/

namespace VulkanExperiments

deriving instance DecidableEq for Except

/-! ## Constants and plain data -/

/-- Vulkan object handles; `VK_NULL_HANDLE` is `0`. -/
abbrev Handle := Nat

/-- Result codes of Vulkan entry points (`VkResult`). -/
abbrev VkResult := Int

def VK_NULL_HANDLE : Handle := 0
def VK_SUCCESS : VkResult := 0
def VK_SUBOPTIMAL_KHR : VkResult := 1000001003
def VK_ERROR_OUT_OF_DATE_KHR : VkResult := -1000001004

def UINT32_MAX : Nat := 4294967295

/-- Conversion to `uint32_t` (`static_cast<uint32_t>` and 32-bit unsigned arithmetic). -/
def toUInt32 (n : Nat) : Nat := n % 2 ^ 32

/-- Line 25. -/
def screenWidth : Nat := 640
/-- Line 26. -/
def screenHeight : Nat := 480

/-- Line 480. -/
def maxInflightSubmissions : Nat := 2

/-- Line 280. -/
def vertexBufferBinding : Nat := 0

/-- The value of `triangle.size()` (lines 283-287: three vertices). -/
def triangleSize : Nat := 3

def VK_FENCE_CREATE_SIGNALED_BIT : Nat := 1

def VK_COMPOSITE_ALPHA_OPAQUE_BIT_KHR : Nat := 1
def VK_COMPOSITE_ALPHA_PRE_MULTIPLIED_BIT_KHR : Nat := 2
def VK_COMPOSITE_ALPHA_POST_MULTIPLIED_BIT_KHR : Nat := 4
def VK_COMPOSITE_ALPHA_INHERIT_BIT_KHR : Nat := 8

def VK_PRESENT_MODE_FIFO_KHR : Nat := 2
/-- Line 65. -/
def presentMode : Nat := VK_PRESENT_MODE_FIFO_KHR

def VK_SHARING_MODE_EXCLUSIVE : Nat := 0
def VK_SHARING_MODE_CONCURRENT : Nat := 1

def VK_PIPELINE_STAGE_COLOR_ATTACHMENT_OUTPUT_BIT : Nat := 1024
def VK_PIPELINE_STAGE_BOTTOM_OF_PIPE_BIT : Nat := 8192

/-- A `VkClearValue` used as a colour: its four `float32` components, each the decimal
literal of the source written as numerator and denominator. -/
structure VkClearValue where
  float32 : List (Nat × Nat)
  deriving DecidableEq, Repr

/-- Line 69: `constexpr VkClearValue clearColor = {  { {0.1f, 0.1f, 0.1f, 1.0f} }  }`. -/
def clearColor : VkClearValue := { float32 := [(1, 10), (1, 10), (1, 10), (1, 1)] }

structure VkExtent2D where
  width : Nat
  height : Nat
  deriving DecidableEq, Repr

/-- The number of low bits of `n` that a 24-bit significand cannot hold; a `uint32_t` has at
most 8 of them. -/
def droppedBits : Nat → Nat → Nat
  | 0, _ => 0
  | fuel + 1, n => if n < 2 ^ 24 then 0 else droppedBits fuel (n / 2) + 1

/-- The value of `static_cast<float>( n )` for a `uint32_t` `n`: the nearest number with a
24-bit significand (IEEE 754 binary32), a tie going to the even significand. It is a whole
number and is given as such; up to 2^24 it is `n` itself. -/
def toFloat (n : Nat) : Nat :=
  let dropped := droppedBits 8 n
  let significand := n / 2 ^ dropped
  let rest := n % 2 ^ dropped
  if 2 * rest < 2 ^ dropped ∨ (2 * rest = 2 ^ dropped ∧ significand % 2 = 0) then
    significand * 2 ^ dropped
  else (significand + 1) * 2 ^ dropped

/-- The `width` and `height` of a `VkViewport`: the values of the two `float`s, which the
program makes from unsigned integers and which are whole numbers. -/
structure VkViewport where
  width : Nat
  height : Nat
  deriving DecidableEq, Repr

/-- The fields of `VkSurfaceCapabilitiesKHR` the program reads. -/
structure VkSurfaceCapabilitiesKHR where
  minImageCount : Nat
  maxImageCount : Nat
  currentExtent : VkExtent2D
  minImageExtent : VkExtent2D
  maxImageExtent : VkExtent2D
  currentTransform : Nat
  supportedCompositeAlpha : Nat
  deriving DecidableEq, Repr

structure VkSurfaceFormatKHR where
  format : Nat
  colorSpace : Nat
  deriving DecidableEq, Repr

/-- The fields of `VkPhysicalDeviceLimits` read by `initPipeline`. -/
structure VkPhysicalDeviceLimits where
  maxVertexInputBindings : Nat
  maxVertexInputBindingStride : Nat
  maxVertexInputAttributes : Nat
  maxVertexInputAttributeOffset : Nat
  deriving DecidableEq, Repr

/-- The fields of `VkSwapchainCreateInfoKHR` filled in by `initSwapchain` that vary. -/
structure VkSwapchainCreateInfoKHR where
  minImageCount : Nat
  imageFormat : Nat
  imageColorSpace : Nat
  imageExtent : VkExtent2D
  imageSharingMode : Nat
  queueFamilyIndices : List Nat
  preTransform : Nat
  compositeAlpha : Nat
  presentMode : Nat
  oldSwapchain : Handle
  deriving DecidableEq, Repr

/-- The Vulkan entry points that report a `VkResult` to this program; the name is what
`RESULT_HANDLER` receives as `source`. -/
inductive Api
  | vkGetPhysicalDeviceSurfaceCapabilitiesKHR
  | vkGetPhysicalDeviceSurfacePresentModesKHR
  | vkDeviceWaitIdle
  | vkResetCommandPool
  | vkCreateSwapchainKHR
  | vkGetSwapchainImagesKHR
  | vkCreateImageView
  | vkCreateFramebuffer
  | vkCreateGraphicsPipelines
  | vkAllocateCommandBuffers
  | vkBeginCommandBuffer
  | vkEndCommandBuffer
  | vkCreateSemaphore
  | vkCreateFence
  | vkWaitForFences
  | vkResetFences
  | vkAcquireNextImageKHR
  | vkQueueSubmit
  | vkQueuePresentKHR
  deriving DecidableEq, Repr

/-- The texts thrown as `const char*` or `std::string` by the embedded functions. -/
inductive Msg
  /-- Line 1727: "Unknown composite alpha reported." -/
  | unknownCompositeAlpha
  /-- Line 1700: "Bugged driver reports no supported present modes." -/
  | noPresentModes
  /-- Line 2005: "Implementation does not allow enough input bindings. Needed: ..." -/
  | inputBindingsNeeded
  /-- Line 2010: "Implementation does not allow big enough vertex buffer stride: ..." -/
  | vertexBufferStride
  /-- Line 2024: "Implementation does not allow enough input bindings." -/
  | inputBindings
  /-- Line 2031: "Implementation does not allow enough input attributes." -/
  | inputAttributes
  /-- Line 2034: "Implementation does not allow sufficient attribute offset." -/
  | attributeOffset
  deriving DecidableEq, Repr

/-- Ways in which a computation stops without returning. Only `vulkanResult` is caught by
`render`; the others leave every enclosing function. -/
inductive Exn
  /-- A `VulkanResultException` raised by `RESULT_HANDLER`. -/
  | vulkanResult (source : Api) (result : VkResult)
  /-- A thrown `const char*` or `std::string`. -/
  | text (msg : Msg)
  /-- The `assert( swapchain )` of line 599 failed. -/
  | assertion
  /-- A `std::vector` was indexed past its end (undefined behaviour in C++). -/
  | outOfRange
  /-- The recursion budget of the model is used up; the C++ program would still be running. -/
  | fuel
  deriving DecidableEq, Repr

/-- The instrumented functions whose entry is recorded in the trace. -/
inductive Fn
  | recreateSwapchain
  | render
  | cleanupUnsafeSemaphore
  deriving DecidableEq, Repr

/-- One entry of the trace: a Vulkan call with the arguments that matter, the result it
reported and what it wrote back, or the entry into an instrumented function. -/
inductive Event
  | enter (f : Fn)
  | vkGetPhysicalDeviceSurfaceCapabilitiesKHR (result : VkResult) (capabilities : VkSurfaceCapabilitiesKHR)
  | vkGetPhysicalDeviceSurfacePresentModesKHR (result : VkResult) (modes : List Nat)
  | vkDeviceWaitIdle (result : VkResult)
  | vkResetCommandPool (commandPool : Handle) (result : VkResult)
  | vkCreateSwapchainKHR (info : VkSwapchainCreateInfoKHR) (result : VkResult) (swapchain : Handle)
  | vkDestroySwapchainKHR (swapchain : Handle)
  | vkGetSwapchainImagesKHR (swapchain : Handle) (result : VkResult) (images : List Handle)
  | vkCreateImageView (image : Handle) (format : Nat) (result : VkResult) (imageView : Handle)
  | vkDestroyImageView (imageView : Handle)
  | vkCreateFramebuffer (renderPass : Handle) (imageView : Handle) (width height : Nat)
      (result : VkResult) (framebuffer : Handle)
  | vkDestroyFramebuffer (framebuffer : Handle)
  | vkCreateGraphicsPipelines (viewport : VkViewport) (scissor : VkExtent2D)
      (result : VkResult) (pipeline : Handle)
  | vkDestroyPipeline (pipeline : Handle)
  | vkAllocateCommandBuffers (commandPool : Handle) (count : Nat) (result : VkResult)
      (commandBuffers : List Handle)
  | vkFreeCommandBuffers (commandPool : Handle) (commandBuffers : List Handle)
  | vkBeginCommandBuffer (commandBuffer : Handle) (result : VkResult)
  | vkCmdBeginRenderPass (commandBuffer renderPass framebuffer : Handle)
      (clearValue : VkClearValue) (width height : Nat)
  | vkCmdBindPipeline (commandBuffer pipeline : Handle)
  | vkCmdBindVertexBuffers (commandBuffer : Handle) (binding : Nat) (buffer : Handle)
  | vkCmdBindDescriptorSets (commandBuffer layout descriptorSet : Handle)
  | vkCmdDraw (commandBuffer : Handle) (vertexCount instanceCount firstVertex firstInstance : Nat)
  | vkCmdEndRenderPass (commandBuffer : Handle)
  | vkEndCommandBuffer (commandBuffer : Handle) (result : VkResult)
  | vkCreateSemaphore (result : VkResult) (semaphore : Handle)
  | vkDestroySemaphore (semaphore : Handle)
  | vkCreateFence (flags : Nat) (result : VkResult) (fence : Handle)
  | vkDestroyFence (fence : Handle)
  | vkWaitForFences (fence : Handle) (result : VkResult)
  | vkResetFences (fence : Handle) (result : VkResult)
  | vkAcquireNextImageKHR (swapchain semaphore : Handle) (result : VkResult) (imageIndex : Nat)
  | vkQueueSubmit (queue : Handle) (waitSemaphores : List Handle) (waitStage : Nat)
      (commandBuffers : List Handle) (signalSemaphores : List Handle) (fence : Handle)
      (result : VkResult)
  | vkQueuePresentKHR (queue waitSemaphore swapchain : Handle) (imageIndex : Nat)
      (result : VkResult)
  deriving DecidableEq, Repr

/-! ## State -/

/-- What the driver and the presentation engine answer. Every value-returning call made
by the program consults the environment at the current `tick`. -/
structure Env where
  /-- The `VkResult` reported by the call. -/
  result : Nat → VkResult
  /-- The snapshot written by `vkGetPhysicalDeviceSurfaceCapabilitiesKHR`. -/
  capabilities : Nat → VkSurfaceCapabilitiesKHR
  /-- The list written by `vkGetPhysicalDeviceSurfacePresentModesKHR`. -/
  presentModes : Nat → List Nat
  /-- The number of images reported by `vkGetSwapchainImagesKHR`. -/
  imageCount : Nat → Nat
  /-- The index written by `vkAcquireNextImageKHR`. -/
  imageIndex : Nat → Nat

/-- The objects created once in `start()` before the lambdas are defined (lines 392-460);
they are constant afterwards. `vertexBufferStride` and `uvOffset` stand for
`sizeof( Vertex3D_UV )` and `offsetof( Vertex3D_UV, uv )`; the declaration of that type is
not among the sources. -/
structure Ctx where
  surfaceFormat : VkSurfaceFormatKHR
  renderPass : Handle
  pipelineLayout : Handle
  vertexBuffer : Handle
  descriptorSet : Handle
  commandPool : Handle
  graphicsQueue : Handle
  presentQueue : Handle
  graphicsQueueFamily : Nat
  presentQueueFamily : Nat
  limits : VkPhysicalDeviceLimits
  vertexBufferStride : Nat
  uvOffset : Nat

/-- The variables of `start()` captured by reference by `recreateSwapchain` and `render`
(lines 467-482). -/
structure Vars where
  swapchain : Handle
  swapchainImageViews : List Handle
  framebuffers : List Handle
  pipeline : Handle
  commandBuffers : List Handle
  imageReadySs : List Handle
  renderDoneSs : List Handle
  submissionNr : Nat
  submissionFences : List Handle
  deriving DecidableEq, Repr

/-- The part of the state the free functions act on. -/
structure World where
  /-- Number of value-returning API calls made so far. -/
  tick : Nat
  /-- The last handle handed out; a successful create call returns a non-null handle
  that was not handed out before. -/
  nextHandle : Nat
  /-- The global of line 1671. -/
  selectedMode : Int
  /-- The API calls made so far, oldest first. -/
  trace : List Event
  deriving DecidableEq, Repr

structure State where
  vars : Vars
  world : World
  deriving DecidableEq, Repr

/-- The state of lines 467-482, before the first `recreateSwapchain`. -/
def Vars.initial : Vars :=
  { swapchain := VK_NULL_HANDLE, swapchainImageViews := [], framebuffers := [],
    pipeline := VK_NULL_HANDLE, commandBuffers := [], imageReadySs := [], renderDoneSs := [],
    submissionNr := 0, submissionFences := [] }

def World.initial : World :=
  { tick := 0, nextHandle := 0, selectedMode := 0, trace := [] }

def State.initial : State := { vars := Vars.initial, world := World.initial }

/-! ## Computations -/

/-- A computation of a free function: it acts on the `World` only. -/
def W (α : Type) : Type := World → Except Exn α × World

/-- A computation of one of the lambdas: it also reads and writes the captured variables. -/
def M (α : Type) : Type := State → Except Exn α × State

def W.pure {α : Type} (a : α) : W α := fun w => (.ok a, w)

def W.bind {α β : Type} (m : W α) (f : α → W β) : W β := fun w =>
  match m w with
  | (.ok a, w1) => f a w1
  | (.error e, w1) => (.error e, w1)

instance : Monad W where
  pure := W.pure
  bind := W.bind

def M.pure {α : Type} (a : α) : M α := fun s => (.ok a, s)

def M.bind {α β : Type} (m : M α) (f : α → M β) : M β := fun s =>
  match m s with
  | (.ok a, s1) => f a s1
  | (.error e, s1) => (.error e, s1)

instance : Monad M where
  pure := M.pure
  bind := M.bind

/-- Raise an exception. -/
def W.raise {α : Type} (e : Exn) : W α := fun w => (.error e, w)

def M.raise {α : Type} (e : Exn) : M α := fun s => (.error e, s)

/-- Run a free function from inside a lambda. -/
def liftW {α : Type} (m : W α) : M α := fun s =>
  match m s.world with
  | (r, w1) => (r, { s with world := w1 })

def getVars : M Vars := fun s => (.ok s.vars, s)

def modifyVars (f : Vars → Vars) : M Unit := fun s => (.ok (), { s with vars := f s.vars })

/-- Append an entry to the trace. -/
def emit (e : Event) : W Unit := fun w => (.ok (), { w with trace := w.trace ++ [e] })

/-- A value-returning API call: the result comes from the environment at the current tick. -/
def report (env : Env) (mk : VkResult → Event) : W VkResult := fun w =>
  (.ok (env.result w.tick),
    { w with tick := w.tick + 1, trace := w.trace ++ [mk (env.result w.tick)] })

/-- A create call: as `report`, and the handle written back is a fresh non-null one. -/
def create (env : Env) (mk : VkResult → Handle → Event) : W (VkResult × Handle) := fun w =>
  (.ok (env.result w.tick, w.nextHandle + 1),
    { w with tick := w.tick + 1, nextHandle := w.nextHandle + 1,
             trace := w.trace ++ [mk (env.result w.tick) (w.nextHandle + 1)] })

/-- The handles `first + 1, ..., first + n`. -/
def freshHandles (first : Nat) : Nat → List Handle
  | 0 => []
  | n + 1 => (first + 1) :: freshHandles (first + 1) n

/-- Hand out `n` fresh non-null handles. -/
def allocate (n : Nat) : W (List Handle) := fun w =>
  (.ok (freshHandles w.nextHandle n), { w with nextHandle := w.nextHandle + n })

/-- The position in the dialogue with the environment. -/
def getTick : W Nat := fun w => (.ok w.tick, w)

/-- Modelled from the spec: the macro `RESULT_HANDLER` and the type `VulkanResultException`
are declared in `ErrorHandling.h`, which is not among the sources. Per the spec, any API
call returning non-success is wrapped with the failing operation's name and the API result
code and thrown. -/
def RESULT_HANDLER (errorCode : VkResult) (source : Api) : W Unit :=
  if errorCode ≠ VK_SUCCESS then W.raise (.vulkanResult source errorCode) else pure ()

/-- Element access `xs[i]` of a `std::vector`. -/
def index (xs : List Handle) (i : Nat) : M Handle :=
  match xs[i]? with
  | some x => pure x
  | none => M.raise .outOfRange

/-- The effect of `std::vector::resize( n )` on a vector of handles. -/
def resize (n : Nat) (xs : List Handle) : List Handle :=
  xs.take n ++ List.replicate (n - xs.length) VK_NULL_HANDLE

/-! ## Free functions -/

/-- Lines 1664-1669. -/
def getSurfaceCapabilities (env : Env) : W VkSurfaceCapabilitiesKHR := do
  let tick ← getTick
  let errorCode ← report env
    (fun r => .vkGetPhysicalDeviceSurfaceCapabilitiesKHR r (env.capabilities tick))
  RESULT_HANDLER errorCode .vkGetPhysicalDeviceSurfaceCapabilitiesKHR
  pure (env.capabilities tick)

/-- Modelled from the spec: `enumerate<VkPresentModeKHR>( physicalDevice, surface )` is
declared in `EnumerateScheme.h`, which is not among the sources. It is a capability query
of the surface provider; a failing query is raised like every other API failure. -/
def enumeratePresentModes (env : Env) : W (List Nat) := do
  let tick ← getTick
  let errorCode ← report env
    (fun r => .vkGetPhysicalDeviceSurfacePresentModesKHR r (env.presentModes tick))
  RESULT_HANDLER errorCode .vkGetPhysicalDeviceSurfacePresentModesKHR
  pure (env.presentModes tick)

/-- Modelled from the spec: `enumerate<VkImage>( device, swapchain )` is declared in
`EnumerateScheme.h`, which is not among the sources. It fetches the image array of the
swapchain; the count the API writes is a `uint32_t`. -/
def enumerateSwapchainImages (env : Env) (swapchain : Handle) : W (List Handle) := do
  let tick ← getTick
  let images ← allocate (toUInt32 (env.imageCount tick))
  let errorCode ← report env (fun r => .vkGetSwapchainImagesKHR swapchain r images)
  RESULT_HANDLER errorCode .vkGetSwapchainImagesKHR
  pure images

def setSelectedMode (mode : Int) : W Unit := fun w => (.ok (), { w with selectedMode := mode })

/-- Lines 1674-1709 (the messages written to `logger` are left out). -/
def getSurfacePresentMode (env : Env) : W Nat := do
  let modes ← enumeratePresentModes env
  match modes.find? (fun m => m == presentMode) with
  | some m => do
    setSelectedMode 0
    pure m
  | none =>
    match modes.find? (fun m => m == VK_PRESENT_MODE_FIFO_KHR) with
    | some m => do
      setSelectedMode 1
      pure m
    | none =>
      match modes with
      | [] => W.raise (.text .noPresentModes)
      | m :: _ => do
        setSelectedMode 2
        pure m

/-- Lines 1722-1727: the composite-alpha flag chosen from the supported ones. -/
def compositeAlphaFlag (supportedCompositeAlpha : Nat) : Option Nat :=
  if supportedCompositeAlpha &&& VK_COMPOSITE_ALPHA_OPAQUE_BIT_KHR ≠ 0 then
    some VK_COMPOSITE_ALPHA_OPAQUE_BIT_KHR
  else if supportedCompositeAlpha &&& VK_COMPOSITE_ALPHA_PRE_MULTIPLIED_BIT_KHR ≠ 0 then
    some VK_COMPOSITE_ALPHA_PRE_MULTIPLIED_BIT_KHR
  else if supportedCompositeAlpha &&& VK_COMPOSITE_ALPHA_POST_MULTIPLIED_BIT_KHR ≠ 0 then
    some VK_COMPOSITE_ALPHA_POST_MULTIPLIED_BIT_KHR
  else if supportedCompositeAlpha &&& VK_COMPOSITE_ALPHA_INHERIT_BIT_KHR ≠ 0 then
    some VK_COMPOSITE_ALPHA_INHERIT_BIT_KHR
  else none

/-- Lines 1730-1731. -/
def myMinImageCount (capabilities : VkSurfaceCapabilitiesKHR) : Nat :=
  if capabilities.maxImageCount ≠ 0 then
    min (toUInt32 (capabilities.minImageCount + 1)) capabilities.maxImageCount
  else toUInt32 (capabilities.minImageCount + 1)

/-- Lines 1733-1734. -/
def queueFamilies (ctx : Ctx) : List Nat :=
  if ctx.graphicsQueueFamily ≠ ctx.presentQueueFamily then
    [ctx.graphicsQueueFamily, ctx.presentQueueFamily]
  else [ctx.graphicsQueueFamily]

/-- Lines 1711-1762. -/
def initSwapchain (ctx : Ctx) (env : Env) (capabilities : VkSurfaceCapabilitiesKHR)
    (oldSwapchain : Handle) : W Handle :=
  match compositeAlphaFlag capabilities.supportedCompositeAlpha with
  | none => W.raise (.text .unknownCompositeAlpha)
  | some alpha => do
    let mode ← getSurfacePresentMode env
    let swapchainInfo : VkSwapchainCreateInfoKHR :=
      { minImageCount := myMinImageCount capabilities
        imageFormat := ctx.surfaceFormat.format
        imageColorSpace := ctx.surfaceFormat.colorSpace
        imageExtent := capabilities.currentExtent
        imageSharingMode :=
          if (queueFamilies ctx).length > 1 then VK_SHARING_MODE_CONCURRENT
          else VK_SHARING_MODE_EXCLUSIVE
        queueFamilyIndices := queueFamilies ctx
        preTransform := capabilities.currentTransform
        compositeAlpha := alpha
        presentMode := mode
        oldSwapchain := oldSwapchain }
    let created ← create env (fun r h => .vkCreateSwapchainKHR swapchainInfo r h)
    RESULT_HANDLER created.1 .vkCreateSwapchainKHR
    pure created.2

/-- Lines 1764-1766. -/
def killSwapchain (swapchain : Handle) : W Unit := emit (.vkDestroySwapchainKHR swapchain)

/-- Lines 1768-1780; the index the API writes is a `uint32_t`. -/
def getNextImageIndex (env : Env) (swapchain imageReadyS : Handle) : W Nat := do
  let tick ← getTick
  let errorCode ← report env
    (fun r => .vkAcquireNextImageKHR swapchain imageReadyS r (toUInt32 (env.imageIndex tick)))
  RESULT_HANDLER errorCode .vkAcquireNextImageKHR
  pure (toUInt32 (env.imageIndex tick))

/-- Lines 1597-1619. -/
def initImageView (env : Env) (image : Handle) (format : Nat) : W Handle := do
  let created ← create env (fun r h => .vkCreateImageView image format r h)
  RESULT_HANDLER created.1 .vkCreateImageView
  pure created.2

/-- The loop of lines 1785-1789, `imageViews` being the vector built so far. -/
def initSwapchainImageViewsLoop (env : Env) (format : Nat) :
    List Handle → List Handle → W (List Handle)
  | [], imageViews => pure imageViews
  | image :: images, imageViews => do
    let imageView ← initImageView env image format
    initSwapchainImageViewsLoop env format images (imageViews ++ [imageView])

/-- Lines 1782-1792. -/
def initSwapchainImageViews (env : Env) (images : List Handle) (format : Nat) :
    W (List Handle) :=
  initSwapchainImageViewsLoop env format images []

/-- One `vkDestroy...` call per element, in order. -/
def destroyEach (mk : Handle → Event) : List Handle → W Unit
  | [] => pure ()
  | h :: hs => do
    emit (mk h)
    destroyEach mk hs

/-- Lines 1794-1797; the value is the content of the vector afterwards. -/
def killSwapchainImageViews (imageViews : List Handle) : W (List Handle) := do
  destroyEach .vkDestroyImageView imageViews
  pure []

/-- The loop of lines 1885-1901, `framebuffers` being the vector built so far. -/
def initFramebuffersLoop (env : Env) (renderPass : Handle) (width height : Nat) :
    List Handle → List Handle → W (List Handle)
  | [], framebuffers => pure framebuffers
  | imageView :: imageViews, framebuffers => do
    let created ← create env
      (fun r h => .vkCreateFramebuffer renderPass imageView width height r h)
    RESULT_HANDLER created.1 .vkCreateFramebuffer
    initFramebuffersLoop env renderPass width height imageViews (framebuffers ++ [created.2])

/-- Lines 1877-1904. -/
def initFramebuffers (env : Env) (renderPass : Handle) (imageViews : List Handle)
    (width height : Nat) : W (List Handle) :=
  initFramebuffersLoop env renderPass width height imageViews []

/-- Lines 1906-1909; the value is the content of the vector afterwards. -/
def killFramebuffers (framebuffers : List Handle) : W (List Handle) := do
  destroyEach .vkDestroyFramebuffer framebuffers
  pure []

/-- Lines 1972-2180: the limit checks, the viewport and scissor, and the create call. -/
def initPipeline (ctx : Ctx) (env : Env) (vertexBufferBinding : Nat) (width height : Nat) :
    W Handle := do
  (if vertexBufferBinding > ctx.limits.maxVertexInputBindings then
    W.raise (.text .inputBindingsNeeded) else pure ())
  (if ctx.vertexBufferStride > ctx.limits.maxVertexInputBindingStride then
    W.raise (.text .vertexBufferStride) else pure ())
  (if 1 > ctx.limits.maxVertexInputBindings then
    W.raise (.text .inputBindings) else pure ())
  (if 1 ≥ ctx.limits.maxVertexInputAttributes then
    W.raise (.text .inputAttributes) else pure ())
  (if ctx.uvOffset > ctx.limits.maxVertexInputAttributeOffset then
    W.raise (.text .attributeOffset) else pure ())
  let viewport : VkViewport :=
    { width := toFloat (if width ≠ 0 then width else 1),
      height := toFloat (if height ≠ 0 then height else 1) }
  let scissor : VkExtent2D := { width := width, height := height }
  let created ← create env (fun r h => .vkCreateGraphicsPipelines viewport scissor r h)
  RESULT_HANDLER created.1 .vkCreateGraphicsPipelines
  pure created.2

/-- Lines 2182-2184. -/
def killPipeline (pipeline : Handle) : W Unit := emit (.vkDestroyPipeline pipeline)

/-- Lines 2193-2203. -/
def initSemaphore (env : Env) : W Handle := do
  let created ← create env (fun r h => .vkCreateSemaphore r h)
  RESULT_HANDLER created.1 .vkCreateSemaphore
  pure created.2

/-- The `std::generate_n` of line 2207, `semaphores` being the vector built so far. -/
def initSemaphoresLoop (env : Env) : Nat → List Handle → W (List Handle)
  | 0, semaphores => pure semaphores
  | count + 1, semaphores => do
    let semaphore ← initSemaphore env
    initSemaphoresLoop env count (semaphores ++ [semaphore])

/-- Lines 2205-2209. -/
def initSemaphores (env : Env) (count : Nat) : W (List Handle) :=
  initSemaphoresLoop env count []

/-- Lines 2215-2218 (with `killSemaphore`, lines 2211-2213); the value is the content of the
vector afterwards. -/
def killSemaphores (semaphores : List Handle) : W (List Handle) := do
  destroyEach .vkDestroySemaphore semaphores
  pure []

/-- Lines 2237-2247. -/
def initFence (env : Env) (flags : Nat) : W Handle := do
  let created ← create env (fun r h => .vkCreateFence flags r h)
  RESULT_HANDLER created.1 .vkCreateFence
  pure created.2

/-- The `std::generate_n` of line 2255, `fences` being the vector built so far. -/
def initFencesLoop (env : Env) (flags : Nat) : Nat → List Handle → W (List Handle)
  | 0, fences => pure fences
  | count + 1, fences => do
    let fence ← initFence env flags
    initFencesLoop env flags count (fences ++ [fence])

/-- Lines 2253-2257. -/
def initFences (env : Env) (count : Nat) (flags : Nat) : W (List Handle) :=
  initFencesLoop env flags count []

/-- Lines 2259-2262 (with `killFence`, lines 2249-2251); the value is the content of the
vector afterwards. -/
def killFences (fences : List Handle) : W (List Handle) := do
  destroyEach .vkDestroyFence fences
  pure []

/-- The call of line 2277: `count` handles are written back. -/
def allocateCommandBuffers (env : Env) (commandPool : Handle) (count : Nat) :
    W (VkResult × List Handle) := do
  let handles ← allocate count
  let errorCode ← report env (fun r => .vkAllocateCommandBuffers commandPool count r handles)
  pure (errorCode, handles)

/-- Lines 2264-2284. The vector is passed by reference, so the function acts on the
captured variable `commandBuffers`. -/
def acquireCommandBuffers (ctx : Ctx) (env : Env) (count : Nat) : M Unit := do
  let oldSize := toUInt32 (← getVars).commandBuffers.length
  (if count > oldSize then do
    modifyVars fun v => { v with commandBuffers := resize count v.commandBuffers }
    let allocated ← liftW (allocateCommandBuffers env ctx.commandPool (count - oldSize))
    modifyVars fun v => { v with commandBuffers := v.commandBuffers.take oldSize ++ allocated.2 }
    liftW (RESULT_HANDLER allocated.1 .vkAllocateCommandBuffers)
  else pure ())
  (if count < oldSize then do
    let commandBuffers := (← getVars).commandBuffers
    liftW (emit (.vkFreeCommandBuffers ctx.commandPool
      ((commandBuffers.drop count).take (oldSize - count))))
    modifyVars fun v => { v with commandBuffers := resize count v.commandBuffers }
  else pure ())

/-- Lines 2286-2296. -/
def beginCommandBuffer (env : Env) (commandBuffer : Handle) : W Unit := do
  let errorCode ← report env (fun r => .vkBeginCommandBuffer commandBuffer r)
  RESULT_HANDLER errorCode .vkBeginCommandBuffer

/-- Lines 2298-2300. -/
def endCommandBuffer (env : Env) (commandBuffer : Handle) : W Unit := do
  let errorCode ← report env (fun r => .vkEndCommandBuffer commandBuffer r)
  RESULT_HANDLER errorCode .vkEndCommandBuffer

/-- Lines 2303-2321. -/
def recordBeginRenderPass (commandBuffer renderPass framebuffer : Handle)
    (clearValue : VkClearValue) (width height : Nat) : W Unit :=
  emit (.vkCmdBeginRenderPass commandBuffer renderPass framebuffer clearValue width height)

/-- Lines 2323-2325. -/
def recordEndRenderPass (commandBuffer : Handle) : W Unit :=
  emit (.vkCmdEndRenderPass commandBuffer)

/-- Lines 2327-2329. -/
def recordBindPipeline (commandBuffer pipeline : Handle) : W Unit :=
  emit (.vkCmdBindPipeline commandBuffer pipeline)

/-- Lines 2331-2334. -/
def recordBindVertexBuffer (commandBuffer : Handle) (vertexBufferBinding : Nat)
    (vertexBuffer : Handle) : W Unit :=
  emit (.vkCmdBindVertexBuffers commandBuffer vertexBufferBinding vertexBuffer)

/-- Lines 2336-2338. -/
def recordDraw (commandBuffer : Handle) (vertexCount : Nat) : W Unit :=
  emit (.vkCmdDraw commandBuffer vertexCount 1 0 0)

/-- Lines 2340-2353. -/
def submitToQueue (env : Env) (queue commandBuffer imageReadyS renderDoneS fence : Handle) :
    W Unit := do
  let errorCode ← report env (fun r => .vkQueueSubmit queue [imageReadyS]
    VK_PIPELINE_STAGE_COLOR_ATTACHMENT_OUTPUT_BIT [commandBuffer] [renderDoneS] fence r)
  RESULT_HANDLER errorCode .vkQueueSubmit

/-- Lines 2355-2365. -/
def present (env : Env) (queue swapchain : Handle) (swapchainImageIndex : Nat)
    (renderDoneS : Handle) : W Unit := do
  let errorCode ← report env
    (fun r => .vkQueuePresentKHR queue renderDoneS swapchain swapchainImageIndex r)
  RESULT_HANDLER errorCode .vkQueuePresentKHR

/-- Lines 2369-2382: a submission without command buffers that only waits on the
semaphore. -/
def cleanupUnsafeSemaphore (env : Env) (queue semaphore : Handle) : W Unit := do
  emit (.enter .cleanupUnsafeSemaphore)
  let errorCode ← report env (fun r => .vkQueueSubmit queue [semaphore]
    VK_PIPELINE_STAGE_BOTTOM_OF_PIPE_BIT [] [] VK_NULL_HANDLE r)
  RESULT_HANDLER errorCode .vkQueueSubmit

/-! ## The lambdas of `start()` -/

/-- Lines 494-497: the undefined-size sentinel is replaced by the window size. -/
def substituteExtent (capabilities : VkSurfaceCapabilitiesKHR) : VkSurfaceCapabilitiesKHR :=
  if capabilities.currentExtent.width = UINT32_MAX ∧ capabilities.currentExtent.height = UINT32_MAX
  then { capabilities with currentExtent := { width := screenWidth, height := screenHeight } }
  else capabilities

/-- Lines 500-507. -/
def swapchainCreatable (capabilities : VkSurfaceCapabilitiesKHR) (surfaceSize : VkExtent2D) :
    Bool :=
  decide (surfaceSize.width ≥ capabilities.minImageExtent.width)
  && decide (surfaceSize.width ≤ capabilities.maxImageExtent.width)
  && decide (surfaceSize.width > 0)
  && decide (surfaceSize.height ≥ capabilities.minImageExtent.height)
  && decide (surfaceSize.height ≤ capabilities.maxImageExtent.height)
  && decide (surfaceSize.height > 0)

/-- Lines 513-527: the body of the first `if( oldSwapchain )`. -/
def cleanupOld (ctx : Ctx) (env : Env) : M Unit := do
  let errorCode ← liftW (report env .vkDeviceWaitIdle)
  liftW (RESULT_HANDLER errorCode .vkDeviceWaitIdle)
  let fences ← liftW (killFences (← getVars).submissionFences)
  modifyVars fun v => { v with submissionFences := fences }
  let semaphores ← liftW (killSemaphores (← getVars).renderDoneSs)
  modifyVars fun v => { v with renderDoneSs := semaphores }
  let errorCode ← liftW (report env (.vkResetCommandPool ctx.commandPool))
  liftW (RESULT_HANDLER errorCode .vkResetCommandPool)
  liftW (killPipeline (← getVars).pipeline)
  let framebuffers ← liftW (killFramebuffers (← getVars).framebuffers)
  modifyVars fun v => { v with framebuffers := framebuffers }
  let imageViews ← liftW (killSwapchainImageViews (← getVars).swapchainImageViews)
  modifyVars fun v => { v with swapchainImageViews := imageViews }

/-- Lines 554-574: the body of the recording loop for image `i`. -/
def recordCommandBuffer (ctx : Ctx) (env : Env) (surfaceSize : VkExtent2D) (i : Nat) :
    M Unit := do
  liftW (beginCommandBuffer env (← index (← getVars).commandBuffers i))
  liftW (recordBeginRenderPass (← index (← getVars).commandBuffers i) ctx.renderPass
    (← index (← getVars).framebuffers i) clearColor surfaceSize.width surfaceSize.height)
  liftW (recordBindPipeline (← index (← getVars).commandBuffers i) (← getVars).pipeline)
  liftW (recordBindVertexBuffer (← index (← getVars).commandBuffers i) vertexBufferBinding
    ctx.vertexBuffer)
  liftW (emit (.vkCmdBindDescriptorSets (← index (← getVars).commandBuffers i)
    ctx.pipelineLayout ctx.descriptorSet))
  liftW (recordDraw (← index (← getVars).commandBuffers i) (toUInt32 triangleSize))
  liftW (recordEndRenderPass (← index (← getVars).commandBuffers i))
  liftW (endCommandBuffer env (← index (← getVars).commandBuffers i))

/-- The loop of line 553: `remaining` iterations are left, the next one is for image `i`. -/
def recordCommandBuffers (ctx : Ctx) (env : Env) (surfaceSize : VkExtent2D) :
    Nat → Nat → M Unit
  | 0, _ => pure ()
  | remaining + 1, i => do
    recordCommandBuffer ctx env surfaceSize i
    recordCommandBuffers ctx env surfaceSize remaining (i + 1)

/-- Lines 535-582: the body of `if( swapchainCreatable )`. -/
def createNew (ctx : Ctx) (env : Env) (capabilities : VkSurfaceCapabilitiesKHR)
    (surfaceSize : VkExtent2D) (oldSwapchain : Handle) : M Unit := do
  let swapchain ← liftW (initSwapchain ctx env capabilities oldSwapchain)
  modifyVars fun v => { v with swapchain := swapchain }
  let swapchainImages ← liftW (enumerateSwapchainImages env (← getVars).swapchain)
  let imageViews ← liftW (initSwapchainImageViews env swapchainImages ctx.surfaceFormat.format)
  modifyVars fun v => { v with swapchainImageViews := imageViews }
  let framebuffers ← liftW (initFramebuffers env ctx.renderPass (← getVars).swapchainImageViews
    surfaceSize.width surfaceSize.height)
  modifyVars fun v => { v with framebuffers := framebuffers }
  let pipeline ← liftW (initPipeline ctx env vertexBufferBinding surfaceSize.width
    surfaceSize.height)
  modifyVars fun v => { v with pipeline := pipeline }
  acquireCommandBuffers ctx env (toUInt32 swapchainImages.length)
  recordCommandBuffers ctx env surfaceSize swapchainImages.length 0
  let semaphores ← liftW (initSemaphores env maxInflightSubmissions)
  modifyVars fun v => { v with imageReadySs := semaphores }
  let semaphores ← liftW (initSemaphores env swapchainImages.length)
  modifyVars fun v => { v with renderDoneSs := semaphores }
  let fences ← liftW (initFences env maxInflightSubmissions VK_FENCE_CREATE_SIGNALED_BIT)
  modifyVars fun v => { v with submissionFences := fences }
  modifyVars fun v => { v with submissionNr := 0 }

/-- Lines 586-590: the body of the second `if( oldSwapchain )`. -/
def killOld (oldSwapchain : Handle) (oldImageReadySs : List Handle) : M Unit := do
  liftW (killSwapchain oldSwapchain)
  let _ ← liftW (killSemaphores oldImageReadySs)

/-- Lines 485-594. -/
def recreateSwapchain (ctx : Ctx) (env : Env) : M Bool := do
  liftW (emit (.enter .recreateSwapchain))
  let oldSwapchain := (← getVars).swapchain
  modifyVars fun v => { v with swapchain := VK_NULL_HANDLE }
  let capabilities := substituteExtent (← liftW (getSurfaceCapabilities env))
  let surfaceSize : VkExtent2D :=
    { width := capabilities.currentExtent.width, height := capabilities.currentExtent.height }
  let creatable := swapchainCreatable capabilities surfaceSize
  let oldImageReadySs := (← getVars).imageReadySs
  modifyVars fun v => { v with imageReadySs := [] }
  (if oldSwapchain ≠ VK_NULL_HANDLE then cleanupOld ctx env else pure ())
  (if creatable = true then createNew ctx env capabilities surfaceSize oldSwapchain
   else pure ())
  (if oldSwapchain ≠ VK_NULL_HANDLE then killOld oldSwapchain oldImageReadySs else pure ())
  pure (decide ((← getVars).swapchain ≠ VK_NULL_HANDLE))

/-- Lines 607-608. -/
def renderWaitReset (env : Env) : M Unit := do
  let fence ← index (← getVars).submissionFences (← getVars).submissionNr
  let errorCode ← liftW (report env (.vkWaitForFences fence))
  liftW (RESULT_HANDLER errorCode .vkWaitForFences)
  let fence ← index (← getVars).submissionFences (← getVars).submissionNr
  let errorCode ← liftW (report env (.vkResetFences fence))
  liftW (RESULT_HANDLER errorCode .vkResetFences)

/-- Line 611. -/
def renderAcquire (env : Env) : M Nat := do
  let imageReadyS ← index (← getVars).imageReadySs (← getVars).submissionNr
  liftW (getNextImageIndex env (← getVars).swapchain imageReadyS)

/-- Lines 614-617. -/
def renderSubmitPresent (ctx : Ctx) (env : Env) (nextSwapchainImageIndex : Nat) : M Unit := do
  let commandBuffer ← index (← getVars).commandBuffers nextSwapchainImageIndex
  let imageReadyS ← index (← getVars).imageReadySs (← getVars).submissionNr
  let renderDoneS ← index (← getVars).renderDoneSs nextSwapchainImageIndex
  let fence ← index (← getVars).submissionFences (← getVars).submissionNr
  liftW (submitToQueue env ctx.graphicsQueue commandBuffer imageReadyS renderDoneS fence)
  let renderDoneS ← index (← getVars).renderDoneSs nextSwapchainImageIndex
  liftW (present env ctx.presentQueue (← getVars).swapchain nextSwapchainImageIndex renderDoneS)
  modifyVars fun v =>
    { v with submissionNr := toUInt32 (v.submissionNr + 1) % maxInflightSubmissions }

/-- Lines 602-618: the body of the `try` block. The first component is the value of the
local `unsafeSemaphore` when the block is left. -/
def renderTry (ctx : Ctx) (env : Env) (s : State) : Bool × (Except Exn Unit × State) :=
  match renderWaitReset env s with
  | (.error e, s1) => (false, (.error e, s1))
  | (.ok _, s1) =>
    match renderAcquire env s1 with
    | (.error e, s2) => (true, (.error e, s2))
    | (.ok nextSwapchainImageIndex, s2) =>
      (false, renderSubmitPresent ctx env nextSwapchainImageIndex s2)

/-- Lines 620-630: the handler of `catch( VulkanResultException ex )`; `again` is the
recursive call of line 628. -/
def renderCatch (ctx : Ctx) (env : Env) (again : M Unit) (unsafeSemaphore : Bool)
    (source : Api) (result : VkResult) : M Unit :=
  if result = VK_SUBOPTIMAL_KHR ∨ result = VK_ERROR_OUT_OF_DATE_KHR then do
    (if unsafeSemaphore = true ∧ result = VK_SUBOPTIMAL_KHR then do
      liftW (cleanupUnsafeSemaphore env ctx.graphicsQueue
        (← index (← getVars).imageReadySs (← getVars).submissionNr))
    else pure ())
    let _ ← recreateSwapchain ctx env
    again
  else M.raise (.vulkanResult source result)

/-- Lines 598-632. Each invocation takes one unit of the recursion budget. -/
def render (ctx : Ctx) (env : Env) : Nat → M Unit
  | 0 => M.raise .fuel
  | fuel + 1 => fun s0 =>
    match liftW (emit (.enter .render)) s0 with
    | (_, s) =>
      if s.vars.swapchain = VK_NULL_HANDLE then (.error .assertion, s)
      else
        match renderTry ctx env s with
        | (_, (.ok _, s1)) => (.ok (), s1)
        | (unsafeSemaphore, (.error (.vulkanResult source result), s1)) =>
          renderCatch ctx env (render ctx env fuel) unsafeSemaphore source result s1
        | (_, (.error e, s1)) => (.error e, s1)

/-- Lines 648-671: the teardown of the swapchain-scoped objects at the end of `start()`.
The objects destroyed after them (command pool, buffers, pipeline layout, ...) are those
of `Ctx`. -/
def teardown (env : Env) : M Unit := do
  let errorCode ← liftW (report env .vkDeviceWaitIdle)
  liftW (RESULT_HANDLER errorCode .vkDeviceWaitIdle)
  let semaphores ← liftW (killSemaphores (← getVars).renderDoneSs)
  modifyVars fun v => { v with renderDoneSs := semaphores }
  liftW (killPipeline (← getVars).pipeline)
  let framebuffers ← liftW (killFramebuffers (← getVars).framebuffers)
  modifyVars fun v => { v with framebuffers := framebuffers }
  let imageViews ← liftW (killSwapchainImageViews (← getVars).swapchainImageViews)
  modifyVars fun v => { v with swapchainImageViews := imageViews }
  liftW (killSwapchain (← getVars).swapchain)
  let semaphores ← liftW (killSemaphores (← getVars).imageReadySs)
  modifyVars fun v => { v with imageReadySs := semaphores }
  let fences ← liftW (killFences (← getVars).submissionFences)
  modifyVars fun v => { v with submissionFences := fences }

/-! ## Functions of the start-up part of `start()`

The functions below are pure apart from the queries they put to the driver; the answers of
the driver are passed to them as arguments. -/

def VK_QUEUE_GRAPHICS_BIT : Nat := 1
/-- The value `~0U`. -/
def VK_QUEUE_FAMILY_IGNORED : Nat := 4294967295
def VK_TRUE : Nat := 1

def VK_FORMAT_UNDEFINED : Nat := 0
def VK_FORMAT_B8G8R8A8_UNORM : Nat := 44
def VK_FORMAT_B8G8R8A8_SRGB : Nat := 50

def VK_MEMORY_PROPERTY_DEVICE_LOCAL_BIT : Nat := 1
def VK_MEMORY_PROPERTY_HOST_VISIBLE_BIT : Nat := 2
def VK_MEMORY_PROPERTY_HOST_COHERENT_BIT : Nat := 4

/-- Line 72. -/
def forceSeparatePresentQueue : Bool := false

/-- The macro of `<cstdlib>`; it is 1 on the platforms the program is built for. -/
def EXIT_FAILURE : Int := 1

/-- The Vulkan entry points of the start-up functions embedded here that report a
`VkResult`. -/
inductive SetupApi
  | vkGetPhysicalDeviceSurfaceSupportKHR
  | vkAllocateMemory
  | vkBindBufferMemory
  | vkBindImageMemory
  deriving DecidableEq, Repr

/-- The texts thrown as `const char*` by the start-up functions embedded here. -/
inductive SetupMsg
  /-- Line 1380: "Cannot find a graphics queue family!" -/
  | noGraphicsQueueFamily
  /-- Line 1381: "Cannot find a presentation queue family!" -/
  | noPresentQueueFamily
  /-- Line 1510: "Can't find compatible mappable memory for the resource" -/
  | noCompatibleMemory
  /-- Line 1641: "No surface formats offered by Vulkan!" -/
  | noSurfaceFormats
  deriving DecidableEq, Repr

/-- A C++ exception in flight, by the type a handler can catch it with. -/
inductive Thrown
  /-- A `VulkanResultException`. -/
  | vulkanResult (source : Api ⊕ SetupApi) (result : VkResult)
  /-- A `const char*`. -/
  | chars (text : Msg ⊕ SetupMsg)
  /-- A `std::string`. -/
  | string (text : Msg ⊕ SetupMsg)
  /-- A `std::exception` or a class derived from it, such as the `std::runtime_error` of
  lines 273 and 314. -/
  | exception
  /-- An object of any other type. -/
  | other
  deriving DecidableEq, Repr

/-- The field of `VkQueueFamilyProperties` the program reads. -/
structure VkQueueFamilyProperties where
  queueFlags : Nat
  deriving DecidableEq, Repr

/-- Lines 1260-1265; `support queueFamily` is the result of
`vkGetPhysicalDeviceSurfaceSupportKHR` for the family and the `VkBool32` it writes. -/
def isPresentationSupported (support : Nat → VkResult × Nat) (queueFamily : Nat) :
    Except Thrown Bool :=
  if (support queueFamily).1 ≠ VK_SUCCESS then
    .error (.vulkanResult (.inr .vkGetPhysicalDeviceSurfaceSupportKHR) (support queueFamily).1)
  else .ok (decide ((support queueFamily).2 = VK_TRUE))

/-- The loop of line 1347 from family `qf` on, `rest` being the families not yet visited. -/
def findQueueFamilyFrom (predicate : VkQueueFamilyProperties → Nat → Except Thrown Bool) :
    List VkQueueFamilyProperties → Nat → Except Thrown Nat
  | [], _ => .ok VK_QUEUE_FAMILY_IGNORED
  | props :: rest, qf =>
    match predicate props qf with
    | .error e => .error e
    | .ok true => .ok qf
    | .ok false => findQueueFamilyFrom predicate rest (qf + 1)

/-- Lines 1346-1349. -/
def findQueueFamilyThat (qfps : List VkQueueFamilyProperties)
    (predicate : VkQueueFamilyProperties → Nat → Except Thrown Bool) : Except Thrown Nat :=
  findQueueFamilyFrom predicate qfps 0

/-- Lines 1351-1353. -/
def isGraphics (props : VkQueueFamilyProperties) : Bool :=
  decide (props.queueFlags &&& VK_QUEUE_GRAPHICS_BIT ≠ 0)

/-- Lines 1343-1383; `qfps` is what `getQueueFamilyProperties` returns. -/
def getQueueFamilies (qfps : List VkQueueFamilyProperties) (support : Nat → VkResult × Nat) :
    Except Thrown (Nat × Nat) := do
  let notFound := VK_QUEUE_FAMILY_IGNORED
  let isPresent := fun (_ : VkQueueFamilyProperties) (queueFamily : Nat) =>
    isPresentationSupported support queueFamily
  let isFusedGraphicsAndPresent := fun (props : VkQueueFamilyProperties) (queueFamily : Nat) =>
    if isGraphics props = true then isPresent props queueFamily else .ok false
  let families ←
    if forceSeparatePresentQueue = true then do
      let graphicsQueueFamily ← findQueueFamilyThat qfps (fun props _ => .ok (isGraphics props))
      let isSeparatePresent := fun (props : VkQueueFamilyProperties) (queueFamily : Nat) =>
        if queueFamily ≠ graphicsQueueFamily then isPresent props queueFamily else .ok false
      let presentQueueFamily ← findQueueFamilyThat qfps isSeparatePresent
      pure (graphicsQueueFamily, presentQueueFamily)
    else do
      let fused ← findQueueFamilyThat qfps isFusedGraphicsAndPresent
      if fused = notFound ∨ fused = notFound then do
        let graphicsQueueFamily ←
          findQueueFamilyThat qfps (fun props _ => .ok (isGraphics props))
        let presentQueueFamily ← findQueueFamilyThat qfps isPresent
        pure (graphicsQueueFamily, presentQueueFamily)
      else pure (fused, fused)
  if families.1 = notFound then throw (.chars (.inr .noGraphicsQueueFamily))
  if families.2 = notFound then throw (.chars (.inr .noPresentQueueFamily))
  pure families

/-- The fields of `VkMemoryRequirements` the program reads. -/
structure VkMemoryRequirements where
  size : Nat
  memoryTypeBits : Nat
  deriving DecidableEq, Repr

/-- The fields of `VkMemoryAllocateInfo` that vary. -/
structure VkMemoryAllocateInfo where
  allocationSize : Nat
  memoryTypeIndex : Nat
  deriving DecidableEq, Repr

/-- The template parameter of `initMemory`. -/
inductive ResourceType
  | Buffer
  | Image
  deriving DecidableEq, Repr

/-- What the driver answers to the calls of `initMemory`: the requirements written by
`vkGetBufferMemoryRequirements` or `vkGetImageMemoryRequirements`, the result and handle of
`vkAllocateMemory`, and the result of `vkBindBufferMemory` or `vkBindImageMemory`. -/
structure MemoryDriver where
  requirements : VkMemoryRequirements
  allocate : VkMemoryAllocateInfo → VkResult × Handle
  bind : Handle → VkResult

/-- Line 1496: `0x1 << index`, as the `uint32_t` it becomes in the `&` of line 1503. -/
def indexToBit (index : Nat) : Nat := toUInt32 (1 <<< index)

/-- The inner loop of lines 1502-1508 from index `i` on, with `remaining` indices below
`maxMemoryTypeCount` left; `propertyFlags i` is `memoryTypes[i].propertyFlags`. -/
def memoryTypeScan (memoryTypeBits : Nat) (propertyFlags : Nat → Nat)
    (desiredMemoryType : Nat) : Nat → Nat → Nat → Nat
  | 0, _, memoryType => memoryType
  | remaining + 1, i, memoryType =>
    if memoryType = UINT32_MAX then
      memoryTypeScan memoryTypeBits propertyFlags desiredMemoryType remaining (i + 1)
        (if memoryTypeBits &&& indexToBit i ≠ 0 then
          if propertyFlags i &&& desiredMemoryType = desiredMemoryType then i else memoryType
        else memoryType)
    else memoryType

/-- Lines 1498-1508: the value of `memoryType` after the two loops. -/
def selectMemoryType (memoryTypeBits : Nat) (propertyFlags : Nat → Nat)
    (memoryTypePriority : List Nat) : Nat :=
  memoryTypePriority.foldl
    (fun memoryType desiredMemoryType =>
      memoryTypeScan memoryTypeBits propertyFlags desiredMemoryType 32 0 memoryType)
    UINT32_MAX

/-- Lines 1478-1485: the API call of `bindMemory` for the resource type. -/
def bindMemorySource : ResourceType → SetupApi
  | .Buffer => .vkBindBufferMemory
  | .Image => .vkBindImageMemory

/-- Lines 1487-1526. -/
def initMemory (driver : MemoryDriver) (resourceType : ResourceType)
    (propertyFlags : Nat → Nat) (memoryTypePriority : List Nat) : Except Thrown Handle := do
  let memoryRequirements := driver.requirements
  let memoryType :=
    selectMemoryType memoryRequirements.memoryTypeBits propertyFlags memoryTypePriority
  if memoryType = UINT32_MAX then throw (.chars (.inr .noCompatibleMemory))
  let memoryInfo : VkMemoryAllocateInfo :=
    { allocationSize := memoryRequirements.size, memoryTypeIndex := memoryType }
  let allocated := driver.allocate memoryInfo
  if allocated.1 ≠ VK_SUCCESS then
    throw (.vulkanResult (.inr .vkAllocateMemory) allocated.1)
  let errorCode := driver.bind allocated.2
  if errorCode ≠ VK_SUCCESS then
    throw (.vulkanResult (.inr (bindMemorySource resourceType)) errorCode)
  pure allocated.2

/-- The loop of lines 1650-1659 over the formats not yet visited. -/
def chooseSurfaceFormat :
    List VkSurfaceFormatKHR → VkSurfaceFormatKHR → VkSurfaceFormatKHR →
      VkSurfaceFormatKHR × VkSurfaceFormatKHR
  | [], chosenFormat1, chosenFormat2 => (chosenFormat1, chosenFormat2)
  | f :: formats, chosenFormat1, chosenFormat2 =>
    if f.format = VK_FORMAT_B8G8R8A8_UNORM then (f, chosenFormat2)
    else chooseSurfaceFormat formats chosenFormat1
      (if f.format = VK_FORMAT_B8G8R8A8_SRGB then f else chosenFormat2)

/-- Lines 1643-1645: a lone entry with an undefined format stands for any format. -/
def rewriteUndefined (formats : List VkSurfaceFormatKHR) : List VkSurfaceFormatKHR :=
  match formats with
  | [f] => if f.format = VK_FORMAT_UNDEFINED then [{ f with format := VK_FORMAT_B8G8R8A8_UNORM }]
    else formats
  | _ => formats

/-- Lines 1633-1662; `enumerated` is what `enumerate<VkSurfaceFormatKHR>` returns. -/
def getSurfaceFormat (enumerated : List VkSurfaceFormatKHR) :
    Except Thrown VkSurfaceFormatKHR :=
  match enumerated with
  | [] => .error (.chars (.inr .noSurfaceFormats))
  | first :: others =>
    let formats := rewriteUndefined (first :: others)
    let undefined : VkSurfaceFormatKHR := { format := VK_FORMAT_UNDEFINED, colorSpace := 0 }
    let chosen := chooseSurfaceFormat formats undefined undefined
    if chosen.1.format ≠ 0 then .ok chosen.1
    else if chosen.2.format ≠ 0 then .ok chosen.2
    else
      match formats with
      | f :: _ => .ok f
      | [] => .ok first

/-! ## The function `start()` -/

/-- How a call of a function ends. -/
inductive Outcome
  /-- It returns the given value. -/
  | returned (code : Int)
  /-- An exception leaves it. -/
  | propagated (thrown : Thrown)
  /-- The process is ended by `abort()`, as by a failed `assert`. -/
  | aborted
  /-- The behaviour is undefined. -/
  | undefined
  /-- The function is still running when the recursion budget of the model is used up. -/
  | running
  deriving DecidableEq, Repr

/-- The C++ exception a way of stopping stands for: the texts of lines 2005 and 2010 are
`std::string`s, the others `const char*`. -/
def Exn.thrown : Exn → Option Thrown
  | .vulkanResult source result => some (.vulkanResult (.inl source) result)
  | .text .inputBindingsNeeded => some (.string (.inl .inputBindingsNeeded))
  | .text .vertexBufferStride => some (.string (.inl .vertexBufferStride))
  | .text msg => some (.chars (.inl msg))
  | .assertion => none
  | .outOfRange => none
  | .fuel => none

/-- The event loop of lines 636-643; `frames` is the number of iterations made before the
quit event is seen. -/
def eventLoop (ctx : Ctx) (env : Env) (fuel : Nat) : Nat → M Unit
  | 0 => pure ()
  | frames + 1 => do
    render ctx env fuel
    eventLoop ctx env fuel frames

/-- Lines 634-688: the first `recreateSwapchain`, the event loop and the teardown. The
`kill` functions called after the teardown of the swapchain-scoped objects only call
`vkDestroy...` functions, which report nothing. -/
def startLifecycle (ctx : Ctx) (env : Env) (fuel frames : Nat) : M Unit := do
  let _ ← recreateSwapchain ctx env
  eventLoop ctx env fuel frames
  teardown env

/-- The handlers of the function-try-block of `start()` (lines 695-717), tried in order. -/
def startHandlers : Thrown → Outcome
  | .vulkanResult _ _ => .returned EXIT_FAILURE
  | .chars _ => .returned EXIT_FAILURE
  | .string _ => .returned EXIT_FAILURE
  | .exception => .returned EXIT_FAILURE
  | .other => .returned EXIT_FAILURE

/-- How the body of `start()` (lines 280-692) ends. `setup` is how the start-up part (lines
280-466) ends: with an exception or with the objects of `Ctx` created. -/
def startBody (setup : Except Thrown Ctx) (env : Env) (fuel frames : Nat) : Outcome :=
  match setup with
  | .error thrown => .propagated thrown
  | .ok ctx =>
    match (startLifecycle ctx env fuel frames State.initial).1 with
    | .ok _ => .returned 0
    | .error .assertion => .aborted
    | .error .outOfRange => .undefined
    | .error .fuel => .running
    | .error e =>
      match e.thrown with
      | some thrown => .propagated thrown
      | none => .undefined

/-- Lines 279-717: the body inside its function-try-block. -/
def start (setup : Except Thrown Ctx) (env : Env) (fuel frames : Nat) : Outcome :=
  match startBody setup env fuel frames with
  | .propagated thrown => startHandlers thrown
  | outcome => outcome

/-- Lines 725-727. -/
def main (setup : Except Thrown Ctx) (env : Env) (fuel frames : Nat) : Outcome :=
  start setup env fuel frames

/-! ## Vocabulary of the statements -/

/-- The world after `n` more value-returning calls that left the entries `l` in the trace. -/
def World.after (w : World) (n : Nat) (l : List Event) : World :=
  { w with tick := w.tick + n, trace := w.trace ++ l }

/-- The events issued on behalf of `recreateSwapchain`: every API call except the five made
by a frame, and no function entry. -/
def Event.isLifecycle : Event → Bool
  | .enter _ => false
  | .vkWaitForFences _ _ => false
  | .vkResetFences _ _ => false
  | .vkAcquireNextImageKHR _ _ _ _ => false
  | .vkQueueSubmit _ _ _ _ _ _ _ => false
  | .vkQueuePresentKHR _ _ _ _ _ => false
  | _ => true

/-- The five API calls made by a frame. -/
def Api.isFrameCall : Api → Bool
  | .vkWaitForFences => true
  | .vkResetFences => true
  | .vkAcquireNextImageKHR => true
  | .vkQueueSubmit => true
  | .vkQueuePresentKHR => true
  | _ => false

/-- The exceptions that can leave `recreateSwapchain`. -/
def Exn.fromLifecycle : Exn → Bool
  | .vulkanResult source _ => !source.isFrameCall
  | .text _ => true
  | .outOfRange => true
  | .assertion => false
  | .fuel => false

/-- The world `w1` is reached from `w` by lifecycle calls only. -/
structure World.Grows (w w1 : World) : Prop where
  tick_le : w.tick ≤ w1.tick
  trace_eq : ∃ l, w1.trace = w.trace ++ l ∧ ∀ e ∈ l, Event.isLifecycle e = true

/-- A free function that makes lifecycle calls only and raises lifecycle exceptions only. -/
def W.Lifecycle {α : Type} (m : W α) : Prop :=
  ∀ w, World.Grows w (m w).2 ∧ ∀ e, (m w).1 = .error e → Exn.fromLifecycle e = true

def M.Lifecycle {α : Type} (m : M α) : Prop :=
  ∀ s, World.Grows s.world (m s).2.world ∧ ∀ e, (m s).1 = .error e → Exn.fromLifecycle e = true

/-- Every value-returning API call from position `t` on reports success. -/
def Env.SucceedsFrom (env : Env) (t : Nat) : Prop := ∀ k, t ≤ k → env.result k = VK_SUCCESS

/-- The limit checks of `initPipeline` (lines 2004-2035) all pass. -/
def limitsOk (ctx : Ctx) (binding : Nat) : Prop :=
  ¬ binding > ctx.limits.maxVertexInputBindings
  ∧ ¬ ctx.vertexBufferStride > ctx.limits.maxVertexInputBindingStride
  ∧ ¬ 1 > ctx.limits.maxVertexInputBindings
  ∧ ¬ 1 ≥ ctx.limits.maxVertexInputAttributes
  ∧ ¬ ctx.uvOffset > ctx.limits.maxVertexInputAttributeOffset

instance (ctx : Ctx) (binding : Nat) : Decidable (limitsOk ctx binding) := by
  unfold limitsOk; infer_instance

/-- None of the checks the program makes on its own while it creates a swapchain at
position `tick` throws: a known composite-alpha bit is offered, the present-mode list is
not empty, and the device limits suffice for the pipeline. -/
def createGuards (ctx : Ctx) (env : Env) (capabilities : VkSurfaceCapabilitiesKHR)
    (tick : Nat) : Prop :=
  (compositeAlphaFlag capabilities.supportedCompositeAlpha).isSome = true
  ∧ env.presentModes tick ≠ []
  ∧ limitsOk ctx vertexBufferBinding

instance (ctx : Ctx) (env : Env) (capabilities : VkSurfaceCapabilitiesKHR) (tick : Nat) :
    Decidable (createGuards ctx env capabilities tick) := by
  unfold createGuards; infer_instance

/-- The variables after the first `if( oldSwapchain )` block. -/
def Vars.afterCleanup (v : Vars) : Vars :=
  { v with submissionFences := [], renderDoneSs := [], framebuffers := [],
           swapchainImageViews := [] }

/-- The trace of the first `if( oldSwapchain )` block when both of its value-returning calls
succeed. -/
def cleanupTrace (ctx : Ctx) (v : Vars) : List Event :=
  [.vkDeviceWaitIdle VK_SUCCESS] ++ v.submissionFences.map .vkDestroyFence
    ++ v.renderDoneSs.map .vkDestroySemaphore
    ++ [.vkResetCommandPool ctx.commandPool VK_SUCCESS, .vkDestroyPipeline v.pipeline]
    ++ v.framebuffers.map .vkDestroyFramebuffer
    ++ v.swapchainImageViews.map .vkDestroyImageView

/-- What `createNew`, started with the variables `v` at position `tick`, has established
when it returns in `⟨v1, w1⟩`: the new swapchain is live and its `n` images each have their
resources. -/
structure Created (env : Env) (v : Vars) (tick : Nat) (v1 : Vars) (w1 : World) (n : Nat) :
    Prop where
  swapchain_ne : v1.swapchain ≠ VK_NULL_HANDLE
  count_eq : n = toUInt32 (env.imageCount (tick + 2))
  enumerated : ∃ images : List Handle, images.length = n
    ∧ Event.vkGetSwapchainImagesKHR v1.swapchain VK_SUCCESS images ∈ w1.trace
  imageViews : v1.swapchainImageViews.length = n
  framebuffers : v1.framebuffers.length = n
  commandBuffers_ge : n ≤ v1.commandBuffers.length
  commandBuffers : v.commandBuffers.length < 2 ^ 32 → v1.commandBuffers.length = n
  renderDoneSs : v1.renderDoneSs.length = n
  imageReadySs : v1.imageReadySs.length = maxInflightSubmissions
  submissionFences : v1.submissionFences.length = maxInflightSubmissions
  signaled : ∀ f ∈ v1.submissionFences,
    Event.vkCreateFence VK_FENCE_CREATE_SIGNALED_BIT VK_SUCCESS f ∈ w1.trace
  submissionNr : v1.submissionNr = 0

/-- The capabilities snapshot `recreateSwapchain` works with when it queries at position
`tick` (lines 492-497). -/
def snapshotAt (env : Env) (tick : Nat) : VkSurfaceCapabilitiesKHR :=
  substituteExtent (env.capabilities tick)

/-- The value of `swapchainCreatable` for the snapshot taken at position `tick`. -/
def creatableAt (env : Env) (tick : Nat) : Bool :=
  swapchainCreatable (snapshotAt env tick)
    { width := (snapshotAt env tick).currentExtent.width,
      height := (snapshotAt env tick).currentExtent.height }

/-- The position at which `recreateSwapchain`, called at `w`, starts to create: after the
capabilities query and, with an old swapchain, the two calls of the cleanup. -/
def createTick (v : Vars) (w : World) : Nat :=
  if v.swapchain ≠ VK_NULL_HANDLE then w.tick + 3 else w.tick + 1

/-- The variables after a `recreateSwapchain` that did not create (lines 490, 511 and the
cleanup block). -/
def Vars.afterDegenerate (v : Vars) : Vars :=
  if v.swapchain ≠ VK_NULL_HANDLE then
    Vars.afterCleanup { v with swapchain := VK_NULL_HANDLE, imageReadySs := [] }
  else { v with swapchain := VK_NULL_HANDLE, imageReadySs := [] }

/-- The image index the acquire of a frame started at `w` obtains: the acquire is the
third value-returning call of the frame. -/
def acquiredIndex (env : Env) (w : World) : Nat := toUInt32 (env.imageIndex (w.tick + 2))

/-- The ways in which the `try` block of `render`, entered with the variables `v` in the
world `w`, can be left: the value of `unsafeSemaphore`, the outcome and the state then. -/
inductive Attempt (ctx : Ctx) (env : Env) (v : Vars) (w : World) :
    Bool → Except Exn Unit → State → Prop
  | noFence (h : v.submissionFences[v.submissionNr]? = none) :
      Attempt ctx env v w false (.error .outOfRange) ⟨v, w⟩
  | waitFailed (f : Handle) (hf : v.submissionFences[v.submissionNr]? = some f)
      (h0 : env.result w.tick ≠ VK_SUCCESS) :
      Attempt ctx env v w false (.error (.vulkanResult .vkWaitForFences (env.result w.tick)))
        ⟨v, w.after 1 [.vkWaitForFences f (env.result w.tick)]⟩
  | resetFailed (f : Handle) (hf : v.submissionFences[v.submissionNr]? = some f)
      (h0 : env.result w.tick = VK_SUCCESS) (h1 : env.result (w.tick + 1) ≠ VK_SUCCESS) :
      Attempt ctx env v w false (.error (.vulkanResult .vkResetFences (env.result (w.tick + 1))))
        ⟨v, w.after 2 [.vkWaitForFences f VK_SUCCESS, .vkResetFences f (env.result (w.tick + 1))]⟩
  | noSemaphore (f : Handle) (hf : v.submissionFences[v.submissionNr]? = some f)
      (h0 : env.result w.tick = VK_SUCCESS) (h1 : env.result (w.tick + 1) = VK_SUCCESS)
      (hs : v.imageReadySs[v.submissionNr]? = none) :
      Attempt ctx env v w true (.error .outOfRange)
        ⟨v, w.after 2 [.vkWaitForFences f VK_SUCCESS, .vkResetFences f VK_SUCCESS]⟩
  | acquireFailed (f sem : Handle) (hf : v.submissionFences[v.submissionNr]? = some f)
      (h0 : env.result w.tick = VK_SUCCESS) (h1 : env.result (w.tick + 1) = VK_SUCCESS)
      (hs : v.imageReadySs[v.submissionNr]? = some sem)
      (h2 : env.result (w.tick + 2) ≠ VK_SUCCESS) :
      Attempt ctx env v w true
        (.error (.vulkanResult .vkAcquireNextImageKHR (env.result (w.tick + 2))))
        ⟨v, w.after 3 [.vkWaitForFences f VK_SUCCESS, .vkResetFences f VK_SUCCESS,
          .vkAcquireNextImageKHR v.swapchain sem (env.result (w.tick + 2)) (acquiredIndex env w)]⟩
  | noResources (f sem : Handle) (hf : v.submissionFences[v.submissionNr]? = some f)
      (h0 : env.result w.tick = VK_SUCCESS) (h1 : env.result (w.tick + 1) = VK_SUCCESS)
      (hs : v.imageReadySs[v.submissionNr]? = some sem)
      (h2 : env.result (w.tick + 2) = VK_SUCCESS)
      (hr : v.commandBuffers[acquiredIndex env w]? = none
        ∨ v.renderDoneSs[acquiredIndex env w]? = none) :
      Attempt ctx env v w false (.error .outOfRange)
        ⟨v, w.after 3 [.vkWaitForFences f VK_SUCCESS, .vkResetFences f VK_SUCCESS,
          .vkAcquireNextImageKHR v.swapchain sem VK_SUCCESS (acquiredIndex env w)]⟩
  | submitFailed (f sem cb rd : Handle) (hf : v.submissionFences[v.submissionNr]? = some f)
      (h0 : env.result w.tick = VK_SUCCESS) (h1 : env.result (w.tick + 1) = VK_SUCCESS)
      (hs : v.imageReadySs[v.submissionNr]? = some sem)
      (h2 : env.result (w.tick + 2) = VK_SUCCESS)
      (hc : v.commandBuffers[acquiredIndex env w]? = some cb)
      (hd : v.renderDoneSs[acquiredIndex env w]? = some rd)
      (h3 : env.result (w.tick + 3) ≠ VK_SUCCESS) :
      Attempt ctx env v w false (.error (.vulkanResult .vkQueueSubmit (env.result (w.tick + 3))))
        ⟨v, w.after 4 [.vkWaitForFences f VK_SUCCESS, .vkResetFences f VK_SUCCESS,
          .vkAcquireNextImageKHR v.swapchain sem VK_SUCCESS (acquiredIndex env w),
          .vkQueueSubmit ctx.graphicsQueue [sem] VK_PIPELINE_STAGE_COLOR_ATTACHMENT_OUTPUT_BIT
            [cb] [rd] f (env.result (w.tick + 3))]⟩
  | presentFailed (f sem cb rd : Handle) (hf : v.submissionFences[v.submissionNr]? = some f)
      (h0 : env.result w.tick = VK_SUCCESS) (h1 : env.result (w.tick + 1) = VK_SUCCESS)
      (hs : v.imageReadySs[v.submissionNr]? = some sem)
      (h2 : env.result (w.tick + 2) = VK_SUCCESS)
      (hc : v.commandBuffers[acquiredIndex env w]? = some cb)
      (hd : v.renderDoneSs[acquiredIndex env w]? = some rd)
      (h3 : env.result (w.tick + 3) = VK_SUCCESS) (h4 : env.result (w.tick + 4) ≠ VK_SUCCESS) :
      Attempt ctx env v w false
        (.error (.vulkanResult .vkQueuePresentKHR (env.result (w.tick + 4))))
        ⟨v, w.after 5 [.vkWaitForFences f VK_SUCCESS, .vkResetFences f VK_SUCCESS,
          .vkAcquireNextImageKHR v.swapchain sem VK_SUCCESS (acquiredIndex env w),
          .vkQueueSubmit ctx.graphicsQueue [sem] VK_PIPELINE_STAGE_COLOR_ATTACHMENT_OUTPUT_BIT
            [cb] [rd] f VK_SUCCESS,
          .vkQueuePresentKHR ctx.presentQueue rd v.swapchain (acquiredIndex env w)
            (env.result (w.tick + 4))]⟩
  | done (f sem cb rd : Handle) (hf : v.submissionFences[v.submissionNr]? = some f)
      (h0 : env.result w.tick = VK_SUCCESS) (h1 : env.result (w.tick + 1) = VK_SUCCESS)
      (hs : v.imageReadySs[v.submissionNr]? = some sem)
      (h2 : env.result (w.tick + 2) = VK_SUCCESS)
      (hc : v.commandBuffers[acquiredIndex env w]? = some cb)
      (hd : v.renderDoneSs[acquiredIndex env w]? = some rd)
      (h3 : env.result (w.tick + 3) = VK_SUCCESS) (h4 : env.result (w.tick + 4) = VK_SUCCESS) :
      Attempt ctx env v w false (.ok ())
        ⟨{ v with submissionNr := toUInt32 (v.submissionNr + 1) % maxInflightSubmissions },
          w.after 5 [.vkWaitForFences f VK_SUCCESS, .vkResetFences f VK_SUCCESS,
          .vkAcquireNextImageKHR v.swapchain sem VK_SUCCESS (acquiredIndex env w),
          .vkQueueSubmit ctx.graphicsQueue [sem] VK_PIPELINE_STAGE_COLOR_ATTACHMENT_OUTPUT_BIT
            [cb] [rd] f VK_SUCCESS,
          .vkQueuePresentKHR ctx.presentQueue rd v.swapchain (acquiredIndex env w) VK_SUCCESS]⟩

/-- The number of calls of `recreateSwapchain` recorded in a trace. -/
def recreations (l : List Event) : Nat := l.count (.enter .recreateSwapchain)

/-! ### Concrete surroundings used to instantiate the statements -/

/-- A 640x480 surface with two to eight images and an opaque composite-alpha mode. -/
def sampleCapabilities : VkSurfaceCapabilitiesKHR :=
  { minImageCount := 2
    maxImageCount := 8
    currentExtent := { width := 640, height := 480 }
    minImageExtent := { width := 1, height := 1 }
    maxImageExtent := { width := 4096, height := 4096 }
    currentTransform := 1
    supportedCompositeAlpha := VK_COMPOSITE_ALPHA_OPAQUE_BIT_KHR }

/-- The surface of a minimized window: its width is zero. -/
def minimizedCapabilities : VkSurfaceCapabilitiesKHR :=
  { sampleCapabilities with currentExtent := { width := 0, height := 480 } }

/-- A surface that offers none of the four composite-alpha modes. -/
def alphalessCapabilities : VkSurfaceCapabilitiesKHR :=
  { sampleCapabilities with supportedCompositeAlpha := 0 }

def sampleCtx : Ctx :=
  { surfaceFormat := { format := 44, colorSpace := 0 }
    renderPass := 101
    pipelineLayout := 102
    vertexBuffer := 103
    descriptorSet := 104
    commandPool := 105
    graphicsQueue := 106
    presentQueue := 106
    graphicsQueueFamily := 0
    presentQueueFamily := 0
    limits :=
      { maxVertexInputBindings := 16
        maxVertexInputBindingStride := 2048
        maxVertexInputAttributes := 16
        maxVertexInputAttributeOffset := 2047 }
    vertexBufferStride := 20
    uvOffset := 12 }

/-- Every call succeeds; the swapchain has three images and every acquire yields image 1. -/
def sampleEnv : Env :=
  { result := fun _ => VK_SUCCESS
    capabilities := fun _ => sampleCapabilities
    presentModes := fun _ => [VK_PRESENT_MODE_FIFO_KHR]
    imageCount := fun _ => 3
    imageIndex := fun _ => 1 }

/-- As `sampleEnv`, for a surface without a known composite-alpha mode. -/
def alphalessEnv : Env := { sampleEnv with capabilities := fun _ => alphalessCapabilities }

/-- As `sampleEnv`, but the window is minimized from the start. -/
def minimizedEnv : Env := { sampleEnv with capabilities := fun _ => minimizedCapabilities }

/-- As `sampleEnv`, but the window is minimized after the first capabilities query. -/
def minimizedLaterEnv : Env :=
  { sampleEnv with
    capabilities := fun tick => if tick = 0 then sampleCapabilities else minimizedCapabilities }

/-- The state after the first `recreateSwapchain` of `start()` in `sampleEnv`. -/
def sampleLive : State := (recreateSwapchain sampleCtx sampleEnv State.initial).2

/-- The state after the first `recreateSwapchain` of `start()` when the window is minimized
only afterwards. -/
def liveBeforeMinimize : State := (recreateSwapchain sampleCtx minimizedLaterEnv State.initial).2

/-- As `sampleEnv`, but the acquire of the first frame (the 28th value-returning call)
reports `VK_ERROR_OUT_OF_DATE_KHR` and the window is minimized by then. -/
def minimizedOnRetryEnv : Env :=
  { minimizedLaterEnv with
    result := fun tick => if tick = 27 then VK_ERROR_OUT_OF_DATE_KHR else VK_SUCCESS }

/-- As `sampleEnv`, but the driver reports an empty list of present modes. -/
def modelessEnv : Env := { sampleEnv with presentModes := fun _ => [] }

/-- The call frees command buffers. -/
def Event.isFree : Event → Bool
  | .vkFreeCommandBuffers _ _ => true
  | _ => false


/-- As `sampleEnv`, but the acquire of the first frame (the 28th value-returning call)
reports `VK_SUBOPTIMAL_KHR`. -/
def suboptimalAcquireEnv : Env :=
  { sampleEnv with
    result := fun tick => if tick = 27 then VK_SUBOPTIMAL_KHR else VK_SUCCESS }

def VK_ERROR_DEVICE_LOST : VkResult := -4

/-- As `sampleEnv`, but the fence wait of the first frame (the 26th value-returning call)
reports `VK_ERROR_DEVICE_LOST`. -/
def deviceLostEnv : Env :=
  { sampleEnv with
    result := fun tick => if tick = 25 then VK_ERROR_DEVICE_LOST else VK_SUCCESS }

/-- As `suboptimalAcquireEnv`, but the submission made by `cleanupUnsafeSemaphore` (the
29th value-returning call) reports `VK_ERROR_OUT_OF_DATE_KHR`. -/
def failingDrainEnv : Env :=
  { sampleEnv with
    result := fun tick =>
      if tick = 27 then VK_SUBOPTIMAL_KHR
      else if tick = 28 then VK_ERROR_OUT_OF_DATE_KHR else VK_SUCCESS }

/-- The state after `n` consecutive calls of `render()` by the event loop (lines 634-643)
that all returned normally; `none` when one of them ended with an exception. -/
def frames (ctx : Ctx) (env : Env) (fuel : Nat) : Nat → State → Option State
  | 0, s => some s
  | n + 1, s =>
    match frames ctx env fuel n s with
    | none => none
    | some sk =>
      match render ctx env fuel sk with
      | (.ok _, s1) => some s1
      | (.error _, _) => none

/-- The state after the first three frames of the event loop in `sampleEnv`. -/
def afterThreeFrames : State :=
  (frames sampleCtx sampleEnv 1 3 sampleLive).getD State.initial

/-- The state of the check of the fence discipline along a trace. -/
structure FenceMonitor where
  /-- The fence whose successful wait is the entry just before the current one. -/
  waited : Option Handle
  /-- The fence that was waited on and then reset, both with success, since the current
  attempt of `render` began. -/
  ready : Option Handle
  /-- No entry so far broke the discipline. -/
  ok : Bool
  deriving DecidableEq, Repr

def FenceMonitor.init : FenceMonitor := { waited := none, ready := none, ok := true }

/-- One entry of the trace: a `vkResetFences` must come right after a successful
`vkWaitForFences` on the same fence, and a `vkQueueSubmit` given a fence must come after
that fence was waited on and reset since the last entry of `render`. -/
def FenceMonitor.step (m : FenceMonitor) : Event → FenceMonitor
  | .enter .render => { waited := none, ready := none, ok := m.ok }
  | .vkWaitForFences fence result =>
    { m with waited := if result = VK_SUCCESS then some fence else none }
  | .vkResetFences fence result =>
    { waited := none
      ready := if m.waited = some fence ∧ result = VK_SUCCESS then some fence else none
      ok := m.ok && decide (m.waited = some fence) }
  | .vkQueueSubmit _ _ _ _ _ fence _ =>
    { m with
      waited := none
      ok := m.ok && (decide (fence = VK_NULL_HANDLE) || decide (m.ready = some fence)) }
  | _ => { m with waited := none }

/-- The fence discipline holds along the whole trace. -/
def fenceOrderOk (l : List Event) : Bool := (l.foldl FenceMonitor.step FenceMonitor.init).ok

/-- Appending the entries `l` to a trace never breaks the fence discipline. -/
def FenceSafe (l : List Event) : Prop :=
  ∀ m : FenceMonitor, m.ok = true → (l.foldl FenceMonitor.step m).ok = true

/-- A call the program makes on one of its two lambdas. -/
inductive Op where
  | recreateSwapchain
  | render (fuel : Nat)
  deriving DecidableEq, Repr

/-- The state a call leaves behind, whether it returns or throws. -/
def runOp (ctx : Ctx) (env : Env) : Op → State → State
  | .recreateSwapchain, s => (recreateSwapchain ctx env s).2
  | .render fuel, s => (render ctx env fuel s).2

/-- The state after a sequence of calls. The trace of a run of the program that stops at
the first exception is the trace of the calls up to the throwing one. -/
def runOps (ctx : Ctx) (env : Env) (ops : List Op) (s : State) : State :=
  ops.foldl (fun s op => runOp ctx env op s) s

/-- The completion codes with which an acquire or a submission took effect: `VK_SUCCESS`
and the status `VK_SUBOPTIMAL_KHR`. Every other result the program meets is an error that
left the call without effect. -/
def tookEffect (result : VkResult) : Bool :=
  decide (result = VK_SUCCESS) || decide (result = VK_SUBOPTIMAL_KHR)

/-- The semaphores that hold the signal of an acquire no queue operation waits on, after
one more entry of the trace: an acquire that took effect adds its semaphore, a submission
that took effect removes the semaphores it waits on. -/
def pendingStep (pending : List Handle) : Event → List Handle
  | .vkAcquireNextImageKHR _ semaphore result _ =>
    if tookEffect result = true then semaphore :: pending else pending
  | .vkQueueSubmit _ waits _ _ _ _ result =>
    if tookEffect result = true then pending.filter (fun s => decide (s ∉ waits)) else pending
  | _ => pending

/-- The semaphores left with an acquire signal pending and no queue operation waiting on
it at the end of a trace. -/
def acquirePending (l : List Event) : List Handle := l.foldl pendingStep []

/-- A computation that leaves `commandBuffers` with fewer than 2^32 elements when it finds
it so. -/
def M.Bounded {α : Type} (m : M α) : Prop :=
  ∀ s, s.vars.commandBuffers.length < 2 ^ 32 → (m s).2.vars.commandBuffers.length < 2 ^ 32

/-- The environment `env` with other results for its calls. -/
@[reducible] def Env.withResult (env : Env) (result : Nat → VkResult) : Env :=
  { env with result := result }

/-- Every value-returning API call from position `t` up to, not including, position `T`
reports success. -/
def Env.SucceedsWithin (env : Env) (t T : Nat) : Prop :=
  ∀ k, t ≤ k → k < T → env.result k = VK_SUCCESS

/-- The results of `env` before position `T`, and success from there on. -/
def Env.successAfter (env : Env) (T : Nat) : Nat → VkResult :=
  fun k => if k < T then env.result k else VK_SUCCESS

/-- The second computation does what the first does whenever the first ends by position
`T` of the dialogue with the environment. -/
def W.Same {α : Type} (T : Nat) (m m1 : W α) : Prop :=
  ∀ w, w.tick ≤ (m w).2.tick ∧ ((m w).2.tick ≤ T → m1 w = m w)

def M.Same {α : Type} (T : Nat) (m m1 : M α) : Prop :=
  ∀ s, s.world.tick ≤ (m s).2.world.tick ∧ ((m s).2.world.tick ≤ T → m1 s = m s)

/-- A computation that returns normally only if every API call it made reported success. -/
def W.Checked (env : Env) {α : Type} (m : W α) : Prop :=
  ∀ w a w1, m w = (.ok a, w1) → env.SucceedsWithin w.tick w1.tick

def M.Checked (env : Env) {α : Type} (m : M α) : Prop :=
  ∀ s a s1, m s = (.ok a, s1) → env.SucceedsWithin s.world.tick s1.world.tick


/-- The extent `recreateSwapchain` works with when the surface reports `reported`
(lines 494-498): the window size for the undefined-size sentinel, `reported` otherwise. -/
def usedExtent (reported : VkExtent2D) : VkExtent2D :=
  if reported.width = UINT32_MAX ∧ reported.height = UINT32_MAX then
    { width := screenWidth, height := screenHeight }
  else reported

/-- The calls `createNew` makes before it creates the semaphores and fences, for the
snapshot `capabilities`, the size `surfaceSize` and the old swapchain `oldSwapchain`: the
present-mode query, the swapchain creation with this old swapchain and the extent of the
snapshot, the image enumeration, the image-view creations, the framebuffer creations, the
pipeline creation and the render passes with this size, and the allocation, release and
recording of command buffers. -/
def Event.fromSetup (capabilities : VkSurfaceCapabilitiesKHR) (surfaceSize : VkExtent2D)
    (oldSwapchain : Handle) : Event → Bool
  | .vkGetPhysicalDeviceSurfacePresentModesKHR _ _ => true
  | .vkCreateSwapchainKHR info _ _ =>
    decide (info.oldSwapchain = oldSwapchain)
      && decide (info.imageExtent = capabilities.currentExtent)
  | .vkGetSwapchainImagesKHR _ _ _ => true
  | .vkCreateImageView _ _ _ _ => true
  | .vkCreateFramebuffer _ _ width height _ _ =>
    decide (width = surfaceSize.width) && decide (height = surfaceSize.height)
  | .vkCreateGraphicsPipelines viewport scissor _ _ =>
    decide (scissor = surfaceSize)
      && decide (viewport.width
          = toFloat (if surfaceSize.width ≠ 0 then surfaceSize.width else 1))
      && decide (viewport.height
          = toFloat (if surfaceSize.height ≠ 0 then surfaceSize.height else 1))
  | .vkAllocateCommandBuffers _ _ _ _ => true
  | .vkFreeCommandBuffers _ _ => true
  | .vkBeginCommandBuffer _ _ => true
  | .vkCmdBeginRenderPass _ _ _ _ width height =>
    decide (width = surfaceSize.width) && decide (height = surfaceSize.height)
  | .vkCmdBindPipeline _ _ => true
  | .vkCmdBindVertexBuffers _ _ _ => true
  | .vkCmdBindDescriptorSets _ _ _ => true
  | .vkCmdDraw _ _ _ _ _ => true
  | .vkCmdEndRenderPass _ => true
  | .vkEndCommandBuffer _ _ => true
  | _ => false

/-- The calls `createNew` makes: those of `Event.fromSetup`, the semaphore creations and the
creations of fences in the signaled state. No destroy call and no `vkDeviceWaitIdle` is among
them. -/
def Event.fromCreate (capabilities : VkSurfaceCapabilitiesKHR) (surfaceSize : VkExtent2D)
    (oldSwapchain : Handle) : Event → Bool
  | .vkCreateSemaphore _ _ => true
  | .vkCreateFence flags _ _ => decide (flags = VK_FENCE_CREATE_SIGNALED_BIT)
  | e => Event.fromSetup capabilities surfaceSize oldSwapchain e

/-- A free function all of whose trace entries satisfy `P`; it only hands out handles. -/
def W.Emits (P : Event → Bool) {α : Type} (m : W α) : Prop :=
  ∀ w, w.nextHandle ≤ (m w).2.nextHandle
    ∧ ∃ l, (m w).2.trace = w.trace ++ l ∧ ∀ e ∈ l, P e = true

def M.Emits (P : Event → Bool) {α : Type} (m : M α) : Prop :=
  ∀ s, s.world.nextHandle ≤ (m s).2.world.nextHandle
    ∧ ∃ l, (m s).2.world.trace = s.world.trace ++ l ∧ ∀ e ∈ l, P e = true

/-- The trace of the first `if( oldSwapchain )` block when `vkDeviceWaitIdle` reports `r1`
and `vkResetCommandPool`, if it is reached, reports `r2`: the block is left at the first of
the two that fails. -/
def cleanupRun (ctx : Ctx) (v : Vars) (r1 r2 : VkResult) : List Event :=
  if r1 ≠ VK_SUCCESS then [.vkDeviceWaitIdle r1]
  else if r2 ≠ VK_SUCCESS then
    [.vkDeviceWaitIdle VK_SUCCESS] ++ v.submissionFences.map .vkDestroyFence
      ++ v.renderDoneSs.map .vkDestroySemaphore ++ [.vkResetCommandPool ctx.commandPool r2]
  else cleanupTrace ctx v

/-- The trace of the second `if( oldSwapchain )` block (lines 586-590). -/
def killTrace (v : Vars) : List Event :=
  .vkDestroySwapchainKHR v.swapchain :: v.imageReadySs.map .vkDestroySemaphore

/-- The size `recreateSwapchain` proposes for the snapshot taken at position `tick`
(line 498). -/
def sizeAt (env : Env) (tick : Nat) : VkExtent2D :=
  { width := (snapshotAt env tick).currentExtent.width,
    height := (snapshotAt env tick).currentExtent.height }

/-- The calls that are given an extent are given the extent `extent`: the swapchain
creation as `imageExtent`, the framebuffer creation as width and height, the pipeline
creation as scissor and, converted to `float` (a zero replaced by 1), as viewport size, and
the render pass as render area. -/
def Event.usesExtent (extent : VkExtent2D) : Event → Bool
  | .vkCreateSwapchainKHR info _ _ => decide (info.imageExtent = extent)
  | .vkCreateFramebuffer _ _ width height _ _ =>
    decide (width = extent.width) && decide (height = extent.height)
  | .vkCreateGraphicsPipelines viewport scissor _ _ =>
    decide (viewport.width = toFloat (if extent.width ≠ 0 then extent.width else 1))
      && decide (viewport.height = toFloat (if extent.height ≠ 0 then extent.height else 1))
      && decide (scissor = extent)
  | .vkCmdBeginRenderPass _ _ _ _ width height =>
    decide (width = extent.width) && decide (height = extent.height)
  | _ => true

/-- The world `w1` is reached from `w` by calls that satisfy `P` and by handing out
handles. -/
def World.Reaches (P : Event → Bool) (w w1 : World) : Prop :=
  w.nextHandle ≤ w1.nextHandle ∧ ∃ l, w1.trace = w.trace ++ l ∧ ∀ e ∈ l, P e = true

/-- The calls that record the command buffer `cb` for the framebuffer `fb` (lines 554-574)
when the begin and the end succeed. -/
def recordTrace (ctx : Ctx) (surfaceSize : VkExtent2D) (pipeline cb fb : Handle) : List Event :=
  [.vkBeginCommandBuffer cb VK_SUCCESS,
    .vkCmdBeginRenderPass cb ctx.renderPass fb clearColor surfaceSize.width surfaceSize.height,
    .vkCmdBindPipeline cb pipeline,
    .vkCmdBindVertexBuffers cb vertexBufferBinding ctx.vertexBuffer,
    .vkCmdBindDescriptorSets cb ctx.pipelineLayout ctx.descriptorSet,
    .vkCmdDraw cb (toUInt32 triangleSize) 1 0 0,
    .vkCmdEndRenderPass cb,
    .vkEndCommandBuffer cb VK_SUCCESS]

/-- The calls of the recording loop (line 553) for the `remaining` images from `i` on, with
the command buffers, framebuffers and pipeline of `v`. -/
def recordAll (ctx : Ctx) (surfaceSize : VkExtent2D) (v : Vars) : Nat → Nat → List Event
  | 0, _ => []
  | remaining + 1, i =>
    (match v.commandBuffers[i]?, v.framebuffers[i]? with
      | some cb, some fb => recordTrace ctx surfaceSize v.pipeline cb fb
      | _, _ => [])
    ++ recordAll ctx surfaceSize v remaining (i + 1)

/-- What a returning `createNew`, started in the world `w`, has added to the trace and left
in the variables `v1` and the world `w1`, for a swapchain of `n` images: the calls `setup`
up to the allocation of the command buffers, among them the creation of the pipeline now in
`pipeline`, with a handle not handed out before; the recording of the first `n` command
buffers; the creation of the two image-ready semaphores, of the `n` render-done semaphores
and of the two signaled fences now in the variables, with handles not handed out before. -/
structure Built (ctx : Ctx) (capabilities : VkSurfaceCapabilitiesKHR)
    (surfaceSize : VkExtent2D) (oldSwapchain : Handle) (w : World) (v1 : Vars) (w1 : World)
    (n : Nat) : Prop where
  parts : ∃ (setup : List Event) (h : Nat),
    w1.trace = w.trace ++ setup ++ recordAll ctx surfaceSize v1 n 0
      ++ (freshHandles h maxInflightSubmissions).map (.vkCreateSemaphore VK_SUCCESS)
      ++ (freshHandles (h + maxInflightSubmissions) n).map (.vkCreateSemaphore VK_SUCCESS)
      ++ (freshHandles (h + maxInflightSubmissions + n) maxInflightSubmissions).map
          (.vkCreateFence VK_FENCE_CREATE_SIGNALED_BIT VK_SUCCESS)
    ∧ (∀ e ∈ setup, Event.fromSetup capabilities surfaceSize oldSwapchain e = true)
    ∧ (∃ viewport scissor,
        Event.vkCreateGraphicsPipelines viewport scissor VK_SUCCESS v1.pipeline ∈ setup)
    ∧ w.nextHandle < v1.pipeline ∧ v1.pipeline ≤ h
    ∧ v1.imageReadySs = freshHandles h maxInflightSubmissions
    ∧ v1.renderDoneSs = freshHandles (h + maxInflightSubmissions) n
    ∧ v1.submissionFences
        = freshHandles (h + maxInflightSubmissions + n) maxInflightSubmissions
    ∧ w1.nextHandle = h + maxInflightSubmissions + n + maxInflightSubmissions
  recorded : ∀ i, i < n → ∃ cb fb, v1.commandBuffers[i]? = some cb
    ∧ v1.framebuffers[i]? = some fb

/-- As `sampleEnv`, but the window is minimized at the capabilities query that follows the
first `recreateSwapchain` (the 26th value-returning call) and restored afterwards. -/
def restoredEnv : Env :=
  { sampleEnv with
    capabilities := fun tick => if tick = 25 then minimizedCapabilities else sampleCapabilities }

/-- As `restoredEnv`, but the restored surface offers none of the four composite-alpha
modes. -/
def restoredAlphalessEnv : Env :=
  { sampleEnv with
    capabilities := fun tick =>
      if tick = 0 then sampleCapabilities
      else if tick = 25 then minimizedCapabilities else alphalessCapabilities }

/-- A sequence of calls of the two lambdas in which an exception ends the run, as it ends
`start()`. -/
def runAll (ctx : Ctx) (env : Env) : List Op → M Unit
  | [] => pure ()
  | .recreateSwapchain :: ops => do
    let _ ← recreateSwapchain ctx env
    runAll ctx env ops
  | .render fuel :: ops => do
    render ctx env fuel
    runAll ctx env ops

/-- The fence a successful `vkCreateFence` has created. -/
def Event.createdFence : Event → Option Handle
  | .vkCreateFence _ result fence => if result = VK_SUCCESS then some fence else none
  | _ => none

/-- The fence a `vkDestroyFence` has destroyed. -/
def Event.destroyedFence : Event → Option Handle
  | .vkDestroyFence fence => some fence
  | _ => none

/-- The semaphore a successful `vkCreateSemaphore` has created. -/
def Event.createdSemaphore : Event → Option Handle
  | .vkCreateSemaphore result semaphore => if result = VK_SUCCESS then some semaphore else none
  | _ => none

/-- The semaphore a `vkDestroySemaphore` has destroyed. -/
def Event.destroyedSemaphore : Event → Option Handle
  | .vkDestroySemaphore semaphore => some semaphore
  | _ => none

/-- The fences created in a trace, in the order of their creation. -/
def createdFences (l : List Event) : List Handle := l.filterMap Event.createdFence

/-- The fences destroyed in a trace, one entry per `vkDestroyFence`. -/
def destroyedFences (l : List Event) : List Handle := l.filterMap Event.destroyedFence

/-- The semaphores created in a trace, in the order of their creation. -/
def createdSemaphores (l : List Event) : List Handle := l.filterMap Event.createdSemaphore

/-- The semaphores destroyed in a trace, one entry per `vkDestroySemaphore`. -/
def destroyedSemaphores (l : List Event) : List Handle := l.filterMap Event.destroyedSemaphore

/-- The fences a call made by `render` is given. -/
def Event.usedFences : Event → List Handle
  | .vkWaitForFences fence _ => [fence]
  | .vkResetFences fence _ => [fence]
  | .vkQueueSubmit _ _ _ _ _ fence _ => if fence = VK_NULL_HANDLE then [] else [fence]
  | _ => []

/-- The semaphores a call made by `render` is given. -/
def Event.usedSemaphores : Event → List Handle
  | .vkAcquireNextImageKHR _ semaphore _ _ => [semaphore]
  | .vkQueueSubmit _ waitSemaphores _ _ signalSemaphores _ _ => waitSemaphores ++ signalSemaphores
  | .vkQueuePresentKHR _ waitSemaphore _ _ _ => [waitSemaphore]
  | _ => []

/-- No call of the trace `l` is given a fence or a semaphore that was destroyed before the
call, `deadFences` and `deadSemaphores` being those destroyed before `l`. -/
def usesLive (deadFences deadSemaphores : List Handle) : List Event → Bool
  | [] => true
  | e :: l =>
    e.usedFences.all (fun f => decide (f ∉ deadFences))
      && e.usedSemaphores.all (fun s => decide (s ∉ deadSemaphores))
      && usesLive (deadFences ++ e.destroyedFence.toList)
          (deadSemaphores ++ e.destroyedSemaphore.toList) l

/-- The bookkeeping of fences and semaphores is sound in the state `s`: what was created
and not destroyed is what the three vectors hold, nothing was created twice, every created
handle has been handed out, the vectors are empty when there is no swapchain, and no call
so far was given a destroyed fence or semaphore. -/
structure SyncSound (s : State) : Prop where
  fences : (createdFences s.world.trace).Perm
    (destroyedFences s.world.trace ++ s.vars.submissionFences)
  semaphores : (createdSemaphores s.world.trace).Perm
    (destroyedSemaphores s.world.trace ++ (s.vars.imageReadySs ++ s.vars.renderDoneSs))
  fences_nodup : (createdFences s.world.trace).Nodup
  semaphores_nodup : (createdSemaphores s.world.trace).Nodup
  fences_le : ∀ f ∈ createdFences s.world.trace, f ≤ s.world.nextHandle
  semaphores_le : ∀ x ∈ createdSemaphores s.world.trace, x ≤ s.world.nextHandle
  empty : s.vars.swapchain = VK_NULL_HANDLE →
    s.vars.submissionFences = [] ∧ s.vars.imageReadySs = [] ∧ s.vars.renderDoneSs = []
  live : usesLive [] [] s.world.trace = true

/-- A call of a frame, made with the variables `v`: it creates and destroys nothing and is
given fences and semaphores of the vectors only. -/
def FrameLike (v : Vars) (e : Event) : Prop :=
  e.createdFence = none ∧ e.destroyedFence = none ∧ e.createdSemaphore = none
    ∧ e.destroyedSemaphore = none
    ∧ (∀ f ∈ e.usedFences, f ∈ v.submissionFences)
    ∧ (∀ x ∈ e.usedSemaphores, x ∈ v.imageReadySs ++ v.renderDoneSs)


/-- The trace of the teardown of `start()` when its `vkDeviceWaitIdle` succeeds. -/
def teardownTrace (v : Vars) : List Event :=
  [.vkDeviceWaitIdle VK_SUCCESS] ++ v.renderDoneSs.map .vkDestroySemaphore
    ++ [.vkDestroyPipeline v.pipeline] ++ v.framebuffers.map .vkDestroyFramebuffer
    ++ v.swapchainImageViews.map .vkDestroyImageView
    ++ [.vkDestroySwapchainKHR v.swapchain] ++ v.imageReadySs.map .vkDestroySemaphore
    ++ v.submissionFences.map .vkDestroyFence

/-- The state in which `start()` ends in `sampleEnv` after the first `recreateSwapchain`,
one frame, a second `recreateSwapchain` and the teardown. -/
def afterTeardown : State :=
  ((runAll sampleCtx sampleEnv [.recreateSwapchain, .render 1, .recreateSwapchain]
    >>= fun _ => teardown sampleEnv) State.initial).2

/-- The fences of the submissions whose fence has not been waited on since, after one more
entry of the trace: a successful submission with a fence adds its fence and a successful
`vkWaitForFences` removes the fence waited on. -/
def unwaitedStep (out : List Handle) : Event → List Handle
  | .vkQueueSubmit _ _ _ _ _ fence result =>
    if fence ≠ VK_NULL_HANDLE ∧ result = VK_SUCCESS then fence :: out else out
  | .vkWaitForFences fence result =>
    if result = VK_SUCCESS then out.filter (fun f => decide (f ≠ fence)) else out
  | _ => out

/-- The fences of the submissions issued in the trace `l` whose fence was not waited on
afterwards, one entry per submission. -/
def unwaited (l : List Event) : List Handle := l.foldl unwaitedStep []

/-- The fences of the submissions not yet observed complete by the CPU, after one more
entry of the trace: as `unwaitedStep`, and a successful `vkDeviceWaitIdle` removes all of
them, every submission having completed when it returns. -/
def inflightStep (out : List Handle) : Event → List Handle
  | .vkDeviceWaitIdle result => if result = VK_SUCCESS then [] else out
  | e => unwaitedStep out e

/-- The fences of the submissions issued in the trace `l` and not observed complete by its
end, one entry per submission. -/
def outstanding (l : List Event) : List Handle := l.foldl inflightStep []

/-- A submission with a fence is made only when no earlier submission with that fence is
still unobserved. -/
def submitsFree (out : List Handle) : Event → Bool
  | .vkQueueSubmit _ _ _ _ _ fence result =>
    decide (fence ≠ VK_NULL_HANDLE ∧ result = VK_SUCCESS → fence ∉ out)
  | _ => true

/-- Along the trace `l`, entered with the unobserved submissions `out`, every submission
finds its fence free and at most `maxInflightSubmissions` submissions are unobserved after
every call. -/
def inflightOk (out : List Handle) : List Event → Bool
  | [] => true
  | e :: l =>
    submitsFree out e && decide ((inflightStep out e).length ≤ maxInflightSubmissions)
      && inflightOk (inflightStep out e) l

/-- The unobserved submissions `out` are on pairwise different fences of the ring `ring`. -/
def RingGood (ring out : List Handle) : Prop := out.Nodup ∧ ∀ f ∈ out, f ∈ ring

/-- Along the trace `l`, entered with the unobserved submissions `out`, the unobserved
submissions are always on pairwise different fences of `ring` and every submission finds
its fence free. -/
def stepsGood (ring : List Handle) : List Handle → List Event → Prop
  | out, [] => RingGood ring out
  | out, e :: l =>
    RingGood ring out ∧ submitsFree out e = true ∧ stepsGood ring (inflightStep out e) l

/-- The submissions of the state `s` are in bounds: the trace so far passes `inflightOk`,
the unobserved submissions are on pairwise different fences of the ring, which has at most
`maxInflightSubmissions` slots, and the vectors are empty when there is no swapchain. -/
structure InflightSound (s : State) : Prop where
  ok : inflightOk [] s.world.trace = true
  good : RingGood s.vars.submissionFences (outstanding s.world.trace)
  size : s.vars.submissionFences.length ≤ maxInflightSubmissions
  empty : s.vars.swapchain = VK_NULL_HANDLE →
    s.vars.submissionFences = [] ∧ s.vars.imageReadySs = [] ∧ s.vars.renderDoneSs = []

/-- A computation that keeps the submissions in bounds, however it ends. -/
def M.Keeps {α : Type} (m : M α) : Prop :=
  ∀ s, InflightSound s → inflightOk [] (m s).2.world.trace = true
    ∧ ∀ a, (m s).1 = .ok a → InflightSound (m s).2

/-- The calls of a complete pass through the `try` block of `render` for the fence `f`. -/
def frameTrace (f sc sem : Handle) (i : Nat) (q1 q2 cb rd : Handle) (r1 r2 r3 r4 : VkResult) :
    List Event :=
  [.vkWaitForFences f VK_SUCCESS, .vkResetFences f r1, .vkAcquireNextImageKHR sc sem r2 i,
    .vkQueueSubmit q1 [sem] VK_PIPELINE_STAGE_COLOR_ATTACHMENT_OUTPUT_BIT [cb] [rd] f r3,
    .vkQueuePresentKHR q2 rd sc i r4]

/-- As `sampleEnv`, but the acquire of the second frame (the 33rd value-returning call)
reports `VK_ERROR_OUT_OF_DATE_KHR`. -/
def outOfDateSecondFrameEnv : Env :=
  { sampleEnv with
    result := fun tick => if tick = 32 then VK_ERROR_OUT_OF_DATE_KHR else VK_SUCCESS }

/-- The trace of the start-up `recreateSwapchain` and three `render()` calls in
`outOfDateSecondFrameEnv`: the second call recreates the swapchain and draws its frame. -/
def recreatedRingTrace : List Event :=
  (runAll sampleCtx outOfDateSecondFrameEnv
    [.recreateSwapchain, .render 1, .render 2, .render 1] State.initial).2.world.trace

/-- The calls of `recreatedRingTrace` before the submission of its last frame. -/
def beforeLastSubmit : List Event := recreatedRingTrace.take 124

/-! ### Start-up functions -/

/-- A surface that reports the largest `minImageCount` a `uint32_t` can hold and no upper
limit on the number of images. -/
def wrappingCapabilities : VkSurfaceCapabilitiesKHR :=
  { sampleCapabilities with minImageCount := 4294967295, maxImageCount := 0 }

/-- As `wrappingCapabilities`, with the same value as the upper limit. -/
def wrappingBoundedCapabilities : VkSurfaceCapabilitiesKHR :=
  { sampleCapabilities with minImageCount := 4294967295, maxImageCount := 4294967295 }

/-- Family `qf` of the list `qfps` has the graphics bit. -/
def hasGraphics (qfps : List VkQueueFamilyProperties) (qf : Nat) : Prop :=
  ∃ props, qfps[qf]? = some props ∧ props.queueFlags &&& VK_QUEUE_GRAPHICS_BIT ≠ 0

/-- Family `qf` of the list `qfps` supports presentation to the surface: the driver answers
`VK_TRUE` for it. -/
def canPresent (qfps : List VkQueueFamilyProperties) (support : Nat → VkResult × Nat)
    (qf : Nat) : Prop :=
  qf < qfps.length ∧ (support qf).2 = VK_TRUE

/-- Four queue families: transfer only, graphics without presentation, presentation without
graphics, and graphics with presentation. -/
def sampleQueueFamilies : List VkQueueFamilyProperties :=
  [{ queueFlags := 4 }, { queueFlags := 7 }, { queueFlags := 2 }, { queueFlags := 15 }]

/-- The presentation support that goes with `sampleQueueFamilies`; every query succeeds. -/
def sampleSupport : Nat → VkResult × Nat :=
  fun qf => (VK_SUCCESS, if qf = 2 ∨ qf = 3 then VK_TRUE else 0)

/-- The property flags `flags` contain all flags of `desired`. -/
def containsFlags (flags desired : Nat) : Prop :=
  ∀ b, desired.testBit b = true → flags.testBit b = true

/-- Memory type `i` satisfies the priority entry `desired`: it is one of the 32 memory
types, its bit is set in `memoryTypeBits`, and its property flags contain all flags of the
entry. -/
def satisfiesEntry (memoryTypeBits : Nat) (propertyFlags : Nat → Nat) (desired i : Nat) :
    Prop :=
  i < 32 ∧ memoryTypeBits.testBit i = true ∧ containsFlags (propertyFlags i) desired

/-- The priority list of lines 450-453. -/
def memoryTypePriority : List Nat :=
  [VK_MEMORY_PROPERTY_DEVICE_LOCAL_BIT ||| VK_MEMORY_PROPERTY_HOST_VISIBLE_BIT
      ||| VK_MEMORY_PROPERTY_HOST_COHERENT_BIT,
    VK_MEMORY_PROPERTY_HOST_VISIBLE_BIT ||| VK_MEMORY_PROPERTY_HOST_COHERENT_BIT]

/-- A device with three memory types: device-local, host-visible and coherent, and
device-local again; no type has the three flags of the first priority entry. -/
def samplePropertyFlags : Nat → Nat :=
  fun i => if i = 1 then 6 else if i = 0 ∨ i = 2 then 1 else 0

/-- A driver that allows memory types 0 to 2 for the resource and whose calls succeed. -/
def sampleMemoryDriver : MemoryDriver :=
  { requirements := { size := 60, memoryTypeBits := 7 }
    allocate := fun _ => (VK_SUCCESS, 201)
    bind := fun _ => VK_SUCCESS }

/-! ### The exact effect of `createNew` -/

/-- The image-view creations of `initSwapchainImageViews` for the images `images` when each
succeeds: the views get the handles after `first`. -/
def viewTrace (format : Nat) (images : List Handle) (first : Nat) : List Event :=
  List.zipWith (fun image view => Event.vkCreateImageView image format VK_SUCCESS view) images
    (freshHandles first images.length)

/-- The framebuffer creations of `initFramebuffers` for the views `imageViews` when each
succeeds: the framebuffers get the handles after `first`. -/
def framebufferTrace (renderPass : Handle) (surfaceSize : VkExtent2D) (imageViews : List Handle)
    (first : Nat) : List Event :=
  List.zipWith
    (fun view framebuffer => Event.vkCreateFramebuffer renderPass view surfaceSize.width
      surfaceSize.height VK_SUCCESS framebuffer)
    imageViews (freshHandles first imageViews.length)

/-- The content of `commandBuffers` after `acquireCommandBuffers( ..., count )` when the
allocation, if one is made, succeeds and yields the handles after `first` (lines
2264-2284). -/
def acquiredBuffers (old : List Handle) (count first : Nat) : List Handle :=
  if count > toUInt32 old.length then
    (resize count old).take (toUInt32 old.length)
      ++ freshHandles first (count - toUInt32 old.length)
  else if count < toUInt32 old.length then resize count old
  else old

/-- The call `acquireCommandBuffers( ..., count )` makes: an allocation of the missing
command buffers, a release of the surplus ones, or nothing. -/
def acquireTrace (ctx : Ctx) (old : List Handle) (count first : Nat) : List Event :=
  if count > toUInt32 old.length then
    [.vkAllocateCommandBuffers ctx.commandPool (count - toUInt32 old.length) VK_SUCCESS
      (freshHandles first (count - toUInt32 old.length))]
  else if count < toUInt32 old.length then
    [.vkFreeCommandBuffers ctx.commandPool
      ((old.drop count).take (toUInt32 old.length - count))]
  else []

/-- The number of value-returning calls of `acquireCommandBuffers( ..., count )`. -/
def acquireTicks (old : List Handle) (count : Nat) : Nat :=
  if count > toUInt32 old.length then 1 else 0

/-- What a `createNew` all of whose calls succeed does, started with the variables `v` in
the world `w`, for a swapchain of `n` images: the handles it leaves in the variables `v1`,
the position, handle supply and trace of the world `w1` it leaves. The handles are handed
out in the order of the create calls: the swapchain, its `n` images, the `n` views, the `n`
framebuffers, the pipeline, the missing command buffers, the two image-ready semaphores,
the `n` render-done semaphores and the two fences. -/
structure Assembled (ctx : Ctx) (env : Env) (capabilities : VkSurfaceCapabilitiesKHR)
    (surfaceSize : VkExtent2D) (oldSwapchain : Handle) (v : Vars) (w : World) (n : Nat)
    (v1 : Vars) (w1 : World) : Prop where
  count_eq : n = toUInt32 (env.imageCount (w.tick + 2))
  swapchain : v1.swapchain = w.nextHandle + 1
  imageViews : v1.swapchainImageViews = freshHandles (w.nextHandle + 1 + n) n
  framebuffers : v1.framebuffers = freshHandles (w.nextHandle + 1 + n + n) n
  pipeline : v1.pipeline = w.nextHandle + 1 + n + n + n + 1
  commandBuffers : v1.commandBuffers
    = acquiredBuffers v.commandBuffers n (w.nextHandle + 1 + n + n + n + 1)
  imageReadySs : v1.imageReadySs
    = freshHandles (w.nextHandle + 1 + n + n + n + 1 + (n - toUInt32 v.commandBuffers.length))
        maxInflightSubmissions
  renderDoneSs : v1.renderDoneSs
    = freshHandles (w.nextHandle + 1 + n + n + n + 1 + (n - toUInt32 v.commandBuffers.length)
        + maxInflightSubmissions) n
  submissionFences : v1.submissionFences
    = freshHandles (w.nextHandle + 1 + n + n + n + 1 + (n - toUInt32 v.commandBuffers.length)
        + maxInflightSubmissions + n) maxInflightSubmissions
  submissionNr : v1.submissionNr = 0
  nextHandle : w1.nextHandle
    = w.nextHandle + 1 + n + n + n + 1 + (n - toUInt32 v.commandBuffers.length)
        + maxInflightSubmissions + n + maxInflightSubmissions
  tick : w1.tick = w.tick + 2 + 1 + n + n + 1 + acquireTicks v.commandBuffers n + 2 * n
    + maxInflightSubmissions + n + maxInflightSubmissions
  trace : ∃ info : VkSwapchainCreateInfoKHR,
    info.imageExtent = capabilities.currentExtent
    ∧ info.oldSwapchain = oldSwapchain
    ∧ info.minImageCount = myMinImageCount capabilities
    ∧ w1.trace = w.trace
      ++ [.vkGetPhysicalDeviceSurfacePresentModesKHR VK_SUCCESS (env.presentModes w.tick),
          .vkCreateSwapchainKHR info VK_SUCCESS (w.nextHandle + 1),
          .vkGetSwapchainImagesKHR (w.nextHandle + 1) VK_SUCCESS
            (freshHandles (w.nextHandle + 1) n)]
      ++ viewTrace ctx.surfaceFormat.format (freshHandles (w.nextHandle + 1) n)
          (w.nextHandle + 1 + n)
      ++ framebufferTrace ctx.renderPass surfaceSize v1.swapchainImageViews
          (w.nextHandle + 1 + n + n)
      ++ [.vkCreateGraphicsPipelines
          { width := toFloat (if surfaceSize.width ≠ 0 then surfaceSize.width else 1),
            height := toFloat (if surfaceSize.height ≠ 0 then surfaceSize.height else 1) }
          { width := surfaceSize.width, height := surfaceSize.height } VK_SUCCESS v1.pipeline]
      ++ acquireTrace ctx v.commandBuffers n v1.pipeline
      ++ recordAll ctx surfaceSize v1 n 0
      ++ v1.imageReadySs.map (.vkCreateSemaphore VK_SUCCESS)
      ++ v1.renderDoneSs.map (.vkCreateSemaphore VK_SUCCESS)
      ++ v1.submissionFences.map (.vkCreateFence VK_FENCE_CREATE_SIGNALED_BIT VK_SUCCESS)

/-- What a `recreateSwapchain` that returned `true` has done, called with the variables `v`
in the world `w` and leaving `v1` and `w1`, for a swapchain of `n` images: the snapshot was
creatable, the program's own checks passed, the calls it made succeeded, and between the
capabilities query (followed by the cleanup of the old objects when there was an old
swapchain) and the destruction of the old swapchain and image-ready semaphores lies exactly
the creation described by `Assembled`. -/
structure Recreated (ctx : Ctx) (env : Env) (v : Vars) (w : World) (v1 : Vars) (w1 : World)
    (n : Nat) : Prop where
  creatable : creatableAt env w.tick = true
  guards : createGuards ctx env (snapshotAt env w.tick) (createTick v w)
  succeeded : env.SucceedsWithin w.tick w1.tick
  assembled : ∃ (vc : Vars) (wc wb : World), vc.commandBuffers = v.commandBuffers
    ∧ wc.tick = createTick v w ∧ wc.nextHandle = w.nextHandle
    ∧ wc.trace = w.trace ++ [.enter .recreateSwapchain,
        .vkGetPhysicalDeviceSurfaceCapabilitiesKHR VK_SUCCESS (env.capabilities w.tick)]
        ++ (if v.swapchain ≠ VK_NULL_HANDLE then cleanupTrace ctx v else [])
    ∧ Assembled ctx env (snapshotAt env w.tick) (sizeAt env w.tick) v.swapchain vc wc n v1 wb
    ∧ w1.tick = wb.tick ∧ w1.nextHandle = wb.nextHandle
    ∧ w1.trace = wb.trace ++ (if v.swapchain ≠ VK_NULL_HANDLE then killTrace v else [])

/-! ### The content of the command buffers -/

/-- A successful reset of the command pool: it returns every command buffer of the pool to
the initial state. -/
def Event.isPoolReset : Event → Bool
  | .vkResetCommandPool _ result => decide (result = VK_SUCCESS)
  | _ => false

/-- The command buffer a recording call records into. -/
def Event.recordsInto : Event → Option Handle
  | .vkBeginCommandBuffer commandBuffer _ => some commandBuffer
  | .vkCmdBeginRenderPass commandBuffer _ _ _ _ _ => some commandBuffer
  | .vkCmdBindPipeline commandBuffer _ => some commandBuffer
  | .vkCmdBindVertexBuffers commandBuffer _ _ => some commandBuffer
  | .vkCmdBindDescriptorSets commandBuffer _ _ => some commandBuffer
  | .vkCmdDraw commandBuffer _ _ _ _ => some commandBuffer
  | .vkCmdEndRenderPass commandBuffer => some commandBuffer
  | .vkEndCommandBuffer commandBuffer _ => some commandBuffer
  | _ => none

/-- The calls of a trace made since the last successful reset of the command pool. -/
def sinceReset (l : List Event) : List Event :=
  l.foldl (fun acc e => if e.isPoolReset = true then [] else acc ++ [e]) []

/-- The command sequence the command buffer `commandBuffer` holds at the end of the trace
`l`: the recording calls made on it since the command pool was last reset. -/
def recordedInto (commandBuffer : Handle) (l : List Event) : List Event :=
  (sinceReset l).filter fun e => decide (e.recordsInto = some commandBuffer)

def Event.isDraw : Event → Bool
  | .vkCmdDraw _ _ _ _ _ => true
  | _ => false

/-- The command buffers of the vector are pairwise different handles that were handed out,
fewer than 2^32 of them, and while there is no swapchain nothing is recorded in the command
buffers of the pool. -/
structure Tidy (s : State) : Prop where
  nodup : s.vars.commandBuffers.Nodup
  handed : ∀ cb ∈ s.vars.commandBuffers, cb ≤ s.world.nextHandle
  bounded : s.vars.commandBuffers.length < 2 ^ 32
  blank : s.vars.swapchain = VK_NULL_HANDLE →
    ∀ e ∈ sinceReset s.world.trace, e.recordsInto = none

/-- The state the program is in after the start-up `recreateSwapchain` and one frame, in
`sampleEnv`. -/
def sampleFrame : State :=
  (runAll sampleCtx sampleEnv [.recreateSwapchain, .render 1] State.initial).2

/-! ### The results the calls reported -/

/-- The `VkResult` a call reported, for the calls that report one. -/
def Event.reported : Event → Option VkResult
  | .vkGetPhysicalDeviceSurfaceCapabilitiesKHR result _ => some result
  | .vkGetPhysicalDeviceSurfacePresentModesKHR result _ => some result
  | .vkDeviceWaitIdle result => some result
  | .vkResetCommandPool _ result => some result
  | .vkCreateSwapchainKHR _ result _ => some result
  | .vkGetSwapchainImagesKHR _ result _ => some result
  | .vkCreateImageView _ _ result _ => some result
  | .vkCreateFramebuffer _ _ _ _ result _ => some result
  | .vkCreateGraphicsPipelines _ _ result _ => some result
  | .vkAllocateCommandBuffers _ _ result _ => some result
  | .vkBeginCommandBuffer _ result => some result
  | .vkEndCommandBuffer _ result => some result
  | .vkCreateSemaphore result _ => some result
  | .vkCreateFence _ result _ => some result
  | .vkWaitForFences _ result => some result
  | .vkResetFences _ result => some result
  | .vkAcquireNextImageKHR _ _ result _ => some result
  | .vkQueueSubmit _ _ _ _ _ _ result => some result
  | .vkQueuePresentKHR _ _ _ _ result => some result
  | _ => none

/-- A computation that leaves in the trace, for every value-returning call it makes, an
entry with the result the environment gave at that position, and that, unless it ends with
a `VulkanResultException`, saw every call it made succeed. -/
def W.Logged (env : Env) {α : Type} (m : W α) : Prop :=
  ∀ w, ∃ l, (m w).2.trace = w.trace ++ l
    ∧ ∀ k, w.tick ≤ k → k < (m w).2.tick →
      (∃ e ∈ l, e.reported = some (env.result k))
      ∧ ((∀ source result, (m w).1 ≠ .error (.vulkanResult source result)) →
          env.result k = VK_SUCCESS)

def M.Logged (env : Env) {α : Type} (m : M α) : Prop :=
  ∀ s, ∃ l, (m s).2.world.trace = s.world.trace ++ l
    ∧ ∀ k, s.world.tick ≤ k → k < (m s).2.world.tick →
      (∃ e ∈ l, e.reported = some (env.result k))
      ∧ ((∀ source result, (m s).1 ≠ .error (.vulkanResult source result)) →
          env.result k = VK_SUCCESS)

/-! ### The image count and the sizes of the vectors -/

/-- The swapchain and the number of images a successful `vkGetSwapchainImagesKHR`
reports. -/
def Event.enumerates : Event → Option (Handle × Nat)
  | .vkGetSwapchainImagesKHR swapchain result images =>
    if result = VK_SUCCESS then some (swapchain, images.length) else none
  | _ => none

/-- The swapchain enumerated last and its image count, after one more entry of the trace. -/
def enumeratedStep (current : Option (Handle × Nat)) (e : Event) : Option (Handle × Nat) :=
  match e.enumerates with
  | some x => some x
  | none => current

/-- The swapchain enumerated last in a trace and its image count. -/
def enumerated (l : List Event) : Option (Handle × Nat) := l.foldl enumeratedStep none

/-- The sizes of the vectors while there is a swapchain of `n` images: the two rings have
`maxInflightSubmissions` elements, `submissionNr` is a valid index of them, and there is one
command buffer, render-done semaphore, framebuffer and image view per image. -/
structure Sized (v : Vars) (n : Nat) : Prop where
  submissionNr : v.submissionNr < maxInflightSubmissions
  submissionFences : v.submissionFences.length = maxInflightSubmissions
  imageReadySs : v.imageReadySs.length = maxInflightSubmissions
  commandBuffers : v.commandBuffers.length = n
  renderDoneSs : v.renderDoneSs.length = n
  framebuffers : v.framebuffers.length = n
  swapchainImageViews : v.swapchainImageViews.length = n

/-- The invariant of the recreate/render state machine: `commandBuffers` has fewer than 2^32
elements, and while `swapchain` is not null it is the swapchain enumerated last and the
vectors have the sizes `Sized` for its image count. -/
structure Shaped (s : State) : Prop where
  bounded : s.vars.commandBuffers.length < 2 ^ 32
  live : s.vars.swapchain ≠ VK_NULL_HANDLE →
    ∃ n, enumerated s.world.trace = some (s.vars.swapchain, n) ∧ Sized s.vars n

/-- Every successful `vkAcquireNextImageKHR` of the trace `l` returned an index below the
image count of the swapchain it was called on, `current` being the swapchain enumerated last
before `l` and its image count. -/
def acquiresInRange : Option (Handle × Nat) → List Event → Bool
  | _, [] => true
  | current, e :: l =>
    (match e with
      | .vkAcquireNextImageKHR swapchain _ result imageIndex =>
        if result = VK_SUCCESS then
          match current with
          | some (enumeratedSwapchain, n) =>
            decide (enumeratedSwapchain = swapchain ∧ imageIndex < n)
          | none => false
        else true
      | _ => true)
    && acquiresInRange (enumeratedStep current e) l

/-! ### Transient results -/

/-- The two results `render` recovers from. -/
def isTransient (result : VkResult) : Bool :=
  decide (result = VK_SUBOPTIMAL_KHR) || decide (result = VK_ERROR_OUT_OF_DATE_KHR)

/-- The acquire, submit and present calls of the `try` block of `render`: the submission of
the frame executes a command buffer, the one made by `cleanupUnsafeSemaphore` in the handler
executes none. -/
def Event.tryCall : Event → Bool
  | .vkAcquireNextImageKHR _ _ _ _ => true
  | .vkQueueSubmit _ _ _ commandBuffers _ _ _ => !commandBuffers.isEmpty
  | .vkQueuePresentKHR _ _ _ _ _ => true
  | _ => false

/-- An acquire, submit or present of the `try` block that reported a transient result. -/
def Event.transient (e : Event) : Bool :=
  e.tryCall && (match e.reported with
    | some result => isTransient result
    | none => false)

/-- A call that reported a result other than `VK_SUCCESS`. -/
def Event.failed (e : Event) : Bool :=
  match e.reported with
  | some result => decide (result ≠ VK_SUCCESS)
  | none => false

/-- The number of transient results in a trace. -/
def transients (l : List Event) : Nat := l.countP Event.transient

/-- The number of invocations of `render` recorded in a trace. -/
def renders (l : List Event) : Nat := l.count (.enter .render)

/-- As `sampleEnv`, but the acquire of each of the first `d` attempts of the first frame
reports `VK_ERROR_OUT_OF_DATE_KHR`: the start-up `recreateSwapchain` makes 25
value-returning calls, the acquire is the third call of an attempt, and the
`recreateSwapchain` of the handler makes 26 calls. -/
def retryEnv (d : Nat) : Env :=
  { sampleEnv with
    result := fun tick =>
      if 27 ≤ tick ∧ (tick - 27) % 29 = 0 ∧ (tick - 27) / 29 < d then VK_ERROR_OUT_OF_DATE_KHR
      else VK_SUCCESS }

/-- The entries a computation adds to the trace of the state it is run in. -/
def addedTrace {α : Type} (m : M α) (s : State) : List Event :=
  (m s).2.world.trace.drop s.world.trace.length

/-- The state after the start-up `recreateSwapchain` in `retryEnv 1`. -/
def retryStart : State :=
  (runAll sampleCtx (retryEnv 1) [.recreateSwapchain] State.initial).2

/-- A surface 16777217 (2^24 + 1) pixels wide, within its extent limits. -/
def wideCapabilities : VkSurfaceCapabilitiesKHR :=
  { sampleCapabilities with
    currentExtent := { width := 16777217, height := 480 }
    maxImageExtent := { width := 16777217, height := 4096 } }

/-- As `sampleEnv`, for the wide surface. -/
def wideEnv : Env := { sampleEnv with capabilities := fun _ => wideCapabilities }

/-- The state after the first `recreateSwapchain` of `start()` in `wideEnv`. -/
def wideLive : State := (recreateSwapchain sampleCtx wideEnv State.initial).2

/-! ## Reasoning about computations -/

/-! ## Reasoning about computations -/

section Basics
variable {α β : Type}

@[simp] theorem wPure_apply (a : α) (w : World) : Pure.pure (f := W) a w = (.ok a, w) := rfl

theorem wBind_apply (m : W α) (f : α → W β) (w : World) :
    (m >>= f) w = match m w with
      | (.ok a, w1) => f a w1
      | (.error e, w1) => (.error e, w1) := rfl

@[simp] theorem wPure_apply_def (a : α) (w : World) : W.pure a w = (.ok a, w) := rfl

@[simp] theorem mPure_apply_def (a : α) (s : State) : M.pure a s = (.ok a, s) := rfl

@[simp] theorem wRaise_apply (e : Exn) (w : World) : (W.raise e : W α) w = (.error e, w) := rfl

@[simp] theorem mPure_apply (a : α) (s : State) : Pure.pure (f := M) a s = (.ok a, s) := rfl

theorem mBind_apply (m : M α) (f : α → M β) (s : State) :
    (m >>= f) s = match m s with
      | (.ok a, s1) => f a s1
      | (.error e, s1) => (.error e, s1) := rfl

@[simp] theorem mRaise_apply (e : Exn) (s : State) : (M.raise e : M α) s = (.error e, s) := rfl

@[simp] theorem liftW_apply (m : W α) (s : State) :
    liftW m s = ((m s.world).1, { s with world := (m s.world).2 }) := rfl

@[simp] theorem getVars_apply (s : State) : getVars s = (.ok s.vars, s) := rfl

@[simp] theorem modifyVars_apply (f : Vars → Vars) (s : State) :
    modifyVars f s = (.ok (), { s with vars := f s.vars }) := rfl

@[simp] theorem emit_apply (e : Event) (w : World) :
    emit e w = (.ok (), { w with trace := w.trace ++ [e] }) := rfl

end Basics

theorem World.Grows.refl (w : World) : World.Grows w w :=
  ⟨Nat.le_refl _, [], by simp⟩

theorem World.Grows.trans {w w1 w2 : World} (h1 : World.Grows w w1) (h2 : World.Grows w1 w2) :
    World.Grows w w2 := by
  obtain ⟨t1, l1, e1, p1⟩ := h1
  obtain ⟨t2, l2, e2, p2⟩ := h2
  refine ⟨Nat.le_trans t1 t2, l1 ++ l2, by rw [e2, e1, List.append_assoc], ?_⟩
  intro e he
  rcases List.mem_append.mp he with h | h
  · exact p1 e h
  · exact p2 e h

section Closure
variable {α β : Type}

theorem W.Lifecycle.wPure (a : α) : W.Lifecycle (pure a : W α) := by
  intro w; exact ⟨World.Grows.refl w, by simp⟩

theorem W.Lifecycle.wBind {m : W α} {f : α → W β} (hm : W.Lifecycle m)
    (hf : ∀ a, W.Lifecycle (f a)) : W.Lifecycle (m >>= f) := by
  intro w
  rw [wBind_apply]
  have h := hm w
  rcases hmw : m w with ⟨r, w1⟩
  rw [hmw] at h
  cases r with
  | ok a => exact ⟨h.1.trans (hf a w1).1, (hf a w1).2⟩
  | error e => simpa using h

theorem W.Lifecycle.wRaise {e : Exn} (h : Exn.fromLifecycle e = true) :
    W.Lifecycle (W.raise e : W α) := by
  intro w; refine ⟨World.Grows.refl w, ?_⟩
  intro e1 he; simp at he; subst he; exact h

theorem W.Lifecycle.emit {e : Event} (h : Event.isLifecycle e = true) :
    W.Lifecycle (emit e) := by
  intro w
  exact ⟨⟨Nat.le_refl _, [e], rfl, by simpa using h⟩, by simp⟩

theorem W.Lifecycle.report (env : Env) {mk : VkResult → Event}
    (h : ∀ r, Event.isLifecycle (mk r) = true) : W.Lifecycle (report env mk) := by
  intro w
  exact ⟨⟨Nat.le_succ _, [mk (env.result w.tick)], rfl, by simpa using h _⟩, by simp [VulkanExperiments.report]⟩

theorem W.Lifecycle.create (env : Env) {mk : VkResult → Handle → Event}
    (h : ∀ r x, Event.isLifecycle (mk r x) = true) : W.Lifecycle (create env mk) := by
  intro w
  exact ⟨⟨Nat.le_succ _, [mk (env.result w.tick) (w.nextHandle + 1)], rfl, by simpa using h _ _⟩,
    by simp [VulkanExperiments.create]⟩

theorem W.Lifecycle.resultHandler (errorCode : VkResult) {source : Api}
    (h : Api.isFrameCall source = false) : W.Lifecycle (RESULT_HANDLER errorCode source) := by
  unfold RESULT_HANDLER
  split
  · exact W.Lifecycle.wRaise (by simp [Exn.fromLifecycle, h])
  · exact W.Lifecycle.wPure _

theorem W.Lifecycle.wIte {c : Prop} [Decidable c] {m1 m2 : W α} (h1 : W.Lifecycle m1)
    (h2 : W.Lifecycle m2) : W.Lifecycle (if c then m1 else m2) := by
  split <;> assumption

theorem W.Lifecycle.getTick : W.Lifecycle getTick := by
  intro w; exact ⟨World.Grows.refl _, by simp [VulkanExperiments.getTick]⟩

theorem W.Lifecycle.allocate (n : Nat) : W.Lifecycle (allocate n) := by
  intro w; exact ⟨⟨Nat.le_refl _, [], by simp [VulkanExperiments.allocate], by simp⟩,
    by simp [VulkanExperiments.allocate]⟩

theorem W.Lifecycle.setSelectedMode (mode : Int) : W.Lifecycle (setSelectedMode mode) := by
  intro w; exact ⟨⟨Nat.le_refl _, [], by simp [VulkanExperiments.setSelectedMode], by simp⟩,
    by simp [VulkanExperiments.setSelectedMode]⟩

theorem M.Lifecycle.mPure (a : α) : M.Lifecycle (pure a : M α) := by
  intro s; exact ⟨World.Grows.refl _, by simp⟩

theorem M.Lifecycle.mBind {m : M α} {f : α → M β} (hm : M.Lifecycle m)
    (hf : ∀ a, M.Lifecycle (f a)) : M.Lifecycle (m >>= f) := by
  intro s
  rw [mBind_apply]
  have h := hm s
  rcases hms : m s with ⟨r, s1⟩
  rw [hms] at h
  cases r with
  | ok a => exact ⟨h.1.trans (hf a s1).1, (hf a s1).2⟩
  | error e => simpa using h

theorem M.Lifecycle.liftW {m : W α} (hm : W.Lifecycle m) : M.Lifecycle (liftW m) := by
  intro s; simpa using hm s.world

theorem M.Lifecycle.getVars : M.Lifecycle getVars := by
  intro s; exact ⟨World.Grows.refl _, by simp⟩

theorem M.Lifecycle.modifyVars (f : Vars → Vars) : M.Lifecycle (modifyVars f) := by
  intro s; exact ⟨World.Grows.refl _, by simp⟩

theorem M.Lifecycle.index (xs : List Handle) (i : Nat) : M.Lifecycle (index xs i) := by
  intro s
  unfold VulkanExperiments.index
  cases xs[i]? with
  | some x => exact M.Lifecycle.mPure x s
  | none =>
    refine ⟨World.Grows.refl _, ?_⟩
    intro e he; simp at he; subst he; rfl

theorem M.Lifecycle.mIte {c : Prop} [Decidable c] {m1 m2 : M α} (h1 : M.Lifecycle m1)
    (h2 : M.Lifecycle m2) : M.Lifecycle (if c then m1 else m2) := by
  split <;> assumption

end Closure

/-! ### Every helper of `recreateSwapchain` is a lifecycle computation -/

theorem getSurfaceCapabilities_lifecycle (env : Env) :
    W.Lifecycle (getSurfaceCapabilities env) :=
  .wBind .getTick fun _ => .wBind (.report env (fun _ => rfl)) fun _ =>
    .wBind (.resultHandler _ rfl) fun _ => .wPure _

theorem enumeratePresentModes_lifecycle (env : Env) :
    W.Lifecycle (enumeratePresentModes env) :=
  .wBind .getTick fun _ => .wBind (.report env (fun _ => rfl)) fun _ =>
    .wBind (.resultHandler _ rfl) fun _ => .wPure _

theorem enumerateSwapchainImages_lifecycle (env : Env) (swapchain : Handle) :
    W.Lifecycle (enumerateSwapchainImages env swapchain) :=
  .wBind .getTick fun _ => .wBind (.allocate _) fun _ => .wBind (.report env (fun _ => rfl)) fun _ =>
    .wBind (.resultHandler _ rfl) fun _ => .wPure _

theorem getSurfacePresentMode_lifecycle (env : Env) : W.Lifecycle (getSurfacePresentMode env) := by
  unfold getSurfacePresentMode
  refine .wBind (enumeratePresentModes_lifecycle env) fun modes => ?_
  split
  · exact .wBind (.setSelectedMode _) fun _ => .wPure _
  · split
    · exact .wBind (.setSelectedMode _) fun _ => .wPure _
    · split
      · exact .wRaise rfl
      · exact .wBind (.setSelectedMode _) fun _ => .wPure _

theorem initSwapchain_lifecycle (ctx : Ctx) (env : Env) (capabilities : VkSurfaceCapabilitiesKHR)
    (oldSwapchain : Handle) : W.Lifecycle (initSwapchain ctx env capabilities oldSwapchain) := by
  unfold initSwapchain
  split
  · exact .wRaise rfl
  · exact .wBind (getSurfacePresentMode_lifecycle env) fun _ =>
      .wBind (.create env (fun _ _ => rfl)) fun _ => .wBind (.resultHandler _ rfl) fun _ => .wPure _

theorem destroyEach_lifecycle (mk : Handle → Event) (h : ∀ x, Event.isLifecycle (mk x) = true)
    (xs : List Handle) : W.Lifecycle (destroyEach mk xs) := by
  induction xs with
  | nil => exact .wPure _
  | cons x xs ih => exact .wBind (.emit (h x)) fun _ => ih

theorem killSwapchain_lifecycle (swapchain : Handle) : W.Lifecycle (killSwapchain swapchain) :=
  .emit rfl

theorem killPipeline_lifecycle (pipeline : Handle) : W.Lifecycle (killPipeline pipeline) :=
  .emit rfl

theorem killSwapchainImageViews_lifecycle (xs : List Handle) :
    W.Lifecycle (killSwapchainImageViews xs) :=
  .wBind (destroyEach_lifecycle Event.vkDestroyImageView (fun _ => rfl) xs) fun _ => .wPure _

theorem killFramebuffers_lifecycle (xs : List Handle) : W.Lifecycle (killFramebuffers xs) :=
  .wBind (destroyEach_lifecycle Event.vkDestroyFramebuffer (fun _ => rfl) xs) fun _ => .wPure _

theorem killSemaphores_lifecycle (xs : List Handle) : W.Lifecycle (killSemaphores xs) :=
  .wBind (destroyEach_lifecycle Event.vkDestroySemaphore (fun _ => rfl) xs) fun _ => .wPure _

theorem killFences_lifecycle (xs : List Handle) : W.Lifecycle (killFences xs) :=
  .wBind (destroyEach_lifecycle Event.vkDestroyFence (fun _ => rfl) xs) fun _ => .wPure _

theorem initImageView_lifecycle (env : Env) (image : Handle) (format : Nat) :
    W.Lifecycle (initImageView env image format) :=
  .wBind (.create env (fun _ _ => rfl)) fun _ => .wBind (.resultHandler _ rfl) fun _ => .wPure _

theorem initSwapchainImageViewsLoop_lifecycle (env : Env) (format : Nat) (images : List Handle)
    (acc : List Handle) : W.Lifecycle (initSwapchainImageViewsLoop env format images acc) := by
  induction images generalizing acc with
  | nil => exact .wPure _
  | cons x xs ih => exact .wBind (initImageView_lifecycle env x format) fun _ => ih _

theorem initFramebuffersLoop_lifecycle (env : Env) (renderPass : Handle) (width height : Nat)
    (imageViews : List Handle) (acc : List Handle) :
    W.Lifecycle (initFramebuffersLoop env renderPass width height imageViews acc) := by
  induction imageViews generalizing acc with
  | nil => exact .wPure _
  | cons x xs ih =>
    exact .wBind (.create env (fun _ _ => rfl)) fun _ =>
      .wBind (.resultHandler _ rfl) fun _ => ih _

theorem initPipeline_lifecycle (ctx : Ctx) (env : Env) (binding width height : Nat) :
    W.Lifecycle (initPipeline ctx env binding width height) := by
  unfold initPipeline
  refine .wBind (.wIte (.wRaise rfl) (.wPure _)) fun _ => ?_
  refine .wBind (.wIte (.wRaise rfl) (.wPure _)) fun _ => ?_
  refine .wBind (.wIte (.wRaise rfl) (.wPure _)) fun _ => ?_
  refine .wBind (.wIte (.wRaise rfl) (.wPure _)) fun _ => ?_
  refine .wBind (.wIte (.wRaise rfl) (.wPure _)) fun _ => ?_
  exact .wBind (.create env (fun _ _ => rfl)) fun _ => .wBind (.resultHandler _ rfl) fun _ => .wPure _

theorem initSemaphore_lifecycle (env : Env) : W.Lifecycle (initSemaphore env) :=
  .wBind (.create env (fun _ _ => rfl)) fun _ => .wBind (.resultHandler _ rfl) fun _ => .wPure _

theorem initSemaphoresLoop_lifecycle (env : Env) (count : Nat) (acc : List Handle) :
    W.Lifecycle (initSemaphoresLoop env count acc) := by
  induction count generalizing acc with
  | zero => exact .wPure _
  | succ n ih => exact .wBind (initSemaphore_lifecycle env) fun _ => ih _

theorem initFence_lifecycle (env : Env) (flags : Nat) : W.Lifecycle (initFence env flags) :=
  .wBind (.create env (fun _ _ => rfl)) fun _ => .wBind (.resultHandler _ rfl) fun _ => .wPure _

theorem initFencesLoop_lifecycle (env : Env) (flags : Nat) (count : Nat) (acc : List Handle) :
    W.Lifecycle (initFencesLoop env flags count acc) := by
  induction count generalizing acc with
  | zero => exact .wPure _
  | succ n ih => exact .wBind (initFence_lifecycle env flags) fun _ => ih _

theorem allocateCommandBuffers_lifecycle (env : Env) (commandPool : Handle) (count : Nat) :
    W.Lifecycle (allocateCommandBuffers env commandPool count) :=
  .wBind (.allocate _) fun _ => .wBind (.report env (fun _ => rfl)) fun _ => .wPure _

theorem acquireCommandBuffers_lifecycle (ctx : Ctx) (env : Env) (count : Nat) :
    M.Lifecycle (acquireCommandBuffers ctx env count) := by
  unfold acquireCommandBuffers
  refine .mBind .getVars fun _ => ?_
  refine .mBind (.mIte ?_ (.mPure _)) fun _ => .mIte ?_ (.mPure _)
  · exact .mBind (.modifyVars _) fun _ =>
      .mBind (.liftW (allocateCommandBuffers_lifecycle env _ _)) fun _ =>
        .mBind (.modifyVars _) fun _ => .liftW (.resultHandler _ rfl)
  · exact .mBind .getVars fun _ => .mBind (.liftW (.emit rfl)) fun _ => .modifyVars _

theorem beginCommandBuffer_lifecycle (env : Env) (commandBuffer : Handle) :
    W.Lifecycle (beginCommandBuffer env commandBuffer) :=
  .wBind (.report env (fun _ => rfl)) fun _ => .resultHandler _ rfl

theorem endCommandBuffer_lifecycle (env : Env) (commandBuffer : Handle) :
    W.Lifecycle (endCommandBuffer env commandBuffer) :=
  .wBind (.report env (fun _ => rfl)) fun _ => .resultHandler _ rfl

theorem recordCommandBuffer_lifecycle (ctx : Ctx) (env : Env) (surfaceSize : VkExtent2D)
    (i : Nat) : M.Lifecycle (recordCommandBuffer ctx env surfaceSize i) := by
  unfold recordCommandBuffer
  refine .mBind .getVars fun _ => .mBind (.index _ _) fun _ =>
    .mBind (.liftW (beginCommandBuffer_lifecycle env _)) fun _ => ?_
  refine .mBind .getVars fun _ => .mBind (.index _ _) fun _ =>
    .mBind .getVars fun _ => .mBind (.index _ _) fun _ => .mBind (.liftW (.emit rfl)) fun _ => ?_
  refine .mBind .getVars fun _ => .mBind (.index _ _) fun _ =>
    .mBind .getVars fun _ => .mBind (.liftW (.emit rfl)) fun _ => ?_
  refine .mBind .getVars fun _ => .mBind (.index _ _) fun _ => .mBind (.liftW (.emit rfl)) fun _ => ?_
  refine .mBind .getVars fun _ => .mBind (.index _ _) fun _ => .mBind (.liftW (.emit rfl)) fun _ => ?_
  refine .mBind .getVars fun _ => .mBind (.index _ _) fun _ => .mBind (.liftW (.emit rfl)) fun _ => ?_
  refine .mBind .getVars fun _ => .mBind (.index _ _) fun _ => .mBind (.liftW (.emit rfl)) fun _ => ?_
  exact .mBind .getVars fun _ => .mBind (.index _ _) fun _ =>
    .liftW (endCommandBuffer_lifecycle env _)

theorem recordCommandBuffers_lifecycle (ctx : Ctx) (env : Env) (surfaceSize : VkExtent2D)
    (remaining i : Nat) : M.Lifecycle (recordCommandBuffers ctx env surfaceSize remaining i) := by
  induction remaining generalizing i with
  | zero => exact .mPure _
  | succ n ih => exact .mBind (recordCommandBuffer_lifecycle ctx env surfaceSize i) fun _ => ih _

theorem cleanupOld_lifecycle (ctx : Ctx) (env : Env) : M.Lifecycle (cleanupOld ctx env) := by
  unfold cleanupOld
  refine .mBind (.liftW (.report env (fun _ => rfl))) fun _ =>
    .mBind (.liftW (.resultHandler _ rfl)) fun _ => ?_
  refine .mBind .getVars fun _ => .mBind (.liftW (killFences_lifecycle _)) fun _ =>
    .mBind (.modifyVars _) fun _ => ?_
  refine .mBind .getVars fun _ => .mBind (.liftW (killSemaphores_lifecycle _)) fun _ =>
    .mBind (.modifyVars _) fun _ => ?_
  refine .mBind (.liftW (.report env (fun _ => rfl))) fun _ =>
    .mBind (.liftW (.resultHandler _ rfl)) fun _ => ?_
  refine .mBind .getVars fun _ => .mBind (.liftW (killPipeline_lifecycle _)) fun _ => ?_
  refine .mBind .getVars fun _ => .mBind (.liftW (killFramebuffers_lifecycle _)) fun _ =>
    .mBind (.modifyVars _) fun _ => ?_
  exact .mBind .getVars fun _ => .mBind (.liftW (killSwapchainImageViews_lifecycle _)) fun _ =>
    .modifyVars _

theorem createNew_lifecycle (ctx : Ctx) (env : Env) (capabilities : VkSurfaceCapabilitiesKHR)
    (surfaceSize : VkExtent2D) (oldSwapchain : Handle) :
    M.Lifecycle (createNew ctx env capabilities surfaceSize oldSwapchain) := by
  unfold createNew
  refine .mBind (.liftW (initSwapchain_lifecycle ctx env _ _)) fun _ =>
    .mBind (.modifyVars _) fun _ => ?_
  refine .mBind .getVars fun _ => .mBind (.liftW (enumerateSwapchainImages_lifecycle env _)) fun _ => ?_
  refine .mBind (.liftW (initSwapchainImageViewsLoop_lifecycle env _ _ _)) fun _ =>
    .mBind (.modifyVars _) fun _ => ?_
  refine .mBind .getVars fun _ => .mBind (.liftW (initFramebuffersLoop_lifecycle env _ _ _ _ _)) fun _ =>
    .mBind (.modifyVars _) fun _ => ?_
  refine .mBind (.liftW (initPipeline_lifecycle ctx env _ _ _)) fun _ =>
    .mBind (.modifyVars _) fun _ => ?_
  refine .mBind (acquireCommandBuffers_lifecycle ctx env _) fun _ => ?_
  refine .mBind (recordCommandBuffers_lifecycle ctx env _ _ _) fun _ => ?_
  refine .mBind (.liftW (initSemaphoresLoop_lifecycle env _ _)) fun _ =>
    .mBind (.modifyVars _) fun _ => ?_
  refine .mBind (.liftW (initSemaphoresLoop_lifecycle env _ _)) fun _ =>
    .mBind (.modifyVars _) fun _ => ?_
  exact .mBind (.liftW (initFencesLoop_lifecycle env _ _ _)) fun _ =>
    .mBind (.modifyVars _) fun _ => .modifyVars _

theorem killOld_lifecycle (oldSwapchain : Handle) (oldImageReadySs : List Handle) :
    M.Lifecycle (killOld oldSwapchain oldImageReadySs) :=
  .mBind (.liftW (killSwapchain_lifecycle _)) fun _ =>
    .mBind (.liftW (killSemaphores_lifecycle _)) fun _ => .mPure _

/-! ### Runs in which the API calls succeed -/

theorem Env.SucceedsFrom.mono {env : Env} {t t1 : Nat} (h : env.SucceedsFrom t) (ht : t ≤ t1) :
    env.SucceedsFrom t1 := fun k hk => h k (Nat.le_trans ht hk)

theorem Env.SucceedsFrom.here {env : Env} {t : Nat} (h : env.SucceedsFrom t) :
    env.result t = VK_SUCCESS := h t (Nat.le_refl t)

@[simp] theorem report_apply (env : Env) (mk : VkResult → Event) (w : World) :
    report env mk w = (.ok (env.result w.tick),
      { w with tick := w.tick + 1, trace := w.trace ++ [mk (env.result w.tick)] }) := rfl

@[simp] theorem create_apply (env : Env) (mk : VkResult → Handle → Event) (w : World) :
    create env mk w = (.ok (env.result w.tick, w.nextHandle + 1),
      { w with tick := w.tick + 1, nextHandle := w.nextHandle + 1,
               trace := w.trace ++ [mk (env.result w.tick) (w.nextHandle + 1)] }) := rfl

@[simp] theorem allocate_apply (n : Nat) (w : World) :
    allocate n w = (.ok (freshHandles w.nextHandle n), { w with nextHandle := w.nextHandle + n }) :=
  rfl

@[simp] theorem getTick_apply (w : World) : getTick w = (.ok w.tick, w) := rfl

@[simp] theorem setSelectedMode_apply (mode : Int) (w : World) :
    setSelectedMode mode w = (.ok (), { w with selectedMode := mode }) := rfl

@[simp] theorem RESULT_HANDLER_success (source : Api) :
    RESULT_HANDLER VK_SUCCESS source = pure () := by
  simp [RESULT_HANDLER]

theorem RESULT_HANDLER_failure {errorCode : VkResult} (h : errorCode ≠ VK_SUCCESS) (source : Api) :
    RESULT_HANDLER errorCode source = W.raise (.vulkanResult source errorCode) := by
  simp [RESULT_HANDLER, h]

@[simp] theorem length_freshHandles (first n : Nat) : (freshHandles first n).length = n := by
  induction n generalizing first with
  | zero => rfl
  | succ n ih => simp [freshHandles, ih]

theorem toUInt32_lt (n : Nat) : toUInt32 n < 2 ^ 32 := Nat.mod_lt _ (by norm_num)

theorem toUInt32_of_lt {n : Nat} (h : n < 2 ^ 32) : toUInt32 n = n := Nat.mod_eq_of_lt h

theorem getSurfaceCapabilities_ok {env : Env} {w : World} (h : env.result w.tick = VK_SUCCESS) :
    getSurfaceCapabilities env w = (.ok (env.capabilities w.tick),
      { w with tick := w.tick + 1,
               trace := w.trace ++ [.vkGetPhysicalDeviceSurfaceCapabilitiesKHR VK_SUCCESS
                 (env.capabilities w.tick)] }) := by
  simp [getSurfaceCapabilities, wBind_apply, h]

theorem destroyEach_apply (mk : Handle → Event) (xs : List Handle) (w : World) :
    destroyEach mk xs w = (.ok (), { w with trace := w.trace ++ xs.map mk }) := by
  induction xs generalizing w with
  | nil => simp [destroyEach]
  | cons x xs ih => simp [destroyEach, wBind_apply, ih]

theorem killFences_apply (xs : List Handle) (w : World) :
    killFences xs w = (.ok [], { w with trace := w.trace ++ xs.map .vkDestroyFence }) := by
  simp [killFences, wBind_apply, destroyEach_apply]

theorem killSemaphores_apply (xs : List Handle) (w : World) :
    killSemaphores xs w = (.ok [], { w with trace := w.trace ++ xs.map .vkDestroySemaphore }) := by
  simp [killSemaphores, wBind_apply, destroyEach_apply]

theorem killFramebuffers_apply (xs : List Handle) (w : World) :
    killFramebuffers xs w =
      (.ok [], { w with trace := w.trace ++ xs.map .vkDestroyFramebuffer }) := by
  simp [killFramebuffers, wBind_apply, destroyEach_apply]

theorem killSwapchainImageViews_apply (xs : List Handle) (w : World) :
    killSwapchainImageViews xs w =
      (.ok [], { w with trace := w.trace ++ xs.map .vkDestroyImageView }) := by
  simp [killSwapchainImageViews, wBind_apply, destroyEach_apply]

theorem getSurfacePresentMode_ok {env : Env} {w : World} (h : env.result w.tick = VK_SUCCESS)
    (hm : env.presentModes w.tick ≠ []) :
    ∃ mode selected, getSurfacePresentMode env w = (.ok mode,
      { w with tick := w.tick + 1, selectedMode := selected,
               trace := w.trace ++ [.vkGetPhysicalDeviceSurfacePresentModesKHR VK_SUCCESS
                 (env.presentModes w.tick)] }) := by
  simp only [getSurfacePresentMode, enumeratePresentModes, wBind_apply, getTick_apply,
    report_apply, h, RESULT_HANDLER_success, wPure_apply]
  cases h1 : List.find? (fun m => m == presentMode) (env.presentModes w.tick) with
  | some m => exact ⟨m, 0, by simp [wBind_apply]⟩
  | none =>
    cases h2 : List.find? (fun m => m == VK_PRESENT_MODE_FIFO_KHR) (env.presentModes w.tick) with
    | some m => exact ⟨m, 1, by simp [wBind_apply]⟩
    | none =>
      cases h3 : env.presentModes w.tick with
      | nil => exact absurd h3 hm
      | cons m ms => exact ⟨m, 2, by simp [wBind_apply]⟩

theorem getSurfacePresentMode_empty {env : Env} {w : World} (h : env.result w.tick = VK_SUCCESS)
    (hm : env.presentModes w.tick = []) :
    (getSurfacePresentMode env w).1 = .error (.text .noPresentModes) := by
  simp [getSurfacePresentMode, enumeratePresentModes, wBind_apply, h, hm]

theorem W.exists_run {α : Type} {m : W α} (hl : W.Lifecycle m) {w : World} {a : α}
    (h : (m w).1 = .ok a) : ∃ w1, m w = (.ok a, w1) ∧ World.Grows w w1 :=
  ⟨(m w).2, by rw [← h], (hl w).1⟩

theorem initSwapchain_ok (ctx : Ctx) {env : Env} {capabilities : VkSurfaceCapabilitiesKHR}
    (oldSwapchain : Handle) {w : World} (h : env.SucceedsFrom w.tick)
    (ha : (compositeAlphaFlag capabilities.supportedCompositeAlpha).isSome = true)
    (hm : env.presentModes w.tick ≠ []) :
    ∃ swapchain w1, initSwapchain ctx env capabilities oldSwapchain w = (.ok swapchain, w1)
      ∧ swapchain ≠ VK_NULL_HANDLE ∧ w1.tick = w.tick + 2 ∧ World.Grows w w1 := by
  obtain ⟨alpha, halpha⟩ := Option.isSome_iff_exists.mp ha
  obtain ⟨mode, selected, hmode⟩ := getSurfacePresentMode_ok h.here hm
  have h1 : env.result (w.tick + 1) = VK_SUCCESS := h _ (Nat.le_succ _)
  have hg := (initSwapchain_lifecycle ctx env capabilities oldSwapchain w).1
  have hrun : initSwapchain ctx env capabilities oldSwapchain w =
      (.ok (w.nextHandle + 1), (initSwapchain ctx env capabilities oldSwapchain w).2) := by
    simp [initSwapchain, halpha, wBind_apply, hmode, h1]
  refine ⟨_, _, hrun, by simp [VK_NULL_HANDLE], ?_, hg⟩
  simp [initSwapchain, halpha, wBind_apply, hmode, h1]

theorem initSwapchain_fail (ctx : Ctx) {env : Env} {capabilities : VkSurfaceCapabilitiesKHR}
    (oldSwapchain : Handle) {w : World} (h : env.SucceedsFrom w.tick)
    (hg : ¬ ((compositeAlphaFlag capabilities.supportedCompositeAlpha).isSome = true
      ∧ env.presentModes w.tick ≠ [])) :
    ∃ msg, (initSwapchain ctx env capabilities oldSwapchain w).1 = .error (.text msg) := by
  cases halpha : compositeAlphaFlag capabilities.supportedCompositeAlpha with
  | none => exact ⟨.unknownCompositeAlpha, by simp [initSwapchain, halpha]⟩
  | some alpha =>
    have hm : env.presentModes w.tick = [] := by
      by_contra hne
      exact hg ⟨by simp [halpha], hne⟩
    refine ⟨.noPresentModes, ?_⟩
    have := getSurfacePresentMode_empty h.here hm
    simp only [initSwapchain, halpha, wBind_apply]
    rcases hr : getSurfacePresentMode env w with ⟨r, w1⟩
    rw [hr] at this
    simp only at this
    subst this
    rfl

theorem enumerateSwapchainImages_ok {env : Env} (swapchain : Handle) {w : World}
    (h : env.result w.tick = VK_SUCCESS) :
    ∃ images w1, enumerateSwapchainImages env swapchain w = (.ok images, w1)
      ∧ images.length = toUInt32 (env.imageCount w.tick)
      ∧ Event.vkGetSwapchainImagesKHR swapchain VK_SUCCESS images ∈ w1.trace
      ∧ World.Grows w w1 := by
  have hg := (enumerateSwapchainImages_lifecycle env swapchain w).1
  have hrun : enumerateSwapchainImages env swapchain w =
      (.ok (freshHandles w.nextHandle (toUInt32 (env.imageCount w.tick))),
        (enumerateSwapchainImages env swapchain w).2) := by
    simp [enumerateSwapchainImages, wBind_apply, h]
  refine ⟨_, _, hrun, by simp, ?_, hg⟩
  simp [enumerateSwapchainImages, wBind_apply, h]

theorem initSwapchainImageViewsLoop_ok {env : Env} (format : Nat) (images : List Handle) :
    ∀ (acc : List Handle) (w : World), env.SucceedsFrom w.tick →
      ∃ v, (initSwapchainImageViewsLoop env format images acc w).1 = .ok v
        ∧ v.length = acc.length + images.length := by
  induction images with
  | nil => intro acc w _; exact ⟨acc, by simp [initSwapchainImageViewsLoop]⟩
  | cons x xs ih =>
    intro acc w h
    simp only [initSwapchainImageViewsLoop, initImageView, wBind_apply, create_apply, h.here,
      RESULT_HANDLER_success, wPure_apply]
    obtain ⟨v, hv, hl⟩ := ih (acc ++ [w.nextHandle + 1])
      { w with tick := w.tick + 1, nextHandle := w.nextHandle + 1,
               trace := w.trace ++ [.vkCreateImageView x format VK_SUCCESS (w.nextHandle + 1)] }
      (h.mono (Nat.le_succ _))
    exact ⟨v, hv, by simp [hl]; omega⟩

theorem initFramebuffersLoop_ok {env : Env} (renderPass : Handle) (width height : Nat)
    (imageViews : List Handle) :
    ∀ (acc : List Handle) (w : World), env.SucceedsFrom w.tick →
      ∃ v, (initFramebuffersLoop env renderPass width height imageViews acc w).1 = .ok v
        ∧ v.length = acc.length + imageViews.length := by
  induction imageViews with
  | nil => intro acc w _; exact ⟨acc, by simp [initFramebuffersLoop]⟩
  | cons x xs ih =>
    intro acc w h
    simp only [initFramebuffersLoop, wBind_apply, create_apply, h.here,
      RESULT_HANDLER_success, wPure_apply]
    obtain ⟨v, hv, hl⟩ := ih (acc ++ [w.nextHandle + 1])
      { w with tick := w.tick + 1, nextHandle := w.nextHandle + 1,
               trace := w.trace ++
                 [.vkCreateFramebuffer renderPass x width height VK_SUCCESS (w.nextHandle + 1)] }
      (h.mono (Nat.le_succ _))
    exact ⟨v, hv, by simp [hl]; omega⟩

theorem initPipeline_ok {ctx : Ctx} {env : Env} {binding width height : Nat} {w : World}
    (h : env.result w.tick = VK_SUCCESS) (hl : limitsOk ctx binding) :
    (initPipeline ctx env binding width height w).1 = .ok (w.nextHandle + 1) := by
  obtain ⟨h1, h2, h3, h4, h5⟩ := hl
  simp [initPipeline, wBind_apply, h, h1, h2, h3, h4, h5]

theorem initPipeline_fail {ctx : Ctx} (env : Env) {binding : Nat} (width height : Nat)
    (w : World) (hl : ¬ limitsOk ctx binding) :
    ∃ msg, (initPipeline ctx env binding width height w).1 = .error (.text msg) := by
  unfold limitsOk at hl
  by_cases h1 : binding > ctx.limits.maxVertexInputBindings
  · exact ⟨.inputBindingsNeeded, by simp [initPipeline, wBind_apply, h1]⟩
  by_cases h2 : ctx.vertexBufferStride > ctx.limits.maxVertexInputBindingStride
  · exact ⟨.vertexBufferStride, by simp [initPipeline, wBind_apply, h1, h2]⟩
  by_cases h3 : 1 > ctx.limits.maxVertexInputBindings
  · exact ⟨.inputBindings, by simp [initPipeline, wBind_apply, h1, h2, h3]⟩
  by_cases h4 : 1 ≥ ctx.limits.maxVertexInputAttributes
  · exact ⟨.inputAttributes, by simp [initPipeline, wBind_apply, h1, h2, h3, h4]⟩
  by_cases h5 : ctx.uvOffset > ctx.limits.maxVertexInputAttributeOffset
  · exact ⟨.attributeOffset, by simp [initPipeline, wBind_apply, h1, h2, h3, h4, h5]⟩
  exact absurd ⟨h1, h2, h3, h4, h5⟩ hl

theorem initSemaphoresLoop_ok {env : Env} (count : Nat) :
    ∀ (acc : List Handle) (w : World), env.SucceedsFrom w.tick →
      ∃ v, (initSemaphoresLoop env count acc w).1 = .ok v ∧ v.length = acc.length + count := by
  induction count with
  | zero => intro acc w _; exact ⟨acc, by simp [initSemaphoresLoop]⟩
  | succ n ih =>
    intro acc w h
    simp only [initSemaphoresLoop, initSemaphore, wBind_apply, create_apply, h.here,
      RESULT_HANDLER_success, wPure_apply]
    obtain ⟨v, hv, hl⟩ := ih (acc ++ [w.nextHandle + 1])
      { w with tick := w.tick + 1, nextHandle := w.nextHandle + 1,
               trace := w.trace ++ [.vkCreateSemaphore VK_SUCCESS (w.nextHandle + 1)] }
      (h.mono (Nat.le_succ _))
    exact ⟨v, hv, by simp [hl]; omega⟩

/-- Under success `initFences` returns `count` more fences, each created by a successful
`vkCreateFence` with the given flags that is recorded in the trace. -/
theorem initFencesLoop_ok {env : Env} (flags : Nat) (count : Nat) :
    ∀ (acc : List Handle) (w : World), env.SucceedsFrom w.tick →
      ∃ v, (initFencesLoop env flags count acc w).1 = .ok v ∧ v.length = acc.length + count
        ∧ ∀ f ∈ v, f ∈ acc ∨
            Event.vkCreateFence flags VK_SUCCESS f ∈ (initFencesLoop env flags count acc w).2.trace := by
  induction count with
  | zero => intro acc w _; exact ⟨acc, by simp [initFencesLoop], by simp, fun f hf => Or.inl hf⟩
  | succ n ih =>
    intro acc w h
    simp only [initFencesLoop, initFence, wBind_apply, create_apply, h.here,
      RESULT_HANDLER_success, wPure_apply]
    obtain ⟨v, hv, hl, hm⟩ := ih (acc ++ [w.nextHandle + 1])
      { w with tick := w.tick + 1, nextHandle := w.nextHandle + 1,
               trace := w.trace ++ [.vkCreateFence flags VK_SUCCESS (w.nextHandle + 1)] }
      (h.mono (Nat.le_succ _))
    refine ⟨v, hv, by simp [hl]; omega, ?_⟩
    intro f hf
    rcases hm f hf with hacc | htr
    · rcases List.mem_append.mp hacc with ha | hnew
      · exact Or.inl ha
      · right
        have hfe : f = w.nextHandle + 1 := by simpa using hnew
        subst hfe
        have hg := (initFencesLoop_lifecycle env flags n (acc ++ [w.nextHandle + 1])
          { w with tick := w.tick + 1, nextHandle := w.nextHandle + 1,
                   trace := w.trace ++ [.vkCreateFence flags VK_SUCCESS (w.nextHandle + 1)] }).1
        obtain ⟨l, hl2, _⟩ := hg.trace_eq
        rw [hl2]
        simp
    · exact Or.inr htr

theorem length_resize (n : Nat) (xs : List Handle) : (resize n xs).length = n := by
  simp [resize]; omega

theorem acquireCommandBuffers_ok (ctx : Ctx) {env : Env} (count : Nat) (s : State)
    (h : env.result s.world.tick = VK_SUCCESS) :
    ∃ cb, (acquireCommandBuffers ctx env count s).1 = .ok ()
      ∧ (acquireCommandBuffers ctx env count s).2.vars = { s.vars with commandBuffers := cb }
      ∧ count ≤ cb.length
      ∧ (s.vars.commandBuffers.length < 2 ^ 32 → cb.length = count) := by
  by_cases h1 : count > toUInt32 s.vars.commandBuffers.length
  · have h2 : ¬ count < toUInt32 s.vars.commandBuffers.length := by omega
    refine ⟨(resize count s.vars.commandBuffers).take (toUInt32 s.vars.commandBuffers.length)
      ++ freshHandles s.world.nextHandle (count - toUInt32 s.vars.commandBuffers.length), ?_, ?_, ?_, ?_⟩
    · simp [acquireCommandBuffers, mBind_apply, allocateCommandBuffers, wBind_apply, h, h1, h2]
    · simp [acquireCommandBuffers, mBind_apply, allocateCommandBuffers, wBind_apply, h, h1, h2]
    · simp [length_resize]; omega
    · intro _; simp [length_resize]; omega
  · by_cases h2 : count < toUInt32 s.vars.commandBuffers.length
    · refine ⟨resize count s.vars.commandBuffers, ?_, ?_, ?_, ?_⟩
      · simp [acquireCommandBuffers, mBind_apply, h1, h2]
      · simp [acquireCommandBuffers, mBind_apply, h1, h2]
      · simp [length_resize]
      · intro _; simp [length_resize]
    · have h3 : count = toUInt32 s.vars.commandBuffers.length := by omega
      refine ⟨s.vars.commandBuffers, ?_, ?_, ?_, ?_⟩
      · simp [acquireCommandBuffers, mBind_apply, h1, h2]
      · simp [acquireCommandBuffers, mBind_apply, h1, h2]
      · rw [h3]; exact Nat.mod_le _ _
      · intro hlt; rw [h3, toUInt32_of_lt hlt]

theorem index_ok {xs : List Handle} {i : Nat} (h : i < xs.length) (s : State) :
    index xs i s = (.ok (xs.get ⟨i, h⟩), s) := by
  simp [index, List.getElem?_eq_getElem h]

theorem recordCommandBuffer_ok (ctx : Ctx) {env : Env} (surfaceSize : VkExtent2D) {i : Nat}
    {s : State} (h : env.SucceedsFrom s.world.tick) (hc : i < s.vars.commandBuffers.length)
    (hf : i < s.vars.framebuffers.length) :
    (recordCommandBuffer ctx env surfaceSize i s).1 = .ok ()
      ∧ (recordCommandBuffer ctx env surfaceSize i s).2.vars = s.vars := by
  have h0 := h.here
  have h1 : env.result (s.world.tick + 1) = VK_SUCCESS := h _ (Nat.le_succ _)
  simp [recordCommandBuffer, mBind_apply, wBind_apply, index_ok hc, index_ok hf,
    beginCommandBuffer, endCommandBuffer, recordBeginRenderPass, recordBindPipeline,
    recordBindVertexBuffer, recordDraw, recordEndRenderPass, h0, h1]

theorem recordCommandBuffers_ok (ctx : Ctx) {env : Env} (surfaceSize : VkExtent2D)
    (remaining : Nat) :
    ∀ (i : Nat) (s : State), env.SucceedsFrom s.world.tick →
      i + remaining ≤ s.vars.commandBuffers.length → i + remaining ≤ s.vars.framebuffers.length →
      (recordCommandBuffers ctx env surfaceSize remaining i s).1 = .ok ()
        ∧ (recordCommandBuffers ctx env surfaceSize remaining i s).2.vars = s.vars := by
  induction remaining with
  | zero => intro i s _ _ _; simp [recordCommandBuffers]
  | succ n ih =>
    intro i s h hc hf
    obtain ⟨h1, h2⟩ := recordCommandBuffer_ok ctx surfaceSize h
      (show i < s.vars.commandBuffers.length by omega)
      (show i < s.vars.framebuffers.length by omega)
    have hg := (recordCommandBuffer_lifecycle ctx env surfaceSize i s).1
    simp only [recordCommandBuffers, mBind_apply]
    rcases hr : recordCommandBuffer ctx env surfaceSize i s with ⟨r, s1⟩
    rw [hr] at h1 h2 hg
    simp only at h1 h2 hg
    subst h1
    simp only
    have := ih (i + 1) s1 (h.mono hg.tick_le) (by rw [h2]; omega) (by rw [h2]; omega)
    rw [h2] at this
    exact this

theorem cleanupOld_ok {ctx : Ctx} {env : Env} {s : State} (h : env.SucceedsFrom s.world.tick) :
    cleanupOld ctx env s = (.ok (),
      { vars := s.vars.afterCleanup,
        world := { s.world with tick := s.world.tick + 2,
                                trace := s.world.trace ++ cleanupTrace ctx s.vars } }) := by
  have h0 := h.here
  have h1 : env.result (s.world.tick + 1) = VK_SUCCESS := h _ (Nat.le_succ _)
  simp [cleanupOld, mBind_apply, killFences_apply, killSemaphores_apply, killFramebuffers_apply,
    killSwapchainImageViews_apply, killPipeline, h0, h1, Vars.afterCleanup, cleanupTrace]

theorem World.Grows.mem {w w1 : World} (h : World.Grows w w1) {e : Event} (he : e ∈ w.trace) :
    e ∈ w1.trace := by
  obtain ⟨l, hl, _⟩ := h.trace_eq
  rw [hl]; exact List.mem_append_left _ he

theorem initSwapchainImageViews_run {env : Env} (images : List Handle) (format : Nat) {w : World}
    (h : env.SucceedsFrom w.tick) :
    ∃ views w1, initSwapchainImageViews env images format w = (.ok views, w1)
      ∧ views.length = images.length ∧ World.Grows w w1 := by
  obtain ⟨v, hv, hl⟩ := initSwapchainImageViewsLoop_ok format images [] w h
  obtain ⟨w1, hrun, hg⟩ := W.exists_run (initSwapchainImageViewsLoop_lifecycle env format images []) hv
  exact ⟨v, w1, hrun, by simpa using hl, hg⟩

theorem initFramebuffers_run {env : Env} (renderPass : Handle) (imageViews : List Handle)
    (width height : Nat) {w : World} (h : env.SucceedsFrom w.tick) :
    ∃ framebuffers w1, initFramebuffers env renderPass imageViews width height w
        = (.ok framebuffers, w1)
      ∧ framebuffers.length = imageViews.length ∧ World.Grows w w1 := by
  obtain ⟨v, hv, hl⟩ := initFramebuffersLoop_ok renderPass width height imageViews [] w h
  obtain ⟨w1, hrun, hg⟩ :=
    W.exists_run (initFramebuffersLoop_lifecycle env renderPass width height imageViews []) hv
  exact ⟨v, w1, hrun, by simpa using hl, hg⟩

theorem initPipeline_run (ctx : Ctx) {env : Env} (binding width height : Nat) {w : World}
    (h : env.SucceedsFrom w.tick) (hl : limitsOk ctx binding) :
    ∃ pipeline w1, initPipeline ctx env binding width height w = (.ok pipeline, w1)
      ∧ World.Grows w w1 := by
  obtain ⟨w1, hrun, hg⟩ :=
    W.exists_run (initPipeline_lifecycle ctx env binding width height) (initPipeline_ok h.here hl)
  exact ⟨_, w1, hrun, hg⟩

theorem initSemaphores_run {env : Env} (count : Nat) {w : World} (h : env.SucceedsFrom w.tick) :
    ∃ semaphores w1, initSemaphores env count w = (.ok semaphores, w1)
      ∧ semaphores.length = count ∧ World.Grows w w1 := by
  obtain ⟨v, hv, hl⟩ := initSemaphoresLoop_ok count [] w h
  obtain ⟨w1, hrun, hg⟩ := W.exists_run (initSemaphoresLoop_lifecycle env count []) hv
  exact ⟨v, w1, hrun, by simpa using hl, hg⟩

theorem initFences_run {env : Env} (count flags : Nat) {w : World} (h : env.SucceedsFrom w.tick) :
    ∃ fences w1, initFences env count flags w = (.ok fences, w1)
      ∧ fences.length = count
      ∧ (∀ f ∈ fences, Event.vkCreateFence flags VK_SUCCESS f ∈ w1.trace)
      ∧ World.Grows w w1 := by
  obtain ⟨v, hv, hl, hm⟩ := initFencesLoop_ok flags count [] w h
  obtain ⟨w1, hrun, hg⟩ := W.exists_run (initFencesLoop_lifecycle env flags count []) hv
  refine ⟨v, w1, hrun, by simpa using hl, ?_, hg⟩
  intro f hf
  rcases hm f hf with h1 | h1
  · simp at h1
  · have : (initFencesLoop env flags count [] w).2 = w1 := by
      have := congrArg Prod.snd hrun; simpa using this
    rw [← this]; exact h1

theorem acquireCommandBuffers_run (ctx : Ctx) {env : Env} (count : Nat) {v : Vars} {w : World}
    (h : env.SucceedsFrom w.tick) :
    ∃ cb w1, acquireCommandBuffers ctx env count ⟨v, w⟩
        = (.ok (), ⟨{ v with commandBuffers := cb }, w1⟩)
      ∧ count ≤ cb.length ∧ (v.commandBuffers.length < 2 ^ 32 → cb.length = count)
      ∧ World.Grows w w1 := by
  obtain ⟨cb, h1, h2, h3, h4⟩ := acquireCommandBuffers_ok ctx count ⟨v, w⟩ h.here
  have hg := (acquireCommandBuffers_lifecycle ctx env count ⟨v, w⟩).1
  rcases hr : acquireCommandBuffers ctx env count ⟨v, w⟩ with ⟨r, ⟨v1, w1⟩⟩
  rw [hr] at h1 h2 hg
  simp only at h1 h2 hg
  subst h1 h2
  exact ⟨cb, w1, rfl, h3, h4, hg⟩

theorem recordCommandBuffers_run (ctx : Ctx) {env : Env} (surfaceSize : VkExtent2D)
    (remaining : Nat) {v : Vars} {w : World} (h : env.SucceedsFrom w.tick)
    (hc : remaining ≤ v.commandBuffers.length) (hf : remaining ≤ v.framebuffers.length) :
    ∃ w1, recordCommandBuffers ctx env surfaceSize remaining 0 ⟨v, w⟩ = (.ok (), ⟨v, w1⟩)
      ∧ World.Grows w w1 := by
  obtain ⟨h1, h2⟩ := recordCommandBuffers_ok ctx surfaceSize remaining 0
    ⟨v, w⟩ h (by simpa using hc) (by simpa using hf)
  have hg := (recordCommandBuffers_lifecycle ctx env surfaceSize remaining 0 ⟨v, w⟩).1
  rcases hr : recordCommandBuffers ctx env surfaceSize remaining 0 ⟨v, w⟩ with ⟨r, ⟨v1, w1⟩⟩
  rw [hr] at h1 h2 hg
  simp only at h1 h2 hg
  subst h1 h2
  exact ⟨w1, rfl, hg⟩

theorem createNew_ok_aux (ctx : Ctx) {env : Env} (capabilities : VkSurfaceCapabilitiesKHR)
    (surfaceSize : VkExtent2D) (oldSwapchain : Handle) (v : Vars) (w : World)
    (h : env.SucceedsFrom w.tick) (hg : createGuards ctx env capabilities w.tick) :
    ∃ v1 w1 n, createNew ctx env capabilities surfaceSize oldSwapchain ⟨v, w⟩ = (.ok (), ⟨v1, w1⟩)
      ∧ Created env v w.tick v1 w1 n ∧ World.Grows w w1 := by
  obtain ⟨ha, hm, hl⟩ := hg
  obtain ⟨sc, w1, e1, hsc, ht1, g1⟩ := initSwapchain_ok ctx oldSwapchain h ha hm
  have s1 := h.mono g1.tick_le
  obtain ⟨images, w2, e2, himg, hev, g2⟩ := enumerateSwapchainImages_ok sc s1.here
  have s2 := s1.mono g2.tick_le
  obtain ⟨views, w3, e3, hviews, g3⟩ := initSwapchainImageViews_run images ctx.surfaceFormat.format s2
  have s3 := s2.mono g3.tick_le
  obtain ⟨fbs, w4, e4, hfbs, g4⟩ :=
    initFramebuffers_run ctx.renderPass views surfaceSize.width surfaceSize.height s3
  have s4 := s3.mono g4.tick_le
  obtain ⟨p, w5, e5, g5⟩ :=
    initPipeline_run ctx vertexBufferBinding surfaceSize.width surfaceSize.height s4 hl
  have s5 := s4.mono g5.tick_le
  have hlen : images.length < 2 ^ 32 := by rw [himg]; exact toUInt32_lt _
  obtain ⟨cb, w6, e6, hcb1, hcb2, g6⟩ := acquireCommandBuffers_run ctx (toUInt32 images.length)
    (v := { v with swapchain := sc, swapchainImageViews := views, framebuffers := fbs,
                   pipeline := p }) s5
  rw [toUInt32_of_lt hlen] at hcb1 hcb2 e6
  have s6 := s5.mono g6.tick_le
  obtain ⟨w7, e7, g7⟩ := recordCommandBuffers_run ctx surfaceSize images.length
    (v := { v with swapchain := sc, swapchainImageViews := views, framebuffers := fbs,
                   pipeline := p, commandBuffers := cb }) s6 hcb1
    (by simp [hfbs, hviews])
  have s7 := s6.mono g7.tick_le
  obtain ⟨irs, w8, e8, hirs, g8⟩ := initSemaphores_run maxInflightSubmissions s7
  have s8 := s7.mono g8.tick_le
  obtain ⟨rds, w9, e9, hrds, g9⟩ := initSemaphores_run images.length s8
  have s9 := s8.mono g9.tick_le
  obtain ⟨fs, w10, e10, hfs, hsig, g10⟩ :=
    initFences_run maxInflightSubmissions VK_FENCE_CREATE_SIGNALED_BIT s9
  refine ⟨{ v with swapchain := sc, swapchainImageViews := views, framebuffers := fbs,
                   pipeline := p, commandBuffers := cb, imageReadySs := irs, renderDoneSs := rds,
                   submissionFences := fs, submissionNr := 0 }, w10, images.length, ?_, ?_⟩
  · simp only [toUInt32_of_lt hlen, createNew, mBind_apply, liftW_apply, modifyVars_apply,
      getVars_apply, e1, e2, e3, e4, e5, e6, e7, e8, e9, e10]
  · have gfrom2 : World.Grows w2 w10 :=
      g3.trans (g4.trans (g5.trans (g6.trans (g7.trans (g8.trans (g9.trans g10))))))
    refine ⟨?_, g1.trans (g2.trans gfrom2)⟩
    exact
      { swapchain_ne := hsc
        count_eq := by rw [himg, ht1]
        enumerated := ⟨images, rfl, gfrom2.mem hev⟩
        imageViews := hviews
        framebuffers := by simp [hfbs, hviews]
        commandBuffers_ge := hcb1
        commandBuffers := hcb2
        renderDoneSs := hrds
        imageReadySs := hirs
        submissionFences := hfs
        signaled := hsig
        submissionNr := rfl }

/-- With the API calls succeeding and the program's own checks passing, `createNew` returns
and has established `Created`. -/
theorem createNew_ok (ctx : Ctx) {env : Env} {capabilities : VkSurfaceCapabilitiesKHR}
    {surfaceSize : VkExtent2D} {oldSwapchain : Handle} {s : State}
    {r : Except Exn Unit} {s1 : State}
    (heq : createNew ctx env capabilities surfaceSize oldSwapchain s = (r, s1))
    (h : env.SucceedsFrom s.world.tick) (hg : createGuards ctx env capabilities s.world.tick) :
    r = .ok () ∧ (∃ n, Created env s.vars s.world.tick s1.vars s1.world n)
      ∧ World.Grows s.world s1.world := by
  rcases s with ⟨v, w⟩
  obtain ⟨v1, w1, n, e, hc, hgr⟩ := createNew_ok_aux ctx capabilities surfaceSize oldSwapchain v w h hg
  rw [e] at heq
  simp only [Prod.mk.injEq] at heq
  obtain ⟨rfl, rfl⟩ := heq
  exact ⟨rfl, ⟨n, hc⟩, hgr⟩

theorem createNew_fail_aux (ctx : Ctx) {env : Env} (capabilities : VkSurfaceCapabilitiesKHR)
    (surfaceSize : VkExtent2D) (oldSwapchain : Handle) (v : Vars) (w : World)
    (h : env.SucceedsFrom w.tick) (hg : ¬ createGuards ctx env capabilities w.tick) :
    ∃ msg, (createNew ctx env capabilities surfaceSize oldSwapchain ⟨v, w⟩).1
      = .error (.text msg) := by
  by_cases hsw : (compositeAlphaFlag capabilities.supportedCompositeAlpha).isSome = true
      ∧ env.presentModes w.tick ≠ []
  · have hl : ¬ limitsOk ctx vertexBufferBinding := fun hl => hg ⟨hsw.1, hsw.2, hl⟩
    obtain ⟨sc, w1, e1, hsc, ht1, g1⟩ := initSwapchain_ok ctx oldSwapchain h hsw.1 hsw.2
    have s1 := h.mono g1.tick_le
    obtain ⟨images, w2, e2, himg, hev, g2⟩ := enumerateSwapchainImages_ok sc s1.here
    have s2 := s1.mono g2.tick_le
    obtain ⟨views, w3, e3, hviews, g3⟩ :=
      initSwapchainImageViews_run images ctx.surfaceFormat.format s2
    have s3 := s2.mono g3.tick_le
    obtain ⟨fbs, w4, e4, hfbs, g4⟩ :=
      initFramebuffers_run ctx.renderPass views surfaceSize.width surfaceSize.height s3
    obtain ⟨msg, e5⟩ := initPipeline_fail env surfaceSize.width surfaceSize.height w4 hl
    exact ⟨msg, by
      simp only [createNew, mBind_apply, liftW_apply, modifyVars_apply, getVars_apply, e1, e2,
        e3, e4, e5]⟩
  · obtain ⟨msg, e1⟩ := initSwapchain_fail ctx oldSwapchain h hsw
    exact ⟨msg, by simp only [createNew, mBind_apply, liftW_apply, e1]⟩

/-- With the API calls succeeding, `createNew` throws a text when one of the program's own
checks fails. -/
theorem createNew_fail (ctx : Ctx) {env : Env} {capabilities : VkSurfaceCapabilitiesKHR}
    {surfaceSize : VkExtent2D} {oldSwapchain : Handle} {s : State}
    {r : Except Exn Unit} {s1 : State}
    (heq : createNew ctx env capabilities surfaceSize oldSwapchain s = (r, s1))
    (h : env.SucceedsFrom s.world.tick) (hg : ¬ createGuards ctx env capabilities s.world.tick) :
    ∃ msg, r = .error (.text msg) := by
  rcases s with ⟨v, w⟩
  obtain ⟨msg, e⟩ := createNew_fail_aux ctx capabilities surfaceSize oldSwapchain v w h hg
  rw [heq] at e
  exact ⟨msg, e⟩

/-- A `recreateSwapchain` that finds no old swapchain and a surface it cannot create for
only clears the two variables of lines 490 and 511. -/
theorem recreateSwapchain_degenerate_fresh (ctx : Ctx) {env : Env} (v : Vars) {w : World}
    (h : env.SucceedsFrom w.tick) (hc : creatableAt env w.tick = false)
    (hold : v.swapchain = VK_NULL_HANDLE) :
    recreateSwapchain ctx env ⟨v, w⟩ = (.ok false,
      ⟨{ v with swapchain := VK_NULL_HANDLE, imageReadySs := [] },
        w.after 1 [.enter .recreateSwapchain,
          .vkGetPhysicalDeviceSurfaceCapabilitiesKHR VK_SUCCESS (env.capabilities w.tick)]⟩) := by
  have h0 := h.here
  simp only [creatableAt, snapshotAt] at hc
  simp [recreateSwapchain, mBind_apply, getSurfaceCapabilities_ok, h0, hc, hold, World.after]

/-- A `recreateSwapchain` that finds an old swapchain and a surface it cannot create for
tears the old state down. -/
theorem recreateSwapchain_degenerate_old (ctx : Ctx) {env : Env} (v : Vars) {w : World}
    (h : env.SucceedsFrom w.tick) (hc : creatableAt env w.tick = false)
    (hold : v.swapchain ≠ VK_NULL_HANDLE) :
    recreateSwapchain ctx env ⟨v, w⟩ = (.ok false,
      ⟨Vars.afterCleanup { v with swapchain := VK_NULL_HANDLE, imageReadySs := [] },
        w.after 3 ([.enter .recreateSwapchain,
          .vkGetPhysicalDeviceSurfaceCapabilitiesKHR VK_SUCCESS (env.capabilities w.tick)]
          ++ cleanupTrace ctx v ++ [.vkDestroySwapchainKHR v.swapchain]
          ++ v.imageReadySs.map .vkDestroySemaphore)⟩) := by
  have h0 := h.here
  have h1 : env.SucceedsFrom (w.tick + 1) := h.mono (Nat.le_succ _)
  simp only [creatableAt, snapshotAt] at hc
  have hold1 : ¬ v.swapchain = VK_NULL_HANDLE := hold
  simp [recreateSwapchain, mBind_apply, getSurfaceCapabilities_ok, cleanupOld_ok, h0, h1, hc,
    hold1, killOld, killSwapchain, killSemaphores_apply, Vars.afterCleanup, World.after,
    cleanupTrace]

theorem recreateSwapchain_degenerate (ctx : Ctx) {env : Env} (v : Vars) {w : World}
    (h : env.SucceedsFrom w.tick) (hc : creatableAt env w.tick = false) :
    ∃ w1, recreateSwapchain ctx env ⟨v, w⟩ = (.ok false, ⟨v.afterDegenerate, w1⟩) := by
  by_cases hold : v.swapchain = VK_NULL_HANDLE
  · rw [recreateSwapchain_degenerate_fresh ctx v h hc hold]
    exact ⟨w.after 1 [.enter .recreateSwapchain,
      .vkGetPhysicalDeviceSurfaceCapabilitiesKHR VK_SUCCESS (env.capabilities w.tick)],
      by simp [Vars.afterDegenerate, hold]⟩
  · rw [recreateSwapchain_degenerate_old ctx v h hc hold]
    exact ⟨w.after 3 ([.enter .recreateSwapchain,
      .vkGetPhysicalDeviceSurfaceCapabilitiesKHR VK_SUCCESS (env.capabilities w.tick)]
      ++ cleanupTrace ctx v ++ [.vkDestroySwapchainKHR v.swapchain]
      ++ v.imageReadySs.map .vkDestroySemaphore), by simp [Vars.afterDegenerate, hold]⟩

theorem killOld_apply (oldSwapchain : Handle) (oldImageReadySs : List Handle) (s : State) :
    killOld oldSwapchain oldImageReadySs s = (.ok (),
      { s with world := { s.world with trace := s.world.trace
          ++ [.vkDestroySwapchainKHR oldSwapchain] ++ oldImageReadySs.map .vkDestroySemaphore } }) := by
  simp [killOld, mBind_apply, killSwapchain, killSemaphores_apply]

theorem recreateSwapchain_live (ctx : Ctx) {env : Env} (v : Vars) {w : World}
    (h : env.SucceedsFrom w.tick) (hc : creatableAt env w.tick = true)
    (hg : createGuards ctx env (snapshotAt env w.tick) (createTick v w)) :
    ∃ v1 w1 n, recreateSwapchain ctx env ⟨v, w⟩ = (.ok true, ⟨v1, w1⟩)
      ∧ Created env v (createTick v w) v1 w1 n := by
  have h0 := h.here
  have h1 : env.SucceedsFrom (w.tick + 1) := h.mono (Nat.le_succ _)
  have h3 : env.SucceedsFrom (w.tick + 3) := h.mono (by omega)
  simp only [creatableAt, snapshotAt] at hc
  simp only [snapshotAt] at hg
  by_cases hold : v.swapchain = VK_NULL_HANDLE
  · simp only [createTick, hold, ne_eq, not_true_eq_false, if_false] at hg ⊢
    simp only [recreateSwapchain, mBind_apply, liftW_apply, emit_apply, getVars_apply,
      modifyVars_apply, getSurfaceCapabilities_ok, h0, hc, hold, ne_eq, not_true_eq_false,
      if_false, if_true, mPure_apply]
    generalize hcn : createNew ctx env _ _ _ _ = res
    rcases res with ⟨r, ⟨v1, w1⟩⟩
    obtain ⟨hr, ⟨n, hcr⟩, hgr⟩ := createNew_ok ctx hcn (by simpa using h1) (by simpa using hg)
    subst hr
    refine ⟨v1, w1, n, ?_, ?_⟩
    · have := hcr.swapchain_ne
      simp only at this
      simp [this]
    · simp only at hcr
      exact { hcr with commandBuffers := hcr.commandBuffers }
  · simp only [createTick, hold, ne_eq, not_false_eq_true, if_true] at hg ⊢
    simp only [recreateSwapchain, mBind_apply, liftW_apply, emit_apply, getVars_apply,
      modifyVars_apply, getSurfaceCapabilities_ok, cleanupOld_ok, h0, h1, hc, hold, ne_eq,
      not_false_eq_true, if_false, if_true, mPure_apply, killOld_apply]
    generalize hcn : createNew ctx env _ _ _ _ = res
    rcases res with ⟨r, ⟨v1, w1⟩⟩
    obtain ⟨hr, ⟨n, hcr⟩, hgr⟩ := createNew_ok ctx hcn (by simpa using h3) (by simpa using hg)
    subst hr
    refine ⟨v1, { w1 with trace := w1.trace ++ [.vkDestroySwapchainKHR v.swapchain]
      ++ v.imageReadySs.map .vkDestroySemaphore }, n, ?_, ?_⟩
    · have := hcr.swapchain_ne
      simp only at this
      simp [this]
    · simp only [Vars.afterCleanup] at hcr
      exact
        { swapchain_ne := hcr.swapchain_ne
          count_eq := hcr.count_eq
          enumerated := by
            obtain ⟨images, hl, hm⟩ := hcr.enumerated
            exact ⟨images, hl, by simp [hm]⟩
          imageViews := hcr.imageViews
          framebuffers := hcr.framebuffers
          commandBuffers_ge := hcr.commandBuffers_ge
          commandBuffers := hcr.commandBuffers
          renderDoneSs := hcr.renderDoneSs
          imageReadySs := hcr.imageReadySs
          submissionFences := hcr.submissionFences
          signaled := fun f hf => by simp [hcr.signaled f hf]
          submissionNr := hcr.submissionNr }

theorem recreateSwapchain_guard (ctx : Ctx) {env : Env} (v : Vars) {w : World}
    (h : env.SucceedsFrom w.tick) (hc : creatableAt env w.tick = true)
    (hg : ¬ createGuards ctx env (snapshotAt env w.tick) (createTick v w)) :
    ∃ msg, (recreateSwapchain ctx env ⟨v, w⟩).1 = .error (.text msg) := by
  have h0 := h.here
  have h1 : env.SucceedsFrom (w.tick + 1) := h.mono (Nat.le_succ _)
  have h3 : env.SucceedsFrom (w.tick + 3) := h.mono (by omega)
  simp only [creatableAt, snapshotAt] at hc
  simp only [snapshotAt] at hg
  by_cases hold : v.swapchain = VK_NULL_HANDLE
  · simp only [createTick, hold, ne_eq, not_true_eq_false, if_false] at hg ⊢
    simp only [recreateSwapchain, mBind_apply, liftW_apply, emit_apply, getVars_apply,
      modifyVars_apply, getSurfaceCapabilities_ok, h0, hc, hold, ne_eq, not_true_eq_false,
      if_false, if_true, mPure_apply]
    generalize hcn : createNew ctx env _ _ _ _ = res
    rcases res with ⟨r, ⟨v1, w1⟩⟩
    obtain ⟨msg, hr⟩ := createNew_fail ctx hcn (by simpa using h1) (by simpa using hg)
    subst hr
    exact ⟨msg, rfl⟩
  · simp only [createTick, hold, ne_eq, not_false_eq_true, if_true] at hg ⊢
    simp only [recreateSwapchain, mBind_apply, liftW_apply, emit_apply, getVars_apply,
      modifyVars_apply, getSurfaceCapabilities_ok, cleanupOld_ok, h0, h1, hc, hold, ne_eq,
      not_false_eq_true, if_false, if_true, mPure_apply, killOld_apply]
    generalize hcn : createNew ctx env _ _ _ _ = res
    rcases res with ⟨r, ⟨v1, w1⟩⟩
    obtain ⟨msg, hr⟩ := createNew_fail ctx hcn (by simpa using h3) (by simpa using hg)
    subst hr
    exact ⟨msg, rfl⟩

theorem index_apply (xs : List Handle) (i : Nat) (s : State) :
    index xs i s = match xs[i]? with
      | some x => (.ok x, s)
      | none => (.error .outOfRange, s) := by
  unfold index; cases xs[i]? <;> rfl

/-- Every run of the `try` block is one of the cases of `Attempt`. -/
theorem renderTry_attempt (ctx : Ctx) (env : Env) (v : Vars) (w : World) :
    Attempt ctx env v w (renderTry ctx env ⟨v, w⟩).1 (renderTry ctx env ⟨v, w⟩).2.1
      (renderTry ctx env ⟨v, w⟩).2.2 := by
  cases hf : v.submissionFences[v.submissionNr]? with
  | none =>
    have : renderTry ctx env ⟨v, w⟩ = (false, .error .outOfRange, ⟨v, w⟩) := by
      simp [renderTry, renderWaitReset, mBind_apply, index_apply, hf]
    rw [this]; exact .noFence hf
  | some f =>
    by_cases h0 : env.result w.tick = VK_SUCCESS
    swap
    · have : renderTry ctx env ⟨v, w⟩ = (false,
          .error (.vulkanResult .vkWaitForFences (env.result w.tick)),
          ⟨v, w.after 1 [.vkWaitForFences f (env.result w.tick)]⟩) := by
        simp [renderTry, renderWaitReset, mBind_apply, index_apply, hf, RESULT_HANDLER, h0,
          World.after]
      rw [this]; exact .waitFailed f hf h0
    by_cases h1 : env.result (w.tick + 1) = VK_SUCCESS
    swap
    · have : renderTry ctx env ⟨v, w⟩ = (false,
          .error (.vulkanResult .vkResetFences (env.result (w.tick + 1))),
          ⟨v, w.after 2 [.vkWaitForFences f VK_SUCCESS,
            .vkResetFences f (env.result (w.tick + 1))]⟩) := by
        simp [renderTry, renderWaitReset, mBind_apply, index_apply, hf, RESULT_HANDLER, h0, h1,
          World.after]
      rw [this]; exact .resetFailed f hf h0 h1
    have hwr : renderWaitReset env ⟨v, w⟩ = (.ok (),
        ⟨v, w.after 2 [.vkWaitForFences f VK_SUCCESS, .vkResetFences f VK_SUCCESS]⟩) := by
      simp [renderWaitReset, mBind_apply, index_apply, hf, h0, h1, World.after]
    simp only [World.after] at hwr
    cases hs : v.imageReadySs[v.submissionNr]? with
    | none =>
      have : renderTry ctx env ⟨v, w⟩ = (true, .error .outOfRange,
          ⟨v, w.after 2 [.vkWaitForFences f VK_SUCCESS, .vkResetFences f VK_SUCCESS]⟩) := by
        simp [renderTry, hwr, renderAcquire, mBind_apply, index_apply, hs, World.after]
      rw [this]; exact .noSemaphore f hf h0 h1 hs
    | some sem =>
      by_cases h2 : env.result (w.tick + 2) = VK_SUCCESS
      swap
      · have : renderTry ctx env ⟨v, w⟩ = (true,
            .error (.vulkanResult .vkAcquireNextImageKHR (env.result (w.tick + 2))),
            ⟨v, w.after 3 [.vkWaitForFences f VK_SUCCESS, .vkResetFences f VK_SUCCESS,
              .vkAcquireNextImageKHR v.swapchain sem (env.result (w.tick + 2))
                (acquiredIndex env w)]⟩) := by
          simp [renderTry, hwr, renderAcquire, mBind_apply, index_apply, hs, getNextImageIndex,
            wBind_apply, RESULT_HANDLER, h2, World.after, acquiredIndex]
        rw [this]; exact .acquireFailed f sem hf h0 h1 hs h2
      have hac : renderAcquire env
          ⟨v, w.after 2 [.vkWaitForFences f VK_SUCCESS, .vkResetFences f VK_SUCCESS]⟩ =
          (.ok (acquiredIndex env w),
            ⟨v, w.after 3 [.vkWaitForFences f VK_SUCCESS, .vkResetFences f VK_SUCCESS,
              .vkAcquireNextImageKHR v.swapchain sem VK_SUCCESS (acquiredIndex env w)]⟩) := by
        simp [renderAcquire, mBind_apply, index_apply, hs, getNextImageIndex,
          wBind_apply, h2, World.after, acquiredIndex]
      simp only [World.after] at hac
      cases hc : v.commandBuffers[acquiredIndex env w]? with
      | none =>
        have : renderTry ctx env ⟨v, w⟩ = (false, .error .outOfRange,
            ⟨v, w.after 3 [.vkWaitForFences f VK_SUCCESS, .vkResetFences f VK_SUCCESS,
              .vkAcquireNextImageKHR v.swapchain sem VK_SUCCESS (acquiredIndex env w)]⟩) := by
          simp [renderTry, hwr, hac, renderSubmitPresent, mBind_apply, index_apply, hc, World.after]
        rw [this]; exact .noResources f sem hf h0 h1 hs h2 (Or.inl hc)
      | some cb =>
        cases hd : v.renderDoneSs[acquiredIndex env w]? with
        | none =>
          have : renderTry ctx env ⟨v, w⟩ = (false, .error .outOfRange,
              ⟨v, w.after 3 [.vkWaitForFences f VK_SUCCESS, .vkResetFences f VK_SUCCESS,
                .vkAcquireNextImageKHR v.swapchain sem VK_SUCCESS (acquiredIndex env w)]⟩) := by
            simp [renderTry, hwr, hac, renderSubmitPresent, mBind_apply, index_apply, hc, hs, hd, World.after]
          rw [this]; exact .noResources f sem hf h0 h1 hs h2 (Or.inr hd)
        | some rd =>
          by_cases h3 : env.result (w.tick + 3) = VK_SUCCESS
          swap
          · have : renderTry ctx env ⟨v, w⟩ = (false,
                .error (.vulkanResult .vkQueueSubmit (env.result (w.tick + 3))),
                ⟨v, w.after 4 [.vkWaitForFences f VK_SUCCESS, .vkResetFences f VK_SUCCESS,
                  .vkAcquireNextImageKHR v.swapchain sem VK_SUCCESS (acquiredIndex env w),
                  .vkQueueSubmit ctx.graphicsQueue [sem]
                    VK_PIPELINE_STAGE_COLOR_ATTACHMENT_OUTPUT_BIT [cb] [rd] f
                    (env.result (w.tick + 3))]⟩) := by
              simp [renderTry, hwr, hac, renderSubmitPresent, mBind_apply, index_apply, hc, hs, hd,
                hf, submitToQueue, wBind_apply, RESULT_HANDLER, h3, World.after]
            rw [this]; exact .submitFailed f sem cb rd hf h0 h1 hs h2 hc hd h3
          by_cases h4 : env.result (w.tick + 4) = VK_SUCCESS
          swap
          · have : renderTry ctx env ⟨v, w⟩ = (false,
                .error (.vulkanResult .vkQueuePresentKHR (env.result (w.tick + 4))),
                ⟨v, w.after 5 [.vkWaitForFences f VK_SUCCESS, .vkResetFences f VK_SUCCESS,
                  .vkAcquireNextImageKHR v.swapchain sem VK_SUCCESS (acquiredIndex env w),
                  .vkQueueSubmit ctx.graphicsQueue [sem]
                    VK_PIPELINE_STAGE_COLOR_ATTACHMENT_OUTPUT_BIT [cb] [rd] f VK_SUCCESS,
                  .vkQueuePresentKHR ctx.presentQueue rd v.swapchain (acquiredIndex env w)
                    (env.result (w.tick + 4))]⟩) := by
              simp [renderTry, hwr, hac, renderSubmitPresent, mBind_apply, index_apply, hc, hs, hd,
                hf, submitToQueue, present, wBind_apply, RESULT_HANDLER, h3, h4, World.after]
            rw [this]; exact .presentFailed f sem cb rd hf h0 h1 hs h2 hc hd h3 h4
          have : renderTry ctx env ⟨v, w⟩ = (false, .ok (),
              ⟨{ v with submissionNr := toUInt32 (v.submissionNr + 1) % maxInflightSubmissions },
                w.after 5 [.vkWaitForFences f VK_SUCCESS, .vkResetFences f VK_SUCCESS,
                .vkAcquireNextImageKHR v.swapchain sem VK_SUCCESS (acquiredIndex env w),
                .vkQueueSubmit ctx.graphicsQueue [sem]
                  VK_PIPELINE_STAGE_COLOR_ATTACHMENT_OUTPUT_BIT [cb] [rd] f VK_SUCCESS,
                .vkQueuePresentKHR ctx.presentQueue rd v.swapchain (acquiredIndex env w)
                  VK_SUCCESS]⟩) := by
            simp [renderTry, hwr, hac, renderSubmitPresent, mBind_apply, index_apply, hc, hs, hd,
              hf, submitToQueue, present, wBind_apply, h3, h4, World.after]
          rw [this]; exact .done f sem cb rd hf h0 h1 hs h2 hc hd h3 h4

theorem cleanupUnsafeSemaphore_apply (env : Env) (queue semaphore : Handle) (w : World) :
    cleanupUnsafeSemaphore env queue semaphore w =
      (if env.result w.tick = VK_SUCCESS then .ok ()
        else .error (.vulkanResult .vkQueueSubmit (env.result w.tick)),
       w.after 1 [.enter .cleanupUnsafeSemaphore,
         .vkQueueSubmit queue [semaphore] VK_PIPELINE_STAGE_BOTTOM_OF_PIPE_BIT [] []
           VK_NULL_HANDLE (env.result w.tick)]) := by
  by_cases h : env.result w.tick = VK_SUCCESS
  · simp [cleanupUnsafeSemaphore, wBind_apply, h, World.after]
  · simp [cleanupUnsafeSemaphore, wBind_apply, h, World.after, RESULT_HANDLER]

/-- A computation that records its entry and then makes lifecycle calls only. -/
theorem entered_trace {α : Type} (fn : Fn) (f : Unit → M α) (hf : ∀ u, M.Lifecycle (f u))
    (s : State) :
    (∃ l, ((liftW (emit (.enter fn)) >>= f) s).2.world.trace = s.world.trace ++ .enter fn :: l
      ∧ ∀ e ∈ l, Event.isLifecycle e = true)
    ∧ s.world.tick ≤ ((liftW (emit (.enter fn)) >>= f) s).2.world.tick
    ∧ ∀ e, ((liftW (emit (.enter fn)) >>= f) s).1 = .error e → Exn.fromLifecycle e = true := by
  obtain ⟨⟨htick, l, hl, hp⟩, hexn⟩ :=
    hf () { s with world := { s.world with trace := s.world.trace ++ [.enter fn] } }
  have hrun : (liftW (emit (.enter fn)) >>= f) s
      = f () { s with world := { s.world with trace := s.world.trace ++ [.enter fn] } } := rfl
  rw [hrun]
  refine ⟨⟨l, ?_, hp⟩, htick, hexn⟩
  rw [hl]
  simp

/-- The trace of any call of `recreateSwapchain`: its entry, then lifecycle calls only. -/
theorem recreateSwapchain_trace (ctx : Ctx) (env : Env) (s : State) :
    (∃ l, (recreateSwapchain ctx env s).2.world.trace
        = s.world.trace ++ .enter .recreateSwapchain :: l
      ∧ ∀ e ∈ l, Event.isLifecycle e = true)
    ∧ s.world.tick ≤ (recreateSwapchain ctx env s).2.world.tick
    ∧ ∀ e, (recreateSwapchain ctx env s).1 = .error e → Exn.fromLifecycle e = true := by
  refine entered_trace .recreateSwapchain _ (fun _ => ?_) s
  refine .mBind .getVars fun _ => .mBind (.modifyVars _) fun _ =>
    .mBind (.liftW (getSurfaceCapabilities_lifecycle env)) fun _ => ?_
  refine .mBind .getVars fun _ => .mBind (.modifyVars _) fun _ => ?_
  refine .mBind (.mIte (cleanupOld_lifecycle ctx env) (.mPure _)) fun _ => ?_
  refine .mBind (.mIte (createNew_lifecycle ctx env _ _ _) (.mPure _)) fun _ => ?_
  refine .mBind (.mIte (killOld_lifecycle _ _) (.mPure _)) fun _ => ?_
  exact .mBind .getVars fun _ => .mPure _

theorem render_zero (ctx : Ctx) (env : Env) (s : State) :
    render ctx env 0 s = (.error .fuel, s) := rfl

theorem render_succ (ctx : Ctx) (env : Env) (fuel : Nat) (v : Vars) (w : World) :
    render ctx env (fuel + 1) ⟨v, w⟩ =
      if v.swapchain = VK_NULL_HANDLE then (.error .assertion, ⟨v, w.after 0 [.enter .render]⟩)
      else
        match renderTry ctx env ⟨v, w.after 0 [.enter .render]⟩ with
        | (_, (.ok _, s1)) => (.ok (), s1)
        | (unsafeSemaphore, (.error (.vulkanResult source result), s1)) =>
          renderCatch ctx env (render ctx env fuel) unsafeSemaphore source result s1
        | (_, (.error e, s1)) => (.error e, s1) := rfl

/-- The handler of `render` for a transient result: the optional drain of the semaphore,
then `recreateSwapchain`, then the frame again. -/
theorem renderCatch_transient (ctx : Ctx) (env : Env) (again : M Unit) (flag : Bool)
    (source : Api) {result : VkResult}
    (hr : result = VK_SUBOPTIMAL_KHR ∨ result = VK_ERROR_OUT_OF_DATE_KHR) (v : Vars) (w : World) :
    renderCatch ctx env again flag source result ⟨v, w⟩ =
      if flag = true ∧ result = VK_SUBOPTIMAL_KHR then
        match v.imageReadySs[v.submissionNr]? with
        | none => (.error .outOfRange, ⟨v, w⟩)
        | some sem =>
          if env.result w.tick = VK_SUCCESS then
            (recreateSwapchain ctx env >>= fun _ => again)
              ⟨v, w.after 1 [.enter .cleanupUnsafeSemaphore,
                .vkQueueSubmit ctx.graphicsQueue [sem] VK_PIPELINE_STAGE_BOTTOM_OF_PIPE_BIT [] []
                  VK_NULL_HANDLE VK_SUCCESS]⟩
          else
            (.error (.vulkanResult .vkQueueSubmit (env.result w.tick)),
              ⟨v, w.after 1 [.enter .cleanupUnsafeSemaphore,
                .vkQueueSubmit ctx.graphicsQueue [sem] VK_PIPELINE_STAGE_BOTTOM_OF_PIPE_BIT [] []
                  VK_NULL_HANDLE (env.result w.tick)]⟩)
      else (recreateSwapchain ctx env >>= fun _ => again) ⟨v, w⟩ := by
  unfold renderCatch
  rw [if_pos hr]
  by_cases hc : flag = true ∧ result = VK_SUBOPTIMAL_KHR
  · rw [if_pos hc]
    cases hs : v.imageReadySs[v.submissionNr]? with
    | none => simp [mBind_apply, index_apply, hs, hc]
    | some sem =>
      by_cases h0 : env.result w.tick = VK_SUCCESS
      · simp [mBind_apply, index_apply, hs, hc, cleanupUnsafeSemaphore_apply, h0]
      · simp [mBind_apply, index_apply, hs, hc, cleanupUnsafeSemaphore_apply, h0]
  · rw [if_neg hc]
    simp [mBind_apply, hc]

theorem renderCatch_fatal (ctx : Ctx) (env : Env) (again : M Unit) (flag : Bool)
    (source : Api) {result : VkResult}
    (hr : ¬ (result = VK_SUBOPTIMAL_KHR ∨ result = VK_ERROR_OUT_OF_DATE_KHR)) (s : State) :
    renderCatch ctx env again flag source result s = (.error (.vulkanResult source result), s) := by
  unfold renderCatch
  rw [if_neg hr]
  rfl

theorem Attempt.trace_eq {ctx : Ctx} {env : Env} {v : Vars} {w : World} {flag : Bool}
    {r : Except Exn Unit} {s1 : State} (h : Attempt ctx env v w flag r s1) :
    ∃ l, s1.world.trace = w.trace ++ l ∧ recreations l = 0 := by
  cases h with
  | noFence _ => exact ⟨[], (List.append_nil _).symm, rfl⟩
  | _ => exact ⟨_, rfl, by simp [recreations]⟩

theorem Attempt.vars_eq {ctx : Ctx} {env : Env} {v : Vars} {w : World} {flag : Bool}
    {e : Exn} {s1 : State} (h : Attempt ctx env v w flag (.error e) s1) : s1.vars = v := by
  cases h <;> rfl

theorem Attempt.vars_ok {ctx : Ctx} {env : Env} {v : Vars} {w : World} {flag : Bool}
    {s1 : State} (h : Attempt ctx env v w flag (.ok ()) s1) :
    s1.vars = { v with submissionNr := toUInt32 (v.submissionNr + 1) % maxInflightSubmissions } := by
  cases h; rfl

theorem recreations_append (l1 l2 : List Event) :
    recreations (l1 ++ l2) = recreations l1 + recreations l2 := by
  simp [recreations]

theorem recreations_lifecycle {l : List Event} (h : ∀ e ∈ l, Event.isLifecycle e = true) :
    recreations l = 0 := by
  unfold recreations
  rw [List.count_eq_zero]
  intro hmem
  have := h _ hmem
  simp [Event.isLifecycle] at this

/-- The trace only grows, and `recreateSwapchain` followed by anything records one more
recreation at least. -/
theorem retry_trace (ctx : Ctx) (env : Env) {again : M Unit}
    (hagain : ∀ s, ∃ l, (again s).2.world.trace = s.world.trace ++ l) (s : State) :
    ∃ l, ((recreateSwapchain ctx env >>= fun _ => again) s).2.world.trace
      = s.world.trace ++ .enter .recreateSwapchain :: l := by
  obtain ⟨⟨l, hl, _⟩, _, _⟩ := recreateSwapchain_trace ctx env s
  rw [mBind_apply]
  rcases hr : recreateSwapchain ctx env s with ⟨r, s1⟩
  rw [hr] at hl
  cases r with
  | error e => exact ⟨l, hl⟩
  | ok b =>
    obtain ⟨l2, hl2⟩ := hagain s1
    refine ⟨l ++ l2, ?_⟩
    simp only at hl ⊢
    rw [hl2, hl]
    simp

theorem renderCatch_trace (ctx : Ctx) (env : Env) {again : M Unit}
    (hagain : ∀ s, ∃ l, (again s).2.world.trace = s.world.trace ++ l) (flag : Bool)
    (source : Api) (result : VkResult) (s : State) :
    ∃ l, (renderCatch ctx env again flag source result s).2.world.trace = s.world.trace ++ l
      ∧ ((renderCatch ctx env again flag source result s).1 = .ok () → 0 < recreations l) := by
  rcases s with ⟨v, w⟩
  by_cases hr : result = VK_SUBOPTIMAL_KHR ∨ result = VK_ERROR_OUT_OF_DATE_KHR
  · rw [renderCatch_transient ctx env again flag source hr]
    by_cases hc : flag = true ∧ result = VK_SUBOPTIMAL_KHR
    · rw [if_pos hc]
      cases hs : v.imageReadySs[v.submissionNr]? with
      | none => exact ⟨[], by simp, by simp⟩
      | some sem =>
        by_cases h0 : env.result w.tick = VK_SUCCESS
        · simp only [if_pos h0]
          obtain ⟨l, hl⟩ := retry_trace ctx env hagain
            ⟨v, w.after 1 [.enter .cleanupUnsafeSemaphore,
              .vkQueueSubmit ctx.graphicsQueue [sem] VK_PIPELINE_STAGE_BOTTOM_OF_PIPE_BIT [] []
                VK_NULL_HANDLE VK_SUCCESS]⟩
          refine ⟨[.enter .cleanupUnsafeSemaphore,
              .vkQueueSubmit ctx.graphicsQueue [sem] VK_PIPELINE_STAGE_BOTTOM_OF_PIPE_BIT [] []
                VK_NULL_HANDLE VK_SUCCESS] ++ .enter .recreateSwapchain :: l, ?_, ?_⟩
          · rw [hl]; simp [World.after]
          · intro _; simp [recreations_append, recreations]
        · simp only [if_neg h0]
          exact ⟨_, rfl, by simp⟩
    · rw [if_neg hc]
      obtain ⟨l, hl⟩ := retry_trace ctx env hagain ⟨v, w⟩
      exact ⟨_, hl, by intro _; simp [recreations]⟩
  · rw [renderCatch_fatal ctx env again flag source hr]
    exact ⟨[], by simp, by simp⟩

theorem render_trace (ctx : Ctx) (env : Env) (fuel : Nat) :
    ∀ s, ∃ l, (render ctx env fuel s).2.world.trace = s.world.trace ++ l := by
  induction fuel with
  | zero => intro s; exact ⟨[], by simp [render_zero]⟩
  | succ fuel ih =>
    intro s
    rcases s with ⟨v, w⟩
    rw [render_succ]
    by_cases hsw : v.swapchain = VK_NULL_HANDLE
    · rw [if_pos hsw]; exact ⟨_, rfl⟩
    · rw [if_neg hsw]
      have hA := renderTry_attempt ctx env v (w.after 0 [.enter .render])
      rcases hr : renderTry ctx env ⟨v, w.after 0 [.enter .render]⟩ with ⟨flag, r, s1⟩
      rw [hr] at hA
      obtain ⟨la, hla, _⟩ := hA.trace_eq
      simp only [World.after] at hla
      cases r with
      | ok u => exact ⟨.enter .render :: la, by simp [hla, World.after]⟩
      | error e =>
        cases e with
        | vulkanResult source result =>
          obtain ⟨lc, hlc, _⟩ := renderCatch_trace ctx env ih flag source result s1
          exact ⟨.enter .render :: (la ++ lc), by simp [hlc, hla, World.after]⟩
        | text msg => exact ⟨.enter .render :: la, by simp [hla, World.after]⟩
        | assertion => exact ⟨.enter .render :: la, by simp [hla, World.after]⟩
        | outOfRange => exact ⟨.enter .render :: la, by simp [hla, World.after]⟩
        | fuel => exact ⟨.enter .render :: la, by simp [hla, World.after]⟩

/-- A call of `render` that returns either completed its first attempt, advancing the ring
index, or called `recreateSwapchain`. -/
theorem render_ok_cases (ctx : Ctx) (env : Env) (fuel : Nat) (s s1 : State)
    (h : render ctx env (fuel + 1) s = (.ok (), s1)) :
    s1.vars = { s.vars with
        submissionNr := toUInt32 (s.vars.submissionNr + 1) % maxInflightSubmissions }
    ∨ recreations s.world.trace < recreations s1.world.trace := by
  rcases s with ⟨v, w⟩
  rw [render_succ] at h
  by_cases hsw : v.swapchain = VK_NULL_HANDLE
  · rw [if_pos hsw] at h; simp at h
  · rw [if_neg hsw] at h
    have hA := renderTry_attempt ctx env v (w.after 0 [.enter .render])
    rcases hr : renderTry ctx env ⟨v, w.after 0 [.enter .render]⟩ with ⟨flag, r, s2⟩
    rw [hr] at hA h
    obtain ⟨la, hla, _⟩ := hA.trace_eq
    simp only [World.after] at hla
    cases r with
    | ok u =>
      simp only [Prod.mk.injEq, true_and] at h
      subst h
      exact Or.inl hA.vars_ok
    | error e =>
      cases e with
      | vulkanResult source result =>
        simp only at h
        obtain ⟨lc, hlc, hpos⟩ :=
          renderCatch_trace ctx env (render_trace ctx env fuel) flag source result s2
        rw [h] at hlc hpos
        right
        simp only at hlc
        rw [hlc, hla]
        simp only [World.after, recreations_append]
        have := hpos rfl
        omega
      | text msg => simp at h
      | assertion => simp at h
      | outOfRange => simp at h
      | fuel => simp at h


/-! ### The size of `commandBuffers` in the states the program reaches -/

theorem M.Bounded.keepPure {α : Type} (a : α) : M.Bounded (pure a : M α) := fun _ h => h

theorem M.Bounded.keepBind {α β : Type} {m : M α} {f : α → M β} (hm : M.Bounded m)
    (hf : ∀ a, M.Bounded (f a)) : M.Bounded (m >>= f) := by
  intro s hs
  rw [mBind_apply]
  have h := hm s hs
  rcases hms : m s with ⟨r, s1⟩
  rw [hms] at h
  cases r with
  | ok a => exact hf a s1 h
  | error e => exact h

theorem M.Bounded.keepLiftW {α : Type} (m : W α) : M.Bounded (liftW m) := fun _ h => h

theorem M.Bounded.keepGetVars : M.Bounded getVars := fun _ h => h

theorem M.Bounded.keepModifyVars (f : Vars → Vars)
    (hf : ∀ v, (f v).commandBuffers = v.commandBuffers) : M.Bounded (modifyVars f) := by
  intro s hs
  simp only [modifyVars_apply, hf]
  exact hs

theorem M.Bounded.keepIndex (xs : List Handle) (i : Nat) : M.Bounded (index xs i) := by
  intro s hs
  rw [index_apply]
  cases xs[i]? <;> exact hs

theorem M.Bounded.keepIte {α : Type} {c : Prop} [Decidable c] {m1 m2 : M α} (h1 : M.Bounded m1)
    (h2 : M.Bounded m2) : M.Bounded (if c then m1 else m2) := by
  split
  · exact h1
  · exact h2

theorem acquireCommandBuffers_bounded (ctx : Ctx) (env : Env) (count : Nat)
    (hc : count < 2 ^ 32) : M.Bounded (acquireCommandBuffers ctx env count) := by
  intro s hs
  rcases s with ⟨v, w⟩
  have hold : toUInt32 v.commandBuffers.length = v.commandBuffers.length := toUInt32_of_lt hs
  by_cases h1 : count > v.commandBuffers.length
  · have h2 : ¬ count < v.commandBuffers.length := by omega
    by_cases hres : env.result w.tick = VK_SUCCESS
    · simp [acquireCommandBuffers, mBind_apply, allocateCommandBuffers, wBind_apply, hold, h1,
        h2, hres, length_resize]
      omega
    · simp [acquireCommandBuffers, mBind_apply, allocateCommandBuffers, wBind_apply, hold, h1,
        h2, hres, length_resize, RESULT_HANDLER]
      omega
  · by_cases h2 : count < v.commandBuffers.length
    · simp [acquireCommandBuffers, mBind_apply, hold, h1, h2, length_resize]
      exact hc
    · simp [acquireCommandBuffers, mBind_apply, hold, h1, h2]
      exact hs

theorem recordCommandBuffer_bounded (ctx : Ctx) (env : Env) (surfaceSize : VkExtent2D)
    (i : Nat) : M.Bounded (recordCommandBuffer ctx env surfaceSize i) := by
  unfold recordCommandBuffer
  refine .keepBind .keepGetVars fun _ => .keepBind (.keepIndex _ _) fun _ => .keepBind (.keepLiftW _) fun _ => ?_
  refine .keepBind .keepGetVars fun _ => .keepBind (.keepIndex _ _) fun _ =>
    .keepBind .keepGetVars fun _ => .keepBind (.keepIndex _ _) fun _ => .keepBind (.keepLiftW _) fun _ => ?_
  refine .keepBind .keepGetVars fun _ => .keepBind (.keepIndex _ _) fun _ =>
    .keepBind .keepGetVars fun _ => .keepBind (.keepLiftW _) fun _ => ?_
  refine .keepBind .keepGetVars fun _ => .keepBind (.keepIndex _ _) fun _ => .keepBind (.keepLiftW _) fun _ => ?_
  refine .keepBind .keepGetVars fun _ => .keepBind (.keepIndex _ _) fun _ => .keepBind (.keepLiftW _) fun _ => ?_
  refine .keepBind .keepGetVars fun _ => .keepBind (.keepIndex _ _) fun _ => .keepBind (.keepLiftW _) fun _ => ?_
  refine .keepBind .keepGetVars fun _ => .keepBind (.keepIndex _ _) fun _ => .keepBind (.keepLiftW _) fun _ => ?_
  exact .keepBind .keepGetVars fun _ => .keepBind (.keepIndex _ _) fun _ => .keepLiftW _

theorem recordCommandBuffers_bounded (ctx : Ctx) (env : Env) (surfaceSize : VkExtent2D)
    (remaining i : Nat) : M.Bounded (recordCommandBuffers ctx env surfaceSize remaining i) := by
  induction remaining generalizing i with
  | zero => exact .keepPure _
  | succ n ih => exact .keepBind (recordCommandBuffer_bounded ctx env surfaceSize i) fun _ => ih _

theorem cleanupOld_bounded (ctx : Ctx) (env : Env) : M.Bounded (cleanupOld ctx env) := by
  unfold cleanupOld
  refine .keepBind (.keepLiftW _) fun _ => .keepBind (.keepLiftW _) fun _ => ?_
  refine .keepBind .keepGetVars fun _ => .keepBind (.keepLiftW _) fun _ =>
    .keepBind (.keepModifyVars _ fun _ => rfl) fun _ => ?_
  refine .keepBind .keepGetVars fun _ => .keepBind (.keepLiftW _) fun _ =>
    .keepBind (.keepModifyVars _ fun _ => rfl) fun _ => ?_
  refine .keepBind (.keepLiftW _) fun _ => .keepBind (.keepLiftW _) fun _ => ?_
  refine .keepBind .keepGetVars fun _ => .keepBind (.keepLiftW _) fun _ => ?_
  refine .keepBind .keepGetVars fun _ => .keepBind (.keepLiftW _) fun _ =>
    .keepBind (.keepModifyVars _ fun _ => rfl) fun _ => ?_
  exact .keepBind .keepGetVars fun _ => .keepBind (.keepLiftW _) fun _ => .keepModifyVars _ fun _ => rfl

theorem createNew_bounded (ctx : Ctx) (env : Env) (capabilities : VkSurfaceCapabilitiesKHR)
    (surfaceSize : VkExtent2D) (oldSwapchain : Handle) :
    M.Bounded (createNew ctx env capabilities surfaceSize oldSwapchain) := by
  unfold createNew
  refine .keepBind (.keepLiftW _) fun _ => .keepBind (.keepModifyVars _ fun _ => rfl) fun _ => ?_
  refine .keepBind .keepGetVars fun _ => .keepBind (.keepLiftW _) fun _ => ?_
  refine .keepBind (.keepLiftW _) fun _ => .keepBind (.keepModifyVars _ fun _ => rfl) fun _ => ?_
  refine .keepBind .keepGetVars fun _ => .keepBind (.keepLiftW _) fun _ =>
    .keepBind (.keepModifyVars _ fun _ => rfl) fun _ => ?_
  refine .keepBind (.keepLiftW _) fun _ => .keepBind (.keepModifyVars _ fun _ => rfl) fun _ => ?_
  refine .keepBind (acquireCommandBuffers_bounded ctx env _ (toUInt32_lt _)) fun _ => ?_
  refine .keepBind (recordCommandBuffers_bounded ctx env _ _ _) fun _ => ?_
  refine .keepBind (.keepLiftW _) fun _ => .keepBind (.keepModifyVars _ fun _ => rfl) fun _ => ?_
  refine .keepBind (.keepLiftW _) fun _ => .keepBind (.keepModifyVars _ fun _ => rfl) fun _ => ?_
  exact .keepBind (.keepLiftW _) fun _ =>
    .keepBind (.keepModifyVars _ fun _ => rfl) fun _ => .keepModifyVars _ fun _ => rfl

theorem killOld_bounded (oldSwapchain : Handle) (oldImageReadySs : List Handle) :
    M.Bounded (killOld oldSwapchain oldImageReadySs) :=
  .keepBind (.keepLiftW _) fun _ => .keepBind (.keepLiftW _) fun _ => .keepPure _

theorem recreateSwapchain_bounded (ctx : Ctx) (env : Env) :
    M.Bounded (recreateSwapchain ctx env) := by
  unfold recreateSwapchain
  refine .keepBind (.keepLiftW _) fun _ => ?_
  refine .keepBind .keepGetVars fun _ => .keepBind (.keepModifyVars _ fun _ => rfl) fun _ =>
    .keepBind (.keepLiftW _) fun _ => ?_
  refine .keepBind .keepGetVars fun _ => .keepBind (.keepModifyVars _ fun _ => rfl) fun _ => ?_
  refine .keepBind (.keepIte (cleanupOld_bounded ctx env) (.keepPure _)) fun _ => ?_
  refine .keepBind (.keepIte (createNew_bounded ctx env _ _ _) (.keepPure _)) fun _ => ?_
  refine .keepBind (.keepIte (killOld_bounded _ _) (.keepPure _)) fun _ => ?_
  exact .keepBind .keepGetVars fun _ => .keepPure _

theorem render_bounded (ctx : Ctx) (env : Env) (fuel : Nat) : M.Bounded (render ctx env fuel) := by
  induction fuel with
  | zero => intro s hs; simpa [render_zero] using hs
  | succ fuel ih =>
    intro s hs
    rcases s with ⟨v, w⟩
    rw [render_succ]
    by_cases hsw : v.swapchain = VK_NULL_HANDLE
    · rw [if_pos hsw]; exact hs
    · rw [if_neg hsw]
      have hA := renderTry_attempt ctx env v (w.after 0 [.enter .render])
      rcases hr : renderTry ctx env ⟨v, w.after 0 [.enter .render]⟩ with ⟨flag, r, ⟨v1, w1⟩⟩
      rw [hr] at hA
      simp only at hs hA ⊢
      cases r with
      | ok u =>
        have := hA.vars_ok
        simp only at this
        rw [this]
        exact hs
      | error e =>
        have hv : v1 = v := hA.vars_eq
        subst hv
        cases e with
        | vulkanResult source result =>
          simp only
          have hretry : M.Bounded (recreateSwapchain ctx env >>= fun _ => render ctx env fuel) :=
            .keepBind (recreateSwapchain_bounded ctx env) fun _ => ih
          by_cases ht : result = VK_SUBOPTIMAL_KHR ∨ result = VK_ERROR_OUT_OF_DATE_KHR
          · rw [renderCatch_transient ctx env _ flag source ht]
            by_cases hc : flag = true ∧ result = VK_SUBOPTIMAL_KHR
            · rw [if_pos hc]
              cases hsem : v1.imageReadySs[v1.submissionNr]? with
              | none => exact hs
              | some sem =>
                by_cases h0 : env.result w1.tick = VK_SUCCESS
                · simp only [if_pos h0]
                  exact hretry _ hs
                · simp only [if_neg h0]
                  exact hs
            · rw [if_neg hc]
              exact hretry _ hs
          · rw [renderCatch_fatal ctx env _ flag source ht]
            exact hs
        | text msg => exact hs
        | assertion => exact hs
        | outOfRange => exact hs
        | fuel => exact hs

/-- In every state the program reaches from its initial one by calls of its two lambdas,
`commandBuffers` has fewer than 2^32 elements. -/
theorem commandBuffers_bounded (ctx : Ctx) (env : Env) (ops : List Op) :
    ∀ s, s.vars.commandBuffers.length < 2 ^ 32 →
      (runOps ctx env ops s).vars.commandBuffers.length < 2 ^ 32 := by
  induction ops with
  | nil => intro s hs; exact hs
  | cons op ops ih =>
    intro s hs
    have hstep : runOps ctx env (op :: ops) s = runOps ctx env ops (runOp ctx env op s) := rfl
    rw [hstep]
    apply ih
    cases op with
    | recreateSwapchain => exact recreateSwapchain_bounded ctx env s hs
    | render fuel => exact render_bounded ctx env fuel s hs


/-! ### A call depends on the results of the API calls made inside it only -/

section Locality
variable {α β : Type}

theorem W.Same.sameW {T : Nat} {m : W α} (hm : W.Lifecycle m) : W.Same T m m :=
  fun w => ⟨(hm w).1.tick_le, fun _ => rfl⟩

theorem W.Same.bindW {T : Nat} {m m1 : W α} {f f1 : α → W β} (hm : W.Same T m m1)
    (hf : ∀ a, W.Same T (f a) (f1 a)) : W.Same T (m >>= f) (m1 >>= f1) := by
  intro w
  rw [wBind_apply, wBind_apply]
  obtain ⟨h1, h2⟩ := hm w
  rcases hmw : m w with ⟨r, w1⟩
  rw [hmw] at h1 h2
  cases r with
  | ok a =>
    obtain ⟨h3, h4⟩ := hf a w1
    refine ⟨Nat.le_trans h1 h3, fun hT => ?_⟩
    simp only at hT h1 h3 h4 ⊢
    rw [h2 (Nat.le_trans h3 hT)]
    exact h4 hT
  | error e =>
    refine ⟨h1, fun hT => ?_⟩
    simp only at hT ⊢
    rw [h2 hT]

theorem W.Same.reportW {T : Nat} (env : Env) {r1 : Nat → VkResult}
    (h : ∀ k, k < T → r1 k = env.result k) (mk : VkResult → Event) :
    W.Same T (report env mk) (report (env.withResult r1) mk) := by
  intro w
  refine ⟨Nat.le_succ _, fun hT => ?_⟩
  have hk : r1 w.tick = env.result w.tick := h _ hT
  simp [report, hk]

theorem W.Same.createW {T : Nat} (env : Env) {r1 : Nat → VkResult}
    (h : ∀ k, k < T → r1 k = env.result k) (mk : VkResult → Handle → Event) :
    W.Same T (create env mk) (create (env.withResult r1) mk) := by
  intro w
  refine ⟨Nat.le_succ _, fun hT => ?_⟩
  have hk : r1 w.tick = env.result w.tick := h _ hT
  simp [create, hk]

theorem W.Same.iteW {T : Nat} {c : Prop} [Decidable c] {m m1 n n1 : W α}
    (h1 : W.Same T m m1) (h2 : W.Same T n n1) :
    W.Same T (if c then m else n) (if c then m1 else n1) := by
  split
  · exact h1
  · exact h2

theorem M.Same.sameM {T : Nat} {m : M α} (hm : M.Lifecycle m) : M.Same T m m :=
  fun s => ⟨(hm s).1.tick_le, fun _ => rfl⟩

theorem M.Same.bindM {T : Nat} {m m1 : M α} {f f1 : α → M β} (hm : M.Same T m m1)
    (hf : ∀ a, M.Same T (f a) (f1 a)) : M.Same T (m >>= f) (m1 >>= f1) := by
  intro s
  rw [mBind_apply, mBind_apply]
  obtain ⟨h1, h2⟩ := hm s
  rcases hms : m s with ⟨r, s1⟩
  rw [hms] at h1 h2
  cases r with
  | ok a =>
    obtain ⟨h3, h4⟩ := hf a s1
    refine ⟨Nat.le_trans h1 h3, fun hT => ?_⟩
    simp only at hT h1 h3 h4 ⊢
    rw [h2 (Nat.le_trans h3 hT)]
    exact h4 hT
  | error e =>
    refine ⟨h1, fun hT => ?_⟩
    simp only at hT ⊢
    rw [h2 hT]

theorem M.Same.liftM {T : Nat} {m m1 : W α} (h : W.Same T m m1) :
    M.Same T (liftW m) (liftW m1) := by
  intro s
  obtain ⟨h1, h2⟩ := h s.world
  refine ⟨h1, fun hT => ?_⟩
  simp only [liftW_apply] at hT ⊢
  rw [h2 hT]

theorem M.Same.iteM {T : Nat} {c : Prop} [Decidable c] {m m1 n n1 : M α}
    (h1 : M.Same T m m1) (h2 : M.Same T n n1) :
    M.Same T (if c then m else n) (if c then m1 else n1) := by
  split
  · exact h1
  · exact h2

theorem M.Same.emitM {T : Nat} (e : Event) : M.Same T (liftW (emit e)) (liftW (emit e)) :=
  fun _ => ⟨Nat.le_refl _, fun _ => rfl⟩

end Locality

theorem getSurfaceCapabilities_same {T : Nat} (env : Env) {r1 : Nat → VkResult}
    (h : ∀ k, k < T → r1 k = env.result k) :
    W.Same T (getSurfaceCapabilities env) (getSurfaceCapabilities (env.withResult r1)) :=
  .bindW (.sameW .getTick) fun _ => .bindW (.reportW env h _) fun _ =>
    .bindW (.sameW (.resultHandler _ rfl)) fun _ => .sameW (.wPure _)

theorem enumeratePresentModes_same {T : Nat} (env : Env) {r1 : Nat → VkResult}
    (h : ∀ k, k < T → r1 k = env.result k) :
    W.Same T (enumeratePresentModes env) (enumeratePresentModes (env.withResult r1)) :=
  .bindW (.sameW .getTick) fun _ => .bindW (.reportW env h _) fun _ =>
    .bindW (.sameW (.resultHandler _ rfl)) fun _ => .sameW (.wPure _)

theorem enumerateSwapchainImages_same {T : Nat} (env : Env) {r1 : Nat → VkResult}
    (h : ∀ k, k < T → r1 k = env.result k) (swapchain : Handle) :
    W.Same T (enumerateSwapchainImages env swapchain)
      (enumerateSwapchainImages (env.withResult r1) swapchain) :=
  .bindW (.sameW .getTick) fun _ => .bindW (.sameW (.allocate _)) fun _ =>
    .bindW (.reportW env h _) fun _ =>
      .bindW (.sameW (.resultHandler _ rfl)) fun _ => .sameW (.wPure _)

theorem getSurfacePresentMode_same {T : Nat} (env : Env) {r1 : Nat → VkResult}
    (h : ∀ k, k < T → r1 k = env.result k) :
    W.Same T (getSurfacePresentMode env) (getSurfacePresentMode (env.withResult r1)) := by
  unfold getSurfacePresentMode
  refine .bindW (enumeratePresentModes_same env h) fun modes => .sameW ?_
  split
  · exact .wBind (.setSelectedMode _) fun _ => .wPure _
  · split
    · exact .wBind (.setSelectedMode _) fun _ => .wPure _
    · split
      · exact .wRaise rfl
      · exact .wBind (.setSelectedMode _) fun _ => .wPure _

theorem initSwapchain_same {T : Nat} (ctx : Ctx) (env : Env) {r1 : Nat → VkResult}
    (h : ∀ k, k < T → r1 k = env.result k) (capabilities : VkSurfaceCapabilitiesKHR)
    (oldSwapchain : Handle) :
    W.Same T (initSwapchain ctx env capabilities oldSwapchain)
      (initSwapchain ctx (env.withResult r1) capabilities oldSwapchain) := by
  unfold initSwapchain
  cases compositeAlphaFlag capabilities.supportedCompositeAlpha with
  | none => exact .sameW (.wRaise rfl)
  | some alpha =>
    exact .bindW (getSurfacePresentMode_same env h) fun _ =>
      .bindW (.createW env h _) fun _ =>
        .bindW (.sameW (.resultHandler _ rfl)) fun _ => .sameW (.wPure _)

theorem initImageView_same {T : Nat} (env : Env) {r1 : Nat → VkResult}
    (h : ∀ k, k < T → r1 k = env.result k) (image : Handle) (format : Nat) :
    W.Same T (initImageView env image format) (initImageView (env.withResult r1) image format) :=
  .bindW (.createW env h _) fun _ =>
    .bindW (.sameW (.resultHandler _ rfl)) fun _ => .sameW (.wPure _)

theorem initSwapchainImageViewsLoop_same {T : Nat} (env : Env) {r1 : Nat → VkResult}
    (h : ∀ k, k < T → r1 k = env.result k) (format : Nat) (images : List Handle)
    (acc : List Handle) :
    W.Same T (initSwapchainImageViewsLoop env format images acc)
      (initSwapchainImageViewsLoop (env.withResult r1) format images acc) := by
  induction images generalizing acc with
  | nil => exact .sameW (.wPure _)
  | cons x xs ih => exact .bindW (initImageView_same env h x format) fun _ => ih _

theorem initFramebuffersLoop_same {T : Nat} (env : Env) {r1 : Nat → VkResult}
    (h : ∀ k, k < T → r1 k = env.result k) (renderPass : Handle) (width height : Nat)
    (imageViews : List Handle) (acc : List Handle) :
    W.Same T (initFramebuffersLoop env renderPass width height imageViews acc)
      (initFramebuffersLoop (env.withResult r1) renderPass width height imageViews acc) := by
  induction imageViews generalizing acc with
  | nil => exact .sameW (.wPure _)
  | cons x xs ih =>
    exact .bindW (.createW env h _) fun _ =>
      .bindW (.sameW (.resultHandler _ rfl)) fun _ => ih _

theorem initPipeline_same {T : Nat} (ctx : Ctx) (env : Env) {r1 : Nat → VkResult}
    (h : ∀ k, k < T → r1 k = env.result k) (binding width height : Nat) :
    W.Same T (initPipeline ctx env binding width height)
      (initPipeline ctx (env.withResult r1) binding width height) := by
  unfold initPipeline
  refine .bindW (.sameW (.wIte (.wRaise rfl) (.wPure _))) fun _ => ?_
  refine .bindW (.sameW (.wIte (.wRaise rfl) (.wPure _))) fun _ => ?_
  refine .bindW (.sameW (.wIte (.wRaise rfl) (.wPure _))) fun _ => ?_
  refine .bindW (.sameW (.wIte (.wRaise rfl) (.wPure _))) fun _ => ?_
  refine .bindW (.sameW (.wIte (.wRaise rfl) (.wPure _))) fun _ => ?_
  exact .bindW (.createW env h _) fun _ =>
    .bindW (.sameW (.resultHandler _ rfl)) fun _ => .sameW (.wPure _)

theorem initSemaphore_same {T : Nat} (env : Env) {r1 : Nat → VkResult}
    (h : ∀ k, k < T → r1 k = env.result k) :
    W.Same T (initSemaphore env) (initSemaphore (env.withResult r1)) :=
  .bindW (.createW env h _) fun _ =>
    .bindW (.sameW (.resultHandler _ rfl)) fun _ => .sameW (.wPure _)

theorem initSemaphoresLoop_same {T : Nat} (env : Env) {r1 : Nat → VkResult}
    (h : ∀ k, k < T → r1 k = env.result k) (count : Nat) (acc : List Handle) :
    W.Same T (initSemaphoresLoop env count acc)
      (initSemaphoresLoop (env.withResult r1) count acc) := by
  induction count generalizing acc with
  | zero => exact .sameW (.wPure _)
  | succ n ih => exact .bindW (initSemaphore_same env h) fun _ => ih _

theorem initFence_same {T : Nat} (env : Env) {r1 : Nat → VkResult}
    (h : ∀ k, k < T → r1 k = env.result k) (flags : Nat) :
    W.Same T (initFence env flags) (initFence (env.withResult r1) flags) :=
  .bindW (.createW env h _) fun _ =>
    .bindW (.sameW (.resultHandler _ rfl)) fun _ => .sameW (.wPure _)

theorem initFencesLoop_same {T : Nat} (env : Env) {r1 : Nat → VkResult}
    (h : ∀ k, k < T → r1 k = env.result k) (flags count : Nat) (acc : List Handle) :
    W.Same T (initFencesLoop env flags count acc)
      (initFencesLoop (env.withResult r1) flags count acc) := by
  induction count generalizing acc with
  | zero => exact .sameW (.wPure _)
  | succ n ih => exact .bindW (initFence_same env h flags) fun _ => ih _

theorem allocateCommandBuffers_same {T : Nat} (env : Env) {r1 : Nat → VkResult}
    (h : ∀ k, k < T → r1 k = env.result k) (commandPool : Handle) (count : Nat) :
    W.Same T (allocateCommandBuffers env commandPool count)
      (allocateCommandBuffers (env.withResult r1) commandPool count) :=
  .bindW (.sameW (.allocate _)) fun _ => .bindW (.reportW env h _) fun _ => .sameW (.wPure _)

theorem acquireCommandBuffers_same {T : Nat} (ctx : Ctx) (env : Env) {r1 : Nat → VkResult}
    (h : ∀ k, k < T → r1 k = env.result k) (count : Nat) :
    M.Same T (acquireCommandBuffers ctx env count)
      (acquireCommandBuffers ctx (env.withResult r1) count) := by
  unfold acquireCommandBuffers
  refine .bindM (.sameM .getVars) fun _ => ?_
  refine .bindM (.iteM ?_ (.sameM (.mPure _))) fun _ => .sameM (.mIte ?_ (.mPure _))
  · exact .bindM (.sameM (.modifyVars _)) fun _ =>
      .bindM (.liftM (allocateCommandBuffers_same env h _ _)) fun _ =>
        .bindM (.sameM (.modifyVars _)) fun _ => .sameM (.liftW (.resultHandler _ rfl))
  · exact .mBind .getVars fun _ => .mBind (.liftW (.emit rfl)) fun _ => .modifyVars _

theorem beginCommandBuffer_same {T : Nat} (env : Env) {r1 : Nat → VkResult}
    (h : ∀ k, k < T → r1 k = env.result k) (commandBuffer : Handle) :
    W.Same T (beginCommandBuffer env commandBuffer)
      (beginCommandBuffer (env.withResult r1) commandBuffer) :=
  .bindW (.reportW env h _) fun _ => .sameW (.resultHandler _ rfl)

theorem endCommandBuffer_same {T : Nat} (env : Env) {r1 : Nat → VkResult}
    (h : ∀ k, k < T → r1 k = env.result k) (commandBuffer : Handle) :
    W.Same T (endCommandBuffer env commandBuffer)
      (endCommandBuffer (env.withResult r1) commandBuffer) :=
  .bindW (.reportW env h _) fun _ => .sameW (.resultHandler _ rfl)

theorem recordCommandBuffer_same {T : Nat} (ctx : Ctx) (env : Env) {r1 : Nat → VkResult}
    (h : ∀ k, k < T → r1 k = env.result k) (surfaceSize : VkExtent2D) (i : Nat) :
    M.Same T (recordCommandBuffer ctx env surfaceSize i)
      (recordCommandBuffer ctx (env.withResult r1) surfaceSize i) := by
  unfold recordCommandBuffer
  refine .bindM (.sameM .getVars) fun _ => .bindM (.sameM (.index _ _)) fun _ =>
    .bindM (.liftM (beginCommandBuffer_same env h _)) fun _ => ?_
  refine .bindM (.sameM .getVars) fun _ => .bindM (.sameM (.index _ _)) fun _ =>
    .bindM (.sameM .getVars) fun _ => .bindM (.sameM (.index _ _)) fun _ =>
      .bindM (.sameM (.liftW (.emit rfl))) fun _ => ?_
  refine .bindM (.sameM .getVars) fun _ => .bindM (.sameM (.index _ _)) fun _ =>
    .bindM (.sameM .getVars) fun _ => .bindM (.sameM (.liftW (.emit rfl))) fun _ => ?_
  refine .bindM (.sameM .getVars) fun _ => .bindM (.sameM (.index _ _)) fun _ =>
    .bindM (.sameM (.liftW (.emit rfl))) fun _ => ?_
  refine .bindM (.sameM .getVars) fun _ => .bindM (.sameM (.index _ _)) fun _ =>
    .bindM (.sameM (.liftW (.emit rfl))) fun _ => ?_
  refine .bindM (.sameM .getVars) fun _ => .bindM (.sameM (.index _ _)) fun _ =>
    .bindM (.sameM (.liftW (.emit rfl))) fun _ => ?_
  refine .bindM (.sameM .getVars) fun _ => .bindM (.sameM (.index _ _)) fun _ =>
    .bindM (.sameM (.liftW (.emit rfl))) fun _ => ?_
  exact .bindM (.sameM .getVars) fun _ => .bindM (.sameM (.index _ _)) fun _ =>
    .liftM (endCommandBuffer_same env h _)

theorem recordCommandBuffers_same {T : Nat} (ctx : Ctx) (env : Env) {r1 : Nat → VkResult}
    (h : ∀ k, k < T → r1 k = env.result k) (surfaceSize : VkExtent2D) (remaining i : Nat) :
    M.Same T (recordCommandBuffers ctx env surfaceSize remaining i)
      (recordCommandBuffers ctx (env.withResult r1) surfaceSize remaining i) := by
  induction remaining generalizing i with
  | zero => exact .sameM (.mPure _)
  | succ n ih => exact .bindM (recordCommandBuffer_same ctx env h surfaceSize i) fun _ => ih _

theorem cleanupOld_same {T : Nat} (ctx : Ctx) (env : Env) {r1 : Nat → VkResult}
    (h : ∀ k, k < T → r1 k = env.result k) :
    M.Same T (cleanupOld ctx env) (cleanupOld ctx (env.withResult r1)) := by
  unfold cleanupOld
  refine .bindM (.liftM (.reportW env h _)) fun _ =>
    .bindM (.sameM (.liftW (.resultHandler _ rfl))) fun _ => ?_
  refine .bindM (.sameM .getVars) fun _ =>
    .bindM (.sameM (.liftW (killFences_lifecycle _))) fun _ =>
      .bindM (.sameM (.modifyVars _)) fun _ => ?_
  refine .bindM (.sameM .getVars) fun _ =>
    .bindM (.sameM (.liftW (killSemaphores_lifecycle _))) fun _ =>
      .bindM (.sameM (.modifyVars _)) fun _ => ?_
  refine .bindM (.liftM (.reportW env h _)) fun _ =>
    .bindM (.sameM (.liftW (.resultHandler _ rfl))) fun _ => ?_
  refine .bindM (.sameM .getVars) fun _ =>
    .bindM (.sameM (.liftW (killPipeline_lifecycle _))) fun _ => ?_
  refine .bindM (.sameM .getVars) fun _ =>
    .bindM (.sameM (.liftW (killFramebuffers_lifecycle _))) fun _ =>
      .bindM (.sameM (.modifyVars _)) fun _ => ?_
  exact .bindM (.sameM .getVars) fun _ =>
    .bindM (.sameM (.liftW (killSwapchainImageViews_lifecycle _))) fun _ =>
      .sameM (.modifyVars _)

theorem createNew_same {T : Nat} (ctx : Ctx) (env : Env) {r1 : Nat → VkResult}
    (h : ∀ k, k < T → r1 k = env.result k) (capabilities : VkSurfaceCapabilitiesKHR)
    (surfaceSize : VkExtent2D) (oldSwapchain : Handle) :
    M.Same T (createNew ctx env capabilities surfaceSize oldSwapchain)
      (createNew ctx (env.withResult r1) capabilities surfaceSize oldSwapchain) := by
  unfold createNew
  refine .bindM (.liftM (initSwapchain_same ctx env h _ _)) fun _ =>
    .bindM (.sameM (.modifyVars _)) fun _ => ?_
  refine .bindM (.sameM .getVars) fun _ =>
    .bindM (.liftM (enumerateSwapchainImages_same env h _)) fun _ => ?_
  refine .bindM (.liftM (initSwapchainImageViewsLoop_same env h _ _ _)) fun _ =>
    .bindM (.sameM (.modifyVars _)) fun _ => ?_
  refine .bindM (.sameM .getVars) fun _ =>
    .bindM (.liftM (initFramebuffersLoop_same env h _ _ _ _ _)) fun _ =>
      .bindM (.sameM (.modifyVars _)) fun _ => ?_
  refine .bindM (.liftM (initPipeline_same ctx env h _ _ _)) fun _ =>
    .bindM (.sameM (.modifyVars _)) fun _ => ?_
  refine .bindM (acquireCommandBuffers_same ctx env h _) fun _ => ?_
  refine .bindM (recordCommandBuffers_same ctx env h _ _ _) fun _ => ?_
  refine .bindM (.liftM (initSemaphoresLoop_same env h _ _)) fun _ =>
    .bindM (.sameM (.modifyVars _)) fun _ => ?_
  refine .bindM (.liftM (initSemaphoresLoop_same env h _ _)) fun _ =>
    .bindM (.sameM (.modifyVars _)) fun _ => ?_
  exact .bindM (.liftM (initFencesLoop_same env h _ _ _)) fun _ =>
    .bindM (.sameM (.modifyVars _)) fun _ => .sameM (.modifyVars _)

/-- A call of `recreateSwapchain` that ends by position `T` does the same in every
environment that gives the same results before `T`. -/
theorem recreateSwapchain_same {T : Nat} (ctx : Ctx) (env : Env) {r1 : Nat → VkResult}
    (h : ∀ k, k < T → r1 k = env.result k) :
    M.Same T (recreateSwapchain ctx env) (recreateSwapchain ctx (env.withResult r1)) := by
  unfold recreateSwapchain
  refine .bindM (.emitM _) fun _ => ?_
  refine .bindM (.sameM .getVars) fun _ => .bindM (.sameM (.modifyVars _)) fun _ =>
    .bindM (.liftM (getSurfaceCapabilities_same env h)) fun _ => ?_
  refine .bindM (.sameM .getVars) fun _ => .bindM (.sameM (.modifyVars _)) fun _ => ?_
  refine .bindM (.iteM (cleanupOld_same ctx env h) (.sameM (.mPure _))) fun _ => ?_
  refine .bindM (.iteM (createNew_same ctx env h _ _ _) (.sameM (.mPure _))) fun _ => ?_
  refine .bindM (.sameM (.mIte (killOld_lifecycle _ _) (.mPure _))) fun _ => ?_
  exact .bindM (.sameM .getVars) fun _ => .sameM (.mPure _)

/-- When the calls made before position `T` succeed and `recreateSwapchain` ends by `T`, it
does what it does in the environment whose later calls succeed too. -/
theorem recreateSwapchain_within (ctx : Ctx) (env : Env) (s : State) (T : Nat)
    (hT : (recreateSwapchain ctx env s).2.world.tick ≤ T)
    (h : env.SucceedsWithin s.world.tick T) :
    (env.withResult (env.successAfter T)).SucceedsFrom s.world.tick
    ∧ recreateSwapchain ctx (env.withResult (env.successAfter T)) s
        = recreateSwapchain ctx env s := by
  constructor
  · intro k hk
    show env.successAfter T k = VK_SUCCESS
    unfold Env.successAfter
    split
    · exact h k hk ‹_›
    · rfl
  · exact (recreateSwapchain_same ctx env (fun k hk => if_pos hk) s).2 hT


/-! ### A call that returns normally saw every API call it made succeed -/

section Checked
variable {α β : Type}

theorem W.Checked.okStillW {env : Env} {m : W α} (h : ∀ w, (m w).2.tick = w.tick) :
    W.Checked env m := by
  intro w a w1 hrun k hk1 hk2
  have := h w
  rw [hrun] at this
  simp only at this
  omega

theorem W.Checked.okPureW {env : Env} (a : α) : W.Checked env (pure a : W α) :=
  .okStillW fun _ => rfl

theorem W.Checked.okRaiseW {env : Env} (e : Exn) : W.Checked env (W.raise e : W α) :=
  .okStillW fun _ => rfl

theorem W.Checked.okBindW {env : Env} {m : W α} {f : α → W β} (hm : W.Checked env m)
    (hf : ∀ a, W.Checked env (f a)) : W.Checked env (m >>= f) := by
  intro w b w2 hrun k hk1 hk2
  rw [wBind_apply] at hrun
  rcases hmw : m w with ⟨r, w1⟩
  rw [hmw] at hrun
  cases r with
  | error e => simp at hrun
  | ok a =>
    simp only at hrun
    by_cases hk : k < w1.tick
    · exact hm w a w1 hmw k hk1 hk
    · exact hf a w1 b w2 hrun k (by omega) hk2

theorem W.Checked.okIteW {env : Env} {c : Prop} [Decidable c] {m n : W α}
    (h1 : W.Checked env m) (h2 : W.Checked env n) : W.Checked env (if c then m else n) := by
  split
  · exact h1
  · exact h2

theorem W.Checked.okReportW (env : Env) (mk : VkResult → Event) (source : Api)
    {g : VkResult → W β} (hg : ∀ r, W.Checked env (g r)) :
    W.Checked env (report env mk >>= fun r => RESULT_HANDLER r source >>= fun _ => g r) := by
  intro w b w2 hrun k hk1 hk2
  by_cases hres : env.result w.tick = VK_SUCCESS
  · simp only [wBind_apply, report_apply, RESULT_HANDLER_success, hres, wPure_apply] at hrun
    by_cases hk : k = w.tick
    · rw [hk]; exact hres
    · exact hg _ _ b w2 hrun k (by simp only; omega) hk2
  · simp [wBind_apply, report_apply, RESULT_HANDLER, hres] at hrun

theorem W.Checked.okReportEndW (env : Env) (mk : VkResult → Event) (source : Api) :
    W.Checked env (report env mk >>= fun r => RESULT_HANDLER r source) := by
  intro w b w2 hrun k hk1 hk2
  by_cases hres : env.result w.tick = VK_SUCCESS
  · simp only [wBind_apply, report_apply, RESULT_HANDLER_success, hres, wPure_apply,
      Prod.mk.injEq] at hrun
    obtain ⟨_, rfl⟩ := hrun
    have hk : k = w.tick := by simp only at hk2; omega
    rw [hk]; exact hres
  · simp [wBind_apply, report_apply, RESULT_HANDLER, hres] at hrun

theorem W.Checked.okCreateW (env : Env) (mk : VkResult → Handle → Event) (source : Api)
    {g : VkResult × Handle → W β} (hg : ∀ r, W.Checked env (g r)) :
    W.Checked env (create env mk >>= fun c => RESULT_HANDLER c.1 source >>= fun _ => g c) := by
  intro w b w2 hrun k hk1 hk2
  by_cases hres : env.result w.tick = VK_SUCCESS
  · simp only [wBind_apply, create_apply, RESULT_HANDLER_success, hres, wPure_apply] at hrun
    by_cases hk : k = w.tick
    · rw [hk]; exact hres
    · exact hg _ _ b w2 hrun k (by simp only; omega) hk2
  · simp [wBind_apply, create_apply, RESULT_HANDLER, hres] at hrun

theorem M.Checked.okStillM {env : Env} {m : M α} (h : ∀ s, (m s).2.world.tick = s.world.tick) :
    M.Checked env m := by
  intro s a s1 hrun k hk1 hk2
  have := h s
  rw [hrun] at this
  simp only at this
  omega

theorem M.Checked.okBindM {env : Env} {m : M α} {f : α → M β} (hm : M.Checked env m)
    (hf : ∀ a, M.Checked env (f a)) : M.Checked env (m >>= f) := by
  intro s b s2 hrun k hk1 hk2
  rw [mBind_apply] at hrun
  rcases hms : m s with ⟨r, s1⟩
  rw [hms] at hrun
  cases r with
  | error e => simp at hrun
  | ok a =>
    simp only at hrun
    by_cases hk : k < s1.world.tick
    · exact hm s a s1 hms k hk1 hk
    · exact hf a s1 b s2 hrun k (by omega) hk2

theorem M.Checked.okLiftM {env : Env} {m : W α} (h : W.Checked env m) :
    M.Checked env (liftW m) := by
  intro s a s1 hrun k hk1 hk2
  simp only [liftW_apply, Prod.mk.injEq] at hrun
  obtain ⟨h1, rfl⟩ := hrun
  exact h s.world a (m s.world).2 (Prod.ext h1 rfl) k hk1 hk2

theorem M.Checked.okIteM {env : Env} {c : Prop} [Decidable c] {m n : M α}
    (h1 : M.Checked env m) (h2 : M.Checked env n) : M.Checked env (if c then m else n) := by
  split
  · exact h1
  · exact h2

theorem M.Checked.okReportM (env : Env) (mk : VkResult → Event) (source : Api)
    {g : VkResult → M β} (hg : ∀ r, M.Checked env (g r)) :
    M.Checked env
      (liftW (report env mk) >>= fun r => liftW (RESULT_HANDLER r source) >>= fun _ => g r) := by
  intro s b s2 hrun k hk1 hk2
  by_cases hres : env.result s.world.tick = VK_SUCCESS
  · simp only [mBind_apply, liftW_apply, report_apply, RESULT_HANDLER_success, hres,
      wPure_apply] at hrun
    by_cases hk : k = s.world.tick
    · rw [hk]; exact hres
    · exact hg _ _ b s2 hrun k (by simp only; omega) hk2
  · simp [mBind_apply, liftW_apply, report_apply, RESULT_HANDLER, hres] at hrun

end Checked

theorem index_still (xs : List Handle) (i : Nat) (s : State) :
    (index xs i s).2.world.tick = s.world.tick := by
  rw [index_apply]
  cases xs[i]? <;> rfl

theorem getSurfaceCapabilities_checked (env : Env) :
    W.Checked env (getSurfaceCapabilities env) :=
  .okBindW (.okStillW fun _ => rfl) fun _ => .okReportW env _ _ fun _ => .okPureW _

theorem enumeratePresentModes_checked (env : Env) :
    W.Checked env (enumeratePresentModes env) :=
  .okBindW (.okStillW fun _ => rfl) fun _ => .okReportW env _ _ fun _ => .okPureW _

theorem enumerateSwapchainImages_checked (env : Env) (swapchain : Handle) :
    W.Checked env (enumerateSwapchainImages env swapchain) :=
  .okBindW (.okStillW fun _ => rfl) fun _ => .okBindW (.okStillW fun _ => rfl) fun _ =>
    .okReportW env _ _ fun _ => .okPureW _

theorem getSurfacePresentMode_checked (env : Env) :
    W.Checked env (getSurfacePresentMode env) := by
  unfold getSurfacePresentMode
  refine .okBindW (enumeratePresentModes_checked env) fun modes => ?_
  split
  · exact .okBindW (.okStillW fun _ => rfl) fun _ => .okPureW _
  · split
    · exact .okBindW (.okStillW fun _ => rfl) fun _ => .okPureW _
    · split
      · exact .okRaiseW _
      · exact .okBindW (.okStillW fun _ => rfl) fun _ => .okPureW _

theorem initSwapchain_checked (ctx : Ctx) (env : Env) (capabilities : VkSurfaceCapabilitiesKHR)
    (oldSwapchain : Handle) :
    W.Checked env (initSwapchain ctx env capabilities oldSwapchain) := by
  unfold initSwapchain
  cases compositeAlphaFlag capabilities.supportedCompositeAlpha with
  | none => exact .okRaiseW _
  | some alpha =>
    exact .okBindW (getSurfacePresentMode_checked env) fun _ =>
      .okCreateW env _ _ fun _ => .okPureW _

theorem initImageView_checked (env : Env) (image : Handle) (format : Nat) :
    W.Checked env (initImageView env image format) :=
  .okCreateW env _ _ fun _ => .okPureW _

theorem initSwapchainImageViewsLoop_checked (env : Env) (format : Nat) (images : List Handle)
    (acc : List Handle) : W.Checked env (initSwapchainImageViewsLoop env format images acc) := by
  induction images generalizing acc with
  | nil => exact .okPureW _
  | cons x xs ih => exact .okBindW (initImageView_checked env x format) fun _ => ih _

theorem initFramebuffersLoop_checked (env : Env) (renderPass : Handle) (width height : Nat)
    (imageViews : List Handle) (acc : List Handle) :
    W.Checked env (initFramebuffersLoop env renderPass width height imageViews acc) := by
  induction imageViews generalizing acc with
  | nil => exact .okPureW _
  | cons x xs ih => exact .okCreateW env _ _ fun _ => ih _

theorem initPipeline_checked (ctx : Ctx) (env : Env) (binding width height : Nat) :
    W.Checked env (initPipeline ctx env binding width height) := by
  unfold initPipeline
  refine .okBindW (.okIteW (.okRaiseW _) (.okPureW _)) fun _ => ?_
  refine .okBindW (.okIteW (.okRaiseW _) (.okPureW _)) fun _ => ?_
  refine .okBindW (.okIteW (.okRaiseW _) (.okPureW _)) fun _ => ?_
  refine .okBindW (.okIteW (.okRaiseW _) (.okPureW _)) fun _ => ?_
  refine .okBindW (.okIteW (.okRaiseW _) (.okPureW _)) fun _ => ?_
  exact .okCreateW env _ _ fun _ => .okPureW _

theorem initSemaphore_checked (env : Env) : W.Checked env (initSemaphore env) :=
  .okCreateW env _ _ fun _ => .okPureW _

theorem initSemaphoresLoop_checked (env : Env) (count : Nat) (acc : List Handle) :
    W.Checked env (initSemaphoresLoop env count acc) := by
  induction count generalizing acc with
  | zero => exact .okPureW _
  | succ n ih => exact .okBindW (initSemaphore_checked env) fun _ => ih _

theorem initFence_checked (env : Env) (flags : Nat) : W.Checked env (initFence env flags) :=
  .okCreateW env _ _ fun _ => .okPureW _

theorem initFencesLoop_checked (env : Env) (flags count : Nat) (acc : List Handle) :
    W.Checked env (initFencesLoop env flags count acc) := by
  induction count generalizing acc with
  | zero => exact .okPureW _
  | succ n ih => exact .okBindW (initFence_checked env flags) fun _ => ih _

theorem acquireCommandBuffers_checked (ctx : Ctx) (env : Env) (count : Nat) :
    M.Checked env (acquireCommandBuffers ctx env count) := by
  intro s a s1 hrun k hk1 hk2
  rcases s with ⟨v, w⟩
  by_cases h1 : count > toUInt32 v.commandBuffers.length
  · have h2 : ¬ count < toUInt32 v.commandBuffers.length := by omega
    by_cases hres : env.result w.tick = VK_SUCCESS
    · simp [acquireCommandBuffers, mBind_apply, allocateCommandBuffers, wBind_apply, h1, h2,
        hres] at hrun
      rw [← hrun] at hk2
      simp only at hk1 hk2
      have hk : k = w.tick := by omega
      rw [hk]; exact hres
    · simp [acquireCommandBuffers, mBind_apply, allocateCommandBuffers, wBind_apply, h1, h2,
        hres, RESULT_HANDLER] at hrun
  · by_cases h2 : count < toUInt32 v.commandBuffers.length
    · simp [acquireCommandBuffers, mBind_apply, h1, h2] at hrun
      rw [← hrun] at hk2
      simp only at hk1 hk2
      omega
    · simp [acquireCommandBuffers, mBind_apply, h1, h2] at hrun
      rw [← hrun] at hk2
      simp only at hk1 hk2
      omega

theorem beginCommandBuffer_checked (env : Env) (commandBuffer : Handle) :
    W.Checked env (beginCommandBuffer env commandBuffer) :=
  .okReportEndW env _ _

theorem endCommandBuffer_checked (env : Env) (commandBuffer : Handle) :
    W.Checked env (endCommandBuffer env commandBuffer) :=
  .okReportEndW env _ _

theorem recordCommandBuffer_checked (ctx : Ctx) (env : Env) (surfaceSize : VkExtent2D)
    (i : Nat) : M.Checked env (recordCommandBuffer ctx env surfaceSize i) := by
  unfold recordCommandBuffer
  refine .okBindM (.okStillM fun _ => rfl) fun _ => .okBindM (.okStillM (index_still _ _)) fun _ =>
    .okBindM (.okLiftM (beginCommandBuffer_checked env _)) fun _ => ?_
  refine .okBindM (.okStillM fun _ => rfl) fun _ => .okBindM (.okStillM (index_still _ _)) fun _ =>
    .okBindM (.okStillM fun _ => rfl) fun _ => .okBindM (.okStillM (index_still _ _)) fun _ =>
      .okBindM (.okStillM fun _ => rfl) fun _ => ?_
  refine .okBindM (.okStillM fun _ => rfl) fun _ => .okBindM (.okStillM (index_still _ _)) fun _ =>
    .okBindM (.okStillM fun _ => rfl) fun _ => .okBindM (.okStillM fun _ => rfl) fun _ => ?_
  refine .okBindM (.okStillM fun _ => rfl) fun _ => .okBindM (.okStillM (index_still _ _)) fun _ =>
    .okBindM (.okStillM fun _ => rfl) fun _ => ?_
  refine .okBindM (.okStillM fun _ => rfl) fun _ => .okBindM (.okStillM (index_still _ _)) fun _ =>
    .okBindM (.okStillM fun _ => rfl) fun _ => ?_
  refine .okBindM (.okStillM fun _ => rfl) fun _ => .okBindM (.okStillM (index_still _ _)) fun _ =>
    .okBindM (.okStillM fun _ => rfl) fun _ => ?_
  refine .okBindM (.okStillM fun _ => rfl) fun _ => .okBindM (.okStillM (index_still _ _)) fun _ =>
    .okBindM (.okStillM fun _ => rfl) fun _ => ?_
  exact .okBindM (.okStillM fun _ => rfl) fun _ => .okBindM (.okStillM (index_still _ _)) fun _ =>
    .okLiftM (endCommandBuffer_checked env _)

theorem recordCommandBuffers_checked (ctx : Ctx) (env : Env) (surfaceSize : VkExtent2D)
    (remaining i : Nat) : M.Checked env (recordCommandBuffers ctx env surfaceSize remaining i) := by
  induction remaining generalizing i with
  | zero => exact .okStillM fun _ => rfl
  | succ n ih => exact .okBindM (recordCommandBuffer_checked ctx env surfaceSize i) fun _ => ih _

theorem cleanupOld_checked (ctx : Ctx) (env : Env) : M.Checked env (cleanupOld ctx env) := by
  unfold cleanupOld
  refine .okReportM env _ _ fun _ => ?_
  refine .okBindM (.okStillM fun _ => rfl) fun _ =>
    .okBindM (.okStillM fun s => by simp [killFences_apply]) fun _ =>
      .okBindM (.okStillM fun _ => rfl) fun _ => ?_
  refine .okBindM (.okStillM fun _ => rfl) fun _ =>
    .okBindM (.okStillM fun s => by simp [killSemaphores_apply]) fun _ =>
      .okBindM (.okStillM fun _ => rfl) fun _ => ?_
  refine .okReportM env _ _ fun _ => ?_
  refine .okBindM (.okStillM fun _ => rfl) fun _ =>
    .okBindM (.okStillM fun _ => rfl) fun _ => ?_
  refine .okBindM (.okStillM fun _ => rfl) fun _ =>
    .okBindM (.okStillM fun s => by simp [killFramebuffers_apply]) fun _ =>
      .okBindM (.okStillM fun _ => rfl) fun _ => ?_
  exact .okBindM (.okStillM fun _ => rfl) fun _ =>
    .okBindM (.okStillM fun s => by simp [killSwapchainImageViews_apply]) fun _ =>
      .okStillM fun _ => rfl

theorem createNew_checked (ctx : Ctx) (env : Env) (capabilities : VkSurfaceCapabilitiesKHR)
    (surfaceSize : VkExtent2D) (oldSwapchain : Handle) :
    M.Checked env (createNew ctx env capabilities surfaceSize oldSwapchain) := by
  unfold createNew
  refine .okBindM (.okLiftM (initSwapchain_checked ctx env _ _)) fun _ =>
    .okBindM (.okStillM fun _ => rfl) fun _ => ?_
  refine .okBindM (.okStillM fun _ => rfl) fun _ =>
    .okBindM (.okLiftM (enumerateSwapchainImages_checked env _)) fun _ => ?_
  refine .okBindM (.okLiftM (initSwapchainImageViewsLoop_checked env _ _ _)) fun _ =>
    .okBindM (.okStillM fun _ => rfl) fun _ => ?_
  refine .okBindM (.okStillM fun _ => rfl) fun _ =>
    .okBindM (.okLiftM (initFramebuffersLoop_checked env _ _ _ _ _)) fun _ =>
      .okBindM (.okStillM fun _ => rfl) fun _ => ?_
  refine .okBindM (.okLiftM (initPipeline_checked ctx env _ _ _)) fun _ =>
    .okBindM (.okStillM fun _ => rfl) fun _ => ?_
  refine .okBindM (acquireCommandBuffers_checked ctx env _) fun _ => ?_
  refine .okBindM (recordCommandBuffers_checked ctx env _ _ _) fun _ => ?_
  refine .okBindM (.okLiftM (initSemaphoresLoop_checked env _ _)) fun _ =>
    .okBindM (.okStillM fun _ => rfl) fun _ => ?_
  refine .okBindM (.okLiftM (initSemaphoresLoop_checked env _ _)) fun _ =>
    .okBindM (.okStillM fun _ => rfl) fun _ => ?_
  exact .okBindM (.okLiftM (initFencesLoop_checked env _ _ _)) fun _ =>
    .okBindM (.okStillM fun _ => rfl) fun _ => .okStillM fun _ => rfl

/-- A call of `recreateSwapchain` that returns saw every API call it made succeed. -/
theorem recreateSwapchain_checked (ctx : Ctx) (env : Env) :
    M.Checked env (recreateSwapchain ctx env) := by
  unfold recreateSwapchain
  refine .okBindM (.okStillM fun _ => rfl) fun _ => ?_
  refine .okBindM (.okStillM fun _ => rfl) fun _ => .okBindM (.okStillM fun _ => rfl) fun _ =>
    .okBindM (.okLiftM (getSurfaceCapabilities_checked env)) fun _ => ?_
  refine .okBindM (.okStillM fun _ => rfl) fun _ => .okBindM (.okStillM fun _ => rfl) fun _ => ?_
  refine .okBindM (.okIteM (cleanupOld_checked ctx env) (.okStillM fun _ => rfl)) fun _ => ?_
  refine .okBindM (.okIteM (createNew_checked ctx env _ _ _) (.okStillM fun _ => rfl)) fun _ => ?_
  refine .okBindM (.okIteM (.okStillM fun s => by simp [killOld_apply])
    (.okStillM fun _ => rfl)) fun _ => ?_
  exact .okBindM (.okStillM fun _ => rfl) fun _ => .okStillM fun _ => rfl

/-! ## The claims -/

/-- A `recreateSwapchain` that returns `true` while the API calls succeed went through
`createNew`. -/
theorem recreateSwapchain_true_created (ctx : Ctx) (env : Env) (s s1 : State)
    (h : env.SucceedsFrom s.world.tick) (hret : recreateSwapchain ctx env s = (.ok true, s1)) :
    ∃ n, Created env s.vars (createTick s.vars s.world) s1.vars s1.world n := by
  rcases s with ⟨v, w⟩
  cases hc : creatableAt env w.tick with
  | false =>
    obtain ⟨w1, e⟩ := recreateSwapchain_degenerate ctx v h hc
    rw [e] at hret
    simp at hret
  | true =>
    by_cases hg : createGuards ctx env (snapshotAt env w.tick) (createTick v w)
    · obtain ⟨v1, w1, n, e, hcr⟩ := recreateSwapchain_live ctx v h hc hg
      rw [e] at hret
      simp only [Prod.mk.injEq, true_and] at hret
      subst hret
      exact ⟨n, hcr⟩
    · obtain ⟨msg, e⟩ := recreateSwapchain_guard ctx v h hc hg
      rw [hret] at e
      simp at e

/-- A `recreateSwapchain` that returns `true` went through `createNew`, in whatever
environment: the calls made inside it succeeded, and the later ones do not matter. -/
theorem recreateSwapchain_created (ctx : Ctx) (env : Env) (s s1 : State)
    (hret : recreateSwapchain ctx env s = (.ok true, s1)) :
    ∃ n, Created env s.vars (createTick s.vars s.world) s1.vars s1.world n := by
  have h : env.SucceedsWithin s.world.tick s1.world.tick :=
    recreateSwapchain_checked ctx env s true s1 hret
  have hT : (recreateSwapchain ctx env s).2.world.tick ≤ s1.world.tick := by rw [hret]
  obtain ⟨h1, hrun⟩ := recreateSwapchain_within ctx env s s1.world.tick hT h
  rw [hret] at hrun
  obtain ⟨n, hcr⟩ := recreateSwapchain_true_created ctx _ s s1 h1 hrun
  exact ⟨n, ⟨hcr.swapchain_ne, hcr.count_eq, hcr.enumerated, hcr.imageViews, hcr.framebuffers,
    hcr.commandBuffers_ge, hcr.commandBuffers, hcr.renderDoneSs, hcr.imageReadySs,
    hcr.submissionFences, hcr.signaled, hcr.submissionNr⟩⟩

/-- The value `recreateSwapchain` returns when every call reports success. -/
theorem recreateSwapchain_creatable_of_success (ctx : Ctx) (env : Env) (s : State)
    (h : env.SucceedsFrom s.world.tick)
    (hg : creatableAt env s.world.tick = true →
      createGuards ctx env (snapshotAt env s.world.tick) (createTick s.vars s.world)) :
    ∃ s1, recreateSwapchain ctx env s = (.ok (creatableAt env s.world.tick), s1)
      ∧ (s1.vars.swapchain ≠ VK_NULL_HANDLE ↔ creatableAt env s.world.tick = true) := by
  rcases s with ⟨v, w⟩
  cases hc : creatableAt env w.tick with
  | false =>
    obtain ⟨w1, e⟩ := recreateSwapchain_degenerate ctx v h hc
    refine ⟨_, e, ?_⟩
    by_cases hold : v.swapchain = VK_NULL_HANDLE <;>
      simp [Vars.afterDegenerate, Vars.afterCleanup, hold]
  | true =>
    obtain ⟨v1, w1, n, e, hcr⟩ := recreateSwapchain_live ctx v h hc (hg hc)
    exact ⟨_, e, by simpa using hcr.swapchain_ne⟩

/-- C1 (counterexample): with every Vulkan call reporting success and a creatable 640x480
snapshot, `recreateSwapchain` does not return the value of `swapchainCreatable` when the
driver reports no present mode (it throws "Bugged driver reports no supported present
modes.") or when the snapshot offers no known composite-alpha mode (it throws "Unknown
composite alpha reported."). -/
theorem recreateSwapchain_throws_with_successful_calls :
    (modelessEnv.SucceedsFrom 0
      ∧ creatableAt modelessEnv State.initial.world.tick = true
      ∧ (recreateSwapchain sampleCtx modelessEnv State.initial).1
          = .error (.text .noPresentModes))
    ∧ (alphalessEnv.SucceedsFrom 0
      ∧ creatableAt alphalessEnv State.initial.world.tick = true
      ∧ (recreateSwapchain sampleCtx alphalessEnv State.initial).1
          = .error (.text .unknownCompositeAlpha)) :=
  ⟨⟨fun _ _ => rfl, by decide!, by decide!⟩, ⟨fun _ _ => rfl, by decide!, by decide!⟩⟩

/-- C1 (amended): when every Vulkan call made inside `recreateSwapchain` reports success
and, for a creatable snapshot, none of the program's own checks throws (a known
composite-alpha mode is offered, the present-mode list is not empty, the device limits
suffice for the pipeline), `recreateSwapchain` returns the value of `swapchainCreatable`
for the snapshot it took, and the variable `swapchain` is non-null exactly when that value
is true, whatever the state on entry. -/
theorem recreateSwapchain_returns_creatable (ctx : Ctx) (env : Env) (s : State)
    (h : env.SucceedsWithin s.world.tick (recreateSwapchain ctx env s).2.world.tick)
    (hg : creatableAt env s.world.tick = true →
      createGuards ctx env (snapshotAt env s.world.tick) (createTick s.vars s.world)) :
    ∃ s1, recreateSwapchain ctx env s = (.ok (creatableAt env s.world.tick), s1)
      ∧ (s1.vars.swapchain ≠ VK_NULL_HANDLE ↔ creatableAt env s.world.tick = true) := by
  obtain ⟨h1, hrun⟩ := recreateSwapchain_within ctx env s _ (Nat.le_refl _) h
  obtain ⟨s1, e, hs1⟩ := recreateSwapchain_creatable_of_success ctx _ s h1 hg
  rw [hrun] at e
  exact ⟨s1, e, hs1⟩

theorem recreateSwapchain_returns_creatable_witness :
    sampleEnv.SucceedsWithin State.initial.world.tick
        (recreateSwapchain sampleCtx sampleEnv State.initial).2.world.tick
    ∧ createGuards sampleCtx sampleEnv (snapshotAt sampleEnv State.initial.world.tick)
        (createTick State.initial.vars State.initial.world)
    ∧ ∃ s1, recreateSwapchain sampleCtx sampleEnv State.initial
          = (.ok (creatableAt sampleEnv State.initial.world.tick), s1)
        ∧ (s1.vars.swapchain ≠ VK_NULL_HANDLE
            ↔ creatableAt sampleEnv State.initial.world.tick = true) :=
  ⟨fun _ _ _ => rfl, by decide,
    recreateSwapchain_returns_creatable sampleCtx sampleEnv State.initial (fun _ _ _ => rfl)
      (fun _ => by decide)⟩

/-- C2: after a `recreateSwapchain` that returns `true` (the API calls made inside it then
all succeeded), the image views, framebuffers, command buffers and render-done semaphores
each number the images enumerated from the new swapchain, whatever the previous state: its
`commandBuffers` may be longer or shorter, with fewer than 2^32 elements, as it has in
every state the program reaches (`commandBuffers_bounded`). -/
theorem recreateSwapchain_sizes (ctx : Ctx) (env : Env) (s s1 : State)
    (hret : recreateSwapchain ctx env s = (.ok true, s1))
    (hcb : s.vars.commandBuffers.length < 2 ^ 32) :
    ∃ images : List Handle,
      Event.vkGetSwapchainImagesKHR s1.vars.swapchain VK_SUCCESS images ∈ s1.world.trace
      ∧ images.length = toUInt32 (env.imageCount (createTick s.vars s.world + 2))
      ∧ s1.vars.swapchainImageViews.length = images.length
      ∧ s1.vars.framebuffers.length = images.length
      ∧ s1.vars.commandBuffers.length = images.length
      ∧ s1.vars.renderDoneSs.length = images.length := by
  obtain ⟨n, hcr⟩ := recreateSwapchain_created ctx env s s1 hret
  obtain ⟨images, hl, hm⟩ := hcr.enumerated
  refine ⟨images, hm, ?_, ?_, ?_, ?_, ?_⟩
  · rw [hl]; exact hcr.count_eq
  · rw [hl]; exact hcr.imageViews
  · rw [hl]; exact hcr.framebuffers
  · rw [hl]; exact hcr.commandBuffers hcb
  · rw [hl]; exact hcr.renderDoneSs

theorem recreateSwapchain_sizes_witness :
    (recreateSwapchain sampleCtx sampleEnv sampleLive).1 = .ok true
    ∧ sampleLive.vars.commandBuffers.length < 2 ^ 32
    ∧ ∃ images : List Handle,
      Event.vkGetSwapchainImagesKHR (recreateSwapchain sampleCtx sampleEnv sampleLive).2.vars.swapchain
          VK_SUCCESS images ∈ (recreateSwapchain sampleCtx sampleEnv sampleLive).2.world.trace
      ∧ images.length = toUInt32 (sampleEnv.imageCount (createTick sampleLive.vars sampleLive.world + 2))
      ∧ (recreateSwapchain sampleCtx sampleEnv sampleLive).2.vars.swapchainImageViews.length
          = images.length
      ∧ (recreateSwapchain sampleCtx sampleEnv sampleLive).2.vars.framebuffers.length
          = images.length
      ∧ (recreateSwapchain sampleCtx sampleEnv sampleLive).2.vars.commandBuffers.length
          = images.length
      ∧ (recreateSwapchain sampleCtx sampleEnv sampleLive).2.vars.renderDoneSs.length
          = images.length :=
  ⟨by decide!, by decide!,
    recreateSwapchain_sizes sampleCtx sampleEnv sampleLive
      (recreateSwapchain sampleCtx sampleEnv sampleLive).2 (by decide!) (by decide!)⟩

/-- C3 (counterexample): the window is minimized after the first `recreateSwapchain`; the
second call, on the live swapchain, returns `false` and leaves `swapchain` null, yet
`commandBuffers` is not empty: it still holds its three command buffers, which the call
reset with their pool (`vkResetCommandPool`) and did not free. -/
theorem degenerate_recreate_keeps_command_buffers :
    liveBeforeMinimize.vars.swapchain ≠ VK_NULL_HANDLE
    ∧ (recreateSwapchain sampleCtx minimizedLaterEnv liveBeforeMinimize).1 = .ok false
    ∧ (recreateSwapchain sampleCtx minimizedLaterEnv liveBeforeMinimize).2.vars.swapchain
        = VK_NULL_HANDLE
    ∧ (recreateSwapchain sampleCtx minimizedLaterEnv liveBeforeMinimize).2.vars.commandBuffers
        = [12, 13, 14]
    ∧ Event.vkResetCommandPool sampleCtx.commandPool VK_SUCCESS
        ∈ (recreateSwapchain sampleCtx minimizedLaterEnv liveBeforeMinimize).2.world.trace
    ∧ (∀ e ∈ (recreateSwapchain sampleCtx minimizedLaterEnv
          liveBeforeMinimize).2.world.trace,
        ∀ commandBuffers, e ≠ Event.vkFreeCommandBuffers sampleCtx.commandPool commandBuffers)
    := by
  refine ⟨by decide!, by decide!, by decide!, by decide!, by decide!, ?_⟩
  have h : ∀ e ∈ (recreateSwapchain sampleCtx minimizedLaterEnv
      liveBeforeMinimize).2.world.trace, Event.isFree e = false := by decide!
  intro e he commandBuffers heq
  have := h e he
  rw [heq] at this
  cases this

/-- C3 (amended): after `recreateSwapchain` is called with a degenerate surface extent on a
state that has a live swapchain (the API calls made inside it succeeding), it returns
`false`, `swapchain` is null, `swapchainImageViews`, `framebuffers`, `imageReadySs`,
`renderDoneSs` and `submissionFences` are empty, and the old swapchain, the old pipeline
and every handle these vectors held were passed to their destroy call; `commandBuffers`
keeps the command buffers, which were reset with their pool for reuse. -/
theorem recreateSwapchain_degenerate_teardown (ctx : Ctx) (env : Env) (s : State)
    (h : env.SucceedsWithin s.world.tick (recreateSwapchain ctx env s).2.world.tick)
    (hold : s.vars.swapchain ≠ VK_NULL_HANDLE)
    (hc : creatableAt env s.world.tick = false) :
    ∃ s1, recreateSwapchain ctx env s = (.ok false, s1)
      ∧ s1.vars.swapchain = VK_NULL_HANDLE
      ∧ s1.vars.swapchainImageViews = [] ∧ s1.vars.framebuffers = []
      ∧ s1.vars.imageReadySs = [] ∧ s1.vars.renderDoneSs = []
      ∧ s1.vars.submissionFences = []
      ∧ s1.vars.commandBuffers = s.vars.commandBuffers
      ∧ Event.vkResetCommandPool ctx.commandPool VK_SUCCESS ∈ s1.world.trace
      ∧ Event.vkDestroyPipeline s.vars.pipeline ∈ s1.world.trace
      ∧ Event.vkDestroySwapchainKHR s.vars.swapchain ∈ s1.world.trace
      ∧ (∀ x ∈ s.vars.swapchainImageViews, Event.vkDestroyImageView x ∈ s1.world.trace)
      ∧ (∀ x ∈ s.vars.framebuffers, Event.vkDestroyFramebuffer x ∈ s1.world.trace)
      ∧ (∀ x ∈ s.vars.imageReadySs, Event.vkDestroySemaphore x ∈ s1.world.trace)
      ∧ (∀ x ∈ s.vars.renderDoneSs, Event.vkDestroySemaphore x ∈ s1.world.trace)
      ∧ (∀ x ∈ s.vars.submissionFences, Event.vkDestroyFence x ∈ s1.world.trace) := by
  obtain ⟨h1, hrun⟩ := recreateSwapchain_within ctx env s _ (Nat.le_refl _) h
  rcases s with ⟨v, w⟩
  have e := recreateSwapchain_degenerate_old ctx v h1 hc hold
  rw [hrun] at e
  refine ⟨_, e, ?_⟩
  refine ⟨rfl, rfl, rfl, rfl, rfl, rfl, rfl, ?_, ?_, ?_, ?_, ?_, ?_, ?_, ?_⟩
  · simp [Vars.afterCleanup, World.after, cleanupTrace]
  · simp [Vars.afterCleanup, World.after, cleanupTrace]
  · simp [Vars.afterCleanup, World.after, cleanupTrace]
  all_goals
    intro x hx
    simp [Vars.afterCleanup, World.after, cleanupTrace, hx]

/-- The amended C3 at the second `recreateSwapchain`, made after the window was minimized. -/
theorem recreateSwapchain_degenerate_teardown_witness :
    minimizedLaterEnv.SucceedsWithin liveBeforeMinimize.world.tick
        (recreateSwapchain sampleCtx minimizedLaterEnv liveBeforeMinimize).2.world.tick
    ∧ liveBeforeMinimize.vars.swapchain ≠ VK_NULL_HANDLE
    ∧ creatableAt minimizedLaterEnv liveBeforeMinimize.world.tick = false
    ∧ ∃ s1, recreateSwapchain sampleCtx minimizedLaterEnv liveBeforeMinimize = (.ok false, s1)
      ∧ s1.vars.swapchain = VK_NULL_HANDLE
      ∧ s1.vars.swapchainImageViews = [] ∧ s1.vars.framebuffers = []
      ∧ s1.vars.imageReadySs = [] ∧ s1.vars.renderDoneSs = []
      ∧ s1.vars.submissionFences = []
      ∧ s1.vars.commandBuffers = liveBeforeMinimize.vars.commandBuffers
      ∧ Event.vkResetCommandPool sampleCtx.commandPool VK_SUCCESS ∈ s1.world.trace
      ∧ Event.vkDestroyPipeline liveBeforeMinimize.vars.pipeline ∈ s1.world.trace
      ∧ Event.vkDestroySwapchainKHR liveBeforeMinimize.vars.swapchain ∈ s1.world.trace
      ∧ (∀ x ∈ liveBeforeMinimize.vars.swapchainImageViews,
          Event.vkDestroyImageView x ∈ s1.world.trace)
      ∧ (∀ x ∈ liveBeforeMinimize.vars.framebuffers,
          Event.vkDestroyFramebuffer x ∈ s1.world.trace)
      ∧ (∀ x ∈ liveBeforeMinimize.vars.imageReadySs,
          Event.vkDestroySemaphore x ∈ s1.world.trace)
      ∧ (∀ x ∈ liveBeforeMinimize.vars.renderDoneSs,
          Event.vkDestroySemaphore x ∈ s1.world.trace)
      ∧ (∀ x ∈ liveBeforeMinimize.vars.submissionFences,
          Event.vkDestroyFence x ∈ s1.world.trace) :=
  ⟨fun _ _ _ => rfl, by decide!, by decide!,
    recreateSwapchain_degenerate_teardown sampleCtx minimizedLaterEnv liveBeforeMinimize
      (fun _ _ _ => rfl) (by decide!) (by decide!)⟩

/-- C4 (the code at the failing inputs): with the window minimized from the start the
initial `recreateSwapchain` returns `false` and the `render()` the event loop then calls
fails `assert( swapchain )`; and when the first acquire reports `VK_ERROR_OUT_OF_DATE_KHR`
with the window minimized by then, the `render()` re-entered from the retry path fails the
same assertion. -/
theorem render_without_swapchain_fails_assertion :
    (recreateSwapchain sampleCtx minimizedEnv State.initial).1 = .ok false
    ∧ (render sampleCtx minimizedEnv 1
        (recreateSwapchain sampleCtx minimizedEnv State.initial).2).1 = .error .assertion
    ∧ (recreateSwapchain sampleCtx minimizedOnRetryEnv State.initial).1 = .ok true
    ∧ (render sampleCtx minimizedOnRetryEnv 2
        (recreateSwapchain sampleCtx minimizedOnRetryEnv State.initial).2).1
          = .error .assertion := by
  decide!

/-- C10: after every `recreateSwapchain` that returns `true`, in whatever environment,
`imageReadySs` and `submissionFences` have `maxInflightSubmissions` = 2 elements whatever
the image count, every fence of `submissionFences` was created by a successful
`vkCreateFence` with `VK_FENCE_CREATE_SIGNALED_BIT`, `renderDoneSs` has as many elements as
images were enumerated from the swapchain, and `submissionNr` is 0. -/
theorem recreateSwapchain_rings (ctx : Ctx) (env : Env) (s s1 : State)
    (hret : recreateSwapchain ctx env s = (.ok true, s1)) :
    s1.vars.imageReadySs.length = maxInflightSubmissions
    ∧ s1.vars.submissionFences.length = maxInflightSubmissions
    ∧ maxInflightSubmissions = 2
    ∧ (∀ f ∈ s1.vars.submissionFences,
        Event.vkCreateFence VK_FENCE_CREATE_SIGNALED_BIT VK_SUCCESS f ∈ s1.world.trace)
    ∧ (∃ images : List Handle,
        Event.vkGetSwapchainImagesKHR s1.vars.swapchain VK_SUCCESS images ∈ s1.world.trace
        ∧ images.length = toUInt32 (env.imageCount (createTick s.vars s.world + 2))
        ∧ s1.vars.renderDoneSs.length = images.length)
    ∧ s1.vars.submissionNr = 0 := by
  obtain ⟨n, hcr⟩ := recreateSwapchain_created ctx env s s1 hret
  obtain ⟨images, hl, hm⟩ := hcr.enumerated
  refine ⟨hcr.imageReadySs, hcr.submissionFences, rfl, hcr.signaled, ⟨images, hm, ?_, ?_⟩,
    hcr.submissionNr⟩
  · rw [hl]; exact hcr.count_eq
  · rw [hl]; exact hcr.renderDoneSs

theorem recreateSwapchain_rings_witness :
    (recreateSwapchain sampleCtx sampleEnv State.initial).1 = .ok true
    ∧ (recreateSwapchain sampleCtx sampleEnv State.initial).2.vars.imageReadySs.length
        = maxInflightSubmissions
    ∧ (recreateSwapchain sampleCtx sampleEnv State.initial).2.vars.submissionFences.length
        = maxInflightSubmissions
    ∧ maxInflightSubmissions = 2
    ∧ (∀ f ∈ (recreateSwapchain sampleCtx sampleEnv State.initial).2.vars.submissionFences,
        Event.vkCreateFence VK_FENCE_CREATE_SIGNALED_BIT VK_SUCCESS f
          ∈ (recreateSwapchain sampleCtx sampleEnv State.initial).2.world.trace)
    ∧ (∃ images : List Handle,
        Event.vkGetSwapchainImagesKHR
            (recreateSwapchain sampleCtx sampleEnv State.initial).2.vars.swapchain VK_SUCCESS images
          ∈ (recreateSwapchain sampleCtx sampleEnv State.initial).2.world.trace
        ∧ images.length
            = toUInt32 (sampleEnv.imageCount (createTick State.initial.vars State.initial.world + 2))
        ∧ (recreateSwapchain sampleCtx sampleEnv State.initial).2.vars.renderDoneSs.length
            = images.length)
    ∧ (recreateSwapchain sampleCtx sampleEnv State.initial).2.vars.submissionNr = 0 :=
  ⟨by decide!,
    recreateSwapchain_rings sampleCtx sampleEnv State.initial
      (recreateSwapchain sampleCtx sampleEnv State.initial).2 (by decide!)⟩


/-- The events of one pass through the `try` block contain no function entry. -/
theorem Attempt.no_entry {ctx : Ctx} {env : Env} {v : Vars} {w : World} {flag : Bool}
    {r : Except Exn Unit} {s1 : State} (h : Attempt ctx env v w flag r s1) :
    ∃ l, s1.world.trace = w.trace ++ l ∧ ∀ fn, Event.enter fn ∉ l := by
  cases h with
  | noFence _ => exact ⟨[], (List.append_nil _).symm, by simp⟩
  | _ => exact ⟨_, rfl, by simp⟩

/-- The flag `unsafeSemaphore` is set exactly when the exception comes from the acquire,
and then slot `submissionNr` of `imageReadySs` exists. -/
theorem Attempt.flag_iff {ctx : Ctx} {env : Env} {v : Vars} {w : World} {flag : Bool}
    {source : Api} {result : VkResult} {s1 : State}
    (h : Attempt ctx env v w flag (.error (.vulkanResult source result)) s1) :
    (flag = true ↔ source = .vkAcquireNextImageKHR)
    ∧ (flag = true → ∃ sem, v.imageReadySs[v.submissionNr]? = some sem) := by
  cases h with
  | acquireFailed f sem hf h0 h1 hs h2 => exact ⟨by simp, fun _ => ⟨sem, hs⟩⟩
  | _ => simp

/-- What the handler of `render` adds to the trace: first the drain of the semaphore, if
it is made, then, if it is reached, `recreateSwapchain` and what follows it. -/
theorem renderCatch_shape (ctx : Ctx) (env : Env) {again : M Unit}
    (hagain : ∀ s, ∃ l, (again s).2.world.trace = s.world.trace ++ l) (flag : Bool)
    (source : Api) (result : VkResult) (v : Vars) (w : World)
    (hs : flag = true → ∃ sem, v.imageReadySs[v.submissionNr]? = some sem) :
    ∃ pre post,
      (renderCatch ctx env again flag source result ⟨v, w⟩).2.world.trace = w.trace ++ pre ++ post
      ∧ (flag = true ∧ result = VK_SUBOPTIMAL_KHR →
          ∃ sem, v.imageReadySs[v.submissionNr]? = some sem
            ∧ pre = [.enter .cleanupUnsafeSemaphore,
                .vkQueueSubmit ctx.graphicsQueue [sem] VK_PIPELINE_STAGE_BOTTOM_OF_PIPE_BIT [] []
                  VK_NULL_HANDLE (env.result w.tick)])
      ∧ (¬ (flag = true ∧ result = VK_SUBOPTIMAL_KHR) → pre = [])
      ∧ ((result = VK_SUBOPTIMAL_KHR ∨ result = VK_ERROR_OUT_OF_DATE_KHR)
          ∧ (pre = [] ∨ env.result w.tick = VK_SUCCESS) →
          ∃ rest, post = .enter .recreateSwapchain :: rest)
      ∧ (¬ ((result = VK_SUBOPTIMAL_KHR ∨ result = VK_ERROR_OUT_OF_DATE_KHR)
          ∧ (pre = [] ∨ env.result w.tick = VK_SUCCESS)) → post = []) := by
  by_cases hr : result = VK_SUBOPTIMAL_KHR ∨ result = VK_ERROR_OUT_OF_DATE_KHR
  · rw [renderCatch_transient ctx env again flag source hr]
    by_cases hc : flag = true ∧ result = VK_SUBOPTIMAL_KHR
    · rw [if_pos hc]
      obtain ⟨sem, hsem⟩ := hs hc.1
      rw [hsem]
      by_cases h0 : env.result w.tick = VK_SUCCESS
      · simp only [if_pos h0]
        obtain ⟨l, hl⟩ := retry_trace ctx env hagain
          ⟨v, w.after 1 [.enter .cleanupUnsafeSemaphore,
            .vkQueueSubmit ctx.graphicsQueue [sem] VK_PIPELINE_STAGE_BOTTOM_OF_PIPE_BIT [] []
              VK_NULL_HANDLE VK_SUCCESS]⟩
        refine ⟨_, .enter .recreateSwapchain :: l, ?_, fun _ => ⟨sem, rfl, rfl⟩,
          fun hn => absurd hc hn, fun _ => ⟨l, rfl⟩, fun hn => absurd ⟨hr, Or.inr h0⟩ hn⟩
        rw [hl, h0]
        simp [World.after]
      · simp only [if_neg h0]
        refine ⟨_, [], ?_, fun _ => ⟨sem, rfl, rfl⟩, fun hn => absurd hc hn, ?_, fun _ => rfl⟩
        · simp [World.after]
        · rintro ⟨_, hp | hp⟩
          · simp at hp
          · exact absurd hp h0
    · rw [if_neg hc]
      obtain ⟨l, hl⟩ := retry_trace ctx env hagain ⟨v, w⟩
      refine ⟨[], .enter .recreateSwapchain :: l, ?_, fun h => absurd h hc, fun _ => rfl,
        fun _ => ⟨l, rfl⟩, fun hn => absurd ⟨hr, Or.inl rfl⟩ hn⟩
      rw [hl]
      simp
  · rw [renderCatch_fatal ctx env again flag source hr]
    by_cases hc : flag = true ∧ result = VK_SUBOPTIMAL_KHR
    · exact absurd (Or.inl hc.2) hr
    · exact ⟨[], [], by simp, fun h => absurd h hc, fun _ => rfl, fun h => absurd h.1 hr,
        fun _ => rfl⟩

/-- C8: when the `try` block of `render` raises a `VulkanResultException`, the flag
`unsafeSemaphore` is set exactly when the acquire raised it, and the handler adds to the
trace a part `pre` followed by a part `post`: `pre` is the call of `cleanupUnsafeSemaphore`
on `imageReadySs[submissionNr]` when the acquire raised `VK_SUBOPTIMAL_KHR`, and is empty
otherwise (for `VK_ERROR_OUT_OF_DATE_KHR`, and for every failure of the fence wait, the
fence reset, the submit or the present); `post` starts with the entry of
`recreateSwapchain` when the result is one of the two transient ones and the drain, if made,
succeeded, and is empty otherwise. -/
theorem render_catch_cleanup (ctx : Ctx) (env : Env) (fuel : Nat) (v : Vars) (w : World)
    (flag : Bool) (source : Api) (result : VkResult) (s1 : State)
    (hsw : v.swapchain ≠ VK_NULL_HANDLE)
    (htry : renderTry ctx env ⟨v, w.after 0 [.enter .render]⟩
      = (flag, .error (.vulkanResult source result), s1)) :
    (flag = true ↔ source = .vkAcquireNextImageKHR)
    ∧ ∃ pre post,
      (render ctx env (fuel + 1) ⟨v, w⟩).2.world.trace = s1.world.trace ++ pre ++ post
      ∧ (source = .vkAcquireNextImageKHR ∧ result = VK_SUBOPTIMAL_KHR →
          ∃ sem, v.imageReadySs[v.submissionNr]? = some sem
            ∧ pre = [.enter .cleanupUnsafeSemaphore,
                .vkQueueSubmit ctx.graphicsQueue [sem] VK_PIPELINE_STAGE_BOTTOM_OF_PIPE_BIT [] []
                  VK_NULL_HANDLE (env.result s1.world.tick)])
      ∧ (¬ (source = .vkAcquireNextImageKHR ∧ result = VK_SUBOPTIMAL_KHR) → pre = [])
      ∧ ((result = VK_SUBOPTIMAL_KHR ∨ result = VK_ERROR_OUT_OF_DATE_KHR)
          ∧ (pre = [] ∨ env.result s1.world.tick = VK_SUCCESS) →
          ∃ rest, post = .enter .recreateSwapchain :: rest)
      ∧ (¬ ((result = VK_SUBOPTIMAL_KHR ∨ result = VK_ERROR_OUT_OF_DATE_KHR)
          ∧ (pre = [] ∨ env.result s1.world.tick = VK_SUCCESS)) → post = []) := by
  have hA := renderTry_attempt ctx env v (w.after 0 [.enter .render])
  rw [htry] at hA
  obtain ⟨hflag, hsem⟩ := hA.flag_iff
  have hv : s1.vars = v := hA.vars_eq
  refine ⟨hflag, ?_⟩
  rw [render_succ, if_neg hsw, htry]
  rcases s1 with ⟨v1, w1⟩
  simp only at hv
  subst hv
  simp only
  rw [← hflag]
  exact renderCatch_shape ctx env (render_trace ctx env fuel) flag source result v1 w1 hsem

theorem render_catch_cleanup_witness :
    sampleLive.vars.swapchain ≠ VK_NULL_HANDLE
    ∧ (true = true ↔ Api.vkAcquireNextImageKHR = .vkAcquireNextImageKHR)
    ∧ ∃ pre post,
      (render sampleCtx suboptimalAcquireEnv (1 + 1) ⟨sampleLive.vars, sampleLive.world⟩).2.world.trace
        = (renderTry sampleCtx suboptimalAcquireEnv
            ⟨sampleLive.vars, sampleLive.world.after 0 [.enter .render]⟩).2.2.world.trace
          ++ pre ++ post
      ∧ (Api.vkAcquireNextImageKHR = .vkAcquireNextImageKHR ∧ VK_SUBOPTIMAL_KHR = VK_SUBOPTIMAL_KHR →
          ∃ sem, sampleLive.vars.imageReadySs[sampleLive.vars.submissionNr]? = some sem
            ∧ pre = [.enter .cleanupUnsafeSemaphore,
                .vkQueueSubmit sampleCtx.graphicsQueue [sem] VK_PIPELINE_STAGE_BOTTOM_OF_PIPE_BIT
                  [] [] VK_NULL_HANDLE
                  (suboptimalAcquireEnv.result (renderTry sampleCtx suboptimalAcquireEnv
                    ⟨sampleLive.vars, sampleLive.world.after 0 [.enter .render]⟩).2.2.world.tick)])
      ∧ (¬ (Api.vkAcquireNextImageKHR = .vkAcquireNextImageKHR
            ∧ VK_SUBOPTIMAL_KHR = VK_SUBOPTIMAL_KHR) → pre = [])
      ∧ ((VK_SUBOPTIMAL_KHR = VK_SUBOPTIMAL_KHR ∨ VK_SUBOPTIMAL_KHR = VK_ERROR_OUT_OF_DATE_KHR)
          ∧ (pre = [] ∨ suboptimalAcquireEnv.result (renderTry sampleCtx suboptimalAcquireEnv
              ⟨sampleLive.vars, sampleLive.world.after 0 [.enter .render]⟩).2.2.world.tick
                = VK_SUCCESS) →
          ∃ rest, post = .enter .recreateSwapchain :: rest)
      ∧ (¬ ((VK_SUBOPTIMAL_KHR = VK_SUBOPTIMAL_KHR ∨ VK_SUBOPTIMAL_KHR = VK_ERROR_OUT_OF_DATE_KHR)
          ∧ (pre = [] ∨ suboptimalAcquireEnv.result (renderTry sampleCtx suboptimalAcquireEnv
              ⟨sampleLive.vars, sampleLive.world.after 0 [.enter .render]⟩).2.2.world.tick
                = VK_SUCCESS)) → post = []) :=
  ⟨by decide!,
    render_catch_cleanup sampleCtx suboptimalAcquireEnv 1 sampleLive.vars sampleLive.world
      true .vkAcquireNextImageKHR VK_SUBOPTIMAL_KHR
      (renderTry sampleCtx suboptimalAcquireEnv
        ⟨sampleLive.vars, sampleLive.world.after 0 [.enter .render]⟩).2.2
      (by decide!) (by decide!)⟩

/-- An exception with a transient result that leaves `render` was not raised by the `try`
block: its source is no call of a frame, unless it is the submission of
`cleanupUnsafeSemaphore`, whose two entries then end the trace. -/
theorem render_transient_origin (ctx : Ctx) (env : Env) (fuel : Nat) :
    ∀ (s s1 : State) (source : Api) (result : VkResult),
      render ctx env fuel s = (.error (.vulkanResult source result), s1) →
      result = VK_SUBOPTIMAL_KHR ∨ result = VK_ERROR_OUT_OF_DATE_KHR →
      source.isFrameCall = false
      ∨ (source = .vkQueueSubmit ∧ ∃ pre sem, s1.world.trace = pre ++
          [.enter .cleanupUnsafeSemaphore,
            .vkQueueSubmit ctx.graphicsQueue [sem] VK_PIPELINE_STAGE_BOTTOM_OF_PIPE_BIT [] []
              VK_NULL_HANDLE result]) := by
  induction fuel with
  | zero => intro s s1 source result h; simp [render_zero] at h
  | succ fuel ih =>
    intro s s1 source result h ht
    rcases s with ⟨v, w⟩
    rw [render_succ] at h
    by_cases hsw : v.swapchain = VK_NULL_HANDLE
    · rw [if_pos hsw] at h; simp at h
    · rw [if_neg hsw] at h
      rcases hr : renderTry ctx env ⟨v, w.after 0 [.enter .render]⟩ with ⟨flag, r, ⟨v2, w2⟩⟩
      rw [hr] at h
      cases r with
      | ok u => simp at h
      | error e =>
        cases e with
        | vulkanResult source2 result2 =>
          simp only at h
          by_cases hr2 : result2 = VK_SUBOPTIMAL_KHR ∨ result2 = VK_ERROR_OUT_OF_DATE_KHR
          · rw [renderCatch_transient ctx env _ flag source2 hr2] at h
            have hretry : ∀ s2 : State,
                (recreateSwapchain ctx env >>= fun _ => render ctx env fuel) s2
                  = (.error (.vulkanResult source result), s1) →
                source.isFrameCall = false
                ∨ (source = .vkQueueSubmit ∧ ∃ pre sem, s1.world.trace = pre ++
                    [.enter .cleanupUnsafeSemaphore,
                      .vkQueueSubmit ctx.graphicsQueue [sem] VK_PIPELINE_STAGE_BOTTOM_OF_PIPE_BIT
                        [] [] VK_NULL_HANDLE result]) := by
              intro s2 hrun
              rw [mBind_apply] at hrun
              obtain ⟨_, _, hexn⟩ := recreateSwapchain_trace ctx env s2
              rcases hrc : recreateSwapchain ctx env s2 with ⟨rr, s3⟩
              rw [hrc] at hrun hexn
              cases rr with
              | ok b => exact ih s3 s1 source result hrun ht
              | error e =>
                simp only [Prod.mk.injEq] at hrun
                have := hexn e rfl
                rw [Except.error.injEq] at hrun
                rw [hrun.1] at this
                left
                simpa [Exn.fromLifecycle] using this
            by_cases hc : flag = true ∧ result2 = VK_SUBOPTIMAL_KHR
            · rw [if_pos hc] at h
              cases hs : v2.imageReadySs[v2.submissionNr]? with
              | none => rw [hs] at h; simp at h
              | some sem =>
                rw [hs] at h
                by_cases h0 : env.result w2.tick = VK_SUCCESS
                · simp only [if_pos h0] at h
                  exact hretry _ h
                · simp only [if_neg h0, Prod.mk.injEq, Except.error.injEq,
                    Exn.vulkanResult.injEq] at h
                  obtain ⟨⟨hsrc, hres⟩, hs1⟩ := h
                  right
                  refine ⟨hsrc.symm, w2.trace, sem, ?_⟩
                  rw [← hs1, ← hres]
                  rfl
            · rw [if_neg hc] at h
              exact hretry _ h
          · rw [renderCatch_fatal ctx env _ flag source2 hr2] at h
            simp only [Prod.mk.injEq, Except.error.injEq, Exn.vulkanResult.injEq] at h
            rw [h.1.2] at hr2
            exact absurd ht hr2
        | text msg => simp at h
        | assertion => simp at h
        | outOfRange => simp at h
        | fuel => simp at h

/-- C9: (1) if the `try` block of `render` raises a `VulkanResultException` whose result
`r` is neither `VK_SUBOPTIMAL_KHR` nor `VK_ERROR_OUT_OF_DATE_KHR`, then `render` ends with
that exception, the variables (so `submissionNr`) are as on entry, and the trace gained the
entry of this `render` and no entry of `recreateSwapchain` or of another `render`;
(2) an exception with one of the two transient results that leaves `render` never comes
from the acquire or the present, and comes from `vkQueueSubmit` only when
`cleanupUnsafeSemaphore` made that submission in the handler: no such failure of the `try`
block reaches the caller. -/
theorem render_propagates_fatal_only (ctx : Ctx) (env : Env) :
    (∀ (fuel : Nat) (v : Vars) (w : World) (flag : Bool) (source : Api) (r : VkResult)
        (s1 : State),
      v.swapchain ≠ VK_NULL_HANDLE →
      renderTry ctx env ⟨v, w.after 0 [.enter .render]⟩
        = (flag, .error (.vulkanResult source r), s1) →
      r ≠ VK_SUBOPTIMAL_KHR → r ≠ VK_ERROR_OUT_OF_DATE_KHR →
      render ctx env (fuel + 1) ⟨v, w⟩ = (.error (.vulkanResult source r), s1)
      ∧ s1.vars = v
      ∧ ∃ l, s1.world.trace = w.trace ++ .enter .render :: l
          ∧ l.count (.enter .recreateSwapchain) = 0 ∧ l.count (.enter .render) = 0)
    ∧ (∀ (fuel : Nat) (s s1 : State) (source : Api) (r : VkResult),
      render ctx env fuel s = (.error (.vulkanResult source r), s1) →
      r = VK_SUBOPTIMAL_KHR ∨ r = VK_ERROR_OUT_OF_DATE_KHR →
      source ≠ .vkAcquireNextImageKHR ∧ source ≠ .vkQueuePresentKHR
      ∧ (source = .vkQueueSubmit → ∃ pre sem, s1.world.trace = pre ++
          [.enter .cleanupUnsafeSemaphore,
            .vkQueueSubmit ctx.graphicsQueue [sem] VK_PIPELINE_STAGE_BOTTOM_OF_PIPE_BIT [] []
              VK_NULL_HANDLE r])) := by
  constructor
  · intro fuel v w flag source r s1 hsw htry h1 h2
    have hA := renderTry_attempt ctx env v (w.after 0 [.enter .render])
    rw [htry] at hA
    have hfatal : ¬ (r = VK_SUBOPTIMAL_KHR ∨ r = VK_ERROR_OUT_OF_DATE_KHR) := by
      rintro (h | h)
      · exact h1 h
      · exact h2 h
    refine ⟨?_, hA.vars_eq, ?_⟩
    · rw [render_succ, if_neg hsw, htry]
      exact renderCatch_fatal ctx env _ flag source hfatal s1
    · obtain ⟨l, hl, hno⟩ := hA.no_entry
      refine ⟨l, ?_, List.count_eq_zero.mpr (hno _), List.count_eq_zero.mpr (hno _)⟩
      rw [hl]
      simp [World.after]
  · intro fuel s s1 source r h ht
    rcases render_transient_origin ctx env fuel s s1 source r h ht with hl | ⟨hsrc, hcl⟩
    · refine ⟨?_, ?_, ?_⟩
      · rintro rfl; simp [Api.isFrameCall] at hl
      · rintro rfl; simp [Api.isFrameCall] at hl
      · rintro rfl; simp [Api.isFrameCall] at hl
    · subst hsrc
      exact ⟨by simp, by simp, fun _ => hcl⟩

theorem render_propagates_fatal_only_witness :
    (sampleLive.vars.swapchain ≠ VK_NULL_HANDLE
      ∧ VK_ERROR_DEVICE_LOST ≠ VK_SUBOPTIMAL_KHR
      ∧ VK_ERROR_DEVICE_LOST ≠ VK_ERROR_OUT_OF_DATE_KHR
      ∧ render sampleCtx deviceLostEnv (1 + 1) ⟨sampleLive.vars, sampleLive.world⟩
          = (.error (.vulkanResult .vkWaitForFences VK_ERROR_DEVICE_LOST),
              (renderTry sampleCtx deviceLostEnv
                ⟨sampleLive.vars, sampleLive.world.after 0 [.enter .render]⟩).2.2)
      ∧ (renderTry sampleCtx deviceLostEnv
            ⟨sampleLive.vars, sampleLive.world.after 0 [.enter .render]⟩).2.2.vars
          = sampleLive.vars
      ∧ ∃ l, (renderTry sampleCtx deviceLostEnv
            ⟨sampleLive.vars, sampleLive.world.after 0 [.enter .render]⟩).2.2.world.trace
            = sampleLive.world.trace ++ .enter .render :: l
          ∧ l.count (.enter .recreateSwapchain) = 0 ∧ l.count (.enter .render) = 0)
    ∧ ((render sampleCtx failingDrainEnv 2 sampleLive).1
          = .error (.vulkanResult .vkQueueSubmit VK_ERROR_OUT_OF_DATE_KHR)
      ∧ Api.vkQueueSubmit ≠ .vkAcquireNextImageKHR ∧ Api.vkQueueSubmit ≠ .vkQueuePresentKHR
      ∧ (Api.vkQueueSubmit = .vkQueueSubmit →
          ∃ pre sem, (render sampleCtx failingDrainEnv 2 sampleLive).2.world.trace = pre ++
            [.enter .cleanupUnsafeSemaphore,
              .vkQueueSubmit sampleCtx.graphicsQueue [sem] VK_PIPELINE_STAGE_BOTTOM_OF_PIPE_BIT
                [] [] VK_NULL_HANDLE VK_ERROR_OUT_OF_DATE_KHR])) :=
  ⟨⟨by decide!, by decide, by decide,
      (render_propagates_fatal_only sampleCtx deviceLostEnv).1 1 sampleLive.vars
        sampleLive.world false .vkWaitForFences VK_ERROR_DEVICE_LOST
        (renderTry sampleCtx deviceLostEnv
          ⟨sampleLive.vars, sampleLive.world.after 0 [.enter .render]⟩).2.2
        (by decide!) (by decide!) (by decide) (by decide)⟩,
    ⟨by decide!,
      (render_propagates_fatal_only sampleCtx failingDrainEnv).2 2 sampleLive
        (render sampleCtx failingDrainEnv 2 sampleLive).2 .vkQueueSubmit
        VK_ERROR_OUT_OF_DATE_KHR (by decide!) (Or.inr rfl)⟩⟩


theorem frames_succ (ctx : Ctx) (env : Env) (fuel n : Nat) (s s1 : State)
    (h : frames ctx env fuel (n + 1) s = some s1) :
    ∃ sk, frames ctx env fuel n s = some sk ∧ render ctx env fuel sk = (.ok (), s1) := by
  rw [frames] at h
  cases hk : frames ctx env fuel n s with
  | none => rw [hk] at h; simp at h
  | some sk =>
    rw [hk] at h
    simp only at h
    rcases hr : render ctx env fuel sk with ⟨r, s2⟩
    rw [hr] at h
    cases r with
    | error e => simp at h
    | ok u =>
      simp only [Option.some.injEq] at h
      subst h
      exact ⟨sk, rfl, hr⟩

theorem render_recreations_le (ctx : Ctx) (env : Env) (fuel : Nat) (s : State) :
    recreations s.world.trace ≤ recreations (render ctx env fuel s).2.world.trace := by
  obtain ⟨l, hl⟩ := render_trace ctx env fuel s
  rw [hl, recreations_append]
  omega

/-- The successful frames before the `n`-th, and the recreations counted along the way. -/
theorem frames_upto (ctx : Ctx) (env : Env) (fuel : Nat) (s : State) :
    ∀ (n : Nat) (sN : State), frames ctx env fuel n s = some sN →
      ∀ k, k ≤ n → ∃ sk, frames ctx env fuel k s = some sk
        ∧ recreations s.world.trace ≤ recreations sk.world.trace
        ∧ recreations sk.world.trace ≤ recreations sN.world.trace := by
  intro n
  induction n with
  | zero =>
    intro sN h k hk
    have hk0 : k = 0 := by omega
    subst hk0
    simp only [frames, Option.some.injEq] at h
    subst h
    exact ⟨s, rfl, le_refl _, le_refl _⟩
  | succ n ih =>
    intro sN h k hk
    obtain ⟨sn, hsn, hr⟩ := frames_succ ctx env fuel n s sN h
    have hstep : recreations sn.world.trace ≤ recreations sN.world.trace := by
      have := render_recreations_le ctx env fuel sn
      rw [hr] at this
      exact this
    by_cases hkn : k = n + 1
    · subst hkn
      obtain ⟨s0, hs0, h1, h2⟩ := ih sn hsn n (le_refl _)
      rw [hsn] at hs0
      simp only [Option.some.injEq] at hs0
      subst hs0
      exact ⟨sN, h, le_trans h1 hstep, le_refl _⟩
    · obtain ⟨sk, hsk, h1, h2⟩ := ih sn hsn k (by omega)
      exact ⟨sk, hsk, h1, le_trans h2 hstep⟩

/-- A call of `render` that returns without a recreation made one pass through the `try`
block, with the ring slot `submissionNr` it was entered with. -/
theorem render_ok_attempt (ctx : Ctx) (env : Env) (fuel : Nat) (v : Vars) (w : World)
    (s1 : State) (h : render ctx env fuel ⟨v, w⟩ = (.ok (), s1))
    (hrec : recreations s1.world.trace ≤ recreations w.trace) :
    ∃ f sem cb rd, v.submissionFences[v.submissionNr]? = some f
      ∧ v.imageReadySs[v.submissionNr]? = some sem
      ∧ s1.vars = { v with
          submissionNr := toUInt32 (v.submissionNr + 1) % maxInflightSubmissions }
      ∧ s1.world.trace = w.trace ++ [.enter .render, .vkWaitForFences f VK_SUCCESS,
          .vkResetFences f VK_SUCCESS,
          .vkAcquireNextImageKHR v.swapchain sem VK_SUCCESS (acquiredIndex env w),
          .vkQueueSubmit ctx.graphicsQueue [sem] VK_PIPELINE_STAGE_COLOR_ATTACHMENT_OUTPUT_BIT
            [cb] [rd] f VK_SUCCESS,
          .vkQueuePresentKHR ctx.presentQueue rd v.swapchain (acquiredIndex env w)
            VK_SUCCESS] := by
  cases fuel with
  | zero => simp [render_zero] at h
  | succ fuel =>
    rw [render_succ] at h
    by_cases hsw : v.swapchain = VK_NULL_HANDLE
    · rw [if_pos hsw] at h; simp at h
    · rw [if_neg hsw] at h
      have hA := renderTry_attempt ctx env v (w.after 0 [.enter .render])
      rcases hr : renderTry ctx env ⟨v, w.after 0 [.enter .render]⟩ with ⟨flag, r, s2⟩
      rw [hr] at hA h
      cases r with
      | ok u =>
        simp only [Prod.mk.injEq, true_and] at h
        subst h
        cases hA with
        | done f sem cb rd hf h0 h1 hs h2 hc hd h3 h4 =>
          exact ⟨f, sem, cb, rd, hf, hs, rfl, by simp [World.after, acquiredIndex]⟩
      | error e =>
        cases e with
        | vulkanResult source result =>
          simp only at h
          obtain ⟨la, hla, _⟩ := hA.trace_eq
          obtain ⟨lc, hlc, hpos⟩ :=
            renderCatch_trace ctx env (render_trace ctx env fuel) flag source result s2
          rw [h] at hlc hpos
          simp only at hlc
          rw [hlc, hla] at hrec
          simp only [World.after, recreations_append] at hrec
          have := hpos rfl
          omega
        | text msg => simp at h
        | assertion => simp at h
        | outOfRange => simp at h
        | fuel => simp at h

theorem frames_submissionNr (ctx : Ctx) (env : Env) (fuel : Nat) (s : State)
    (h0 : s.vars.submissionNr = 0) :
    ∀ (n : Nat) (sN : State), frames ctx env fuel n s = some sN →
      recreations sN.world.trace ≤ recreations s.world.trace →
      sN.vars.submissionNr = n % maxInflightSubmissions := by
  intro n
  induction n with
  | zero =>
    intro sN h _
    simp only [frames, Option.some.injEq] at h
    subst h
    simp [h0]
  | succ n ih =>
    intro sN h hrec
    obtain ⟨sn, hsn, hr⟩ := frames_succ ctx env fuel n s sN h
    obtain ⟨s0, hs0, h1, h2⟩ := frames_upto ctx env fuel s (n + 1) sN h n (by omega)
    rw [hsn] at hs0
    simp only [Option.some.injEq] at hs0
    subst hs0
    have hn := ih sn hsn (by omega)
    rcases sn with ⟨v, w⟩
    obtain ⟨f, sem, cb, rd, _, _, hv, _⟩ :=
      render_ok_attempt ctx env fuel v w sN hr (by simp only at h1 h2 ⊢; omega)
    rw [hv]
    simp only at hn ⊢
    rw [hn]
    have hlt : n % maxInflightSubmissions + 1 < 2 ^ 32 := by
      have : n % maxInflightSubmissions < 2 := Nat.mod_lt _ (by decide)
      omega
    rw [toUInt32_of_lt hlt]
    simp [maxInflightSubmissions]

/-- C6: for every N, after N consecutive `render()` calls that each return normally and
make no recreation, starting from `submissionNr` = 0, `submissionNr` is
N mod `maxInflightSubmissions` (N mod 2); the k-th call (counting from 0) is entered with
`submissionNr` = k mod 2, waits on, resets and submits with the fence of that slot and
acquires with the image-ready semaphore of that slot, and leaves `submissionNr` advanced
by one step modulo 2. -/
theorem submissionNr_cycles (ctx : Ctx) (env : Env) (fuel N : Nat) (s sN : State)
    (h0 : s.vars.submissionNr = 0)
    (hrun : frames ctx env fuel N s = some sN)
    (hrec : recreations sN.world.trace = recreations s.world.trace) :
    sN.vars.submissionNr = N % maxInflightSubmissions
    ∧ maxInflightSubmissions = 2
    ∧ ∀ k, k < N → ∃ sk sk1 f sem cb rd,
        frames ctx env fuel k s = some sk
        ∧ sk.vars.submissionNr = k % maxInflightSubmissions
        ∧ render ctx env fuel sk = (.ok (), sk1)
        ∧ frames ctx env fuel (k + 1) s = some sk1
        ∧ sk1.vars.submissionNr = (sk.vars.submissionNr + 1) % maxInflightSubmissions
        ∧ sk.vars.submissionFences[k % maxInflightSubmissions]? = some f
        ∧ sk.vars.imageReadySs[k % maxInflightSubmissions]? = some sem
        ∧ sk1.world.trace = sk.world.trace ++ [.enter .render, .vkWaitForFences f VK_SUCCESS,
            .vkResetFences f VK_SUCCESS,
            .vkAcquireNextImageKHR sk.vars.swapchain sem VK_SUCCESS (acquiredIndex env sk.world),
            .vkQueueSubmit ctx.graphicsQueue [sem] VK_PIPELINE_STAGE_COLOR_ATTACHMENT_OUTPUT_BIT
              [cb] [rd] f VK_SUCCESS,
            .vkQueuePresentKHR ctx.presentQueue rd sk.vars.swapchain
              (acquiredIndex env sk.world) VK_SUCCESS] := by
  refine ⟨frames_submissionNr ctx env fuel s h0 N sN hrun (le_of_eq hrec), rfl, ?_⟩
  intro k hk
  obtain ⟨sk1, hsk1, h1, h2⟩ := frames_upto ctx env fuel s N sN hrun (k + 1) (by omega)
  obtain ⟨sk, hsk, hr⟩ := frames_succ ctx env fuel k s sk1 hsk1
  obtain ⟨sk0, hsk0, h3, h4⟩ := frames_upto ctx env fuel s (k + 1) sk1 hsk1 k (by omega)
  rw [hsk] at hsk0
  simp only [Option.some.injEq] at hsk0
  subst hsk0
  have hnr := frames_submissionNr ctx env fuel s h0 k sk hsk (by omega)
  have hnr1 := frames_submissionNr ctx env fuel s h0 (k + 1) sk1 hsk1 (by omega)
  rcases sk with ⟨v, w⟩
  obtain ⟨f, sem, cb, rd, hf, hs, hv, ht⟩ :=
    render_ok_attempt ctx env fuel v w sk1 hr (by simp only at h3 h4 ⊢; omega)
  simp only at hnr
  rw [hnr] at hf hs
  refine ⟨⟨v, w⟩, sk1, f, sem, cb, rd, hsk, hnr, hr, hsk1, ?_, hf, hs, ht⟩
  rw [hnr1]
  simp only
  rw [hnr]
  simp [maxInflightSubmissions]

theorem submissionNr_cycles_witness :
    sampleLive.vars.submissionNr = 0
    ∧ frames sampleCtx sampleEnv 1 3 sampleLive = some afterThreeFrames
    ∧ recreations afterThreeFrames.world.trace = recreations sampleLive.world.trace
    ∧ afterThreeFrames.vars.submissionNr = 3 % maxInflightSubmissions
    ∧ maxInflightSubmissions = 2
    ∧ ∀ k, k < 3 → ∃ sk sk1 f sem cb rd,
        frames sampleCtx sampleEnv 1 k sampleLive = some sk
        ∧ sk.vars.submissionNr = k % maxInflightSubmissions
        ∧ render sampleCtx sampleEnv 1 sk = (.ok (), sk1)
        ∧ frames sampleCtx sampleEnv 1 (k + 1) sampleLive = some sk1
        ∧ sk1.vars.submissionNr = (sk.vars.submissionNr + 1) % maxInflightSubmissions
        ∧ sk.vars.submissionFences[k % maxInflightSubmissions]? = some f
        ∧ sk.vars.imageReadySs[k % maxInflightSubmissions]? = some sem
        ∧ sk1.world.trace = sk.world.trace ++ [.enter .render,
            .vkWaitForFences f VK_SUCCESS, .vkResetFences f VK_SUCCESS,
            .vkAcquireNextImageKHR sk.vars.swapchain sem VK_SUCCESS
              (acquiredIndex sampleEnv sk.world),
            .vkQueueSubmit sampleCtx.graphicsQueue [sem]
              VK_PIPELINE_STAGE_COLOR_ATTACHMENT_OUTPUT_BIT [cb] [rd] f VK_SUCCESS,
            .vkQueuePresentKHR sampleCtx.presentQueue rd sk.vars.swapchain
              (acquiredIndex sampleEnv sk.world) VK_SUCCESS] :=
  ⟨by decide!, by decide!, by decide!,
    submissionNr_cycles sampleCtx sampleEnv 1 3 sampleLive afterThreeFrames
      (by decide!) (by decide!) (by decide!)⟩


theorem FenceSafe.nil : FenceSafe [] := fun _ h => h

theorem FenceSafe.append {l1 l2 : List Event} (h1 : FenceSafe l1) (h2 : FenceSafe l2) :
    FenceSafe (l1 ++ l2) := by
  intro m hm
  rw [List.foldl_append]
  exact h2 _ (h1 m hm)

theorem FenceSafe.lifecycle {l : List Event} (h : ∀ e ∈ l, Event.isLifecycle e = true) :
    FenceSafe l := by
  induction l with
  | nil => exact .nil
  | cons e l ih =>
    intro m hm
    rw [List.foldl_cons]
    refine ih (fun e he => h e (List.mem_cons_of_mem _ he)) _ ?_
    have he := h e (List.mem_cons_self _ _)
    cases e <;> simp [Event.isLifecycle] at he <;> simpa [FenceMonitor.step] using hm

theorem FenceSafe.recreate {l : List Event} (h : ∀ e ∈ l, Event.isLifecycle e = true) :
    FenceSafe (.enter .recreateSwapchain :: l) := by
  intro m hm
  rw [List.foldl_cons]
  exact FenceSafe.lifecycle h _ (by simpa [FenceMonitor.step] using hm)

theorem FenceSafe.cleanup (queue semaphore : Handle) (stage : Nat) (result : VkResult) :
    FenceSafe [.enter .cleanupUnsafeSemaphore,
      .vkQueueSubmit queue [semaphore] stage [] [] VK_NULL_HANDLE result] := by
  intro m hm
  simp [FenceMonitor.step, hm]

/-- One pass through the `try` block, with the entry of `render` before it, keeps the
fence discipline. -/
theorem Attempt.fenceSafe {ctx : Ctx} {env : Env} {v : Vars} {w : World} {flag : Bool}
    {r : Except Exn Unit} {s1 : State}
    (h : Attempt ctx env v (w.after 0 [.enter .render]) flag r s1) :
    ∃ l, s1.world.trace = w.trace ++ l ∧ FenceSafe l := by
  cases h with
  | noFence _ =>
    exact ⟨[.enter .render], rfl, fun m hm => by simpa [FenceMonitor.step] using hm⟩
  | waitFailed f hf h0 =>
    refine ⟨.enter .render :: _, by simp only [World.after, List.append_assoc]; rfl, ?_⟩
    intro m hm
    simp [FenceMonitor.step, hm]
  | _ =>
    refine ⟨.enter .render :: _, by simp only [World.after, List.append_assoc]; rfl, ?_⟩
    intro m hm
    simp [FenceMonitor.step, hm]

theorem retry_fenceSafe (ctx : Ctx) (env : Env) {again : M Unit}
    (hagain : ∀ s, ∃ l, (again s).2.world.trace = s.world.trace ++ l ∧ FenceSafe l)
    (s : State) :
    ∃ l, ((recreateSwapchain ctx env >>= fun _ => again) s).2.world.trace
      = s.world.trace ++ l ∧ FenceSafe l := by
  obtain ⟨⟨l, hl, hlife⟩, _, _⟩ := recreateSwapchain_trace ctx env s
  rw [mBind_apply]
  rcases hr : recreateSwapchain ctx env s with ⟨r, s1⟩
  rw [hr] at hl
  cases r with
  | error e => exact ⟨_, hl, .recreate hlife⟩
  | ok b =>
    obtain ⟨l2, hl2, hs2⟩ := hagain s1
    refine ⟨(.enter .recreateSwapchain :: l) ++ l2, ?_, .append (.recreate hlife) hs2⟩
    simp only at hl ⊢
    rw [hl2, hl]
    simp

theorem renderCatch_fenceSafe (ctx : Ctx) (env : Env) {again : M Unit}
    (hagain : ∀ s, ∃ l, (again s).2.world.trace = s.world.trace ++ l ∧ FenceSafe l)
    (flag : Bool) (source : Api) (result : VkResult) (s : State) :
    ∃ l, (renderCatch ctx env again flag source result s).2.world.trace = s.world.trace ++ l
      ∧ FenceSafe l := by
  rcases s with ⟨v, w⟩
  by_cases hr : result = VK_SUBOPTIMAL_KHR ∨ result = VK_ERROR_OUT_OF_DATE_KHR
  · rw [renderCatch_transient ctx env again flag source hr]
    by_cases hc : flag = true ∧ result = VK_SUBOPTIMAL_KHR
    · rw [if_pos hc]
      cases hs : v.imageReadySs[v.submissionNr]? with
      | none => exact ⟨[], by simp, .nil⟩
      | some sem =>
        by_cases h0 : env.result w.tick = VK_SUCCESS
        · simp only [if_pos h0]
          obtain ⟨l, hl, hsafe⟩ := retry_fenceSafe ctx env hagain
            ⟨v, w.after 1 [.enter .cleanupUnsafeSemaphore,
              .vkQueueSubmit ctx.graphicsQueue [sem] VK_PIPELINE_STAGE_BOTTOM_OF_PIPE_BIT [] []
                VK_NULL_HANDLE VK_SUCCESS]⟩
          refine ⟨[.enter .cleanupUnsafeSemaphore,
              .vkQueueSubmit ctx.graphicsQueue [sem] VK_PIPELINE_STAGE_BOTTOM_OF_PIPE_BIT [] []
                VK_NULL_HANDLE VK_SUCCESS] ++ l, ?_, .append (.cleanup _ _ _ _) hsafe⟩
          rw [hl]; simp [World.after]
        · simp only [if_neg h0]
          exact ⟨_, rfl, .cleanup _ _ _ _⟩
    · rw [if_neg hc]
      exact retry_fenceSafe ctx env hagain ⟨v, w⟩
  · rw [renderCatch_fatal ctx env again flag source hr]
    exact ⟨[], by simp, .nil⟩

theorem render_fenceSafe (ctx : Ctx) (env : Env) (fuel : Nat) :
    ∀ s, ∃ l, (render ctx env fuel s).2.world.trace = s.world.trace ++ l ∧ FenceSafe l := by
  induction fuel with
  | zero => intro s; exact ⟨[], by simp [render_zero], .nil⟩
  | succ fuel ih =>
    intro s
    rcases s with ⟨v, w⟩
    rw [render_succ]
    by_cases hsw : v.swapchain = VK_NULL_HANDLE
    · rw [if_pos hsw]
      exact ⟨[.enter .render], rfl, fun m hm => by simpa [FenceMonitor.step] using hm⟩
    · rw [if_neg hsw]
      have hA := renderTry_attempt ctx env v (w.after 0 [.enter .render])
      rcases hr : renderTry ctx env ⟨v, w.after 0 [.enter .render]⟩ with ⟨flag, r, s1⟩
      rw [hr] at hA
      obtain ⟨la, hla, hsafe⟩ := hA.fenceSafe
      simp only at hla
      cases r with
      | ok u => exact ⟨la, hla, hsafe⟩
      | error e =>
        cases e with
        | vulkanResult source result =>
          obtain ⟨lc, hlc, hsc⟩ := renderCatch_fenceSafe ctx env ih flag source result s1
          exact ⟨la ++ lc, by rw [hlc, hla, List.append_assoc], .append hsafe hsc⟩
        | text msg => exact ⟨la, hla, hsafe⟩
        | assertion => exact ⟨la, hla, hsafe⟩
        | outOfRange => exact ⟨la, hla, hsafe⟩
        | fuel => exact ⟨la, hla, hsafe⟩

theorem runOp_fenceSafe (ctx : Ctx) (env : Env) (op : Op) (s : State) :
    ∃ l, (runOp ctx env op s).world.trace = s.world.trace ++ l ∧ FenceSafe l := by
  cases op with
  | recreateSwapchain =>
    obtain ⟨⟨l, hl, hlife⟩, _, _⟩ := recreateSwapchain_trace ctx env s
    exact ⟨_, hl, .recreate hlife⟩
  | render fuel => exact render_fenceSafe ctx env fuel s

theorem runOps_fenceSafe (ctx : Ctx) (env : Env) (ops : List Op) :
    ∀ s, ∃ l, (runOps ctx env ops s).world.trace = s.world.trace ++ l ∧ FenceSafe l := by
  induction ops with
  | nil => intro s; exact ⟨[], by simp [runOps], .nil⟩
  | cons op ops ih =>
    intro s
    obtain ⟨l1, hl1, hs1⟩ := runOp_fenceSafe ctx env op s
    obtain ⟨l2, hl2, hs2⟩ := ih (runOp ctx env op s)
    refine ⟨l1 ++ l2, ?_, .append hs1 hs2⟩
    have : runOps ctx env (op :: ops) s = runOps ctx env ops (runOp ctx env op s) := rfl
    rw [this, hl2, hl1, List.append_assoc]

/-- The submission of a frame takes the fence and waits on the image-ready semaphore of
the ring slot `submissionNr`. -/
theorem Attempt.submit_slot {ctx : Ctx} {env : Env} {v : Vars} {w : World} {flag : Bool}
    {r : Except Exn Unit} {s1 : State} (h : Attempt ctx env v w flag r s1)
    {l : List Event} (hl : s1.world.trace = w.trace ++ l)
    {queue stage fence : Handle} {waits buffers signals : List Handle} {result : VkResult}
    (hmem : Event.vkQueueSubmit queue waits stage buffers signals fence result ∈ l) :
    v.submissionFences[v.submissionNr]? = some fence
    ∧ ∃ sem, v.imageReadySs[v.submissionNr]? = some sem ∧ waits = [sem] := by
  cases h with
  | noFence _ =>
    have : l = [] := by simpa using hl
    subst this
    simp at hmem
  | submitFailed f sem cb rd hf h0 h1 hs h2 hc hd h3 =>
    have := List.append_cancel_left hl
    subst this
    simp at hmem
    obtain ⟨_, rfl, _, _, _, rfl, _⟩ := hmem
    exact ⟨hf, sem, hs, rfl⟩
  | presentFailed f sem cb rd hf h0 h1 hs h2 hc hd h3 h4 =>
    have := List.append_cancel_left hl
    subst this
    simp at hmem
    obtain ⟨_, rfl, _, _, _, rfl, _⟩ := hmem
    exact ⟨hf, sem, hs, rfl⟩
  | done f sem cb rd hf h0 h1 hs h2 hc hd h3 h4 =>
    have := List.append_cancel_left hl
    subst this
    simp at hmem
    obtain ⟨_, rfl, _, _, _, rfl, _⟩ := hmem
    exact ⟨hf, sem, hs, rfl⟩
  | _ =>
    have := List.append_cancel_left hl
    subst this
    simp at hmem

/-- C7: along the trace of every sequence of `render()` and `recreateSwapchain()` calls,
from any state and in any environment, each `vkResetFences` comes right after a successful
`vkWaitForFences` on the same fence, and each `vkQueueSubmit` that is given a fence comes
after that fence was waited on and reset since the entry of the `render` attempt it belongs
to, retried attempts included; and the submission of an attempt takes the fence, and
waits on the image-ready semaphore, of ring slot `submissionNr`. -/
theorem fence_wait_then_reset (ctx : Ctx) (env : Env) :
    (∀ (ops : List Op) (s : State),
      ∃ l, (runOps ctx env ops s).world.trace = s.world.trace ++ l ∧ fenceOrderOk l = true)
    ∧ (∀ ops : List Op, fenceOrderOk (runOps ctx env ops State.initial).world.trace = true)
    ∧ (∀ (v : Vars) (w : World) (l : List Event)
        (queue stage fence : Handle) (waits buffers signals : List Handle) (result : VkResult),
      (renderTry ctx env ⟨v, w⟩).2.2.world.trace = w.trace ++ l →
      Event.vkQueueSubmit queue waits stage buffers signals fence result ∈ l →
      v.submissionFences[v.submissionNr]? = some fence
      ∧ ∃ sem, v.imageReadySs[v.submissionNr]? = some sem ∧ waits = [sem]) := by
  refine ⟨?_, ?_, ?_⟩
  · intro ops s
    obtain ⟨l, hl, hsafe⟩ := runOps_fenceSafe ctx env ops s
    exact ⟨l, hl, hsafe _ rfl⟩
  · intro ops
    obtain ⟨l, hl, hsafe⟩ := runOps_fenceSafe ctx env ops State.initial
    rw [hl]
    have : State.initial.world.trace = [] := rfl
    rw [this, List.nil_append]
    exact hsafe _ rfl
  · intro v w l queue stage fence waits buffers signals result hl hmem
    exact (renderTry_attempt ctx env v w).submit_slot hl hmem


theorem fenceOrderOk_rejects_reset_without_wait :
    fenceOrderOk [.enter .render, .vkResetFences 5 VK_SUCCESS] = false := by decide

theorem fenceOrderOk_rejects_submit_on_stale_fence :
    fenceOrderOk [.enter .render, .vkWaitForFences 5 VK_SUCCESS, .vkResetFences 5 VK_SUCCESS,
      .enter .render, .vkQueueSubmit 1 [2] 1024 [3] [4] 5 VK_SUCCESS] = false := by decide

theorem count_enter_lifecycle {l : List Event} (fn : Fn)
    (h : ∀ e ∈ l, Event.isLifecycle e = true) : l.count (.enter fn) = 0 := by
  rw [List.count_eq_zero]
  intro hmem
  have := h _ hmem
  simp [Event.isLifecycle] at this

theorem pending_lifecycle {l : List Event} (h : ∀ e ∈ l, Event.isLifecycle e = true)
    (pending : List Handle) : l.foldl pendingStep pending = pending := by
  induction l with
  | nil => rfl
  | cons e l ih =>
    rw [List.foldl_cons]
    have he := h e (List.mem_cons_self _ _)
    have hstep : pendingStep pending e = pending := by
      cases e <;> simp [Event.isLifecycle] at he <;> rfl
    rw [hstep]
    exact ih (fun e he => h e (List.mem_cons_of_mem _ he))

theorem acquirePending_append (l1 l2 : List Event) :
    acquirePending (l1 ++ l2) = l2.foldl pendingStep (acquirePending l1) := by
  simp [acquirePending, List.foldl_append]

theorem renderTry_acquireFailed (ctx : Ctx) (env : Env) (v : Vars) (w : World)
    {f sem : Handle} (hf : v.submissionFences[v.submissionNr]? = some f)
    (hs : v.imageReadySs[v.submissionNr]? = some sem)
    (h0 : env.result w.tick = VK_SUCCESS) (h1 : env.result (w.tick + 1) = VK_SUCCESS)
    (h2 : env.result (w.tick + 2) ≠ VK_SUCCESS) :
    renderTry ctx env ⟨v, w⟩ = (true,
      .error (.vulkanResult .vkAcquireNextImageKHR (env.result (w.tick + 2))),
      ⟨v, w.after 3 [.vkWaitForFences f VK_SUCCESS, .vkResetFences f VK_SUCCESS,
        .vkAcquireNextImageKHR v.swapchain sem (env.result (w.tick + 2))
          (acquiredIndex env w)]⟩) := by
  have hwr : renderWaitReset env ⟨v, w⟩ = (.ok (),
      ⟨v, w.after 2 [.vkWaitForFences f VK_SUCCESS, .vkResetFences f VK_SUCCESS]⟩) := by
    simp [renderWaitReset, mBind_apply, index_apply, hf, h0, h1, World.after]
  simp only [World.after] at hwr
  simp [renderTry, hwr, renderAcquire, mBind_apply, index_apply, hs, getNextImageIndex,
    wBind_apply, RESULT_HANDLER, h2, World.after, acquiredIndex]

/-- The pass through the `try` block once the fence calls and the acquire succeeded. -/
theorem renderTry_acquired (ctx : Ctx) (env : Env) (v : Vars) (w : World)
    {f sem cb rd : Handle} (hf : v.submissionFences[v.submissionNr]? = some f)
    (hs : v.imageReadySs[v.submissionNr]? = some sem)
    (hc : v.commandBuffers[acquiredIndex env w]? = some cb)
    (hd : v.renderDoneSs[acquiredIndex env w]? = some rd)
    (h0 : env.result w.tick = VK_SUCCESS) (h1 : env.result (w.tick + 1) = VK_SUCCESS)
    (h2 : env.result (w.tick + 2) = VK_SUCCESS) :
    renderTry ctx env ⟨v, w⟩ =
      if env.result (w.tick + 3) = VK_SUCCESS then
        if env.result (w.tick + 4) = VK_SUCCESS then
          (false, .ok (),
            ⟨{ v with submissionNr := toUInt32 (v.submissionNr + 1) % maxInflightSubmissions },
              w.after 5 [.vkWaitForFences f VK_SUCCESS, .vkResetFences f VK_SUCCESS,
                .vkAcquireNextImageKHR v.swapchain sem VK_SUCCESS (acquiredIndex env w),
                .vkQueueSubmit ctx.graphicsQueue [sem]
                  VK_PIPELINE_STAGE_COLOR_ATTACHMENT_OUTPUT_BIT [cb] [rd] f VK_SUCCESS,
                .vkQueuePresentKHR ctx.presentQueue rd v.swapchain (acquiredIndex env w)
                  VK_SUCCESS]⟩)
        else
          (false, .error (.vulkanResult .vkQueuePresentKHR (env.result (w.tick + 4))),
            ⟨v, w.after 5 [.vkWaitForFences f VK_SUCCESS, .vkResetFences f VK_SUCCESS,
              .vkAcquireNextImageKHR v.swapchain sem VK_SUCCESS (acquiredIndex env w),
              .vkQueueSubmit ctx.graphicsQueue [sem]
                VK_PIPELINE_STAGE_COLOR_ATTACHMENT_OUTPUT_BIT [cb] [rd] f VK_SUCCESS,
              .vkQueuePresentKHR ctx.presentQueue rd v.swapchain (acquiredIndex env w)
                (env.result (w.tick + 4))]⟩)
      else
        (false, .error (.vulkanResult .vkQueueSubmit (env.result (w.tick + 3))),
          ⟨v, w.after 4 [.vkWaitForFences f VK_SUCCESS, .vkResetFences f VK_SUCCESS,
            .vkAcquireNextImageKHR v.swapchain sem VK_SUCCESS (acquiredIndex env w),
            .vkQueueSubmit ctx.graphicsQueue [sem]
              VK_PIPELINE_STAGE_COLOR_ATTACHMENT_OUTPUT_BIT [cb] [rd] f
              (env.result (w.tick + 3))]⟩) := by
  have hwr : renderWaitReset env ⟨v, w⟩ = (.ok (),
      ⟨v, w.after 2 [.vkWaitForFences f VK_SUCCESS, .vkResetFences f VK_SUCCESS]⟩) := by
    simp [renderWaitReset, mBind_apply, index_apply, hf, h0, h1, World.after]
  simp only [World.after] at hwr
  have hac : renderAcquire env
      ⟨v, w.after 2 [.vkWaitForFences f VK_SUCCESS, .vkResetFences f VK_SUCCESS]⟩ =
      (.ok (acquiredIndex env w),
        ⟨v, w.after 3 [.vkWaitForFences f VK_SUCCESS, .vkResetFences f VK_SUCCESS,
          .vkAcquireNextImageKHR v.swapchain sem VK_SUCCESS (acquiredIndex env w)]⟩) := by
    simp [renderAcquire, mBind_apply, index_apply, hs, getNextImageIndex,
      wBind_apply, h2, World.after, acquiredIndex]
  simp only [World.after] at hac
  by_cases h3 : env.result (w.tick + 3) = VK_SUCCESS
  · by_cases h4 : env.result (w.tick + 4) = VK_SUCCESS
    · rw [if_pos h3, if_pos h4]
      simp [renderTry, hwr, hac, renderSubmitPresent, mBind_apply, index_apply, hc, hs, hd,
        hf, submitToQueue, present, wBind_apply, h3, h4, World.after]
    · rw [if_pos h3, if_neg h4]
      simp [renderTry, hwr, hac, renderSubmitPresent, mBind_apply, index_apply, hc, hs, hd,
        hf, submitToQueue, present, wBind_apply, RESULT_HANDLER, h3, h4, World.after]
  · rw [if_neg h3]
    simp [renderTry, hwr, hac, renderSubmitPresent, mBind_apply, index_apply, hc, hs, hd,
      hf, submitToQueue, wBind_apply, RESULT_HANDLER, h3, World.after]


/-- With a valid surface and every call succeeding, `recreateSwapchain` followed by the
frame again completes the frame on ring slot 0. -/
theorem retry_completes (ctx : Ctx) (env : Env) (fuel : Nat) (v : Vars) (w : World)
    (h : env.SucceedsFrom w.tick)
    (hvalid : ∀ t, creatableAt env t = true)
    (hguards : ∀ t t', createGuards ctx env (snapshotAt env t) t')
    (hindex : ∀ t t', toUInt32 (env.imageIndex t) < toUInt32 (env.imageCount t')) :
    ∃ s1 l, (recreateSwapchain ctx env >>= fun _ => render ctx env (fuel + 1)) ⟨v, w⟩
        = (.ok (), s1)
      ∧ s1.vars.submissionNr = 1
      ∧ s1.world.trace = w.trace ++ l
      ∧ recreations l = 1 ∧ l.count (.enter .render) = 1
      ∧ l.foldl pendingStep [] = [] := by
  obtain ⟨v1, w1, n, heq, hcr⟩ := recreateSwapchain_live ctx v h (hvalid _) (hguards _ _)
  obtain ⟨⟨lrec, hlrec, hlife⟩, htick, _⟩ := recreateSwapchain_trace ctx env ⟨v, w⟩
  rw [heq] at hlrec htick
  simp only at hlrec htick
  rw [mBind_apply, heq]
  simp only
  rw [render_succ, if_neg hcr.swapchain_ne]
  obtain ⟨w2, hw2, hw2t, hw2r⟩ : ∃ w2, w2 = w1.after 0 [.enter .render] ∧ w2.tick = w1.tick
      ∧ w2.trace = w1.trace ++ [.enter .render] := ⟨_, rfl, rfl, rfl⟩
  rw [← hw2]
  have hnr := hcr.submissionNr
  have hfl : v1.submissionNr < v1.submissionFences.length := by
    rw [hnr, hcr.submissionFences]; decide
  have hsl : v1.submissionNr < v1.imageReadySs.length := by
    rw [hnr, hcr.imageReadySs]; decide
  have hidx : acquiredIndex env w2 < n := by
    rw [hcr.count_eq]; exact hindex _ _
  have hcl : acquiredIndex env w2 < v1.commandBuffers.length :=
    lt_of_lt_of_le hidx hcr.commandBuffers_ge
  have hdl : acquiredIndex env w2 < v1.renderDoneSs.length := by
    rw [hcr.renderDoneSs]; exact hidx
  have hres : ∀ k, env.result (w2.tick + k) = VK_SUCCESS := fun k => h _ (by omega)
  obtain ⟨f, hf⟩ : ∃ f, v1.submissionFences[v1.submissionNr]? = some f :=
    ⟨_, List.getElem?_eq_getElem hfl⟩
  obtain ⟨sem, hs⟩ : ∃ sem, v1.imageReadySs[v1.submissionNr]? = some sem :=
    ⟨_, List.getElem?_eq_getElem hsl⟩
  obtain ⟨cb, hc⟩ : ∃ cb, v1.commandBuffers[acquiredIndex env w2]? = some cb :=
    ⟨_, List.getElem?_eq_getElem hcl⟩
  obtain ⟨rd, hd⟩ : ∃ rd, v1.renderDoneSs[acquiredIndex env w2]? = some rd :=
    ⟨_, List.getElem?_eq_getElem hdl⟩
  rw [renderTry_acquired ctx env v1 w2 hf hs hc hd (hres 0) (hres 1) (hres 2),
    if_pos (hres 3), if_pos (hres 4)]
  simp only
  refine ⟨_, .enter .recreateSwapchain :: lrec ++ .enter .render ::
    [.vkWaitForFences f VK_SUCCESS, .vkResetFences f VK_SUCCESS,
      .vkAcquireNextImageKHR v1.swapchain sem VK_SUCCESS (acquiredIndex env w2),
      .vkQueueSubmit ctx.graphicsQueue [sem] VK_PIPELINE_STAGE_COLOR_ATTACHMENT_OUTPUT_BIT
        [cb] [rd] f VK_SUCCESS,
      .vkQueuePresentKHR ctx.presentQueue rd v1.swapchain (acquiredIndex env w2) VK_SUCCESS],
    rfl, ?_, ?_, ?_, ?_, ?_⟩
  · simp only [hnr]
    decide
  · simp only [World.after, hw2r, hlrec]
    simp
  · rw [List.cons_append, recreations, List.count_cons_self, List.count_append,
      ← recreations, recreations_lifecycle hlife]
    simp
  · rw [List.cons_append, List.count_cons_of_ne (by simp), List.count_append,
      count_enter_lifecycle _ hlife]
    simp
  · rw [List.cons_append, List.foldl_cons, List.foldl_append]
    have h1 : pendingStep [] (.enter .recreateSwapchain) = [] := rfl
    rw [h1, pending_lifecycle hlife]
    simp [pendingStep, tookEffect]


/-- C5: if exactly one of the acquire, the submit or the present of a frame reports
`VK_SUBOPTIMAL_KHR`, every other call from the start of the frame on succeeds, the surface
is valid (creatable, with none of the program's own checks failing) and the acquired image
indices lie within the image count, then that `render()` invocation returns normally with
`submissionNr` = 1, its trace holds exactly one entry of `recreateSwapchain` and two
entries of `render` (the invocation and one re-entry), and no semaphore is left with an
acquire signal pending that no queue operation waits on. -/
theorem render_recovers_from_suboptimal (ctx : Ctx) (env : Env) (fuel : Nat) (v : Vars)
    (w : World) (j : Nat)
    (hsw : v.swapchain ≠ VK_NULL_HANDLE)
    (hj : j = w.tick + 2 ∨ j = w.tick + 3 ∨ j = w.tick + 4)
    (hsub : env.result j = VK_SUBOPTIMAL_KHR)
    (hothers : ∀ k, w.tick ≤ k → k ≠ j → env.result k = VK_SUCCESS)
    (hslot : ∃ f sem, v.submissionFences[v.submissionNr]? = some f
      ∧ v.imageReadySs[v.submissionNr]? = some sem)
    (himage : ∃ cb rd, v.commandBuffers[acquiredIndex env w]? = some cb
      ∧ v.renderDoneSs[acquiredIndex env w]? = some rd)
    (hvalid : ∀ t, creatableAt env t = true)
    (hguards : ∀ t t', createGuards ctx env (snapshotAt env t) t')
    (hindex : ∀ t t', toUInt32 (env.imageIndex t) < toUInt32 (env.imageCount t'))
    (hpend : acquirePending w.trace = []) :
    ∃ s1 l, render ctx env (fuel + 2) ⟨v, w⟩ = (.ok (), s1)
      ∧ s1.vars.submissionNr = 1
      ∧ s1.world.trace = w.trace ++ l
      ∧ l.count (.enter .recreateSwapchain) = 1
      ∧ l.count (.enter .render) = 2
      ∧ acquirePending s1.world.trace = [] := by
  obtain ⟨f, sem, hf, hs⟩ := hslot
  obtain ⟨cb, rd, hc, hd⟩ := himage
  rw [render_succ, if_neg hsw]
  obtain ⟨w0, hw0, hw0t, hw0r⟩ : ∃ w0, w0 = w.after 0 [.enter .render] ∧ w0.tick = w.tick
      ∧ w0.trace = w.trace ++ [.enter .render] := ⟨_, rfl, rfl, rfl⟩
  rw [← hw0]
  have hidx : acquiredIndex env w0 = acquiredIndex env w := by simp [acquiredIndex, hw0t]
  rw [← hidx] at hc hd
  have hr0 : env.result w0.tick = VK_SUCCESS := hothers _ (by omega) (by omega)
  have hr1 : env.result (w0.tick + 1) = VK_SUCCESS := hothers _ (by omega) (by omega)
  have hne : VK_SUBOPTIMAL_KHR ≠ VK_SUCCESS := by decide
  rcases hj with hj | hj | hj
  · -- the acquire reports the status
    have h2 : env.result (w0.tick + 2) = VK_SUBOPTIMAL_KHR := by rw [hw0t, ← hj]; exact hsub
    obtain ⟨w3, hw3, hw3t, hw3r⟩ : ∃ w3,
        w3 = w0.after 3 [.vkWaitForFences f VK_SUCCESS, .vkResetFences f VK_SUCCESS,
          .vkAcquireNextImageKHR v.swapchain sem VK_SUBOPTIMAL_KHR (acquiredIndex env w0)]
        ∧ w3.tick = w0.tick + 3
        ∧ w3.trace = w0.trace ++ [.vkWaitForFences f VK_SUCCESS, .vkResetFences f VK_SUCCESS,
          .vkAcquireNextImageKHR v.swapchain sem VK_SUBOPTIMAL_KHR (acquiredIndex env w0)] :=
      ⟨_, rfl, rfl, rfl⟩
    have htry : renderTry ctx env ⟨v, w0⟩ = (true,
        .error (.vulkanResult .vkAcquireNextImageKHR VK_SUBOPTIMAL_KHR), ⟨v, w3⟩) := by
      rw [hw3, renderTry_acquireFailed ctx env v w0 hf hs hr0 hr1 (by rw [h2]; exact hne), h2]
    rw [htry]
    simp only
    rw [renderCatch_transient ctx env _ true .vkAcquireNextImageKHR (Or.inl rfl) v w3,
      if_pos ⟨rfl, rfl⟩, hs]
    have hr3 : env.result w3.tick = VK_SUCCESS := hothers _ (by omega) (by omega)
    simp only [if_pos hr3]
    obtain ⟨w4, hw4, hw4t, hw4r⟩ : ∃ w4,
        w4 = w3.after 1 [.enter .cleanupUnsafeSemaphore,
          .vkQueueSubmit ctx.graphicsQueue [sem] VK_PIPELINE_STAGE_BOTTOM_OF_PIPE_BIT [] []
            VK_NULL_HANDLE VK_SUCCESS]
        ∧ w4.tick = w3.tick + 1
        ∧ w4.trace = w3.trace ++ [.enter .cleanupUnsafeSemaphore,
          .vkQueueSubmit ctx.graphicsQueue [sem] VK_PIPELINE_STAGE_BOTTOM_OF_PIPE_BIT [] []
            VK_NULL_HANDLE VK_SUCCESS] := ⟨_, rfl, rfl, rfl⟩
    rw [← hw4]
    obtain ⟨s1, l, hrun, hnr, htr, hrec, hcnt, hpd⟩ := retry_completes ctx env fuel v w4
      (fun k hk => hothers k (by omega) (by omega)) hvalid hguards hindex
    refine ⟨s1, [.enter .render, .vkWaitForFences f VK_SUCCESS, .vkResetFences f VK_SUCCESS,
      .vkAcquireNextImageKHR v.swapchain sem VK_SUBOPTIMAL_KHR (acquiredIndex env w0),
      .enter .cleanupUnsafeSemaphore,
      .vkQueueSubmit ctx.graphicsQueue [sem] VK_PIPELINE_STAGE_BOTTOM_OF_PIPE_BIT [] []
        VK_NULL_HANDLE VK_SUCCESS] ++ l, hrun, hnr, ?_, ?_, ?_, ?_⟩
    · rw [htr, hw4r, hw3r, hw0r]; simp
    · have hrec1 : l.count (.enter .recreateSwapchain) = 1 := hrec
      rw [List.count_append, hrec1]; simp
    · rw [List.count_append, hcnt]; simp
    · rw [htr, hw4r, hw3r, hw0r]
      simp only [acquirePending_append, hpend, List.foldl_append]
      simpa [pendingStep, tookEffect] using hpd
  · -- the submit reports the status
    have h2 : env.result (w0.tick + 2) = VK_SUCCESS := hothers _ (by omega) (by omega)
    have h3 : env.result (w0.tick + 3) = VK_SUBOPTIMAL_KHR := by rw [hw0t, ← hj]; exact hsub
    obtain ⟨w4, hw4, hw4t, hw4r⟩ : ∃ w4,
        w4 = w0.after 4 [.vkWaitForFences f VK_SUCCESS, .vkResetFences f VK_SUCCESS,
          .vkAcquireNextImageKHR v.swapchain sem VK_SUCCESS (acquiredIndex env w0),
          .vkQueueSubmit ctx.graphicsQueue [sem] VK_PIPELINE_STAGE_COLOR_ATTACHMENT_OUTPUT_BIT
            [cb] [rd] f VK_SUBOPTIMAL_KHR]
        ∧ w4.tick = w0.tick + 4
        ∧ w4.trace = w0.trace ++ [.vkWaitForFences f VK_SUCCESS, .vkResetFences f VK_SUCCESS,
          .vkAcquireNextImageKHR v.swapchain sem VK_SUCCESS (acquiredIndex env w0),
          .vkQueueSubmit ctx.graphicsQueue [sem] VK_PIPELINE_STAGE_COLOR_ATTACHMENT_OUTPUT_BIT
            [cb] [rd] f VK_SUBOPTIMAL_KHR] := ⟨_, rfl, rfl, rfl⟩
    have htry : renderTry ctx env ⟨v, w0⟩ = (false,
        .error (.vulkanResult .vkQueueSubmit VK_SUBOPTIMAL_KHR), ⟨v, w4⟩) := by
      rw [hw4, renderTry_acquired ctx env v w0 hf hs hc hd hr0 hr1 h2,
        if_neg (by rw [h3]; exact hne), h3]
    rw [htry]
    simp only
    rw [renderCatch_transient ctx env _ false .vkQueueSubmit (Or.inl rfl) v w4,
      if_neg (by simp)]
    obtain ⟨s1, l, hrun, hnr, htr, hrec, hcnt, hpd⟩ := retry_completes ctx env fuel v w4
      (fun k hk => hothers k (by omega) (by omega)) hvalid hguards hindex
    refine ⟨s1, [.enter .render, .vkWaitForFences f VK_SUCCESS, .vkResetFences f VK_SUCCESS,
      .vkAcquireNextImageKHR v.swapchain sem VK_SUCCESS (acquiredIndex env w0),
      .vkQueueSubmit ctx.graphicsQueue [sem] VK_PIPELINE_STAGE_COLOR_ATTACHMENT_OUTPUT_BIT
        [cb] [rd] f VK_SUBOPTIMAL_KHR] ++ l, hrun, hnr, ?_, ?_, ?_, ?_⟩
    · rw [htr, hw4r, hw0r]; simp
    · have hrec1 : l.count (.enter .recreateSwapchain) = 1 := hrec
      rw [List.count_append, hrec1]; simp
    · rw [List.count_append, hcnt]; simp
    · rw [htr, hw4r, hw0r]
      simp only [acquirePending_append, hpend, List.foldl_append]
      simpa [pendingStep, tookEffect] using hpd
  · -- the present reports the status
    have h2 : env.result (w0.tick + 2) = VK_SUCCESS := hothers _ (by omega) (by omega)
    have h3 : env.result (w0.tick + 3) = VK_SUCCESS := hothers _ (by omega) (by omega)
    have h4 : env.result (w0.tick + 4) = VK_SUBOPTIMAL_KHR := by rw [hw0t, ← hj]; exact hsub
    obtain ⟨w5, hw5, hw5t, hw5r⟩ : ∃ w5,
        w5 = w0.after 5 [.vkWaitForFences f VK_SUCCESS, .vkResetFences f VK_SUCCESS,
          .vkAcquireNextImageKHR v.swapchain sem VK_SUCCESS (acquiredIndex env w0),
          .vkQueueSubmit ctx.graphicsQueue [sem] VK_PIPELINE_STAGE_COLOR_ATTACHMENT_OUTPUT_BIT
            [cb] [rd] f VK_SUCCESS,
          .vkQueuePresentKHR ctx.presentQueue rd v.swapchain (acquiredIndex env w0)
            VK_SUBOPTIMAL_KHR]
        ∧ w5.tick = w0.tick + 5
        ∧ w5.trace = w0.trace ++ [.vkWaitForFences f VK_SUCCESS, .vkResetFences f VK_SUCCESS,
          .vkAcquireNextImageKHR v.swapchain sem VK_SUCCESS (acquiredIndex env w0),
          .vkQueueSubmit ctx.graphicsQueue [sem] VK_PIPELINE_STAGE_COLOR_ATTACHMENT_OUTPUT_BIT
            [cb] [rd] f VK_SUCCESS,
          .vkQueuePresentKHR ctx.presentQueue rd v.swapchain (acquiredIndex env w0)
            VK_SUBOPTIMAL_KHR] := ⟨_, rfl, rfl, rfl⟩
    have htry : renderTry ctx env ⟨v, w0⟩ = (false,
        .error (.vulkanResult .vkQueuePresentKHR VK_SUBOPTIMAL_KHR), ⟨v, w5⟩) := by
      rw [hw5, renderTry_acquired ctx env v w0 hf hs hc hd hr0 hr1 h2, if_pos h3,
        if_neg (by rw [h4]; exact hne), h4]
    rw [htry]
    simp only
    rw [renderCatch_transient ctx env _ false .vkQueuePresentKHR (Or.inl rfl) v w5,
      if_neg (by simp)]
    obtain ⟨s1, l, hrun, hnr, htr, hrec, hcnt, hpd⟩ := retry_completes ctx env fuel v w5
      (fun k hk => hothers k (by omega) (by omega)) hvalid hguards hindex
    refine ⟨s1, [.enter .render, .vkWaitForFences f VK_SUCCESS, .vkResetFences f VK_SUCCESS,
      .vkAcquireNextImageKHR v.swapchain sem VK_SUCCESS (acquiredIndex env w0),
      .vkQueueSubmit ctx.graphicsQueue [sem] VK_PIPELINE_STAGE_COLOR_ATTACHMENT_OUTPUT_BIT
        [cb] [rd] f VK_SUCCESS,
      .vkQueuePresentKHR ctx.presentQueue rd v.swapchain (acquiredIndex env w0)
        VK_SUBOPTIMAL_KHR] ++ l, hrun, hnr, ?_, ?_, ?_, ?_⟩
    · rw [htr, hw5r, hw0r]; simp
    · have hrec1 : l.count (.enter .recreateSwapchain) = 1 := hrec
      rw [List.count_append, hrec1]; simp
    · rw [List.count_append, hcnt]; simp
    · rw [htr, hw5r, hw0r]
      simp only [acquirePending_append, hpend, List.foldl_append]
      simpa [pendingStep, tookEffect] using hpd

theorem render_recovers_from_suboptimal_witness :
    sampleLive.vars.swapchain ≠ VK_NULL_HANDLE
    ∧ 27 = sampleLive.world.tick + 2
    ∧ suboptimalAcquireEnv.result 27 = VK_SUBOPTIMAL_KHR
    ∧ acquirePending sampleLive.world.trace = []
    ∧ ∃ s1 l, render sampleCtx suboptimalAcquireEnv (0 + 2) ⟨sampleLive.vars, sampleLive.world⟩
        = (.ok (), s1)
      ∧ s1.vars.submissionNr = 1
      ∧ s1.world.trace = sampleLive.world.trace ++ l
      ∧ l.count (.enter .recreateSwapchain) = 1
      ∧ l.count (.enter .render) = 2
      ∧ acquirePending s1.world.trace = [] :=
  ⟨by decide!, by decide!, rfl, by decide!,
    render_recovers_from_suboptimal sampleCtx suboptimalAcquireEnv 0 sampleLive.vars
      sampleLive.world 27 (by decide!) (Or.inl (by decide!)) rfl
      (fun k _ hk => if_neg hk) ⟨20, 15, by decide!, by decide!⟩
      ⟨13, 18, by decide!, by decide!⟩ (fun _ => rfl)
      (fun _ _ => (by decide :
        createGuards sampleCtx suboptimalAcquireEnv (snapshotAt suboptimalAcquireEnv 0) 0))
      (fun _ _ => (by decide : toUInt32 1 < toUInt32 3)) (by decide!)⟩


/-- The value a returning `recreateSwapchain` returns is that of `swapchainCreatable` for
the snapshot it took, in whatever environment. -/
theorem recreateSwapchain_ok_value (ctx : Ctx) (env : Env) (s s1 : State) (b : Bool)
    (hret : recreateSwapchain ctx env s = (.ok b, s1)) : b = creatableAt env s.world.tick := by
  have h : env.SucceedsWithin s.world.tick s1.world.tick :=
    recreateSwapchain_checked ctx env s b s1 hret
  have hT : (recreateSwapchain ctx env s).2.world.tick ≤ s1.world.tick := by rw [hret]
  obtain ⟨h1, hrun⟩ := recreateSwapchain_within ctx env s s1.world.tick hT h
  rw [hret] at hrun
  rcases s with ⟨v, w⟩
  cases hc : creatableAt env w.tick with
  | false =>
    obtain ⟨w1, e⟩ := recreateSwapchain_degenerate ctx v h1 hc
    rw [hrun] at e
    simp only [Prod.mk.injEq, Except.ok.injEq] at e
    exact e.1
  | true =>
    by_cases hg : createGuards ctx env (snapshotAt env w.tick) (createTick v w)
    · obtain ⟨v1, w1, n, e, _⟩ := recreateSwapchain_live ctx v h1 hc hg
      rw [hrun] at e
      simp only [Prod.mk.injEq, Except.ok.injEq] at e
      exact e.1
    · obtain ⟨msg, e⟩ := recreateSwapchain_guard ctx v h1 hc hg
      rw [hrun] at e
      simp at e

/-- C19: for every capabilities snapshot and proposed size, `swapchainCreatable` is true
exactly when the width and the height lie within `minImageExtent` and `maxImageExtent` and
are positive; it is false for a zero width or height whatever `minImageExtent` is; and a
`recreateSwapchain` that returns returns this value for the snapshot after the sentinel
substitution, so it returns `false` for a zero width or height. -/
theorem swapchainCreatable_iff (ctx : Ctx) (env : Env) :
    (∀ (capabilities : VkSurfaceCapabilitiesKHR) (surfaceSize : VkExtent2D),
      (swapchainCreatable capabilities surfaceSize = true ↔
        capabilities.minImageExtent.width ≤ surfaceSize.width
        ∧ surfaceSize.width ≤ capabilities.maxImageExtent.width
        ∧ 0 < surfaceSize.width
        ∧ capabilities.minImageExtent.height ≤ surfaceSize.height
        ∧ surfaceSize.height ≤ capabilities.maxImageExtent.height
        ∧ 0 < surfaceSize.height)
      ∧ (surfaceSize.width = 0 ∨ surfaceSize.height = 0 →
          swapchainCreatable capabilities surfaceSize = false))
    ∧ (∀ (s s1 : State) (b : Bool), recreateSwapchain ctx env s = (.ok b, s1) →
      b = swapchainCreatable (substituteExtent (env.capabilities s.world.tick))
            (usedExtent (env.capabilities s.world.tick).currentExtent)
      ∧ ((usedExtent (env.capabilities s.world.tick).currentExtent).width = 0
          ∨ (usedExtent (env.capabilities s.world.tick).currentExtent).height = 0 →
          b = false)) := by
  have hiff : ∀ (capabilities : VkSurfaceCapabilitiesKHR) (surfaceSize : VkExtent2D),
      (swapchainCreatable capabilities surfaceSize = true ↔
        capabilities.minImageExtent.width ≤ surfaceSize.width
        ∧ surfaceSize.width ≤ capabilities.maxImageExtent.width
        ∧ 0 < surfaceSize.width
        ∧ capabilities.minImageExtent.height ≤ surfaceSize.height
        ∧ surfaceSize.height ≤ capabilities.maxImageExtent.height
        ∧ 0 < surfaceSize.height) := by
    intro capabilities surfaceSize
    simp [swapchainCreatable, and_assoc]
  have hzero : ∀ (capabilities : VkSurfaceCapabilitiesKHR) (surfaceSize : VkExtent2D),
      surfaceSize.width = 0 ∨ surfaceSize.height = 0 →
        swapchainCreatable capabilities surfaceSize = false := by
    intro capabilities surfaceSize h0
    cases hc : swapchainCreatable capabilities surfaceSize with
    | false => rfl
    | true =>
      have := (hiff capabilities surfaceSize).mp hc
      omega
  refine ⟨fun capabilities surfaceSize => ⟨hiff _ _, hzero _ _⟩, ?_⟩
  intro s s1 b hret
  have hb := recreateSwapchain_ok_value ctx env s s1 b hret
  have hval : creatableAt env s.world.tick
      = swapchainCreatable (substituteExtent (env.capabilities s.world.tick))
          (usedExtent (env.capabilities s.world.tick).currentExtent) := by
    unfold creatableAt snapshotAt substituteExtent usedExtent
    split <;> rfl
  rw [hval] at hb
  exact ⟨hb, fun h0 => by rw [hb]; exact hzero _ _ h0⟩

theorem swapchainCreatable_iff_witness :
    (recreateSwapchain sampleCtx minimizedEnv State.initial).1 = .ok false
    ∧ false = swapchainCreatable
          (substituteExtent (minimizedEnv.capabilities State.initial.world.tick))
          (usedExtent (minimizedEnv.capabilities State.initial.world.tick).currentExtent)
    ∧ ((usedExtent (minimizedEnv.capabilities State.initial.world.tick).currentExtent).width = 0
        ∨ (usedExtent
            (minimizedEnv.capabilities State.initial.world.tick).currentExtent).height = 0 →
        false = false) :=
  ⟨by decide!,
    (swapchainCreatable_iff sampleCtx minimizedEnv).2 State.initial
      (recreateSwapchain sampleCtx minimizedEnv State.initial).2 false (by decide!)⟩


/-- When `recreateSwapchain` followed by the frame again returns, `recreateSwapchain` has
returned and the frame started again from the state it left has returned. -/
theorem retry_ok (ctx : Ctx) (env : Env) (again : M Unit) (s s1 : State)
    (h : (recreateSwapchain ctx env >>= fun _ => again) s = (.ok (), s1)) :
    ∃ s2 l, again s2 = (.ok (), s1)
      ∧ s2.world.trace = s.world.trace ++ .enter .recreateSwapchain :: l := by
  obtain ⟨⟨l, hl, _⟩, _, _⟩ := recreateSwapchain_trace ctx env s
  rw [mBind_apply] at h
  rcases hr : recreateSwapchain ctx env s with ⟨r, s2⟩
  rw [hr] at hl h
  cases r with
  | error e => simp at h
  | ok b => exact ⟨s2, l, h, hl⟩

/-- A handler of `render` that returns has called `recreateSwapchain` and has then returned
from the frame it started again. -/
theorem renderCatch_ok (ctx : Ctx) (env : Env) (again : M Unit) (flag : Bool)
    (source : Api) (result : VkResult) (s s1 : State)
    (h : renderCatch ctx env again flag source result s = (.ok (), s1)) :
    ∃ s2 l, again s2 = (.ok (), s1) ∧ s2.world.trace = s.world.trace ++ l
      ∧ 0 < recreations l := by
  rcases s with ⟨v, w⟩
  by_cases hr : result = VK_SUBOPTIMAL_KHR ∨ result = VK_ERROR_OUT_OF_DATE_KHR
  · rw [renderCatch_transient ctx env again flag source hr] at h
    by_cases hc : flag = true ∧ result = VK_SUBOPTIMAL_KHR
    · rw [if_pos hc] at h
      cases hs : v.imageReadySs[v.submissionNr]? with
      | none => rw [hs] at h; simp at h
      | some sem =>
        rw [hs] at h
        by_cases h0 : env.result w.tick = VK_SUCCESS
        · simp only [if_pos h0] at h
          obtain ⟨s2, l, h2, hl⟩ := retry_ok ctx env again _ s1 h
          refine ⟨s2, [.enter .cleanupUnsafeSemaphore,
            .vkQueueSubmit ctx.graphicsQueue [sem] VK_PIPELINE_STAGE_BOTTOM_OF_PIPE_BIT [] []
              VK_NULL_HANDLE VK_SUCCESS] ++ .enter .recreateSwapchain :: l, h2, ?_, ?_⟩
          · rw [hl]
            simp only [World.after, List.append_assoc]
          · simp [recreations_append, recreations]
        · simp only [if_neg h0] at h
          simp at h
    · rw [if_neg hc] at h
      obtain ⟨s2, l, h2, hl⟩ := retry_ok ctx env again _ s1 h
      exact ⟨s2, .enter .recreateSwapchain :: l, h2, hl, by simp [recreations]⟩
  · rw [renderCatch_fatal ctx env again flag source hr] at h
    simp at h

/-- A handler of `render` that does not get as far as `recreateSwapchain` raises and leaves
the variables as they are. -/
theorem renderCatch_vars (ctx : Ctx) (env : Env) {again : M Unit}
    (hagain : ∀ s, ∃ l, (again s).2.world.trace = s.world.trace ++ l) (flag : Bool)
    (source : Api) (result : VkResult) (s : State)
    (hrec : recreations (renderCatch ctx env again flag source result s).2.world.trace
      ≤ recreations s.world.trace) :
    (renderCatch ctx env again flag source result s).2.vars = s.vars
    ∧ ∃ e, (renderCatch ctx env again flag source result s).1 = .error e := by
  rcases s with ⟨v, w⟩
  by_cases hr : result = VK_SUBOPTIMAL_KHR ∨ result = VK_ERROR_OUT_OF_DATE_KHR
  · rw [renderCatch_transient ctx env again flag source hr] at hrec ⊢
    by_cases hc : flag = true ∧ result = VK_SUBOPTIMAL_KHR
    · rw [if_pos hc] at hrec ⊢
      cases hs : v.imageReadySs[v.submissionNr]? with
      | none => exact ⟨rfl, _, rfl⟩
      | some sem =>
        rw [hs] at hrec
        by_cases h0 : env.result w.tick = VK_SUCCESS
        · simp only [if_pos h0] at hrec
          obtain ⟨l, hl⟩ := retry_trace ctx env hagain
            ⟨v, w.after 1 [.enter .cleanupUnsafeSemaphore,
              .vkQueueSubmit ctx.graphicsQueue [sem] VK_PIPELINE_STAGE_BOTTOM_OF_PIPE_BIT [] []
                VK_NULL_HANDLE VK_SUCCESS]⟩
          rw [hl] at hrec
          simp [World.after, recreations_append, recreations] at hrec
        · simp [h0]
    · rw [if_neg hc] at hrec
      obtain ⟨l, hl⟩ := retry_trace ctx env hagain ⟨v, w⟩
      rw [hl] at hrec
      simp [recreations_append, recreations] at hrec
  · rw [renderCatch_fatal ctx env again flag source hr]
    exact ⟨rfl, _, rfl⟩

/-- A call of `render` during which `recreateSwapchain` is not called either raises and
leaves the variables as they are, or has completed its first pass through the `try` block. -/
theorem render_single_pass (ctx : Ctx) (env : Env) (fuel : Nat) (v : Vars) (w : World)
    (hrec : recreations (render ctx env fuel ⟨v, w⟩).2.world.trace ≤ recreations w.trace) :
    ((∃ e, (render ctx env fuel ⟨v, w⟩).1 = .error e) ∧ (render ctx env fuel ⟨v, w⟩).2.vars = v)
    ∨ ((render ctx env fuel ⟨v, w⟩).1 = .ok ()
      ∧ Attempt ctx env v (w.after 0 [.enter .render]) false (.ok ())
          (render ctx env fuel ⟨v, w⟩).2) := by
  cases fuel with
  | zero => exact Or.inl ⟨⟨_, rfl⟩, rfl⟩
  | succ fuel =>
    rw [render_succ] at hrec ⊢
    by_cases hsw : v.swapchain = VK_NULL_HANDLE
    · rw [if_pos hsw]; exact Or.inl ⟨⟨_, rfl⟩, rfl⟩
    · rw [if_neg hsw] at hrec ⊢
      have hA := renderTry_attempt ctx env v (w.after 0 [.enter .render])
      rcases hr : renderTry ctx env ⟨v, w.after 0 [.enter .render]⟩ with ⟨flag, r, s2⟩
      rw [hr] at hA hrec
      cases r with
      | ok u =>
        right
        have hfl : flag = false := by cases hA; rfl
        subst hfl
        exact ⟨rfl, hA⟩
      | error e =>
        left
        have hv := hA.vars_eq
        obtain ⟨la, hla, hla0⟩ := hA.trace_eq
        cases e with
        | vulkanResult source result =>
          simp only at hrec ⊢
          have hrec2 : recreations (renderCatch ctx env (render ctx env fuel) flag source
              result s2).2.world.trace ≤ recreations s2.world.trace := by
            rw [hla]
            simp only [World.after, recreations_append] at hrec ⊢
            simp [recreations] at hrec ⊢
            omega
          obtain ⟨hvars, he⟩ := renderCatch_vars ctx env (render_trace ctx env fuel) flag
            source result s2 hrec2
          exact ⟨he, hvars.trans hv⟩
        | text msg => exact ⟨⟨_, rfl⟩, hv⟩
        | assertion => exact ⟨⟨_, rfl⟩, hv⟩
        | outOfRange => exact ⟨⟨_, rfl⟩, hv⟩
        | fuel => exact ⟨⟨_, rfl⟩, hv⟩

/-- C17: a call of `render()` during which `recreateSwapchain` is not entered (it returns
from its first pass through the `try` block, or ends with an exception before the retry
reaches `recreateSwapchain`) leaves `swapchain`, `swapchainImageViews`, `framebuffers`,
`pipeline`, `commandBuffers`, `imageReadySs`, `renderDoneSs` and `submissionFences` with the
same handles in the same order; `submissionNr` is advanced by one modulo
`maxInflightSubmissions` when the call returns and is unchanged when it raises. So every
change of a swapchain-scoped variable happens inside `recreateSwapchain`. -/
theorem render_changes_only_submissionNr (ctx : Ctx) (env : Env) (fuel : Nat) (s : State)
    (hrec : recreations (render ctx env fuel s).2.world.trace ≤ recreations s.world.trace) :
    (render ctx env fuel s).2.vars.swapchain = s.vars.swapchain
    ∧ (render ctx env fuel s).2.vars.swapchainImageViews = s.vars.swapchainImageViews
    ∧ (render ctx env fuel s).2.vars.framebuffers = s.vars.framebuffers
    ∧ (render ctx env fuel s).2.vars.pipeline = s.vars.pipeline
    ∧ (render ctx env fuel s).2.vars.commandBuffers = s.vars.commandBuffers
    ∧ (render ctx env fuel s).2.vars.imageReadySs = s.vars.imageReadySs
    ∧ (render ctx env fuel s).2.vars.renderDoneSs = s.vars.renderDoneSs
    ∧ (render ctx env fuel s).2.vars.submissionFences = s.vars.submissionFences
    ∧ ((render ctx env fuel s).1 = .ok () →
        (render ctx env fuel s).2.vars.submissionNr
          = toUInt32 (s.vars.submissionNr + 1) % maxInflightSubmissions)
    ∧ (∀ e, (render ctx env fuel s).1 = .error e →
        (render ctx env fuel s).2.vars.submissionNr = s.vars.submissionNr) := by
  rcases s with ⟨v, w⟩
  rcases render_single_pass ctx env fuel v w hrec with ⟨⟨e, he⟩, hv⟩ | ⟨hok, hA⟩
  · rw [hv]
    refine ⟨rfl, rfl, rfl, rfl, rfl, rfl, rfl, rfl, ?_, fun _ _ => rfl⟩
    intro hok
    rw [he] at hok
    simp at hok
  · have hv := hA.vars_ok
    rw [hv]
    refine ⟨rfl, rfl, rfl, rfl, rfl, rfl, rfl, rfl, fun _ => rfl, ?_⟩
    intro e he
    rw [hok] at he
    simp at he

theorem render_changes_only_submissionNr_witness :
    recreations (render sampleCtx sampleEnv 1 sampleLive).2.world.trace
      ≤ recreations sampleLive.world.trace
    ∧ (render sampleCtx sampleEnv 1 sampleLive).1 = .ok ()
    ∧ (render sampleCtx sampleEnv 1 sampleLive).2.vars.swapchain = sampleLive.vars.swapchain
    ∧ (render sampleCtx sampleEnv 1 sampleLive).2.vars.swapchainImageViews
        = sampleLive.vars.swapchainImageViews
    ∧ (render sampleCtx sampleEnv 1 sampleLive).2.vars.framebuffers
        = sampleLive.vars.framebuffers
    ∧ (render sampleCtx sampleEnv 1 sampleLive).2.vars.pipeline = sampleLive.vars.pipeline
    ∧ (render sampleCtx sampleEnv 1 sampleLive).2.vars.commandBuffers
        = sampleLive.vars.commandBuffers
    ∧ (render sampleCtx sampleEnv 1 sampleLive).2.vars.imageReadySs
        = sampleLive.vars.imageReadySs
    ∧ (render sampleCtx sampleEnv 1 sampleLive).2.vars.renderDoneSs
        = sampleLive.vars.renderDoneSs
    ∧ (render sampleCtx sampleEnv 1 sampleLive).2.vars.submissionFences
        = sampleLive.vars.submissionFences
    ∧ ((render sampleCtx sampleEnv 1 sampleLive).1 = .ok () →
        (render sampleCtx sampleEnv 1 sampleLive).2.vars.submissionNr
          = toUInt32 (sampleLive.vars.submissionNr + 1) % maxInflightSubmissions)
    ∧ (∀ e, (render sampleCtx sampleEnv 1 sampleLive).1 = .error e →
        (render sampleCtx sampleEnv 1 sampleLive).2.vars.submissionNr
          = sampleLive.vars.submissionNr) :=
  ⟨by decide!, by decide!,
    render_changes_only_submissionNr sampleCtx sampleEnv 1 sampleLive (by decide!)⟩

/-- The frame that completes a returning call of `render`: the variables `v0` and the
trace `front` at the entry of the pass through the `try` block that completed. -/
theorem render_ok_frame (ctx : Ctx) (env : Env) (fuel : Nat) :
    ∀ (s s1 : State), render ctx env fuel s = (.ok (), s1) →
      ∃ (v0 : Vars) (w0 : World), Attempt ctx env v0 w0 false (.ok ()) s1
        ∧ (∃ l, w0.trace = s.world.trace ++ l)
        ∧ (recreations s1.world.trace ≤ recreations s.world.trace →
            v0 = s.vars ∧ w0 = s.world.after 0 [.enter .render]) := by
  induction fuel with
  | zero => intro s s1 h; simp [render_zero] at h
  | succ fuel ih =>
    intro s s1 h
    rcases s with ⟨v, w⟩
    rw [render_succ] at h
    by_cases hsw : v.swapchain = VK_NULL_HANDLE
    · rw [if_pos hsw] at h; simp at h
    · rw [if_neg hsw] at h
      have hA := renderTry_attempt ctx env v (w.after 0 [.enter .render])
      rcases hr : renderTry ctx env ⟨v, w.after 0 [.enter .render]⟩ with ⟨flag, r, s2⟩
      rw [hr] at hA h
      cases r with
      | ok u =>
        simp only [Prod.mk.injEq, true_and] at h
        subst h
        have hfl : flag = false := by cases hA; rfl
        subst hfl
        exact ⟨v, w.after 0 [.enter .render], hA, ⟨_, rfl⟩, fun _ => ⟨rfl, rfl⟩⟩
      | error e =>
        obtain ⟨la, hla, hla0⟩ := hA.trace_eq
        cases e with
        | vulkanResult source result =>
          simp only at h
          obtain ⟨s3, lc, h3, hlc, hpos⟩ :=
            renderCatch_ok ctx env (render ctx env fuel) flag source result s2 s1 h
          obtain ⟨v0, w0, hA0, ⟨l0, hl0⟩, _⟩ := ih s3 s1 h3
          refine ⟨v0, w0, hA0, ⟨[.enter .render] ++ la ++ lc ++ l0, ?_⟩, ?_⟩
          · rw [hl0, hlc, hla]
            simp [World.after]
          · intro hle
            exfalso
            obtain ⟨l1, hl1, _⟩ := hA0.trace_eq
            rw [hl1, hl0, hlc, hla] at hle
            simp only [World.after, recreations_append] at hle
            omega
        | text msg => simp at h
        | assertion => simp at h
        | outOfRange => simp at h
        | fuel => simp at h

/-- C12: a call of `render()` that returns has completed one frame, with ring index
`nr` = `submissionNr` at the entry of the completing pass and acquired image index `i`:
the last five calls on the trace are the fence wait and reset of `submissionFences[nr]`,
the acquire on the current swapchain signalling `imageReadySs[nr]` and yielding `i`, one
queue submission on the graphics queue that executes `commandBuffers[i]`, waits on
`imageReadySs[nr]` at the stage COLOR_ATTACHMENT_OUTPUT, signals `renderDoneSs[i]` and
the fence `submissionFences[nr]`, and the present of image `i` of the current swapchain
waiting on `renderDoneSs[i]`. When `recreateSwapchain` was not called in between, `nr` is
the `submissionNr` the call was entered with, `i` is what the acquire of this call
yielded, and these calls are all the call added to the trace after its entry. -/
theorem render_frame_wiring (ctx : Ctx) (env : Env) (fuel : Nat) (s s1 : State)
    (h : render ctx env fuel s = (.ok (), s1)) :
    ∃ (nr i : Nat) (front : List Event) (f sem cb rd : Handle),
      s1.vars.submissionFences[nr]? = some f
      ∧ s1.vars.imageReadySs[nr]? = some sem
      ∧ s1.vars.commandBuffers[i]? = some cb
      ∧ s1.vars.renderDoneSs[i]? = some rd
      ∧ s1.vars.submissionNr = toUInt32 (nr + 1) % maxInflightSubmissions
      ∧ s1.world.trace = front ++ [.vkWaitForFences f VK_SUCCESS, .vkResetFences f VK_SUCCESS,
          .vkAcquireNextImageKHR s1.vars.swapchain sem VK_SUCCESS i,
          .vkQueueSubmit ctx.graphicsQueue [sem] VK_PIPELINE_STAGE_COLOR_ATTACHMENT_OUTPUT_BIT
            [cb] [rd] f VK_SUCCESS,
          .vkQueuePresentKHR ctx.presentQueue rd s1.vars.swapchain i VK_SUCCESS]
      ∧ (∃ l, front = s.world.trace ++ l)
      ∧ (recreations s1.world.trace ≤ recreations s.world.trace →
          nr = s.vars.submissionNr
          ∧ i = acquiredIndex env s.world
          ∧ front = s.world.trace ++ [.enter .render]
          ∧ s.vars.submissionFences[nr]? = some f
          ∧ s.vars.imageReadySs[nr]? = some sem
          ∧ s.vars.commandBuffers[i]? = some cb
          ∧ s.vars.renderDoneSs[i]? = some rd
          ∧ s1.vars.swapchain = s.vars.swapchain) := by
  obtain ⟨v0, w0, hA, ⟨l, hl⟩, hsame⟩ := render_ok_frame ctx env fuel s s1 h
  cases hA with
  | done f sem cb rd hf h0 h1 hs h2 hc hd h3 h4 =>
    refine ⟨v0.submissionNr, acquiredIndex env w0, w0.trace, f, sem, cb, rd, hf, hs, hc, hd,
      rfl, rfl, ⟨l, hl⟩, ?_⟩
    intro hle
    obtain ⟨hv, hw⟩ := hsame hle
    subst hv
    subst hw
    exact ⟨rfl, rfl, rfl, hf, hs, hc, hd, rfl⟩

theorem render_frame_wiring_witness :
    render sampleCtx sampleEnv 1 sampleLive
      = (.ok (), (render sampleCtx sampleEnv 1 sampleLive).2)
    ∧ ∃ (nr i : Nat) (front : List Event) (f sem cb rd : Handle),
      (render sampleCtx sampleEnv 1 sampleLive).2.vars.submissionFences[nr]? = some f
      ∧ (render sampleCtx sampleEnv 1 sampleLive).2.vars.imageReadySs[nr]? = some sem
      ∧ (render sampleCtx sampleEnv 1 sampleLive).2.vars.commandBuffers[i]? = some cb
      ∧ (render sampleCtx sampleEnv 1 sampleLive).2.vars.renderDoneSs[i]? = some rd
      ∧ (render sampleCtx sampleEnv 1 sampleLive).2.vars.submissionNr
          = toUInt32 (nr + 1) % maxInflightSubmissions
      ∧ (render sampleCtx sampleEnv 1 sampleLive).2.world.trace
          = front ++ [.vkWaitForFences f VK_SUCCESS, .vkResetFences f VK_SUCCESS,
            .vkAcquireNextImageKHR (render sampleCtx sampleEnv 1 sampleLive).2.vars.swapchain
              sem VK_SUCCESS i,
            .vkQueueSubmit sampleCtx.graphicsQueue [sem]
              VK_PIPELINE_STAGE_COLOR_ATTACHMENT_OUTPUT_BIT [cb] [rd] f VK_SUCCESS,
            .vkQueuePresentKHR sampleCtx.presentQueue rd
              (render sampleCtx sampleEnv 1 sampleLive).2.vars.swapchain i VK_SUCCESS]
      ∧ (∃ l, front = sampleLive.world.trace ++ l)
      ∧ (recreations (render sampleCtx sampleEnv 1 sampleLive).2.world.trace
            ≤ recreations sampleLive.world.trace →
          nr = sampleLive.vars.submissionNr
          ∧ i = acquiredIndex sampleEnv sampleLive.world
          ∧ front = sampleLive.world.trace ++ [.enter .render]
          ∧ sampleLive.vars.submissionFences[nr]? = some f
          ∧ sampleLive.vars.imageReadySs[nr]? = some sem
          ∧ sampleLive.vars.commandBuffers[i]? = some cb
          ∧ sampleLive.vars.renderDoneSs[i]? = some rd
          ∧ (render sampleCtx sampleEnv 1 sampleLive).2.vars.swapchain
              = sampleLive.vars.swapchain) :=
  ⟨by decide!,
    render_frame_wiring sampleCtx sampleEnv 1 sampleLive
      (render sampleCtx sampleEnv 1 sampleLive).2 (by decide!)⟩


/-- C16: when the surface is degenerate at both queries (and the API calls made inside the
two calls succeed), two calls of `recreateSwapchain` in a row both return `false`, the
second leaves every program variable as the first left it, and the second adds to the
trace its entry and the capabilities query only: no create call, no destroy call and no
`vkDeviceWaitIdle`, and it hands out no handle. -/
theorem recreateSwapchain_idempotent_when_degenerate (ctx : Ctx) (env : Env) (s : State)
    (h1 : env.SucceedsWithin s.world.tick (recreateSwapchain ctx env s).2.world.tick)
    (hc1 : creatableAt env s.world.tick = false)
    (h2 : env.SucceedsWithin (recreateSwapchain ctx env s).2.world.tick
      (recreateSwapchain ctx env (recreateSwapchain ctx env s).2).2.world.tick)
    (hc2 : creatableAt env (recreateSwapchain ctx env s).2.world.tick = false) :
    ∃ s1 s2, recreateSwapchain ctx env s = (.ok false, s1)
      ∧ recreateSwapchain ctx env s1 = (.ok false, s2)
      ∧ s2.vars = s1.vars
      ∧ s2.world.trace = s1.world.trace ++ [.enter .recreateSwapchain,
          .vkGetPhysicalDeviceSurfaceCapabilitiesKHR VK_SUCCESS (env.capabilities s1.world.tick)]
      ∧ s2.world.nextHandle = s1.world.nextHandle := by
  obtain ⟨hs1, hrun1⟩ := recreateSwapchain_within ctx env s _ (Nat.le_refl _) h1
  rcases s with ⟨v, w⟩
  obtain ⟨w1, e1⟩ := recreateSwapchain_degenerate ctx v hs1 hc1
  rw [hrun1] at e1
  rw [e1] at h2 hc2
  obtain ⟨hs2, hrun2⟩ :=
    recreateSwapchain_within ctx env ⟨v.afterDegenerate, w1⟩ _ (Nat.le_refl _) h2
  have hold : v.afterDegenerate.swapchain = VK_NULL_HANDLE := by
    unfold Vars.afterDegenerate
    split <;> rfl
  have e2 := recreateSwapchain_degenerate_fresh ctx v.afterDegenerate hs2 hc2 hold
  rw [hrun2] at e2
  have hvars : ({ v.afterDegenerate with swapchain := VK_NULL_HANDLE, imageReadySs := [] } : Vars)
      = v.afterDegenerate := by
    unfold Vars.afterDegenerate
    split <;> rfl
  refine ⟨_, _, e1, e2, hvars, ?_, rfl⟩
  simp only [World.after]

theorem recreateSwapchain_idempotent_when_degenerate_witness :
    minimizedLaterEnv.SucceedsWithin liveBeforeMinimize.world.tick
        (recreateSwapchain sampleCtx minimizedLaterEnv liveBeforeMinimize).2.world.tick
    ∧ creatableAt minimizedLaterEnv liveBeforeMinimize.world.tick = false
    ∧ ∃ s1 s2, recreateSwapchain sampleCtx minimizedLaterEnv liveBeforeMinimize = (.ok false, s1)
      ∧ recreateSwapchain sampleCtx minimizedLaterEnv s1 = (.ok false, s2)
      ∧ s2.vars = s1.vars
      ∧ s2.world.trace = s1.world.trace ++ [.enter .recreateSwapchain,
          .vkGetPhysicalDeviceSurfaceCapabilitiesKHR VK_SUCCESS
            (minimizedLaterEnv.capabilities s1.world.tick)]
      ∧ s2.world.nextHandle = s1.world.nextHandle :=
  ⟨fun _ _ _ => rfl, by decide!,
    recreateSwapchain_idempotent_when_degenerate sampleCtx minimizedLaterEnv liveBeforeMinimize
      (fun _ _ _ => rfl) (by decide!) (fun _ _ _ => rfl) (by decide!)⟩

/-- C15: when two consecutive calls of `recreateSwapchain` both return `true` and the
driver reports the same number of images for the two swapchains (the command-buffer vector
having a size `uint32_t` can hold), the numbers of image views, framebuffers, command
buffers and render-done semaphores, the sizes of the two rings and `submissionNr` are the
same after the second call as after the first. -/
theorem recreateSwapchain_twice_same_counts (ctx : Ctx) (env : Env) (s s1 s2 : State)
    (hb : s.vars.commandBuffers.length < 2 ^ 32)
    (hret1 : recreateSwapchain ctx env s = (.ok true, s1))
    (hret2 : recreateSwapchain ctx env s1 = (.ok true, s2))
    (hcount : env.imageCount (createTick s1.vars s1.world + 2)
      = env.imageCount (createTick s.vars s.world + 2)) :
    s2.vars.swapchainImageViews.length = s1.vars.swapchainImageViews.length
    ∧ s2.vars.framebuffers.length = s1.vars.framebuffers.length
    ∧ s2.vars.commandBuffers.length = s1.vars.commandBuffers.length
    ∧ s2.vars.renderDoneSs.length = s1.vars.renderDoneSs.length
    ∧ s2.vars.imageReadySs.length = s1.vars.imageReadySs.length
    ∧ s2.vars.submissionFences.length = s1.vars.submissionFences.length
    ∧ s2.vars.submissionNr = s1.vars.submissionNr := by
  obtain ⟨n1, c1⟩ := recreateSwapchain_created ctx env s s1 hret1
  obtain ⟨n2, c2⟩ := recreateSwapchain_created ctx env s1 s2 hret2
  have hn : n2 = n1 := by rw [c2.count_eq, c1.count_eq, hcount]
  have hcb1 := c1.commandBuffers hb
  have hb1 : s1.vars.commandBuffers.length < 2 ^ 32 := by
    rw [hcb1, c1.count_eq]; exact toUInt32_lt _
  have hcb2 := c2.commandBuffers hb1
  refine ⟨?_, ?_, ?_, ?_, ?_, ?_, ?_⟩
  · rw [c2.imageViews, c1.imageViews, hn]
  · rw [c2.framebuffers, c1.framebuffers, hn]
  · rw [hcb2, hcb1, hn]
  · rw [c2.renderDoneSs, c1.renderDoneSs, hn]
  · rw [c2.imageReadySs, c1.imageReadySs]
  · rw [c2.submissionFences, c1.submissionFences]
  · rw [c2.submissionNr, c1.submissionNr]

theorem recreateSwapchain_twice_same_counts_witness :
    State.initial.vars.commandBuffers.length < 2 ^ 32
    ∧ recreateSwapchain sampleCtx sampleEnv State.initial = (.ok true, sampleLive)
    ∧ recreateSwapchain sampleCtx sampleEnv sampleLive
        = (.ok true, (recreateSwapchain sampleCtx sampleEnv sampleLive).2)
    ∧ (recreateSwapchain sampleCtx sampleEnv sampleLive).2.vars.swapchainImageViews.length
        = sampleLive.vars.swapchainImageViews.length
    ∧ (recreateSwapchain sampleCtx sampleEnv sampleLive).2.vars.framebuffers.length
        = sampleLive.vars.framebuffers.length
    ∧ (recreateSwapchain sampleCtx sampleEnv sampleLive).2.vars.commandBuffers.length
        = sampleLive.vars.commandBuffers.length
    ∧ (recreateSwapchain sampleCtx sampleEnv sampleLive).2.vars.renderDoneSs.length
        = sampleLive.vars.renderDoneSs.length
    ∧ (recreateSwapchain sampleCtx sampleEnv sampleLive).2.vars.imageReadySs.length
        = sampleLive.vars.imageReadySs.length
    ∧ (recreateSwapchain sampleCtx sampleEnv sampleLive).2.vars.submissionFences.length
        = sampleLive.vars.submissionFences.length
    ∧ (recreateSwapchain sampleCtx sampleEnv sampleLive).2.vars.submissionNr
        = sampleLive.vars.submissionNr :=
  ⟨by decide!, by decide!, by decide!,
    recreateSwapchain_twice_same_counts sampleCtx sampleEnv State.initial sampleLive
      (recreateSwapchain sampleCtx sampleEnv sampleLive).2 (by decide!) (by decide!)
      (by decide!) rfl⟩


/-! ### What the calls of `createNew` are -/

section EmitsClosure
variable {α β : Type} {P : Event → Bool}

theorem W.Emits.pureE (a : α) : W.Emits P (pure a : W α) := by
  intro w; exact ⟨Nat.le_refl _, [], by simp, by simp⟩

theorem W.Emits.bindE {m : W α} {f : α → W β} (hm : W.Emits P m)
    (hf : ∀ a, W.Emits P (f a)) : W.Emits P (m >>= f) := by
  intro w
  rw [wBind_apply]
  have h := hm w
  rcases hmw : m w with ⟨r, w1⟩
  rw [hmw] at h
  cases r with
  | error e => exact h
  | ok a =>
    obtain ⟨hn, l, hl, hp⟩ := h
    obtain ⟨hn2, l2, hl2, hp2⟩ := hf a w1
    refine ⟨Nat.le_trans hn hn2, l ++ l2, ?_, ?_⟩
    · simp only at hl ⊢; rw [hl2, hl, List.append_assoc]
    · intro e he
      rcases List.mem_append.mp he with h1 | h1
      · exact hp e h1
      · exact hp2 e h1

theorem W.Emits.raiseE (e : Exn) : W.Emits P (W.raise e : W α) := by
  intro w; exact ⟨Nat.le_refl _, [], by simp, by simp⟩

theorem W.Emits.emitE {e : Event} (h : P e = true) : W.Emits P (emit e) := by
  intro w; exact ⟨Nat.le_refl _, [e], rfl, by simpa using h⟩

theorem W.Emits.reportE (env : Env) {mk : VkResult → Event} (h : ∀ r, P (mk r) = true) :
    W.Emits P (report env mk) := by
  intro w; exact ⟨Nat.le_refl _, [mk (env.result w.tick)], rfl, by simpa using h _⟩

theorem W.Emits.createE (env : Env) {mk : VkResult → Handle → Event}
    (h : ∀ r x, P (mk r x) = true) : W.Emits P (create env mk) := by
  intro w
  exact ⟨Nat.le_succ _, [mk (env.result w.tick) (w.nextHandle + 1)], rfl, by simpa using h _ _⟩

theorem W.Emits.handlerE (errorCode : VkResult) (source : Api) :
    W.Emits P (RESULT_HANDLER errorCode source) := by
  unfold RESULT_HANDLER
  split
  · exact W.Emits.raiseE _
  · exact W.Emits.pureE _

theorem W.Emits.iteE {c : Prop} [Decidable c] {m1 m2 : W α} (h1 : W.Emits P m1)
    (h2 : W.Emits P m2) : W.Emits P (if c then m1 else m2) := by
  split <;> assumption

theorem W.Emits.tickE : W.Emits P getTick := by
  intro w; exact ⟨Nat.le_refl _, [], by simp [getTick], by simp⟩

theorem W.Emits.allocateE (n : Nat) : W.Emits P (allocate n) := by
  intro w; exact ⟨by simp [allocate], [], by simp [allocate], by simp⟩

theorem W.Emits.selectedE (mode : Int) : W.Emits P (setSelectedMode mode) := by
  intro w; exact ⟨Nat.le_refl _, [], by simp [setSelectedMode], by simp⟩

theorem W.Emits.weakenE {Q : Event → Bool} {m : W α} (h : ∀ e, P e = true → Q e = true)
    (hm : W.Emits P m) : W.Emits Q m := by
  intro w
  obtain ⟨hn, l, hl, hp⟩ := hm w
  exact ⟨hn, l, hl, fun e he => h e (hp e he)⟩

theorem M.Emits.pureM (a : α) : M.Emits P (pure a : M α) := by
  intro s; exact ⟨Nat.le_refl _, [], by simp, by simp⟩

theorem M.Emits.bindEM {m : M α} {f : α → M β} (hm : M.Emits P m)
    (hf : ∀ a, M.Emits P (f a)) : M.Emits P (m >>= f) := by
  intro s
  rw [mBind_apply]
  have h := hm s
  rcases hms : m s with ⟨r, s1⟩
  rw [hms] at h
  cases r with
  | error e => exact h
  | ok a =>
    obtain ⟨hn, l, hl, hp⟩ := h
    obtain ⟨hn2, l2, hl2, hp2⟩ := hf a s1
    refine ⟨Nat.le_trans hn hn2, l ++ l2, ?_, ?_⟩
    · simp only at hl ⊢; rw [hl2, hl, List.append_assoc]
    · intro e he
      rcases List.mem_append.mp he with h1 | h1
      · exact hp e h1
      · exact hp2 e h1

theorem M.Emits.liftE {m : W α} (hm : W.Emits P m) : M.Emits P (liftW m) := by
  intro s; simpa using hm s.world

theorem M.Emits.getE : M.Emits P getVars := by
  intro s; exact ⟨Nat.le_refl _, [], by simp, by simp⟩

theorem M.Emits.modifyE (f : Vars → Vars) : M.Emits P (modifyVars f) := by
  intro s; exact ⟨Nat.le_refl _, [], by simp, by simp⟩

theorem M.Emits.indexE (xs : List Handle) (i : Nat) : M.Emits P (index xs i) := by
  intro s
  unfold index
  cases xs[i]? with
  | some x => exact M.Emits.pureM x s
  | none => exact ⟨Nat.le_refl _, [], by simp, by simp⟩

theorem M.Emits.iteEM {c : Prop} [Decidable c] {m1 m2 : M α} (h1 : M.Emits P m1)
    (h2 : M.Emits P m2) : M.Emits P (if c then m1 else m2) := by
  split <;> assumption

theorem M.Emits.weakenEM {Q : Event → Bool} {m : M α} (h : ∀ e, P e = true → Q e = true)
    (hm : M.Emits P m) : M.Emits Q m := by
  intro s
  obtain ⟨hn, l, hl, hp⟩ := hm s
  exact ⟨hn, l, hl, fun e he => h e (hp e he)⟩

end EmitsClosure

theorem Event.fromCreate_of_fromSetup {capabilities : VkSurfaceCapabilitiesKHR}
    {surfaceSize : VkExtent2D} {oldSwapchain : Handle} (e : Event)
    (h : Event.fromSetup capabilities surfaceSize oldSwapchain e = true) :
    Event.fromCreate capabilities surfaceSize oldSwapchain e = true := by
  cases e <;> first | exact h | simp [Event.fromSetup] at h

theorem getSurfacePresentMode_emits (env : Env) {P : Event → Bool}
    (h : ∀ r modes, P (.vkGetPhysicalDeviceSurfacePresentModesKHR r modes) = true) :
    W.Emits P (getSurfacePresentMode env) := by
  unfold getSurfacePresentMode enumeratePresentModes
  refine .bindE (.bindE .tickE fun _ => .bindE (.reportE env (fun _ => h _ _)) fun _ =>
    .bindE (.handlerE _ _) fun _ => .pureE _) fun modes => ?_
  split
  · exact .bindE (.selectedE _) fun _ => .pureE _
  · split
    · exact .bindE (.selectedE _) fun _ => .pureE _
    · split
      · exact .raiseE _
      · exact .bindE (.selectedE _) fun _ => .pureE _

theorem initSwapchain_emits (ctx : Ctx) (env : Env) (capabilities : VkSurfaceCapabilitiesKHR)
    (surfaceSize : VkExtent2D) (oldSwapchain : Handle) :
    W.Emits (Event.fromSetup capabilities surfaceSize oldSwapchain)
      (initSwapchain ctx env capabilities oldSwapchain) := by
  unfold initSwapchain
  split
  · exact .raiseE _
  · exact .bindE (getSurfacePresentMode_emits env (fun _ _ => rfl)) fun _ =>
      .bindE (.createE env (fun _ _ => by simp [Event.fromSetup])) fun _ =>
        .bindE (.handlerE _ _) fun _ => .pureE _

theorem enumerateSwapchainImages_emits (env : Env) (swapchain : Handle) {P : Event → Bool}
    (h : ∀ sc r images, P (.vkGetSwapchainImagesKHR sc r images) = true) :
    W.Emits P (enumerateSwapchainImages env swapchain) :=
  .bindE .tickE fun _ => .bindE (.allocateE _) fun _ => .bindE (.reportE env (fun _ => h _ _ _))
    fun _ => .bindE (.handlerE _ _) fun _ => .pureE _

theorem initSwapchainImageViewsLoop_emits (env : Env) (format : Nat) {P : Event → Bool}
    (h : ∀ image fmt r x, P (.vkCreateImageView image fmt r x) = true) (images : List Handle)
    (acc : List Handle) : W.Emits P (initSwapchainImageViewsLoop env format images acc) := by
  induction images generalizing acc with
  | nil => exact .pureE _
  | cons x xs ih =>
    exact .bindE (.bindE (.createE env (fun _ _ => h _ _ _ _)) fun _ =>
      .bindE (.handlerE _ _) fun _ => .pureE _) fun _ => ih _

theorem initFramebuffersLoop_emits (env : Env) (renderPass : Handle) (width height : Nat)
    {P : Event → Bool}
    (h : ∀ view r x, P (.vkCreateFramebuffer renderPass view width height r x) = true)
    (imageViews : List Handle) (acc : List Handle) :
    W.Emits P (initFramebuffersLoop env renderPass width height imageViews acc) := by
  induction imageViews generalizing acc with
  | nil => exact .pureE _
  | cons x xs ih =>
    exact .bindE (.createE env (fun _ _ => h _ _ _)) fun _ =>
      .bindE (.handlerE _ _) fun _ => ih _

theorem initPipeline_emits (ctx : Ctx) (env : Env) (binding width height : Nat)
    {P : Event → Bool}
    (h : ∀ r x, P (.vkCreateGraphicsPipelines
      { width := toFloat (if width ≠ 0 then width else 1),
        height := toFloat (if height ≠ 0 then height else 1) }
      { width := width, height := height } r x) = true) :
    W.Emits P (initPipeline ctx env binding width height) := by
  unfold initPipeline
  refine .bindE (.iteE (.raiseE _) (.pureE _)) fun _ => ?_
  refine .bindE (.iteE (.raiseE _) (.pureE _)) fun _ => ?_
  refine .bindE (.iteE (.raiseE _) (.pureE _)) fun _ => ?_
  refine .bindE (.iteE (.raiseE _) (.pureE _)) fun _ => ?_
  refine .bindE (.iteE (.raiseE _) (.pureE _)) fun _ => ?_
  exact .bindE (.createE env (fun _ _ => h _ _)) fun _ => .bindE (.handlerE _ _) fun _ => .pureE _

theorem initSemaphoresLoop_emits (env : Env) {P : Event → Bool}
    (h : ∀ r x, P (.vkCreateSemaphore r x) = true) (count : Nat) (acc : List Handle) :
    W.Emits P (initSemaphoresLoop env count acc) := by
  induction count generalizing acc with
  | zero => exact .pureE _
  | succ n ih =>
    exact .bindE (.bindE (.createE env (fun _ _ => h _ _)) fun _ =>
      .bindE (.handlerE _ _) fun _ => .pureE _) fun _ => ih _

theorem initFencesLoop_emits (env : Env) (flags : Nat) {P : Event → Bool}
    (h : ∀ r x, P (.vkCreateFence flags r x) = true) (count : Nat) (acc : List Handle) :
    W.Emits P (initFencesLoop env flags count acc) := by
  induction count generalizing acc with
  | zero => exact .pureE _
  | succ n ih =>
    exact .bindE (.bindE (.createE env (fun _ _ => h _ _)) fun _ =>
      .bindE (.handlerE _ _) fun _ => .pureE _) fun _ => ih _

theorem acquireCommandBuffers_emits (ctx : Ctx) (env : Env) (count : Nat) {P : Event → Bool}
    (h1 : ∀ pool n r cbs, P (.vkAllocateCommandBuffers pool n r cbs) = true)
    (h2 : ∀ pool cbs, P (.vkFreeCommandBuffers pool cbs) = true) :
    M.Emits P (acquireCommandBuffers ctx env count) := by
  unfold acquireCommandBuffers
  refine .bindEM .getE fun _ => ?_
  refine .bindEM (.iteEM ?_ (.pureM _)) fun _ => .iteEM ?_ (.pureM _)
  · exact .bindEM (.modifyE _) fun _ =>
      .bindEM (.liftE (.bindE (.allocateE _) fun _ =>
        .bindE (.reportE env (fun _ => h1 _ _ _ _)) fun _ => .pureE _)) fun _ =>
        .bindEM (.modifyE _) fun _ => .liftE (.handlerE _ _)
  · exact .bindEM .getE fun _ => .bindEM (.liftE (.emitE (h2 _ _))) fun _ => .modifyE _

theorem recordCommandBuffer_emits (ctx : Ctx) (env : Env) (surfaceSize : VkExtent2D)
    (capabilities : VkSurfaceCapabilitiesKHR) (oldSwapchain : Handle) (i : Nat) :
    M.Emits (Event.fromSetup capabilities surfaceSize oldSwapchain)
      (recordCommandBuffer ctx env surfaceSize i) := by
  unfold recordCommandBuffer beginCommandBuffer endCommandBuffer recordBeginRenderPass
    recordBindPipeline recordBindVertexBuffer recordDraw recordEndRenderPass
  refine .bindEM .getE fun _ => .bindEM (.indexE _ _) fun _ =>
    .bindEM (.liftE (.bindE (.reportE env (fun _ => rfl)) fun _ => .handlerE _ _)) fun _ => ?_
  refine .bindEM .getE fun _ => .bindEM (.indexE _ _) fun _ =>
    .bindEM .getE fun _ => .bindEM (.indexE _ _) fun _ =>
      .bindEM (.liftE (.emitE (by simp [Event.fromSetup]))) fun _ => ?_
  refine .bindEM .getE fun _ => .bindEM (.indexE _ _) fun _ =>
    .bindEM .getE fun _ => .bindEM (.liftE (.emitE rfl)) fun _ => ?_
  refine .bindEM .getE fun _ => .bindEM (.indexE _ _) fun _ =>
    .bindEM (.liftE (.emitE rfl)) fun _ => ?_
  refine .bindEM .getE fun _ => .bindEM (.indexE _ _) fun _ =>
    .bindEM (.liftE (.emitE rfl)) fun _ => ?_
  refine .bindEM .getE fun _ => .bindEM (.indexE _ _) fun _ =>
    .bindEM (.liftE (.emitE rfl)) fun _ => ?_
  refine .bindEM .getE fun _ => .bindEM (.indexE _ _) fun _ =>
    .bindEM (.liftE (.emitE rfl)) fun _ => ?_
  exact .bindEM .getE fun _ => .bindEM (.indexE _ _) fun _ =>
    .liftE (.bindE (.reportE env (fun _ => rfl)) fun _ => .handlerE _ _)

theorem recordCommandBuffers_emits (ctx : Ctx) (env : Env) (surfaceSize : VkExtent2D)
    (capabilities : VkSurfaceCapabilitiesKHR) (oldSwapchain : Handle) (remaining i : Nat) :
    M.Emits (Event.fromSetup capabilities surfaceSize oldSwapchain)
      (recordCommandBuffers ctx env surfaceSize remaining i) := by
  induction remaining generalizing i with
  | zero => exact .pureM _
  | succ n ih =>
    exact .bindEM (recordCommandBuffer_emits ctx env surfaceSize capabilities oldSwapchain i)
      fun _ => ih _

/-- Every call `createNew` makes is one of `Event.fromCreate`, whether it returns or not. -/
theorem createNew_emits (ctx : Ctx) (env : Env) (capabilities : VkSurfaceCapabilitiesKHR)
    (surfaceSize : VkExtent2D) (oldSwapchain : Handle) :
    M.Emits (Event.fromCreate capabilities surfaceSize oldSwapchain)
      (createNew ctx env capabilities surfaceSize oldSwapchain) := by
  have up : ∀ {α : Type} {m : M α},
      M.Emits (Event.fromSetup capabilities surfaceSize oldSwapchain) m →
      M.Emits (Event.fromCreate capabilities surfaceSize oldSwapchain) m :=
    fun hm => M.Emits.weakenEM Event.fromCreate_of_fromSetup hm
  unfold createNew
  refine .bindEM (up (.liftE (initSwapchain_emits ctx env _ surfaceSize _))) fun _ =>
    .bindEM (.modifyE _) fun _ => ?_
  refine .bindEM .getE fun _ =>
    .bindEM (.liftE (enumerateSwapchainImages_emits env _ (fun _ _ _ => rfl))) fun _ => ?_
  refine .bindEM (.liftE (initSwapchainImageViewsLoop_emits env _ (fun _ _ _ _ => rfl) _ _))
    fun _ => .bindEM (.modifyE _) fun _ => ?_
  refine .bindEM .getE fun _ =>
    .bindEM (.liftE (initFramebuffersLoop_emits env _ _ _
      (fun _ _ _ => by simp [Event.fromCreate, Event.fromSetup]) _ _)) fun _ =>
    .bindEM (.modifyE _) fun _ => ?_
  refine .bindEM (.liftE (initPipeline_emits ctx env _ _ _
      (fun _ _ => by simp [Event.fromCreate, Event.fromSetup]))) fun _ =>
    .bindEM (.modifyE _) fun _ => ?_
  refine .bindEM (acquireCommandBuffers_emits ctx env _ (fun _ _ _ _ => rfl) (fun _ _ => rfl))
    fun _ => ?_
  refine .bindEM (up (recordCommandBuffers_emits ctx env surfaceSize capabilities oldSwapchain
    _ _)) fun _ => ?_
  refine .bindEM (.liftE (initSemaphoresLoop_emits env (fun _ _ => rfl) _ _)) fun _ =>
    .bindEM (.modifyE _) fun _ => ?_
  refine .bindEM (.liftE (initSemaphoresLoop_emits env (fun _ _ => rfl) _ _)) fun _ =>
    .bindEM (.modifyE _) fun _ => ?_
  refine .bindEM (.liftE (initFencesLoop_emits env _ (fun _ _ => by simp [Event.fromCreate])
    _ _)) fun _ => .bindEM (.modifyE _) fun _ => ?_
  exact .modifyE _


/-! ### The stages of `recreateSwapchain` -/

theorem getSurfaceCapabilities_fail {env : Env} {w : World} (h : env.result w.tick ≠ VK_SUCCESS) :
    getSurfaceCapabilities env w
      = (.error (.vulkanResult .vkGetPhysicalDeviceSurfaceCapabilitiesKHR (env.result w.tick)),
        { w with tick := w.tick + 1,
                 trace := w.trace ++ [.vkGetPhysicalDeviceSurfaceCapabilitiesKHR
                   (env.result w.tick) (env.capabilities w.tick)] }) := by
  simp [getSurfaceCapabilities, wBind_apply, getTick, RESULT_HANDLER_failure h]

/-- The first `if( oldSwapchain )` block when `vkDeviceWaitIdle` fails. -/
theorem cleanupOld_waitFailed {ctx : Ctx} {env : Env} {s : State}
    (h : env.result s.world.tick ≠ VK_SUCCESS) :
    cleanupOld ctx env s = (.error (.vulkanResult .vkDeviceWaitIdle (env.result s.world.tick)),
      { vars := s.vars,
        world := { s.world with tick := s.world.tick + 1,
                                trace := s.world.trace
                                  ++ [.vkDeviceWaitIdle (env.result s.world.tick)] } }) := by
  simp [cleanupOld, mBind_apply, RESULT_HANDLER_failure h]

/-- The first `if( oldSwapchain )` block when `vkResetCommandPool` fails. -/
theorem cleanupOld_resetFailed {ctx : Ctx} {env : Env} {s : State}
    (h0 : env.result s.world.tick = VK_SUCCESS)
    (h1 : env.result (s.world.tick + 1) ≠ VK_SUCCESS) :
    cleanupOld ctx env s
      = (.error (.vulkanResult .vkResetCommandPool (env.result (s.world.tick + 1))),
      { vars := { s.vars with submissionFences := [], renderDoneSs := [] },
        world := { s.world with tick := s.world.tick + 2,
                                trace := s.world.trace ++ ([.vkDeviceWaitIdle VK_SUCCESS]
                                  ++ s.vars.submissionFences.map .vkDestroyFence
                                  ++ s.vars.renderDoneSs.map .vkDestroySemaphore
                                  ++ [.vkResetCommandPool ctx.commandPool
                                    (env.result (s.world.tick + 1))]) } }) := by
  simp [cleanupOld, mBind_apply, killFences_apply, killSemaphores_apply, h0,
    RESULT_HANDLER_failure h1]

/-- The first `if( oldSwapchain )` block when its two value-returning calls succeed. -/
theorem cleanupOld_done {ctx : Ctx} {env : Env} {s : State}
    (h0 : env.result s.world.tick = VK_SUCCESS)
    (h1 : env.result (s.world.tick + 1) = VK_SUCCESS) :
    cleanupOld ctx env s = (.ok (),
      { vars := s.vars.afterCleanup,
        world := { s.world with tick := s.world.tick + 2,
                                trace := s.world.trace ++ cleanupTrace ctx s.vars } }) := by
  simp [cleanupOld, mBind_apply, killFences_apply, killSemaphores_apply, killFramebuffers_apply,
    killSwapchainImageViews_apply, killPipeline, h0, h1, Vars.afterCleanup, cleanupTrace]

/-- The stages of `recreateSwapchain` after a successful capabilities query. -/
theorem recreateSwapchain_stages (ctx : Ctx) (env : Env) (v : Vars) (w : World)
    (h0 : env.result w.tick = VK_SUCCESS) :
    recreateSwapchain ctx env ⟨v, w⟩ =
      match (if v.swapchain ≠ VK_NULL_HANDLE then cleanupOld ctx env else pure ())
          ⟨{ v with swapchain := VK_NULL_HANDLE, imageReadySs := [] },
            w.after 1 [.enter .recreateSwapchain,
              .vkGetPhysicalDeviceSurfaceCapabilitiesKHR VK_SUCCESS (env.capabilities w.tick)]⟩ with
      | (.ok _, s1) =>
        match (if creatableAt env w.tick = true then
            createNew ctx env (snapshotAt env w.tick) (sizeAt env w.tick) v.swapchain
          else pure ()) s1 with
        | (.ok _, s2) =>
          match (if v.swapchain ≠ VK_NULL_HANDLE then killOld v.swapchain v.imageReadySs
            else pure ()) s2 with
          | (.ok _, s3) => (.ok (decide (s3.vars.swapchain ≠ VK_NULL_HANDLE)), s3)
          | (.error e, s3) => (.error e, s3)
        | (.error e, s2) => (.error e, s2)
      | (.error e, s1) => (.error e, s1) := by
  simp only [recreateSwapchain, mBind_apply, liftW_apply, emit_apply, getVars_apply,
    modifyVars_apply, getSurfaceCapabilities_ok (w := { w with trace := w.trace ++ [.enter .recreateSwapchain] }) h0,
    mPure_apply, World.after, creatableAt, snapshotAt, sizeAt, List.append_assoc,
    List.singleton_append]
  split
  · split
    · split <;> simp_all
    · simp_all
  · simp_all

theorem recreateSwapchain_queryFailed (ctx : Ctx) (env : Env) (v : Vars) (w : World)
    (h0 : env.result w.tick ≠ VK_SUCCESS) :
    recreateSwapchain ctx env ⟨v, w⟩
      = (.error (.vulkanResult .vkGetPhysicalDeviceSurfaceCapabilitiesKHR (env.result w.tick)),
        ⟨{ v with swapchain := VK_NULL_HANDLE },
          w.after 1 [.enter .recreateSwapchain,
            .vkGetPhysicalDeviceSurfaceCapabilitiesKHR (env.result w.tick)
              (env.capabilities w.tick)]⟩) := by
  simp [recreateSwapchain, mBind_apply,
    getSurfaceCapabilities_fail (w := { w with trace := w.trace ++ [.enter .recreateSwapchain] }) h0,
    World.after]

/-- The first `if( oldSwapchain )` block of `recreateSwapchain`, whatever its calls report. -/
theorem cleanupStage_shape (ctx : Ctx) (env : Env) (old : Handle) (s : State) :
    ∃ cl, ((if old ≠ VK_NULL_HANDLE then cleanupOld ctx env else pure ()) s).2.world.trace
        = s.world.trace ++ cl
      ∧ (old = VK_NULL_HANDLE → cl = []
          ∧ (if old ≠ VK_NULL_HANDLE then cleanupOld ctx env else pure ()) s = (.ok (), s))
      ∧ (old ≠ VK_NULL_HANDLE →
          cl = cleanupRun ctx s.vars (env.result s.world.tick) (env.result (s.world.tick + 1)))
      ∧ (old ≠ VK_NULL_HANDLE →
          ((if old ≠ VK_NULL_HANDLE then cleanupOld ctx env else pure ()) s).1 = .ok () →
          cl = cleanupTrace ctx s.vars)
      ∧ ((if old ≠ VK_NULL_HANDLE then cleanupOld ctx env else pure ()) s).2.world.nextHandle
          = s.world.nextHandle := by
  by_cases hold : old = VK_NULL_HANDLE
  · refine ⟨[], ?_, fun _ => ⟨rfl, ?_⟩, fun h => absurd hold h, fun h => absurd hold h, ?_⟩
    · simp [hold]
    · simp [hold]
    · simp [hold]
  · have hold1 : old ≠ VK_NULL_HANDLE := hold
    rw [if_pos hold1]
    by_cases h0 : env.result s.world.tick = VK_SUCCESS
    · by_cases h1 : env.result (s.world.tick + 1) = VK_SUCCESS
      · rw [cleanupOld_done h0 h1]
        exact ⟨_, rfl, fun h => absurd h hold, fun _ => by simp [cleanupRun, h0, h1],
          fun _ _ => rfl, rfl⟩
      · rw [cleanupOld_resetFailed h0 h1]
        refine ⟨_, rfl, fun h => absurd h hold, fun _ => by simp [cleanupRun, h0, h1], ?_, rfl⟩
        intro _ h; simp at h
    · rw [cleanupOld_waitFailed h0]
      refine ⟨_, rfl, fun h => absurd h hold, fun _ => by simp [cleanupRun, h0], ?_, rfl⟩
      intro _ h; simp at h

/-- The trace of any call of `recreateSwapchain`, in whatever environment and whether it
returns or not: the entry and the capabilities query, then the part `cl` of the old-state
cleanup, the part `cr` of `createNew` and the part `post` of the destruction of the old
swapchain and its image-ready semaphores. -/
theorem recreateSwapchain_shape (ctx : Ctx) (env : Env) (v : Vars) (w : World) :
    ∃ cl cr post,
      (recreateSwapchain ctx env ⟨v, w⟩).2.world.trace
        = w.trace ++ [.enter .recreateSwapchain,
            .vkGetPhysicalDeviceSurfaceCapabilitiesKHR (env.result w.tick)
              (env.capabilities w.tick)] ++ cl ++ cr ++ post
      ∧ (v.swapchain = VK_NULL_HANDLE → cl = [] ∧ post = [])
      ∧ (v.swapchain ≠ VK_NULL_HANDLE →
          cl = [] ∨ cl = cleanupRun ctx v (env.result (w.tick + 1)) (env.result (w.tick + 2)))
      ∧ (v.swapchain ≠ VK_NULL_HANDLE → cl ≠ cleanupTrace ctx v → cr = [] ∧ post = [])
      ∧ (∀ e ∈ cr,
          Event.fromCreate (snapshotAt env w.tick) (sizeAt env w.tick) v.swapchain e = true)
      ∧ (creatableAt env w.tick = false → cr = [])
      ∧ (post = [] ∨ post = killTrace v)
      ∧ (∀ b s1, recreateSwapchain ctx env ⟨v, w⟩ = (.ok b, s1) →
          env.result w.tick = VK_SUCCESS
          ∧ (v.swapchain ≠ VK_NULL_HANDLE → cl = cleanupTrace ctx v ∧ post = killTrace v))
      ∧ (env.result w.tick ≠ VK_SUCCESS → cl = [] ∧ cr = [] ∧ post = []) := by
  by_cases h0 : env.result w.tick = VK_SUCCESS
  swap
  · rw [recreateSwapchain_queryFailed ctx env v w h0]
    refine ⟨[], [], [], by simp [World.after], fun _ => ⟨rfl, rfl⟩, fun _ => Or.inl rfl,
      fun _ _ => ⟨rfl, rfl⟩, by simp, fun _ => rfl, Or.inl rfl, ?_, fun _ => ⟨rfl, rfl, rfl⟩⟩
    intro b s1 h; simp at h
  rw [recreateSwapchain_stages ctx env v w h0, h0]
  obtain ⟨sA, hsA⟩ : ∃ sA : State, sA = ⟨{ v with swapchain := VK_NULL_HANDLE, imageReadySs := [] },
      w.after 1 [.enter .recreateSwapchain,
        .vkGetPhysicalDeviceSurfaceCapabilitiesKHR VK_SUCCESS (env.capabilities w.tick)]⟩ :=
    ⟨_, rfl⟩
  rw [← hsA]
  have hAt : sA.world.trace = w.trace ++ [.enter .recreateSwapchain,
      .vkGetPhysicalDeviceSurfaceCapabilitiesKHR VK_SUCCESS (env.capabilities w.tick)] := by
    rw [hsA]; rfl
  have hAk : sA.world.tick = w.tick + 1 := by rw [hsA]; rfl
  have hAc : cleanupTrace ctx sA.vars = cleanupTrace ctx v := by rw [hsA]; rfl
  have hAr : ∀ r1 r2, cleanupRun ctx sA.vars r1 r2 = cleanupRun ctx v r1 r2 := by
    intro r1 r2; rw [hsA]; rfl
  obtain ⟨cl, hcl, hcl0, hclrun, hclok, _⟩ := cleanupStage_shape ctx env v.swapchain sA
  rw [hAk, hAr] at hclrun
  rw [hAc] at hclok
  rcases h1 : (if v.swapchain ≠ VK_NULL_HANDLE then cleanupOld ctx env else pure ()) sA
    with ⟨r1, s1⟩
  rw [h1] at hcl hcl0 hclok
  simp only at hcl hclok
  cases r1 with
  | error e1 =>
    simp only
    refine ⟨cl, [], [], by rw [hcl, hAt]; simp, ?_, fun h => Or.inr (hclrun h),
      fun _ _ => ⟨rfl, rfl⟩, by simp, fun _ => rfl, Or.inl rfl, ?_, fun h => absurd rfl h⟩
    · intro h
      have := (hcl0 h).2
      simp at this
    · intro b s1 h; simp at h
  | ok u1 =>
    simp only
    have hE : M.Emits (Event.fromCreate (snapshotAt env w.tick) (sizeAt env w.tick) v.swapchain)
        (if creatableAt env w.tick = true then
          createNew ctx env (snapshotAt env w.tick) (sizeAt env w.tick) v.swapchain
        else pure ()) := .iteEM (createNew_emits ctx env _ _ _) (.pureM _)
    obtain ⟨_, cr, hcr, hp⟩ := hE s1
    have hcr0 : creatableAt env w.tick = false → cr = [] := by
      intro hc
      rw [hc] at hcr
      simpa using hcr
    rcases h2 : (if creatableAt env w.tick = true then
          createNew ctx env (snapshotAt env w.tick) (sizeAt env w.tick) v.swapchain
        else pure ()) s1 with ⟨r2, s2⟩
    rw [h2] at hcr
    simp only at hcr
    have hclc : v.swapchain ≠ VK_NULL_HANDLE → cl = cleanupTrace ctx v := fun h => hclok h rfl
    cases r2 with
    | error e2 =>
      simp only
      refine ⟨cl, cr, [], by rw [hcr, hcl, hAt]; simp, fun h => ⟨(hcl0 h).1, rfl⟩,
        fun h => Or.inr (hclrun h), fun h hne => absurd (hclc h) hne, hp, hcr0, Or.inl rfl, ?_,
        fun h => absurd rfl h⟩
      intro b s1 h; simp at h
    | ok u2 =>
      simp only
      by_cases hold : v.swapchain = VK_NULL_HANDLE
      · refine ⟨cl, cr, [], ?_, fun h => ⟨(hcl0 h).1, rfl⟩,
          fun h => Or.inr (hclrun h), fun h hne => absurd (hclc h) hne, hp, hcr0, Or.inl rfl, ?_,
          fun h => absurd rfl h⟩
        · simp [hold, hcr, hcl, hAt]
        · intro b s1 _
          exact ⟨trivial, fun h => absurd hold h⟩
      · have hold1 : v.swapchain ≠ VK_NULL_HANDLE := hold
        rw [if_pos hold1, killOld_apply]
        refine ⟨cl, cr, killTrace v, ?_, fun h => absurd h hold,
          fun h => Or.inr (hclrun h), fun h hne => absurd (hclc h) hne, hp, hcr0, Or.inr rfl, ?_,
          fun h => absurd rfl h⟩
        · simp [hcr, hcl, hAt, killTrace]
        · intro b s1 _
          exact ⟨trivial, fun _ => ⟨hclc hold1, rfl⟩⟩


/-- C11: the calls any `recreateSwapchain` that starts with a live old swapchain adds to
the trace, whatever the calls report and whether it returns or not, are, in this order: its
entry and the capabilities query; the part `cl`, which is empty when the query failed and
otherwise the cleanup of the old state (`vkDeviceWaitIdle` first, then the destruction of
the old fences and of the old render-done semaphores, the command-pool reset, the
destruction of the old pipeline, of the old framebuffers and of the old image views), cut
after `vkDeviceWaitIdle` or after `vkResetCommandPool` if that call fails; the part `cr` of
the calls of `createNew`, which is empty unless the cleanup is complete, contains no destroy
call and no `vkDeviceWaitIdle`, and in which every `vkCreateSwapchainKHR` is given the old
swapchain as `oldSwapchain`; and the part `post`, which is empty or the destruction of the old
swapchain followed by the destruction of the old image-ready semaphores. A call that returns
has made the complete cleanup and the complete `post`. -/
theorem recreateSwapchain_teardown_order (ctx : Ctx) (env : Env) (s : State)
    (hold : s.vars.swapchain ≠ VK_NULL_HANDLE) :
    ∃ cl cr post,
      (recreateSwapchain ctx env s).2.world.trace
        = s.world.trace ++ [.enter .recreateSwapchain,
            .vkGetPhysicalDeviceSurfaceCapabilitiesKHR (env.result s.world.tick)
              (env.capabilities s.world.tick)] ++ cl ++ cr ++ post
      ∧ (cl = [] ∨ cl = cleanupRun ctx s.vars (env.result (s.world.tick + 1))
          (env.result (s.world.tick + 2)))
      ∧ (env.result s.world.tick ≠ VK_SUCCESS → cl = [])
      ∧ (cl ≠ cleanupTrace ctx s.vars → cr = [] ∧ post = [])
      ∧ (∀ e ∈ cr, Event.fromCreate (snapshotAt env s.world.tick) (sizeAt env s.world.tick)
          s.vars.swapchain e = true)
      ∧ (∀ info r x, Event.vkCreateSwapchainKHR info r x ∈ cr →
          info.oldSwapchain = s.vars.swapchain)
      ∧ (post = [] ∨ post = killTrace s.vars)
      ∧ (∀ b s1, recreateSwapchain ctx env s = (.ok b, s1) →
          cl = cleanupTrace ctx s.vars ∧ post = killTrace s.vars) := by
  rcases s with ⟨v, w⟩
  obtain ⟨cl, cr, post, ht, _, hcl, hcut, hp, _, hpost, hret, hfail⟩ :=
    recreateSwapchain_shape ctx env v w
  refine ⟨cl, cr, post, ht, hcl hold, fun h0 => (hfail h0).1, hcut hold, hp, ?_, hpost,
    fun b s1 h => (hret b s1 h).2 hold⟩
  · intro info r x hx
    have := hp _ hx
    simp [Event.fromCreate, Event.fromSetup] at this
    exact this.1

theorem recreateSwapchain_teardown_order_witness :
    sampleLive.vars.swapchain ≠ VK_NULL_HANDLE
    ∧ ∃ cl cr post,
      (recreateSwapchain sampleCtx sampleEnv sampleLive).2.world.trace
        = sampleLive.world.trace ++ [.enter .recreateSwapchain,
            .vkGetPhysicalDeviceSurfaceCapabilitiesKHR (sampleEnv.result sampleLive.world.tick)
              (sampleEnv.capabilities sampleLive.world.tick)] ++ cl ++ cr ++ post
      ∧ (cl = [] ∨ cl = cleanupRun sampleCtx sampleLive.vars
          (sampleEnv.result (sampleLive.world.tick + 1))
          (sampleEnv.result (sampleLive.world.tick + 2)))
      ∧ (sampleEnv.result sampleLive.world.tick ≠ VK_SUCCESS → cl = [])
      ∧ (cl ≠ cleanupTrace sampleCtx sampleLive.vars → cr = [] ∧ post = [])
      ∧ (∀ e ∈ cr, Event.fromCreate (snapshotAt sampleEnv sampleLive.world.tick)
          (sizeAt sampleEnv sampleLive.world.tick) sampleLive.vars.swapchain e = true)
      ∧ (∀ info r x, Event.vkCreateSwapchainKHR info r x ∈ cr →
          info.oldSwapchain = sampleLive.vars.swapchain)
      ∧ (post = [] ∨ post = killTrace sampleLive.vars)
      ∧ (∀ b s1, recreateSwapchain sampleCtx sampleEnv sampleLive = (.ok b, s1) →
          cl = cleanupTrace sampleCtx sampleLive.vars ∧ post = killTrace sampleLive.vars) :=
  ⟨by decide!, recreateSwapchain_teardown_order sampleCtx sampleEnv sampleLive (by decide!)⟩

theorem sizeAt_eq (env : Env) (tick : Nat) :
    sizeAt env tick = usedExtent (env.capabilities tick).currentExtent
    ∧ (snapshotAt env tick).currentExtent = usedExtent (env.capabilities tick).currentExtent := by
  unfold sizeAt snapshotAt substituteExtent usedExtent
  split <;> exact ⟨rfl, rfl⟩

theorem World.Reaches.reachesSelf (P : Event → Bool) (w : World) : World.Reaches P w w :=
  ⟨Nat.le_refl _, [], by simp, by simp⟩

theorem World.Reaches.reachesStep {P : Event → Bool} {w w1 w2 : World} (h1 : World.Reaches P w w1)
    (h2 : World.Reaches P w1 w2) : World.Reaches P w w2 := by
  obtain ⟨n1, l1, e1, p1⟩ := h1
  obtain ⟨n2, l2, e2, p2⟩ := h2
  refine ⟨Nat.le_trans n1 n2, l1 ++ l2, by rw [e2, e1, List.append_assoc], ?_⟩
  intro e he
  rcases List.mem_append.mp he with h | h
  · exact p1 e h
  · exact p2 e h

theorem W.Emits.reaches {α : Type} {P : Event → Bool} {m : W α} (hm : W.Emits P m) {w w1 : World}
    {r : Except Exn α} (h : m w = (r, w1)) : World.Reaches P w w1 := by
  have := hm w
  rw [h] at this
  exact this

theorem M.Emits.reachesM {α : Type} {P : Event → Bool} {m : M α} (hm : M.Emits P m) {s s1 : State}
    {r : Except Exn α} (h : m s = (r, s1)) : World.Reaches P s.world s1.world := by
  have := hm s
  rw [h] at this
  exact this

theorem initSemaphoresLoop_exact {env : Env} (count : Nat) :
    ∀ (acc : List Handle) (w : World), env.SucceedsFrom w.tick →
      initSemaphoresLoop env count acc w = (.ok (acc ++ freshHandles w.nextHandle count),
        { w with tick := w.tick + count, nextHandle := w.nextHandle + count,
                 trace := w.trace
                   ++ (freshHandles w.nextHandle count).map (.vkCreateSemaphore VK_SUCCESS) }) := by
  induction count with
  | zero => intro acc w _; simp [initSemaphoresLoop, freshHandles]
  | succ n ih =>
    intro acc w h
    simp only [initSemaphoresLoop, initSemaphore, wBind_apply, create_apply, h.here,
      RESULT_HANDLER_success, wPure_apply]
    rw [ih _ _ (h.mono (Nat.le_succ _))]
    simp [freshHandles, Nat.add_assoc, Nat.add_comm 1 n]

theorem initFencesLoop_exact {env : Env} (flags : Nat) (count : Nat) :
    ∀ (acc : List Handle) (w : World), env.SucceedsFrom w.tick →
      initFencesLoop env flags count acc w = (.ok (acc ++ freshHandles w.nextHandle count),
        { w with tick := w.tick + count, nextHandle := w.nextHandle + count,
                 trace := w.trace
                   ++ (freshHandles w.nextHandle count).map (.vkCreateFence flags VK_SUCCESS) }) := by
  induction count with
  | zero => intro acc w _; simp [initFencesLoop, freshHandles]
  | succ n ih =>
    intro acc w h
    simp only [initFencesLoop, initFence, wBind_apply, create_apply, h.here,
      RESULT_HANDLER_success, wPure_apply]
    rw [ih _ _ (h.mono (Nat.le_succ _))]
    simp [freshHandles, Nat.add_assoc, Nat.add_comm 1 n]

theorem initPipeline_exact {ctx : Ctx} {env : Env} {binding width height : Nat} {w : World}
    (h : env.result w.tick = VK_SUCCESS) (hl : limitsOk ctx binding) :
    initPipeline ctx env binding width height w = (.ok (w.nextHandle + 1),
      { w with tick := w.tick + 1, nextHandle := w.nextHandle + 1,
               trace := w.trace ++ [.vkCreateGraphicsPipelines
                 { width := toFloat (if width ≠ 0 then width else 1),
                   height := toFloat (if height ≠ 0 then height else 1) }
                 { width := width, height := height } VK_SUCCESS (w.nextHandle + 1)] }) := by
  obtain ⟨h1, h2, h3, h4, h5⟩ := hl
  simp [initPipeline, wBind_apply, h, h1, h2, h3, h4, h5]

theorem recordCommandBuffer_exact (ctx : Ctx) {env : Env} (surfaceSize : VkExtent2D) {i : Nat}
    {v : Vars} {w : World} {cb fb : Handle} (h : env.SucceedsFrom w.tick)
    (hc : v.commandBuffers[i]? = some cb) (hf : v.framebuffers[i]? = some fb) :
    recordCommandBuffer ctx env surfaceSize i ⟨v, w⟩ = (.ok (),
      ⟨v, { w with tick := w.tick + 2,
                   trace := w.trace ++ recordTrace ctx surfaceSize v.pipeline cb fb }⟩) := by
  have h0 := h.here
  have h1 : env.result (w.tick + 1) = VK_SUCCESS := h _ (Nat.le_succ _)
  simp [recordCommandBuffer, mBind_apply, wBind_apply, index_apply, hc, hf,
    beginCommandBuffer, endCommandBuffer, recordBeginRenderPass, recordBindPipeline,
    recordBindVertexBuffer, recordDraw, recordEndRenderPass, h0, h1, recordTrace]

theorem recordCommandBuffers_exact (ctx : Ctx) {env : Env} (surfaceSize : VkExtent2D)
    (v : Vars) (remaining : Nat) :
    ∀ (i : Nat) (w : World), env.SucceedsFrom w.tick →
      i + remaining ≤ v.commandBuffers.length → i + remaining ≤ v.framebuffers.length →
      recordCommandBuffers ctx env surfaceSize remaining i ⟨v, w⟩ = (.ok (),
        ⟨v, { w with tick := w.tick + 2 * remaining,
                     trace := w.trace ++ recordAll ctx surfaceSize v remaining i }⟩) := by
  induction remaining with
  | zero => intro i w _ _ _; simp [recordCommandBuffers, recordAll]
  | succ n ih =>
    intro i w h hc hf
    have hci : i < v.commandBuffers.length := by omega
    have hfi : i < v.framebuffers.length := by omega
    have hcb := List.getElem?_eq_getElem hci
    have hfb := List.getElem?_eq_getElem hfi
    simp only [recordCommandBuffers, mBind_apply, recordCommandBuffer_exact ctx surfaceSize h hcb hfb]
    rw [ih (i + 1) _ (h.mono (by simp)) (by omega) (by omega)]
    simp [recordAll, hcb, hfb, Nat.mul_add, Nat.add_assoc, Nat.add_comm 2]

theorem recordAll_fromSetup (ctx : Ctx) (capabilities : VkSurfaceCapabilitiesKHR)
    (surfaceSize : VkExtent2D) (oldSwapchain : Handle) (v : Vars) (remaining : Nat) :
    ∀ i, ∀ e ∈ recordAll ctx surfaceSize v remaining i,
      Event.fromSetup capabilities surfaceSize oldSwapchain e = true := by
  induction remaining with
  | zero => intro i e he; simp [recordAll] at he
  | succ n ih =>
    intro i e he
    simp only [recordAll, List.mem_append] at he
    rcases he with he | he
    · split at he
      · simp [recordTrace] at he
        rcases he with h | h | h | h | h | h | h | h <;> subst h <;> simp [Event.fromSetup]
      · simp at he
    · exact ih _ e he

theorem recordAll_congr (ctx : Ctx) (surfaceSize : VkExtent2D) {v v1 : Vars}
    (hc : v1.commandBuffers = v.commandBuffers) (hf : v1.framebuffers = v.framebuffers)
    (hp : v1.pipeline = v.pipeline) (remaining : Nat) :
    ∀ i, recordAll ctx surfaceSize v1 remaining i = recordAll ctx surfaceSize v remaining i := by
  induction remaining with
  | zero => intro i; rfl
  | succ n ih => intro i; simp only [recordAll, hc, hf, hp, ih]

/-- With the API calls succeeding and the program's own checks passing, `createNew` returns
and has established `Built`. -/
theorem createNew_built (ctx : Ctx) {env : Env} (capabilities : VkSurfaceCapabilitiesKHR)
    (surfaceSize : VkExtent2D) (oldSwapchain : Handle) (v : Vars) (w : World)
    (h : env.SucceedsFrom w.tick) (hg : createGuards ctx env capabilities w.tick) :
    ∃ v1 w1 n, createNew ctx env capabilities surfaceSize oldSwapchain ⟨v, w⟩ = (.ok (), ⟨v1, w1⟩)
      ∧ Built ctx capabilities surfaceSize oldSwapchain w v1 w1 n
      ∧ n = toUInt32 (env.imageCount (w.tick + 2))
      ∧ v1.swapchain ≠ VK_NULL_HANDLE := by
  obtain ⟨ha, hm, hl⟩ := hg
  obtain ⟨sc, w1, e1, hsc, ht1, g1⟩ := initSwapchain_ok ctx oldSwapchain h ha hm
  have r1 := (initSwapchain_emits ctx env capabilities surfaceSize oldSwapchain).reaches e1
  have s1 := h.mono g1.tick_le
  obtain ⟨images, w2, e2, himg, hev, g2⟩ := enumerateSwapchainImages_ok sc s1.here
  have r2 : World.Reaches (Event.fromSetup capabilities surfaceSize oldSwapchain) w1 w2 :=
    (enumerateSwapchainImages_emits env sc (fun _ _ _ => rfl)).reaches e2
  have s2 := s1.mono g2.tick_le
  obtain ⟨views, w3, e3, hviews, g3⟩ :=
    initSwapchainImageViews_run images ctx.surfaceFormat.format s2
  have r3 : World.Reaches (Event.fromSetup capabilities surfaceSize oldSwapchain) w2 w3 :=
    (initSwapchainImageViewsLoop_emits env ctx.surfaceFormat.format (fun _ _ _ _ => rfl)
      images []).reaches e3
  have s3 := s2.mono g3.tick_le
  obtain ⟨fbs, w4, e4, hfbs, g4⟩ :=
    initFramebuffers_run ctx.renderPass views surfaceSize.width surfaceSize.height s3
  have r4 : World.Reaches (Event.fromSetup capabilities surfaceSize oldSwapchain) w3 w4 :=
    (initFramebuffersLoop_emits env ctx.renderPass surfaceSize.width surfaceSize.height
      (fun _ _ _ => by simp [Event.fromSetup]) views []).reaches e4
  have s4 := s3.mono g4.tick_le
  have e5 := @initPipeline_exact ctx env vertexBufferBinding surfaceSize.width
    surfaceSize.height w4 s4.here hl
  obtain ⟨w5, hw5⟩ : ∃ w5 : World, w5 = ⟨w4.tick + 1, w4.nextHandle + 1, w4.selectedMode,
      w4.trace ++ [.vkCreateGraphicsPipelines
        { width := toFloat (if surfaceSize.width ≠ 0 then surfaceSize.width else 1),
          height := toFloat (if surfaceSize.height ≠ 0 then surfaceSize.height else 1) }
        { width := surfaceSize.width, height := surfaceSize.height } VK_SUCCESS
        (w4.nextHandle + 1)]⟩ := ⟨_, rfl⟩
  rw [← hw5] at e5
  have s5 : env.SucceedsFrom w5.tick := by rw [hw5]; exact s4.mono (Nat.le_succ _)
  have hlen : images.length < 2 ^ 32 := by rw [himg]; exact toUInt32_lt _
  obtain ⟨cb, w6, e6, hcb1, hcb2, g6⟩ := acquireCommandBuffers_run ctx (toUInt32 images.length)
    (v := { v with swapchain := sc, swapchainImageViews := views, framebuffers := fbs,
                   pipeline := w4.nextHandle + 1 }) s5
  have r6 : World.Reaches (Event.fromSetup capabilities surfaceSize oldSwapchain) w5 w6 :=
    (acquireCommandBuffers_emits ctx env (toUInt32 images.length) (fun _ _ _ _ => rfl)
      (fun _ _ => rfl)).reachesM e6
  rw [toUInt32_of_lt hlen] at hcb1 hcb2 e6
  have s6 := s5.mono g6.tick_le
  have e7 := recordCommandBuffers_exact ctx surfaceSize
    { v with swapchain := sc, swapchainImageViews := views, framebuffers := fbs,
             pipeline := w4.nextHandle + 1, commandBuffers := cb } images.length 0 w6 s6
    (by simpa using hcb1) (by simp [hfbs, hviews])
  obtain ⟨w7, hw7⟩ : ∃ w7 : World, w7 = ⟨w6.tick + 2 * images.length, w6.nextHandle,
      w6.selectedMode, w6.trace ++ recordAll ctx surfaceSize
        { v with swapchain := sc, swapchainImageViews := views, framebuffers := fbs,
                 pipeline := w4.nextHandle + 1, commandBuffers := cb } images.length 0⟩ :=
    ⟨_, rfl⟩
  rw [← hw7] at e7
  have s7 : env.SucceedsFrom w7.tick := by rw [hw7]; exact s6.mono (by simp)
  have e8 := initSemaphoresLoop_exact maxInflightSubmissions [] w7 s7
  obtain ⟨w8, hw8⟩ : ∃ w8 : World, w8 = ⟨w7.tick + maxInflightSubmissions,
      w7.nextHandle + maxInflightSubmissions, w7.selectedMode,
      w7.trace ++ (freshHandles w7.nextHandle maxInflightSubmissions).map
        (.vkCreateSemaphore VK_SUCCESS)⟩ := ⟨_, rfl⟩
  rw [← hw8] at e8
  have s8 : env.SucceedsFrom w8.tick := by rw [hw8]; exact s7.mono (by simp)
  have e9 := initSemaphoresLoop_exact images.length [] w8 s8
  obtain ⟨w9, hw9⟩ : ∃ w9 : World, w9 = ⟨w8.tick + images.length,
      w8.nextHandle + images.length, w8.selectedMode,
      w8.trace ++ (freshHandles w8.nextHandle images.length).map
        (.vkCreateSemaphore VK_SUCCESS)⟩ := ⟨_, rfl⟩
  rw [← hw9] at e9
  have s9 : env.SucceedsFrom w9.tick := by rw [hw9]; exact s8.mono (by simp)
  have e10 := initFencesLoop_exact VK_FENCE_CREATE_SIGNALED_BIT maxInflightSubmissions [] w9 s9
  obtain ⟨w10, hw10⟩ : ∃ w10 : World, w10 = ⟨w9.tick + maxInflightSubmissions,
      w9.nextHandle + maxInflightSubmissions, w9.selectedMode,
      w9.trace ++ (freshHandles w9.nextHandle maxInflightSubmissions).map
        (.vkCreateFence VK_FENCE_CREATE_SIGNALED_BIT VK_SUCCESS)⟩ := ⟨_, rfl⟩
  rw [← hw10] at e10
  simp only [List.nil_append] at e8 e9 e10
  refine ⟨{ v with swapchain := sc, swapchainImageViews := views, framebuffers := fbs,
                   pipeline := w4.nextHandle + 1, commandBuffers := cb,
                   imageReadySs := freshHandles w7.nextHandle maxInflightSubmissions,
                   renderDoneSs := freshHandles w8.nextHandle images.length,
                   submissionFences := freshHandles w9.nextHandle maxInflightSubmissions,
                   submissionNr := 0 }, w10, images.length, ?_, ?_, ?_, hsc⟩
  · simp only [toUInt32_of_lt hlen, createNew, mBind_apply, liftW_apply, modifyVars_apply,
      getVars_apply, initSemaphores, initFences, e1, e2, e3, e4, e5, e6, e7, e8, e9, e10]
  · have r14 := r1.reachesStep (r2.reachesStep (r3.reachesStep r4))
    obtain ⟨n14, l14, t14, p14⟩ := r14
    obtain ⟨n6, l6, t6, p6⟩ := r6
    have hn5 : w5.nextHandle = w4.nextHandle + 1 := by rw [hw5]
    have ht5 : w5.trace = w4.trace ++ [.vkCreateGraphicsPipelines
        { width := toFloat (if surfaceSize.width ≠ 0 then surfaceSize.width else 1),
          height := toFloat (if surfaceSize.height ≠ 0 then surfaceSize.height else 1) }
        { width := surfaceSize.width, height := surfaceSize.height } VK_SUCCESS
        (w4.nextHandle + 1)] := by rw [hw5]
    have hn7 : w7.nextHandle = w6.nextHandle := by rw [hw7]
    have hn8 : w8.nextHandle = w6.nextHandle + maxInflightSubmissions := by rw [hw8, hn7]
    have hn9 : w9.nextHandle = w6.nextHandle + maxInflightSubmissions + images.length := by
      rw [hw9]; simp only; rw [hn8]
    have hn10 : w10.nextHandle
        = w6.nextHandle + maxInflightSubmissions + images.length + maxInflightSubmissions := by
      rw [hw10]; simp only; rw [hn9]
    refine ⟨⟨l14 ++ [.vkCreateGraphicsPipelines
        { width := toFloat (if surfaceSize.width ≠ 0 then surfaceSize.width else 1),
          height := toFloat (if surfaceSize.height ≠ 0 then surfaceSize.height else 1) }
        { width := surfaceSize.width, height := surfaceSize.height } VK_SUCCESS
        (w4.nextHandle + 1)] ++ l6, w6.nextHandle, ?_, ?_, ?_, ?_, ?_, ?_, ?_, ?_, ?_⟩, ?_⟩
    · have ht7 : w7.trace = w6.trace ++ recordAll ctx surfaceSize
          { v with swapchain := sc, swapchainImageViews := views, framebuffers := fbs,
                   pipeline := w4.nextHandle + 1, commandBuffers := cb } images.length 0 := by
        rw [hw7]
      have ht8 : w8.trace = w7.trace ++ (freshHandles w7.nextHandle maxInflightSubmissions).map
          (.vkCreateSemaphore VK_SUCCESS) := by rw [hw8]
      have ht9 : w9.trace = w8.trace ++ (freshHandles w8.nextHandle images.length).map
          (.vkCreateSemaphore VK_SUCCESS) := by rw [hw9]
      have ht10 : w10.trace = w9.trace ++ (freshHandles w9.nextHandle maxInflightSubmissions).map
          (.vkCreateFence VK_FENCE_CREATE_SIGNALED_BIT VK_SUCCESS) := by rw [hw10]
      have hrec := @recordAll_congr ctx surfaceSize
        { v with swapchain := sc, swapchainImageViews := views, framebuffers := fbs,
                 pipeline := w4.nextHandle + 1, commandBuffers := cb }
        { v with swapchain := sc, swapchainImageViews := views, framebuffers := fbs,
                 pipeline := w4.nextHandle + 1, commandBuffers := cb,
                 imageReadySs := freshHandles w7.nextHandle maxInflightSubmissions,
                 renderDoneSs := freshHandles w8.nextHandle images.length,
                 submissionFences := freshHandles w9.nextHandle maxInflightSubmissions,
                 submissionNr := 0 } rfl rfl rfl images.length 0
      rw [hrec]
      rw [ht10, ht9, ht8, ht7, t6, ht5, t14, hn9, hn8, hn7]
      simp only [List.append_assoc]
    · intro e he
      simp only [List.mem_append, List.mem_singleton] at he
      rcases he with (he | he) | he
      · exact p14 e he
      · subst he; simp [Event.fromSetup]
      · exact p6 e he
    · exact ⟨{ width := toFloat (if surfaceSize.width ≠ 0 then surfaceSize.width else 1),
               height := toFloat (if surfaceSize.height ≠ 0 then surfaceSize.height else 1) },
        { width := surfaceSize.width, height := surfaceSize.height }, by simp⟩
    · show w.nextHandle < w4.nextHandle + 1
      omega
    · show w4.nextHandle + 1 ≤ w6.nextHandle
      omega
    · show freshHandles w7.nextHandle _ = _
      rw [hn7]
    · show freshHandles w8.nextHandle _ = _
      rw [hn8]
    · show freshHandles w9.nextHandle _ = _
      rw [hn9]
    · exact hn10
    · intro i hi
      have hci : i < cb.length := by omega
      have hfi : i < fbs.length := by rw [hfbs, hviews]; exact hi
      exact ⟨_, _, List.getElem?_eq_getElem hci, List.getElem?_eq_getElem hfi⟩
  · rw [himg, ht1]

/-- With the API calls succeeding, a creatable surface and the program's own checks passing,
`recreateSwapchain` returns `true`; `wc` is the world in which `createNew` starts and `wb`
the world it leaves. -/
theorem recreateSwapchain_live_built (ctx : Ctx) {env : Env} (v : Vars) {w : World}
    (h : env.SucceedsFrom w.tick) (hc : creatableAt env w.tick = true)
    (hg : createGuards ctx env (snapshotAt env w.tick) (createTick v w)) :
    ∃ v1 w1 n wc wb, recreateSwapchain ctx env ⟨v, w⟩ = (.ok true, ⟨v1, w1⟩)
      ∧ wc.trace = w.trace ++ [.enter .recreateSwapchain,
          .vkGetPhysicalDeviceSurfaceCapabilitiesKHR VK_SUCCESS (env.capabilities w.tick)]
          ++ (if v.swapchain ≠ VK_NULL_HANDLE then cleanupTrace ctx v else [])
      ∧ wc.nextHandle = w.nextHandle
      ∧ Built ctx (snapshotAt env w.tick) (sizeAt env w.tick) v.swapchain wc v1 wb n
      ∧ w1.trace = wb.trace ++ (if v.swapchain ≠ VK_NULL_HANDLE then killTrace v else [])
      ∧ w1.nextHandle = wb.nextHandle
      ∧ v1.swapchain ≠ VK_NULL_HANDLE
      ∧ n = toUInt32 (env.imageCount (createTick v w + 2)) := by
  have h0 := h.here
  rw [recreateSwapchain_stages ctx env v w h0]
  obtain ⟨vA, wA, hvA, hwA⟩ : ∃ (vA : Vars) (wA : World),
      vA = { v with swapchain := VK_NULL_HANDLE, imageReadySs := [] }
      ∧ wA = w.after 1 [.enter .recreateSwapchain,
        .vkGetPhysicalDeviceSurfaceCapabilitiesKHR VK_SUCCESS (env.capabilities w.tick)] :=
    ⟨_, _, rfl, rfl⟩
  rw [← hvA, ← hwA, if_pos hc]
  have hAk : wA.tick = w.tick + 1 := by rw [hwA]; rfl
  have hAn : wA.nextHandle = w.nextHandle := by rw [hwA]; rfl
  have hAt : wA.trace = w.trace ++ [.enter .recreateSwapchain,
      .vkGetPhysicalDeviceSurfaceCapabilitiesKHR VK_SUCCESS (env.capabilities w.tick)] := by
    rw [hwA]; rfl
  by_cases hold : v.swapchain = VK_NULL_HANDLE
  · have hold2 : ¬ (v.swapchain ≠ VK_NULL_HANDLE) := not_not.mpr hold
    have hct : createTick v w = w.tick + 1 := by simp [createTick, hold]
    rw [hct, ← hAk] at hg
    obtain ⟨v1, wb, n, e, hb, hn, hsc⟩ := createNew_built ctx (snapshotAt env w.tick)
      (sizeAt env w.tick) v.swapchain vA wA (by rw [hAk]; exact h.mono (Nat.le_succ _)) hg
    refine ⟨v1, wb, n, wA, wb, ?_, ?_, hAn, hb, ?_, rfl, hsc, ?_⟩
    · rw [if_neg hold2, if_neg hold2]
      simp only [mPure_apply, e]
      simp [hsc]
    · rw [if_neg hold2, hAt]; simp
    · rw [if_neg hold2]; simp
    · rw [hct, ← hAk]; exact hn
  · have hold1 : v.swapchain ≠ VK_NULL_HANDLE := hold
    have hct : createTick v w = w.tick + 3 := by simp [createTick, hold]
    have h1 : env.result wA.tick = VK_SUCCESS := by rw [hAk]; exact h _ (by omega)
    have h2 : env.result (wA.tick + 1) = VK_SUCCESS := by rw [hAk]; exact h _ (by omega)
    have hcl := @cleanupOld_done ctx env ⟨vA, wA⟩ h1 h2
    obtain ⟨vB, wB, hvB, hwB⟩ : ∃ (vB : Vars) (wB : World), vB = vA.afterCleanup
        ∧ wB = ⟨wA.tick + 2, wA.nextHandle, wA.selectedMode, wA.trace ++ cleanupTrace ctx vA⟩ :=
      ⟨_, _, rfl, rfl⟩
    simp only at hcl
    rw [← hvB, ← hwB] at hcl
    have hBk : wB.tick = w.tick + 3 := by rw [hwB]; simp only; omega
    have hBn : wB.nextHandle = w.nextHandle := by rw [hwB]; exact hAn
    have hBt : wB.trace = w.trace ++ [.enter .recreateSwapchain,
        .vkGetPhysicalDeviceSurfaceCapabilitiesKHR VK_SUCCESS (env.capabilities w.tick)]
        ++ cleanupTrace ctx v := by
      rw [hwB]; simp only; rw [hAt, hvA]; rfl
    rw [hct, ← hBk] at hg
    obtain ⟨v1, wb, n, e, hb, hn, hsc⟩ := createNew_built ctx (snapshotAt env w.tick)
      (sizeAt env w.tick) v.swapchain vB wB (by rw [hBk]; exact h.mono (by omega)) hg
    refine ⟨v1, ⟨wb.tick, wb.nextHandle, wb.selectedMode,
        wb.trace ++ [.vkDestroySwapchainKHR v.swapchain]
          ++ v.imageReadySs.map .vkDestroySemaphore⟩, n, wB, wb, ?_, ?_, hBn, hb, ?_, rfl, hsc, ?_⟩
    · rw [if_pos hold1, if_pos hold1, hcl]
      simp only [e, killOld_apply]
      simp [hsc]
    · rw [if_pos hold1, hBt]
    · rw [if_pos hold1]; simp [killTrace]
    · rw [hct, ← hBk]; exact hn


theorem recordAll_infix (ctx : Ctx) (surfaceSize : VkExtent2D) (v : Vars) {cb fb : Handle}
    (remaining : Nat) :
    ∀ i j, i ≤ j → j < i + remaining → v.commandBuffers[j]? = some cb →
      v.framebuffers[j]? = some fb →
      ∃ before after, recordAll ctx surfaceSize v remaining i
        = before ++ recordTrace ctx surfaceSize v.pipeline cb fb ++ after := by
  induction remaining with
  | zero => intro i j h1 h2; omega
  | succ n ih =>
    intro i j h1 h2 hc hf
    by_cases hij : j = i
    · subst hij
      exact ⟨[], recordAll ctx surfaceSize v n (j + 1), by simp [recordAll, hc, hf]⟩
    · obtain ⟨before, after, e⟩ := ih (i + 1) j (by omega) (by omega) hc hf
      obtain ⟨first, hfirst⟩ : ∃ first, recordAll ctx surfaceSize v (n + 1) i
          = first ++ recordAll ctx surfaceSize v n (i + 1) := ⟨_, rfl⟩
      refine ⟨first ++ before, after, ?_⟩
      rw [hfirst, e]
      simp only [List.append_assoc]

/-- C14 (counterexample): from a state with a live swapchain, with every API call
reporting success, `recreateSwapchain` called with a degenerate extent (width 0) returns
`false`; called again with the valid extent 640x480 it does not return `true` but throws
"Unknown composite alpha reported." when the restored surface offers none of the four
composite-alpha modes. -/
theorem recreate_after_degenerate_throws :
    sampleLive.vars.swapchain ≠ VK_NULL_HANDLE
    ∧ restoredAlphalessEnv.SucceedsFrom 0
    ∧ (recreateSwapchain sampleCtx restoredAlphalessEnv sampleLive).1 = .ok false
    ∧ creatableAt restoredAlphalessEnv
        (recreateSwapchain sampleCtx restoredAlphalessEnv sampleLive).2.world.tick = true
    ∧ (recreateSwapchain sampleCtx restoredAlphalessEnv
        (recreateSwapchain sampleCtx restoredAlphalessEnv sampleLive).2).1
        = .error (.text .unknownCompositeAlpha) :=
  ⟨by decide!, fun _ _ => rfl, by decide!, by decide!, by decide!⟩

/-- C14 (amended): from every state with a live swapchain (its `commandBuffers` holding
fewer than 2^32 elements), when `recreateSwapchain` is called with a degenerate extent and
then again with a valid extent, the API calls made inside the two calls succeeding and none
of the program's own checks on the creation path throwing, the first call returns `false`
and the second returns `true` and restores the swapchain-scoped state for the new image
count `n`: the swapchain is non-null; image views, framebuffers, command buffers and
render-done semaphores number `n`; image-ready semaphores and fences number 2 and every
fence was created signaled by the second call; `submissionNr` is 0; the pipeline was created
by a successful `vkCreateGraphicsPipelines` of the second call with a handle not handed out
before; and each of the `n` command buffers was recorded again by the second call, for its
framebuffer and the new pipeline. -/
theorem recreate_after_degenerate_restores (ctx : Ctx) (env : Env) (s : State)
    (hold : s.vars.swapchain ≠ VK_NULL_HANDLE)
    (hb : s.vars.commandBuffers.length < 2 ^ 32)
    (h1 : env.SucceedsWithin s.world.tick (recreateSwapchain ctx env s).2.world.tick)
    (hc1 : creatableAt env s.world.tick = false)
    (h2 : env.SucceedsWithin (recreateSwapchain ctx env s).2.world.tick
      (recreateSwapchain ctx env (recreateSwapchain ctx env s).2).2.world.tick)
    (hc2 : creatableAt env (recreateSwapchain ctx env s).2.world.tick = true)
    (hg : createGuards ctx env (snapshotAt env (recreateSwapchain ctx env s).2.world.tick)
      ((recreateSwapchain ctx env s).2.world.tick + 1)) :
    ∃ s1 s2 n seg, recreateSwapchain ctx env s = (.ok false, s1)
      ∧ recreateSwapchain ctx env s1 = (.ok true, s2)
      ∧ s2.world.trace = s1.world.trace ++ seg
      ∧ n = toUInt32 (env.imageCount (s1.world.tick + 3))
      ∧ s2.vars.swapchain ≠ VK_NULL_HANDLE
      ∧ s2.vars.swapchainImageViews.length = n
      ∧ s2.vars.framebuffers.length = n
      ∧ s2.vars.commandBuffers.length = n
      ∧ s2.vars.renderDoneSs.length = n
      ∧ s2.vars.imageReadySs.length = 2
      ∧ s2.vars.submissionFences.length = 2
      ∧ (∀ f ∈ s2.vars.submissionFences,
          Event.vkCreateFence VK_FENCE_CREATE_SIGNALED_BIT VK_SUCCESS f ∈ seg)
      ∧ s2.vars.submissionNr = 0
      ∧ (∃ viewport scissor,
          Event.vkCreateGraphicsPipelines viewport scissor VK_SUCCESS s2.vars.pipeline ∈ seg)
      ∧ s1.world.nextHandle < s2.vars.pipeline
      ∧ ∀ i, i < n → ∃ cb fb before after, s2.vars.commandBuffers[i]? = some cb
          ∧ s2.vars.framebuffers[i]? = some fb
          ∧ seg = before ++ recordTrace ctx (sizeAt env s1.world.tick) s2.vars.pipeline cb fb
              ++ after := by
  obtain ⟨hs1, hrun1⟩ := recreateSwapchain_within ctx env s _ (Nat.le_refl _) h1
  rcases s with ⟨v, w⟩
  have e1 := recreateSwapchain_degenerate_old ctx v hs1 hc1 hold
  rw [hrun1] at e1
  rw [e1] at h2 hc2 hg
  obtain ⟨vD, wD, hvD, hwD⟩ : ∃ (vD : Vars) (wD : World),
      vD = Vars.afterCleanup { v with swapchain := VK_NULL_HANDLE, imageReadySs := [] }
      ∧ wD = w.after 3 ([.enter .recreateSwapchain,
          .vkGetPhysicalDeviceSurfaceCapabilitiesKHR VK_SUCCESS
            ((env.withResult (env.successAfter
              (recreateSwapchain ctx env ⟨v, w⟩).2.world.tick)).capabilities w.tick)]
          ++ cleanupTrace ctx v ++ [.vkDestroySwapchainKHR v.swapchain]
          ++ v.imageReadySs.map .vkDestroySemaphore) := ⟨_, _, rfl, rfl⟩
  rw [← hvD, ← hwD] at e1 h2 hc2 hg
  simp only at h2 hc2 hg
  have hDold : vD.swapchain = VK_NULL_HANDLE := by rw [hvD]; rfl
  have hDcb : vD.commandBuffers = v.commandBuffers := by rw [hvD]; rfl
  obtain ⟨hs2, hrun2⟩ := recreateSwapchain_within ctx env ⟨vD, wD⟩ _ (Nat.le_refl _) h2
  have hct : createTick vD wD = wD.tick + 1 := by simp [createTick, hDold]
  obtain ⟨v2, w2, n, wc, wb, e2, hwc, hwcn, hbuilt, hw2, hw2n, hsc, hn⟩ :=
    recreateSwapchain_live_built ctx vD hs2 hc2 (by rw [hct]; exact hg)
  rw [hrun2] at e2
  obtain ⟨n1, hcr⟩ := recreateSwapchain_created ctx env ⟨vD, wD⟩ ⟨v2, w2⟩ e2
  have hnn : n1 = n := by rw [hcr.count_eq, hn]
  subst hnn
  obtain ⟨⟨setup, h, htr, hsetup, ⟨vp, sc, hpipe⟩, hplt, hple, hirs, hrds, hfs, hnh⟩, hrec⟩ :=
    hbuilt
  rw [if_neg (not_not.mpr hDold), List.append_nil] at hwc hw2
  have hseg : w2.trace = wD.trace ++ ([.enter .recreateSwapchain,
      .vkGetPhysicalDeviceSurfaceCapabilitiesKHR VK_SUCCESS
        ((env.withResult (env.successAfter
          (recreateSwapchain ctx env ⟨vD, wD⟩).2.world.tick)).capabilities wD.tick)]
      ++ setup ++ recordAll ctx (sizeAt env wD.tick) v2 n1 0
      ++ (freshHandles h maxInflightSubmissions).map (.vkCreateSemaphore VK_SUCCESS)
      ++ (freshHandles (h + maxInflightSubmissions) n1).map (.vkCreateSemaphore VK_SUCCESS)
      ++ (freshHandles (h + maxInflightSubmissions + n1) maxInflightSubmissions).map
          (.vkCreateFence VK_FENCE_CREATE_SIGNALED_BIT VK_SUCCESS)) := by
    rw [hw2, htr, hwc]
    simp only [List.append_assoc]
    rfl
  refine ⟨⟨vD, wD⟩, ⟨v2, w2⟩, n1, _, e1, e2, hseg, ?_, hsc, hcr.imageViews, hcr.framebuffers,
    hcr.commandBuffers (by rw [hDcb]; exact hb), hcr.renderDoneSs, hcr.imageReadySs,
    hcr.submissionFences, ?_, hcr.submissionNr, ⟨vp, sc, ?_⟩, ?_, ?_⟩
  · rw [hcr.count_eq, hct]
  · intro f hf
    simp only at hf
    rw [hfs] at hf
    simp only [List.mem_append, List.mem_map]
    exact Or.inr ⟨f, hf, rfl⟩
  · simp only [List.mem_append]
    exact Or.inl (Or.inl (Or.inl (Or.inl (Or.inr hpipe))))
  · show wD.nextHandle < v2.pipeline
    rw [← hwcn]; exact hplt
  · intro i hi
    obtain ⟨cb, fb, hcb, hfb⟩ := hrec i hi
    obtain ⟨before, after, e⟩ :=
      recordAll_infix ctx (sizeAt env wD.tick) v2 n1 0 i (Nat.zero_le _) (by omega) hcb hfb
    refine ⟨cb, fb, [.enter .recreateSwapchain,
      .vkGetPhysicalDeviceSurfaceCapabilitiesKHR VK_SUCCESS
        ((env.withResult (env.successAfter
          (recreateSwapchain ctx env ⟨vD, wD⟩).2.world.tick)).capabilities wD.tick)]
      ++ setup ++ before,
      after ++ (freshHandles h maxInflightSubmissions).map (.vkCreateSemaphore VK_SUCCESS)
      ++ (freshHandles (h + maxInflightSubmissions) n1).map (.vkCreateSemaphore VK_SUCCESS)
      ++ (freshHandles (h + maxInflightSubmissions + n1) maxInflightSubmissions).map
          (.vkCreateFence VK_FENCE_CREATE_SIGNALED_BIT VK_SUCCESS), hcb, hfb, ?_⟩
    rw [e]
    simp only [List.append_assoc]

theorem recreate_after_degenerate_restores_witness :
    sampleLive.vars.swapchain ≠ VK_NULL_HANDLE
    ∧ sampleLive.vars.commandBuffers.length < 2 ^ 32
    ∧ creatableAt restoredEnv sampleLive.world.tick = false
    ∧ creatableAt restoredEnv
        (recreateSwapchain sampleCtx restoredEnv sampleLive).2.world.tick = true
    ∧ ∃ s1 s2 n seg, recreateSwapchain sampleCtx restoredEnv sampleLive = (.ok false, s1)
      ∧ recreateSwapchain sampleCtx restoredEnv s1 = (.ok true, s2)
      ∧ s2.world.trace = s1.world.trace ++ seg
      ∧ n = toUInt32 (restoredEnv.imageCount (s1.world.tick + 3))
      ∧ s2.vars.swapchain ≠ VK_NULL_HANDLE
      ∧ s2.vars.swapchainImageViews.length = n
      ∧ s2.vars.framebuffers.length = n
      ∧ s2.vars.commandBuffers.length = n
      ∧ s2.vars.renderDoneSs.length = n
      ∧ s2.vars.imageReadySs.length = 2
      ∧ s2.vars.submissionFences.length = 2
      ∧ (∀ f ∈ s2.vars.submissionFences,
          Event.vkCreateFence VK_FENCE_CREATE_SIGNALED_BIT VK_SUCCESS f ∈ seg)
      ∧ s2.vars.submissionNr = 0
      ∧ (∃ viewport scissor,
          Event.vkCreateGraphicsPipelines viewport scissor VK_SUCCESS s2.vars.pipeline ∈ seg)
      ∧ s1.world.nextHandle < s2.vars.pipeline
      ∧ ∀ i, i < n → ∃ cb fb before after, s2.vars.commandBuffers[i]? = some cb
          ∧ s2.vars.framebuffers[i]? = some fb
          ∧ seg = before
              ++ recordTrace sampleCtx (sizeAt restoredEnv s1.world.tick) s2.vars.pipeline cb fb
              ++ after :=
  ⟨by decide!, by decide!, by decide!, by decide!,
    recreate_after_degenerate_restores sampleCtx restoredEnv sampleLive (by decide!)
      (by decide!) (fun _ _ _ => rfl) (by decide!) (fun _ _ _ => rfl) (by decide!)
      (by decide!)⟩


/-! ### The bookkeeping of fences and semaphores -/

theorem mem_freshHandles (n : Nat) : ∀ (first x : Nat),
    x ∈ freshHandles first n ↔ first < x ∧ x ≤ first + n := by
  induction n with
  | zero => intro first x; simp [freshHandles]
  | succ n ih =>
    intro first x
    simp only [freshHandles, List.mem_cons, ih]
    omega

theorem nodup_freshHandles (n : Nat) : ∀ first, (freshHandles first n).Nodup := by
  induction n with
  | zero => intro first; simp [freshHandles]
  | succ n ih =>
    intro first
    simp only [freshHandles, List.nodup_cons, mem_freshHandles]
    exact ⟨by omega, ih _⟩

theorem filterMap_nil_of {α β : Type} (f : α → Option β) (l : List α)
    (h : ∀ a ∈ l, f a = none) : l.filterMap f = [] := by
  induction l with
  | nil => rfl
  | cons a l ih =>
    rw [List.filterMap_cons, h a (List.mem_cons_self _ _)]
    exact ih fun b hb => h b (List.mem_cons_of_mem _ hb)

theorem filterMap_map_some {α β : Type} (f : α → Option β) (g : β → α) (l : List β)
    (h : ∀ b, f (g b) = some b) : (l.map g).filterMap f = l := by
  induction l with
  | nil => rfl
  | cons b l ih => simp [List.filterMap_cons, h, ih]

theorem filterMap_map_none {α β γ : Type} (f : α → Option γ) (g : β → α) (l : List β)
    (h : ∀ b, f (g b) = none) : (l.map g).filterMap f = [] :=
  filterMap_nil_of f _ (by
    intro a ha
    obtain ⟨b, _, rfl⟩ := List.mem_map.mp ha
    exact h b)

/-- An event that neither creates nor destroys a fence or a semaphore. -/
theorem Event.fromSetup_sync {capabilities : VkSurfaceCapabilitiesKHR} {surfaceSize : VkExtent2D}
    {oldSwapchain : Handle} {e : Event}
    (h : Event.fromSetup capabilities surfaceSize oldSwapchain e = true) :
    e.createdFence = none ∧ e.destroyedFence = none ∧ e.createdSemaphore = none
      ∧ e.destroyedSemaphore = none := by
  cases e <;> first | exact ⟨rfl, rfl, rfl, rfl⟩ | simp [Event.fromSetup] at h

theorem Event.lifecycle_unused {e : Event} (h : Event.isLifecycle e = true) :
    e.usedFences = [] ∧ e.usedSemaphores = [] := by
  cases e <;> first | exact ⟨rfl, rfl⟩ | simp [Event.isLifecycle] at h

theorem filterMap_cons_toList {α β : Type} (f : α → Option β) (a : α) (l : List α) :
    (a :: l).filterMap f = (f a).toList ++ l.filterMap f := by
  rw [List.filterMap_cons]
  cases f a <;> rfl

theorem usesLive_append (l1 : List Event) : ∀ (dF dS : List Handle) (l2 : List Event),
    usesLive dF dS (l1 ++ l2)
      = (usesLive dF dS l1
        && usesLive (dF ++ destroyedFences l1) (dS ++ destroyedSemaphores l1) l2) := by
  induction l1 with
  | nil => intro dF dS l2; simp [usesLive, destroyedFences, destroyedSemaphores]
  | cons e l1 ih =>
    intro dF dS l2
    have h1 : destroyedFences (e :: l1) = e.destroyedFence.toList ++ destroyedFences l1 :=
      filterMap_cons_toList _ _ _
    have h2 : destroyedSemaphores (e :: l1)
        = e.destroyedSemaphore.toList ++ destroyedSemaphores l1 := filterMap_cons_toList _ _ _
    rw [List.cons_append, usesLive, usesLive, ih, h1, h2]
    simp only [Bool.and_assoc, List.append_assoc]

theorem usesLive_unused (l : List Event)
    (h : ∀ e ∈ l, e.usedFences = [] ∧ e.usedSemaphores = []) :
    ∀ dF dS, usesLive dF dS l = true := by
  induction l with
  | nil => intro dF dS; rfl
  | cons e l ih =>
    intro dF dS
    obtain ⟨h1, h2⟩ := h e (List.mem_cons_self _ _)
    simp only [usesLive, h1, h2, List.all_nil, Bool.true_and]
    exact ih (fun a ha => h a (List.mem_cons_of_mem _ ha)) _ _

theorem usesLive_frame (v : Vars) (dF dS : List Handle) (l : List Event)
    (h : ∀ e ∈ l, FrameLike v e) (hF : ∀ f ∈ v.submissionFences, f ∉ dF)
    (hS : ∀ x ∈ v.imageReadySs ++ v.renderDoneSs, x ∉ dS) : usesLive dF dS l = true := by
  induction l with
  | nil => rfl
  | cons e l ih =>
    obtain ⟨_, h2, _, h4, h5, h6⟩ := h e (List.mem_cons_self _ _)
    simp only [usesLive, h2, h4, Option.toList, List.append_nil, Bool.and_eq_true,
      List.all_eq_true, decide_eq_true_eq]
    exact ⟨⟨fun f hf => hF f (h5 f hf), fun x hx => hS x (h6 x hx)⟩,
      ih fun a ha => h a (List.mem_cons_of_mem _ ha)⟩

theorem createdFences_append (l1 l2 : List Event) :
    createdFences (l1 ++ l2) = createdFences l1 ++ createdFences l2 :=
  List.filterMap_append _ _ _

theorem destroyedFences_append (l1 l2 : List Event) :
    destroyedFences (l1 ++ l2) = destroyedFences l1 ++ destroyedFences l2 :=
  List.filterMap_append _ _ _

theorem createdSemaphores_append (l1 l2 : List Event) :
    createdSemaphores (l1 ++ l2) = createdSemaphores l1 ++ createdSemaphores l2 :=
  List.filterMap_append _ _ _

theorem destroyedSemaphores_append (l1 l2 : List Event) :
    destroyedSemaphores (l1 ++ l2) = destroyedSemaphores l1 ++ destroyedSemaphores l2 :=
  List.filterMap_append _ _ _

/-- What the cleanup of the old state creates and destroys. -/
theorem cleanupTrace_sync (ctx : Ctx) (v : Vars) :
    createdFences (cleanupTrace ctx v) = []
    ∧ destroyedFences (cleanupTrace ctx v) = v.submissionFences
    ∧ createdSemaphores (cleanupTrace ctx v) = []
    ∧ destroyedSemaphores (cleanupTrace ctx v) = v.renderDoneSs := by
  unfold cleanupTrace
  refine ⟨?_, ?_, ?_, ?_⟩
  · simp only [createdFences_append]
    rw [show createdFences (v.submissionFences.map .vkDestroyFence) = []
        from filterMap_map_none _ _ _ fun _ => rfl,
      show createdFences (v.renderDoneSs.map .vkDestroySemaphore) = []
        from filterMap_map_none _ _ _ fun _ => rfl,
      show createdFences (v.framebuffers.map .vkDestroyFramebuffer) = []
        from filterMap_map_none _ _ _ fun _ => rfl,
      show createdFences (v.swapchainImageViews.map .vkDestroyImageView) = []
        from filterMap_map_none _ _ _ fun _ => rfl]
    rfl
  · simp only [destroyedFences_append]
    rw [show destroyedFences (v.submissionFences.map .vkDestroyFence) = v.submissionFences
        from filterMap_map_some _ _ _ fun _ => rfl,
      show destroyedFences (v.renderDoneSs.map .vkDestroySemaphore) = []
        from filterMap_map_none _ _ _ fun _ => rfl,
      show destroyedFences (v.framebuffers.map .vkDestroyFramebuffer) = []
        from filterMap_map_none _ _ _ fun _ => rfl,
      show destroyedFences (v.swapchainImageViews.map .vkDestroyImageView) = []
        from filterMap_map_none _ _ _ fun _ => rfl]
    simp [destroyedFences, Event.destroyedFence]
  · simp only [createdSemaphores_append]
    rw [show createdSemaphores (v.submissionFences.map .vkDestroyFence) = []
        from filterMap_map_none _ _ _ fun _ => rfl,
      show createdSemaphores (v.renderDoneSs.map .vkDestroySemaphore) = []
        from filterMap_map_none _ _ _ fun _ => rfl,
      show createdSemaphores (v.framebuffers.map .vkDestroyFramebuffer) = []
        from filterMap_map_none _ _ _ fun _ => rfl,
      show createdSemaphores (v.swapchainImageViews.map .vkDestroyImageView) = []
        from filterMap_map_none _ _ _ fun _ => rfl]
    rfl
  · simp only [destroyedSemaphores_append]
    rw [show destroyedSemaphores (v.submissionFences.map .vkDestroyFence) = []
        from filterMap_map_none _ _ _ fun _ => rfl,
      show destroyedSemaphores (v.renderDoneSs.map .vkDestroySemaphore) = v.renderDoneSs
        from filterMap_map_some _ _ _ fun _ => rfl,
      show destroyedSemaphores (v.framebuffers.map .vkDestroyFramebuffer) = []
        from filterMap_map_none _ _ _ fun _ => rfl,
      show destroyedSemaphores (v.swapchainImageViews.map .vkDestroyImageView) = []
        from filterMap_map_none _ _ _ fun _ => rfl]
    simp [destroyedSemaphores, Event.destroyedSemaphore]

/-- What the destruction of the old swapchain and its semaphores creates and destroys. -/
theorem killTrace_sync (v : Vars) :
    createdFences (killTrace v) = []
    ∧ destroyedFences (killTrace v) = []
    ∧ createdSemaphores (killTrace v) = []
    ∧ destroyedSemaphores (killTrace v) = v.imageReadySs := by
  unfold killTrace
  refine ⟨?_, ?_, ?_, ?_⟩
  · exact filterMap_nil_of _ _ (by
      intro e he
      rcases List.mem_cons.mp he with h | h
      · subst h; rfl
      · obtain ⟨x, _, rfl⟩ := List.mem_map.mp h; rfl)
  · exact filterMap_nil_of _ _ (by
      intro e he
      rcases List.mem_cons.mp he with h | h
      · subst h; rfl
      · obtain ⟨x, _, rfl⟩ := List.mem_map.mp h; rfl)
  · exact filterMap_nil_of _ _ (by
      intro e he
      rcases List.mem_cons.mp he with h | h
      · subst h; rfl
      · obtain ⟨x, _, rfl⟩ := List.mem_map.mp h; rfl)
  · show List.filterMap Event.destroyedSemaphore
      (Event.vkDestroySwapchainKHR v.swapchain :: v.imageReadySs.map .vkDestroySemaphore) = _
    rw [List.filterMap_cons]
    exact filterMap_map_some _ _ _ fun _ => rfl

/-- What a list of calls of `Event.fromSetup` creates and destroys: nothing. -/
theorem setup_sync {capabilities : VkSurfaceCapabilitiesKHR} {surfaceSize : VkExtent2D}
    {oldSwapchain : Handle} (l : List Event)
    (h : ∀ e ∈ l, Event.fromSetup capabilities surfaceSize oldSwapchain e = true) :
    createdFences l = [] ∧ destroyedFences l = [] ∧ createdSemaphores l = []
      ∧ destroyedSemaphores l = [] :=
  ⟨filterMap_nil_of _ _ fun e he => (Event.fromSetup_sync (h e he)).1,
    filterMap_nil_of _ _ fun e he => (Event.fromSetup_sync (h e he)).2.1,
    filterMap_nil_of _ _ fun e he => (Event.fromSetup_sync (h e he)).2.2.1,
    filterMap_nil_of _ _ fun e he => (Event.fromSetup_sync (h e he)).2.2.2⟩

theorem semaphoreCreations_sync (l : List Handle) :
    createdFences (l.map (.vkCreateSemaphore VK_SUCCESS)) = []
    ∧ destroyedFences (l.map (.vkCreateSemaphore VK_SUCCESS)) = []
    ∧ createdSemaphores (l.map (.vkCreateSemaphore VK_SUCCESS)) = l
    ∧ destroyedSemaphores (l.map (.vkCreateSemaphore VK_SUCCESS)) = [] :=
  ⟨filterMap_map_none _ _ _ fun _ => rfl, filterMap_map_none _ _ _ fun _ => rfl,
    filterMap_map_some _ _ _ fun _ => by simp [Event.createdSemaphore],
    filterMap_map_none _ _ _ fun _ => rfl⟩

theorem fenceCreations_sync (flags : Nat) (l : List Handle) :
    createdFences (l.map (.vkCreateFence flags VK_SUCCESS)) = l
    ∧ destroyedFences (l.map (.vkCreateFence flags VK_SUCCESS)) = []
    ∧ createdSemaphores (l.map (.vkCreateFence flags VK_SUCCESS)) = []
    ∧ destroyedSemaphores (l.map (.vkCreateFence flags VK_SUCCESS)) = [] :=
  ⟨filterMap_map_some _ _ _ fun _ => by simp [Event.createdFence],
    filterMap_map_none _ _ _ fun _ => rfl, filterMap_map_none _ _ _ fun _ => rfl,
    filterMap_map_none _ _ _ fun _ => rfl⟩

/-- What a returning `recreateSwapchain` creates and destroys, when the vectors are empty
whenever there is no swapchain: it destroys the fences and semaphores of the vectors and
leaves in the vectors the ones it created, with handles not handed out before. -/
theorem recreateSwapchain_sync (ctx : Ctx) (env : Env) (v : Vars) (w : World) (b : Bool)
    (s1 : State) (hret : recreateSwapchain ctx env ⟨v, w⟩ = (.ok b, s1))
    (hempty : v.swapchain = VK_NULL_HANDLE →
      v.submissionFences = [] ∧ v.imageReadySs = [] ∧ v.renderDoneSs = []) :
    ∃ l, s1.world.trace = w.trace ++ l
      ∧ createdFences l = s1.vars.submissionFences
      ∧ destroyedFences l = v.submissionFences
      ∧ createdSemaphores l = s1.vars.imageReadySs ++ s1.vars.renderDoneSs
      ∧ (destroyedSemaphores l).Perm (v.imageReadySs ++ v.renderDoneSs)
      ∧ (∀ x ∈ s1.vars.submissionFences ++ (s1.vars.imageReadySs ++ s1.vars.renderDoneSs),
          w.nextHandle < x ∧ x ≤ s1.world.nextHandle)
      ∧ (s1.vars.submissionFences ++ (s1.vars.imageReadySs ++ s1.vars.renderDoneSs)).Nodup
      ∧ w.nextHandle ≤ s1.world.nextHandle
      ∧ (s1.vars.swapchain = VK_NULL_HANDLE →
          s1.vars.submissionFences = [] ∧ s1.vars.imageReadySs = []
            ∧ s1.vars.renderDoneSs = [])
      ∧ (∀ e ∈ l, e.usedFences = [] ∧ e.usedSemaphores = []) := by
  have hunused : ∀ l, s1.world.trace = w.trace ++ l →
      ∀ e ∈ l, e.usedFences = [] ∧ e.usedSemaphores = [] := by
    intro l hl e he
    obtain ⟨⟨l1, hl1, hp⟩, _, _⟩ := recreateSwapchain_trace ctx env ⟨v, w⟩
    rw [hret] at hl1
    simp only at hl1
    rw [hl] at hl1
    have := List.append_cancel_left hl1
    rw [this] at he
    rcases List.mem_cons.mp he with h | h
    · subst h; exact ⟨rfl, rfl⟩
    · exact Event.lifecycle_unused (hp e h)
  have hh1 : ∀ r caps, createdFences [Event.enter Fn.recreateSwapchain,
      Event.vkGetPhysicalDeviceSurfaceCapabilitiesKHR r caps] = [] := fun _ _ => rfl
  have hh2 : ∀ r caps, destroyedFences [Event.enter Fn.recreateSwapchain,
      Event.vkGetPhysicalDeviceSurfaceCapabilitiesKHR r caps] = [] := fun _ _ => rfl
  have hh3 : ∀ r caps, createdSemaphores [Event.enter Fn.recreateSwapchain,
      Event.vkGetPhysicalDeviceSurfaceCapabilitiesKHR r caps] = [] := fun _ _ => rfl
  have hh4 : ∀ r caps, destroyedSemaphores [Event.enter Fn.recreateSwapchain,
      Event.vkGetPhysicalDeviceSurfaceCapabilitiesKHR r caps] = [] := fun _ _ => rfl
  have hch : env.SucceedsWithin w.tick s1.world.tick :=
    recreateSwapchain_checked ctx env ⟨v, w⟩ b s1 hret
  have hT : (recreateSwapchain ctx env ⟨v, w⟩).2.world.tick ≤ s1.world.tick := by rw [hret]
  obtain ⟨h1, hrun⟩ := recreateSwapchain_within ctx env ⟨v, w⟩ s1.world.tick hT hch
  rw [hret] at hrun
  cases hc : creatableAt env w.tick with
  | false =>
    by_cases hold : v.swapchain = VK_NULL_HANDLE
    · have e := recreateSwapchain_degenerate_fresh ctx v h1 hc hold
      rw [hrun] at e
      simp only [Prod.mk.injEq, Except.ok.injEq] at e
      obtain ⟨_, e⟩ := e
      subst e
      obtain ⟨hf, hi, hr⟩ := hempty hold
      refine ⟨_, rfl, ?_, ?_, ?_, ?_, ?_, ?_, Nat.le_refl _, fun _ => ⟨hf, rfl, hr⟩,
        hunused _ rfl⟩
      · simp [createdFences, Event.createdFence, hf]
      · simp [destroyedFences, Event.destroyedFence, hf]
      · simp [createdSemaphores, Event.createdSemaphore, hr]
      · simp [destroyedSemaphores, Event.destroyedSemaphore, hi, hr]
      · simp [hf, hr]
      · simp [hf, hr]
    · have e := recreateSwapchain_degenerate_old ctx v h1 hc hold
      rw [hrun] at e
      simp only [Prod.mk.injEq, Except.ok.injEq] at e
      obtain ⟨_, e⟩ := e
      subst e
      obtain ⟨c1, c2, c3, c4⟩ := cleanupTrace_sync ctx v
      obtain ⟨k1, k2, k3, k4⟩ := killTrace_sync v
      have hk : [Event.vkDestroySwapchainKHR v.swapchain]
          ++ v.imageReadySs.map .vkDestroySemaphore = killTrace v := rfl
      refine ⟨_, rfl, ?_, ?_, ?_, ?_, ?_, ?_, Nat.le_refl _, fun _ => ⟨rfl, rfl, rfl⟩,
        hunused _ rfl⟩
      · simp only [List.append_assoc]
        rw [hk]
        simp only [createdFences_append, c1, k1, hh1, List.append_nil]
        rfl
      · simp only [List.append_assoc]
        rw [hk]
        simp only [destroyedFences_append, c2, k2, hh2, List.append_nil, List.nil_append]
        try rfl
      · simp only [List.append_assoc]
        rw [hk]
        simp only [createdSemaphores_append, c3, k3, hh3, List.append_nil]
        rfl
      · simp only [List.append_assoc]
        rw [hk]
        simp only [destroyedSemaphores_append, c4, k4, hh4, List.nil_append]
        try exact List.perm_append_comm
      · simp [Vars.afterCleanup]
      · simp [Vars.afterCleanup]
  | true =>
    by_cases hg : createGuards ctx env (snapshotAt env w.tick) (createTick v w)
    swap
    · obtain ⟨msg, e⟩ := recreateSwapchain_guard ctx v h1 hc hg
      rw [hrun] at e
      simp at e
    obtain ⟨v1, w1, n, wc, wb, e, hwc, hwcn, hbuilt, hw1, hw1n, hsc, hn⟩ :=
      recreateSwapchain_live_built ctx v h1 hc hg
    rw [hrun] at e
    simp only [Prod.mk.injEq, Except.ok.injEq] at e
    obtain ⟨_, e⟩ := e
    subst e
    obtain ⟨⟨setup, h, htr, hsetup, _, hplt, hple, hirs, hrds, hfs, hnh⟩, _⟩ := hbuilt
    obtain ⟨c1, c2, c3, c4⟩ := cleanupTrace_sync ctx v
    obtain ⟨k1, k2, k3, k4⟩ := killTrace_sync v
    obtain ⟨p1, p2, p3, p4⟩ := setup_sync setup hsetup
    obtain ⟨q1, q2, q3, q4⟩ := setup_sync _
      (recordAll_fromSetup ctx (snapshotAt env w.tick) (sizeAt env w.tick) v.swapchain v1 n 0)
    obtain ⟨a1, a2, a3, a4⟩ := semaphoreCreations_sync (freshHandles h maxInflightSubmissions)
    obtain ⟨b1, b2, b3, b4⟩ :=
      semaphoreCreations_sync (freshHandles (h + maxInflightSubmissions) n)
    obtain ⟨f1, f2, f3, f4⟩ := fenceCreations_sync VK_FENCE_CREATE_SIGNALED_BIT
      (freshHandles (h + maxInflightSubmissions + n) maxInflightSubmissions)
    have hwh : w.nextHandle ≤ h := by
      have h3 : wc.nextHandle < v1.pipeline := hplt
      have h4 : v1.pipeline ≤ h := hple
      have h5 : wc.nextHandle = w.nextHandle := hwcn
      rw [h5] at h3
      exact Nat.le_of_lt (Nat.lt_of_lt_of_le h3 h4)
    have hfs1 : v1.submissionFences
        = freshHandles (h + maxInflightSubmissions + n) maxInflightSubmissions := hfs
    have hirs1 : v1.imageReadySs = freshHandles h maxInflightSubmissions := hirs
    have hrds1 : v1.renderDoneSs = freshHandles (h + maxInflightSubmissions) n := hrds
    have hnh1 : wb.nextHandle = h + maxInflightSubmissions + n + maxInflightSubmissions := hnh
    have hw1n1 : w1.nextHandle = wb.nextHandle := hw1n
    have htrace : w1.trace = w.trace ++ ([.enter .recreateSwapchain,
        .vkGetPhysicalDeviceSurfaceCapabilitiesKHR VK_SUCCESS (env.capabilities w.tick)]
        ++ (if v.swapchain ≠ VK_NULL_HANDLE then cleanupTrace ctx v else [])
        ++ setup ++ recordAll ctx (sizeAt env w.tick) v1 n 0
        ++ (freshHandles h maxInflightSubmissions).map (.vkCreateSemaphore VK_SUCCESS)
        ++ (freshHandles (h + maxInflightSubmissions) n).map (.vkCreateSemaphore VK_SUCCESS)
        ++ (freshHandles (h + maxInflightSubmissions + n) maxInflightSubmissions).map
            (.vkCreateFence VK_FENCE_CREATE_SIGNALED_BIT VK_SUCCESS)
        ++ (if v.swapchain ≠ VK_NULL_HANDLE then killTrace v else [])) := by
      rw [hw1, htr, hwc]
      simp only [List.append_assoc]
      rfl
    refine ⟨_, htrace, ?_, ?_, ?_, ?_, ?_, ?_,
      by show w.nextHandle ≤ w1.nextHandle; rw [hw1n1, hnh1]; omega,
      fun h0 => absurd h0 hsc, hunused _ htrace⟩
    · show _ = v1.submissionFences
      simp only [createdFences_append, hh1, p1, q1, a1, b1, f1, hfs1]
      by_cases hold : v.swapchain = VK_NULL_HANDLE
      · simp [hold, createdFences]
      · simp [hold, c1, k1]
    · simp only [destroyedFences_append, hh2, p2, q2, a2, b2, f2]
      by_cases hold : v.swapchain = VK_NULL_HANDLE
      · simp [hold, destroyedFences, (hempty hold).1]
      · simp [hold, c2, k2]
    · show _ = v1.imageReadySs ++ v1.renderDoneSs
      simp only [createdSemaphores_append, hh3, p3, q3, a3, b3, f3, hirs1, hrds1]
      by_cases hold : v.swapchain = VK_NULL_HANDLE
      · simp [hold, createdSemaphores]
      · simp [hold, c3, k3]
    · simp only [destroyedSemaphores_append, hh4, p4, q4, a4, b4, f4]
      by_cases hold : v.swapchain = VK_NULL_HANDLE
      · simp [hold, destroyedSemaphores, (hempty hold).2.1, (hempty hold).2.2]
      · simp only [if_pos (show v.swapchain ≠ VK_NULL_HANDLE from hold), c4, k4,
          List.nil_append, List.append_nil]
        exact List.perm_append_comm
    · intro x hx
      show w.nextHandle < x ∧ x ≤ w1.nextHandle
      have hx1 : x ∈ v1.submissionFences ++ (v1.imageReadySs ++ v1.renderDoneSs) := hx
      rw [hfs1, hirs1, hrds1] at hx1
      rw [hw1n1, hnh1]
      simp only [List.mem_append, mem_freshHandles] at hx1
      clear hx
      refine ⟨?_, ?_⟩
      · rcases hx1 with hh | hh | hh <;> exact Nat.lt_of_le_of_lt (by omega) hh.1
      · rcases hx1 with hh | hh | hh <;> exact Nat.le_trans hh.2 (by omega)
    · show (v1.submissionFences ++ (v1.imageReadySs ++ v1.renderDoneSs)).Nodup
      rw [hfs1, hirs1, hrds1]
      rw [List.nodup_append]
      refine ⟨nodup_freshHandles _ _, ?_, ?_⟩
      · rw [List.nodup_append]
        refine ⟨nodup_freshHandles _ _, nodup_freshHandles _ _, ?_⟩
        intro x hx1 hx2
        rw [mem_freshHandles] at hx1 hx2
        omega
      · intro x hx1 hx2
        simp only [List.mem_append, mem_freshHandles] at hx1 hx2
        omega


theorem mem_of_lookup {xs : List Handle} {i : Nat} {x : Handle} (h : xs[i]? = some x) :
    x ∈ xs :=
  List.mem_iff_getElem?.mpr ⟨i, h⟩

/-- A returning `recreateSwapchain` keeps the bookkeeping of fences and semaphores sound. -/
theorem SyncSound.afterRecreate {ctx : Ctx} {env : Env} {s s1 : State} {b : Bool} (h : SyncSound s)
    (hret : recreateSwapchain ctx env s = (.ok b, s1)) : SyncSound s1 := by
  rcases s with ⟨v, w⟩
  obtain ⟨l, hl, cF, dF, cS, dS, hb, hnd, hle, hemp, hun⟩ :=
    recreateSwapchain_sync ctx env v w b s1 hret h.empty
  have hndF := (List.nodup_append.1 hnd).1
  have hndS := (List.nodup_append.1 hnd).2.1
  refine ⟨?_, ?_, ?_, ?_, ?_, ?_, hemp, ?_⟩
  · rw [hl, createdFences_append, destroyedFences_append, cF, dF]
    exact h.fences.append_right _
  · rw [hl, createdSemaphores_append, destroyedSemaphores_append, cS]
    exact (h.semaphores.trans (List.Perm.append_left _ dS.symm)).append_right _
  · rw [hl, createdFences_append, cF, List.nodup_append]
    refine ⟨h.fences_nodup, hndF, ?_⟩
    intro x hx1 hx2
    have h1 : x ≤ w.nextHandle := h.fences_le x hx1
    have h2 : w.nextHandle < x := (hb x (List.mem_append_left _ hx2)).1
    exact absurd h1 (Nat.not_le.mpr h2)
  · rw [hl, createdSemaphores_append, cS, List.nodup_append]
    refine ⟨h.semaphores_nodup, hndS, ?_⟩
    intro x hx1 hx2
    have h1 : x ≤ w.nextHandle := h.semaphores_le x hx1
    have h2 : w.nextHandle < x := (hb x (List.mem_append_right _ hx2)).1
    exact absurd h1 (Nat.not_le.mpr h2)
  · intro x hx
    rw [hl, createdFences_append, cF] at hx
    rcases List.mem_append.mp hx with h1 | h1
    · exact Nat.le_trans (h.fences_le x h1) hle
    · exact (hb x (List.mem_append_left _ h1)).2
  · intro x hx
    rw [hl, createdSemaphores_append, cS] at hx
    rcases List.mem_append.mp hx with h1 | h1
    · exact Nat.le_trans (h.semaphores_le x h1) hle
    · exact (hb x (List.mem_append_right _ h1)).2
  · rw [hl, usesLive_append, h.live, usesLive_unused l hun]
    rfl

/-- Calls of a frame keep the bookkeeping of fences and semaphores sound. -/
theorem SyncSound.frameStep {s s1 : State} {l : List Event} (h : SyncSound s)
    (hsw : s1.vars.swapchain = s.vars.swapchain)
    (hF : s1.vars.submissionFences = s.vars.submissionFences)
    (hI : s1.vars.imageReadySs = s.vars.imageReadySs)
    (hR : s1.vars.renderDoneSs = s.vars.renderDoneSs)
    (hn : s1.world.nextHandle = s.world.nextHandle)
    (hl : s1.world.trace = s.world.trace ++ l)
    (hfr : ∀ e ∈ l, FrameLike s.vars e) : SyncSound s1 := by
  have p1 : createdFences l = [] := filterMap_nil_of _ _ fun e he => (hfr e he).1
  have p2 : destroyedFences l = [] := filterMap_nil_of _ _ fun e he => (hfr e he).2.1
  have p3 : createdSemaphores l = [] := filterMap_nil_of _ _ fun e he => (hfr e he).2.2.1
  have p4 : destroyedSemaphores l = [] := filterMap_nil_of _ _ fun e he => (hfr e he).2.2.2.1
  refine ⟨?_, ?_, ?_, ?_, ?_, ?_, ?_, ?_⟩
  · rw [hl, createdFences_append, destroyedFences_append, p1, p2, hF]
    simpa using h.fences
  · rw [hl, createdSemaphores_append, destroyedSemaphores_append, p3, p4, hI, hR]
    simpa using h.semaphores
  · rw [hl, createdFences_append, p1]; simpa using h.fences_nodup
  · rw [hl, createdSemaphores_append, p3]; simpa using h.semaphores_nodup
  · rw [hl, createdFences_append, p1, hn]; simpa using h.fences_le
  · rw [hl, createdSemaphores_append, p3, hn]; simpa using h.semaphores_le
  · rw [hsw, hF, hI, hR]; exact h.empty
  · rw [hl, usesLive_append, h.live]
    have hdF := (List.nodup_append.1 (h.fences.nodup_iff.mp h.fences_nodup)).2.2
    have hdS := (List.nodup_append.1 (h.semaphores.nodup_iff.mp h.semaphores_nodup)).2.2
    rw [usesLive_frame s.vars _ _ l hfr]
    · rfl
    · intro f hf hd
      simp only [List.nil_append] at hd
      exact hdF hd hf
    · intro x hx hd
      simp only [List.nil_append] at hd
      exact hdS hd hx

theorem FrameLike.enterF (v : Vars) (fn : Fn) : FrameLike v (.enter fn) :=
  ⟨rfl, rfl, rfl, rfl, by simp [Event.usedFences], by simp [Event.usedSemaphores]⟩

theorem FrameLike.waitF {v : Vars} {f : Handle} (hf : f ∈ v.submissionFences) (r : VkResult) :
    FrameLike v (.vkWaitForFences f r) :=
  ⟨rfl, rfl, rfl, rfl, by simpa [Event.usedFences] using hf, by simp [Event.usedSemaphores]⟩

theorem FrameLike.resetF {v : Vars} {f : Handle} (hf : f ∈ v.submissionFences) (r : VkResult) :
    FrameLike v (.vkResetFences f r) :=
  ⟨rfl, rfl, rfl, rfl, by simpa [Event.usedFences] using hf, by simp [Event.usedSemaphores]⟩

theorem FrameLike.acquireF {v : Vars} {sem : Handle} (hs : sem ∈ v.imageReadySs)
    (sc : Handle) (r : VkResult) (i : Nat) :
    FrameLike v (.vkAcquireNextImageKHR sc sem r i) :=
  ⟨rfl, rfl, rfl, rfl, by simp [Event.usedFences],
    by simpa [Event.usedSemaphores] using Or.inl hs⟩

theorem FrameLike.submitF {v : Vars} {sem rd f : Handle} (hs : sem ∈ v.imageReadySs)
    (hd : rd ∈ v.renderDoneSs) (hf : f ∈ v.submissionFences) (q : Handle) (stage : Nat)
    (cbs : List Handle) (r : VkResult) :
    FrameLike v (.vkQueueSubmit q [sem] stage cbs [rd] f r) := by
  refine ⟨rfl, rfl, rfl, rfl, ?_, ?_⟩
  · intro x hx
    simp only [Event.usedFences] at hx
    split at hx
    · simp at hx
    · simp at hx; subst hx; exact hf
  · intro x hx
    simp only [Event.usedSemaphores, List.mem_append, List.mem_singleton] at hx
    rcases hx with h | h
    · subst h; exact List.mem_append_left _ hs
    · subst h; exact List.mem_append_right _ hd

theorem FrameLike.drainF {v : Vars} {sem : Handle} (hs : sem ∈ v.imageReadySs)
    (q : Handle) (stage : Nat) (r : VkResult) :
    FrameLike v (.vkQueueSubmit q [sem] stage [] [] VK_NULL_HANDLE r) := by
  refine ⟨rfl, rfl, rfl, rfl, by simp [Event.usedFences], ?_⟩
  intro x hx
  simp only [Event.usedSemaphores, List.append_nil, List.mem_singleton] at hx
  subst hx
  exact List.mem_append_left _ hs

theorem FrameLike.presentF {v : Vars} {rd : Handle} (hd : rd ∈ v.renderDoneSs)
    (q sc : Handle) (i : Nat) (r : VkResult) :
    FrameLike v (.vkQueuePresentKHR q rd sc i r) :=
  ⟨rfl, rfl, rfl, rfl, by simp [Event.usedFences],
    by simpa [Event.usedSemaphores] using Or.inr hd⟩

/-- Every exit of the `try` block of `render` leaves the vectors and the handle counter as
they are and has made calls of a frame only. -/
theorem Attempt.frameLike {ctx : Ctx} {env : Env} {v : Vars} {w : World} {flag : Bool}
    {r : Except Exn Unit} {s1 : State} (h : Attempt ctx env v w flag r s1) :
    s1.vars.swapchain = v.swapchain ∧ s1.vars.submissionFences = v.submissionFences
      ∧ s1.vars.imageReadySs = v.imageReadySs ∧ s1.vars.renderDoneSs = v.renderDoneSs
      ∧ s1.world.nextHandle = w.nextHandle
      ∧ ∃ l, s1.world.trace = w.trace ++ l ∧ ∀ e ∈ l, FrameLike v e := by
  cases h with
  | noFence _ => exact ⟨rfl, rfl, rfl, rfl, rfl, [], by simp, by simp⟩
  | waitFailed f hf h0 =>
    refine ⟨rfl, rfl, rfl, rfl, rfl, _, rfl, ?_⟩
    intro e he
    simp only [List.mem_singleton] at he
    subst he
    exact .waitF (mem_of_lookup hf) _
  | resetFailed f hf h0 h1 =>
    refine ⟨rfl, rfl, rfl, rfl, rfl, _, rfl, ?_⟩
    intro e he
    simp only [List.mem_cons, List.mem_singleton, List.not_mem_nil, or_false] at he
    rcases he with h | h <;> subst h
    · exact .waitF (mem_of_lookup hf) _
    · exact .resetF (mem_of_lookup hf) _
  | noSemaphore f hf h0 h1 hs =>
    refine ⟨rfl, rfl, rfl, rfl, rfl, _, rfl, ?_⟩
    intro e he
    simp only [List.mem_cons, List.mem_singleton, List.not_mem_nil, or_false] at he
    rcases he with h | h <;> subst h
    · exact .waitF (mem_of_lookup hf) _
    · exact .resetF (mem_of_lookup hf) _
  | acquireFailed f sem hf h0 h1 hs h2 =>
    refine ⟨rfl, rfl, rfl, rfl, rfl, _, rfl, ?_⟩
    intro e he
    simp only [List.mem_cons, List.mem_singleton, List.not_mem_nil, or_false] at he
    rcases he with h | h | h <;> subst h
    · exact .waitF (mem_of_lookup hf) _
    · exact .resetF (mem_of_lookup hf) _
    · exact .acquireF (mem_of_lookup hs) _ _ _
  | noResources f sem hf h0 h1 hs h2 hr =>
    refine ⟨rfl, rfl, rfl, rfl, rfl, _, rfl, ?_⟩
    intro e he
    simp only [List.mem_cons, List.mem_singleton, List.not_mem_nil, or_false] at he
    rcases he with h | h | h <;> subst h
    · exact .waitF (mem_of_lookup hf) _
    · exact .resetF (mem_of_lookup hf) _
    · exact .acquireF (mem_of_lookup hs) _ _ _
  | submitFailed f sem cb rd hf h0 h1 hs h2 hc hd h3 =>
    refine ⟨rfl, rfl, rfl, rfl, rfl, _, rfl, ?_⟩
    intro e he
    simp only [List.mem_cons, List.mem_singleton, List.not_mem_nil, or_false] at he
    rcases he with h | h | h | h <;> subst h
    · exact .waitF (mem_of_lookup hf) _
    · exact .resetF (mem_of_lookup hf) _
    · exact .acquireF (mem_of_lookup hs) _ _ _
    · exact .submitF (mem_of_lookup hs) (mem_of_lookup hd) (mem_of_lookup hf) _ _ _ _
  | presentFailed f sem cb rd hf h0 h1 hs h2 hc hd h3 h4 =>
    refine ⟨rfl, rfl, rfl, rfl, rfl, _, rfl, ?_⟩
    intro e he
    simp only [List.mem_cons, List.mem_singleton, List.not_mem_nil, or_false] at he
    rcases he with h | h | h | h | h <;> subst h
    · exact .waitF (mem_of_lookup hf) _
    · exact .resetF (mem_of_lookup hf) _
    · exact .acquireF (mem_of_lookup hs) _ _ _
    · exact .submitF (mem_of_lookup hs) (mem_of_lookup hd) (mem_of_lookup hf) _ _ _ _
    · exact .presentF (mem_of_lookup hd) _ _ _ _
  | done f sem cb rd hf h0 h1 hs h2 hc hd h3 h4 =>
    refine ⟨rfl, rfl, rfl, rfl, rfl, _, rfl, ?_⟩
    intro e he
    simp only [List.mem_cons, List.mem_singleton, List.not_mem_nil, or_false] at he
    rcases he with h | h | h | h | h <;> subst h
    · exact .waitF (mem_of_lookup hf) _
    · exact .resetF (mem_of_lookup hf) _
    · exact .acquireF (mem_of_lookup hs) _ _ _
    · exact .submitF (mem_of_lookup hs) (mem_of_lookup hd) (mem_of_lookup hf) _ _ _ _
    · exact .presentF (mem_of_lookup hd) _ _ _ _

theorem retry_ok_run (ctx : Ctx) (env : Env) (again : M Unit) (s s1 : State)
    (h : (recreateSwapchain ctx env >>= fun _ => again) s = (.ok (), s1)) :
    ∃ b s3, recreateSwapchain ctx env s = (.ok b, s3) ∧ again s3 = (.ok (), s1) := by
  rw [mBind_apply] at h
  rcases hr : recreateSwapchain ctx env s with ⟨r, s3⟩
  rw [hr] at h
  cases r with
  | error e => simp at h
  | ok b => exact ⟨b, s3, rfl, h⟩

/-- A handler of `render` that returns: the world `w3` in which it called
`recreateSwapchain`, which returned, and the frame it then started again, which returned. -/
theorem renderCatch_ok_run (ctx : Ctx) (env : Env) (again : M Unit) (flag : Bool)
    (source : Api) (result : VkResult) (v : Vars) (w : World) (s1 : State)
    (h : renderCatch ctx env again flag source result ⟨v, w⟩ = (.ok (), s1)) :
    ∃ w3 b s3, recreateSwapchain ctx env ⟨v, w3⟩ = (.ok b, s3) ∧ again s3 = (.ok (), s1)
      ∧ (w3 = w ∨ ∃ sem, v.imageReadySs[v.submissionNr]? = some sem
          ∧ w3 = w.after 1 [.enter .cleanupUnsafeSemaphore,
              .vkQueueSubmit ctx.graphicsQueue [sem] VK_PIPELINE_STAGE_BOTTOM_OF_PIPE_BIT [] []
                VK_NULL_HANDLE VK_SUCCESS]) := by
  by_cases hr : result = VK_SUBOPTIMAL_KHR ∨ result = VK_ERROR_OUT_OF_DATE_KHR
  · rw [renderCatch_transient ctx env again flag source hr] at h
    by_cases hc : flag = true ∧ result = VK_SUBOPTIMAL_KHR
    · rw [if_pos hc] at h
      cases hs : v.imageReadySs[v.submissionNr]? with
      | none => rw [hs] at h; simp at h
      | some sem =>
        rw [hs] at h
        by_cases h0 : env.result w.tick = VK_SUCCESS
        · simp only [if_pos h0] at h
          obtain ⟨b, s3, h3, h4⟩ := retry_ok_run ctx env again _ s1 h
          exact ⟨_, b, s3, h3, h4, Or.inr ⟨sem, rfl, rfl⟩⟩
        · simp only [if_neg h0] at h
          simp at h
    · rw [if_neg hc] at h
      obtain ⟨b, s3, h3, h4⟩ := retry_ok_run ctx env again _ s1 h
      exact ⟨w, b, s3, h3, h4, Or.inl rfl⟩
  · rw [renderCatch_fatal ctx env again flag source hr] at h
    simp at h

/-- A returning `render` keeps the bookkeeping of fences and semaphores sound. -/
theorem render_syncSound (ctx : Ctx) (env : Env) (fuel : Nat) :
    ∀ (s s1 : State), SyncSound s → render ctx env fuel s = (.ok (), s1) → SyncSound s1 := by
  induction fuel with
  | zero => intro s s1 _ h; simp [render_zero] at h
  | succ fuel ih =>
    intro s s1 hs h
    rcases s with ⟨v, w⟩
    rw [render_succ] at h
    by_cases hsw : v.swapchain = VK_NULL_HANDLE
    · rw [if_pos hsw] at h; simp at h
    · rw [if_neg hsw] at h
      have hE : SyncSound ⟨v, w.after 0 [.enter .render]⟩ :=
        hs.frameStep rfl rfl rfl rfl rfl rfl (by
          intro e he
          simp only [List.mem_singleton] at he
          subst he
          exact .enterF _ _)
      have hA := renderTry_attempt ctx env v (w.after 0 [.enter .render])
      rcases hr : renderTry ctx env ⟨v, w.after 0 [.enter .render]⟩ with ⟨flag, r, s2⟩
      rw [hr] at hA h
      obtain ⟨a1, a2, a3, a4, a5, l, hl, hfr⟩ := hA.frameLike
      have h2 : SyncSound s2 := hE.frameStep a1 a2 a3 a4 a5 hl hfr
      cases r with
      | ok u =>
        simp only [Prod.mk.injEq, true_and] at h
        subst h
        exact h2
      | error e =>
        have hv := hA.vars_eq
        cases e with
        | vulkanResult source result =>
          simp only at h
          rcases s2 with ⟨v2, w2⟩
          simp only at hv
          subst hv
          obtain ⟨w3, b, s3, h3, h4, hw3⟩ :=
            renderCatch_ok_run ctx env (render ctx env fuel) flag source result v2 w2 s1 h
          have h5 : SyncSound ⟨v2, w3⟩ := by
            rcases hw3 with rfl | ⟨sem, hsem, rfl⟩
            · exact h2
            · exact h2.frameStep rfl rfl rfl rfl rfl rfl (by
                intro e he
                simp only [List.mem_cons, List.mem_singleton, List.not_mem_nil, or_false] at he
                rcases he with h | h <;> subst h
                · exact .enterF _ _
                · exact .drainF (mem_of_lookup hsem) _ _ _)
          exact ih s3 s1 (h5.afterRecreate h3) h4
        | text msg => simp at h
        | assertion => simp at h
        | outOfRange => simp at h
        | fuel => simp at h

theorem runAll_syncSound (ctx : Ctx) (env : Env) (ops : List Op) :
    ∀ (s s1 : State), SyncSound s → runAll ctx env ops s = (.ok (), s1) → SyncSound s1 := by
  induction ops with
  | nil =>
    intro s s1 hs h
    simp only [runAll, mPure_apply, Prod.mk.injEq, true_and] at h
    subst h
    exact hs
  | cons op ops ih =>
    intro s s1 hs h
    cases op with
    | recreateSwapchain =>
      simp only [runAll, mBind_apply] at h
      rcases hr : recreateSwapchain ctx env s with ⟨r, s2⟩
      rw [hr] at h
      cases r with
      | error e => simp at h
      | ok b => exact ih s2 s1 (hs.afterRecreate hr) h
    | render fuel =>
      simp only [runAll, mBind_apply] at h
      rcases hr : render ctx env fuel s with ⟨r, s2⟩
      rw [hr] at h
      cases r with
      | error e => simp at h
      | ok u => exact ih s2 s1 (render_syncSound ctx env fuel s s2 hs hr) h

theorem syncSound_initial : SyncSound State.initial :=
  ⟨List.Perm.refl _, List.Perm.refl _, List.nodup_nil, List.nodup_nil,
    fun _ h => by simp [createdFences, State.initial, World.initial] at h,
    fun _ h => by simp [createdSemaphores, State.initial, World.initial] at h,
    fun _ => ⟨rfl, rfl, rfl⟩, rfl⟩

theorem teardown_ok (env : Env) (v : Vars) (w : World) (s2 : State)
    (h : teardown env ⟨v, w⟩ = (.ok (), s2)) :
    s2.world.trace = w.trace ++ teardownTrace v := by
  by_cases h0 : env.result w.tick = VK_SUCCESS
  · have : teardown env ⟨v, w⟩ = (.ok (),
        ⟨{ v with renderDoneSs := [], framebuffers := [], swapchainImageViews := [],
                   imageReadySs := [], submissionFences := [] },
          { w with tick := w.tick + 1, trace := w.trace ++ teardownTrace v }⟩) := by
      simp [teardown, mBind_apply, killFences_apply, killSemaphores_apply,
        killFramebuffers_apply, killSwapchainImageViews_apply, killPipeline, killSwapchain, h0,
        teardownTrace]
    rw [this] at h
    simp only [Prod.mk.injEq, true_and] at h
    rw [← h]
  · have : (teardown env ⟨v, w⟩).1 = .error (.vulkanResult .vkDeviceWaitIdle (env.result w.tick)) := by
      simp [teardown, mBind_apply, RESULT_HANDLER_failure h0]
    rw [h] at this
    simp at this

/-- What the teardown creates and destroys. -/
theorem teardownTrace_sync (v : Vars) :
    createdFences (teardownTrace v) = []
    ∧ destroyedFences (teardownTrace v) = v.submissionFences
    ∧ createdSemaphores (teardownTrace v) = []
    ∧ destroyedSemaphores (teardownTrace v) = v.renderDoneSs ++ v.imageReadySs
    ∧ ∀ e ∈ teardownTrace v, e.usedFences = [] ∧ e.usedSemaphores = [] := by
  unfold teardownTrace
  refine ⟨?_, ?_, ?_, ?_, ?_⟩
  · simp only [createdFences_append]
    rw [show createdFences (v.submissionFences.map .vkDestroyFence) = []
        from filterMap_map_none _ _ _ fun _ => rfl,
      show createdFences (v.renderDoneSs.map .vkDestroySemaphore) = []
        from filterMap_map_none _ _ _ fun _ => rfl,
      show createdFences (v.imageReadySs.map .vkDestroySemaphore) = []
        from filterMap_map_none _ _ _ fun _ => rfl,
      show createdFences (v.framebuffers.map .vkDestroyFramebuffer) = []
        from filterMap_map_none _ _ _ fun _ => rfl,
      show createdFences (v.swapchainImageViews.map .vkDestroyImageView) = []
        from filterMap_map_none _ _ _ fun _ => rfl]
    rfl
  · simp only [destroyedFences_append]
    rw [show destroyedFences (v.submissionFences.map .vkDestroyFence) = v.submissionFences
        from filterMap_map_some _ _ _ fun _ => rfl,
      show destroyedFences (v.renderDoneSs.map .vkDestroySemaphore) = []
        from filterMap_map_none _ _ _ fun _ => rfl,
      show destroyedFences (v.imageReadySs.map .vkDestroySemaphore) = []
        from filterMap_map_none _ _ _ fun _ => rfl,
      show destroyedFences (v.framebuffers.map .vkDestroyFramebuffer) = []
        from filterMap_map_none _ _ _ fun _ => rfl,
      show destroyedFences (v.swapchainImageViews.map .vkDestroyImageView) = []
        from filterMap_map_none _ _ _ fun _ => rfl]
    simp [destroyedFences, Event.destroyedFence]
  · simp only [createdSemaphores_append]
    rw [show createdSemaphores (v.submissionFences.map .vkDestroyFence) = []
        from filterMap_map_none _ _ _ fun _ => rfl,
      show createdSemaphores (v.renderDoneSs.map .vkDestroySemaphore) = []
        from filterMap_map_none _ _ _ fun _ => rfl,
      show createdSemaphores (v.imageReadySs.map .vkDestroySemaphore) = []
        from filterMap_map_none _ _ _ fun _ => rfl,
      show createdSemaphores (v.framebuffers.map .vkDestroyFramebuffer) = []
        from filterMap_map_none _ _ _ fun _ => rfl,
      show createdSemaphores (v.swapchainImageViews.map .vkDestroyImageView) = []
        from filterMap_map_none _ _ _ fun _ => rfl]
    rfl
  · simp only [destroyedSemaphores_append]
    rw [show destroyedSemaphores (v.submissionFences.map .vkDestroyFence) = []
        from filterMap_map_none _ _ _ fun _ => rfl,
      show destroyedSemaphores (v.renderDoneSs.map .vkDestroySemaphore) = v.renderDoneSs
        from filterMap_map_some _ _ _ fun _ => rfl,
      show destroyedSemaphores (v.imageReadySs.map .vkDestroySemaphore) = v.imageReadySs
        from filterMap_map_some _ _ _ fun _ => rfl,
      show destroyedSemaphores (v.framebuffers.map .vkDestroyFramebuffer) = []
        from filterMap_map_none _ _ _ fun _ => rfl,
      show destroyedSemaphores (v.swapchainImageViews.map .vkDestroyImageView) = []
        from filterMap_map_none _ _ _ fun _ => rfl]
    simp [destroyedSemaphores, Event.destroyedSemaphore]
  · intro e he
    simp only [List.mem_append, List.mem_map, List.mem_singleton] at he
    rcases he with ((((((h | ⟨x, _, h⟩) | h) | ⟨x, _, h⟩) | ⟨x, _, h⟩) | h) | ⟨x, _, h⟩)
      | ⟨x, _, h⟩ <;> subst h <;> exact ⟨rfl, rfl⟩

/-- C18: over every run from the start of the program that consists of calls of
`recreateSwapchain` and of `render` in any number and order, whatever the environment
answers, all returning normally, followed by the teardown of `start()` returning normally:
every fence and every semaphore (image-ready or render-done) that was created is destroyed
exactly once and nothing else is destroyed (the destroyed ones are, up to order, the created
ones, which are pairwise different), and no call is given a fence or a semaphore that was
destroyed before the call. -/
theorem sync_objects_destroyed_exactly_once (ctx : Ctx) (env : Env) (ops : List Op)
    (s2 : State)
    (hrun : (runAll ctx env ops >>= fun _ => teardown env) State.initial = (.ok (), s2)) :
    (destroyedFences s2.world.trace).Perm (createdFences s2.world.trace)
    ∧ (createdFences s2.world.trace).Nodup
    ∧ (∀ f ∈ createdFences s2.world.trace, (destroyedFences s2.world.trace).count f = 1)
    ∧ (destroyedSemaphores s2.world.trace).Perm (createdSemaphores s2.world.trace)
    ∧ (createdSemaphores s2.world.trace).Nodup
    ∧ (∀ x ∈ createdSemaphores s2.world.trace,
        (destroyedSemaphores s2.world.trace).count x = 1)
    ∧ usesLive [] [] s2.world.trace = true := by
  rw [mBind_apply] at hrun
  rcases hr : runAll ctx env ops State.initial with ⟨r, ⟨v1, w1⟩⟩
  rw [hr] at hrun
  cases r with
  | error e => simp at hrun
  | ok u =>
    simp only at hrun
    have hs := runAll_syncSound ctx env ops State.initial ⟨v1, w1⟩ syncSound_initial hr
    have ht := teardown_ok env v1 w1 s2 hrun
    obtain ⟨t1, t2, t3, t4, t5⟩ := teardownTrace_sync v1
    have hF : (destroyedFences s2.world.trace).Perm (createdFences s2.world.trace) := by
      rw [ht, destroyedFences_append, createdFences_append, t1, t2, List.append_nil]
      exact hs.fences.symm
    have hFn : (createdFences s2.world.trace).Nodup := by
      rw [ht, createdFences_append, t1, List.append_nil]
      exact hs.fences_nodup
    have hS : (destroyedSemaphores s2.world.trace).Perm (createdSemaphores s2.world.trace) := by
      rw [ht, destroyedSemaphores_append, createdSemaphores_append, t3, t4, List.append_nil]
      exact (hs.semaphores.trans (List.Perm.append_left _ List.perm_append_comm)).symm
    have hSn : (createdSemaphores s2.world.trace).Nodup := by
      rw [ht, createdSemaphores_append, t3, List.append_nil]
      exact hs.semaphores_nodup
    refine ⟨hF, hFn, ?_, hS, hSn, ?_, ?_⟩
    · intro f hf
      rw [hF.count_eq]
      exact List.count_eq_one_of_mem hFn hf
    · intro x hx
      rw [hS.count_eq]
      exact List.count_eq_one_of_mem hSn hx
    · rw [ht, usesLive_append, hs.live, usesLive_unused _ t5]
      rfl

theorem sync_objects_destroyed_exactly_once_witness :
    (runAll sampleCtx sampleEnv [.recreateSwapchain, .render 1, .recreateSwapchain]
      >>= fun _ => teardown sampleEnv) State.initial = (.ok (), afterTeardown)
    ∧ createdFences afterTeardown.world.trace ≠ []
    ∧ (destroyedFences afterTeardown.world.trace).Perm (createdFences afterTeardown.world.trace)
    ∧ (createdFences afterTeardown.world.trace).Nodup
    ∧ (∀ f ∈ createdFences afterTeardown.world.trace,
        (destroyedFences afterTeardown.world.trace).count f = 1)
    ∧ (destroyedSemaphores afterTeardown.world.trace).Perm
        (createdSemaphores afterTeardown.world.trace)
    ∧ (createdSemaphores afterTeardown.world.trace).Nodup
    ∧ (∀ x ∈ createdSemaphores afterTeardown.world.trace,
        (destroyedSemaphores afterTeardown.world.trace).count x = 1)
    ∧ usesLive [] [] afterTeardown.world.trace = true :=
  ⟨by decide!, by decide!,
    sync_objects_destroyed_exactly_once sampleCtx sampleEnv
      [.recreateSwapchain, .render 1, .recreateSwapchain] afterTeardown (by decide!)⟩

/-! ### Submissions in flight -/

theorem inflightOk_append (l1 l2 : List Event) :
    ∀ out, inflightOk out (l1 ++ l2)
      = (inflightOk out l1 && inflightOk (l1.foldl inflightStep out) l2) := by
  induction l1 with
  | nil => intro out; simp [inflightOk]
  | cons e l1 ih => intro out; simp [inflightOk, ih, Bool.and_assoc]

theorem outstanding_append (l1 l2 : List Event) :
    outstanding (l1 ++ l2) = l2.foldl inflightStep (outstanding l1) := by
  simp [outstanding, List.foldl_append]

theorem RingGood.length_le {ring out : List Handle} (h : RingGood ring out) :
    out.length ≤ ring.length :=
  (List.subperm_of_subset h.1 h.2).length_le

theorem RingGood.filterG {ring out : List Handle} (h : RingGood ring out)
    (p : Handle → Bool) : RingGood ring (out.filter p) :=
  ⟨h.1.filter p, fun f hf => h.2 f (List.mem_of_mem_filter hf)⟩

theorem RingGood.consG {ring out : List Handle} (h : RingGood ring out) {f : Handle}
    (hf : f ∈ ring) (hn : f ∉ out) : RingGood ring (f :: out) :=
  ⟨List.nodup_cons.mpr ⟨hn, h.1⟩, fun x hx => by
    rcases List.mem_cons.mp hx with rfl | hx
    · exact hf
    · exact h.2 x hx⟩

theorem RingGood.nilG (ring : List Handle) : RingGood ring [] :=
  ⟨List.nodup_nil, fun _ h => absurd h (List.not_mem_nil _)⟩

theorem stepsGood_head {ring : List Handle} {l : List Event} {out : List Handle}
    (h : stepsGood ring out l) : RingGood ring out := by
  cases l with
  | nil => exact h
  | cons e l => exact h.1

theorem stepsGood_ok {ring : List Handle} (hr : ring.length ≤ maxInflightSubmissions)
    (l : List Event) : ∀ out, stepsGood ring out l →
      inflightOk out l = true ∧ RingGood ring (l.foldl inflightStep out) := by
  induction l with
  | nil => intro out h; exact ⟨rfl, h⟩
  | cons e l ih =>
    intro out h
    obtain ⟨h1, h2⟩ := ih _ h.2.2
    have h3 : (inflightStep out e).length ≤ maxInflightSubmissions :=
      Nat.le_trans (stepsGood_head h.2.2).length_le hr
    refine ⟨?_, h2⟩
    simp only [inflightOk, h.2.1, h1, Bool.true_and, Bool.and_true, decide_eq_true_eq]
    exact h3

theorem stepsGood_append_left {ring : List Handle} (l1 l2 : List Event) :
    ∀ out, stepsGood ring out (l1 ++ l2) → stepsGood ring out l1 := by
  induction l1 with
  | nil => intro out h; exact stepsGood_head h
  | cons e l1 ih => intro out h; exact ⟨h.1, h.2.1, ih _ h.2.2⟩

theorem stepsGood_take {ring : List Handle} {l : List Event} {out : List Handle}
    (h : stepsGood ring out l) (k : Nat) : stepsGood ring out (l.take k) := by
  rw [← List.take_append_drop k l] at h
  exact stepsGood_append_left _ _ _ h

/-- A complete pass through the `try` block keeps the unobserved submissions on different
fences of the ring: the wait frees the fence before the submission takes it. -/
theorem stepsGood_frame {ring out : List Handle} (h : RingGood ring out) {f : Handle}
    (hf : f ∈ ring) (sc sem : Handle) (i : Nat) (q1 q2 cb rd : Handle)
    (r1 r2 r3 r4 : VkResult) :
    stepsGood ring out (frameTrace f sc sem i q1 q2 cb rd r1 r2 r3 r4) := by
  have hfree : f ∉ out.filter (fun x => decide (x ≠ f)) := by
    intro hm
    have := (List.mem_filter.mp hm).2
    simp at this
  have h1 : RingGood ring (out.filter (fun x => decide (x ≠ f))) := h.filterG _
  have h2 : RingGood ring
      (if f ≠ VK_NULL_HANDLE ∧ r3 = VK_SUCCESS then
        f :: out.filter (fun x => decide (x ≠ f))
      else out.filter (fun x => decide (x ≠ f))) := by
    split
    · exact h1.consG hf hfree
    · exact h1
  refine ⟨h, rfl, ?_, rfl, ?_, rfl, ?_, ?_, ?_, rfl, ?_⟩
  · simpa [inflightStep, unwaitedStep] using h1
  · simpa [inflightStep, unwaitedStep] using h1
  · simpa [inflightStep, unwaitedStep] using h1
  · simp only [inflightStep, unwaitedStep, if_true, submitsFree, decide_eq_true_eq]
    exact fun _ => hfree
  · simpa [inflightStep, unwaitedStep] using h2
  · simpa [inflightStep, unwaitedStep, stepsGood] using h2

theorem stepsGood_waitFailed {ring out : List Handle} (h : RingGood ring out) (f : Handle)
    {r : VkResult} (hr : r ≠ VK_SUCCESS) : stepsGood ring out [.vkWaitForFences f r] := by
  refine ⟨h, rfl, ?_⟩
  simpa [inflightStep, unwaitedStep, hr, stepsGood] using h

/-- The drain of `cleanupUnsafeSemaphore` is a submission without a fence. -/
theorem stepsGood_drain {ring out : List Handle} (h : RingGood ring out) (fn : Fn)
    (q sem : Handle) (stage : Nat) (r : VkResult) :
    stepsGood ring out
      [.enter fn, .vkQueueSubmit q [sem] stage [] [] VK_NULL_HANDLE r] :=
  ⟨h, rfl, h, by simp [submitsFree], by simpa [inflightStep, unwaitedStep, stepsGood] using h⟩

theorem Event.lifecycle_step {e : Event} (he : e.isLifecycle = true) (out : List Handle) :
    (inflightStep out e = out ∨ inflightStep out e = []) ∧ submitsFree out e = true
      ∧ (e = .vkDeviceWaitIdle VK_SUCCESS → inflightStep out e = []) := by
  cases e <;> simp [Event.isLifecycle] at he <;>
    simp [inflightStep, unwaitedStep, submitsFree]
  rename_i r
  by_cases h : r = VK_SUCCESS <;> simp [h]

/-- Calls of the lifecycle issue no submission, and a successful `vkDeviceWaitIdle` among
them leaves no submission unobserved. -/
theorem stepsGood_lifecycle {ring : List Handle} (l : List Event) :
    ∀ out, (∀ e ∈ l, Event.isLifecycle e = true) → RingGood ring out →
      stepsGood ring out l
        ∧ (l.foldl inflightStep out = out ∨ l.foldl inflightStep out = [])
        ∧ (.vkDeviceWaitIdle VK_SUCCESS ∈ l → l.foldl inflightStep out = []) := by
  induction l with
  | nil => intro out _ h; exact ⟨h, Or.inl rfl, fun h => absurd h (List.not_mem_nil _)⟩
  | cons e l ih =>
    intro out hl h
    obtain ⟨h1, h2, h3⟩ := Event.lifecycle_step (hl e (List.mem_cons_self _ _)) out
    have hg : RingGood ring (inflightStep out e) := by
      rcases h1 with h1 | h1 <;> rw [h1]
      · exact h
      · exact RingGood.nilG ring
    obtain ⟨i1, i2, i3⟩ := ih (inflightStep out e)
      (fun x hx => hl x (List.mem_cons_of_mem _ hx)) hg
    refine ⟨⟨h, h2, i1⟩, ?_, ?_⟩
    · simp only [List.foldl_cons]
      rcases i2 with i2 | i2
      · rw [i2]; exact h1
      · exact Or.inr i2
    · intro hm
      simp only [List.foldl_cons]
      rcases List.mem_cons.mp hm with hm | hm
      · have h0 := h3 hm.symm
        rcases i2 with i2 | i2
        · rw [i2]; exact h0
        · exact i2
      · exact i3 hm

theorem InflightSound.afterI {v : Vars} {w : World} (h : InflightSound ⟨v, w⟩) (n : Nat)
    {l : List Event} (hg : stepsGood v.submissionFences (outstanding w.trace) l) :
    InflightSound ⟨v, w.after n l⟩ := by
  obtain ⟨h1, h2⟩ := stepsGood_ok h.size l _ hg
  refine ⟨?_, ?_, h.size, h.empty⟩
  · show inflightOk [] (w.trace ++ l) = true
    rw [inflightOk_append]
    have h0 : inflightOk [] w.trace = true := h.ok
    rw [h0]
    exact h1
  · show RingGood v.submissionFences (outstanding (w.trace ++ l))
    rw [outstanding_append]
    exact h2

theorem InflightSound.advance {v : Vars} {w : World} (h : InflightSound ⟨v, w⟩) (k : Nat) :
    InflightSound ⟨{ v with submissionNr := k }, w⟩ :=
  ⟨h.ok, h.good, h.size, h.empty⟩

/-- Every exit of the `try` block keeps the submissions in bounds. -/
theorem Attempt.inflight {ctx : Ctx} {env : Env} {v : Vars} {w : World} {flag : Bool}
    {r : Except Exn Unit} {s1 : State} (h : InflightSound ⟨v, w⟩)
    (hA : Attempt ctx env v w flag r s1) : InflightSound s1 := by
  have hg : RingGood v.submissionFences (outstanding w.trace) := h.good
  cases hA with
  | noFence _ => exact h
  | waitFailed f hf h0 => exact h.afterI 1 (stepsGood_waitFailed hg f h0)
  | resetFailed f hf h0 h1 =>
    exact h.afterI 2 (stepsGood_take (stepsGood_frame hg (mem_of_lookup hf) 0 0 0 0 0 0 0
      (env.result (w.tick + 1)) 0 0 0) 2)
  | noSemaphore f hf h0 h1 hs =>
    exact h.afterI 2 (stepsGood_take (stepsGood_frame hg (mem_of_lookup hf) 0 0 0 0 0 0 0
      VK_SUCCESS 0 0 0) 2)
  | acquireFailed f sem hf h0 h1 hs h2 =>
    exact h.afterI 3 (stepsGood_take (stepsGood_frame hg (mem_of_lookup hf) v.swapchain sem
      (acquiredIndex env w) 0 0 0 0 VK_SUCCESS (env.result (w.tick + 2)) 0 0) 3)
  | noResources f sem hf h0 h1 hs h2 hr =>
    exact h.afterI 3 (stepsGood_take (stepsGood_frame hg (mem_of_lookup hf) v.swapchain sem
      (acquiredIndex env w) 0 0 0 0 VK_SUCCESS VK_SUCCESS 0 0) 3)
  | submitFailed f sem cb rd hf h0 h1 hs h2 hc hd h3 =>
    exact h.afterI 4 (stepsGood_take (stepsGood_frame hg (mem_of_lookup hf) v.swapchain sem
      (acquiredIndex env w) ctx.graphicsQueue 0 cb rd VK_SUCCESS VK_SUCCESS
      (env.result (w.tick + 3)) 0) 4)
  | presentFailed f sem cb rd hf h0 h1 hs h2 hc hd h3 h4 =>
    exact h.afterI 5 (stepsGood_frame hg (mem_of_lookup hf) v.swapchain sem
      (acquiredIndex env w) ctx.graphicsQueue ctx.presentQueue cb rd VK_SUCCESS VK_SUCCESS
      VK_SUCCESS (env.result (w.tick + 4)))
  | done f sem cb rd hf h0 h1 hs h2 hc hd h3 h4 =>
    exact (h.afterI 5 (stepsGood_frame hg (mem_of_lookup hf) v.swapchain sem
      (acquiredIndex env w) ctx.graphicsQueue ctx.presentQueue cb rd VK_SUCCESS VK_SUCCESS
      VK_SUCCESS VK_SUCCESS)).advance _

/-- The value a returning `recreateSwapchain` returns tells whether there is a swapchain. -/
theorem recreateSwapchain_ok_swapchain (ctx : Ctx) (env : Env) (v : Vars) (w : World)
    (b : Bool) (s1 : State) (hret : recreateSwapchain ctx env ⟨v, w⟩ = (.ok b, s1)) :
    b = decide (s1.vars.swapchain ≠ VK_NULL_HANDLE) := by
  obtain ⟨cl, cr, post, _, _, _, _, _, _, _, hok, _⟩ := recreateSwapchain_shape ctx env v w
  have h0 := (hok b s1 hret).1
  rw [recreateSwapchain_stages ctx env v w h0] at hret
  split at hret
  · split at hret
    · split at hret
      · simp only [Prod.mk.injEq, Except.ok.injEq] at hret
        rw [← hret.1, ← hret.2]
      · simp at hret
    · simp at hret
  · simp at hret

theorem M.Keeps.bindK {α β : Type} {m : M α} {f : α → M β} (hm : M.Keeps m)
    (hf : ∀ a, M.Keeps (f a)) : M.Keeps (m >>= f) := by
  intro s h
  obtain ⟨h1, h2⟩ := hm s h
  rw [mBind_apply]
  rcases hr : m s with ⟨r, s1⟩
  rw [hr] at h1 h2
  cases r with
  | error e => exact ⟨h1, fun a ha => by simp at ha⟩
  | ok a => exact hf a s1 (h2 a rfl)

/-- Function `recreateSwapchain` keeps the submissions in bounds however it ends, and when
it returns no submission is unobserved: with an old swapchain it has waited for the device
to be idle, and without one there was no fence to submit with. -/
theorem recreateSwapchain_keeps (ctx : Ctx) (env : Env) :
    M.Keeps (recreateSwapchain ctx env) := by
  intro s h
  rcases s with ⟨v, w⟩
  have hgood : RingGood v.submissionFences (outstanding w.trace) := h.good
  obtain ⟨⟨l, hl, hlife⟩, _, _⟩ := recreateSwapchain_trace ctx env ⟨v, w⟩
  obtain ⟨g1, g2, g3⟩ := @stepsGood_lifecycle v.submissionFences l (outstanding w.trace)
    hlife hgood
  have hg : stepsGood v.submissionFences (outstanding w.trace)
      (.enter .recreateSwapchain :: l) := ⟨hgood, rfl, g1⟩
  obtain ⟨k1, _⟩ := stepsGood_ok h.size _ _ hg
  obtain ⟨cl, cr, post, htr, _, _, _, _, _, _, hok2, _⟩ := recreateSwapchain_shape ctx env v w
  rcases hr : recreateSwapchain ctx env ⟨v, w⟩ with ⟨r, s1⟩
  rw [hr] at hl htr
  simp only at hl htr
  have hok : inflightOk [] s1.world.trace = true := by
    rw [hl, inflightOk_append]
    have h0 : inflightOk [] w.trace = true := h.ok
    rw [h0]
    exact k1
  refine ⟨hok, ?_⟩
  intro b hb
  simp only at hb
  subst hb
  have hout : outstanding s1.world.trace = [] := by
    rw [hl, outstanding_append]
    show l.foldl inflightStep (outstanding w.trace) = []
    by_cases hold : v.swapchain = VK_NULL_HANDLE
    · have he : v.submissionFences = [] := (h.empty hold).1
      have hnil : outstanding w.trace = [] :=
        List.eq_nil_iff_forall_not_mem.mpr fun f hf => by
          have := hgood.2 f hf
          rw [he] at this
          exact absurd this (List.not_mem_nil _)
      rcases g2 with g | g
      · rw [g]; exact hnil
      · exact g
    · have hcl := ((hok2 b s1 hr).2 hold).1
      have hll : .enter .recreateSwapchain :: l
          = [.enter .recreateSwapchain,
            .vkGetPhysicalDeviceSurfaceCapabilitiesKHR (env.result w.tick)
              (env.capabilities w.tick)] ++ cl ++ cr ++ post := by
        rw [hl] at htr
        simp only [List.append_assoc] at htr ⊢
        exact List.append_cancel_left htr
      apply g3
      have hm : Event.vkDeviceWaitIdle VK_SUCCESS ∈ .enter .recreateSwapchain :: l := by
        rw [hll, hcl]
        simp [cleanupTrace]
      rcases List.mem_cons.mp hm with hm | hm
      · cases hm
      · exact hm
  obtain ⟨l2, _, _, _, _, _, _, _, _, hemp, _⟩ :=
    recreateSwapchain_sync ctx env v w b s1 hr h.empty
  refine ⟨hok, ?_, ?_, hemp⟩
  · rw [hout]; exact RingGood.nilG _
  · by_cases hs : s1.vars.swapchain = VK_NULL_HANDLE
    · rw [(hemp hs).1]; exact Nat.zero_le _
    · have hb := recreateSwapchain_ok_swapchain ctx env v w b s1 hr
      have hb1 : b = true := by rw [hb]; exact decide_eq_true hs
      subst hb1
      obtain ⟨n, hc⟩ := recreateSwapchain_created ctx env _ _ hr
      exact Nat.le_of_eq hc.submissionFences

/-- Function `render` keeps the submissions in bounds, however it ends. -/
theorem render_keeps (ctx : Ctx) (env : Env) (fuel : Nat) : M.Keeps (render ctx env fuel) := by
  induction fuel with
  | zero => intro s h; exact ⟨h.ok, fun a ha => by simp [render_zero] at ha⟩
  | succ fuel ih =>
    intro s h
    rcases s with ⟨v, w⟩
    have hE : InflightSound ⟨v, w.after 0 [.enter .render]⟩ :=
      h.afterI 0 ⟨h.good, rfl, h.good⟩
    rw [render_succ]
    by_cases hsw : v.swapchain = VK_NULL_HANDLE
    · rw [if_pos hsw]
      exact ⟨hE.ok, fun a ha => by simp at ha⟩
    · rw [if_neg hsw]
      have hA := renderTry_attempt ctx env v (w.after 0 [.enter .render])
      rcases hr : renderTry ctx env ⟨v, w.after 0 [.enter .render]⟩ with ⟨flag, r, s2⟩
      rw [hr] at hA
      have h2 : InflightSound s2 := Attempt.inflight hE hA
      cases r with
      | ok u => exact ⟨h2.ok, fun _ _ => h2⟩
      | error e =>
        cases e with
        | vulkanResult source result =>
          simp only
          rcases s2 with ⟨v2, w2⟩
          have hretry : M.Keeps (recreateSwapchain ctx env >>= fun _ => render ctx env fuel) :=
            .bindK (recreateSwapchain_keeps ctx env) fun _ => ih
          by_cases ht : result = VK_SUBOPTIMAL_KHR ∨ result = VK_ERROR_OUT_OF_DATE_KHR
          · rw [renderCatch_transient ctx env (render ctx env fuel) flag source ht]
            by_cases hc : flag = true ∧ result = VK_SUBOPTIMAL_KHR
            · rw [if_pos hc]
              cases hs : v2.imageReadySs[v2.submissionNr]? with
              | none => exact ⟨h2.ok, fun a ha => by simp at ha⟩
              | some sem =>
                have h3 := fun r => h2.afterI 1 (stepsGood_drain h2.good .cleanupUnsafeSemaphore
                  ctx.graphicsQueue sem VK_PIPELINE_STAGE_BOTTOM_OF_PIPE_BIT r)
                by_cases h0 : env.result w2.tick = VK_SUCCESS
                · simp only [if_pos h0]
                  exact hretry _ (h3 VK_SUCCESS)
                · simp only [if_neg h0]
                  exact ⟨(h3 _).ok, fun a ha => by simp at ha⟩
            · rw [if_neg hc]
              exact hretry _ h2
          · rw [renderCatch_fatal ctx env (render ctx env fuel) flag source ht]
            exact ⟨h2.ok, fun a ha => by simp at ha⟩
        | text msg => exact ⟨h2.ok, fun a ha => by simp at ha⟩
        | assertion => exact ⟨h2.ok, fun a ha => by simp at ha⟩
        | outOfRange => exact ⟨h2.ok, fun a ha => by simp at ha⟩
        | fuel => exact ⟨h2.ok, fun a ha => by simp at ha⟩

theorem runAll_keeps (ctx : Ctx) (env : Env) (ops : List Op) : M.Keeps (runAll ctx env ops) := by
  induction ops with
  | nil => intro s h; exact ⟨h.ok, fun _ _ => h⟩
  | cons op ops ih =>
    cases op with
    | recreateSwapchain =>
      show M.Keeps (recreateSwapchain ctx env >>= fun _ => runAll ctx env ops)
      exact .bindK (recreateSwapchain_keeps ctx env) fun _ => ih
    | render fuel =>
      show M.Keeps (render ctx env fuel >>= fun _ => runAll ctx env ops)
      exact .bindK (render_keeps ctx env fuel) fun _ => ih

theorem inflightSound_initial : InflightSound State.initial :=
  ⟨rfl, RingGood.nilG _, Nat.zero_le _, fun _ => ⟨rfl, rfl, rfl⟩⟩

/-- A trace that passes `inflightOk` is in bounds after each of its calls. -/
theorem inflightOk_upto (l : List Event) :
    ∀ out, inflightOk out l = true → out.length ≤ maxInflightSubmissions →
      ∀ p, p <+: l → (p.foldl inflightStep out).length ≤ maxInflightSubmissions
        ∧ ∀ e, p ++ [e] <+: l → submitsFree (p.foldl inflightStep out) e = true := by
  induction l with
  | nil =>
    intro out _ ho p hp
    have hp0 : p = [] := List.prefix_nil.mp hp
    subst hp0
    refine ⟨ho, fun e he => ?_⟩
    have := List.prefix_nil.mp he
    simp at this
  | cons e0 l ih =>
    intro out hok ho p hp
    simp only [inflightOk, Bool.and_eq_true, decide_eq_true_eq] at hok
    obtain ⟨⟨c1, c2⟩, c3⟩ := hok
    rcases List.prefix_cons_iff.mp hp with rfl | ⟨t, rfl, ht⟩
    · refine ⟨ho, fun e he => ?_⟩
      have he1 : e = e0 := by
        have := List.prefix_cons_iff.mp he
        simp at this
        obtain ⟨_, ⟨h1, _⟩, _⟩ := this
        exact h1
      rw [he1]
      exact c1
    · obtain ⟨i1, i2⟩ := ih _ c3 c2 t ht
      refine ⟨i1, fun e he => i2 e ?_⟩
      exact (List.cons_prefix_cons.mp he).2

/-- C13 (counterexample): counting as outstanding every submission whose fence has not been
waited on since is not bounded by `maxInflightSubmissions`. After the start-up
`recreateSwapchain`, the first `render()` submits with fence 20; the second one waits on
fence 21, its acquire reports `VK_ERROR_OUT_OF_DATE_KHR`, and its handler recreates the
swapchain, which waits for the device to be idle and destroys fences 20 and 21 without
waiting on them; the frames drawn afterwards submit with the new fences 38 and 39. All
calls return normally, and three submissions (fences 39, 38 and 20) have a fence that was
never waited on, while only two are not covered by a fence wait or the device wait. -/
theorem unwaited_submissions_exceed_ring :
    (runAll sampleCtx outOfDateSecondFrameEnv
        [.recreateSwapchain, .render 1, .render 2, .render 1] State.initial).1 = .ok ()
      ∧ unwaited recreatedRingTrace = [39, 38, 20]
      ∧ maxInflightSubmissions < (unwaited recreatedRingTrace).length
      ∧ Event.vkDeviceWaitIdle VK_SUCCESS ∈ recreatedRingTrace
      ∧ Event.vkDestroyFence 20 ∈ recreatedRingTrace
      ∧ outstanding recreatedRingTrace = [39, 38] := by
  decide!

/-- C13 (amended): at every point of any sequence of `recreateSwapchain()` and `render()`
calls made from the initial state, whatever the API calls report and however the calls end,
the number of queue submissions issued with a fence and not since observed complete by the
CPU (by a successful wait on their fence or by a successful `vkDeviceWaitIdle`) is at most
`maxInflightSubmissions`, and a successful submission takes a fence only when no unobserved
submission holds it: a ring slot is submitted only after its previous submission was
observed complete. -/
theorem submissions_in_flight_bounded (ctx : Ctx) (env : Env) (ops : List Op)
    (p : List Event) (hp : p <+: (runAll ctx env ops State.initial).2.world.trace) :
    (outstanding p).length ≤ maxInflightSubmissions
      ∧ ∀ queue waits stage commandBuffers signals fence,
          p ++ [.vkQueueSubmit queue waits stage commandBuffers signals fence VK_SUCCESS]
              <+: (runAll ctx env ops State.initial).2.world.trace →
            fence ≠ VK_NULL_HANDLE → fence ∉ outstanding p := by
  have hk := (runAll_keeps ctx env ops State.initial inflightSound_initial).1
  obtain ⟨h1, h2⟩ := inflightOk_upto _ [] hk (Nat.zero_le _) p hp
  refine ⟨h1, fun queue waits stage commandBuffers signals fence hq hf => ?_⟩
  have h3 := h2 _ hq
  simp only [submitsFree, decide_eq_true_eq] at h3
  exact h3 ⟨hf, trivial⟩

theorem submissions_in_flight_bounded_witness :
    beforeLastSubmit <+: recreatedRingTrace
      ∧ (outstanding beforeLastSubmit).length ≤ maxInflightSubmissions
      ∧ (39 : Handle) ∉ outstanding beforeLastSubmit :=
  ⟨by decide!,
    (submissions_in_flight_bounded sampleCtx outOfDateSecondFrameEnv
      [.recreateSwapchain, .render 1, .render 2, .render 1] beforeLastSubmit (by decide!)).1,
    (submissions_in_flight_bounded sampleCtx outOfDateSecondFrameEnv
      [.recreateSwapchain, .render 1, .render 2, .render 1] beforeLastSubmit (by decide!)).2
      sampleCtx.graphicsQueue [34] VK_PIPELINE_STAGE_COLOR_ATTACHMENT_OUTPUT_BIT [13] [36] 39
      (by decide!) (by decide)⟩

/-! ### Start-up functions -/

/-- C22 (counterexample): with `minImageCount` = 0xFFFFFFFF the sum `minImageCount + 1`
wraps to 0 in 32-bit unsigned arithmetic, so the requested image count is 0, below
`minImageCount`, both when there is no upper limit (`maxImageCount` = 0) and when
`minImageCount` <= `maxImageCount` = 0xFFFFFFFF. -/
theorem myMinImageCount_wraps :
    (wrappingCapabilities.minImageCount ≤ wrappingCapabilities.maxImageCount
        ∨ wrappingCapabilities.maxImageCount = 0)
      ∧ myMinImageCount wrappingCapabilities = 0
      ∧ ¬ wrappingCapabilities.minImageCount ≤ myMinImageCount wrappingCapabilities
      ∧ (wrappingBoundedCapabilities.minImageCount ≤ wrappingBoundedCapabilities.maxImageCount
        ∨ wrappingBoundedCapabilities.maxImageCount = 0)
      ∧ myMinImageCount wrappingBoundedCapabilities = 0
      ∧ ¬ wrappingBoundedCapabilities.minImageCount
          ≤ myMinImageCount wrappingBoundedCapabilities := by
  decide

/-- C22 (amended): for every capabilities value the image count `initSwapchain` requests is
`min(minImageCount + 1, maxImageCount)` when `maxImageCount` is not 0 and
`minImageCount + 1` when it is 0, the sum being taken in 32-bit unsigned arithmetic, and it
is at most `maxImageCount` when `maxImageCount` is not 0; when `minImageCount` is below
0xFFFFFFFF the sum does not wrap, and then, whenever `minImageCount <= maxImageCount` or
`maxImageCount = 0`, the requested count is at least `minImageCount`. -/
theorem myMinImageCount_clamped (capabilities : VkSurfaceCapabilitiesKHR) :
    (capabilities.maxImageCount ≠ 0 →
        myMinImageCount capabilities
          = min ((capabilities.minImageCount + 1) % 2 ^ 32) capabilities.maxImageCount)
      ∧ (capabilities.maxImageCount = 0 →
        myMinImageCount capabilities = (capabilities.minImageCount + 1) % 2 ^ 32)
      ∧ (capabilities.maxImageCount ≠ 0 →
        myMinImageCount capabilities ≤ capabilities.maxImageCount)
      ∧ (capabilities.minImageCount < 0xFFFFFFFF →
        (capabilities.minImageCount + 1) % 2 ^ 32 = capabilities.minImageCount + 1)
      ∧ (capabilities.minImageCount < 0xFFFFFFFF →
        (capabilities.minImageCount ≤ capabilities.maxImageCount
          ∨ capabilities.maxImageCount = 0) →
        capabilities.minImageCount ≤ myMinImageCount capabilities) := by
  have hw : capabilities.minImageCount < 0xFFFFFFFF →
      toUInt32 (capabilities.minImageCount + 1) = capabilities.minImageCount + 1 := by
    intro hmin
    unfold toUInt32
    exact Nat.mod_eq_of_lt (by omega)
  refine ⟨fun h0 => by simp [myMinImageCount, h0, toUInt32],
    fun h0 => by simp [myMinImageCount, h0, toUInt32], ?_, hw, ?_⟩
  · intro h0
    unfold myMinImageCount
    rw [if_pos h0]
    exact Nat.min_le_right _ _
  · intro hmin h
    unfold myMinImageCount
    rw [hw hmin]
    split
    · rename_i h0
      rcases h with h | h
      · exact Nat.le_min.mpr ⟨Nat.le_succ _, h⟩
      · exact absurd h h0
    · exact Nat.le_succ _

/-- The amended C22 on the sample surface, which has two to eight images: three images are
requested. -/
theorem myMinImageCount_clamped_witness :
    sampleCapabilities.minImageCount < 0xFFFFFFFF
      ∧ myMinImageCount sampleCapabilities = 3
      ∧ sampleCapabilities.minImageCount ≤ myMinImageCount sampleCapabilities :=
  ⟨by decide, by decide,
    (myMinImageCount_clamped sampleCapabilities).2.2.2.2 (by decide) (Or.inl (by decide))⟩

theorem chooseSurfaceFormat_first (l : List VkSurfaceFormatKHR) :
    ∀ c1 c2, (∃ f ∈ l, f.format = VK_FORMAT_B8G8R8A8_UNORM) →
      l.find? (fun f => decide (f.format = VK_FORMAT_B8G8R8A8_UNORM))
        = some (chooseSurfaceFormat l c1 c2).1 := by
  induction l with
  | nil => intro c1 c2 h; simp at h
  | cons f l ih =>
    intro c1 c2 h
    by_cases hf : f.format = VK_FORMAT_B8G8R8A8_UNORM
    · simp [chooseSurfaceFormat, hf]
    · have h1 : ∃ g ∈ l, g.format = VK_FORMAT_B8G8R8A8_UNORM := by
        obtain ⟨g, hg, hg1⟩ := h
        rcases List.mem_cons.mp hg with rfl | hg
        · exact absurd hg1 hf
        · exact ⟨g, hg, hg1⟩
      simp only [chooseSurfaceFormat, if_neg hf, List.find?_cons, hf, decide_False]
      exact ih _ _ h1

theorem chooseSurfaceFormat_none (l : List VkSurfaceFormatKHR) :
    ∀ c1 c2, (¬ ∃ f ∈ l, f.format = VK_FORMAT_B8G8R8A8_UNORM) →
      (chooseSurfaceFormat l c1 c2).1 = c1
      ∧ ((¬ ∃ f ∈ l, f.format = VK_FORMAT_B8G8R8A8_SRGB) → (chooseSurfaceFormat l c1 c2).2 = c2)
      ∧ ((∃ f ∈ l, f.format = VK_FORMAT_B8G8R8A8_SRGB) →
          (chooseSurfaceFormat l c1 c2).2 ∈ l
          ∧ (chooseSurfaceFormat l c1 c2).2.format = VK_FORMAT_B8G8R8A8_SRGB
          ∧ (l.filter (fun f => decide (f.format = VK_FORMAT_B8G8R8A8_SRGB))).getLast?
              = some (chooseSurfaceFormat l c1 c2).2) := by
  induction l with
  | nil => intro c1 c2 _; exact ⟨rfl, fun _ => rfl, fun h => by simp at h⟩
  | cons f l ih =>
    intro c1 c2 h
    have hf : f.format ≠ VK_FORMAT_B8G8R8A8_UNORM := fun hf => h ⟨f, List.mem_cons_self _ _, hf⟩
    have hl : ¬ ∃ g ∈ l, g.format = VK_FORMAT_B8G8R8A8_UNORM :=
      fun ⟨g, hg, hg1⟩ => h ⟨g, List.mem_cons_of_mem _ hg, hg1⟩
    simp only [chooseSurfaceFormat, if_neg hf]
    obtain ⟨i1, i2, i3⟩ := ih c1 (if f.format = VK_FORMAT_B8G8R8A8_SRGB then f else c2) hl
    refine ⟨i1, ?_, ?_⟩
    · intro hs
      have hs1 : f.format ≠ VK_FORMAT_B8G8R8A8_SRGB :=
        fun hf => hs ⟨f, List.mem_cons_self _ _, hf⟩
      have hs2 : ¬ ∃ g ∈ l, g.format = VK_FORMAT_B8G8R8A8_SRGB :=
        fun ⟨g, hg, hg1⟩ => hs ⟨g, List.mem_cons_of_mem _ hg, hg1⟩
      rw [i2 hs2, if_neg hs1]
    · intro hs
      by_cases hs2 : ∃ g ∈ l, g.format = VK_FORMAT_B8G8R8A8_SRGB
      · obtain ⟨j1, j2, j3⟩ := i3 hs2
        refine ⟨List.mem_cons_of_mem _ j1, j2, ?_⟩
        have hne : l.filter (fun f => decide (f.format = VK_FORMAT_B8G8R8A8_SRGB)) ≠ [] := by
          intro hnil
          rw [hnil] at j3
          simp at j3
        by_cases hs1 : f.format = VK_FORMAT_B8G8R8A8_SRGB
        · rw [List.filter_cons_of_pos (by simpa using hs1)]
          obtain ⟨x, xs, hx⟩ := List.exists_cons_of_ne_nil hne
          rw [hx] at j3 ⊢
          rw [List.getLast?_cons_cons]
          exact j3
        · rw [List.filter_cons_of_neg (by simpa using hs1)]
          exact j3
      · have hs1 : f.format = VK_FORMAT_B8G8R8A8_SRGB := by
          obtain ⟨g, hg, hg1⟩ := hs
          rcases List.mem_cons.mp hg with rfl | hg
          · exact hg1
          · exact absurd ⟨g, hg, hg1⟩ hs2
        have hnil : l.filter (fun f => decide (f.format = VK_FORMAT_B8G8R8A8_SRGB)) = [] := by
          rw [List.filter_eq_nil_iff]
          intro g hg hg1
          exact hs2 ⟨g, hg, by simpa using hg1⟩
        rw [i2 hs2, if_pos hs1]
        refine ⟨List.mem_cons_self _ _, hs1, ?_⟩
        rw [List.filter_cons_of_pos (by simpa using hs1), hnil]
        rfl

theorem rewriteUndefined_ne_nil {l : List VkSurfaceFormatKHR} (h : l ≠ []) :
    rewriteUndefined l ≠ [] := by
  unfold rewriteUndefined
  split
  · split <;> simp
  · exact h

/-- C27: `getSurfaceFormat` throws "No surface formats offered by Vulkan!" exactly when the
enumerated list is empty. For a non-empty list it returns an entry of the list as it is
after the rewriting of a lone `VK_FORMAT_UNDEFINED` entry to `B8G8R8A8_UNORM` (every other
list is left as it is): the first entry whose format is `B8G8R8A8_UNORM` if there is one;
otherwise, if there is an entry whose format is `B8G8R8A8_SRGB`, such an entry (the last
one of the list); otherwise the first entry. The value returned is the chosen entry itself,
so its `colorSpace` is that of the chosen entry. -/
theorem getSurfaceFormat_choice (enumerated : List VkSurfaceFormatKHR) :
    (getSurfaceFormat enumerated = .error (.chars (.inr .noSurfaceFormats)) ↔ enumerated = [])
      ∧ (∀ f, enumerated = [f] → f.format = VK_FORMAT_UNDEFINED →
          rewriteUndefined enumerated = [{ f with format := VK_FORMAT_B8G8R8A8_UNORM }])
      ∧ ((¬ ∃ f, enumerated = [f] ∧ f.format = VK_FORMAT_UNDEFINED) →
          rewriteUndefined enumerated = enumerated)
      ∧ (enumerated ≠ [] → ∃ chosen, getSurfaceFormat enumerated = .ok chosen
          ∧ chosen ∈ rewriteUndefined enumerated
          ∧ ((∃ f ∈ rewriteUndefined enumerated, f.format = VK_FORMAT_B8G8R8A8_UNORM) →
              (rewriteUndefined enumerated).find?
                (fun f => decide (f.format = VK_FORMAT_B8G8R8A8_UNORM)) = some chosen)
          ∧ ((¬ ∃ f ∈ rewriteUndefined enumerated, f.format = VK_FORMAT_B8G8R8A8_UNORM) →
              (∃ f ∈ rewriteUndefined enumerated, f.format = VK_FORMAT_B8G8R8A8_SRGB) →
              chosen.format = VK_FORMAT_B8G8R8A8_SRGB
              ∧ ((rewriteUndefined enumerated).filter
                  (fun f => decide (f.format = VK_FORMAT_B8G8R8A8_SRGB))).getLast? = some chosen)
          ∧ ((¬ ∃ f ∈ rewriteUndefined enumerated, f.format = VK_FORMAT_B8G8R8A8_UNORM) →
              (¬ ∃ f ∈ rewriteUndefined enumerated, f.format = VK_FORMAT_B8G8R8A8_SRGB) →
              (rewriteUndefined enumerated).head? = some chosen)) := by
  refine ⟨?_, ?_, ?_, ?_⟩
  · constructor
    · intro h
      cases enumerated with
      | nil => rfl
      | cons first others =>
        exfalso
        simp only [getSurfaceFormat] at h
        split at h
        · simp at h
        · split at h
          · simp at h
          · split at h <;> simp at h
    · rintro rfl; rfl
  · rintro f rfl hf
    simp [rewriteUndefined, hf]
  · intro h
    unfold rewriteUndefined
    split
    · rename_i f
      rw [if_neg (fun hf => h ⟨f, rfl, hf⟩)]
    · rfl
  · intro hne
    obtain ⟨first, others, rfl⟩ := List.exists_cons_of_ne_nil hne
    have hr := rewriteUndefined_ne_nil hne
    obtain ⟨g, gs, hg⟩ := List.exists_cons_of_ne_nil hr
    have hrun : getSurfaceFormat (first :: others) =
        if (chooseSurfaceFormat (rewriteUndefined (first :: others))
            { format := VK_FORMAT_UNDEFINED, colorSpace := 0 }
            { format := VK_FORMAT_UNDEFINED, colorSpace := 0 }).1.format ≠ 0 then
          .ok (chooseSurfaceFormat (rewriteUndefined (first :: others))
            { format := VK_FORMAT_UNDEFINED, colorSpace := 0 }
            { format := VK_FORMAT_UNDEFINED, colorSpace := 0 }).1
        else if (chooseSurfaceFormat (rewriteUndefined (first :: others))
            { format := VK_FORMAT_UNDEFINED, colorSpace := 0 }
            { format := VK_FORMAT_UNDEFINED, colorSpace := 0 }).2.format ≠ 0 then
          .ok (chooseSurfaceFormat (rewriteUndefined (first :: others))
            { format := VK_FORMAT_UNDEFINED, colorSpace := 0 }
            { format := VK_FORMAT_UNDEFINED, colorSpace := 0 }).2
        else .ok g := by
      simp only [getSurfaceFormat, hg]
    rw [hrun]
    generalize rewriteUndefined (first :: others) = l at hg hr ⊢
    subst hg
    by_cases h1 : ∃ f ∈ g :: gs, f.format = VK_FORMAT_B8G8R8A8_UNORM
    · have hfind := chooseSurfaceFormat_first (g :: gs)
        { format := VK_FORMAT_UNDEFINED, colorSpace := 0 }
        { format := VK_FORMAT_UNDEFINED, colorSpace := 0 } h1
      have hmem := List.mem_of_find?_eq_some hfind
      have hfmt := List.find?_some hfind
      simp only [decide_eq_true_eq] at hfmt
      have hnz : (chooseSurfaceFormat (g :: gs)
          { format := VK_FORMAT_UNDEFINED, colorSpace := 0 }
          { format := VK_FORMAT_UNDEFINED, colorSpace := 0 }).1.format ≠ 0 := by
        rw [hfmt]; decide
      rw [if_pos hnz]
      exact ⟨_, rfl, hmem, fun _ => hfind, fun h => absurd h1 h, fun h => absurd h1 h⟩
    · obtain ⟨k1, k2, k3⟩ := chooseSurfaceFormat_none (g :: gs)
        { format := VK_FORMAT_UNDEFINED, colorSpace := 0 }
        { format := VK_FORMAT_UNDEFINED, colorSpace := 0 } h1
      have hz : ¬ (chooseSurfaceFormat (g :: gs)
          { format := VK_FORMAT_UNDEFINED, colorSpace := 0 }
          { format := VK_FORMAT_UNDEFINED, colorSpace := 0 }).1.format ≠ 0 := by
        rw [k1]; decide
      rw [if_neg hz]
      by_cases h2 : ∃ f ∈ g :: gs, f.format = VK_FORMAT_B8G8R8A8_SRGB
      · obtain ⟨m1, m2, m3⟩ := k3 h2
        have hnz : (chooseSurfaceFormat (g :: gs)
            { format := VK_FORMAT_UNDEFINED, colorSpace := 0 }
            { format := VK_FORMAT_UNDEFINED, colorSpace := 0 }).2.format ≠ 0 := by
          rw [m2]; decide
        rw [if_pos hnz]
        exact ⟨_, rfl, m1, fun h => absurd h h1, fun _ _ => ⟨m2, m3⟩, fun _ h => absurd h2 h⟩
      · have hz2 : ¬ (chooseSurfaceFormat (g :: gs)
            { format := VK_FORMAT_UNDEFINED, colorSpace := 0 }
            { format := VK_FORMAT_UNDEFINED, colorSpace := 0 }).2.format ≠ 0 := by
          rw [k2 h2]; decide
        rw [if_neg hz2]
        exact ⟨g, rfl, List.mem_cons_self _ _, fun h => absurd h h1, fun _ h => absurd h h2,
          fun _ _ => rfl⟩

/-- The loop `findQueueFamilyThat` for a predicate that does not throw on the families it
visits, described by the Boolean function `b`: the first family from `qf` on for which `b`
holds, or `VK_QUEUE_FAMILY_IGNORED`. -/
theorem findQueueFamilyFrom_ok
    (predicate : VkQueueFamilyProperties → Nat → Except Thrown Bool)
    (b : VkQueueFamilyProperties → Nat → Bool) (l : List VkQueueFamilyProperties) :
    ∀ qf, (∀ i props, l[i]? = some props → predicate props (qf + i) = .ok (b props (qf + i))) →
      (findQueueFamilyFrom predicate l qf = .ok VK_QUEUE_FAMILY_IGNORED
        ∧ ∀ i props, l[i]? = some props → b props (qf + i) = false)
      ∨ ∃ i props, findQueueFamilyFrom predicate l qf = .ok (qf + i)
          ∧ l[i]? = some props ∧ b props (qf + i) = true
          ∧ ∀ j props1, j < i → l[j]? = some props1 → b props1 (qf + j) = false := by
  induction l with
  | nil => intro qf _; exact Or.inl ⟨rfl, fun i props h => by simp at h⟩
  | cons props l ih =>
    intro qf h
    have h0 := h 0 props (by simp)
    simp only [Nat.add_zero] at h0
    cases hb : b props qf with
    | true =>
      refine Or.inr ⟨0, props, ?_, by simp, by simpa using hb, fun j _ hj => absurd hj (Nat.not_lt_zero _)⟩
      simp [findQueueFamilyFrom, h0, hb]
    | false =>
      have hrun : findQueueFamilyFrom predicate (props :: l) qf
          = findQueueFamilyFrom predicate l (qf + 1) := by
        simp [findQueueFamilyFrom, h0, hb]
      have h1 : ∀ i props1, l[i]? = some props1 →
          predicate props1 (qf + 1 + i) = .ok (b props1 (qf + 1 + i)) := by
        intro i props1 hi
        have := h (i + 1) props1 (by simpa using hi)
        rwa [show qf + (i + 1) = qf + 1 + i by omega] at this
      rcases ih (qf + 1) h1 with ⟨r1, r2⟩ | ⟨i, props1, r1, r2, r3, r4⟩
      · refine Or.inl ⟨by rw [hrun, r1], fun i props1 hi => ?_⟩
        cases i with
        | zero =>
          simp only [List.getElem?_cons_zero, Option.some.injEq] at hi
          subst hi
          simpa using hb
        | succ i =>
          have := r2 i props1 (by simpa using hi)
          rwa [show qf + 1 + i = qf + (i + 1) by omega] at this
      · refine Or.inr ⟨i + 1, props1, ?_, by simpa using r2, ?_, ?_⟩
        · rw [hrun, r1, show qf + 1 + i = qf + (i + 1) by omega]
        · rwa [show qf + 1 + i = qf + (i + 1) by omega] at r3
        · intro j props2 hj hj1
          cases j with
          | zero =>
            simp only [List.getElem?_cons_zero, Option.some.injEq] at hj1
            subst hj1
            simpa using hb
          | succ j =>
            have := r4 j props2 (by omega) (by simpa using hj1)
            rwa [show qf + 1 + j = qf + (j + 1) by omega] at this

/-- The search of `getQueueFamilies` for the lowest family with a property `b` that the
predicate decides without throwing. -/
theorem findQueueFamilyThat_lowest
    (predicate : VkQueueFamilyProperties → Nat → Except Thrown Bool)
    (b : VkQueueFamilyProperties → Nat → Bool) (qfps : List VkQueueFamilyProperties)
    (hn : qfps.length ≤ UINT32_MAX)
    (h : ∀ i props, qfps[i]? = some props → predicate props i = .ok (b props i)) :
    ∃ r, findQueueFamilyThat qfps predicate = .ok r
      ∧ (r = VK_QUEUE_FAMILY_IGNORED ↔ ∀ i props, qfps[i]? = some props → b props i = false)
      ∧ (r ≠ VK_QUEUE_FAMILY_IGNORED → ∃ props, qfps[r]? = some props ∧ b props r = true
          ∧ ∀ j props1, j < r → qfps[j]? = some props1 → b props1 j = false) := by
  have h' : ∀ i props, qfps[i]? = some props →
      predicate props (0 + i) = .ok (b props (0 + i)) := by
    intro i props hi; simpa using h i props hi
  rcases findQueueFamilyFrom_ok predicate b qfps 0 h' with ⟨r1, r2⟩ | ⟨i, props, r1, r2, r3, r4⟩
  · refine ⟨_, r1, ⟨fun _ i props hi => by simpa using r2 i props hi, fun _ => rfl⟩,
      fun h => absurd rfl h⟩
  · simp only [Nat.zero_add] at r1 r3 r4
    have hi : i < qfps.length := by
      rcases Nat.lt_or_ge i qfps.length with hlt | hge
      · exact hlt
      · rw [List.getElem?_eq_none hge] at r2; simp at r2
    have hne : i ≠ VK_QUEUE_FAMILY_IGNORED := by
      unfold VK_QUEUE_FAMILY_IGNORED UINT32_MAX at *
      omega
    refine ⟨i, r1, ⟨fun h => absurd h hne, fun hall => ?_⟩, fun _ => ⟨props, r2, r3, r4⟩⟩
    have := hall i props r2
    rw [r3] at this
    cases this

/-- The search of `getQueueFamilies` for the lowest family with the property `P`. -/
theorem findQueueFamilyThat_property
    (predicate : VkQueueFamilyProperties → Nat → Except Thrown Bool)
    (b : VkQueueFamilyProperties → Nat → Bool) (qfps : List VkQueueFamilyProperties)
    (P : Nat → Prop) (hn : qfps.length ≤ UINT32_MAX)
    (h : ∀ i props, qfps[i]? = some props → predicate props i = .ok (b props i))
    (hP : ∀ i, P i ↔ ∃ props, qfps[i]? = some props ∧ b props i = true) :
    ∃ r, findQueueFamilyThat qfps predicate = .ok r
      ∧ (r = VK_QUEUE_FAMILY_IGNORED ↔ ¬ ∃ q, P q)
      ∧ (r ≠ VK_QUEUE_FAMILY_IGNORED → P r ∧ ∀ j, j < r → ¬ P j) := by
  obtain ⟨r, h1, h2, h3⟩ := findQueueFamilyThat_lowest predicate b qfps hn h
  refine ⟨r, h1, ?_, ?_⟩
  · rw [h2]
    constructor
    · rintro hall ⟨q, hq⟩
      obtain ⟨props, hp, hb⟩ := (hP q).mp hq
      rw [hall q props hp] at hb
      cases hb
    · intro hnone i props hi
      cases hb : b props i with
      | false => rfl
      | true => exact absurd ⟨i, (hP i).mpr ⟨props, hi, hb⟩⟩ hnone
  · intro hr
    obtain ⟨props, hp, hb, hlow⟩ := h3 hr
    refine ⟨(hP r).mpr ⟨props, hp, hb⟩, fun j hj hPj => ?_⟩
    obtain ⟨props1, hp1, hb1⟩ := (hP j).mp hPj
    rw [hlow j props1 hj hp1] at hb1
    cases hb1

theorem isPresentationSupported_ok {support : Nat → VkResult × Nat} {qf : Nat}
    (h : (support qf).1 = VK_SUCCESS) :
    isPresentationSupported support qf = .ok (decide ((support qf).2 = VK_TRUE)) := by
  simp [isPresentationSupported, h]

theorem lookup_lt {α : Type} {l : List α} {i : Nat} {a : α} (h : l[i]? = some a) :
    i < l.length := by
  rcases Nat.lt_or_ge i l.length with hlt | hge
  · exact hlt
  · rw [List.getElem?_eq_none hge] at h; cases h

theorem getQueueFamilies_run (qfps : List VkQueueFamilyProperties)
    (support : Nat → VkResult × Nat) (rf rg rp : Nat)
    (ef : findQueueFamilyThat qfps (fun props queueFamily =>
      if isGraphics props = true then isPresentationSupported support queueFamily
      else .ok false) = .ok rf)
    (eg : findQueueFamilyThat qfps (fun props _ => .ok (isGraphics props)) = .ok rg)
    (ep : findQueueFamilyThat qfps
      (fun _ queueFamily => isPresentationSupported support queueFamily) = .ok rp) :
    getQueueFamilies qfps support =
      if rf = VK_QUEUE_FAMILY_IGNORED then
        if rg = VK_QUEUE_FAMILY_IGNORED then .error (.chars (.inr .noGraphicsQueueFamily))
        else if rp = VK_QUEUE_FAMILY_IGNORED then .error (.chars (.inr .noPresentQueueFamily))
        else .ok (rg, rp)
      else .ok (rf, rf) := by
  unfold getQueueFamilies
  simp only [forceSeparatePresentQueue, ef, eg, ep, or_self, Bool.false_eq_true, if_false]
  simp only [Bind.bind, Except.bind, Pure.pure, Except.pure]
  by_cases h1 : rf = VK_QUEUE_FAMILY_IGNORED
  · by_cases h2 : rg = VK_QUEUE_FAMILY_IGNORED
    · simp only [if_pos h1, if_pos h2]
    · by_cases h3 : rp = VK_QUEUE_FAMILY_IGNORED
      · simp only [if_pos h1, if_neg h2, if_pos h3]
      · simp only [if_pos h1, if_neg h2, if_neg h3]
  · simp only [if_neg h1]

/-- C24: with `forceSeparatePresentQueue` = false, at most 0xFFFFFFFF queue families (their
count is a `uint32_t`) and every `vkGetPhysicalDeviceSurfaceSupportKHR` query succeeding,
`getQueueFamilies` returns a pair `(g, p)` such that family `g` has the graphics bit and
family `p` supports presentation; if a family has both, `g = p` is the lowest such family;
otherwise `g` is the lowest graphics family and `p` the lowest presenting family. It returns
exactly when a graphics family and a presenting family exist, throws "Cannot find a graphics
queue family!" exactly when no family has the graphics bit, and throws "Cannot find a
presentation queue family!" exactly when a graphics family exists and no family supports
presentation. -/
theorem getQueueFamilies_lowest (qfps : List VkQueueFamilyProperties)
    (support : Nat → VkResult × Nat) (hn : qfps.length ≤ UINT32_MAX)
    (hq : ∀ qf, qf < qfps.length → (support qf).1 = VK_SUCCESS) :
    forceSeparatePresentQueue = false
      ∧ (∀ g p, getQueueFamilies qfps support = .ok (g, p) →
          hasGraphics qfps g ∧ canPresent qfps support p
          ∧ ((∃ q, hasGraphics qfps q ∧ canPresent qfps support q) →
              g = p ∧ ∀ q, q < g → ¬ (hasGraphics qfps q ∧ canPresent qfps support q))
          ∧ ((¬ ∃ q, hasGraphics qfps q ∧ canPresent qfps support q) →
              (∀ q, q < g → ¬ hasGraphics qfps q)
              ∧ ∀ q, q < p → ¬ canPresent qfps support q))
      ∧ ((∃ g p, getQueueFamilies qfps support = .ok (g, p)) ↔
          (∃ q, hasGraphics qfps q) ∧ ∃ q, canPresent qfps support q)
      ∧ (getQueueFamilies qfps support = .error (.chars (.inr .noGraphicsQueueFamily)) ↔
          ¬ ∃ q, hasGraphics qfps q)
      ∧ (getQueueFamilies qfps support = .error (.chars (.inr .noPresentQueueFamily)) ↔
          (∃ q, hasGraphics qfps q) ∧ ¬ ∃ q, canPresent qfps support q) := by
  obtain ⟨rf, ef, f1, f2⟩ := findQueueFamilyThat_property
    (fun props queueFamily =>
      if isGraphics props = true then isPresentationSupported support queueFamily
      else .ok false)
    (fun props queueFamily =>
      isGraphics props && decide ((support queueFamily).2 = VK_TRUE)) qfps
    (fun q => hasGraphics qfps q ∧ canPresent qfps support q) hn
    (fun i props hi => by
      by_cases hg : isGraphics props = true
      · simp [hg, isPresentationSupported_ok (hq i (lookup_lt hi))]
      · simp [hg])
    (fun i => by
      constructor
      · rintro ⟨⟨props, hp, hg⟩, _, hs⟩
        exact ⟨props, hp, by simp [isGraphics, hg, hs]⟩
      · rintro ⟨props, hp, hb⟩
        simp only [Bool.and_eq_true, decide_eq_true_eq, isGraphics] at hb
        exact ⟨⟨props, hp, hb.1⟩, lookup_lt hp, hb.2⟩)
  obtain ⟨rg, eg, g1, g2⟩ := findQueueFamilyThat_property
    (fun props _ => .ok (isGraphics props)) (fun props _ => isGraphics props) qfps
    (fun q => hasGraphics qfps q) hn (fun _ _ _ => rfl)
    (fun i => by
      constructor
      · rintro ⟨props, hp, hg⟩
        exact ⟨props, hp, by simp [isGraphics, hg]⟩
      · rintro ⟨props, hp, hb⟩
        simp only [decide_eq_true_eq, isGraphics] at hb
        exact ⟨props, hp, hb⟩)
  obtain ⟨rp, ep, p1, p2⟩ := findQueueFamilyThat_property
    (fun _ queueFamily => isPresentationSupported support queueFamily)
    (fun _ queueFamily => decide ((support queueFamily).2 = VK_TRUE)) qfps
    (fun q => canPresent qfps support q) hn
    (fun i props hi => isPresentationSupported_ok (hq i (lookup_lt hi)))
    (fun i => by
      constructor
      · rintro ⟨hl, hs⟩
        obtain ⟨props, hp⟩ : ∃ props, qfps[i]? = some props :=
          ⟨qfps[i], List.getElem?_eq_getElem hl⟩
        exact ⟨props, hp, by simp [hs]⟩
      · rintro ⟨props, hp, hb⟩
        simp only [decide_eq_true_eq] at hb
        exact ⟨lookup_lt hp, hb⟩)
  have hrun := getQueueFamilies_run qfps support rf rg rp ef eg ep
  have hboth : (∃ q, hasGraphics qfps q ∧ canPresent qfps support q) →
      (∃ q, hasGraphics qfps q) ∧ ∃ q, canPresent qfps support q :=
    fun ⟨q, a, b⟩ => ⟨⟨q, a⟩, ⟨q, b⟩⟩
  refine ⟨rfl, ?_, ?_, ?_, ?_⟩
  · intro g p hgp
    rw [hrun] at hgp
    by_cases h1 : rf = VK_QUEUE_FAMILY_IGNORED
    · rw [if_pos h1] at hgp
      by_cases h2 : rg = VK_QUEUE_FAMILY_IGNORED
      · rw [if_pos h2] at hgp; cases hgp
      · rw [if_neg h2] at hgp
        by_cases h3 : rp = VK_QUEUE_FAMILY_IGNORED
        · rw [if_pos h3] at hgp; cases hgp
        · rw [if_neg h3] at hgp
          simp only [Except.ok.injEq, Prod.mk.injEq] at hgp
          obtain ⟨rfl, rfl⟩ := hgp
          have hnone := f1.mp h1
          exact ⟨(g2 h2).1, (p2 h3).1, fun h => absurd h hnone,
            fun _ => ⟨(g2 h2).2, (p2 h3).2⟩⟩
    · rw [if_neg h1] at hgp
      simp only [Except.ok.injEq, Prod.mk.injEq] at hgp
      obtain ⟨rfl, rfl⟩ := hgp
      obtain ⟨⟨a, b⟩, c⟩ := f2 h1
      exact ⟨a, b, fun _ => ⟨rfl, c⟩, fun h => absurd ⟨_, a, b⟩ h⟩
  · rw [hrun]
    constructor
    · rintro ⟨g, p, hgp⟩
      by_cases h1 : rf = VK_QUEUE_FAMILY_IGNORED
      · rw [if_pos h1] at hgp
        by_cases h2 : rg = VK_QUEUE_FAMILY_IGNORED
        · rw [if_pos h2] at hgp; cases hgp
        · rw [if_neg h2] at hgp
          by_cases h3 : rp = VK_QUEUE_FAMILY_IGNORED
          · rw [if_pos h3] at hgp; cases hgp
          · exact ⟨⟨_, (g2 h2).1⟩, ⟨_, (p2 h3).1⟩⟩
      · exact hboth ⟨_, (f2 h1).1⟩
    · rintro ⟨hg, hp⟩
      by_cases h1 : rf = VK_QUEUE_FAMILY_IGNORED
      · have h2 : rg ≠ VK_QUEUE_FAMILY_IGNORED := fun h => g1.mp h hg
        have h3 : rp ≠ VK_QUEUE_FAMILY_IGNORED := fun h => p1.mp h hp
        exact ⟨rg, rp, by rw [if_pos h1, if_neg h2, if_neg h3]⟩
      · exact ⟨rf, rf, by rw [if_neg h1]⟩
  · rw [hrun]
    constructor
    · intro h
      by_cases h1 : rf = VK_QUEUE_FAMILY_IGNORED
      · rw [if_pos h1] at h
        by_cases h2 : rg = VK_QUEUE_FAMILY_IGNORED
        · exact g1.mp h2
        · rw [if_neg h2] at h
          by_cases h3 : rp = VK_QUEUE_FAMILY_IGNORED
          · rw [if_pos h3] at h; cases h
          · rw [if_neg h3] at h; cases h
      · rw [if_neg h1] at h; cases h
    · intro hg
      have h2 : rg = VK_QUEUE_FAMILY_IGNORED := g1.mpr hg
      have h1 : rf = VK_QUEUE_FAMILY_IGNORED := f1.mpr fun hb => hg (hboth hb).1
      rw [if_pos h1, if_pos h2]
  · rw [hrun]
    constructor
    · intro h
      by_cases h1 : rf = VK_QUEUE_FAMILY_IGNORED
      · rw [if_pos h1] at h
        by_cases h2 : rg = VK_QUEUE_FAMILY_IGNORED
        · rw [if_pos h2] at h; cases h
        · rw [if_neg h2] at h
          by_cases h3 : rp = VK_QUEUE_FAMILY_IGNORED
          · exact ⟨⟨_, (g2 h2).1⟩, p1.mp h3⟩
          · rw [if_neg h3] at h; cases h
      · rw [if_neg h1] at h; cases h
    · rintro ⟨hg, hp⟩
      have h2 : rg ≠ VK_QUEUE_FAMILY_IGNORED := fun h => g1.mp h hg
      have h3 : rp = VK_QUEUE_FAMILY_IGNORED := p1.mpr hp
      have h1 : rf = VK_QUEUE_FAMILY_IGNORED := f1.mpr fun hb => hp (hboth hb).2
      rw [if_pos h1, if_neg h2, if_pos h3]


theorem getQueueFamilies_lowest_witness :
    sampleQueueFamilies.length ≤ UINT32_MAX
      ∧ getQueueFamilies sampleQueueFamilies sampleSupport = .ok (3, 3)
      ∧ hasGraphics sampleQueueFamilies 3 ∧ canPresent sampleQueueFamilies sampleSupport 3 :=
  ⟨by decide, by decide,
    ((getQueueFamilies_lowest sampleQueueFamilies sampleSupport (by decide)
      (fun _ _ => rfl)).2.1 3 3 (by decide)).1,
    ((getQueueFamilies_lowest sampleQueueFamilies sampleSupport (by decide)
      (fun _ _ => rfl)).2.1 3 3 (by decide)).2.1⟩

theorem indexToBit_eq {i : Nat} (h : i < 32) : indexToBit i = 2 ^ i := by
  unfold indexToBit toUInt32
  rw [Nat.one_shiftLeft]
  exact Nat.mod_eq_of_lt (Nat.pow_lt_pow_right (by decide) h)

theorem and_indexToBit {bits i : Nat} (h : i < 32) :
    bits &&& indexToBit i ≠ 0 ↔ bits.testBit i = true := by
  rw [indexToBit_eq h, Nat.and_two_pow]
  cases bits.testBit i <;> simp

theorem and_eq_iff_containsFlags (flags desired : Nat) :
    flags &&& desired = desired ↔ containsFlags flags desired := by
  constructor
  · intro h b hb
    rw [← h, Nat.testBit_and] at hb
    simp only [Bool.and_eq_true] at hb
    exact hb.1
  · intro h
    apply Nat.eq_of_testBit_eq
    intro b
    rw [Nat.testBit_and]
    cases hd : desired.testBit b
    · simp
    · simp [h b hd]

/-- The test of lines 1503-1504 is the test `satisfiesEntry`. -/
theorem satisfiesEntry_iff (bits : Nat) (propertyFlags : Nat → Nat) (desired : Nat) {i : Nat}
    (h : i < 32) :
    satisfiesEntry bits propertyFlags desired i ↔
      bits &&& indexToBit i ≠ 0 ∧ propertyFlags i &&& desired = desired := by
  unfold satisfiesEntry
  rw [and_indexToBit h, and_eq_iff_containsFlags]
  exact ⟨fun h1 => h1.2, fun h1 => ⟨h, h1⟩⟩

/-- The inner loop of `initMemory`: it keeps a memory type found before, and otherwise
finds the lowest index from `i` on that satisfies the entry. -/
theorem memoryTypeScan_lowest (bits : Nat) (propertyFlags : Nat → Nat) (desired : Nat)
    (remaining : Nat) :
    ∀ i memoryType, i + remaining = 32 →
      (memoryType ≠ UINT32_MAX →
        memoryTypeScan bits propertyFlags desired remaining i memoryType = memoryType)
      ∧ (memoryType = UINT32_MAX →
          (∀ j, i ≤ j → ¬ satisfiesEntry bits propertyFlags desired j) →
          memoryTypeScan bits propertyFlags desired remaining i memoryType = UINT32_MAX)
      ∧ (memoryType = UINT32_MAX → ∀ j, i ≤ j → satisfiesEntry bits propertyFlags desired j →
          (∀ k, i ≤ k → k < j → ¬ satisfiesEntry bits propertyFlags desired k) →
          memoryTypeScan bits propertyFlags desired remaining i memoryType = j) := by
  induction remaining with
  | zero =>
    intro i memoryType hi
    refine ⟨fun _ => rfl, fun h _ => h, fun _ j hj hs _ => ?_⟩
    have := hs.1
    omega
  | succ remaining ih =>
    intro i memoryType hi
    have hi32 : i < 32 := by omega
    refine ⟨fun h => by simp [memoryTypeScan, h], ?_, ?_⟩
    · intro h hnone
      have hns := hnone i (Nat.le_refl _)
      rw [satisfiesEntry_iff bits propertyFlags desired hi32] at hns
      have hstep : (if bits &&& indexToBit i ≠ 0 then
          if propertyFlags i &&& desired = desired then i else memoryType
        else memoryType) = memoryType := by
        by_cases h1 : bits &&& indexToBit i ≠ 0
        · rw [if_pos h1, if_neg (fun h2 => hns ⟨h1, h2⟩)]
        · rw [if_neg h1]
      simp only [memoryTypeScan, if_pos h, hstep]
      exact (ih (i + 1) memoryType (by omega)).2.1 h
        (fun j hj => hnone j (by omega))
    · intro h j hj hs hlow
      by_cases hsi : satisfiesEntry bits propertyFlags desired i
      · have hji : j = i := by
          rcases Nat.lt_or_ge i j with hlt | hge
          · exact absurd hsi (hlow i (Nat.le_refl _) hlt)
          · omega
        subst hji
        have hc := (satisfiesEntry_iff bits propertyFlags desired hi32).mp hsi
        simp only [memoryTypeScan, if_pos h, if_pos hc.1, if_pos hc.2]
        exact (ih (j + 1) j (by omega)).1 (by unfold UINT32_MAX; omega)
      · have hns := hsi
        rw [satisfiesEntry_iff bits propertyFlags desired hi32] at hns
        have hstep : (if bits &&& indexToBit i ≠ 0 then
            if propertyFlags i &&& desired = desired then i else memoryType
          else memoryType) = memoryType := by
          by_cases h1 : bits &&& indexToBit i ≠ 0
          · rw [if_pos h1, if_neg (fun h2 => hns ⟨h1, h2⟩)]
          · rw [if_neg h1]
        have hne : j ≠ i := fun h => hsi (h ▸ hs)
        simp only [memoryTypeScan, if_pos h, hstep]
        exact (ih (i + 1) memoryType (by omega)).2.2 h j (by omega) hs
          (fun k hk hkj => hlow k (by omega) hkj)

/-- The two loops of `initMemory` started with the value `memoryType`. -/
theorem selectMemoryType_fold (bits : Nat) (propertyFlags : Nat → Nat)
    (priority : List Nat) :
    ∀ memoryType,
      (memoryType ≠ UINT32_MAX →
        priority.foldl (fun memoryType desired =>
          memoryTypeScan bits propertyFlags desired 32 0 memoryType) memoryType = memoryType)
      ∧ (memoryType = UINT32_MAX →
          (∀ desired, desired ∈ priority → ∀ j, ¬ satisfiesEntry bits propertyFlags desired j) →
          priority.foldl (fun memoryType desired =>
            memoryTypeScan bits propertyFlags desired 32 0 memoryType) memoryType = UINT32_MAX)
      ∧ (memoryType = UINT32_MAX → ∀ (k desired j : Nat), priority[k]? = some desired →
          (∀ (k1 desired1 : Nat), k1 < k → priority[k1]? = some desired1 →
            ∀ j1, ¬ satisfiesEntry bits propertyFlags desired1 j1) →
          satisfiesEntry bits propertyFlags desired j →
          (∀ j1, j1 < j → ¬ satisfiesEntry bits propertyFlags desired j1) →
          priority.foldl (fun memoryType desired =>
            memoryTypeScan bits propertyFlags desired 32 0 memoryType) memoryType = j) := by
  induction priority with
  | nil =>
    intro memoryType
    exact ⟨fun _ => rfl, fun h _ => h, fun _ k desired j hk => by simp at hk⟩
  | cons d priority ih =>
    intro memoryType
    obtain ⟨s1, s2, s3⟩ := memoryTypeScan_lowest bits propertyFlags d 32 0 memoryType rfl
    refine ⟨?_, ?_, ?_⟩
    · intro h
      rw [List.foldl_cons, s1 h]
      exact (ih memoryType).1 h
    · intro h hnone
      rw [List.foldl_cons, s2 h (fun j _ => hnone d (List.mem_cons_self _ _) j)]
      exact (ih UINT32_MAX).2.1 rfl (fun desired hd => hnone desired (List.mem_cons_of_mem _ hd))
    · intro h k desired j hk hearlier hs hlow
      rw [List.foldl_cons]
      cases k with
      | zero =>
        simp only [List.getElem?_cons_zero, Option.some.injEq] at hk
        subst hk
        rw [s3 h j (Nat.zero_le _) hs (fun k1 _ hk1 => hlow k1 hk1)]
        exact (ih j).1 (by have := hs.1; unfold UINT32_MAX; omega)
      | succ k =>
        have hd : ∀ j1, ¬ satisfiesEntry bits propertyFlags d j1 :=
          hearlier 0 d (Nat.succ_pos _) (by simp)
        rw [s2 h (fun j1 _ => hd j1)]
        exact (ih UINT32_MAX).2.2 rfl k desired j (by simpa using hk)
          (fun k1 desired1 hk1 hp => hearlier (k1 + 1) desired1 (by omega) (by simpa using hp))
          hs hlow

/-- The body of `initMemory` after the selection of the memory type. -/
theorem initMemory_run (driver : MemoryDriver) (resourceType : ResourceType)
    (propertyFlags : Nat → Nat) (priority : List Nat) :
    initMemory driver resourceType propertyFlags priority =
      if selectMemoryType driver.requirements.memoryTypeBits propertyFlags priority
          = UINT32_MAX then
        .error (.chars (.inr .noCompatibleMemory))
      else if (driver.allocate
          { allocationSize := driver.requirements.size
            memoryTypeIndex :=
              selectMemoryType driver.requirements.memoryTypeBits propertyFlags priority }).1
          ≠ VK_SUCCESS then
        .error (.vulkanResult (.inr .vkAllocateMemory) (driver.allocate
          { allocationSize := driver.requirements.size
            memoryTypeIndex :=
              selectMemoryType driver.requirements.memoryTypeBits propertyFlags priority }).1)
      else if driver.bind (driver.allocate
          { allocationSize := driver.requirements.size
            memoryTypeIndex :=
              selectMemoryType driver.requirements.memoryTypeBits propertyFlags priority }).2
          ≠ VK_SUCCESS then
        .error (.vulkanResult (.inr (bindMemorySource resourceType)) (driver.bind
          (driver.allocate
            { allocationSize := driver.requirements.size
              memoryTypeIndex :=
                selectMemoryType driver.requirements.memoryTypeBits propertyFlags priority }).2))
      else .ok (driver.allocate
          { allocationSize := driver.requirements.size
            memoryTypeIndex :=
              selectMemoryType driver.requirements.memoryTypeBits propertyFlags priority }).2 := by
  unfold initMemory
  simp only [Bind.bind, Except.bind, Pure.pure, Except.pure]

theorem exists_least {P : Nat → Prop} (h : ∃ n, P n) : ∃ n, P n ∧ ∀ m, m < n → ¬ P m := by
  classical
  exact ⟨Nat.find h, Nat.find_spec h, fun m hm => Nat.find_min h hm⟩

/-- The memory type `initMemory` selects: none when no entry of the priority list is
satisfied by a memory type, and otherwise the lowest memory type that satisfies the first
entry some memory type satisfies. -/
theorem selectMemoryType_cases (bits : Nat) (propertyFlags : Nat → Nat) (priority : List Nat) :
    (selectMemoryType bits propertyFlags priority = UINT32_MAX
      ∧ ∀ desired, desired ∈ priority → ∀ j, ¬ satisfiesEntry bits propertyFlags desired j)
    ∨ ∃ (k desired : Nat), priority[k]? = some desired
        ∧ (∀ (k1 desired1 : Nat), k1 < k → priority[k1]? = some desired1 →
            ∀ j, ¬ satisfiesEntry bits propertyFlags desired1 j)
        ∧ satisfiesEntry bits propertyFlags desired
            (selectMemoryType bits propertyFlags priority)
        ∧ (∀ j, j < selectMemoryType bits propertyFlags priority →
            ¬ satisfiesEntry bits propertyFlags desired j)
        ∧ selectMemoryType bits propertyFlags priority < 32 := by
  obtain ⟨_, f2, f3⟩ := selectMemoryType_fold bits propertyFlags priority UINT32_MAX
  by_cases hnone : ∀ desired, desired ∈ priority →
      ∀ j, ¬ satisfiesEntry bits propertyFlags desired j
  · exact Or.inl ⟨f2 rfl hnone, hnone⟩
  · right
    have hex : ∃ k : Nat, ∃ desired : Nat, priority[k]? = some desired
        ∧ ∃ j, satisfiesEntry bits propertyFlags desired j := by
      by_contra hcon
      apply hnone
      intro desired hd j hs
      obtain ⟨k, hk⟩ := List.mem_iff_getElem?.mp hd
      exact hcon ⟨k, desired, hk, j, hs⟩
    obtain ⟨k, ⟨desired, hk, hj⟩, hkmin⟩ := exists_least hex
    obtain ⟨j, hs, hjmin⟩ := exists_least hj
    have hearlier : ∀ (k1 desired1 : Nat), k1 < k → priority[k1]? = some desired1 →
        ∀ j1, ¬ satisfiesEntry bits propertyFlags desired1 j1 :=
      fun k1 desired1 hk1 hp j1 hs1 => hkmin k1 hk1 ⟨desired1, hp, j1, hs1⟩
    have hsel : selectMemoryType bits propertyFlags priority = j :=
      f3 rfl k desired j hk hearlier hs hjmin
    rw [hsel]
    exact ⟨k, desired, hk, hearlier, hs, hjmin, hs.1⟩

/-- C23: for every `memoryTypeBits` mask, table of property flags and priority list,
`initMemory` selects a memory type exactly when some entry of the list is satisfied by some
memory type, and then the selected index is the lowest `i` in 0..31 whose bit is set in
`memoryTypeBits` and whose property flags contain all flags of the first entry that any
memory type satisfies (no memory type satisfies an earlier entry); it throws "Can't find
compatible mappable memory for the resource" if and only if no entry of the list is
satisfied by any allowed memory type; and when it returns, the memory was allocated with
the selected index and bound with success. -/
theorem initMemory_priority (driver : MemoryDriver) (resourceType : ResourceType)
    (propertyFlags : Nat → Nat) (priority : List Nat) :
    (selectMemoryType driver.requirements.memoryTypeBits propertyFlags priority ≠ UINT32_MAX →
      ∃ (k desired : Nat), priority[k]? = some desired
        ∧ (∀ (k1 desired1 : Nat), k1 < k → priority[k1]? = some desired1 →
            ∀ j, ¬ satisfiesEntry driver.requirements.memoryTypeBits propertyFlags desired1 j)
        ∧ satisfiesEntry driver.requirements.memoryTypeBits propertyFlags desired
            (selectMemoryType driver.requirements.memoryTypeBits propertyFlags priority)
        ∧ ∀ j, j < selectMemoryType driver.requirements.memoryTypeBits propertyFlags priority →
            ¬ satisfiesEntry driver.requirements.memoryTypeBits propertyFlags desired j)
    ∧ (selectMemoryType driver.requirements.memoryTypeBits propertyFlags priority = UINT32_MAX ↔
        ∀ desired, desired ∈ priority →
          ∀ j, ¬ satisfiesEntry driver.requirements.memoryTypeBits propertyFlags desired j)
    ∧ (initMemory driver resourceType propertyFlags priority
          = .error (.chars (.inr .noCompatibleMemory)) ↔
        ∀ desired, desired ∈ priority →
          ∀ j, ¬ satisfiesEntry driver.requirements.memoryTypeBits propertyFlags desired j)
    ∧ (∀ memory, initMemory driver resourceType propertyFlags priority = .ok memory →
        driver.allocate
          { allocationSize := driver.requirements.size
            memoryTypeIndex :=
              selectMemoryType driver.requirements.memoryTypeBits propertyFlags priority }
          = (VK_SUCCESS, memory)
        ∧ driver.bind memory = VK_SUCCESS) := by
  have hcases := selectMemoryType_cases driver.requirements.memoryTypeBits propertyFlags priority
  have hiff : selectMemoryType driver.requirements.memoryTypeBits propertyFlags priority
      = UINT32_MAX ↔ ∀ desired, desired ∈ priority →
        ∀ j, ¬ satisfiesEntry driver.requirements.memoryTypeBits propertyFlags desired j := by
    constructor
    · intro h
      rcases hcases with ⟨_, h2⟩ | ⟨k, desired, _, _, _, _, hlt⟩
      · exact h2
      · rw [h] at hlt
        exact absurd hlt (by decide)
    · intro h
      rcases hcases with ⟨h1, _⟩ | ⟨k, desired, hk, _, hs, _, _⟩
      · exact h1
      · exact absurd hs (h desired (List.mem_iff_getElem?.mpr ⟨k, hk⟩) _)
  refine ⟨?_, hiff, ?_, ?_⟩
  · intro hne
    rcases hcases with ⟨h1, _⟩ | ⟨k, desired, hk, he, hs, hl, _⟩
    · exact absurd h1 hne
    · exact ⟨k, desired, hk, he, hs, hl⟩
  · rw [← hiff, initMemory_run]
    constructor
    · intro h
      by_contra hne
      rw [if_neg hne] at h
      split_ifs at h <;> cases h
    · intro h
      rw [if_pos h]
  · intro memory h
    rw [initMemory_run] at h
    split_ifs at h with h1 h2 h3
    simp only [Except.ok.injEq] at h
    refine ⟨Prod.ext (by simpa using h2) h, ?_⟩
    rw [← h]
    simpa using h3

theorem initMemory_priority_witness :
    initMemory sampleMemoryDriver .Buffer samplePropertyFlags memoryTypePriority = .ok 201
      ∧ sampleMemoryDriver.allocate { allocationSize := 60, memoryTypeIndex := 1 }
          = (VK_SUCCESS, 201)
      ∧ selectMemoryType 7 samplePropertyFlags memoryTypePriority = 1 :=
  ⟨by decide,
    ((initMemory_priority sampleMemoryDriver .Buffer samplePropertyFlags
      memoryTypePriority).2.2.2 201 (by decide)).1,
    by decide⟩

theorem startBody_returned (setup : Except Thrown Ctx) (env : Env) (fuel frames : Nat)
    (code : Int) (h : startBody setup env fuel frames = .returned code) :
    code = 0 ∧ ∃ ctx, setup = .ok ctx
      ∧ (startLifecycle ctx env fuel frames State.initial).1 = .ok () := by
  unfold startBody at h
  cases setup with
  | error thrown => cases h
  | ok ctx =>
    simp only at h
    cases hr : (startLifecycle ctx env fuel frames State.initial).1 with
    | ok u =>
      rw [hr] at h
      simp only [Outcome.returned.injEq] at h
      exact ⟨h.symm, ctx, rfl, hr⟩
    | error e =>
      rw [hr] at h
      cases e with
      | vulkanResult source result => simp [Exn.thrown] at h
      | text msg => cases msg <;> simp [Exn.thrown] at h
      | assertion => cases h
      | outOfRange => cases h
      | fuel => cases h

/-- C25: `start()` returns 0 if and only if its body runs to the end, which it does exactly
when the start-up part and then the first `recreateSwapchain`, the event loop and the
teardown end without an exception (or assertion failure); for every exception that leaves
the body, whatever its kind (`VulkanResultException`, `const char*`, `std::string`,
`std::exception` or anything else), a handler of the function-try-block returns
`EXIT_FAILURE`, which is not 0; so `start()` returns nothing but 0 or `EXIT_FAILURE`, and no
exception leaves `start()` or `main()`. -/
theorem start_returns_exit_code (setup : Except Thrown Ctx) (env : Env) (fuel frames : Nat) :
    (start setup env fuel frames = .returned 0 ↔ startBody setup env fuel frames = .returned 0)
      ∧ (startBody setup env fuel frames = .returned 0 ↔
          ∃ ctx, setup = .ok ctx
            ∧ (startLifecycle ctx env fuel frames State.initial).1 = .ok ())
      ∧ (∀ thrown, startBody setup env fuel frames = .propagated thrown →
          start setup env fuel frames = .returned EXIT_FAILURE)
      ∧ (∀ thrown, startHandlers thrown = .returned EXIT_FAILURE)
      ∧ (∀ thrown, start (.error thrown) env fuel frames = .returned EXIT_FAILURE)
      ∧ EXIT_FAILURE ≠ 0
      ∧ (∀ code, start setup env fuel frames = .returned code → code = 0 ∨ code = EXIT_FAILURE)
      ∧ (∀ thrown, start setup env fuel frames ≠ .propagated thrown)
      ∧ (∀ thrown, main setup env fuel frames ≠ .propagated thrown) := by
  have hh : ∀ thrown, startHandlers thrown = .returned EXIT_FAILURE := by
    intro thrown; cases thrown <;> rfl
  have hne : EXIT_FAILURE ≠ 0 := by decide
  have hcode : ∀ code, start setup env fuel frames = .returned code →
      (code = 0 ∧ startBody setup env fuel frames = .returned 0)
      ∨ (code = EXIT_FAILURE ∧ ∃ thrown, startBody setup env fuel frames = .propagated thrown) := by
    intro code h
    unfold start at h
    cases hb : startBody setup env fuel frames with
    | returned c =>
      rw [hb] at h
      simp only [Outcome.returned.injEq] at h
      have := (startBody_returned setup env fuel frames c hb).1
      subst this
      exact Or.inl ⟨h.symm, rfl⟩
    | propagated thrown =>
      rw [hb] at h
      simp only [hh, Outcome.returned.injEq] at h
      exact Or.inr ⟨h.symm, thrown, rfl⟩
    | aborted => rw [hb] at h; cases h
    | undefined => rw [hb] at h; cases h
    | running => rw [hb] at h; cases h
  have hprop : ∀ thrown, start setup env fuel frames ≠ .propagated thrown := by
    intro thrown h
    unfold start at h
    cases hb : startBody setup env fuel frames with
    | returned c => rw [hb] at h; cases h
    | propagated t => rw [hb] at h; simp only [hh] at h; cases h
    | aborted => rw [hb] at h; cases h
    | undefined => rw [hb] at h; cases h
    | running => rw [hb] at h; cases h
  refine ⟨⟨fun h => ?_, fun h => ?_⟩, ⟨fun h => ?_, fun h => ?_⟩, fun thrown h => ?_, hh,
    fun thrown => ?_, hne, fun code h => ?_, hprop, hprop⟩
  · rcases hcode 0 h with ⟨_, h1⟩ | ⟨h1, _⟩
    · exact h1
    · exact absurd h1.symm hne
  · unfold start; rw [h]
  · exact (startBody_returned setup env fuel frames 0 h).2
  · obtain ⟨ctx, rfl, hrun⟩ := h
    unfold startBody
    simp only [hrun]
  · unfold start; rw [h]; exact hh thrown
  · show startHandlers thrown = _
    exact hh thrown
  · rcases hcode code h with ⟨h1, _⟩ | ⟨h1, _⟩
    · exact Or.inl h1
    · exact Or.inr h1

/-! ### The exact effect of `createNew` under success -/

theorem initSwapchain_exact (ctx : Ctx) {env : Env} {capabilities : VkSurfaceCapabilitiesKHR}
    (oldSwapchain : Handle) {w : World} (h0 : env.result w.tick = VK_SUCCESS)
    (h1 : env.result (w.tick + 1) = VK_SUCCESS)
    (ha : (compositeAlphaFlag capabilities.supportedCompositeAlpha).isSome = true)
    (hm : env.presentModes w.tick ≠ []) :
    ∃ (info : VkSwapchainCreateInfoKHR) (selected : Int),
      info.imageExtent = capabilities.currentExtent
      ∧ info.oldSwapchain = oldSwapchain
      ∧ info.minImageCount = myMinImageCount capabilities
      ∧ initSwapchain ctx env capabilities oldSwapchain w = (.ok (w.nextHandle + 1),
        { tick := w.tick + 2, nextHandle := w.nextHandle + 1, selectedMode := selected,
          trace := w.trace
            ++ [.vkGetPhysicalDeviceSurfacePresentModesKHR VK_SUCCESS (env.presentModes w.tick),
                .vkCreateSwapchainKHR info VK_SUCCESS (w.nextHandle + 1)] }) := by
  obtain ⟨alpha, halpha⟩ := Option.isSome_iff_exists.mp ha
  obtain ⟨mode, selected, hmode⟩ := getSurfacePresentMode_ok h0 hm
  refine ⟨{ minImageCount := myMinImageCount capabilities,
             imageFormat := ctx.surfaceFormat.format,
             imageColorSpace := ctx.surfaceFormat.colorSpace,
             imageExtent := capabilities.currentExtent,
             imageSharingMode :=
               if (queueFamilies ctx).length > 1 then VK_SHARING_MODE_CONCURRENT
               else VK_SHARING_MODE_EXCLUSIVE,
             queueFamilyIndices := queueFamilies ctx,
             preTransform := capabilities.currentTransform,
             compositeAlpha := alpha,
             presentMode := mode,
             oldSwapchain := oldSwapchain }, selected, rfl, rfl, rfl, ?_⟩
  simp [initSwapchain, halpha, wBind_apply, hmode, h1]

theorem enumerateSwapchainImages_exact {env : Env} (swapchain : Handle) {w : World}
    (h : env.result w.tick = VK_SUCCESS) :
    enumerateSwapchainImages env swapchain w
      = (.ok (freshHandles w.nextHandle (toUInt32 (env.imageCount w.tick))),
        { w with tick := w.tick + 1
                 nextHandle := w.nextHandle + toUInt32 (env.imageCount w.tick)
                 trace := w.trace ++ [.vkGetSwapchainImagesKHR swapchain VK_SUCCESS
                   (freshHandles w.nextHandle (toUInt32 (env.imageCount w.tick)))] }) := by
  simp [enumerateSwapchainImages, wBind_apply, h]

theorem initSwapchainImageViewsLoop_exact {env : Env} (format : Nat) (images : List Handle) :
    ∀ (acc : List Handle) (w : World), env.SucceedsFrom w.tick →
      initSwapchainImageViewsLoop env format images acc w
        = (.ok (acc ++ freshHandles w.nextHandle images.length),
          { w with tick := w.tick + images.length
                   nextHandle := w.nextHandle + images.length
                   trace := w.trace ++ viewTrace format images w.nextHandle }) := by
  induction images with
  | nil => intro acc w _; simp [initSwapchainImageViewsLoop, freshHandles, viewTrace]
  | cons x xs ih =>
    intro acc w h
    simp only [initSwapchainImageViewsLoop, initImageView, wBind_apply, create_apply, h.here,
      RESULT_HANDLER_success, wPure_apply]
    rw [ih _ _ (h.mono (Nat.le_succ _))]
    simp [freshHandles, viewTrace, Nat.add_assoc, Nat.add_comm 1 xs.length]

theorem initFramebuffersLoop_exact {env : Env} (renderPass : Handle) (surfaceSize : VkExtent2D)
    (imageViews : List Handle) :
    ∀ (acc : List Handle) (w : World), env.SucceedsFrom w.tick →
      initFramebuffersLoop env renderPass surfaceSize.width surfaceSize.height imageViews acc w
        = (.ok (acc ++ freshHandles w.nextHandle imageViews.length),
          { w with tick := w.tick + imageViews.length
                   nextHandle := w.nextHandle + imageViews.length
                   trace := w.trace
                     ++ framebufferTrace renderPass surfaceSize imageViews w.nextHandle }) := by
  induction imageViews with
  | nil => intro acc w _; simp [initFramebuffersLoop, freshHandles, framebufferTrace]
  | cons x xs ih =>
    intro acc w h
    simp only [initFramebuffersLoop, wBind_apply, create_apply, h.here,
      RESULT_HANDLER_success, wPure_apply]
    rw [ih _ _ (h.mono (Nat.le_succ _))]
    simp [freshHandles, framebufferTrace, Nat.add_assoc, Nat.add_comm 1 xs.length]

theorem acquireCommandBuffers_exact (ctx : Ctx) {env : Env} (count : Nat) (v : Vars) (w : World)
    (h : env.result w.tick = VK_SUCCESS) :
    acquireCommandBuffers ctx env count ⟨v, w⟩
      = (.ok (), ⟨{ v with commandBuffers := acquiredBuffers v.commandBuffers count w.nextHandle },
          { w with tick := w.tick + acquireTicks v.commandBuffers count
                   nextHandle := w.nextHandle + (count - toUInt32 v.commandBuffers.length)
                   trace := w.trace ++ acquireTrace ctx v.commandBuffers count w.nextHandle }⟩) := by
  by_cases h1 : count > toUInt32 v.commandBuffers.length
  · have h2 : ¬ count < toUInt32 v.commandBuffers.length := by omega
    simp [acquireCommandBuffers, mBind_apply, allocateCommandBuffers, wBind_apply, h, h1, h2,
      acquiredBuffers, acquireTrace, acquireTicks]
  · by_cases h2 : count < toUInt32 v.commandBuffers.length
    · have h3 : count - toUInt32 v.commandBuffers.length = 0 := by omega
      simp [acquireCommandBuffers, mBind_apply, h1, h2, acquiredBuffers, acquireTrace,
        acquireTicks, h3]
    · have h3 : count - toUInt32 v.commandBuffers.length = 0 := by omega
      simp [acquireCommandBuffers, mBind_apply, h1, h2, acquiredBuffers, acquireTrace,
        acquireTicks, h3]

theorem length_acquiredBuffers_ge (old : List Handle) (count first : Nat) :
    count ≤ (acquiredBuffers old count first).length := by
  unfold acquiredBuffers
  split
  · simp [length_resize]; omega
  · split
    · simp [length_resize]
    · have := Nat.mod_le old.length (2 ^ 32)
      unfold toUInt32 at *
      omega

/-- With the API calls succeeding and the program's own checks passing, `createNew` returns
and does exactly what `Assembled` describes. -/
theorem createNew_exact (ctx : Ctx) {env : Env} (capabilities : VkSurfaceCapabilitiesKHR)
    (surfaceSize : VkExtent2D) (oldSwapchain : Handle) (v : Vars) (w : World)
    (h : env.SucceedsFrom w.tick) (hg : createGuards ctx env capabilities w.tick) :
    ∃ v1 w1 n, createNew ctx env capabilities surfaceSize oldSwapchain ⟨v, w⟩
        = (.ok (), ⟨v1, w1⟩)
      ∧ Assembled ctx env capabilities surfaceSize oldSwapchain v w n v1 w1 := by
  obtain ⟨ha, hm, hl⟩ := hg
  obtain ⟨info, selected, i1, i2, i3, e1⟩ :=
    initSwapchain_exact ctx oldSwapchain h.here (h _ (Nat.le_succ _)) ha hm
  obtain ⟨w1, hw1⟩ : ∃ w1 : World, w1 = ⟨w.tick + 2, w.nextHandle + 1, selected,
      w.trace ++ [.vkGetPhysicalDeviceSurfacePresentModesKHR VK_SUCCESS (env.presentModes w.tick),
        .vkCreateSwapchainKHR info VK_SUCCESS (w.nextHandle + 1)]⟩ := ⟨_, rfl⟩
  rw [← hw1] at e1
  have k1 : w1.tick = w.tick + 2 := by rw [hw1]
  have s1 : env.SucceedsFrom w1.tick := by rw [k1]; exact h.mono (by omega)
  obtain ⟨n, hn⟩ : ∃ n, n = toUInt32 (env.imageCount w1.tick) := ⟨_, rfl⟩
  have hlt : n < 2 ^ 32 := by rw [hn]; exact toUInt32_lt _
  have e2 := enumerateSwapchainImages_exact (w.nextHandle + 1) s1.here
  rw [← hn] at e2
  obtain ⟨w2, hw2⟩ : ∃ w2 : World, w2 = ⟨w1.tick + 1, w1.nextHandle + n, w1.selectedMode,
      w1.trace ++ [.vkGetSwapchainImagesKHR (w.nextHandle + 1) VK_SUCCESS
        (freshHandles w1.nextHandle n)]⟩ := ⟨_, rfl⟩
  rw [← hw2] at e2
  have s2 : env.SucceedsFrom w2.tick := by rw [hw2]; exact s1.mono (Nat.le_succ _)
  have e3 := initSwapchainImageViewsLoop_exact ctx.surfaceFormat.format
    (freshHandles w1.nextHandle n) [] w2 s2
  rw [length_freshHandles, List.nil_append] at e3
  obtain ⟨w3, hw3⟩ : ∃ w3 : World, w3 = ⟨w2.tick + n, w2.nextHandle + n, w2.selectedMode,
      w2.trace ++ viewTrace ctx.surfaceFormat.format (freshHandles w1.nextHandle n)
        w2.nextHandle⟩ := ⟨_, rfl⟩
  rw [← hw3] at e3
  have s3 : env.SucceedsFrom w3.tick := by rw [hw3]; exact s2.mono (Nat.le_add_right _ _)
  have e4 := initFramebuffersLoop_exact ctx.renderPass surfaceSize
    (freshHandles w2.nextHandle n) [] w3 s3
  rw [length_freshHandles, List.nil_append] at e4
  obtain ⟨w4, hw4⟩ : ∃ w4 : World, w4 = ⟨w3.tick + n, w3.nextHandle + n, w3.selectedMode,
      w3.trace ++ framebufferTrace ctx.renderPass surfaceSize (freshHandles w2.nextHandle n)
        w3.nextHandle⟩ := ⟨_, rfl⟩
  rw [← hw4] at e4
  have s4 : env.SucceedsFrom w4.tick := by rw [hw4]; exact s3.mono (Nat.le_add_right _ _)
  have e5 := @initPipeline_exact ctx env vertexBufferBinding surfaceSize.width
    surfaceSize.height w4 s4.here hl
  obtain ⟨w5, hw5⟩ : ∃ w5 : World, w5 = ⟨w4.tick + 1, w4.nextHandle + 1, w4.selectedMode,
      w4.trace ++ [.vkCreateGraphicsPipelines
        { width := toFloat (if surfaceSize.width ≠ 0 then surfaceSize.width else 1),
          height := toFloat (if surfaceSize.height ≠ 0 then surfaceSize.height else 1) }
        { width := surfaceSize.width, height := surfaceSize.height } VK_SUCCESS
        (w4.nextHandle + 1)]⟩ := ⟨_, rfl⟩
  rw [← hw5] at e5
  have s5 : env.SucceedsFrom w5.tick := by rw [hw5]; exact s4.mono (Nat.le_succ _)
  obtain ⟨v5, hv5⟩ : ∃ v5 : Vars, v5 = { v with
      swapchain := w.nextHandle + 1, swapchainImageViews := freshHandles w2.nextHandle n,
      framebuffers := freshHandles w3.nextHandle n, pipeline := w4.nextHandle + 1 } :=
    ⟨_, rfl⟩
  have hv5c : v5.commandBuffers = v.commandBuffers := by rw [hv5]
  have e6 := acquireCommandBuffers_exact ctx n v5 w5 s5.here
  rw [hv5c] at e6
  obtain ⟨w6, hw6⟩ : ∃ w6 : World, w6 = ⟨w5.tick + acquireTicks v.commandBuffers n,
      w5.nextHandle + (n - toUInt32 v.commandBuffers.length), w5.selectedMode,
      w5.trace ++ acquireTrace ctx v.commandBuffers n w5.nextHandle⟩ := ⟨_, rfl⟩
  obtain ⟨v6, hv6⟩ : ∃ v6 : Vars, v6 = { v5 with
      commandBuffers := acquiredBuffers v.commandBuffers n w5.nextHandle } := ⟨_, rfl⟩
  rw [← hw6, ← hv6] at e6
  have s6 : env.SucceedsFrom w6.tick := by rw [hw6]; exact s5.mono (Nat.le_add_right _ _)
  have hv6c : v6.commandBuffers = acquiredBuffers v.commandBuffers n w5.nextHandle := by
    rw [hv6]
  have hv6f : v6.framebuffers = freshHandles w3.nextHandle n := by rw [hv6, hv5]
  have e7 := recordCommandBuffers_exact ctx surfaceSize v6 n 0 w6 s6
    (by rw [hv6c, Nat.zero_add]; exact length_acquiredBuffers_ge _ _ _)
    (by rw [hv6f, length_freshHandles, Nat.zero_add])
  obtain ⟨w7, hw7⟩ : ∃ w7 : World, w7 = ⟨w6.tick + 2 * n, w6.nextHandle, w6.selectedMode,
      w6.trace ++ recordAll ctx surfaceSize v6 n 0⟩ := ⟨_, rfl⟩
  rw [← hw7] at e7
  have s7 : env.SucceedsFrom w7.tick := by rw [hw7]; exact s6.mono (Nat.le_add_right _ _)
  have e8 := initSemaphoresLoop_exact maxInflightSubmissions [] w7 s7
  obtain ⟨w8, hw8⟩ : ∃ w8 : World, w8 = ⟨w7.tick + maxInflightSubmissions,
      w7.nextHandle + maxInflightSubmissions, w7.selectedMode,
      w7.trace ++ (freshHandles w7.nextHandle maxInflightSubmissions).map
        (.vkCreateSemaphore VK_SUCCESS)⟩ := ⟨_, rfl⟩
  rw [← hw8] at e8
  have s8 : env.SucceedsFrom w8.tick := by rw [hw8]; exact s7.mono (Nat.le_add_right _ _)
  have e9 := initSemaphoresLoop_exact n [] w8 s8
  obtain ⟨w9, hw9⟩ : ∃ w9 : World, w9 = ⟨w8.tick + n, w8.nextHandle + n, w8.selectedMode,
      w8.trace ++ (freshHandles w8.nextHandle n).map (.vkCreateSemaphore VK_SUCCESS)⟩ :=
    ⟨_, rfl⟩
  rw [← hw9] at e9
  have s9 : env.SucceedsFrom w9.tick := by rw [hw9]; exact s8.mono (Nat.le_add_right _ _)
  have e10 := initFencesLoop_exact VK_FENCE_CREATE_SIGNALED_BIT maxInflightSubmissions [] w9 s9
  obtain ⟨w10, hw10⟩ : ∃ w10 : World, w10 = ⟨w9.tick + maxInflightSubmissions,
      w9.nextHandle + maxInflightSubmissions, w9.selectedMode,
      w9.trace ++ (freshHandles w9.nextHandle maxInflightSubmissions).map
        (.vkCreateFence VK_FENCE_CREATE_SIGNALED_BIT VK_SUCCESS)⟩ := ⟨_, rfl⟩
  rw [← hw10] at e10
  simp only [List.nil_append] at e8 e9 e10
  have hrun : createNew ctx env capabilities surfaceSize oldSwapchain ⟨v, w⟩
      = (.ok (), ⟨{ v6 with
            imageReadySs := freshHandles w7.nextHandle maxInflightSubmissions,
            renderDoneSs := freshHandles w8.nextHandle n,
            submissionFences := freshHandles w9.nextHandle maxInflightSubmissions,
            submissionNr := 0 }, w10⟩) := by
    have hw1n : w1.nextHandle = w.nextHandle + 1 := by rw [hw1]
    simp only [createNew, mBind_apply, liftW_apply, modifyVars_apply, getVars_apply,
      initSemaphores, initFences, initSwapchainImageViews, initFramebuffers, e1, e2,
      length_freshHandles, toUInt32_of_lt hlt, e3, e4, e5, ← hv5, e6, e7, e8, e9, e10]
  refine ⟨_, w10, n, hrun, ?_⟩
  have hrec := @recordAll_congr ctx surfaceSize v6
    { v6 with imageReadySs := freshHandles w7.nextHandle maxInflightSubmissions,
              renderDoneSs := freshHandles w8.nextHandle n,
              submissionFences := freshHandles w9.nextHandle maxInflightSubmissions,
              submissionNr := 0 } rfl rfl rfl n 0
  have n1 : w1.nextHandle = w.nextHandle + 1 := by rw [hw1]
  have n2 : w2.nextHandle = w.nextHandle + 1 + n := by rw [hw2]; simp only; rw [n1]
  have n3 : w3.nextHandle = w.nextHandle + 1 + n + n := by rw [hw3]; simp only; rw [n2]
  have n4 : w4.nextHandle = w.nextHandle + 1 + n + n + n := by rw [hw4]; simp only; rw [n3]
  have n5 : w5.nextHandle = w.nextHandle + 1 + n + n + n + 1 := by rw [hw5]; simp only; rw [n4]
  have n6 : w6.nextHandle = w.nextHandle + 1 + n + n + n + 1
      + (n - toUInt32 v.commandBuffers.length) := by rw [hw6]; simp only; rw [n5]
  have n7 : w7.nextHandle = w6.nextHandle := by rw [hw7]
  have n8 : w8.nextHandle = w6.nextHandle + maxInflightSubmissions := by
    rw [hw8]; simp only; rw [n7]
  have n9 : w9.nextHandle = w6.nextHandle + maxInflightSubmissions + n := by
    rw [hw9]; simp only; rw [n8]
  have n10 : w10.nextHandle = w6.nextHandle + maxInflightSubmissions + n
      + maxInflightSubmissions := by rw [hw10]; simp only; rw [n9]
  have t2 : w2.tick = w.tick + 2 + 1 := by rw [hw2]; simp only; rw [k1]
  have t3 : w3.tick = w.tick + 2 + 1 + n := by rw [hw3]; simp only; rw [t2]
  have t4 : w4.tick = w.tick + 2 + 1 + n + n := by rw [hw4]; simp only; rw [t3]
  have t5 : w5.tick = w.tick + 2 + 1 + n + n + 1 := by rw [hw5]; simp only; rw [t4]
  have t6 : w6.tick = w.tick + 2 + 1 + n + n + 1 + acquireTicks v.commandBuffers n := by
    rw [hw6]; simp only; rw [t5]
  have t7 : w7.tick = w6.tick + 2 * n := by rw [hw7]
  have t8 : w8.tick = w6.tick + 2 * n + maxInflightSubmissions := by
    rw [hw8]; simp only; rw [t7]
  have t9 : w9.tick = w6.tick + 2 * n + maxInflightSubmissions + n := by
    rw [hw9]; simp only; rw [t8]
  have t10 : w10.tick = w6.tick + 2 * n + maxInflightSubmissions + n
      + maxInflightSubmissions := by rw [hw10]; simp only; rw [t9]
  have r1 : w1.trace = w.trace
      ++ [.vkGetPhysicalDeviceSurfacePresentModesKHR VK_SUCCESS (env.presentModes w.tick),
        .vkCreateSwapchainKHR info VK_SUCCESS (w.nextHandle + 1)] := by rw [hw1]
  have r2 : w2.trace = w1.trace ++ [.vkGetSwapchainImagesKHR (w.nextHandle + 1) VK_SUCCESS
      (freshHandles w1.nextHandle n)] := by rw [hw2]
  have r3 : w3.trace = w2.trace ++ viewTrace ctx.surfaceFormat.format
      (freshHandles w1.nextHandle n) w2.nextHandle := by rw [hw3]
  have r4 : w4.trace = w3.trace ++ framebufferTrace ctx.renderPass surfaceSize
      (freshHandles w2.nextHandle n) w3.nextHandle := by rw [hw4]
  have r5 : w5.trace = w4.trace ++ [.vkCreateGraphicsPipelines
      { width := toFloat (if surfaceSize.width ≠ 0 then surfaceSize.width else 1),
        height := toFloat (if surfaceSize.height ≠ 0 then surfaceSize.height else 1) }
      { width := surfaceSize.width, height := surfaceSize.height } VK_SUCCESS
      (w4.nextHandle + 1)] := by rw [hw5]
  have r6 : w6.trace = w5.trace ++ acquireTrace ctx v.commandBuffers n w5.nextHandle := by
    rw [hw6]
  have r7 : w7.trace = w6.trace ++ recordAll ctx surfaceSize v6 n 0 := by rw [hw7]
  have r8 : w8.trace = w7.trace ++ (freshHandles w7.nextHandle maxInflightSubmissions).map
      (.vkCreateSemaphore VK_SUCCESS) := by rw [hw8]
  have r9 : w9.trace = w8.trace ++ (freshHandles w8.nextHandle n).map
      (.vkCreateSemaphore VK_SUCCESS) := by rw [hw9]
  have r10 : w10.trace = w9.trace ++ (freshHandles w9.nextHandle maxInflightSubmissions).map
      (.vkCreateFence VK_FENCE_CREATE_SIGNALED_BIT VK_SUCCESS) := by rw [hw10]
  have q1 : v6.swapchain = w.nextHandle + 1 := by rw [hv6, hv5]
  have q2 : v6.swapchainImageViews = freshHandles w2.nextHandle n := by rw [hv6, hv5]
  have q4 : v6.pipeline = w4.nextHandle + 1 := by rw [hv6, hv5]
  refine ⟨by rw [hn, k1], q1, ?_, ?_, ?_, ?_, ?_, ?_, ?_, rfl, ?_, ?_, ?_⟩
  · show v6.swapchainImageViews = _
    rw [q2, n2]
  · show v6.framebuffers = _
    rw [hv6f, n3]
  · show v6.pipeline = _
    rw [q4, n4]
  · show v6.commandBuffers = _
    rw [hv6c, n5]
  · show freshHandles w7.nextHandle _ = _
    rw [n7, n6]
  · show freshHandles w8.nextHandle _ = _
    rw [n8, n6]
  · show freshHandles w9.nextHandle _ = _
    rw [n9, n6]
  · rw [n10, n6]
  · rw [t10, t6]
  · refine ⟨info, i1, i2, i3, ?_⟩
    rw [hrec]
    show w10.trace = w.trace ++ _ ++ _ ++ framebufferTrace ctx.renderPass surfaceSize
      v6.swapchainImageViews _ ++ [Event.vkCreateGraphicsPipelines _ _ VK_SUCCESS v6.pipeline]
      ++ acquireTrace ctx v.commandBuffers n v6.pipeline ++ _
      ++ (freshHandles w7.nextHandle maxInflightSubmissions).map _
      ++ (freshHandles w8.nextHandle n).map _
      ++ (freshHandles w9.nextHandle maxInflightSubmissions).map _
    rw [r10, r9, r8, r7, r6, r5, r4, r3, r2, r1, q2, q4, n5, n4, n3, n2, n1]
    simp only [List.append_assoc, List.cons_append, List.nil_append]

/-- With the API calls succeeding, a creatable surface and the program's own checks passing,
`recreateSwapchain` returns `true` and does exactly what `Recreated` describes. -/
theorem recreateSwapchain_live_exact (ctx : Ctx) {env : Env} (v : Vars) {w : World}
    (h : env.SucceedsFrom w.tick) (hc : creatableAt env w.tick = true)
    (hg : createGuards ctx env (snapshotAt env w.tick) (createTick v w)) :
    ∃ v1 w1 n, recreateSwapchain ctx env ⟨v, w⟩ = (.ok true, ⟨v1, w1⟩)
      ∧ Recreated ctx env v w v1 w1 n := by
  have h0 := h.here
  have hg0 := hg
  rw [recreateSwapchain_stages ctx env v w h0]
  obtain ⟨vA, wA, hvA, hwA⟩ : ∃ (vA : Vars) (wA : World),
      vA = { v with swapchain := VK_NULL_HANDLE, imageReadySs := [] }
      ∧ wA = w.after 1 [.enter .recreateSwapchain,
        .vkGetPhysicalDeviceSurfaceCapabilitiesKHR VK_SUCCESS (env.capabilities w.tick)] :=
    ⟨_, _, rfl, rfl⟩
  rw [← hvA, ← hwA, if_pos hc]
  have hAk : wA.tick = w.tick + 1 := by rw [hwA]; rfl
  have hAn : wA.nextHandle = w.nextHandle := by rw [hwA]; rfl
  have hAt : wA.trace = w.trace ++ [.enter .recreateSwapchain,
      .vkGetPhysicalDeviceSurfaceCapabilitiesKHR VK_SUCCESS (env.capabilities w.tick)] := by
    rw [hwA]; rfl
  have hAc : vA.commandBuffers = v.commandBuffers := by rw [hvA]
  by_cases hold : v.swapchain = VK_NULL_HANDLE
  · have hold2 : ¬ (v.swapchain ≠ VK_NULL_HANDLE) := not_not.mpr hold
    have hct : createTick v w = w.tick + 1 := by simp [createTick, hold]
    rw [hct, ← hAk] at hg
    obtain ⟨v1, wb, n, e, hb⟩ := createNew_exact ctx (snapshotAt env w.tick)
      (sizeAt env w.tick) v.swapchain vA wA (by rw [hAk]; exact h.mono (Nat.le_succ _)) hg
    have hsc : v1.swapchain ≠ VK_NULL_HANDLE := by
      rw [hb.swapchain]; exact Nat.succ_ne_zero _
    refine ⟨v1, wb, n, ?_, hc, hg0, fun k hk _ => h k hk, vA, wA, wb, hAc, ?_, hAn, ?_, hb,
      rfl, rfl, ?_⟩
    · rw [if_neg hold2, if_neg hold2]
      simp only [mPure_apply, e]
      simp [hsc]
    · rw [hct, hAk]
    · rw [if_neg hold2, hAt]; simp
    · rw [if_neg hold2]; simp
  · have hold1 : v.swapchain ≠ VK_NULL_HANDLE := hold
    have hct : createTick v w = w.tick + 3 := by simp [createTick, hold]
    have h1 : env.result wA.tick = VK_SUCCESS := by rw [hAk]; exact h _ (by omega)
    have h2 : env.result (wA.tick + 1) = VK_SUCCESS := by rw [hAk]; exact h _ (by omega)
    have hcl := @cleanupOld_done ctx env ⟨vA, wA⟩ h1 h2
    obtain ⟨vB, wB, hvB, hwB⟩ : ∃ (vB : Vars) (wB : World), vB = vA.afterCleanup
        ∧ wB = ⟨wA.tick + 2, wA.nextHandle, wA.selectedMode, wA.trace ++ cleanupTrace ctx vA⟩ :=
      ⟨_, _, rfl, rfl⟩
    simp only at hcl
    rw [← hvB, ← hwB] at hcl
    have hBk : wB.tick = w.tick + 3 := by rw [hwB]; simp only; omega
    have hBn : wB.nextHandle = w.nextHandle := by rw [hwB]; exact hAn
    have hBt : wB.trace = w.trace ++ [.enter .recreateSwapchain,
        .vkGetPhysicalDeviceSurfaceCapabilitiesKHR VK_SUCCESS (env.capabilities w.tick)]
        ++ cleanupTrace ctx v := by
      rw [hwB]; simp only; rw [hAt, hvA]; rfl
    have hBc : vB.commandBuffers = v.commandBuffers := by rw [hvB, hvA]; rfl
    rw [hct, ← hBk] at hg
    obtain ⟨v1, wb, n, e, hb⟩ := createNew_exact ctx (snapshotAt env w.tick)
      (sizeAt env w.tick) v.swapchain vB wB (by rw [hBk]; exact h.mono (by omega)) hg
    have hsc : v1.swapchain ≠ VK_NULL_HANDLE := by
      rw [hb.swapchain]; exact Nat.succ_ne_zero _
    refine ⟨v1, ⟨wb.tick, wb.nextHandle, wb.selectedMode,
        wb.trace ++ [.vkDestroySwapchainKHR v.swapchain]
          ++ v.imageReadySs.map .vkDestroySemaphore⟩, n, ?_, hc, hg0, fun k hk _ => h k hk,
        vB, wB, wb, hBc, ?_, hBn, ?_, hb, rfl, rfl, ?_⟩
    · rw [if_pos hold1, if_pos hold1, hcl]
      simp only [e, killOld_apply]
      simp [hsc]
    · rw [hct, hBk]
    · rw [if_pos hold1, hBt]
    · rw [if_pos hold1]; simp [killTrace]

theorem Assembled.withResult {ctx : Ctx} {env : Env} {capabilities : VkSurfaceCapabilitiesKHR}
    {surfaceSize : VkExtent2D} {oldSwapchain : Handle} {v : Vars} {w : World} {n : Nat}
    {v1 : Vars} {w1 : World} (r : Nat → VkResult)
    (h : Assembled ctx (env.withResult r) capabilities surfaceSize oldSwapchain v w n v1 w1) :
    Assembled ctx env capabilities surfaceSize oldSwapchain v w n v1 w1 :=
  ⟨h.count_eq, h.swapchain, h.imageViews, h.framebuffers, h.pipeline, h.commandBuffers,
    h.imageReadySs, h.renderDoneSs, h.submissionFences, h.submissionNr, h.nextHandle, h.tick,
    h.trace⟩

/-- A `recreateSwapchain` that returned `true` did exactly what `Recreated` describes, in
whatever environment. -/
theorem recreateSwapchain_true_exact (ctx : Ctx) (env : Env) (v : Vars) (w : World)
    (s1 : State) (hret : recreateSwapchain ctx env ⟨v, w⟩ = (.ok true, s1)) :
    ∃ n, Recreated ctx env v w s1.vars s1.world n := by
  have hch : env.SucceedsWithin w.tick s1.world.tick :=
    recreateSwapchain_checked ctx env ⟨v, w⟩ true s1 hret
  have hT : (recreateSwapchain ctx env ⟨v, w⟩).2.world.tick ≤ s1.world.tick := by rw [hret]
  obtain ⟨h1, hrun⟩ := recreateSwapchain_within ctx env ⟨v, w⟩ s1.world.tick hT hch
  rw [hret] at hrun
  have hc : creatableAt env w.tick = true :=
    (recreateSwapchain_ok_value ctx env ⟨v, w⟩ s1 true hret).symm
  by_cases hg : createGuards ctx env (snapshotAt env w.tick) (createTick v w)
  · obtain ⟨v1, w1, n, e, hr⟩ := recreateSwapchain_live_exact ctx v h1 hc hg
    rw [hrun] at e
    simp only [Prod.mk.injEq, true_and] at e
    subst e
    obtain ⟨vc, wc, wb, q1, q2, q3, q4, q5, q6⟩ := hr.assembled
    exact ⟨n, hc, hg, hch, vc, wc, wb, q1, q2, q3, q4, q5.withResult _, q6⟩
  · obtain ⟨msg, e⟩ := recreateSwapchain_guard ctx v h1 hc hg
    rw [hrun] at e
    simp at e


/-! ### One extent per call -/

theorem mem_zipWith_elim {α β γ : Type} (f : α → β → γ) (as : List α) (bs : List β) (c : γ)
    (h : c ∈ List.zipWith f as bs) : ∃ a b, c = f a b := by
  obtain ⟨i, hi⟩ := List.mem_iff_getElem?.mp h
  rw [List.getElem?_zipWith] at hi
  cases ha : as[i]? with
  | none => simp [ha] at hi
  | some a =>
    cases hb : bs[i]? with
    | none => simp [ha, hb] at hi
    | some b =>
      simp only [ha, hb, Option.some.injEq] at hi
      exact ⟨a, b, hi.symm⟩

theorem mem_zipWith_of_getElem {α β γ : Type} (f : α → β → γ) {as : List α} {bs : List β}
    {i : Nat} {a : α} {b : β} (ha : as[i]? = some a) (hb : bs[i]? = some b) :
    f a b ∈ List.zipWith f as bs :=
  List.mem_iff_getElem?.mpr ⟨i, by rw [List.getElem?_zipWith, ha, hb]⟩

theorem viewTrace_usesExtent (extent : VkExtent2D) (format : Nat) (images : List Handle)
    (first : Nat) : ∀ e ∈ viewTrace format images first, Event.usesExtent extent e = true := by
  intro e he
  obtain ⟨a, b, rfl⟩ := mem_zipWith_elim _ _ _ _ he
  rfl

theorem framebufferTrace_usesExtent (renderPass : Handle) (surfaceSize : VkExtent2D)
    (imageViews : List Handle) (first : Nat) :
    ∀ e ∈ framebufferTrace renderPass surfaceSize imageViews first,
      Event.usesExtent surfaceSize e = true := by
  intro e he
  obtain ⟨a, b, rfl⟩ := mem_zipWith_elim _ _ _ _ he
  simp [Event.usesExtent]

theorem acquireTrace_usesExtent (extent : VkExtent2D) (ctx : Ctx) (old : List Handle)
    (count first : Nat) :
    ∀ e ∈ acquireTrace ctx old count first, Event.usesExtent extent e = true := by
  intro e he
  unfold acquireTrace at he
  split at he
  · simp at he; subst he; rfl
  · split at he
    · simp at he; subst he; rfl
    · simp at he

theorem recordAll_usesExtent (ctx : Ctx) (surfaceSize : VkExtent2D) (v : Vars)
    (remaining : Nat) :
    ∀ i, ∀ e ∈ recordAll ctx surfaceSize v remaining i,
      Event.usesExtent surfaceSize e = true := by
  induction remaining with
  | zero => intro i e he; simp [recordAll] at he
  | succ n ih =>
    intro i e he
    simp only [recordAll, List.mem_append] at he
    rcases he with he | he
    · cases hc : v.commandBuffers[i]? with
      | none => simp [hc] at he
      | some cb =>
        cases hf : v.framebuffers[i]? with
        | none => simp [hc, hf] at he
        | some fb =>
          simp only [hc, hf, recordTrace, List.mem_cons, List.mem_singleton,
            List.not_mem_nil, or_false] at he
          rcases he with h | h | h | h | h | h | h | h <;> subst h <;>
            simp [Event.usesExtent]
    · exact ih _ e he

theorem cleanupTrace_usesExtent (extent : VkExtent2D) (ctx : Ctx) (v : Vars) :
    ∀ e ∈ cleanupTrace ctx v, Event.usesExtent extent e = true := by
  intro e he
  simp [cleanupTrace] at he
  rcases he with h | ⟨x, _, h⟩ | ⟨x, _, h⟩ | h | h | ⟨x, _, h⟩ | ⟨x, _, h⟩ <;> subst h <;> rfl

theorem killTrace_usesExtent (extent : VkExtent2D) (v : Vars) :
    ∀ e ∈ killTrace v, Event.usesExtent extent e = true := by
  intro e he
  simp [killTrace] at he
  rcases he with h | ⟨x, _, h⟩ <;> subst h <;> rfl

theorem getElem?_freshHandles (first n i : Nat) (h : i < n) :
    (freshHandles first n)[i]? = some (first + 1 + i) := by
  induction n generalizing first i with
  | zero => omega
  | succ n ih =>
    cases i with
    | zero => simp [freshHandles]
    | succ i =>
      simp only [freshHandles, List.getElem?_cons_succ]
      rw [ih (first + 1) i (by omega)]
      congr 1
      omega

theorem getElem?_freshHandles_some {first n i : Nat} {x : Handle}
    (h : (freshHandles first n)[i]? = some x) : i < n ∧ x = first + 1 + i := by
  have hi : i < n := by
    have := (List.getElem?_eq_some.mp h).1
    rwa [length_freshHandles] at this
  rw [getElem?_freshHandles first n i hi] at h
  exact ⟨hi, (Option.some.inj h).symm⟩

theorem getElem?_acquiredBuffers (old : List Handle) (count first i : Nat) (h : i < count) :
    ∃ cb, (acquiredBuffers old count first)[i]? = some cb :=
  ⟨_, List.getElem?_eq_getElem
    (Nat.lt_of_lt_of_le h (length_acquiredBuffers_ge old count first))⟩

/-- The whole of what a `recreateSwapchain` that returned `true` added to the trace. -/
theorem Recreated.added_trace {ctx : Ctx} {env : Env} {v : Vars} {w : World} {v1 : Vars}
    {w1 : World} {n : Nat} (h : Recreated ctx env v w v1 w1 n) :
    ∃ info : VkSwapchainCreateInfoKHR,
      info.imageExtent = (snapshotAt env w.tick).currentExtent
      ∧ info.oldSwapchain = v.swapchain
      ∧ info.minImageCount = myMinImageCount (snapshotAt env w.tick)
      ∧ w1.trace = w.trace
        ++ ([.enter .recreateSwapchain,
            .vkGetPhysicalDeviceSurfaceCapabilitiesKHR VK_SUCCESS (env.capabilities w.tick)]
        ++ (if v.swapchain ≠ VK_NULL_HANDLE then cleanupTrace ctx v else [])
        ++ [.vkGetPhysicalDeviceSurfacePresentModesKHR VK_SUCCESS
              (env.presentModes (createTick v w)),
            .vkCreateSwapchainKHR info VK_SUCCESS v1.swapchain,
            .vkGetSwapchainImagesKHR v1.swapchain VK_SUCCESS (freshHandles v1.swapchain n)]
        ++ viewTrace ctx.surfaceFormat.format (freshHandles v1.swapchain n)
            (v1.swapchain + n)
        ++ framebufferTrace ctx.renderPass (sizeAt env w.tick) v1.swapchainImageViews
            (v1.swapchain + n + n)
        ++ [.vkCreateGraphicsPipelines
            { width :=
                toFloat (if (sizeAt env w.tick).width ≠ 0 then (sizeAt env w.tick).width else 1),
              height :=
                toFloat
                  (if (sizeAt env w.tick).height ≠ 0 then (sizeAt env w.tick).height else 1) }
            { width := (sizeAt env w.tick).width, height := (sizeAt env w.tick).height }
            VK_SUCCESS v1.pipeline]
        ++ acquireTrace ctx v.commandBuffers n v1.pipeline
        ++ recordAll ctx (sizeAt env w.tick) v1 n 0
        ++ v1.imageReadySs.map (.vkCreateSemaphore VK_SUCCESS)
        ++ v1.renderDoneSs.map (.vkCreateSemaphore VK_SUCCESS)
        ++ v1.submissionFences.map (.vkCreateFence VK_FENCE_CREATE_SIGNALED_BIT VK_SUCCESS)
        ++ (if v.swapchain ≠ VK_NULL_HANDLE then killTrace v else [])) := by
  obtain ⟨vc, wc, wb, q1, q2, q3, q4, q5, q6, q7, q8⟩ := h.assembled
  obtain ⟨info, i1, i2, i3, ht⟩ := q5.trace
  refine ⟨info, i1, i2, i3, ?_⟩
  rw [q8, ht, q4, q5.swapchain, q5.pipeline, q1, q2, q3]
  simp only [List.append_assoc]

theorem Recreated.positive {ctx : Ctx} {env : Env} {v : Vars} {w : World} {v1 : Vars}
    {w1 : World} {n : Nat} (h : Recreated ctx env v w v1 w1 n) :
    0 < (sizeAt env w.tick).width ∧ 0 < (sizeAt env w.tick).height := by
  have := h.creatable
  simp only [creatableAt, swapchainCreatable, Bool.and_eq_true, decide_eq_true_eq] at this
  exact ⟨this.1.1.1.2, this.2⟩

theorem toFloat_of_le {n : Nat} (h : n ≤ 2 ^ 24) : toFloat n = n := by
  rcases Nat.lt_or_ge n (2 ^ 24) with h1 | h1
  · have hd : droppedBits 8 n = 0 := by
      show (if n < 2 ^ 24 then 0 else droppedBits 7 (n / 2) + 1) = 0
      rw [if_pos h1]
    unfold toFloat
    simp only [hd, pow_zero, Nat.div_one, Nat.mod_one, Nat.mul_zero, Nat.mul_one]
    rw [if_pos (Or.inl Nat.zero_lt_one)]
  · have : n = 2 ^ 24 := Nat.le_antisymm h h1
    subst this
    decide

/-- C26 (counterexample): on a surface 16777217 pixels wide, within the limits the surface
reports, `recreateSwapchain` returns `true` having given the extent 16777217 x 480 to every
call it gives an extent, the pipeline creation as scissor among them, but the viewport of
the pipeline now in `pipeline` is 16777216 wide: `static_cast<float>` rounds 2^24 + 1 to
2^24, so the viewport is not the pair the other calls are given. -/
theorem viewport_rounds_wide_extent :
    recreateSwapchain sampleCtx wideEnv State.initial = (.ok true, wideLive)
    ∧ usedExtent (wideEnv.capabilities State.initial.world.tick).currentExtent
        = { width := 16777217, height := 480 }
    ∧ (∀ e ∈ wideLive.world.trace,
        Event.usesExtent { width := 16777217, height := 480 } e = true)
    ∧ Event.vkCreateGraphicsPipelines { width := 16777216, height := 480 }
        { width := 16777217, height := 480 } VK_SUCCESS wideLive.vars.pipeline
        ∈ wideLive.world.trace
    ∧ toFloat 16777217 = 16777216 := by
  decide!

/-- C26 (amended): within one `recreateSwapchain` call that returns `true` a single extent
is used: with `extent` the `currentExtent` of the capabilities snapshot taken at the start
of the call, after the substitution of the undefined-size sentinel, every call the function
makes that is given an extent is given `extent`; the swapchain now in `swapchain` was
created with `imageExtent` = `extent`; every framebuffer now in `framebuffers` was created
with the width and height of `extent`; the pipeline now in `pipeline` was created with
scissor `extent` and with the viewport size `static_cast<float>` makes of the width and
height of `extent`, which are that width and height themselves when they are at most 2^24;
and for every image index `i` the render pass recorded into `commandBuffers[i]` on
`framebuffers[i]` has the render area `extent`. -/
theorem recreateSwapchain_single_extent (ctx : Ctx) (env : Env) (s s1 : State)
    (hret : recreateSwapchain ctx env s = (.ok true, s1)) :
    ∃ (extent : VkExtent2D) (l : List Event),
      extent = usedExtent (env.capabilities s.world.tick).currentExtent
      ∧ extent = (substituteExtent (env.capabilities s.world.tick)).currentExtent
      ∧ s1.world.trace = s.world.trace ++ l
      ∧ (∀ e ∈ l, Event.usesExtent extent e = true)
      ∧ (∃ info : VkSwapchainCreateInfoKHR, info.imageExtent = extent
          ∧ Event.vkCreateSwapchainKHR info VK_SUCCESS s1.vars.swapchain ∈ l)
      ∧ (∀ (i : Nat) (fb : Handle), s1.vars.framebuffers[i]? = some fb →
          ∃ view, s1.vars.swapchainImageViews[i]? = some view
            ∧ Event.vkCreateFramebuffer ctx.renderPass view extent.width extent.height
                VK_SUCCESS fb ∈ l)
      ∧ Event.vkCreateGraphicsPipelines
          { width := toFloat extent.width, height := toFloat extent.height } extent
          VK_SUCCESS s1.vars.pipeline ∈ l
      ∧ (extent.width ≤ 2 ^ 24 → toFloat extent.width = extent.width)
      ∧ (extent.height ≤ 2 ^ 24 → toFloat extent.height = extent.height)
      ∧ (∀ (i : Nat) (fb : Handle), s1.vars.framebuffers[i]? = some fb →
          ∃ cb, s1.vars.commandBuffers[i]? = some cb
            ∧ Event.vkCmdBeginRenderPass cb ctx.renderPass fb clearColor extent.width extent.height
                ∈ l) := by
  rcases s with ⟨v, w⟩
  obtain ⟨n, hr⟩ := recreateSwapchain_true_exact ctx env v w s1 hret
  obtain ⟨info, i1, _, _, ht⟩ := hr.added_trace
  obtain ⟨hsize, hcur⟩ := sizeAt_eq env w.tick
  obtain ⟨hw, hh⟩ := hr.positive
  obtain ⟨vc, wc, wb, q1, q2, q3, q4, q5, q6, q7, q8⟩ := hr.assembled
  have hpipe : (⟨toFloat
        (if (sizeAt env w.tick).width ≠ 0 then (sizeAt env w.tick).width else 1),
      toFloat
        (if (sizeAt env w.tick).height ≠ 0 then (sizeAt env w.tick).height else 1)⟩ :
        VkViewport)
      = ⟨toFloat (sizeAt env w.tick).width, toFloat (sizeAt env w.tick).height⟩ := by
    rw [if_pos (by omega), if_pos (by omega)]
  have hsc : (⟨(sizeAt env w.tick).width, (sizeAt env w.tick).height⟩ : VkExtent2D)
      = sizeAt env w.tick := rfl
  rw [hpipe, hsc] at ht
  refine ⟨sizeAt env w.tick, _, hsize, ?_, ht, ?_, ⟨info, ?_, ?_⟩, ?_, ?_, toFloat_of_le,
    toFloat_of_le, ?_⟩
  · rw [hsize]; exact hcur.symm
  · intro e he
    simp only [List.mem_append, List.mem_cons, List.mem_singleton, List.not_mem_nil,
      or_false, List.mem_map] at he
    rcases he with ((((((((((he | he) | he) | he) | he) | he) | he) | he) | he) | he) | he) | he
    · rcases he with h | h <;> subst h <;> rfl
    · split at he
      · exact cleanupTrace_usesExtent _ ctx v e he
      · simp at he
    · rcases he with h | h | h
      · subst h; rfl
      · subst h
        simp only [Event.usesExtent, decide_eq_true_eq]
        rw [i1, hsize]; exact hcur
      · subst h; rfl
    · exact viewTrace_usesExtent _ _ _ _ e he
    · exact framebufferTrace_usesExtent _ _ _ _ e he
    · subst he
      simp only [Event.usesExtent]
      rw [if_pos (by omega), if_pos (by omega)]
      simp
    · exact acquireTrace_usesExtent _ ctx _ _ _ e he
    · exact recordAll_usesExtent ctx _ _ _ _ e he
    · obtain ⟨x, _, h⟩ := he; subst h; rfl
    · obtain ⟨x, _, h⟩ := he; subst h; rfl
    · obtain ⟨x, _, h⟩ := he; subst h; rfl
    · split at he
      · exact killTrace_usesExtent _ v e he
      · simp at he
  · rw [i1, hsize]; exact hcur
  · simp
  · intro i fb hfb
    have hfbs := q5.framebuffers
    have hviews := q5.imageViews
    obtain ⟨hi, _⟩ := getElem?_freshHandles_some (hfbs ▸ hfb)
    have hv : s1.vars.swapchainImageViews[i]? = some (wc.nextHandle + 1 + n + 1 + i) := by
      rw [hviews]; exact getElem?_freshHandles _ _ _ hi
    refine ⟨_, hv, ?_⟩
    have hmem : Event.vkCreateFramebuffer ctx.renderPass (wc.nextHandle + 1 + n + 1 + i)
        (sizeAt env w.tick).width (sizeAt env w.tick).height VK_SUCCESS fb
        ∈ framebufferTrace ctx.renderPass (sizeAt env w.tick) s1.vars.swapchainImageViews
          (s1.vars.swapchain + n + n) := by
      unfold framebufferTrace
      refine mem_zipWith_of_getElem _ hv ?_
      rw [hviews, length_freshHandles, q5.swapchain, ← hfbs]
      exact hfb
    simp only [List.mem_append]
    exact Or.inl (Or.inl (Or.inl (Or.inl (Or.inl (Or.inl (Or.inl (Or.inr hmem)))))))
  · simp
  · intro i fb hfb
    have hfbs := q5.framebuffers
    obtain ⟨hi, _⟩ := getElem?_freshHandles_some (hfbs ▸ hfb)
    obtain ⟨cb, hcb⟩ := getElem?_acquiredBuffers vc.commandBuffers n
      (wc.nextHandle + 1 + n + n + n + 1) i hi
    rw [← q5.commandBuffers] at hcb
    refine ⟨cb, hcb, ?_⟩
    obtain ⟨before, after, hrec⟩ := recordAll_infix ctx (sizeAt env w.tick) s1.vars n 0 i
      (Nat.zero_le _) (by omega) hcb hfb
    have hmem : Event.vkCmdBeginRenderPass cb ctx.renderPass fb clearColor (sizeAt env w.tick).width
        (sizeAt env w.tick).height ∈ recordAll ctx (sizeAt env w.tick) s1.vars n 0 := by
      rw [hrec]
      simp [recordTrace]
    simp only [List.mem_append]
    exact Or.inl (Or.inl (Or.inl (Or.inl (Or.inr hmem))))

/-- The amended C26 at the first `recreateSwapchain` of `start()` on the 640x480 sample
surface. -/
theorem recreateSwapchain_single_extent_witness :
    recreateSwapchain sampleCtx sampleEnv State.initial = (.ok true, sampleLive)
    ∧ ∃ (extent : VkExtent2D) (l : List Event),
      extent = usedExtent (sampleEnv.capabilities State.initial.world.tick).currentExtent
      ∧ extent = (substituteExtent (sampleEnv.capabilities State.initial.world.tick)).currentExtent
      ∧ sampleLive.world.trace = State.initial.world.trace ++ l
      ∧ (∀ e ∈ l, Event.usesExtent extent e = true)
      ∧ (∃ info : VkSwapchainCreateInfoKHR, info.imageExtent = extent
          ∧ Event.vkCreateSwapchainKHR info VK_SUCCESS sampleLive.vars.swapchain ∈ l)
      ∧ (∀ (i : Nat) (fb : Handle), sampleLive.vars.framebuffers[i]? = some fb →
          ∃ view, sampleLive.vars.swapchainImageViews[i]? = some view
            ∧ Event.vkCreateFramebuffer sampleCtx.renderPass view extent.width extent.height
                VK_SUCCESS fb ∈ l)
      ∧ Event.vkCreateGraphicsPipelines
          { width := toFloat extent.width, height := toFloat extent.height } extent
          VK_SUCCESS sampleLive.vars.pipeline ∈ l
      ∧ (extent.width ≤ 2 ^ 24 → toFloat extent.width = extent.width)
      ∧ (extent.height ≤ 2 ^ 24 → toFloat extent.height = extent.height)
      ∧ (∀ (i : Nat) (fb : Handle), sampleLive.vars.framebuffers[i]? = some fb →
          ∃ cb, sampleLive.vars.commandBuffers[i]? = some cb
            ∧ Event.vkCmdBeginRenderPass cb sampleCtx.renderPass fb clearColor extent.width extent.height
                ∈ l) :=
  ⟨by decide!,
    recreateSwapchain_single_extent sampleCtx sampleEnv State.initial sampleLive (by decide!)⟩


/-! ### Properties kept by every returning call -/

theorem World.after_zero_nil (w : World) : w.after 0 [] = w := by
  simp [World.after]

theorem Attempt.after {ctx : Ctx} {env : Env} {v : Vars} {w : World} {flag : Bool}
    {r : Except Exn Unit} {s1 : State} (h : Attempt ctx env v w flag r s1) :
    ∃ k l, s1.world = w.after k l ∧ ∀ e ∈ l, Event.isLifecycle e = false := by
  cases h with
  | noFence _ => exact ⟨0, [], (World.after_zero_nil w).symm, by simp⟩
  | _ =>
    refine ⟨_, _, rfl, ?_⟩
    intro e he
    simp only [List.mem_cons, List.mem_singleton, List.not_mem_nil, or_false] at he
    first
      | (subst he; rfl)
      | (rcases he with h | h <;> subst h <;> rfl)
      | (rcases he with h | h | h <;> subst h <;> rfl)
      | (rcases he with h | h | h | h <;> subst h <;> rfl)
      | (rcases he with h | h | h | h | h <;> subst h <;> rfl)

/-- A property of the state kept by the calls of a frame, which leave the variables but
`submissionNr`, hand out no handle and make no lifecycle call, and by every returning
`recreateSwapchain`, is kept by every returning `render`. -/
theorem render_preserves (ctx : Ctx) (env : Env) (P : State → Prop)
    (hframe : ∀ (v : Vars) (w : World) (k nr : Nat) (l : List Event), P ⟨v, w⟩ →
      (∀ e ∈ l, Event.isLifecycle e = false) →
      (nr = v.submissionNr ∨ nr = toUInt32 (v.submissionNr + 1) % maxInflightSubmissions) →
      P ⟨{ v with submissionNr := nr }, w.after k l⟩)
    (hrec : ∀ s b s1, P s → recreateSwapchain ctx env s = (.ok b, s1) → P s1) (fuel : Nat) :
    ∀ (s s1 : State), P s → render ctx env fuel s = (.ok (), s1) → P s1 := by
  induction fuel with
  | zero => intro s s1 _ h; simp [render_zero] at h
  | succ fuel ih =>
    intro s s1 hs h
    rcases s with ⟨v, w⟩
    rw [render_succ] at h
    by_cases hsw : v.swapchain = VK_NULL_HANDLE
    · rw [if_pos hsw] at h; simp at h
    · rw [if_neg hsw] at h
      have hE : P ⟨v, w.after 0 [.enter .render]⟩ :=
        hframe v w 0 v.submissionNr _ hs (by simp [Event.isLifecycle]) (Or.inl rfl)
      have hA := renderTry_attempt ctx env v (w.after 0 [.enter .render])
      rcases hr : renderTry ctx env ⟨v, w.after 0 [.enter .render]⟩ with ⟨flag, r, s2⟩
      rw [hr] at hA h
      obtain ⟨k, l, hw2, hl⟩ := hA.after
      cases r with
      | ok u =>
        simp only [Prod.mk.injEq, true_and] at h
        subst h
        have hv := hA.vars_ok
        rcases s2 with ⟨v2, w2⟩
        simp only at hv hw2
        subst hv hw2
        exact hframe v _ k _ l hE hl (Or.inr rfl)
      | error e =>
        have hv := hA.vars_eq
        rcases s2 with ⟨v2, w2⟩
        simp only at hv hw2
        subst hv hw2
        have h2 : P ⟨v2, (w.after 0 [.enter .render]).after k l⟩ :=
          hframe v2 _ k v2.submissionNr l hE hl (Or.inl rfl)
        cases e with
        | vulkanResult source result =>
          simp only at h
          obtain ⟨w3, b, s3, h3, h4, hw3⟩ :=
            renderCatch_ok_run ctx env (render ctx env fuel) flag source result v2 _ s1 h
          have h5 : P ⟨v2, w3⟩ := by
            rcases hw3 with rfl | ⟨sem, hsem, rfl⟩
            · exact h2
            · exact hframe v2 _ 1 v2.submissionNr _ h2 (by
                intro e he
                simp only [List.mem_cons, List.mem_singleton, List.not_mem_nil, or_false] at he
                rcases he with h | h <;> subst h <;> rfl) (Or.inl rfl)
          exact ih s3 s1 (hrec _ b s3 h5 h3) h4
        | text msg => simp at h
        | assertion => simp at h
        | outOfRange => simp at h
        | fuel => simp at h

/-- A property kept by every returning `recreateSwapchain` and every returning `render` is
kept by every exception-free sequence of calls. -/
theorem runAll_preserves (ctx : Ctx) (env : Env) (P : State → Prop)
    (hrec : ∀ s b s1, P s → recreateSwapchain ctx env s = (.ok b, s1) → P s1)
    (hren : ∀ fuel s s1, P s → render ctx env fuel s = (.ok (), s1) → P s1)
    (ops : List Op) :
    ∀ (s s1 : State), P s → runAll ctx env ops s = (.ok (), s1) → P s1 := by
  induction ops with
  | nil =>
    intro s s1 hs h
    simp only [runAll, mPure_apply, Prod.mk.injEq, true_and] at h
    subst h
    exact hs
  | cons op ops ih =>
    intro s s1 hs h
    cases op with
    | recreateSwapchain =>
      simp only [runAll, mBind_apply] at h
      rcases hr : recreateSwapchain ctx env s with ⟨r, s2⟩
      rw [hr] at h
      cases r with
      | error e => simp at h
      | ok b => exact ih s2 s1 (hrec s b s2 hs hr) h
    | render fuel =>
      simp only [runAll, mBind_apply] at h
      rcases hr : render ctx env fuel s with ⟨r, s2⟩
      rw [hr] at h
      cases r with
      | error e => simp at h
      | ok u => exact ih s2 s1 (hren fuel s s2 hs hr) h

/-- A `recreateSwapchain` that returned `false` only tore the old state down, in whatever
environment. -/
theorem recreateSwapchain_false_exact (ctx : Ctx) (env : Env) (v : Vars) (w : World)
    (s1 : State) (hret : recreateSwapchain ctx env ⟨v, w⟩ = (.ok false, s1)) :
    creatableAt env w.tick = false
      ∧ s1.vars = v.afterDegenerate
      ∧ s1.world.nextHandle = w.nextHandle
      ∧ s1.world.tick = createTick v w
      ∧ s1.world.trace = w.trace ++ ([.enter .recreateSwapchain,
          .vkGetPhysicalDeviceSurfaceCapabilitiesKHR VK_SUCCESS (env.capabilities w.tick)]
          ++ (if v.swapchain ≠ VK_NULL_HANDLE then cleanupTrace ctx v ++ killTrace v
              else [])) := by
  have hch : env.SucceedsWithin w.tick s1.world.tick :=
    recreateSwapchain_checked ctx env ⟨v, w⟩ false s1 hret
  have hT : (recreateSwapchain ctx env ⟨v, w⟩).2.world.tick ≤ s1.world.tick := by rw [hret]
  obtain ⟨h1, hrun⟩ := recreateSwapchain_within ctx env ⟨v, w⟩ s1.world.tick hT hch
  rw [hret] at hrun
  have hc : creatableAt env w.tick = false :=
    (recreateSwapchain_ok_value ctx env ⟨v, w⟩ s1 false hret).symm
  refine ⟨hc, ?_⟩
  by_cases hold : v.swapchain = VK_NULL_HANDLE
  · have e := recreateSwapchain_degenerate_fresh ctx v h1 hc hold
    rw [hrun] at e
    simp only [Prod.mk.injEq, true_and] at e
    subst e
    simp [Vars.afterDegenerate, hold, createTick, World.after]
  · have e := recreateSwapchain_degenerate_old ctx v h1 hc hold
    rw [hrun] at e
    simp only [Prod.mk.injEq, true_and] at e
    subst e
    simp [Vars.afterDegenerate, hold, createTick, World.after, killTrace]


/-! ### The recorded command sequence -/

theorem sinceReset_fold (acc : List Event) (b : List Event)
    (h : ∀ e ∈ b, Event.isPoolReset e = false) :
    b.foldl (fun acc e => if e.isPoolReset = true then [] else acc ++ [e]) acc = acc ++ b := by
  induction b generalizing acc with
  | nil => simp
  | cons x xs ih =>
    have hx : x.isPoolReset = false := h x (List.mem_cons_self _ _)
    simp only [List.foldl_cons, hx, Bool.false_eq_true, if_false]
    rw [ih _ fun e he => h e (List.mem_cons_of_mem _ he)]
    simp

theorem sinceReset_append (a b : List Event) (h : ∀ e ∈ b, Event.isPoolReset e = false) :
    sinceReset (a ++ b) = sinceReset a ++ b := by
  unfold sinceReset
  rw [List.foldl_append]
  exact sinceReset_fold _ b h

theorem sinceReset_reset (a b : List Event) (r : Event) (hr : r.isPoolReset = true)
    (h : ∀ e ∈ b, Event.isPoolReset e = false) : sinceReset (a ++ r :: b) = b := by
  unfold sinceReset
  rw [List.foldl_append, List.foldl_cons, if_pos hr]
  rw [sinceReset_fold _ b h]
  rfl

theorem Event.frame_quiet {e : Event} (h : e.isLifecycle = false) :
    e.isPoolReset = false ∧ e.recordsInto = none := by
  cases e <;> simp [Event.isLifecycle] at h <;> exact ⟨rfl, rfl⟩

theorem recordTrace_filter_self (ctx : Ctx) (surfaceSize : VkExtent2D) (pipeline cb fb : Handle) :
    (recordTrace ctx surfaceSize pipeline cb fb).filter
        (fun e => decide (e.recordsInto = some cb))
      = recordTrace ctx surfaceSize pipeline cb fb := by
  simp [recordTrace, Event.recordsInto]

theorem recordTrace_filter_other (ctx : Ctx) (surfaceSize : VkExtent2D)
    (pipeline cb fb c : Handle) (h : cb ≠ c) :
    (recordTrace ctx surfaceSize pipeline cb fb).filter
        (fun e => decide (e.recordsInto = some c)) = [] := by
  simp [recordTrace, Event.recordsInto, h]

theorem recordTrace_quiet (ctx : Ctx) (surfaceSize : VkExtent2D) (pipeline cb fb : Handle) :
    ∀ e ∈ recordTrace ctx surfaceSize pipeline cb fb, Event.isPoolReset e = false := by
  intro e he
  simp only [recordTrace, List.mem_cons, List.mem_singleton, List.not_mem_nil, or_false] at he
  rcases he with h | h | h | h | h | h | h | h <;> subst h <;> rfl

theorem recordAll_quiet (ctx : Ctx) (surfaceSize : VkExtent2D) (v : Vars) (remaining : Nat) :
    ∀ i, ∀ e ∈ recordAll ctx surfaceSize v remaining i, Event.isPoolReset e = false := by
  induction remaining with
  | zero => intro i e he; simp [recordAll] at he
  | succ n ih =>
    intro i e he
    simp only [recordAll, List.mem_append] at he
    rcases he with he | he
    · cases hc : v.commandBuffers[i]? with
      | none => simp [hc] at he
      | some cb =>
        cases hf : v.framebuffers[i]? with
        | none => simp [hc, hf] at he
        | some fb =>
          simp only [hc, hf] at he
          exact recordTrace_quiet ctx _ _ _ _ e he
    · exact ih _ e he

/-- Nothing is recorded into a command buffer that is not among those of the loop. -/
theorem recordAll_filter_other (ctx : Ctx) (surfaceSize : VkExtent2D) (v : Vars) (c : Handle)
    (remaining : Nat) :
    ∀ i, (∀ j, i ≤ j → j < i + remaining → v.commandBuffers[j]? ≠ some c) →
      (recordAll ctx surfaceSize v remaining i).filter
        (fun e => decide (e.recordsInto = some c)) = [] := by
  induction remaining with
  | zero => intro i _; rfl
  | succ n ih =>
    intro i h
    simp only [recordAll, List.filter_append]
    rw [ih (i + 1) fun j h1 h2 => h j (by omega) (by omega)]
    cases hc : v.commandBuffers[i]? with
    | none => simp
    | some cb =>
      cases hf : v.framebuffers[i]? with
      | none => simp
      | some fb =>
        have hne : cb ≠ c := by
          intro e
          exact h i (Nat.le_refl _) (by omega) (by rw [hc, e])
        simp only [List.append_nil]
        exact recordTrace_filter_other ctx _ _ _ _ _ hne

theorem nodup_lookup_inj {xs : List Handle} (h : xs.Nodup) {i j : Nat} {x : Handle}
    (hi : xs[i]? = some x) (hj : xs[j]? = some x) : i = j := by
  obtain ⟨h1, e1⟩ := List.getElem?_eq_some.mp hi
  obtain ⟨h2, e2⟩ := List.getElem?_eq_some.mp hj
  exact (List.Nodup.getElem_inj_iff h).mp (e1.trans e2.symm)

/-- The recording loop records into command buffer `i` exactly the eight calls of
`recordTrace`. -/
theorem recordAll_filter (ctx : Ctx) (surfaceSize : VkExtent2D) (v : Vars)
    (hnd : v.commandBuffers.Nodup) {k : Nat} {cb fb : Handle}
    (hc : v.commandBuffers[k]? = some cb) (hf : v.framebuffers[k]? = some fb)
    (remaining : Nat) :
    ∀ i, i ≤ k → k < i + remaining →
      (recordAll ctx surfaceSize v remaining i).filter
        (fun e => decide (e.recordsInto = some cb))
        = recordTrace ctx surfaceSize v.pipeline cb fb := by
  induction remaining with
  | zero => intro i h1 h2; omega
  | succ n ih =>
    intro i h1 h2
    simp only [recordAll, List.filter_append]
    by_cases hik : i = k
    · subst hik
      rw [recordAll_filter_other ctx surfaceSize v cb n (i + 1) fun j hj1 hj2 hj => by
        have := nodup_lookup_inj hnd hj hc
        omega]
      simp only [hc, hf, List.append_nil]
      exact recordTrace_filter_self ctx _ _ _ _
    · rw [ih (i + 1) (by omega) (by omega)]
      cases hci : v.commandBuffers[i]? with
      | none => simp
      | some c =>
        cases hfi : v.framebuffers[i]? with
        | none => simp
        | some f =>
          have hne : c ≠ cb := by
            intro e
            rw [e] at hci
            exact hik (nodup_lookup_inj hnd hci hc)
          simp only
          rw [recordTrace_filter_other ctx _ _ _ _ _ hne, List.nil_append]

theorem acquiredBuffers_tidy (old : List Handle) (count first bound : Nat)
    (hnd : old.Nodup) (hle : ∀ c ∈ old, c ≤ bound) (hlen : old.length < 2 ^ 32)
    (hb : bound ≤ first) :
    (acquiredBuffers old count first).Nodup
      ∧ (∀ c ∈ acquiredBuffers old count first, c ≤ first + (count - toUInt32 old.length))
      ∧ (count < 2 ^ 32 → (acquiredBuffers old count first).length = count) := by
  have hu : toUInt32 old.length = old.length := toUInt32_of_lt hlen
  unfold acquiredBuffers
  rw [hu]
  by_cases h1 : count > old.length
  · rw [if_pos h1]
    have hres : (resize count old).take old.length = old := by
      unfold resize
      rw [List.take_of_length_le (by omega : old.length ≤ count)]
      simp
    rw [hres]
    refine ⟨?_, ?_, ?_⟩
    · refine List.Nodup.append hnd (nodup_freshHandles _ _) ?_
      intro x hx1 hx2
      exact Nat.lt_irrefl _ (Nat.lt_of_lt_of_le ((mem_freshHandles _ _ _).mp hx2).1
        (Nat.le_trans (hle x hx1) hb))
    · intro c hc
      rcases List.mem_append.mp hc with h | h
      · exact Nat.le_trans (hle c h) (Nat.le_trans hb (Nat.le_add_right _ _))
      · exact ((mem_freshHandles _ _ _).mp h).2
    · intro _
      simp only [List.length_append, length_freshHandles]
      omega
  · rw [if_neg h1]
    by_cases h2 : count < old.length
    · rw [if_pos h2]
      have hres : resize count old = old.take count := by
        unfold resize
        have : count - old.length = 0 := by omega
        rw [this]; simp
      rw [hres]
      refine ⟨hnd.sublist (List.take_sublist _ _), ?_, ?_⟩
      · intro c hc
        exact Nat.le_trans (hle c (List.mem_of_mem_take hc))
          (Nat.le_trans hb (Nat.le_add_right _ _))
      · intro _
        rw [List.length_take]; omega
    · rw [if_neg h2]
      refine ⟨hnd, ?_, ?_⟩
      · intro c hc
        exact Nat.le_trans (hle c hc) (Nat.le_trans hb (Nat.le_add_right _ _))
      · intro _; omega

theorem cleanupTrace_split (ctx : Ctx) (v : Vars) :
    ∃ a b, cleanupTrace ctx v = a ++ Event.vkResetCommandPool ctx.commandPool VK_SUCCESS :: b
      ∧ ∀ e ∈ b, Event.isPoolReset e = false ∧ e.recordsInto = none := by
  refine ⟨[.vkDeviceWaitIdle VK_SUCCESS] ++ v.submissionFences.map .vkDestroyFence
    ++ v.renderDoneSs.map .vkDestroySemaphore,
    [.vkDestroyPipeline v.pipeline] ++ v.framebuffers.map .vkDestroyFramebuffer
      ++ v.swapchainImageViews.map .vkDestroyImageView, ?_, ?_⟩
  · simp [cleanupTrace]
  · intro e he
    simp at he
    rcases he with h | ⟨x, _, h⟩ | ⟨x, _, h⟩ <;> subst h <;> exact ⟨rfl, rfl⟩

theorem killTrace_quiet (v : Vars) :
    ∀ e ∈ killTrace v, Event.isPoolReset e = false ∧ e.recordsInto = none := by
  intro e he
  simp [killTrace] at he
  rcases he with h | ⟨x, _, h⟩ <;> subst h <;> exact ⟨rfl, rfl⟩

theorem tidy_initial : Tidy State.initial :=
  ⟨List.nodup_nil, by simp [State.initial, Vars.initial], by simp [State.initial, Vars.initial],
    by simp [State.initial, World.initial, sinceReset]⟩

theorem Tidy.tidy_frame {v : Vars} {w : World} (h : Tidy ⟨v, w⟩) (k nr : Nat) {l : List Event}
    (hl : ∀ e ∈ l, Event.isLifecycle e = false) :
    Tidy ⟨{ v with submissionNr := nr }, w.after k l⟩ := by
  refine ⟨h.nodup, h.handed, h.bounded, ?_⟩
  intro hsw e he
  have hsplit : sinceReset (w.trace ++ l) = sinceReset w.trace ++ l :=
    sinceReset_append _ _ fun e he => (Event.frame_quiet (hl e he)).1
  have he1 : e ∈ sinceReset w.trace ++ l := by rw [← hsplit]; exact he
  rcases List.mem_append.mp he1 with h1 | h1
  · exact h.blank hsw e h1
  · exact (Event.frame_quiet (hl e h1)).2

theorem filter_recordsInto_nil {l : List Event} (h : ∀ e ∈ l, e.recordsInto = none)
    (cb : Handle) : l.filter (fun e => decide (e.recordsInto = some cb)) = [] := by
  rw [List.filter_eq_nil_iff]
  intro e he
  simp [h e he]

theorem viewTrace_quiet (format : Nat) (images : List Handle) (first : Nat) :
    ∀ e ∈ viewTrace format images first, Event.isPoolReset e = false ∧ e.recordsInto = none := by
  intro e he
  obtain ⟨a, b, rfl⟩ := mem_zipWith_elim _ _ _ _ he
  exact ⟨rfl, rfl⟩

theorem framebufferTrace_quiet (renderPass : Handle) (surfaceSize : VkExtent2D)
    (imageViews : List Handle) (first : Nat) :
    ∀ e ∈ framebufferTrace renderPass surfaceSize imageViews first,
      Event.isPoolReset e = false ∧ e.recordsInto = none := by
  intro e he
  obtain ⟨a, b, rfl⟩ := mem_zipWith_elim _ _ _ _ he
  exact ⟨rfl, rfl⟩

theorem acquireTrace_quiet (ctx : Ctx) (old : List Handle) (count first : Nat) :
    ∀ e ∈ acquireTrace ctx old count first,
      Event.isPoolReset e = false ∧ e.recordsInto = none := by
  intro e he
  unfold acquireTrace at he
  split at he
  · simp at he; subst he; exact ⟨rfl, rfl⟩
  · split at he
    · simp at he; subst he; exact ⟨rfl, rfl⟩
    · simp at he

/-- What a `recreateSwapchain` that returned `true` leaves in a command buffer: what its
recording loop recorded into it. -/
theorem Recreated.recorded {ctx : Ctx} {env : Env} {v : Vars} {w : World} {v1 : Vars}
    {w1 : World} {n : Nat} (h : Recreated ctx env v w v1 w1 n)
    (hblank : v.swapchain = VK_NULL_HANDLE → ∀ e ∈ sinceReset w.trace, e.recordsInto = none)
    (cb : Handle) :
    recordedInto cb w1.trace
      = (recordAll ctx (sizeAt env w.tick) v1 n 0).filter
          (fun e => decide (e.recordsInto = some cb)) := by
  obtain ⟨info, _, _, _, ht⟩ := h.added_trace
  obtain ⟨before, middle, after, hb, hm, ha, hshape⟩ : ∃ before middle after : List Event,
      (∀ e ∈ before, Event.isPoolReset e = false ∧ e.recordsInto = none)
      ∧ middle = recordAll ctx (sizeAt env w.tick) v1 n 0
      ∧ (∀ e ∈ after, Event.isPoolReset e = false ∧ e.recordsInto = none)
      ∧ w1.trace = w.trace ++ ([.enter .recreateSwapchain,
            .vkGetPhysicalDeviceSurfaceCapabilitiesKHR VK_SUCCESS (env.capabilities w.tick)]
          ++ (if v.swapchain ≠ VK_NULL_HANDLE then cleanupTrace ctx v else []))
          ++ (before ++ middle ++ after) := by
    refine ⟨[.vkGetPhysicalDeviceSurfacePresentModesKHR VK_SUCCESS
              (env.presentModes (createTick v w)),
            .vkCreateSwapchainKHR info VK_SUCCESS v1.swapchain,
            .vkGetSwapchainImagesKHR v1.swapchain VK_SUCCESS (freshHandles v1.swapchain n)]
        ++ viewTrace ctx.surfaceFormat.format (freshHandles v1.swapchain n)
            (v1.swapchain + n)
        ++ framebufferTrace ctx.renderPass (sizeAt env w.tick) v1.swapchainImageViews
            (v1.swapchain + n + n)
        ++ [.vkCreateGraphicsPipelines
            { width :=
                toFloat (if (sizeAt env w.tick).width ≠ 0 then (sizeAt env w.tick).width else 1),
              height :=
                toFloat
                  (if (sizeAt env w.tick).height ≠ 0 then (sizeAt env w.tick).height else 1) }
            { width := (sizeAt env w.tick).width, height := (sizeAt env w.tick).height }
            VK_SUCCESS v1.pipeline]
        ++ acquireTrace ctx v.commandBuffers n v1.pipeline, _,
      v1.imageReadySs.map (.vkCreateSemaphore VK_SUCCESS)
        ++ v1.renderDoneSs.map (.vkCreateSemaphore VK_SUCCESS)
        ++ v1.submissionFences.map (.vkCreateFence VK_FENCE_CREATE_SIGNALED_BIT VK_SUCCESS)
        ++ (if v.swapchain ≠ VK_NULL_HANDLE then killTrace v else []), ?_, rfl, ?_, ?_⟩
    rotate_left 2
    · rw [ht]
      simp only [List.append_assoc]
    · intro e he
      simp only [List.mem_append, List.mem_cons, List.mem_singleton, List.not_mem_nil,
        or_false] at he
      rcases he with (((he | he) | he) | he) | he
      · rcases he with h | h | h <;> subst h <;> exact ⟨rfl, rfl⟩
      · exact viewTrace_quiet _ _ _ e he
      · exact framebufferTrace_quiet _ _ _ _ e he
      · subst he; exact ⟨rfl, rfl⟩
      · exact acquireTrace_quiet ctx _ _ _ e he
    · intro e he
      simp only [List.mem_append, List.mem_map] at he
      rcases he with ((he | he) | he) | he
      · obtain ⟨x, _, h⟩ := he; subst h; exact ⟨rfl, rfl⟩
      · obtain ⟨x, _, h⟩ := he; subst h; exact ⟨rfl, rfl⟩
      · obtain ⟨x, _, h⟩ := he; subst h; exact ⟨rfl, rfl⟩
      · split at he
        · exact killTrace_quiet v e he
        · simp at he
  have hquiet : ∀ e ∈ before ++ middle ++ after, Event.isPoolReset e = false := by
    intro e he
    rcases List.mem_append.mp he with he | he
    · rcases List.mem_append.mp he with he | he
      · exact (hb e he).1
      · rw [hm] at he; exact recordAll_quiet ctx _ _ _ _ e he
    · exact (ha e he).1
  have hfilter : ∀ l : List Event, (∀ e ∈ l, e.recordsInto = none) →
      (l ++ (before ++ middle ++ after)).filter (fun e => decide (e.recordsInto = some cb))
        = middle.filter (fun e => decide (e.recordsInto = some cb)) := by
    intro l hl
    simp only [List.filter_append]
    rw [filter_recordsInto_nil hl, filter_recordsInto_nil fun e he => (hb e he).2,
      filter_recordsInto_nil fun e he => (ha e he).2]
    simp
  unfold recordedInto
  rw [hshape, ← hm]
  by_cases hold : v.swapchain = VK_NULL_HANDLE
  · have hold2 : ¬ (v.swapchain ≠ VK_NULL_HANDLE) := not_not.mpr hold
    rw [if_neg hold2, sinceReset_append _ _ hquiet, List.append_nil,
      sinceReset_append _ _ (by
        intro e he
        simp only [List.mem_cons, List.mem_singleton, List.not_mem_nil, or_false] at he
        rcases he with h | h <;> subst h <;> rfl)]
    have hf := hfilter (sinceReset w.trace ++ [Event.enter Fn.recreateSwapchain,
        Event.vkGetPhysicalDeviceSurfaceCapabilitiesKHR VK_SUCCESS (env.capabilities w.tick)])
      (by
        intro e he
        rcases List.mem_append.mp he with he | he
        · exact hblank hold e he
        · simp only [List.mem_cons, List.mem_singleton, List.not_mem_nil, or_false] at he
          rcases he with h | h <;> subst h <;> rfl)
    exact hf
  · have hold1 : v.swapchain ≠ VK_NULL_HANDLE := hold
    obtain ⟨a, b, hsplit, hq⟩ := cleanupTrace_split ctx v
    rw [if_pos hold1, hsplit, sinceReset_append _ _ hquiet]
    have : w.trace ++ ([Event.enter Fn.recreateSwapchain,
        Event.vkGetPhysicalDeviceSurfaceCapabilitiesKHR VK_SUCCESS (env.capabilities w.tick)]
        ++ (a ++ Event.vkResetCommandPool ctx.commandPool VK_SUCCESS :: b))
        = (w.trace ++ [Event.enter Fn.recreateSwapchain,
        Event.vkGetPhysicalDeviceSurfaceCapabilitiesKHR VK_SUCCESS (env.capabilities w.tick)]
        ++ a) ++ Event.vkResetCommandPool ctx.commandPool VK_SUCCESS :: b := by
      simp only [List.append_assoc]
    rw [this, sinceReset_reset _ b (Event.vkResetCommandPool ctx.commandPool VK_SUCCESS) rfl
      fun e he => (hq e he).1]
    exact hfilter b fun e he => (hq e he).2

theorem Vars.afterDegenerate_commandBuffers (v : Vars) :
    v.afterDegenerate.commandBuffers = v.commandBuffers
      ∧ v.afterDegenerate.swapchain = VK_NULL_HANDLE := by
  unfold Vars.afterDegenerate
  split <;> exact ⟨rfl, rfl⟩

theorem Tidy.tidy_recreate {ctx : Ctx} {env : Env} {s : State} (hs : Tidy s) {b : Bool}
    {s1 : State} (hret : recreateSwapchain ctx env s = (.ok b, s1)) : Tidy s1 := by
  rcases s with ⟨v, w⟩
  cases b with
  | true =>
    obtain ⟨n, hr⟩ := recreateSwapchain_true_exact ctx env v w s1 hret
    obtain ⟨vc, wc, wb, q1, q2, q3, q4, q5, q6, q7, q8⟩ := hr.assembled
    have hn : n < 2 ^ 32 := by rw [q5.count_eq]; exact toUInt32_lt _
    obtain ⟨t1, t2, t3⟩ := acquiredBuffers_tidy v.commandBuffers n
      (wc.nextHandle + 1 + n + n + n + 1) w.nextHandle hs.nodup hs.handed hs.bounded
      (by rw [q3]; omega)
    have hcb : s1.vars.commandBuffers = acquiredBuffers v.commandBuffers n
        (wc.nextHandle + 1 + n + n + n + 1) := by rw [q5.commandBuffers, q1]
    refine ⟨by rw [hcb]; exact t1, ?_, by rw [hcb, t3 hn]; exact hn, ?_⟩
    · intro cb hcbm
      rw [hcb] at hcbm
      refine Nat.le_trans (t2 cb hcbm) ?_
      rw [q7, q5.nextHandle, q1]
      omega
    · intro hsw
      rw [q5.swapchain] at hsw
      exact absurd hsw (Nat.succ_ne_zero _)
  | false =>
    obtain ⟨_, hv, hn, _, ht⟩ := recreateSwapchain_false_exact ctx env v w s1 hret
    obtain ⟨hc, hsw⟩ := Vars.afterDegenerate_commandBuffers v
    refine ⟨by rw [hv, hc]; exact hs.nodup, ?_, by rw [hv, hc]; exact hs.bounded, ?_⟩
    · intro cb hcb
      rw [hv, hc] at hcb
      rw [hn]
      exact hs.handed cb hcb
    · intro _ e he
      rw [ht] at he
      by_cases hold : v.swapchain = VK_NULL_HANDLE
      · have hold2 : ¬ (v.swapchain ≠ VK_NULL_HANDLE) := not_not.mpr hold
        rw [if_neg hold2, List.append_nil, sinceReset_append _ _ (by
          intro e he
          simp only [List.mem_cons, List.mem_singleton, List.not_mem_nil, or_false] at he
          rcases he with h | h <;> subst h <;> rfl)] at he
        rcases List.mem_append.mp he with he | he
        · exact hs.blank hold e he
        · simp only [List.mem_cons, List.mem_singleton, List.not_mem_nil, or_false] at he
          rcases he with h | h <;> subst h <;> rfl
      · have hold1 : v.swapchain ≠ VK_NULL_HANDLE := hold
        obtain ⟨a, b, hsplit, hq⟩ := cleanupTrace_split ctx v
        rw [if_pos hold1, hsplit] at he
        have : w.trace ++ ([Event.enter Fn.recreateSwapchain,
            Event.vkGetPhysicalDeviceSurfaceCapabilitiesKHR VK_SUCCESS
              (env.capabilities w.tick)]
            ++ ((a ++ Event.vkResetCommandPool ctx.commandPool VK_SUCCESS :: b)
              ++ killTrace v))
            = (w.trace ++ [Event.enter Fn.recreateSwapchain,
            Event.vkGetPhysicalDeviceSurfaceCapabilitiesKHR VK_SUCCESS
              (env.capabilities w.tick)] ++ a)
              ++ Event.vkResetCommandPool ctx.commandPool VK_SUCCESS :: (b ++ killTrace v) := by
          simp only [List.append_assoc, List.cons_append]
        rw [this, sinceReset_reset _ (b ++ killTrace v)
          (Event.vkResetCommandPool ctx.commandPool VK_SUCCESS) rfl (by
          intro e he
          rcases List.mem_append.mp he with he | he
          · exact (hq e he).1
          · exact (killTrace_quiet v e he).1)] at he
        rcases List.mem_append.mp he with he | he
        · exact (hq e he).2
        · exact (killTrace_quiet v e he).2

/-- Every state reached from the initial one by returning calls is tidy. -/
theorem runAll_tidy (ctx : Ctx) (env : Env) (ops : List Op) (s : State)
    (h : runAll ctx env ops State.initial = (.ok (), s)) : Tidy s :=
  runAll_preserves ctx env Tidy (fun _ _ _ hs hret => hs.tidy_recreate hret)
    (fun fuel => render_preserves ctx env Tidy
      (fun _ _ k nr _ hs hl _ => hs.tidy_frame k nr hl)
      (fun _ _ _ hs hret => hs.tidy_recreate hret) fuel)
    ops State.initial s tidy_initial h

/-- C21: after a `recreateSwapchain` that returns `true`, called in any state the program
reaches from its initial state by returning calls of `recreateSwapchain` and `render`, for
every image index `i` below the number of images enumerated from the new swapchain the
command sequence that `commandBuffers[i]` holds, that is, the recording calls made on it
since the command pool was last reset, is exactly: begin buffer, begin render pass on
`framebuffers[i]` with the clear colour `clearColor` and the render area `extent`, bind the
current pipeline, bind the vertex buffer at `vertexBufferBinding`, bind the descriptor set,
one draw of 3 vertices (`triangle.size()`) and 1 instance from vertex 0 and instance 0, end
render pass, end buffer; the sequence contains exactly one draw call. -/
theorem recorded_commands_exact (ctx : Ctx) (env : Env) (ops : List Op) (s s1 : State)
    (hs : runAll ctx env ops State.initial = (.ok (), s))
    (hret : recreateSwapchain ctx env s = (.ok true, s1)) :
    ∃ (images : List Handle) (extent : VkExtent2D),
      Event.vkGetSwapchainImagesKHR s1.vars.swapchain VK_SUCCESS images ∈ s1.world.trace
      ∧ extent = usedExtent (env.capabilities s.world.tick).currentExtent
      ∧ triangleSize = 3
      ∧ ∀ i : Nat, i < images.length →
        ∃ cb fb : Handle, s1.vars.commandBuffers[i]? = some cb
          ∧ s1.vars.framebuffers[i]? = some fb
          ∧ recordedInto cb s1.world.trace =
            [.vkBeginCommandBuffer cb VK_SUCCESS,
             .vkCmdBeginRenderPass cb ctx.renderPass fb clearColor extent.width extent.height,
             .vkCmdBindPipeline cb s1.vars.pipeline,
             .vkCmdBindVertexBuffers cb vertexBufferBinding ctx.vertexBuffer,
             .vkCmdBindDescriptorSets cb ctx.pipelineLayout ctx.descriptorSet,
             .vkCmdDraw cb 3 1 0 0,
             .vkCmdEndRenderPass cb,
             .vkEndCommandBuffer cb VK_SUCCESS]
          ∧ (recordedInto cb s1.world.trace).filter Event.isDraw = [.vkCmdDraw cb 3 1 0 0] := by
  have htidy := runAll_tidy ctx env ops s hs
  have htidy1 := htidy.tidy_recreate hret
  rcases s with ⟨v, w⟩
  obtain ⟨n, hr⟩ := recreateSwapchain_true_exact ctx env v w s1 hret
  obtain ⟨info, _, _, _, ht⟩ := hr.added_trace
  obtain ⟨vc, wc, wb, q1, q2, q3, q4, q5, q6, q7, q8⟩ := hr.assembled
  obtain ⟨hsize, _⟩ := sizeAt_eq env w.tick
  refine ⟨freshHandles s1.vars.swapchain n, sizeAt env w.tick, ?_, hsize, rfl, ?_⟩
  · rw [ht]
    simp
  · intro i hi
    rw [length_freshHandles] at hi
    obtain ⟨cb, hcb⟩ := getElem?_acquiredBuffers vc.commandBuffers n
      (wc.nextHandle + 1 + n + n + n + 1) i hi
    rw [← q5.commandBuffers] at hcb
    have hfb : s1.vars.framebuffers[i]? = some (wc.nextHandle + 1 + n + n + 1 + i) := by
      rw [q5.framebuffers]; exact getElem?_freshHandles _ _ _ hi
    have hrec : recordedInto cb s1.world.trace
        = recordTrace ctx (sizeAt env w.tick) s1.vars.pipeline cb
            (wc.nextHandle + 1 + n + n + 1 + i) := by
      rw [hr.recorded htidy.blank cb]
      exact recordAll_filter ctx _ s1.vars htidy1.nodup hcb hfb n 0 (Nat.zero_le _) (by omega)
    refine ⟨cb, _, hcb, hfb, ?_, ?_⟩
    · rw [hrec]; rfl
    · rw [hrec]; rfl

theorem recorded_commands_exact_witness :
    runAll sampleCtx sampleEnv [.recreateSwapchain, .render 1] State.initial
        = (.ok (), sampleFrame)
    ∧ (recreateSwapchain sampleCtx sampleEnv sampleFrame).1 = .ok true
    ∧ ∃ (images : List Handle) (extent : VkExtent2D),
      Event.vkGetSwapchainImagesKHR
          (recreateSwapchain sampleCtx sampleEnv sampleFrame).2.vars.swapchain VK_SUCCESS images
        ∈ (recreateSwapchain sampleCtx sampleEnv sampleFrame).2.world.trace
      ∧ extent = usedExtent (sampleEnv.capabilities sampleFrame.world.tick).currentExtent
      ∧ triangleSize = 3
      ∧ ∀ i : Nat, i < images.length →
        ∃ cb fb : Handle,
          (recreateSwapchain sampleCtx sampleEnv sampleFrame).2.vars.commandBuffers[i]? = some cb
          ∧ (recreateSwapchain sampleCtx sampleEnv sampleFrame).2.vars.framebuffers[i]? = some fb
          ∧ recordedInto cb (recreateSwapchain sampleCtx sampleEnv sampleFrame).2.world.trace =
            [.vkBeginCommandBuffer cb VK_SUCCESS,
             .vkCmdBeginRenderPass cb sampleCtx.renderPass fb clearColor extent.width
               extent.height,
             .vkCmdBindPipeline cb
               (recreateSwapchain sampleCtx sampleEnv sampleFrame).2.vars.pipeline,
             .vkCmdBindVertexBuffers cb vertexBufferBinding sampleCtx.vertexBuffer,
             .vkCmdBindDescriptorSets cb sampleCtx.pipelineLayout sampleCtx.descriptorSet,
             .vkCmdDraw cb 3 1 0 0,
             .vkCmdEndRenderPass cb,
             .vkEndCommandBuffer cb VK_SUCCESS]
          ∧ (recordedInto cb
              (recreateSwapchain sampleCtx sampleEnv sampleFrame).2.world.trace).filter
                Event.isDraw = [.vkCmdDraw cb 3 1 0 0] :=
  ⟨by decide!, by decide!,
    recorded_commands_exact sampleCtx sampleEnv [.recreateSwapchain, .render 1] sampleFrame
      (recreateSwapchain sampleCtx sampleEnv sampleFrame).2 (by decide!) (by decide!)⟩


/-! ### Every call leaves its result in the trace -/

section Logged
variable {α β : Type}

theorem W.Logged.logStillW {env : Env} {m : W α}
    (h : ∀ w, (m w).2.tick = w.tick ∧ ∃ l, (m w).2.trace = w.trace ++ l) :
    W.Logged env m := by
  intro w
  obtain ⟨h1, l, h2⟩ := h w
  exact ⟨l, h2, fun k hk1 hk2 => by omega⟩

theorem W.Logged.logQuietW {env : Env} {m : W α}
    (h : ∀ w, (m w).2.tick = w.tick ∧ (m w).2.trace = w.trace) : W.Logged env m :=
  .logStillW fun w => ⟨(h w).1, [], by rw [(h w).2, List.append_nil]⟩

theorem W.Logged.logPureW {env : Env} (a : α) : W.Logged env (pure a : W α) :=
  .logQuietW fun _ => ⟨rfl, rfl⟩

theorem W.Logged.logRaiseW {env : Env} (e : Exn) : W.Logged env (W.raise e : W α) :=
  .logQuietW fun _ => ⟨rfl, rfl⟩

theorem W.Logged.logBindW {env : Env} {m : W α} {f : α → W β} (hm : W.Logged env m)
    (hf : ∀ a, W.Logged env (f a)) : W.Logged env (m >>= f) := by
  intro w
  obtain ⟨l1, ht1, hk1⟩ := hm w
  rcases hmw : m w with ⟨r, w1⟩
  rw [hmw] at ht1 hk1
  simp only at ht1 hk1
  cases r with
  | error e =>
    have hrun : (m >>= f) w = (.error e, w1) := by rw [wBind_apply, hmw]
    rw [hrun]
    refine ⟨l1, ht1, fun k h1 h2 => ?_⟩
    obtain ⟨he, hs⟩ := hk1 k h1 h2
    exact ⟨he, fun hne => hs fun source result heq =>
      hne source result (by rw [Except.error.inj heq])⟩
  | ok a =>
    have hrun : (m >>= f) w = f a w1 := by rw [wBind_apply, hmw]
    rw [hrun]
    obtain ⟨l2, ht2, hk2⟩ := hf a w1
    refine ⟨l1 ++ l2, by rw [ht2, ht1, List.append_assoc], ?_⟩
    intro k h1 h2
    by_cases hk : k < w1.tick
    · obtain ⟨⟨e, he, hr⟩, hs⟩ := hk1 k h1 hk
      exact ⟨⟨e, List.mem_append_left _ he, hr⟩, fun _ => hs (fun _ _ h => by cases h)⟩
    · obtain ⟨⟨e, he, hr⟩, hs⟩ := hk2 k (by omega) h2
      exact ⟨⟨e, List.mem_append_right _ he, hr⟩, hs⟩

theorem W.Logged.logIteW {env : Env} {c : Prop} [Decidable c] {m n : W α}
    (h1 : W.Logged env m) (h2 : W.Logged env n) : W.Logged env (if c then m else n) := by
  split
  · exact h1
  · exact h2

theorem W.Logged.logReportW (env : Env) (mk : VkResult → Event) (source : Api)
    (hmk : ∀ r, (mk r).reported = some r) {g : VkResult → W β}
    (hg : ∀ r, W.Logged env (g r)) :
    W.Logged env (report env mk >>= fun r => RESULT_HANDLER r source >>= fun _ => g r) := by
  intro w
  by_cases hres : env.result w.tick = VK_SUCCESS
  · obtain ⟨l2, ht2, hk2⟩ := hg VK_SUCCESS
      { w with tick := w.tick + 1, trace := w.trace ++ [mk VK_SUCCESS] }
    simp only [wBind_apply, report_apply, RESULT_HANDLER_success, hres, wPure_apply]
    refine ⟨mk VK_SUCCESS :: l2, by rw [ht2]; simp, ?_⟩
    intro k h1 h2
    by_cases hk : k = w.tick
    · subst hk
      exact ⟨⟨_, List.mem_cons_self _ _, by rw [hmk, hres]⟩, fun _ => hres⟩
    · obtain ⟨⟨e, he, hr⟩, hs⟩ := hk2 k (by show w.tick + 1 ≤ k; omega) h2
      exact ⟨⟨e, List.mem_cons_of_mem _ he, hr⟩, hs⟩
  · simp only [wBind_apply, report_apply, RESULT_HANDLER_failure hres, wRaise_apply]
    refine ⟨[mk (env.result w.tick)], rfl, ?_⟩
    intro k h1 h2
    have hk : k = w.tick := by have h3 : k < w.tick + 1 := h2; omega
    subst hk
    exact ⟨⟨_, List.mem_singleton_self _, hmk _⟩, fun h => absurd rfl (h _ _)⟩

theorem W.Logged.logReportEndW (env : Env) (mk : VkResult → Event) (source : Api)
    (hmk : ∀ r, (mk r).reported = some r) :
    W.Logged env (report env mk >>= fun r => RESULT_HANDLER r source) := by
  intro w
  refine ⟨[mk (env.result w.tick)], ?_, ?_⟩
  · by_cases hres : env.result w.tick = VK_SUCCESS
    · simp [wBind_apply, report_apply, hres]
    · simp [wBind_apply, report_apply, RESULT_HANDLER_failure hres]
  · intro k h1 h2
    have hk : k = w.tick := by
      by_cases hres : env.result w.tick = VK_SUCCESS
      · simp [wBind_apply, report_apply, hres] at h2; omega
      · simp [wBind_apply, report_apply, RESULT_HANDLER_failure hres] at h2; omega
    subst hk
    refine ⟨⟨_, List.mem_singleton_self _, hmk _⟩, fun h => ?_⟩
    by_contra hres
    exact h source (env.result w.tick)
      (by simp [wBind_apply, report_apply, RESULT_HANDLER_failure hres])

theorem W.Logged.logCreateW (env : Env) (mk : VkResult → Handle → Event) (source : Api)
    (hmk : ∀ r h, (mk r h).reported = some r) {g : VkResult × Handle → W β}
    (hg : ∀ r, W.Logged env (g r)) :
    W.Logged env (create env mk >>= fun c => RESULT_HANDLER c.1 source >>= fun _ => g c) := by
  intro w
  by_cases hres : env.result w.tick = VK_SUCCESS
  · obtain ⟨l2, ht2, hk2⟩ := hg (VK_SUCCESS, w.nextHandle + 1)
      { w with tick := w.tick + 1, nextHandle := w.nextHandle + 1,
               trace := w.trace ++ [mk VK_SUCCESS (w.nextHandle + 1)] }
    simp only [wBind_apply, create_apply, RESULT_HANDLER_success, hres, wPure_apply]
    refine ⟨mk VK_SUCCESS (w.nextHandle + 1) :: l2, by rw [ht2]; simp, ?_⟩
    intro k h1 h2
    by_cases hk : k = w.tick
    · subst hk
      exact ⟨⟨_, List.mem_cons_self _ _, by rw [hmk, hres]⟩, fun _ => hres⟩
    · obtain ⟨⟨e, he, hr⟩, hs⟩ := hk2 k (by show w.tick + 1 ≤ k; omega) h2
      exact ⟨⟨e, List.mem_cons_of_mem _ he, hr⟩, hs⟩
  · simp only [wBind_apply, create_apply, RESULT_HANDLER_failure hres, wRaise_apply]
    refine ⟨[mk (env.result w.tick) (w.nextHandle + 1)], rfl, ?_⟩
    intro k h1 h2
    have hk : k = w.tick := by have h3 : k < w.tick + 1 := h2; omega
    subst hk
    exact ⟨⟨_, List.mem_singleton_self _, hmk _ _⟩, fun h => absurd rfl (h _ _)⟩

theorem M.Logged.logStillM {env : Env} {m : M α}
    (h : ∀ s, (m s).2.world.tick = s.world.tick
      ∧ ∃ l, (m s).2.world.trace = s.world.trace ++ l) : M.Logged env m := by
  intro s
  obtain ⟨h1, l, h2⟩ := h s
  exact ⟨l, h2, fun k hk1 hk2 => by omega⟩

theorem M.Logged.logQuietM {env : Env} {m : M α} (h : ∀ s, (m s).2.world = s.world) :
    M.Logged env m :=
  .logStillM fun s => ⟨by rw [h s], [], by rw [h s, List.append_nil]⟩

theorem M.Logged.logBindM {env : Env} {m : M α} {f : α → M β} (hm : M.Logged env m)
    (hf : ∀ a, M.Logged env (f a)) : M.Logged env (m >>= f) := by
  intro s
  obtain ⟨l1, ht1, hk1⟩ := hm s
  rcases hms : m s with ⟨r, s1⟩
  rw [hms] at ht1 hk1
  simp only at ht1 hk1
  cases r with
  | error e =>
    have hrun : (m >>= f) s = (.error e, s1) := by rw [mBind_apply, hms]
    rw [hrun]
    refine ⟨l1, ht1, fun k h1 h2 => ?_⟩
    obtain ⟨he, hs⟩ := hk1 k h1 h2
    exact ⟨he, fun hne => hs fun source result heq =>
      hne source result (by rw [Except.error.inj heq])⟩
  | ok a =>
    have hrun : (m >>= f) s = f a s1 := by rw [mBind_apply, hms]
    rw [hrun]
    obtain ⟨l2, ht2, hk2⟩ := hf a s1
    refine ⟨l1 ++ l2, by rw [ht2, ht1, List.append_assoc], ?_⟩
    intro k h1 h2
    by_cases hk : k < s1.world.tick
    · obtain ⟨⟨e, he, hr⟩, hs⟩ := hk1 k h1 hk
      exact ⟨⟨e, List.mem_append_left _ he, hr⟩, fun _ => hs (fun _ _ h => by cases h)⟩
    · obtain ⟨⟨e, he, hr⟩, hs⟩ := hk2 k (by omega) h2
      exact ⟨⟨e, List.mem_append_right _ he, hr⟩, hs⟩

theorem M.Logged.logLiftM {env : Env} {m : W α} (h : W.Logged env m) :
    M.Logged env (liftW m) := by
  intro s
  obtain ⟨l, ht, hk⟩ := h s.world
  exact ⟨l, ht, hk⟩

theorem M.Logged.logIteM {env : Env} {c : Prop} [Decidable c] {m n : M α}
    (h1 : M.Logged env m) (h2 : M.Logged env n) : M.Logged env (if c then m else n) := by
  split
  · exact h1
  · exact h2

theorem M.Logged.logReportM (env : Env) (mk : VkResult → Event) (source : Api)
    (hmk : ∀ r, (mk r).reported = some r) {g : VkResult → M β}
    (hg : ∀ r, M.Logged env (g r)) :
    M.Logged env
      (liftW (report env mk) >>= fun r => liftW (RESULT_HANDLER r source) >>= fun _ => g r) := by
  intro s
  by_cases hres : env.result s.world.tick = VK_SUCCESS
  · obtain ⟨l2, ht2, hk2⟩ := hg VK_SUCCESS
      { s with world := { s.world with tick := s.world.tick + 1,
                                        trace := s.world.trace ++ [mk VK_SUCCESS] } }
    simp only [mBind_apply, liftW_apply, report_apply, RESULT_HANDLER_success, hres,
      wPure_apply]
    refine ⟨mk VK_SUCCESS :: l2, by rw [ht2]; simp, ?_⟩
    intro k h1 h2
    by_cases hk : k = s.world.tick
    · subst hk
      exact ⟨⟨_, List.mem_cons_self _ _, by rw [hmk, hres]⟩, fun _ => hres⟩
    · obtain ⟨⟨e, he, hr⟩, hs⟩ := hk2 k (by show s.world.tick + 1 ≤ k; omega) h2
      exact ⟨⟨e, List.mem_cons_of_mem _ he, hr⟩, hs⟩
  · simp only [mBind_apply, liftW_apply, report_apply, RESULT_HANDLER_failure hres,
      wRaise_apply]
    refine ⟨[mk (env.result s.world.tick)], rfl, ?_⟩
    intro k h1 h2
    have hk : k = s.world.tick := by have h3 : k < s.world.tick + 1 := h2; omega
    subst hk
    exact ⟨⟨_, List.mem_singleton_self _, hmk _⟩, fun h => absurd rfl (h _ _)⟩

end Logged


theorem index_world (xs : List Handle) (i : Nat) (s : State) :
    (index xs i s).2.world = s.world := by
  rw [index_apply]
  cases xs[i]? <;> rfl

theorem M.Logged.logStepM {α : Type} {env : Env} {m : M α}
    (h : ∀ s, (m s).2.world = s.world
      ∨ ∃ e, (m s).2.world = { s.world with trace := s.world.trace ++ [e] }) :
    M.Logged env m :=
  .logStillM fun s => by
    rcases h s with h1 | ⟨e, h1⟩
    · rw [h1]; exact ⟨rfl, [], (List.append_nil _).symm⟩
    · rw [h1]; exact ⟨rfl, [e], rfl⟩

theorem getSurfaceCapabilities_logged (env : Env) :
    W.Logged env (getSurfaceCapabilities env) :=
  .logBindW (.logQuietW fun _ => ⟨rfl, rfl⟩) fun _ => .logReportW env _ _ (fun _ => by rfl) fun _ => .logPureW _

theorem enumeratePresentModes_logged (env : Env) :
    W.Logged env (enumeratePresentModes env) :=
  .logBindW (.logQuietW fun _ => ⟨rfl, rfl⟩) fun _ => .logReportW env _ _ (fun _ => by rfl) fun _ => .logPureW _

theorem enumerateSwapchainImages_logged (env : Env) (swapchain : Handle) :
    W.Logged env (enumerateSwapchainImages env swapchain) :=
  .logBindW (.logQuietW fun _ => ⟨rfl, rfl⟩) fun _ => .logBindW (.logQuietW fun _ => ⟨rfl, rfl⟩) fun _ =>
    .logReportW env _ _ (fun _ => by rfl) fun _ => .logPureW _

theorem getSurfacePresentMode_logged (env : Env) :
    W.Logged env (getSurfacePresentMode env) := by
  unfold getSurfacePresentMode
  refine .logBindW (enumeratePresentModes_logged env) fun modes => ?_
  split
  · exact .logBindW (.logQuietW fun _ => ⟨rfl, rfl⟩) fun _ => .logPureW _
  · split
    · exact .logBindW (.logQuietW fun _ => ⟨rfl, rfl⟩) fun _ => .logPureW _
    · split
      · exact .logRaiseW _
      · exact .logBindW (.logQuietW fun _ => ⟨rfl, rfl⟩) fun _ => .logPureW _

theorem initSwapchain_logged (ctx : Ctx) (env : Env) (capabilities : VkSurfaceCapabilitiesKHR)
    (oldSwapchain : Handle) :
    W.Logged env (initSwapchain ctx env capabilities oldSwapchain) := by
  unfold initSwapchain
  cases compositeAlphaFlag capabilities.supportedCompositeAlpha with
  | none => exact .logRaiseW _
  | some alpha =>
    exact .logBindW (getSurfacePresentMode_logged env) fun _ =>
      .logCreateW env _ _ (fun _ _ => by rfl) fun _ => .logPureW _

theorem initImageView_logged (env : Env) (image : Handle) (format : Nat) :
    W.Logged env (initImageView env image format) :=
  .logCreateW env _ _ (fun _ _ => by rfl) fun _ => .logPureW _

theorem initSwapchainImageViewsLoop_logged (env : Env) (format : Nat) (images : List Handle)
    (acc : List Handle) : W.Logged env (initSwapchainImageViewsLoop env format images acc) := by
  induction images generalizing acc with
  | nil => exact .logPureW _
  | cons x xs ih => exact .logBindW (initImageView_logged env x format) fun _ => ih _

theorem initFramebuffersLoop_logged (env : Env) (renderPass : Handle) (width height : Nat)
    (imageViews : List Handle) (acc : List Handle) :
    W.Logged env (initFramebuffersLoop env renderPass width height imageViews acc) := by
  induction imageViews generalizing acc with
  | nil => exact .logPureW _
  | cons x xs ih => exact .logCreateW env _ _ (fun _ _ => by rfl) fun _ => ih _

theorem initPipeline_logged (ctx : Ctx) (env : Env) (binding width height : Nat) :
    W.Logged env (initPipeline ctx env binding width height) := by
  unfold initPipeline
  refine .logBindW (.logIteW (.logRaiseW _) (.logPureW _)) fun _ => ?_
  refine .logBindW (.logIteW (.logRaiseW _) (.logPureW _)) fun _ => ?_
  refine .logBindW (.logIteW (.logRaiseW _) (.logPureW _)) fun _ => ?_
  refine .logBindW (.logIteW (.logRaiseW _) (.logPureW _)) fun _ => ?_
  refine .logBindW (.logIteW (.logRaiseW _) (.logPureW _)) fun _ => ?_
  exact .logCreateW env _ _ (fun _ _ => by rfl) fun _ => .logPureW _

theorem initSemaphore_logged (env : Env) : W.Logged env (initSemaphore env) :=
  .logCreateW env _ _ (fun _ _ => by rfl) fun _ => .logPureW _

theorem initSemaphoresLoop_logged (env : Env) (count : Nat) (acc : List Handle) :
    W.Logged env (initSemaphoresLoop env count acc) := by
  induction count generalizing acc with
  | zero => exact .logPureW _
  | succ n ih => exact .logBindW (initSemaphore_logged env) fun _ => ih _

theorem initFence_logged (env : Env) (flags : Nat) : W.Logged env (initFence env flags) :=
  .logCreateW env _ _ (fun _ _ => by rfl) fun _ => .logPureW _

theorem initFencesLoop_logged (env : Env) (flags count : Nat) (acc : List Handle) :
    W.Logged env (initFencesLoop env flags count acc) := by
  induction count generalizing acc with
  | zero => exact .logPureW _
  | succ n ih => exact .logBindW (initFence_logged env flags) fun _ => ih _

theorem acquireCommandBuffers_logged (ctx : Ctx) (env : Env) (count : Nat) :
    M.Logged env (acquireCommandBuffers ctx env count) := by
  intro s
  rcases s with ⟨v, w⟩
  by_cases h1 : count > toUInt32 v.commandBuffers.length
  · have h2 : ¬ count < toUInt32 v.commandBuffers.length := by omega
    refine ⟨[.vkAllocateCommandBuffers ctx.commandPool
      (count - toUInt32 v.commandBuffers.length) (env.result w.tick)
      (freshHandles w.nextHandle (count - toUInt32 v.commandBuffers.length))], ?_, ?_⟩
    · by_cases hres : env.result w.tick = VK_SUCCESS
      · simp [acquireCommandBuffers, mBind_apply, allocateCommandBuffers, wBind_apply, h1, h2,
          hres]
      · simp [acquireCommandBuffers, mBind_apply, allocateCommandBuffers, wBind_apply, h1, h2,
          hres, RESULT_HANDLER]
    · intro k hk1 hk2
      have hk : k = w.tick := by
        by_cases hres : env.result w.tick = VK_SUCCESS
        · simp [acquireCommandBuffers, mBind_apply, allocateCommandBuffers, wBind_apply, h1,
            h2, hres] at hk2
          simp only at hk1; omega
        · simp [acquireCommandBuffers, mBind_apply, allocateCommandBuffers, wBind_apply, h1,
            h2, hres, RESULT_HANDLER] at hk2
          simp only at hk1; omega
      subst hk
      refine ⟨⟨_, List.mem_singleton_self _, rfl⟩, fun h => ?_⟩
      by_contra hres
      exact h .vkAllocateCommandBuffers (env.result w.tick)
        (by simp [acquireCommandBuffers, mBind_apply, allocateCommandBuffers, wBind_apply, h1,
          h2, hres, RESULT_HANDLER])
  · by_cases h2 : count < toUInt32 v.commandBuffers.length
    · refine ⟨[.vkFreeCommandBuffers ctx.commandPool
        ((v.commandBuffers.drop count).take (toUInt32 v.commandBuffers.length - count))],
        ?_, ?_⟩
      · simp [acquireCommandBuffers, mBind_apply, h1, h2]
      · intro k hk1 hk2
        simp [acquireCommandBuffers, mBind_apply, h1, h2] at hk2
        simp only at hk1; omega
    · refine ⟨[], ?_, ?_⟩
      · simp [acquireCommandBuffers, mBind_apply, h1, h2]
      · intro k hk1 hk2
        simp [acquireCommandBuffers, mBind_apply, h1, h2] at hk2
        simp only at hk1; omega

theorem beginCommandBuffer_logged (env : Env) (commandBuffer : Handle) :
    W.Logged env (beginCommandBuffer env commandBuffer) :=
  .logReportEndW env _ _ (fun _ => by rfl)

theorem endCommandBuffer_logged (env : Env) (commandBuffer : Handle) :
    W.Logged env (endCommandBuffer env commandBuffer) :=
  .logReportEndW env _ _ (fun _ => by rfl)

theorem recordCommandBuffer_logged (ctx : Ctx) (env : Env) (surfaceSize : VkExtent2D)
    (i : Nat) : M.Logged env (recordCommandBuffer ctx env surfaceSize i) := by
  unfold recordCommandBuffer
  refine .logBindM (.logStepM fun _ => (Or.inl rfl)) fun _ => .logBindM (.logQuietM (index_world _ _)) fun _ =>
    .logBindM (.logLiftM (beginCommandBuffer_logged env _)) fun _ => ?_
  refine .logBindM (.logStepM fun _ => (Or.inl rfl)) fun _ => .logBindM (.logQuietM (index_world _ _)) fun _ =>
    .logBindM (.logStepM fun _ => (Or.inl rfl)) fun _ => .logBindM (.logQuietM (index_world _ _)) fun _ =>
      .logBindM (.logStepM fun _ => (Or.inr ⟨_, rfl⟩)) fun _ => ?_
  refine .logBindM (.logStepM fun _ => (Or.inl rfl)) fun _ => .logBindM (.logQuietM (index_world _ _)) fun _ =>
    .logBindM (.logStepM fun _ => (Or.inl rfl)) fun _ => .logBindM (.logStepM fun _ => (Or.inr ⟨_, rfl⟩)) fun _ => ?_
  refine .logBindM (.logStepM fun _ => (Or.inl rfl)) fun _ => .logBindM (.logQuietM (index_world _ _)) fun _ =>
    .logBindM (.logStepM fun _ => (Or.inr ⟨_, rfl⟩)) fun _ => ?_
  refine .logBindM (.logStepM fun _ => (Or.inl rfl)) fun _ => .logBindM (.logQuietM (index_world _ _)) fun _ =>
    .logBindM (.logStepM fun _ => (Or.inr ⟨_, rfl⟩)) fun _ => ?_
  refine .logBindM (.logStepM fun _ => (Or.inl rfl)) fun _ => .logBindM (.logQuietM (index_world _ _)) fun _ =>
    .logBindM (.logStepM fun _ => (Or.inr ⟨_, rfl⟩)) fun _ => ?_
  refine .logBindM (.logStepM fun _ => (Or.inl rfl)) fun _ => .logBindM (.logQuietM (index_world _ _)) fun _ =>
    .logBindM (.logStepM fun _ => (Or.inr ⟨_, rfl⟩)) fun _ => ?_
  exact .logBindM (.logStepM fun _ => (Or.inl rfl)) fun _ => .logBindM (.logQuietM (index_world _ _)) fun _ =>
    .logLiftM (endCommandBuffer_logged env _)

theorem recordCommandBuffers_logged (ctx : Ctx) (env : Env) (surfaceSize : VkExtent2D)
    (remaining i : Nat) : M.Logged env (recordCommandBuffers ctx env surfaceSize remaining i) := by
  induction remaining generalizing i with
  | zero => exact .logStepM fun _ => (Or.inl rfl)
  | succ n ih => exact .logBindM (recordCommandBuffer_logged ctx env surfaceSize i) fun _ => ih _

theorem cleanupOld_logged (ctx : Ctx) (env : Env) : M.Logged env (cleanupOld ctx env) := by
  unfold cleanupOld
  refine .logReportM env _ _ (fun _ => by rfl) fun _ => ?_
  refine .logBindM (.logStepM fun _ => (Or.inl rfl)) fun _ =>
    .logBindM (.logStillM fun s => by rw [liftW_apply, killFences_apply]; exact ⟨rfl, _, rfl⟩) fun _ =>
      .logBindM (.logStepM fun _ => (Or.inl rfl)) fun _ => ?_
  refine .logBindM (.logStepM fun _ => (Or.inl rfl)) fun _ =>
    .logBindM (.logStillM fun s => by rw [liftW_apply, killSemaphores_apply]; exact ⟨rfl, _, rfl⟩) fun _ =>
      .logBindM (.logStepM fun _ => (Or.inl rfl)) fun _ => ?_
  refine .logReportM env _ _ (fun _ => by rfl) fun _ => ?_
  refine .logBindM (.logStepM fun _ => (Or.inl rfl)) fun _ =>
    .logBindM (.logStepM fun _ => (Or.inr ⟨_, rfl⟩)) fun _ => ?_
  refine .logBindM (.logStepM fun _ => (Or.inl rfl)) fun _ =>
    .logBindM (.logStillM fun s => by rw [liftW_apply, killFramebuffers_apply]; exact ⟨rfl, _, rfl⟩) fun _ =>
      .logBindM (.logStepM fun _ => (Or.inl rfl)) fun _ => ?_
  exact .logBindM (.logStepM fun _ => (Or.inl rfl)) fun _ =>
    .logBindM (.logStillM fun s => by rw [liftW_apply, killSwapchainImageViews_apply]; exact ⟨rfl, _, rfl⟩) fun _ =>
      .logStepM fun _ => (Or.inl rfl)

theorem createNew_logged (ctx : Ctx) (env : Env) (capabilities : VkSurfaceCapabilitiesKHR)
    (surfaceSize : VkExtent2D) (oldSwapchain : Handle) :
    M.Logged env (createNew ctx env capabilities surfaceSize oldSwapchain) := by
  unfold createNew
  refine .logBindM (.logLiftM (initSwapchain_logged ctx env _ _)) fun _ =>
    .logBindM (.logStepM fun _ => (Or.inl rfl)) fun _ => ?_
  refine .logBindM (.logStepM fun _ => (Or.inl rfl)) fun _ =>
    .logBindM (.logLiftM (enumerateSwapchainImages_logged env _)) fun _ => ?_
  refine .logBindM (.logLiftM (initSwapchainImageViewsLoop_logged env _ _ _)) fun _ =>
    .logBindM (.logStepM fun _ => (Or.inl rfl)) fun _ => ?_
  refine .logBindM (.logStepM fun _ => (Or.inl rfl)) fun _ =>
    .logBindM (.logLiftM (initFramebuffersLoop_logged env _ _ _ _ _)) fun _ =>
      .logBindM (.logStepM fun _ => (Or.inl rfl)) fun _ => ?_
  refine .logBindM (.logLiftM (initPipeline_logged ctx env _ _ _)) fun _ =>
    .logBindM (.logStepM fun _ => (Or.inl rfl)) fun _ => ?_
  refine .logBindM (acquireCommandBuffers_logged ctx env _) fun _ => ?_
  refine .logBindM (recordCommandBuffers_logged ctx env _ _ _) fun _ => ?_
  refine .logBindM (.logLiftM (initSemaphoresLoop_logged env _ _)) fun _ =>
    .logBindM (.logStepM fun _ => (Or.inl rfl)) fun _ => ?_
  refine .logBindM (.logLiftM (initSemaphoresLoop_logged env _ _)) fun _ =>
    .logBindM (.logStepM fun _ => (Or.inl rfl)) fun _ => ?_
  exact .logBindM (.logLiftM (initFencesLoop_logged env _ _ _)) fun _ =>
    .logBindM (.logStepM fun _ => (Or.inl rfl)) fun _ => .logStepM fun _ => (Or.inl rfl)

/-- A call of `recreateSwapchain` that returns saw every API call it made succeed. -/
theorem recreateSwapchain_logged (ctx : Ctx) (env : Env) :
    M.Logged env (recreateSwapchain ctx env) := by
  unfold recreateSwapchain
  refine .logBindM (.logStepM fun _ => (Or.inr ⟨_, rfl⟩)) fun _ => ?_
  refine .logBindM (.logStepM fun _ => (Or.inl rfl)) fun _ => .logBindM (.logStepM fun _ => (Or.inl rfl)) fun _ =>
    .logBindM (.logLiftM (getSurfaceCapabilities_logged env)) fun _ => ?_
  refine .logBindM (.logStepM fun _ => (Or.inl rfl)) fun _ => .logBindM (.logStepM fun _ => (Or.inl rfl)) fun _ => ?_
  refine .logBindM (.logIteM (cleanupOld_logged ctx env) (.logStepM fun _ => (Or.inl rfl))) fun _ => ?_
  refine .logBindM (.logIteM (createNew_logged ctx env _ _ _) (.logStepM fun _ => (Or.inl rfl))) fun _ => ?_
  refine .logBindM (.logIteM (.logStillM fun s => by
    rw [killOld_apply]; exact ⟨rfl, _, List.append_assoc _ _ _⟩)
    (.logStepM fun _ => (Or.inl rfl))) fun _ => ?_
  exact .logBindM (.logStepM fun _ => (Or.inl rfl)) fun _ => .logStepM fun _ => (Or.inl rfl)



/-! ### The sizes of the vectors -/

theorem recreateSwapchain_blamed (ctx : Ctx) (env : Env) (s : State)
    (h : ∀ source result,
      (recreateSwapchain ctx env s).1 ≠ .error (.vulkanResult source result)) :
    env.SucceedsWithin s.world.tick (recreateSwapchain ctx env s).2.world.tick := by
  obtain ⟨l, _, hk⟩ := recreateSwapchain_logged ctx env s
  exact fun k h1 h2 => (hk k h1 h2).2 h

theorem recreateSwapchain_settled (ctx : Ctx) (env : Env) (s : State) (l : List Event)
    (hl : (recreateSwapchain ctx env s).2.world.trace = s.world.trace ++ l)
    (hs : ∀ e ∈ l, ∀ r, e.reported = some r → r = VK_SUCCESS) :
    env.SucceedsWithin s.world.tick (recreateSwapchain ctx env s).2.world.tick := by
  obtain ⟨l0, hl0, hk⟩ := recreateSwapchain_logged ctx env s
  have : l0 = l := List.append_cancel_left (hl0.symm.trans hl)
  subst this
  intro k h1 h2
  obtain ⟨⟨e, he, hr⟩, _⟩ := hk k h1 h2
  exact hs e he _ hr

/-- What `recreateSwapchain` does when the calls it makes succeed, whatever the later
ones do. -/
theorem recreateSwapchain_of_within (ctx : Ctx) (env : Env) (v : Vars) (w : World)
    (hw : env.SucceedsWithin w.tick (recreateSwapchain ctx env ⟨v, w⟩).2.world.tick) :
    (creatableAt env w.tick = false →
      (recreateSwapchain ctx env ⟨v, w⟩).1 = .ok false)
    ∧ (creatableAt env w.tick = true →
        createGuards ctx env (snapshotAt env w.tick) (createTick v w) →
        (recreateSwapchain ctx env ⟨v, w⟩).1 = .ok true)
    ∧ (creatableAt env w.tick = true →
        ¬ createGuards ctx env (snapshotAt env w.tick) (createTick v w) →
        ∃ msg, (recreateSwapchain ctx env ⟨v, w⟩).1 = .error (.text msg)) := by
  obtain ⟨h1, hrun⟩ := recreateSwapchain_within ctx env ⟨v, w⟩ _ (Nat.le_refl _) hw
  refine ⟨fun hc => ?_, fun hc hg => ?_, fun hc hg => ?_⟩
  · obtain ⟨w1, e⟩ := recreateSwapchain_degenerate ctx v h1 hc
    rw [← hrun, e]
  · obtain ⟨v1, w1, n, e, _⟩ := recreateSwapchain_live ctx v h1 hc hg
    rw [← hrun, e]
  · obtain ⟨msg, e⟩ := recreateSwapchain_guard ctx v h1 hc hg
    exact ⟨msg, by rw [← hrun, e]⟩

/-- The recording loop of `recreateSwapchain` never leaves the bounds of `commandBuffers`
and `framebuffers`. -/
theorem recreateSwapchain_inRange (ctx : Ctx) (env : Env) (s : State) :
    (recreateSwapchain ctx env s).1 ≠ .error .outOfRange := by
  intro h
  rcases s with ⟨v, w⟩
  have hw := recreateSwapchain_blamed ctx env ⟨v, w⟩ (by rw [h]; intro _ _ e; cases e)
  obtain ⟨h1, h2, h3⟩ := recreateSwapchain_of_within ctx env v w hw
  cases hc : creatableAt env w.tick with
  | false => rw [h1 hc] at h; cases h
  | true =>
    by_cases hg : createGuards ctx env (snapshotAt env w.tick) (createTick v w)
    · rw [h2 hc hg] at h; cases h
    · obtain ⟨msg, e⟩ := h3 hc hg
      rw [e] at h; cases h

theorem enumerated_fold_quiet (current : Option (Handle × Nat)) (b : List Event)
    (h : ∀ e ∈ b, e.enumerates = none) : b.foldl enumeratedStep current = current := by
  induction b generalizing current with
  | nil => rfl
  | cons x xs ih =>
    rw [List.foldl_cons, ih _ fun e he => h e (List.mem_cons_of_mem _ he)]
    simp [enumeratedStep, h x (List.mem_cons_self _ _)]

theorem enumerated_append_quiet (a b : List Event) (h : ∀ e ∈ b, e.enumerates = none) :
    enumerated (a ++ b) = enumerated a := by
  unfold enumerated
  rw [List.foldl_append, enumerated_fold_quiet _ b h]

theorem enumerated_append_enum (a b : List Event) (e : Event) (x : Handle × Nat)
    (he : e.enumerates = some x) (h : ∀ e ∈ b, e.enumerates = none) :
    enumerated (a ++ e :: b) = some x := by
  unfold enumerated
  rw [List.foldl_append, List.foldl_cons, enumerated_fold_quiet _ b h]
  simp [enumeratedStep, he]

theorem Event.frame_silent {e : Event} (h : e.isLifecycle = false) : e.enumerates = none := by
  cases e <;> simp [Event.isLifecycle] at h <;> rfl

theorem acquiresInRange_append (current : Option (Handle × Nat)) (a b : List Event) :
    acquiresInRange current (a ++ b)
      = (acquiresInRange current a && acquiresInRange (a.foldl enumeratedStep current) b) := by
  induction a generalizing current with
  | nil => simp [acquiresInRange]
  | cons x xs ih =>
    show (_ && acquiresInRange (enumeratedStep current x) (xs ++ b)) = _
    rw [ih]
    simp only [acquiresInRange, List.foldl_cons, Bool.and_assoc]

/-- In a trace that passes `acquiresInRange`, a successful acquire returned an index below
the image count of the swapchain enumerated last, which is the one it was called on. -/
theorem acquiresInRange_acquire {p rest : List Event} {swapchain semaphore : Handle}
    {imageIndex : Nat} {x : Handle × Nat}
    (h : acquiresInRange none (p
      ++ Event.vkAcquireNextImageKHR swapchain semaphore VK_SUCCESS imageIndex :: rest) = true)
    (hp : enumerated p = some x) : x.1 = swapchain ∧ imageIndex < x.2 := by
  rw [acquiresInRange_append, Bool.and_eq_true] at h
  have h2 := h.2
  have hp' : p.foldl enumeratedStep none = some x := hp
  rw [hp'] at h2
  simp only [acquiresInRange, if_true, Bool.and_eq_true, decide_eq_true_eq] at h2
  exact h2.1

theorem acquiresInRange_left {current : Option (Handle × Nat)} {a b : List Event}
    (h : acquiresInRange current (a ++ b) = true) : acquiresInRange current a = true := by
  rw [acquiresInRange_append, Bool.and_eq_true] at h
  exact h.1

theorem length_acquiredBuffers (old : List Handle) (count first : Nat)
    (hlen : old.length < 2 ^ 32) : (acquiredBuffers old count first).length = count := by
  have hu : toUInt32 old.length = old.length := toUInt32_of_lt hlen
  unfold acquiredBuffers
  rw [hu]
  split
  · simp [length_resize]; omega
  · split
    · exact length_resize _ _
    · omega

theorem shaped_initial : Shaped State.initial :=
  ⟨by simp [State.initial, Vars.initial], fun h => absurd rfl h⟩

theorem Shaped.shaped_frame {v : Vars} {w : World} (h : Shaped ⟨v, w⟩) (k : Nat) {nr : Nat}
    {l : List Event} (hl : ∀ e ∈ l, Event.isLifecycle e = false)
    (hnr : nr = v.submissionNr ∨ nr = toUInt32 (v.submissionNr + 1) % maxInflightSubmissions) :
    Shaped ⟨{ v with submissionNr := nr }, w.after k l⟩ := by
  refine ⟨h.bounded, fun hsw => ?_⟩
  obtain ⟨n, he, hz⟩ := h.live hsw
  refine ⟨n, ?_, ?_, hz.submissionFences, hz.imageReadySs, hz.commandBuffers, hz.renderDoneSs,
    hz.framebuffers, hz.swapchainImageViews⟩
  · show enumerated (w.trace ++ l) = _
    rw [enumerated_append_quiet _ _ fun e he => Event.frame_silent (hl e he)]
    exact he
  · show nr < maxInflightSubmissions
    rcases hnr with h1 | h1
    · rw [h1]; exact hz.submissionNr
    · rw [h1]; exact Nat.mod_lt _ (by decide)

theorem Shaped.same {v : Vars} {w : World} (h : Shaped ⟨v, w⟩) (k : Nat) {l : List Event}
    (hl : ∀ e ∈ l, Event.isLifecycle e = false) : Shaped ⟨v, w.after k l⟩ :=
  h.shaped_frame k hl (Or.inl rfl)

theorem viewTrace_forall (P : Event → Prop) (format : Nat) (images : List Handle) (first : Nat)
    (h : ∀ image view, P (.vkCreateImageView image format VK_SUCCESS view)) :
    ∀ e ∈ viewTrace format images first, P e := by
  intro e he
  obtain ⟨a, b, rfl⟩ := mem_zipWith_elim _ _ _ _ he
  exact h a b

theorem framebufferTrace_forall (P : Event → Prop) (renderPass : Handle)
    (surfaceSize : VkExtent2D) (imageViews : List Handle) (first : Nat)
    (h : ∀ view framebuffer, P (.vkCreateFramebuffer renderPass view surfaceSize.width
      surfaceSize.height VK_SUCCESS framebuffer)) :
    ∀ e ∈ framebufferTrace renderPass surfaceSize imageViews first, P e := by
  intro e he
  obtain ⟨a, b, rfl⟩ := mem_zipWith_elim _ _ _ _ he
  exact h a b

theorem acquireTrace_forall (P : Event → Prop) (ctx : Ctx) (old : List Handle)
    (count first : Nat)
    (h1 : ∀ number handles, P (.vkAllocateCommandBuffers ctx.commandPool number VK_SUCCESS
      handles))
    (h2 : ∀ handles, P (.vkFreeCommandBuffers ctx.commandPool handles)) :
    ∀ e ∈ acquireTrace ctx old count first, P e := by
  intro e he
  unfold acquireTrace at he
  split at he
  · simp at he; subst he; exact h1 _ _
  · split at he
    · simp at he; subst he; exact h2 _
    · simp at he

theorem recordAll_forall (P : Event → Prop) (ctx : Ctx) (surfaceSize : VkExtent2D) (v : Vars)
    (h : ∀ cb fb, ∀ e ∈ recordTrace ctx surfaceSize v.pipeline cb fb, P e) (remaining : Nat) :
    ∀ i, ∀ e ∈ recordAll ctx surfaceSize v remaining i, P e := by
  induction remaining with
  | zero => intro i e he; simp [recordAll] at he
  | succ n ih =>
    intro i e he
    simp only [recordAll, List.mem_append] at he
    rcases he with he | he
    · cases hc : v.commandBuffers[i]? with
      | none => simp [hc] at he
      | some cb =>
        cases hf : v.framebuffers[i]? with
        | none => simp [hc, hf] at he
        | some fb =>
          simp only [hc, hf] at he
          exact h cb fb e he
    · exact ih _ e he

theorem killTrace_forall (P : Event → Prop) (v : Vars)
    (h1 : ∀ x, P (.vkDestroySwapchainKHR x)) (h2 : ∀ x, P (.vkDestroySemaphore x)) :
    ∀ e ∈ killTrace v, P e := by
  intro e he
  simp [killTrace] at he
  rcases he with h | ⟨x, _, h⟩ <;> subst h
  · exact h1 _
  · exact h2 _

/-- The calls of a `createNew` after the enumeration of the images. -/
theorem Recreated.enumeration {ctx : Ctx} {env : Env} {v : Vars} {w : World} {v1 : Vars}
    {w1 : World} {n : Nat} (h : Recreated ctx env v w v1 w1 n) :
    ∃ before after : List Event, w1.trace = before
        ++ Event.vkGetSwapchainImagesKHR v1.swapchain VK_SUCCESS (freshHandles v1.swapchain n)
          :: after
      ∧ ∀ e ∈ after, e.enumerates = none := by
  obtain ⟨info, _, _, _, ht⟩ := h.added_trace
  refine ⟨w.trace ++ ([.enter .recreateSwapchain,
      .vkGetPhysicalDeviceSurfaceCapabilitiesKHR VK_SUCCESS (env.capabilities w.tick)]
      ++ (if v.swapchain ≠ VK_NULL_HANDLE then cleanupTrace ctx v else [])
      ++ [.vkGetPhysicalDeviceSurfacePresentModesKHR VK_SUCCESS
            (env.presentModes (createTick v w)),
          .vkCreateSwapchainKHR info VK_SUCCESS v1.swapchain]),
    viewTrace ctx.surfaceFormat.format (freshHandles v1.swapchain n) (v1.swapchain + n)
      ++ framebufferTrace ctx.renderPass (sizeAt env w.tick) v1.swapchainImageViews
          (v1.swapchain + n + n)
      ++ [.vkCreateGraphicsPipelines
          { width :=
              toFloat (if (sizeAt env w.tick).width ≠ 0 then (sizeAt env w.tick).width else 1),
            height :=
              toFloat
                (if (sizeAt env w.tick).height ≠ 0 then (sizeAt env w.tick).height else 1) }
          { width := (sizeAt env w.tick).width, height := (sizeAt env w.tick).height }
          VK_SUCCESS v1.pipeline]
      ++ acquireTrace ctx v.commandBuffers n v1.pipeline
      ++ recordAll ctx (sizeAt env w.tick) v1 n 0
      ++ v1.imageReadySs.map (.vkCreateSemaphore VK_SUCCESS)
      ++ v1.renderDoneSs.map (.vkCreateSemaphore VK_SUCCESS)
      ++ v1.submissionFences.map (.vkCreateFence VK_FENCE_CREATE_SIGNALED_BIT VK_SUCCESS)
      ++ (if v.swapchain ≠ VK_NULL_HANDLE then killTrace v else []), ?_, ?_⟩
  · rw [ht]
    simp only [List.append_assoc, List.cons_append, List.nil_append]
  · intro e he
    simp only [List.mem_append, List.mem_cons, List.mem_singleton, List.not_mem_nil,
      or_false, List.mem_map] at he
    rcases he with (((((((he | he) | he) | he) | he) | he) | he) | he) | he
    · exact viewTrace_forall (fun e => e.enumerates = none) _ _ _ (fun _ _ => rfl) e he
    · exact framebufferTrace_forall (fun e => e.enumerates = none) _ _ _ _ (fun _ _ => rfl) e he
    · subst he; rfl
    · exact acquireTrace_forall (fun e => e.enumerates = none) ctx _ _ _ (fun _ _ => rfl)
        (fun _ => rfl) e he
    · refine recordAll_forall (fun e => e.enumerates = none) ctx _ _ (fun cb fb e he => ?_) _ _ e he
      simp only [recordTrace, List.mem_cons, List.mem_singleton, List.not_mem_nil,
        or_false] at he
      rcases he with h | h | h | h | h | h | h | h <;> subst h <;> rfl
    · obtain ⟨x, _, h⟩ := he; subst h; rfl
    · obtain ⟨x, _, h⟩ := he; subst h; rfl
    · obtain ⟨x, _, h⟩ := he; subst h; rfl
    · split at he
      · exact killTrace_forall (fun e => e.enumerates = none) v (fun _ => rfl) (fun _ => rfl) e he
      · simp at he

theorem Recreated.sized {ctx : Ctx} {env : Env} {v : Vars} {w : World} {v1 : Vars}
    {w1 : World} {n : Nat} (h : Recreated ctx env v w v1 w1 n)
    (hb : v.commandBuffers.length < 2 ^ 32) :
    v1.swapchain ≠ VK_NULL_HANDLE ∧ enumerated w1.trace = some (v1.swapchain, n)
      ∧ Sized v1 n := by
  obtain ⟨vc, wc, wb, q1, q2, q3, q4, q5, q6, q7, q8⟩ := h.assembled
  obtain ⟨before, after, ht, hq⟩ := h.enumeration
  refine ⟨by rw [q5.swapchain]; exact Nat.succ_ne_zero _, ?_, ?_⟩
  · rw [ht, enumerated_append_enum _ _ _ (v1.swapchain, n) (by
      simp [Event.enumerates, length_freshHandles]) hq]
  · exact ⟨by rw [q5.submissionNr]; decide, by rw [q5.submissionFences, length_freshHandles],
      by rw [q5.imageReadySs, length_freshHandles],
      by rw [q5.commandBuffers, q1]; exact length_acquiredBuffers _ _ _ hb,
      by rw [q5.renderDoneSs, length_freshHandles],
      by rw [q5.framebuffers, length_freshHandles],
      by rw [q5.imageViews, length_freshHandles]⟩

theorem Recreated.count_lt {ctx : Ctx} {env : Env} {v : Vars} {w : World} {v1 : Vars}
    {w1 : World} {n : Nat} (h : Recreated ctx env v w v1 w1 n) : n < 2 ^ 32 := by
  obtain ⟨vc, wc, wb, q1, q2, q3, q4, q5, q6, q7, q8⟩ := h.assembled
  rw [q5.count_eq]
  exact toUInt32_lt _

theorem Shaped.shaped_recreate {ctx : Ctx} {env : Env} {s : State} (hs : Shaped s) {b : Bool}
    {s1 : State} (hret : recreateSwapchain ctx env s = (.ok b, s1)) : Shaped s1 := by
  rcases s with ⟨v, w⟩
  cases b with
  | true =>
    obtain ⟨n, hr⟩ := recreateSwapchain_true_exact ctx env v w s1 hret
    obtain ⟨h1, h2, h3⟩ := hr.sized hs.bounded
    exact ⟨by rw [h3.commandBuffers]; exact hr.count_lt, fun _ => ⟨n, h2, h3⟩⟩
  | false =>
    obtain ⟨_, hv, _, _, _⟩ := recreateSwapchain_false_exact ctx env v w s1 hret
    obtain ⟨hc, hsw⟩ := Vars.afterDegenerate_commandBuffers v
    exact ⟨by rw [hv, hc]; exact hs.bounded, fun h => absurd (by rw [hv, hsw]) h⟩

/-- Every state reached from the initial one by returning calls has the sizes of
`Shaped`. -/
theorem runAll_shaped (ctx : Ctx) (env : Env) (ops : List Op) (s : State)
    (h : runAll ctx env ops State.initial = (.ok (), s)) : Shaped s :=
  runAll_preserves ctx env Shaped (fun _ _ _ hs hret => hs.shaped_recreate hret)
    (fun fuel => render_preserves ctx env Shaped
      (fun _ _ k _ _ hs hl hnr => hs.shaped_frame k hl hnr)
      (fun _ _ _ hs hret => hs.shaped_recreate hret) fuel)
    ops State.initial s shaped_initial h

theorem Attempt.outOfRange_cases {ctx : Ctx} {env : Env} {v : Vars} {w : World} {flag : Bool}
    {s1 : State} (h : Attempt ctx env v w flag (.error .outOfRange) s1) :
    v.submissionFences[v.submissionNr]? = none ∨ v.imageReadySs[v.submissionNr]? = none
      ∨ ∃ f sem, s1.world.trace = w.trace ++ [.vkWaitForFences f VK_SUCCESS,
            .vkResetFences f VK_SUCCESS,
            .vkAcquireNextImageKHR v.swapchain sem VK_SUCCESS (acquiredIndex env w)]
          ∧ (v.commandBuffers[acquiredIndex env w]? = none
            ∨ v.renderDoneSs[acquiredIndex env w]? = none) := by
  cases h with
  | noFence h => exact Or.inl h
  | noSemaphore f hf h0 h1 hs => exact Or.inr (Or.inl hs)
  | noResources f sem hf h0 h1 hs h2 hr => exact Or.inr (Or.inr ⟨f, sem, rfl, hr⟩)

theorem lookup_some_of_lt {xs : List Handle} {i : Nat} (h : i < xs.length) :
    ∃ x, xs[i]? = some x := ⟨_, List.getElem?_eq_getElem h⟩

theorem lookup_ne_none_of_lt {xs : List Handle} {i : Nat} (h : i < xs.length) :
    xs[i]? ≠ none := by
  obtain ⟨x, hx⟩ := lookup_some_of_lt h
  rw [hx]; exact Option.some_ne_none x

/-- With the sizes of `Sized`, the elements `render` and the recording loop access
exist. -/
theorem Sized.lookups {v : Vars} {n : Nat} (hz : Sized v n) :
    (∃ f, v.submissionFences[v.submissionNr]? = some f)
      ∧ (∃ sem, v.imageReadySs[v.submissionNr]? = some sem)
      ∧ ∀ i : Nat, i < n → (∃ cb, v.commandBuffers[i]? = some cb)
          ∧ (∃ rd, v.renderDoneSs[i]? = some rd) ∧ (∃ fb, v.framebuffers[i]? = some fb) :=
  ⟨lookup_some_of_lt (by rw [hz.submissionFences]; exact hz.submissionNr),
    lookup_some_of_lt (by rw [hz.imageReadySs]; exact hz.submissionNr),
    fun i hi => ⟨lookup_some_of_lt (by rw [hz.commandBuffers]; exact hi),
      lookup_some_of_lt (by rw [hz.renderDoneSs]; exact hi),
      lookup_some_of_lt (by rw [hz.framebuffers]; exact hi)⟩⟩

/-- The exits of the `try` block of `render` through an out-of-bounds access are excluded
by the sizes of `Sized` when the acquire returns an index below the image count. -/
theorem Attempt.inRange {ctx : Ctx} {env : Env} {v : Vars} {w : World} {flag : Bool}
    {s1 : State} {n : Nat} {L rest : List Event}
    (h : Attempt ctx env v w flag (.error .outOfRange) s1) (hz : Sized v n)
    (he : enumerated w.trace = some (v.swapchain, n))
    (hL : L = s1.world.trace ++ rest) (hr : acquiresInRange none L = true) : False := by
  rcases h.outOfRange_cases with h1 | h1 | ⟨f, sem, ht, h1⟩
  · exact lookup_ne_none_of_lt (by rw [hz.submissionFences]; exact hz.submissionNr) h1
  · exact lookup_ne_none_of_lt (by rw [hz.imageReadySs]; exact hz.submissionNr) h1
  · have hL2 : L = (w.trace ++ [.vkWaitForFences f VK_SUCCESS, .vkResetFences f VK_SUCCESS])
        ++ Event.vkAcquireNextImageKHR v.swapchain sem VK_SUCCESS (acquiredIndex env w)
          :: rest := by
      rw [hL, ht]; simp only [List.append_assoc, List.cons_append, List.nil_append]
    rw [hL2] at hr
    have hp : enumerated (w.trace
        ++ [.vkWaitForFences f VK_SUCCESS, .vkResetFences f VK_SUCCESS])
        = some (v.swapchain, n) := by
      rw [enumerated_append_quiet _ _ (by
        intro e he
        simp only [List.mem_cons, List.mem_singleton, List.not_mem_nil, or_false] at he
        rcases he with h | h <;> subst h <;> rfl)]
      exact he
    obtain ⟨_, hlt⟩ := acquiresInRange_acquire hr hp
    rcases h1 with h1 | h1
    · exact lookup_ne_none_of_lt (by rw [hz.commandBuffers]; exact hlt) h1
    · exact lookup_ne_none_of_lt (by rw [hz.renderDoneSs]; exact hlt) h1

/-- No `render` called in a state with the sizes of `Shaped` accesses a vector out of
bounds, provided every acquire of the run returns an index below the image count. -/
theorem render_inRange (ctx : Ctx) (env : Env) (fuel : Nat) :
    ∀ (s : State) (L rest : List Event), Shaped s →
      L = (render ctx env fuel s).2.world.trace ++ rest → acquiresInRange none L = true →
      (render ctx env fuel s).1 ≠ .error .outOfRange := by
  induction fuel with
  | zero => intro s L rest _ _ _ h; simp [render_zero] at h
  | succ fuel ih =>
    intro s L rest hs hL hr
    rcases s with ⟨v, w⟩
    rw [render_succ] at hL ⊢
    by_cases hsw : v.swapchain = VK_NULL_HANDLE
    · rw [if_pos hsw]; simp
    · rw [if_neg hsw] at hL ⊢
      obtain ⟨n, hen, hz⟩ := hs.live hsw
      have hE : Shaped ⟨v, w.after 0 [.enter .render]⟩ :=
        hs.same 0 (by simp [Event.isLifecycle])
      have hen0 : enumerated (w.after 0 [.enter .render]).trace = some (v.swapchain, n) := by
        show enumerated (w.trace ++ [.enter .render]) = _
        rw [enumerated_append_quiet _ _ (by simp [Event.enumerates])]
        exact hen
      have hA := renderTry_attempt ctx env v (w.after 0 [.enter .render])
      rcases hrt : renderTry ctx env ⟨v, w.after 0 [.enter .render]⟩ with ⟨flag, r, s2⟩
      rw [hrt] at hA hL
      simp only at hA hL ⊢
      obtain ⟨k, l, hw2, hl⟩ := hA.after
      cases r with
      | ok u => simp
      | error e =>
        have hv := hA.vars_eq
        rcases s2 with ⟨v2, w2⟩
        simp only at hv hw2
        subst hv hw2
        have h2 : Shaped ⟨v2, (w.after 0 [.enter .render]).after k l⟩ := hE.same k hl
        cases e with
        | vulkanResult source result =>
          simp only at hL ⊢
          by_cases htr : result = VK_SUBOPTIMAL_KHR ∨ result = VK_ERROR_OUT_OF_DATE_KHR
          swap
          · rw [renderCatch_fatal ctx env _ flag source htr]; simp
          · rw [renderCatch_transient ctx env _ flag source htr] at hL ⊢
            have hretry : ∀ w3 : World, Shaped ⟨v2, w3⟩ →
                L = ((recreateSwapchain ctx env >>= fun _ => render ctx env fuel)
                  ⟨v2, w3⟩).2.world.trace ++ rest →
                ((recreateSwapchain ctx env >>= fun _ => render ctx env fuel) ⟨v2, w3⟩).1
                  ≠ .error .outOfRange := by
              intro w3 h3 hL3
              rw [mBind_apply] at hL3 ⊢
              have hin := recreateSwapchain_inRange ctx env ⟨v2, w3⟩
              rcases hrc : recreateSwapchain ctx env ⟨v2, w3⟩ with ⟨r3, s3⟩
              rw [hrc] at hL3 hin
              cases r3 with
              | error e3 =>
                have he3 : e3 ≠ .outOfRange := fun h => hin (by rw [h])
                simp only [ne_eq, Except.error.injEq]
                exact he3
              | ok b => exact ih s3 L rest (h3.shaped_recreate hrc) hL3 hr
            by_cases hc : flag = true ∧ result = VK_SUBOPTIMAL_KHR
            · rw [if_pos hc] at hL ⊢
              obtain ⟨sem, hsem⟩ := hz.lookups.2.1
              rw [hsem] at hL ⊢
              simp only at hL ⊢
              by_cases h0 : env.result ((w.after 0 [.enter .render]).after k l).tick
                  = VK_SUCCESS
              · rw [if_pos h0] at hL ⊢
                exact hretry _ (h2.same 1 (by
                  intro e he
                  simp only [List.mem_cons, List.mem_singleton, List.not_mem_nil,
                    or_false] at he
                  rcases he with h | h <;> subst h <;> rfl)) hL
              · rw [if_neg h0]; simp
            · rw [if_neg hc] at hL ⊢
              exact hretry _ h2 hL
        | outOfRange =>
          intro _
          exact hA.inRange hz hen0 hL hr
        | text msg => simp
        | assertion => simp
        | fuel => simp

theorem runAll_grows (ctx : Ctx) (env : Env) (ops : List Op) :
    ∀ s, ∃ l, (runAll ctx env ops s).2.world.trace = s.world.trace ++ l := by
  induction ops with
  | nil => intro s; exact ⟨[], by simp [runAll]⟩
  | cons op ops ih =>
    intro s
    cases op with
    | recreateSwapchain =>
      obtain ⟨⟨l1, h1, _⟩, _⟩ := recreateSwapchain_trace ctx env s
      simp only [runAll, mBind_apply]
      rcases hr : recreateSwapchain ctx env s with ⟨r, s2⟩
      rw [hr] at h1
      cases r with
      | error e => exact ⟨_, h1⟩
      | ok b =>
        obtain ⟨l2, h2⟩ := ih s2
        exact ⟨(.enter .recreateSwapchain :: l1) ++ l2, by rw [h2, h1, List.append_assoc]⟩
    | render fuel =>
      obtain ⟨l1, h1⟩ := render_trace ctx env fuel s
      simp only [runAll, mBind_apply]
      rcases hr : render ctx env fuel s with ⟨r, s2⟩
      rw [hr] at h1
      cases r with
      | error e => exact ⟨_, h1⟩
      | ok b =>
        obtain ⟨l2, h2⟩ := ih s2
        exact ⟨l1 ++ l2, by rw [h2, h1, List.append_assoc]⟩

/-- No sequence of calls started in a state with the sizes of `Shaped` accesses a vector out
of bounds, provided every acquire of the run returns an index below the image count. -/
theorem runAll_inRange (ctx : Ctx) (env : Env) (ops : List Op) :
    ∀ (s : State) (L rest : List Event), Shaped s →
      L = (runAll ctx env ops s).2.world.trace ++ rest → acquiresInRange none L = true →
      (runAll ctx env ops s).1 ≠ .error .outOfRange := by
  induction ops with
  | nil => intro s L rest _ _ _; simp [runAll]
  | cons op ops ih =>
    intro s L rest hs hL hr
    cases op with
    | recreateSwapchain =>
      simp only [runAll, mBind_apply] at hL ⊢
      have hin := recreateSwapchain_inRange ctx env s
      rcases hrc : recreateSwapchain ctx env s with ⟨r, s2⟩
      rw [hrc] at hL hin
      cases r with
      | error e =>
        have he : e ≠ .outOfRange := fun h => hin (by rw [h])
        simp only [ne_eq, Except.error.injEq]
        exact he
      | ok b => exact ih s2 L rest (hs.shaped_recreate hrc) hL hr
    | render fuel =>
      simp only [runAll, mBind_apply] at hL ⊢
      rcases hrc : render ctx env fuel s with ⟨r, s2⟩
      rw [hrc] at hL
      cases r with
      | error e =>
        have := render_inRange ctx env fuel s L rest hs (by rw [hrc]; exact hL) hr
        rw [hrc] at this
        exact this
      | ok u =>
        exact ih s2 L rest (render_preserves ctx env Shaped
          (fun _ _ k _ _ hs hl hnr => hs.shaped_frame k hl hnr)
          (fun _ _ _ hs hret => hs.shaped_recreate hret) fuel s s2 hs hrc) hL hr

/-- C28: invariant of the recreate/render state machine. In every state reached from the
initial one by returning calls of `recreateSwapchain` and `render` in which `swapchain` is
not null, with `n` the image count of that swapchain (the number of images the last
`vkGetSwapchainImagesKHR`, made on it, reported): `submissionNr` < 2 =
`submissionFences.size()` = `imageReadySs.size()` and `commandBuffers.size()` =
`renderDoneSs.size()` = `framebuffers.size()` = `n`; hence `submissionFences[submissionNr]`
and `imageReadySs[submissionNr]` exist and so do `commandBuffers[i]`, `renderDoneSs[i]` and
`framebuffers[i]` for every `i` < `n`. And no run of such calls from the initial state,
whether it returns or throws, accesses a vector out of bounds in `render` or in the
recording loop, provided every successful acquire of the run returned an index below the
image count of the swapchain it was called on. -/
theorem vector_accesses_in_bounds (ctx : Ctx) (env : Env) (ops : List Op) :
    (∀ s, runAll ctx env ops State.initial = (.ok (), s) →
      s.vars.swapchain ≠ VK_NULL_HANDLE →
      ∃ n, enumerated s.world.trace = some (s.vars.swapchain, n)
        ∧ s.vars.submissionNr < 2
        ∧ s.vars.submissionFences.length = 2 ∧ s.vars.imageReadySs.length = 2
        ∧ s.vars.commandBuffers.length = n ∧ s.vars.renderDoneSs.length = n
        ∧ s.vars.framebuffers.length = n
        ∧ (∃ f, s.vars.submissionFences[s.vars.submissionNr]? = some f)
        ∧ (∃ sem, s.vars.imageReadySs[s.vars.submissionNr]? = some sem)
        ∧ ∀ i : Nat, i < n → (∃ cb, s.vars.commandBuffers[i]? = some cb)
            ∧ (∃ rd, s.vars.renderDoneSs[i]? = some rd)
            ∧ (∃ fb, s.vars.framebuffers[i]? = some fb))
    ∧ (acquiresInRange none (runAll ctx env ops State.initial).2.world.trace = true →
        (runAll ctx env ops State.initial).1 ≠ .error .outOfRange) := by
  refine ⟨fun s hs hsw => ?_, fun hr => ?_⟩
  · obtain ⟨n, hen, hz⟩ := (runAll_shaped ctx env ops s hs).live hsw
    exact ⟨n, hen, hz.submissionNr, hz.submissionFences, hz.imageReadySs, hz.commandBuffers,
      hz.renderDoneSs, hz.framebuffers, hz.lookups.1, hz.lookups.2.1, hz.lookups.2.2⟩
  · exact runAll_inRange ctx env ops State.initial _ [] shaped_initial
      (List.append_nil _).symm hr

/-- The invariant of C28 at the state after the start-up `recreateSwapchain` and one frame in
the sample environment, and the absence of an out-of-range access in that run, whose one
acquire returns an index below the image count. -/
theorem vector_accesses_in_bounds_witness :
    (∃ n, enumerated sampleFrame.world.trace = some (sampleFrame.vars.swapchain, n)
        ∧ sampleFrame.vars.submissionNr < 2
        ∧ sampleFrame.vars.submissionFences.length = 2
        ∧ sampleFrame.vars.imageReadySs.length = 2
        ∧ sampleFrame.vars.commandBuffers.length = n
        ∧ sampleFrame.vars.renderDoneSs.length = n
        ∧ sampleFrame.vars.framebuffers.length = n
        ∧ (∃ f, sampleFrame.vars.submissionFences[sampleFrame.vars.submissionNr]? = some f)
        ∧ (∃ sem, sampleFrame.vars.imageReadySs[sampleFrame.vars.submissionNr]? = some sem)
        ∧ ∀ i : Nat, i < n → (∃ cb, sampleFrame.vars.commandBuffers[i]? = some cb)
            ∧ (∃ rd, sampleFrame.vars.renderDoneSs[i]? = some rd)
            ∧ (∃ fb, sampleFrame.vars.framebuffers[i]? = some fb))
    ∧ acquiresInRange none
        (runAll sampleCtx sampleEnv [.recreateSwapchain, .render 1] State.initial).2.world.trace
        = true
    ∧ (runAll sampleCtx sampleEnv [.recreateSwapchain, .render 1] State.initial).1
        ≠ .error .outOfRange :=
  ⟨(vector_accesses_in_bounds sampleCtx sampleEnv [.recreateSwapchain, .render 1]).1
      sampleFrame (by decide!) (by decide!),
    by decide!,
    (vector_accesses_in_bounds sampleCtx sampleEnv [.recreateSwapchain, .render 1]).2
      (by decide!)⟩


/-! ### Termination of the retry of `render` -/

theorem transients_append (a b : List Event) :
    transients (a ++ b) = transients a + transients b := by
  simp [transients]

theorem renders_append (a b : List Event) : renders (a ++ b) = renders a + renders b := by
  simp [renders]

theorem Event.lifecycle_not_tryCall {e : Event} (h : e.isLifecycle = true) :
    e.tryCall = false := by
  cases e <;> simp [Event.isLifecycle] at h <;> rfl

theorem Event.lifecycle_not_render {e : Event} (h : e.isLifecycle = true) :
    e ≠ .enter .render := by
  intro he; subst he; simp [Event.isLifecycle] at h

theorem transients_lifecycle {l : List Event} (h : ∀ e ∈ l, Event.isLifecycle e = true) :
    transients l = 0 := by
  unfold transients
  rw [List.countP_eq_zero]
  intro e he
  simp [Event.transient, Event.lifecycle_not_tryCall (h e he)]

theorem renders_lifecycle {l : List Event} (h : ∀ e ∈ l, Event.isLifecycle e = true) :
    renders l = 0 := by
  unfold renders
  rw [List.count_eq_zero]
  intro he
  exact Event.lifecycle_not_render (h _ he) rfl

theorem Event.transient_reported {e : Event} {result : VkResult}
    (hr : e.reported = some result) (h : e.transient = true) :
    result = VK_SUBOPTIMAL_KHR ∨ result = VK_ERROR_OUT_OF_DATE_KHR := by
  simp only [Event.transient, hr, Bool.and_eq_true, isTransient, Bool.or_eq_true,
    decide_eq_true_eq] at h
  exact h.2

/-- A pass through the `try` block that completes made five successful calls. -/
theorem Attempt.success {ctx : Ctx} {env : Env} {v : Vars} {w : World} {flag : Bool}
    {s1 : State} (h : Attempt ctx env v w flag (.ok ()) s1) :
    ∃ la, s1.world.trace = w.trace ++ la ∧ transients la = 0 ∧ renders la = 0
      ∧ recreations la = 0 := by
  cases h with
  | done f sem cb rd hf h0 h1 hs h2 hc hd h3 h4 =>
    exact ⟨_, rfl, by
      simp [transients, Event.transient, Event.tryCall, Event.reported, isTransient,
        VK_SUCCESS, VK_SUBOPTIMAL_KHR, VK_ERROR_OUT_OF_DATE_KHR],
      by simp [renders], by simp [recreations]⟩

/-- A pass through the `try` block that ends with a `VulkanResultException`: the calls made
before the failing one succeeded. -/
theorem Attempt.failure {ctx : Ctx} {env : Env} {v : Vars} {w : World} {flag : Bool}
    {source : Api} {result : VkResult} {s1 : State}
    (h : Attempt ctx env v w flag (.error (.vulkanResult source result)) s1) :
    ∃ la e, s1.world.trace = w.trace ++ (la ++ [e]) ∧ e.reported = some result
      ∧ result ≠ VK_SUCCESS ∧ transients la = 0 ∧ renders (la ++ [e]) = 0
      ∧ recreations (la ++ [e]) = 0 := by
  cases h with
  | waitFailed f hf h0 =>
    exact ⟨[], _, rfl, rfl, h0, rfl, by simp [renders], by simp [recreations]⟩
  | resetFailed f hf h0 h1 =>
    exact ⟨[_], _, rfl, rfl, h1, by simp [transients, Event.transient, Event.tryCall],
      by simp [renders], by simp [recreations]⟩
  | acquireFailed f sem hf h0 h1 hs h2 =>
    exact ⟨[_, _], _, rfl, rfl, h2, by simp [transients, Event.transient, Event.tryCall],
      by simp [renders], by simp [recreations]⟩
  | submitFailed f sem cb rd hf h0 h1 hs h2 hc hd h3 =>
    exact ⟨[_, _, _], _, rfl, rfl, h3, by
      simp [transients, Event.transient, Event.tryCall, Event.reported, isTransient,
        VK_SUCCESS, VK_SUBOPTIMAL_KHR, VK_ERROR_OUT_OF_DATE_KHR],
      by simp [renders], by simp [recreations]⟩
  | presentFailed f sem cb rd hf h0 h1 hs h2 hc hd h3 h4 =>
    exact ⟨[_, _, _, _], _, rfl, rfl, h4, by
      simp [transients, Event.transient, Event.tryCall, Event.reported, isTransient,
        VK_SUCCESS, VK_SUBOPTIMAL_KHR, VK_ERROR_OUT_OF_DATE_KHR],
      by simp [renders], by simp [recreations]⟩

theorem Event.transient_tryCall {e : Event} (h : e.transient = true) : e.tryCall = true := by
  simp only [Event.transient, Bool.and_eq_true] at h
  exact h.1

theorem Event.failed_of_reported {e : Event} {result : VkResult}
    (hr : e.reported = some result) (h : result ≠ VK_SUCCESS) : e.failed = true := by
  simp [Event.failed, hr, h]

theorem lifecycle_counts {lr : List Event} (hlife : ∀ e ∈ lr, Event.isLifecycle e = true) :
    renders (Event.enter Fn.recreateSwapchain :: lr) = 0
      ∧ recreations (Event.enter Fn.recreateSwapchain :: lr) = 1
      ∧ transients (Event.enter Fn.recreateSwapchain :: lr) = 0 := by
  refine ⟨?_, ?_, ?_⟩
  · have := renders_lifecycle hlife
    simp only [renders] at this ⊢
    rw [List.count_cons, this]
    simp
  · have := recreations_lifecycle hlife
    simp only [recreations] at this ⊢
    rw [List.count_cons, this]
    simp
  · unfold transients
    rw [List.countP_eq_zero]
    intro e he
    rcases List.mem_cons.mp he with h | h
    · subst h; simp [Event.transient, Event.tryCall]
    · simp [Event.transient, Event.lifecycle_not_tryCall (hlife e h)]

theorem cleanupTrace_forall (P : Event → Prop) (ctx : Ctx) (v : Vars)
    (h1 : P (.vkDeviceWaitIdle VK_SUCCESS)) (h2 : ∀ x, P (.vkDestroyFence x))
    (h3 : ∀ x, P (.vkDestroySemaphore x))
    (h4 : P (.vkResetCommandPool ctx.commandPool VK_SUCCESS))
    (h5 : ∀ x, P (.vkDestroyPipeline x)) (h6 : ∀ x, P (.vkDestroyFramebuffer x))
    (h7 : ∀ x, P (.vkDestroyImageView x)) : ∀ e ∈ cleanupTrace ctx v, P e := by
  intro e he
  simp [cleanupTrace] at he
  rcases he with h | ⟨x, _, h⟩ | ⟨x, _, h⟩ | h | h | ⟨x, _, h⟩ | ⟨x, _, h⟩ <;> subst h
  · exact h1
  · exact h2 _
  · exact h3 _
  · exact h4
  · exact h5 _
  · exact h6 _
  · exact h7 _

/-- Every call of a `recreateSwapchain` that returned `true` reported success. -/
theorem Recreated.none_failed {ctx : Ctx} {env : Env} {v : Vars} {w : World} {v1 : Vars}
    {w1 : World} {n : Nat} (h : Recreated ctx env v w v1 w1 n) (l : List Event)
    (hl : w1.trace = w.trace ++ l) : ∀ e ∈ l, e.failed = false := by
  obtain ⟨info, _, _, _, ht⟩ := h.added_trace
  have := List.append_cancel_left (hl.symm.trans ht)
  subst this
  intro e he
  simp only [List.mem_append, List.mem_cons, List.mem_singleton, List.not_mem_nil,
    or_false, List.mem_map] at he
  rcases he with ((((((((((he | he) | he) | he) | he) | he) | he) | he) | he) | he) | he) | he
  · rcases he with h | h <;> subst h <;> rfl
  · split at he
    · exact cleanupTrace_forall (fun e => e.failed = false) ctx v rfl (fun _ => rfl)
        (fun _ => rfl) rfl (fun _ => rfl) (fun _ => rfl) (fun _ => rfl) e he
    · simp at he
  · rcases he with h | h | h <;> subst h <;> rfl
  · exact viewTrace_forall (fun e => e.failed = false) _ _ _ (fun _ _ => rfl) e he
  · exact framebufferTrace_forall (fun e => e.failed = false) _ _ _ _ (fun _ _ => rfl) e he
  · subst he; rfl
  · exact acquireTrace_forall (fun e => e.failed = false) ctx _ _ _ (fun _ _ => rfl)
      (fun _ => rfl) e he
  · refine recordAll_forall (fun e => e.failed = false) ctx _ _ (fun cb fb e he => ?_) _ _ e he
    simp only [recordTrace, List.mem_cons, List.mem_singleton, List.not_mem_nil,
      or_false] at he
    rcases he with h | h | h | h | h | h | h | h <;> subst h <;> rfl
  · obtain ⟨x, _, h⟩ := he; subst h; rfl
  · obtain ⟨x, _, h⟩ := he; subst h; rfl
  · obtain ⟨x, _, h⟩ := he; subst h; rfl
  · split at he
    · exact killTrace_forall (fun e => e.failed = false) v (fun _ => rfl) (fun _ => rfl) e he
    · simp at he

/-- The handler of `render` after the drain: `recreateSwapchain` and the frame again, when
the frame again is known to settle. -/
theorem retry_settles (ctx : Ctx) (env : Env) (hc : ∀ t, creatableAt env t = true)
    (hg : ∀ t t', createGuards ctx env (snapshotAt env t) t') (fuel : Nat)
    (ih : ∀ (s : State) (l : List Event), Shaped s → s.vars.swapchain ≠ VK_NULL_HANDLE →
      (render ctx env fuel s).2.world.trace = s.world.trace ++ l →
      (∀ e ∈ l, e.failed = true → e.transient = true) →
      acquiresInRange none (s.world.trace ++ l) = true → transients l < fuel →
      (render ctx env fuel s).1 = .ok () ∧ renders l = transients l + 1
        ∧ recreations l = transients l)
    (v : Vars) (w3 : World) (m : List Event) (h3 : Shaped ⟨v, w3⟩)
    (hrun : ((recreateSwapchain ctx env >>= fun _ => render ctx env fuel)
      ⟨v, w3⟩).2.world.trace = w3.trace ++ m)
    (hfail : ∀ e ∈ m, e.failed = true → e.transient = true)
    (hidx : acquiresInRange none (w3.trace ++ m) = true) (hk : transients m < fuel) :
    ((recreateSwapchain ctx env >>= fun _ => render ctx env fuel) ⟨v, w3⟩).1 = .ok ()
      ∧ renders m = transients m + 1 ∧ recreations m = transients m + 1 := by
  obtain ⟨⟨lr, hlr, hlife⟩, _, _⟩ := recreateSwapchain_trace ctx env ⟨v, w3⟩
  have hquiet : ∀ e ∈ Event.enter Fn.recreateSwapchain :: lr, e.tryCall = false := by
    intro e he
    rcases List.mem_cons.mp he with h | h
    · subst h; rfl
    · exact Event.lifecycle_not_tryCall (hlife e h)
  have hlive : (∀ e ∈ Event.enter Fn.recreateSwapchain :: lr, e ∈ m) →
      (recreateSwapchain ctx env ⟨v, w3⟩).1 = .ok true := by
    intro hsub
    have hw := recreateSwapchain_settled ctx env ⟨v, w3⟩ _ hlr (by
      intro e he r hr
      by_contra hne
      have := Event.transient_tryCall (hfail e (hsub e he) (Event.failed_of_reported hr hne))
      rw [hquiet e he] at this
      cases this)
    exact (recreateSwapchain_of_within ctx env v w3 hw).2.1 (hc _) (hg _ _)
  rw [mBind_apply] at hrun ⊢
  rcases hrc : recreateSwapchain ctx env ⟨v, w3⟩ with ⟨r3, s3⟩
  rw [hrc] at hrun hlr hlive
  simp only at hrun hlr hlive ⊢
  cases r3 with
  | error e3 =>
    simp only at hrun
    have hm : m = Event.enter Fn.recreateSwapchain :: lr :=
      List.append_cancel_left (hrun.symm.trans hlr)
    have := hlive (by rw [hm]; exact fun e he => he)
    cases this
  | ok b =>
    simp only at hrun
    obtain ⟨m2, hm2⟩ := render_trace ctx env fuel s3
    have hm : m = (Event.enter Fn.recreateSwapchain :: lr) ++ m2 := by
      apply @List.append_cancel_left _ w3.trace _ _
      rw [← hrun, hm2, hlr, List.append_assoc]
    have hb : b = true := by
      have := hlive (by rw [hm]; exact fun e he => List.mem_append_left _ he)
      exact Except.ok.inj this
    subst hb
    obtain ⟨n, hrec⟩ := recreateSwapchain_true_exact ctx env v w3 s3 hrc
    have hsw3 := (hrec.sized h3.bounded).1
    obtain ⟨hr0, hc1, ht0⟩ := lifecycle_counts hlife
    have htm : transients m = transients m2 := by rw [hm, transients_append, ht0, Nat.zero_add]
    obtain ⟨i1, i2, i3⟩ := ih s3 m2 (h3.shaped_recreate hrc) hsw3 hm2
      (fun e he => hfail e (by rw [hm]; exact List.mem_append_right _ he))
      (by
        have : s3.world.trace ++ m2 = w3.trace ++ m := by
          rw [hlr, hm, List.append_assoc]
        rw [this]; exact hidx)
      (by rw [← htm]; exact hk)
    have e1 : renders m = 0 + renders m2 := by rw [hm, renders_append, hr0]
    have e2 : recreations m = 1 + recreations m2 := by rw [hm, recreations_append, hc1]
    exact ⟨i1, by omega, by omega⟩

/-- When every failing call of the run is one of the transient results of the acquire,
submit and present of the `try` block, fewer of them than the recursion budget, the
surface is creatable and passes the program's checks whenever it is queried, and every
acquire returns an index below the image count, `render` returns, having been entered once
more than it met transient results and having called `recreateSwapchain` once per transient
result. -/
theorem render_settles (ctx : Ctx) (env : Env) (hc : ∀ t, creatableAt env t = true)
    (hg : ∀ t t', createGuards ctx env (snapshotAt env t) t') (fuel : Nat) :
    ∀ (s : State) (l : List Event), Shaped s → s.vars.swapchain ≠ VK_NULL_HANDLE →
      (render ctx env fuel s).2.world.trace = s.world.trace ++ l →
      (∀ e ∈ l, e.failed = true → e.transient = true) →
      acquiresInRange none (s.world.trace ++ l) = true → transients l < fuel →
      (render ctx env fuel s).1 = .ok () ∧ renders l = transients l + 1
        ∧ recreations l = transients l := by
  induction fuel with
  | zero => intro s l _ _ _ _ _ h; omega
  | succ fuel ih =>
    intro s l hs hsw hl hfail hidx hk
    rcases s with ⟨v, w⟩
    have hsw' : ¬ v.swapchain = VK_NULL_HANDLE := hsw
    rw [render_succ, if_neg hsw'] at hl ⊢
    obtain ⟨n, hen, hz⟩ := hs.live hsw
    have hE : Shaped ⟨v, w.after 0 [.enter .render]⟩ :=
      hs.same 0 (by simp [Event.isLifecycle])
    have hen0 : enumerated (w.after 0 [.enter .render]).trace = some (v.swapchain, n) := by
      show enumerated (w.trace ++ [.enter .render]) = _
      rw [enumerated_append_quiet _ _ (by simp [Event.enumerates])]
      exact hen
    have hA := renderTry_attempt ctx env v (w.after 0 [.enter .render])
    rcases hrt : renderTry ctx env ⟨v, w.after 0 [.enter .render]⟩ with ⟨flag, r, s2⟩
    rw [hrt] at hA hl
    simp only at hA hl ⊢
    obtain ⟨k, la0, hw2, hla0⟩ := hA.after
    cases r with
    | ok u =>
      simp only at hl ⊢
      obtain ⟨la, hla, c1, c2, c3⟩ := hA.success
      have hm : l = Event.enter Fn.render :: la := by
        apply @List.append_cancel_left _ w.trace _ _
        rw [← hl, hla]
        show w.trace ++ [Event.enter Fn.render] ++ la = _
        simp
      have hr1 : renders (Event.enter Fn.render :: la) = 1 := by
        simp only [renders] at c2 ⊢
        rw [List.count_cons, c2]; simp
      have hc0 : recreations (Event.enter Fn.render :: la) = 0 := by
        simp only [recreations] at c3 ⊢
        rw [List.count_cons, c3]; simp
      have ht0 : transients (Event.enter Fn.render :: la) = 0 := by
        simp only [transients] at c1 ⊢
        rw [List.countP_cons, c1]; simp [Event.transient, Event.tryCall]
      rw [hm, hr1, hc0, ht0]
      exact ⟨trivial, rfl, rfl⟩
    | error e =>
      have hv := hA.vars_eq
      rcases s2 with ⟨v2, w2⟩
      simp only at hv hw2
      subst hv
      cases e with
      | vulkanResult source result =>
        simp only at hl ⊢
        obtain ⟨la, e, hla, he1, he2, c1, c2, c3⟩ := hA.failure
        simp only at hla
        obtain ⟨lc, hlc, _⟩ := renderCatch_trace ctx env (render_trace ctx env fuel) flag source
          result ⟨v2, w2⟩
        have hm : l = Event.enter Fn.render :: (la ++ [e]) ++ lc := by
          apply @List.append_cancel_left _ w.trace _ _
          rw [← hl, hlc]
          simp only
          rw [hla]
          show w.trace ++ [Event.enter Fn.render] ++ (la ++ [e]) ++ lc = _
          simp
        have hte : e.transient = true :=
          hfail e (by rw [hm]; simp) (Event.failed_of_reported he1 he2)
        have htr := Event.transient_reported he1 hte
        have hh2 : Shaped ⟨v2, w2⟩ := by rw [hw2]; exact hE.same k hla0
        have hhead : transients (Event.enter Fn.render :: (la ++ [e])) = 1
            ∧ renders (Event.enter Fn.render :: (la ++ [e])) = 1
            ∧ recreations (Event.enter Fn.render :: (la ++ [e])) = 0 := by
          refine ⟨?_, ?_, ?_⟩
          · have : transients (la ++ [e]) = 1 := by
              rw [transients_append, c1]
              simp [transients, hte]
            simp only [transients] at this ⊢
            rw [List.countP_cons, this]; simp [Event.transient, Event.tryCall]
          · simp only [renders] at c2 ⊢
            rw [List.count_cons, c2]; simp
          · simp only [recreations] at c3 ⊢
            rw [List.count_cons, c3]; simp
        obtain ⟨t1, r1, c1'⟩ := hhead
        rw [renderCatch_transient ctx env _ flag source htr] at hl ⊢
        have hretry : ∀ (w3 : World) (ld m : List Event), Shaped ⟨v2, w3⟩ →
            w3.trace = w2.trace ++ ld → transients ld = 0 → renders ld = 0 →
            recreations ld = 0 →
            ((recreateSwapchain ctx env >>= fun _ => render ctx env fuel)
              ⟨v2, w3⟩).2.world.trace = w.trace ++ l →
            ((recreateSwapchain ctx env >>= fun _ => render ctx env fuel) ⟨v2, w3⟩).1
              = .ok () ∧ renders l = transients l + 1 ∧ recreations l = transients l := by
          intro w3 ld m h3 hw3 d1 d2 d3 hrun
          obtain ⟨m3, hm3⟩ : ∃ m3, ((recreateSwapchain ctx env >>= fun _ =>
              render ctx env fuel) ⟨v2, w3⟩).2.world.trace = w3.trace ++ m3 := by
            rw [mBind_apply]
            obtain ⟨⟨lr, hlr, _⟩, _, _⟩ := recreateSwapchain_trace ctx env ⟨v2, w3⟩
            rcases hrc : recreateSwapchain ctx env ⟨v2, w3⟩ with ⟨r3, s3⟩
            rw [hrc] at hlr
            cases r3 with
            | error e3 => exact ⟨_, hlr⟩
            | ok b =>
              obtain ⟨m2, hm2⟩ := render_trace ctx env fuel s3
              exact ⟨(Event.enter Fn.recreateSwapchain :: lr) ++ m2, by
                simp only; rw [hm2, hlr, List.append_assoc]⟩
          have hl3 : l = Event.enter Fn.render :: (la ++ [e]) ++ ld ++ m3 := by
            apply @List.append_cancel_left _ w.trace _ _
            rw [← hrun, hm3, hw3, hla]
            show w.trace ++ [Event.enter Fn.render] ++ (la ++ [e]) ++ ld ++ m3 = _
            simp
          have hcount : transients l = 1 + transients m3 ∧ renders l = 1 + renders m3
              ∧ recreations l = recreations m3 := by
            rw [hl3]
            refine ⟨?_, ?_, ?_⟩
            · rw [transients_append, transients_append, t1, d1]
            · rw [renders_append, renders_append, r1, d2]
            · rw [recreations_append, recreations_append, c1', d3]; omega
          obtain ⟨j1, j2, j3⟩ := retry_settles ctx env hc hg fuel ih v2 w3 m3 h3 hm3
            (fun x hx => hfail x (by rw [hl3]; exact List.mem_append_right _ hx))
            (by
              have : w3.trace ++ m3 = w.trace ++ l := by rw [← hm3, hrun]
              rw [this]; exact hidx)
            (by omega)
          exact ⟨j1, by omega, by omega⟩
        by_cases hcd : flag = true ∧ result = VK_SUBOPTIMAL_KHR
        · rw [if_pos hcd] at hl ⊢
          obtain ⟨sem, hsem⟩ := hz.lookups.2.1
          rw [hsem] at hl ⊢
          simp only at hl ⊢
          by_cases h0 : env.result w2.tick = VK_SUCCESS
          · rw [if_pos h0] at hl ⊢
            exact hretry _ [.enter .cleanupUnsafeSemaphore,
                .vkQueueSubmit ctx.graphicsQueue [sem] VK_PIPELINE_STAGE_BOTTOM_OF_PIPE_BIT [] []
                  VK_NULL_HANDLE VK_SUCCESS] [] (hh2.same 1 (by
                intro e he
                simp only [List.mem_cons, List.mem_singleton, List.not_mem_nil,
                  or_false] at he
                rcases he with h | h <;> subst h <;> rfl)) rfl
              (by simp [transients, Event.transient, Event.tryCall])
              (by simp [renders]) (by simp [recreations]) hl
          · rw [if_neg h0] at hl
            simp only at hl
            exfalso
            have hin : Event.vkQueueSubmit ctx.graphicsQueue [sem]
                VK_PIPELINE_STAGE_BOTTOM_OF_PIPE_BIT [] [] VK_NULL_HANDLE (env.result w2.tick)
                ∈ l := by
              have : l = Event.enter Fn.render :: (la ++ [e])
                  ++ [.enter .cleanupUnsafeSemaphore,
                    .vkQueueSubmit ctx.graphicsQueue [sem] VK_PIPELINE_STAGE_BOTTOM_OF_PIPE_BIT
                      [] [] VK_NULL_HANDLE (env.result w2.tick)] := by
                apply @List.append_cancel_left _ w.trace _ _
                rw [← hl]
                show w2.trace ++ _ = _
                rw [hla]
                show w.trace ++ [Event.enter Fn.render] ++ (la ++ [e]) ++ _ = _
                simp
              rw [this]; simp
            have := Event.transient_tryCall (hfail _ hin (Event.failed_of_reported rfl h0))
            cases this
        · rw [if_neg hcd] at hl ⊢
          exact hretry w2 [] [] hh2 (List.append_nil _).symm rfl rfl rfl hl
      | outOfRange =>
        exfalso
        simp only at hl
        exact @Attempt.inRange _ _ _ _ _ _ _ _ [] hA hz hen0
          (by rw [List.append_nil]; exact hl.symm) hidx
      | text msg => cases hA
      | assertion => cases hA
      | fuel => cases hA


theorem Env.withResult_self (env : Env) (r : Nat → VkResult) :
    (env.withResult r).withResult env.result = env := by
  cases env; rfl

/-- With the calls made before position `T` succeeding, a creatable surface and the
program's own checks passing, `recreateSwapchain` returns `true` when a creation all of
whose calls succeed ends by `T`, whatever the calls from `T` on report. -/
theorem recreateSwapchain_live_within (ctx : Ctx) (env : Env) (v : Vars) (w : World) (T : Nat)
    (hT : env.SucceedsWithin w.tick T) (hc : creatableAt env w.tick = true)
    (hg : createGuards ctx env (snapshotAt env w.tick) (createTick v w))
    (hend : createTick v w + 2 + 1 + toUInt32 (env.imageCount (createTick v w + 2))
      + toUInt32 (env.imageCount (createTick v w + 2)) + 1
      + acquireTicks v.commandBuffers (toUInt32 (env.imageCount (createTick v w + 2)))
      + 2 * toUInt32 (env.imageCount (createTick v w + 2)) + maxInflightSubmissions
      + toUInt32 (env.imageCount (createTick v w + 2)) + maxInflightSubmissions ≤ T) :
    ∃ s1 n, recreateSwapchain ctx env ⟨v, w⟩ = (.ok true, s1)
      ∧ Recreated ctx env v w s1.vars s1.world n := by
  have h1 : (env.withResult (env.successAfter T)).SucceedsFrom w.tick := by
    intro k hk
    show env.successAfter T k = VK_SUCCESS
    unfold Env.successAfter
    split
    · exact hT k hk ‹_›
    · rfl
  obtain ⟨v1, w1, n, e, hr⟩ := recreateSwapchain_live_exact ctx v h1 hc hg
  obtain ⟨vc, wc, wb, q1, q2, q3, q4, q5, q6, q7, q8⟩ := hr.assembled
  have hn : n = toUInt32 (env.imageCount (createTick v w + 2)) := by
    rw [q5.count_eq, q2]
  have htick : w1.tick ≤ T := by
    rw [q6, q5.tick, q2, q1, hn]
    exact hend
  have hsame := (@recreateSwapchain_same T ctx (env.withResult (env.successAfter T))
    env.result (fun k hk => by
      show env.result k = env.successAfter T k
      unfold Env.successAfter
      rw [if_pos hk]) ⟨v, w⟩).2 (by rw [e]; exact htick)
  rw [Env.withResult_self, e] at hsame
  exact ⟨⟨v1, w1⟩, n, hsame, hc, hg, fun k hk1 hk2 => hT k hk1 (Nat.lt_of_lt_of_le hk2 htick),
    vc, wc, wb, q1, q2, q3, q4, q5.withResult _, q6, q7, q8⟩

theorem Recreated.tick_eq {ctx : Ctx} {env : Env} {v : Vars} {w : World} {v1 : Vars}
    {w1 : World} {n : Nat} (h : Recreated ctx env v w v1 w1 n) :
    n = toUInt32 (env.imageCount (createTick v w + 2))
      ∧ w1.tick = createTick v w + 2 + 1 + n + n + 1 + acquireTicks v.commandBuffers n + 2 * n
          + maxInflightSubmissions + n + maxInflightSubmissions := by
  obtain ⟨vc, wc, wb, q1, q2, q3, q4, q5, q6, q7, q8⟩ := h.assembled
  exact ⟨by rw [q5.count_eq, q2], by rw [q6, q5.tick, q2, q1]⟩

theorem retryEnv_success (d k : Nat)
    (h : ¬ (27 ≤ k ∧ (k - 27) % 29 = 0 ∧ (k - 27) / 29 < d)) :
    (retryEnv d).result k = VK_SUCCESS := if_neg h

theorem retryEnv_outOfDate (d k : Nat) (h : 27 ≤ k ∧ (k - 27) % 29 = 0 ∧ (k - 27) / 29 < d) :
    (retryEnv d).result k = VK_ERROR_OUT_OF_DATE_KHR := if_pos h

theorem retryEnv_guards (d t t' : Nat) :
    creatableAt (retryEnv d) t = true
      ∧ createGuards sampleCtx (retryEnv d) (snapshotAt (retryEnv d) t) t' :=
  ⟨rfl, (by decide : createGuards sampleCtx sampleEnv (snapshotAt sampleEnv 0) 0)⟩

theorem acquiresInRange_quiet (l : List Event)
    (h : ∀ e ∈ l, ∀ swapchain semaphore imageIndex,
      e ≠ .vkAcquireNextImageKHR swapchain semaphore VK_SUCCESS imageIndex) :
    ∀ current, acquiresInRange current l = true := by
  induction l with
  | nil => intro _; rfl
  | cons x xs ih =>
    intro current
    simp only [acquiresInRange, Bool.and_eq_true]
    refine ⟨?_, ih (fun e he => h e (List.mem_cons_of_mem _ he)) _⟩
    cases x with
    | vkAcquireNextImageKHR swapchain semaphore result imageIndex =>
      by_cases hr : result = VK_SUCCESS
      · subst hr
        exact absurd rfl (h _ (List.mem_cons_self _ _) swapchain semaphore imageIndex)
      · simp [hr]
    | _ => rfl

theorem acquiresInRange_lifecycle {lr : List Event}
    (hlife : ∀ e ∈ lr, Event.isLifecycle e = true) (current : Option (Handle × Nat)) :
    acquiresInRange current (Event.enter Fn.recreateSwapchain :: lr) = true := by
  apply acquiresInRange_quiet
  intro e he sc sem idx heq
  rcases List.mem_cons.mp he with h | h
  · rw [h] at heq; cases heq
  · have := hlife e h
    rw [heq] at this
    cases this

/-- In `retryEnv d` the frame started after `j` of the `d` failing acquires still meets
`m` = `d - j` of them: `render` runs out of a recursion budget of at most `m` and returns
with a larger one, having been entered `m + 1` times. -/
theorem retry_chain (d : Nat) (m : Nat) : ∀ (j fuel : Nat) (v : Vars) (w : World),
    j + m = d → Shaped ⟨v, w⟩ → v.swapchain ≠ VK_NULL_HANDLE → w.tick = 25 + 29 * j →
    v.commandBuffers.length = 3 →
    (fuel ≤ m → (render sampleCtx (retryEnv d) fuel ⟨v, w⟩).1 = .error .fuel)
    ∧ (m < fuel → ∃ l, (render sampleCtx (retryEnv d) fuel ⟨v, w⟩).2.world.trace = w.trace ++ l
        ∧ (render sampleCtx (retryEnv d) fuel ⟨v, w⟩).1 = .ok ()
        ∧ renders l = m + 1 ∧ recreations l = m ∧ transients l = m
        ∧ (∀ e ∈ l, e.failed = true → e.transient = true)
        ∧ (acquiresInRange none w.trace = true →
            acquiresInRange none (w.trace ++ l) = true)) := by
  induction m with
  | zero =>
    intro j fuel v w hj hs hsw ht hcb
    refine ⟨fun hf => ?_, fun hf => ?_⟩
    · have : fuel = 0 := by omega
      subst this; rfl
    · obtain ⟨fuel, rfl⟩ : ∃ f, fuel = f + 1 := ⟨fuel - 1, by omega⟩
      obtain ⟨n, hen, hz⟩ := hs.live hsw
      have hn : n = 3 := by rw [← hz.commandBuffers]; exact hcb
      subst hn
      obtain ⟨⟨f, hf1⟩, ⟨sem, hs1⟩, hi⟩ := hz.lookups
      obtain ⟨⟨cb, hc1⟩, ⟨rd, hd1⟩, _⟩ := hi 1 (by decide)
      have hsucc : ∀ k, w.tick ≤ k → (retryEnv d).result k = VK_SUCCESS := by
        intro k hk
        apply retryEnv_success
        omega
      have hsw' : ¬ v.swapchain = VK_NULL_HANDLE := hsw
      rw [render_succ, if_neg hsw']
      rw [renderTry_acquired sampleCtx (retryEnv d) v (w.after 0 [.enter .render]) hf1 hs1 hc1
        hd1 (hsucc _ (Nat.le_refl _)) (hsucc _ (by show w.tick ≤ w.tick + 0 + 1; omega))
        (hsucc _ (by show w.tick ≤ w.tick + 0 + 2; omega)),
        if_pos (hsucc _ (by show w.tick ≤ w.tick + 0 + 3; omega)),
        if_pos (hsucc _ (by show w.tick ≤ w.tick + 0 + 4; omega))]
      refine ⟨_, by simp only [World.after]; rw [List.append_assoc], rfl, ?_, ?_, ?_, ?_, ?_⟩
      · simp [renders]
      · simp [recreations]
      · simp [transients, Event.transient, Event.tryCall, Event.reported, isTransient,
          VK_SUCCESS, VK_SUBOPTIMAL_KHR, VK_ERROR_OUT_OF_DATE_KHR]
      · intro e he
        simp only [List.mem_append, List.mem_cons, List.mem_singleton, List.not_mem_nil,
          or_false] at he
        rcases he with h | h | h | h | h | h <;> subst h <;> simp [Event.failed, Event.reported]
      · intro hin
        rw [acquiresInRange_append, hin, Bool.true_and]
        have he' : w.trace.foldl enumeratedStep none = some (v.swapchain, 3) := hen
        rw [he']
        simp [acquiresInRange, enumeratedStep, Event.enumerates, acquiredIndex, retryEnv,
          sampleEnv, toUInt32]
  | succ m ih =>
    intro j fuel v w hj hs hsw ht hcb
    cases fuel with
    | zero => exact ⟨fun _ => rfl, fun h => by omega⟩
    | succ fuel =>
      obtain ⟨n, hen, hz⟩ := hs.live hsw
      have hn : n = 3 := by rw [← hz.commandBuffers]; exact hcb
      subst hn
      obtain ⟨⟨f, hf1⟩, ⟨sem, hs1⟩, hi⟩ := hz.lookups
      have hw0 : (w.after 0 [.enter .render]).tick = w.tick := rfl
      have h0 : (retryEnv d).result (w.after 0 [.enter .render]).tick = VK_SUCCESS := by
        apply retryEnv_success
        rw [hw0]
        omega
      have h1 : (retryEnv d).result ((w.after 0 [.enter .render]).tick + 1) = VK_SUCCESS := by
        apply retryEnv_success
        rw [hw0]
        omega
      have h2 : (retryEnv d).result ((w.after 0 [.enter .render]).tick + 2)
          = VK_ERROR_OUT_OF_DATE_KHR := by
        apply retryEnv_outOfDate
        rw [hw0]
        omega
      have hsw' : ¬ v.swapchain = VK_NULL_HANDLE := hsw
      have hrun : render sampleCtx (retryEnv d) (fuel + 1) ⟨v, w⟩
          = (recreateSwapchain sampleCtx (retryEnv d) >>= fun _ =>
              render sampleCtx (retryEnv d) fuel)
            ⟨v, (w.after 0 [.enter .render]).after 3 [.vkWaitForFences f VK_SUCCESS,
              .vkResetFences f VK_SUCCESS,
              .vkAcquireNextImageKHR v.swapchain sem VK_ERROR_OUT_OF_DATE_KHR
                (acquiredIndex (retryEnv d) (w.after 0 [.enter .render]))]⟩ := by
        rw [render_succ, if_neg hsw', renderTry_acquireFailed sampleCtx (retryEnv d) v
          (w.after 0 [.enter .render]) hf1 hs1 h0 h1 (by rw [h2]; decide), h2]
        simp only
        rw [renderCatch_transient sampleCtx (retryEnv d) _ true _ (Or.inr rfl),
          if_neg (by decide)]
      obtain ⟨w2, hw2⟩ : ∃ w2 : World, w2 = (w.after 0 [.enter .render]).after 3
          [.vkWaitForFences f VK_SUCCESS, .vkResetFences f VK_SUCCESS,
            .vkAcquireNextImageKHR v.swapchain sem VK_ERROR_OUT_OF_DATE_KHR
              (acquiredIndex (retryEnv d) (w.after 0 [.enter .render]))] := ⟨_, rfl⟩
      rw [← hw2] at hrun
      have hw2t : w2.tick = w.tick + 3 := by rw [hw2]; rfl
      have hw2r : w2.trace = w.trace ++ [.enter .render, .vkWaitForFences f VK_SUCCESS,
          .vkResetFences f VK_SUCCESS,
          .vkAcquireNextImageKHR v.swapchain sem VK_ERROR_OUT_OF_DATE_KHR
            (acquiredIndex (retryEnv d) (w.after 0 [.enter .render]))] := by
        rw [hw2]; simp [World.after]
      have hs2 : Shaped ⟨v, w2⟩ := by
        rw [hw2]
        exact (hs.same 0 (by simp [Event.isLifecycle])).same 3 (by
          intro e he
          simp only [List.mem_cons, List.mem_singleton, List.not_mem_nil, or_false] at he
          rcases he with h | h | h <;> subst h <;> rfl)
      have hct : createTick v w2 = w.tick + 6 := by
        simp [createTick, hsw', hw2t]
      have hat : acquireTicks v.commandBuffers 3 = 0 := by
        simp [acquireTicks, hcb, toUInt32]
      obtain ⟨s3, n3, hrc, hrec⟩ := recreateSwapchain_live_within sampleCtx (retryEnv d) v w2
        (w.tick + 29)
        (by
          intro k hk1 hk2
          apply retryEnv_success
          rw [hw2t] at hk1
          omega)
        (retryEnv_guards d _ 0).1 (retryEnv_guards d _ _).2
        (by
          rw [hct]
          show w.tick + 6 + 2 + 1 + 3 + 3 + 1 + acquireTicks v.commandBuffers 3 + 2 * 3 + 2 + 3 + 2
            ≤ w.tick + 29
          rw [hat])
      obtain ⟨hn3, htick3⟩ := hrec.tick_eq
      have hn3' : n3 = 3 := hn3
      subst hn3'
      rw [hct, hat] at htick3
      obtain ⟨hsw3, _, hz3⟩ := hrec.sized hs.bounded
      obtain ⟨⟨lr, hlr, hlife⟩, _, _⟩ := recreateSwapchain_trace sampleCtx (retryEnv d) ⟨v, w2⟩
      rw [hrc] at hlr
      simp only at hlr
      have hrun2 : render sampleCtx (retryEnv d) (fuel + 1) ⟨v, w⟩
          = render sampleCtx (retryEnv d) fuel s3 := by
        rw [hrun, mBind_apply, hrc]
      obtain ⟨i1, i2⟩ := ih (j + 1) fuel s3.vars s3.world (by omega) (hs2.shaped_recreate hrc) hsw3
        (by rw [htick3, ht]; show _ = 25 + 29 * (j + 1); simp only [maxInflightSubmissions]; omega)
        hz3.commandBuffers
      rw [hrun2]
      refine ⟨fun hf => i1 (by omega), fun hf => ?_⟩
      obtain ⟨l2, k1, k2, k3, k4, k5, k6, k7⟩ := i2 (by omega)
      refine ⟨[.enter .render, .vkWaitForFences f VK_SUCCESS, .vkResetFences f VK_SUCCESS,
          .vkAcquireNextImageKHR v.swapchain sem VK_ERROR_OUT_OF_DATE_KHR
            (acquiredIndex (retryEnv d) (w.after 0 [.enter .render]))]
          ++ (Event.enter Fn.recreateSwapchain :: lr) ++ l2, ?_, k2, ?_, ?_, ?_, ?_, ?_⟩
      rotate_left 5
      · intro hin
        have h3 : acquiresInRange none s3.world.trace = true := by
          rw [hlr, hw2r, acquiresInRange_append, acquiresInRange_append, hin, Bool.true_and,
            acquiresInRange_lifecycle hlife, Bool.and_true]
          apply acquiresInRange_quiet
          intro e he sc sm idx heq
          simp only [List.mem_cons, List.mem_singleton, List.not_mem_nil, or_false] at he
          rcases he with h | h | h | h <;> rw [h] at heq <;> cases heq
        have := k7 h3
        rw [hlr, hw2r] at this
        simp only [List.append_assoc] at this ⊢
        exact this
      · show (render sampleCtx (retryEnv d) fuel ⟨s3.vars, s3.world⟩).2.world.trace = _
        rw [k1, hlr, hw2r]
        simp only [List.append_assoc]
      · rw [renders_append, renders_append, k3, (lifecycle_counts hlife).1]
        simp [renders]
        omega
      · rw [recreations_append, recreations_append, k4, (lifecycle_counts hlife).2.1]
        simp [recreations]
        omega
      · rw [transients_append, transients_append, k5, (lifecycle_counts hlife).2.2]
        simp [transients, Event.transient, Event.tryCall, Event.reported, isTransient,
          VK_SUCCESS, VK_SUBOPTIMAL_KHR, VK_ERROR_OUT_OF_DATE_KHR]
        omega
      · intro e he
        simp only [List.mem_append, List.mem_cons, List.mem_singleton, List.not_mem_nil,
          or_false] at he
        rcases he with ((h | h | h | h) | h | h) | h
        · subst h; simp [Event.failed, Event.reported]
        · subst h; simp [Event.failed, Event.reported]
        · subst h; simp [Event.failed, Event.reported]
        · subst h
          intro _
          simp [Event.transient, Event.tryCall, Event.reported, isTransient]
        · subst h; simp [Event.failed, Event.reported]
        · intro hfl
          rw [hrec.none_failed _ hlr e (List.mem_cons_of_mem _ h)] at hfl
          cases hfl
        · exact k6 e h

/-- The start-up `recreateSwapchain` in `retryEnv d`: it returns, leaving a live swapchain of
three images at position 25 of the dialogue, with no acquire in the trace. -/
theorem retryEnv_startup (d : Nat) :
    ∃ s : State, runAll sampleCtx (retryEnv d) [.recreateSwapchain] State.initial = (.ok (), s)
      ∧ Shaped s ∧ s.vars.swapchain ≠ VK_NULL_HANDLE ∧ s.world.tick = 25
      ∧ s.vars.commandBuffers.length = 3
      ∧ acquiresInRange none s.world.trace = true := by
  obtain ⟨s1, n, hrc, hrec⟩ := recreateSwapchain_live_within sampleCtx (retryEnv d)
    Vars.initial World.initial 25
    (by
      intro k _ hk
      apply retryEnv_success
      omega)
    (retryEnv_guards d _ 0).1 (retryEnv_guards d _ _).2
    (by decide : (25 : Nat) ≤ 25)
  have hrc' : recreateSwapchain sampleCtx (retryEnv d) State.initial = (.ok true, s1) := hrc
  obtain ⟨hn, htick⟩ := hrec.tick_eq
  have hn' : n = 3 := hn
  subst hn'
  obtain ⟨hsw, _, hz⟩ := hrec.sized (by decide)
  obtain ⟨⟨lr, hlr, hlife⟩, _, _⟩ :=
    recreateSwapchain_trace sampleCtx (retryEnv d) State.initial
  rw [hrc'] at hlr
  simp only at hlr
  refine ⟨s1, ?_, shaped_initial.shaped_recreate hrc', hsw, htick, hz.commandBuffers, ?_⟩
  · simp only [runAll, mBind_apply, hrc', mPure_apply]
  · rw [hlr, acquiresInRange_append, acquiresInRange_lifecycle hlife]
    rfl

/-- C29: the retry recursion of `render()` ends when the transient results are finitely
many, and its depth is bounded by nothing else. The recursion budget `fuel` of the model
caps the number of nested invocations. First part, for every context and environment: take
a state reached from the initial one by exception-free `recreateSwapchain` and `render`
calls whose swapchain is live, and a top-level `render` run in it with budget `fuel`,
adding the entries `l` to the trace. Suppose the surface is creatable and passes the
program's checks whenever it is queried (every `recreateSwapchain` yields a live
swapchain), every call recorded in `l` that reports a result other than `VK_SUCCESS` is
the acquire, the frame submit or the present of a `try` block reporting
`VK_SUBOPTIMAL_KHR` or `VK_ERROR_OUT_OF_DATE_KHR` (no other call fails; the submit that
drains a semaphore in the handler counts as another call), every acquire returns an index
below the image count, and at most `k < fuel` of those calls report a transient result.
Then `render` returns, having been entered at most `k + 1` times, and `recreateSwapchain`
has been called exactly once per transient result, which is one less than the number of
invocations. Second part: for every `d` there is such a run, in `retryEnv d` after the
start-up `recreateSwapchain`, that meets these conditions with exactly `d` transient
results, returns with budget `d + 1` after `d + 1` invocations and `d`
`recreateSwapchain` calls, and does not return within `d` nested invocations. -/
theorem render_retry_terminates (ctx : Ctx) (env : Env) :
    (∀ (ops : List Op) (s : State) (fuel k : Nat) (l : List Event),
      runAll ctx env ops State.initial = (.ok (), s) →
      s.vars.swapchain ≠ VK_NULL_HANDLE →
      (∀ t, creatableAt env t = true) →
      (∀ t t', createGuards ctx env (snapshotAt env t) t') →
      (render ctx env fuel s).2.world.trace = s.world.trace ++ l →
      (∀ e ∈ l, e.failed = true → e.transient = true) →
      acquiresInRange none (s.world.trace ++ l) = true →
      transients l ≤ k → k < fuel →
      (render ctx env fuel s).1 = .ok () ∧ renders l ≤ k + 1
        ∧ recreations l = transients l ∧ renders l = recreations l + 1)
    ∧ (∀ d : Nat, ∃ (s : State) (l : List Event),
        runAll sampleCtx (retryEnv d) [.recreateSwapchain] State.initial = (.ok (), s)
        ∧ s.vars.swapchain ≠ VK_NULL_HANDLE
        ∧ (∀ t, creatableAt (retryEnv d) t = true)
        ∧ (∀ t t', createGuards sampleCtx (retryEnv d) (snapshotAt (retryEnv d) t) t')
        ∧ (render sampleCtx (retryEnv d) (d + 1) s).2.world.trace = s.world.trace ++ l
        ∧ (∀ e ∈ l, e.failed = true → e.transient = true)
        ∧ acquiresInRange none (s.world.trace ++ l) = true
        ∧ transients l = d
        ∧ (render sampleCtx (retryEnv d) (d + 1) s).1 = .ok ()
        ∧ renders l = d + 1 ∧ recreations l = d
        ∧ (render sampleCtx (retryEnv d) d s).1 = .error .fuel) := by
  refine ⟨?_, ?_⟩
  · intro ops s fuel k l hrun hsw hc hg hl hfail hidx hk hfuel
    obtain ⟨h1, h2, h3⟩ := render_settles ctx env hc hg fuel s l
      (runAll_shaped ctx env ops s hrun) hsw hl hfail hidx (by omega)
    exact ⟨h1, by omega, h3, by omega⟩
  · intro d
    obtain ⟨s, hrun, hs, hsw, htick, hcb, hin⟩ := retryEnv_startup d
    obtain ⟨hstop, hgo⟩ := retry_chain d d 0 (d + 1) s.vars s.world (by omega) hs hsw
      (by rw [htick]) hcb
    obtain ⟨hstop', _⟩ := retry_chain d d 0 d s.vars s.world (by omega) hs hsw
      (by rw [htick]) hcb
    obtain ⟨l, k1, k2, k3, k4, k5, k6, k7⟩ := hgo (by omega)
    exact ⟨s, l, hrun, hsw, fun t => (retryEnv_guards d t 0).1,
      fun t t' => (retryEnv_guards d t t').2, k1, k6, k7 hin, k5, k2, k3, k4,
      hstop' (Nat.le_refl d)⟩

/-- The first part of C29 at the first frame in `retryEnv 1`, whose first acquire reports
`VK_ERROR_OUT_OF_DATE_KHR`: with one transient result and a budget of two invocations
`render` returns after two invocations and one `recreateSwapchain`. -/
theorem render_retry_terminates_witness :
    transients (addedTrace (render sampleCtx (retryEnv 1) 2) retryStart) = 1
    ∧ (render sampleCtx (retryEnv 1) 2 retryStart).1 = .ok ()
    ∧ renders (addedTrace (render sampleCtx (retryEnv 1) 2) retryStart) ≤ 1 + 1
    ∧ recreations (addedTrace (render sampleCtx (retryEnv 1) 2) retryStart)
        = transients (addedTrace (render sampleCtx (retryEnv 1) 2) retryStart)
    ∧ renders (addedTrace (render sampleCtx (retryEnv 1) 2) retryStart)
        = recreations (addedTrace (render sampleCtx (retryEnv 1) 2) retryStart) + 1 :=
  ⟨by decide!,
    (render_retry_terminates sampleCtx (retryEnv 1)).1 [.recreateSwapchain] retryStart 2 1
      (addedTrace (render sampleCtx (retryEnv 1) 2) retryStart)
      (by decide!) (by decide!) (fun t => (retryEnv_guards 1 t 0).1)
      (fun t t' => (retryEnv_guards 1 t t').2) (by decide!) (by decide!) (by decide!)
      (by decide!) (by decide!)⟩

end VulkanExperiments
